import Mathlib

/-!
# genericlisp: a shallow embedding of the interpreter core

Every Lisp value is one machine word (`lisp_object_t`): the low four bits are
the tag, the rest is the payload.  Words are natural numbers; where the width
of the word matters (the fixnum and character encodings) the arithmetic is
reduced modulo `2 ^ 64` (or `2 ^ 32` on a 32-bit host) explicitly.

The heap is the bump allocator of `lisp_memory.c`: `lisp_heap_cur` only grows,
every allocation is rounded to sixteen bytes, and the record stored at an
address is kept as a typed record rather than as raw bytes.  The heap size is
taken large enough that the collector (which only exits) is never entered.

Loops and recursion of the C code are rendered with a fuel argument; running
out of fuel is the error `lisp_error.out_of_fuel`, distinct from
`lisp_error.fault`, which stands for behaviour the C code leaves undefined
(a store through a pointer that is no cell, a call through a pointer that is
no `SUBR`, a failed `assert`, a division by zero).
-/

/-- A tagged word, `lisp_object_t` of `lisp_types.h`. -/
abbrev lisp_object_t := Nat

/-- Ways in which a run of the model does not produce a value. -/
inductive lisp_error
  | out_of_fuel
  | fault
  deriving DecidableEq, Repr

/-- Results of the loops and of the operations that can fault. -/
abbrev Run := Except lisp_error

/-! ## Tags (`lisp_types.h`, `lisp_types.c`) -/

def lisp_tag_cell : Nat := 0x0
def lisp_tag_atom : Nat := 0x1
def lisp_tag_fixnum : Nat := 0x2
def lisp_tag_struct : Nat := 0x3
def lisp_tag_vector : Nat := 0x4
def lisp_tag_char : Nat := 0x5
def lisp_tag_string : Nat := 0x6
def lisp_tag_stream : Nat := 0x7
def lisp_tag_subr : Nat := 0x8
def lisp_tag_interior : Nat := 0xF

/-- The mask to get a tag. -/
def LISP_TAG_MASK : Nat := 0xF

/-- Read `rawobj & LISP_TAG_MASK`. -/
def lisp_object_get_tag (object : lisp_object_t) : Nat :=
  object &&& LISP_TAG_MASK

/-- Read `rawobj & ~LISP_TAG_MASK`: the word with its four tag bits cleared. -/
def lisp_object_get_raw_value (object : lisp_object_t) : Nat :=
  object - (object &&& LISP_TAG_MASK)

/-! ## Heap records and the allocator (`lisp_memory.c`) -/

/-- The typed contents of one heap allocation. -/
inductive lisp_record
  /-- `struct lisp_cell`. -/
  | cell (car cdr : lisp_object_t)
  /-- The bytes of an atom name; the terminating NUL is implicit. -/
  | atom (name : List Nat)
  /-- `struct lisp_string`. -/
  | string (chars : lisp_object_t) (capacity length : Nat)
  /-- `struct lisp_vector`; `values` is the address of the value array. -/
  | vector (values : Nat) (capacity count : Nat)
  /-- `struct lisp_stream`. -/
  | stream (functions : lisp_object_t) (flags : Nat)
  /-- `struct lisp_subr`; `function` identifies the C function. -/
  | subr (function : Nat) (name : lisp_object_t)
  /-- `struct lisp_struct`. -/
  | struct (value size type : Nat)
  /-- An interior buffer holding an array of words (string characters,
  vector values); slots never written read as zero. -/
  | interior (slots : List lisp_object_t)
  /-- `struct lisp_stream_functions`; `backend` identifies the set of six
  callables. -/
  | stream_functions (metadata : lisp_object_t) (backend : Nat)
  /-- `struct tests_charbuf_stream_metadata` of `tests_support.c`. -/
  | charbuf (buf : List Nat) (r_pos w_pos len max : Nat)
      (is_open is_readable is_writable : Bool)
  /-- The `FILE *` of a stdio stream, or the pair of a terminal stream. -/
  | stdio (input output : Nat)
  deriving DecidableEq

/-- The state of one C `FILE`: what is still to be read, what was written
(latest byte first) and the end-of-file indicator. -/
structure stdio_FILE where
  pending : List Nat
  written : List Nat
  at_eof : Bool

/-- The Lisp heap: `lisp_heap_cur`, the records allocated so far, and the two
standard C files the built-in streams use. -/
structure lisp_heap where
  lisp_heap_cur : Nat
  records : Nat → Option lisp_record
  stdin : stdio_FILE
  stdout : stdio_FILE

def heap_read (h : lisp_heap) (address : Nat) : Option lisp_record :=
  h.records address

def heap_write (h : lisp_heap) (address : Nat) (r : lisp_record) : lisp_heap :=
  { h with records := fun a => if a = address then some r else h.records a }

/-- Round `value` up to the next multiple of `multiple` (`lisp_utilities.h`). -/
def lisp_round_to_next_multiple (value multiple : Nat) : Nat :=
  if value ≤ multiple then multiple else ((value / multiple) + 1) * multiple

/-- Initialise the heap at the address `calloc` returned. -/
def lisp_heap_initialize (raw_heap : Nat) : lisp_heap :=
  { lisp_heap_cur := raw_heap
    records := fun _ => none
    stdin := ⟨[], [], false⟩
    stdout := ⟨[], [], false⟩ }

/-- Allocate `size` bytes tagged `tag` and store `contents` there (the C
callers fill the record in right after the allocation).  Returns the tagged
object. -/
def lisp_object_allocate (h : lisp_heap) (tag size : Nat) (contents : lisp_record) :
    lisp_object_t × lisp_heap :=
  let alloc_size := lisp_round_to_next_multiple size 16
  let lisp_heap_cur_value := h.lisp_heap_cur
  let new_heap_value := lisp_heap_cur_value + alloc_size
  let object_value := lisp_heap_cur_value ||| tag
  (object_value,
   { heap_write h lisp_heap_cur_value contents with lisp_heap_cur := new_heap_value })

/-! ## Fixnums (`lisp_fixnum.c`) -/

/-- Width of `uintptr_t`: 64 bits under `__LP64__`, otherwise 32. -/
def word_bits (lp64 : Bool) : Nat := if lp64 then 64 else 32

/-- Convert a signed `intptr_t` to the word holding it. -/
def word_of_int (lp64 : Bool) (value : Int) : Nat :=
  (value % (2 ^ word_bits lp64 : Int)).toNat

/-- Convert a word to the signed `intptr_t` it holds. -/
def int_of_word (lp64 : Bool) (w : Nat) : Int :=
  if w % 2 ^ word_bits lp64 < 2 ^ (word_bits lp64 - 1)
  then ((w % 2 ^ word_bits lp64 : Nat) : Int)
  else ((w % 2 ^ word_bits lp64 : Nat) : Int) - (2 ^ word_bits lp64 : Int)

def lisp_fixnum_highbit_mask (lp64 : Bool) : Nat :=
  if lp64 then 0x8000000000000000 else 0x80000000

def lisp_fixnum_negative_mask (lp64 : Bool) : Nat :=
  if lp64 then 0xF800000000000000 else 0xF8000000

def lisp_fixnum_no_mask : Nat := 0

/-- Apply `x & ~lisp_fixnum_highbit_mask` on a word. -/
def clear_highbit (lp64 : Bool) (x : Nat) : Nat :=
  x - (x &&& lisp_fixnum_highbit_mask lp64)

def lisp_fixnum_create (lp64 : Bool) (value : Int) : lisp_object_t :=
  let fixnum_unshifted := word_of_int lp64 value
  let fixnum_highbit := fixnum_unshifted &&& lisp_fixnum_highbit_mask lp64
  let fixnum_shifted := (clear_highbit lp64 fixnum_unshifted <<< 4) % 2 ^ word_bits lp64
  let fixnum_mixed :=
    (if fixnum_highbit ≠ 0 then lisp_fixnum_highbit_mask lp64 else lisp_fixnum_no_mask)
      ||| fixnum_shifted ||| lisp_tag_fixnum
  fixnum_mixed

def lisp_fixnum_get_value (lp64 : Bool) (object : lisp_object_t) : Int :=
  let raw_value := lisp_object_get_raw_value object
  let fixnum_unshifted := raw_value
  let fixnum_highbit := fixnum_unshifted &&& lisp_fixnum_highbit_mask lp64
  let fixnum_shifted := clear_highbit lp64 fixnum_unshifted >>> 4
  let fixnum_mixed :=
    (if fixnum_highbit ≠ 0 then lisp_fixnum_negative_mask lp64 else lisp_fixnum_no_mask)
      ||| fixnum_shifted
  int_of_word lp64 fixnum_mixed

/-- Smallest representable fixnum, `-2^(BITS-(TAG+SIGN))`. -/
def lisp_fixnum_min (lp64 : Bool) : Int := -(2 ^ (word_bits lp64 - 5) : Int)

/-- Largest representable fixnum, `2^(BITS-(TAG+SIGN))-1`. -/
def lisp_fixnum_max (lp64 : Bool) : Int := (2 ^ (word_bits lp64 - 5) : Int) - 1

/-! ## Well-known objects

The C code keeps these in global variables that `lisp_environment_create_root`
assigns; here they travel together as one record. -/

/-- The global variables of `lisp_environment.c` and `lisp_built_in_sforms.c`. -/
structure lisp_globals where
  lisp_T : lisp_object_t
  lisp_NIL : lisp_object_t
  lisp_TERMINAL_IO_atom : lisp_object_t
  lisp_STANDARD_INPUT : lisp_object_t
  lisp_STANDARD_OUTPUT : lisp_object_t
  lisp_PNAME : lisp_object_t
  lisp_EXPR : lisp_object_t
  lisp_SUBR : lisp_object_t
  lisp_APVAL : lisp_object_t
  lisp_SI_PARENT_ENVIRONMENT : lisp_object_t
  lisp_symbol_AND : lisp_object_t
  lisp_symbol_COND : lisp_object_t
  lisp_symbol_DEFINE : lisp_object_t
  lisp_symbol_DEFUN : lisp_object_t
  lisp_symbol_IF : lisp_object_t
  lisp_symbol_LAMBDA : lisp_object_t
  lisp_symbol_OR : lisp_object_t
  lisp_symbol_QUOTE : lisp_object_t
  lisp_symbol_SET : lisp_object_t
  lisp_symbol_SETQ : lisp_object_t
  lisp_symbol_BLOCK : lisp_object_t
  lisp_symbol_RETURN_FROM : lisp_object_t
  lisp_symbol_RETURN : lisp_object_t
  lisp_symbol_TAGBODY : lisp_object_t
  lisp_symbol_GO : lisp_object_t
  lisp_SI_TAGBODY_STACK : lisp_object_t
  lisp_SI_TAGBODY_CURRENT : lisp_object_t
  lisp_SI_TAGBODY_SEQEUENCE : lisp_object_t
  lisp_SI_TAGBODY_MAPPING : lisp_object_t
  lisp_SI_TAGBODY_NEXT : lisp_object_t
  lisp_SI_TAGBODY_START : lisp_object_t
  lisp_SI_TAGBODY_END : lisp_object_t
  /-- The table `lisp_special_form_mappings`: symbol and function. -/
  lisp_special_form_mappings : List (lisp_object_t × Nat)

/-! ## Type predicates and `eq` (`lisp_types.c`) -/

def lisp_object_has_tag (g : lisp_globals) (object : lisp_object_t) (matching_tag : Nat) :
    lisp_object_t :=
  if lisp_object_get_tag object = matching_tag then g.lisp_T else g.lisp_NIL

def lisp_cellp (g : lisp_globals) (object : lisp_object_t) : lisp_object_t :=
  lisp_object_has_tag g object lisp_tag_cell

def lisp_atomp (g : lisp_globals) (object : lisp_object_t) : lisp_object_t :=
  lisp_object_has_tag g object lisp_tag_atom

def lisp_fixnump (g : lisp_globals) (object : lisp_object_t) : lisp_object_t :=
  lisp_object_has_tag g object lisp_tag_fixnum

def lisp_structp (g : lisp_globals) (object : lisp_object_t) : lisp_object_t :=
  lisp_object_has_tag g object lisp_tag_struct

def lisp_vectorp (g : lisp_globals) (object : lisp_object_t) : lisp_object_t :=
  lisp_object_has_tag g object lisp_tag_vector

def lisp_charp (g : lisp_globals) (object : lisp_object_t) : lisp_object_t :=
  lisp_object_has_tag g object lisp_tag_char

def lisp_stringp (g : lisp_globals) (object : lisp_object_t) : lisp_object_t :=
  lisp_object_has_tag g object lisp_tag_string

def lisp_streamp (g : lisp_globals) (object : lisp_object_t) : lisp_object_t :=
  lisp_object_has_tag g object lisp_tag_stream

def lisp_subrp (g : lisp_globals) (object : lisp_object_t) : lisp_object_t :=
  lisp_object_has_tag g object lisp_tag_subr

def lisp_interiorp (g : lisp_globals) (object : lisp_object_t) : lisp_object_t :=
  lisp_object_has_tag g object lisp_tag_interior

def lisp_eq (g : lisp_globals) (a b : lisp_object_t) : lisp_object_t :=
  if a = b then g.lisp_T else g.lisp_NIL

/-! ## Cells (`lisp_cell.c`) -/

def lisp_cell_cons (h : lisp_heap) (car cdr : lisp_object_t) : lisp_object_t × lisp_heap :=
  lisp_object_allocate h lisp_tag_cell 16 (lisp_record.cell car cdr)

/-- Read the `struct lisp_cell` an object points to. -/
def lisp_cell_get_value (h : lisp_heap) (object : lisp_object_t) :
    Option (lisp_object_t × lisp_object_t) :=
  match heap_read h (lisp_object_get_raw_value object) with
  | some (lisp_record.cell car cdr) => some (car, cdr)
  | _ => none

def lisp_cell_car (g : lisp_globals) (h : lisp_heap) (cell : lisp_object_t) : lisp_object_t :=
  if cell = g.lisp_NIL then g.lisp_NIL
  else if lisp_cellp g cell = g.lisp_NIL then g.lisp_NIL
  else match lisp_cell_get_value h cell with
    | some cell_value => cell_value.1
    | none => 0

def lisp_cell_cdr (g : lisp_globals) (h : lisp_heap) (cell : lisp_object_t) : lisp_object_t :=
  if cell = g.lisp_NIL then g.lisp_NIL
  else if lisp_cellp g cell = g.lisp_NIL then g.lisp_NIL
  else match lisp_cell_get_value h cell with
    | some cell_value => cell_value.2
    | none => 0

/-- Store a new `car`; the C code does not look at the tag, so a pointer that
is no cell makes this a wild store. -/
def lisp_cell_rplaca (h : lisp_heap) (cell newcar : lisp_object_t) :
    Run (lisp_object_t × lisp_heap) :=
  match lisp_cell_get_value h cell with
  | some cell_value =>
    .ok (cell, heap_write h (lisp_object_get_raw_value cell)
                 (lisp_record.cell newcar cell_value.2))
  | none => .error lisp_error.fault

/-- Store a new `cdr`; see `lisp_cell_rplaca`. -/
def lisp_cell_rplacd (h : lisp_heap) (cell newcdr : lisp_object_t) :
    Run (lisp_object_t × lisp_heap) :=
  match lisp_cell_get_value h cell with
  | some cell_value =>
    .ok (cell, heap_write h (lisp_object_get_raw_value cell)
                 (lisp_record.cell cell_value.1 newcdr))
  | none => .error lisp_error.fault

/-- The loop of `lisp_cell_list` over the variable arguments after the first;
`rest` holds them in order, the terminating `lisp_NIL` included.  Reading past
the last argument is undefined in C. -/
def lisp_cell_list_loop (g : lisp_globals) :
    List lisp_object_t → lisp_heap → lisp_object_t → Run lisp_heap
  | [], _, _ => .error lisp_error.fault
  | list_cdr :: rest, h, list_cur =>
    if list_cdr = g.lisp_NIL then do
      let (_, h1) ← lisp_cell_rplacd h list_cur g.lisp_NIL
      pure h1
    else do
      let (new_cdr, h1) := lisp_cell_cons h list_cdr g.lisp_NIL
      let (_, h2) ← lisp_cell_rplacd h1 list_cur new_cdr
      lisp_cell_list_loop g rest h2 new_cdr

/-- Model `lisp_cell_list(car, ...)`: the arguments are terminated by `lisp_NIL`. -/
def lisp_cell_list (g : lisp_globals) (h : lisp_heap) (car : lisp_object_t)
    (rest : List lisp_object_t) : Run (lisp_object_t × lisp_heap) := do
  let (list, h1) := lisp_cell_cons h car g.lisp_NIL
  let h2 ← lisp_cell_list_loop g rest h1 list
  pure (list, h2)

/-! ## Characters (`lisp_string.h`, `lisp_string.c`) -/

def char_tab : Nat := 0x09
def char_newline : Nat := 0x0a
def char_return : Nat := 0x0d
def char_space : Nat := 0x20
def char_double_quote : Nat := 0x22
def char_octothorpe : Nat := 0x23
def char_single_quote : Nat := 0x27
def char_paren_open : Nat := 0x28
def char_paren_close : Nat := 0x29
def char_plus : Nat := 0x2b
def char_minus : Nat := 0x2d
def char_period : Nat := 0x2e
def char_0 : Nat := 0x30
def char_1 : Nat := 0x31
def char_2 : Nat := 0x32
def char_3 : Nat := 0x33
def char_4 : Nat := 0x34
def char_5 : Nat := 0x35
def char_6 : Nat := 0x36
def char_7 : Nat := 0x37
def char_8 : Nat := 0x38
def char_9 : Nat := 0x39
def char_semicolon : Nat := 0x3b
def char_less_than : Nat := 0x3c
def char_greater_than : Nat := 0x3e
def char_backslash : Nat := 0x5c

/-- The mask `lisp_char_value_mask` (the `__LP64__` value; the 32-bit value
is the same number). -/
def lisp_char_value_mask : Nat := 0x00000000FFFFFFF0

/-- Create a character; `char_value` is a `uintptr_t`. -/
def lisp_char_create (char_value : Nat) : lisp_object_t :=
  let char_unshifted := char_value
  let char_shifted := (char_unshifted <<< 4) % 2 ^ 64
  let char_masked := char_shifted &&& lisp_char_value_mask
  let char_mixed := char_masked ||| lisp_tag_char
  char_mixed

def lisp_char_get_value (object : lisp_object_t) : Nat :=
  let raw_value := lisp_object_get_raw_value object
  let char_unshifted := raw_value
  let char_masked := char_unshifted &&& lisp_char_value_mask
  let char_shifted := char_masked >>> 4
  char_shifted

def lisp_char_equal (g : lisp_globals) (a b : lisp_object_t) : lisp_object_t :=
  if a = b then g.lisp_T else g.lisp_NIL

/-- The conversion `(char) x`: the low eight bits, kept as a byte `0..255`. -/
def c_char_of_word (x : Nat) : Nat := x % 256

/-- The conversion `(lisp_char_t) ch` of a (signed) `char` held as a byte:
bytes from 128 up are negative and sign-extend to the full word. -/
def word_of_c_char (ch : Nat) : Nat :=
  if ch < 128 then ch else 2 ^ 64 - 256 + ch

/-- Model `strlen`-style reading of a C string: the bytes before the first NUL. -/
def c_string (bytes : List Nat) : List Nat :=
  bytes.takeWhile (fun b => b != 0)

/-- Model `isalpha(ch) && !isupper(ch)` then `toupper(ch)` in the C locale. -/
def c_upcase (ch : Nat) : Nat :=
  if 0x61 ≤ ch ∧ ch ≤ 0x7a then ch - 0x20 else ch

/-! ## Interior pointers (`lisp_interior.c`) -/

def lisp_interior_create (h : lisp_heap) (size : Nat) (contents : lisp_record) :
    lisp_object_t × lisp_heap :=
  lisp_object_allocate h lisp_tag_interior size contents

/-- The array of words behind an interior pointer. -/
def lisp_interior_get_value (h : lisp_heap) (object : lisp_object_t) : List lisp_object_t :=
  match heap_read h (lisp_object_get_raw_value object) with
  | some (lisp_record.interior slots) => slots
  | _ => []

def lisp_interior_equal (g : lisp_globals) (a b : lisp_object_t) : lisp_object_t :=
  if a = b then g.lisp_T else g.lisp_NIL

/-- Store `value` into slot `i` of a word array; unwritten slots are zero. -/
def slots_set (slots : List lisp_object_t) (i : Nat) (value : lisp_object_t) :
    List lisp_object_t :=
  if i < slots.length then slots.set i value
  else slots ++ List.replicate (i - slots.length) 0 ++ [value]

/-! ## Strings (`lisp_string.c`) -/

/-- The fields `chars`, `capacity`, `length` of a string object. -/
def lisp_string_get_value (h : lisp_heap) (object : lisp_object_t) :
    lisp_object_t × Nat × Nat :=
  match heap_read h (lisp_object_get_raw_value object) with
  | some (lisp_record.string chars capacity length) => (chars, capacity, length)
  | _ => (0, 0, 0)

def lisp_string_create (h : lisp_heap) (chars : lisp_object_t) (capacity length : Nat) :
    lisp_object_t × lisp_heap :=
  lisp_object_allocate h lisp_tag_string 24
    (lisp_record.string chars (if capacity > 0 then capacity else length) length)

def lisp_string_create_c (h : lisp_heap) (cstring : List Nat) : lisp_object_t × lisp_heap :=
  let length := (c_string cstring).length
  let capacity := lisp_round_to_next_multiple length 16
  let chars_buffer := (c_string cstring).map (fun ch => lisp_char_create (word_of_c_char ch))
  let (chars, h1) := lisp_interior_create h (8 * capacity) (lisp_record.interior chars_buffer)
  lisp_string_create h1 chars capacity length

def lisp_string_create_empty (h : lisp_heap) : lisp_object_t × lisp_heap :=
  let capacity := 16
  let (chars, h1) := lisp_interior_create h (8 * capacity) (lisp_record.interior [])
  lisp_string_create h1 chars capacity 0

/-- The first `length` characters of a string, as stored. -/
def lisp_string_chars (h : lisp_heap) (string : lisp_object_t) : List lisp_object_t :=
  let string_value := lisp_string_get_value h string
  let chars := lisp_interior_get_value h string_value.1
  (List.range string_value.2.2).map (fun i => chars.getD i 0)

def lisp_string_equal (g : lisp_globals) (h : lisp_heap) (a b : lisp_object_t) :
    lisp_object_t :=
  let a_value := lisp_string_get_value h a
  let b_value := lisp_string_get_value h b
  if a_value.2.2 ≠ b_value.2.2 then g.lisp_NIL
  else if lisp_string_chars h a = lisp_string_chars h b then g.lisp_T
  else g.lisp_NIL

def lisp_string_needs_reallocation (string_value : lisp_object_t × Nat × Nat) : Bool :=
  string_value.2.2 == string_value.2.1

/-- Model `lisp_string_reallocate`: a new buffer sixteen slots larger with the
old contents copied.  Returns the new `chars`, the new capacity and the heap. -/
def lisp_string_reallocate (h : lisp_heap) (string_value : lisp_object_t × Nat × Nat) :
    (lisp_object_t × Nat) × lisp_heap :=
  let old_capacity := string_value.2.1
  let old_chars_buffer := lisp_interior_get_value h string_value.1
  let new_capacity := old_capacity + 16
  let (new_chars, h1) := lisp_interior_create h (8 * new_capacity)
    (lisp_record.interior (old_chars_buffer.take old_capacity))
  ((new_chars, new_capacity), h1)

/-- Append a character in place.  The stores go through the string record
and its buffer; an object that is no string makes them wild. -/
def lisp_string_append_char (h : lisp_heap) (string ch : lisp_object_t) :
    Run (lisp_object_t × lisp_heap) :=
  match heap_read h (lisp_object_get_raw_value string) with
  | some (lisp_record.string chars0 capacity0 length) =>
    let ((chars, capacity), h1) :=
      if lisp_string_needs_reallocation (chars0, capacity0, length)
      then lisp_string_reallocate h (chars0, capacity0, length)
      else ((chars0, capacity0), h)
    match heap_read h1 (lisp_object_get_raw_value chars) with
    | some (lisp_record.interior slots) =>
      let h2 := heap_write h1 (lisp_object_get_raw_value chars)
        (lisp_record.interior (slots_set slots length ch))
      let h3 := heap_write h2 (lisp_object_get_raw_value string)
        (lisp_record.string chars capacity (length + 1))
      .ok (string, h3)
    | _ => .error lisp_error.fault
  | _ => .error lisp_error.fault

/-! ## Atoms (`lisp_atom.c`) -/

/-- The name bytes of an atom. -/
def lisp_atom_get_value (h : lisp_heap) (object : lisp_object_t) : List Nat :=
  match heap_read h (lisp_object_get_raw_value object) with
  | some (lisp_record.atom name) => name
  | _ => []

def lisp_atom_create (h : lisp_heap) (atom_name : lisp_object_t) : lisp_object_t × lisp_heap :=
  let atom_name_length := (lisp_string_get_value h atom_name).2.2
  let atom_name_size := atom_name_length + 1
  let atom_value := (lisp_string_chars h atom_name).map
    (fun char_object => c_upcase (c_char_of_word (lisp_char_get_value char_object)))
  lisp_object_allocate h lisp_tag_atom atom_name_size (lisp_record.atom atom_value)

def lisp_atom_create_c (h : lisp_heap) (atom_name : List Nat) : lisp_object_t × lisp_heap :=
  let atom_name_size := (c_string atom_name).length + 1
  let atom_value := (c_string atom_name).map c_upcase
  lisp_object_allocate h lisp_tag_atom atom_name_size (lisp_record.atom atom_value)

/-- Compare names with `strcmp`. -/
def lisp_atom_equal (g : lisp_globals) (h : lisp_heap) (a b : lisp_object_t) : lisp_object_t :=
  let atom_a := lisp_atom_get_value h a
  let atom_b := lisp_atom_get_value h b
  if c_string atom_a = c_string atom_b then g.lisp_T else g.lisp_NIL

/-! ## Other kinds (`lisp_stream.c`, `lisp_struct.c`, `lisp_subr.c`, `lisp_vector.c`) -/

def lisp_stream_equal (g : lisp_globals) (a b : lisp_object_t) : lisp_object_t :=
  if a = b then g.lisp_T else g.lisp_NIL

def lisp_struct_equal (g : lisp_globals) (_a _b : lisp_object_t) : lisp_object_t :=
  g.lisp_NIL

def lisp_fixnum_equal (g : lisp_globals) (a b : lisp_object_t) : lisp_object_t :=
  if a = b then g.lisp_T else g.lisp_NIL

/-- The fields `function`, `name` of a `SUBR`, when the object points to one. -/
def lisp_subr_get_value (h : lisp_heap) (object : lisp_object_t) : Option (Nat × lisp_object_t) :=
  match heap_read h (lisp_object_get_raw_value object) with
  | some (lisp_record.subr function name) => some (function, name)
  | _ => none

def lisp_subr_create (h : lisp_heap) (function : Nat) (name : lisp_object_t) :
    lisp_object_t × lisp_heap :=
  lisp_object_allocate h lisp_tag_subr 16 (lisp_record.subr function name)

/-- The fields `values`, `capacity`, `count` of a vector. -/
def lisp_vector_get_value (h : lisp_heap) (object : lisp_object_t) : Nat × Nat × Nat :=
  match heap_read h (lisp_object_get_raw_value object) with
  | some (lisp_record.vector values capacity count) => (values, capacity, count)
  | _ => (0, 0, 0)

/-- Element `i` of the array at address `values`. -/
def lisp_vector_value_at (h : lisp_heap) (values i : Nat) : lisp_object_t :=
  match heap_read h values with
  | some (lisp_record.interior slots) => slots.getD i 0
  | _ => 0

/-! ## `equal` (`lisp_types.c`) -/

/-- Model `lisp_equal` together with `lisp_cell_equal`, `lisp_subr_equal` and
`lisp_vector_equal`, which call it back. -/
def lisp_equal (g : lisp_globals) : Nat → lisp_heap → lisp_object_t → lisp_object_t →
    Run lisp_object_t
  | 0, _, _, _ => .error lisp_error.out_of_fuel
  | fuel + 1, h, a, b =>
    if lisp_eq g a b ≠ g.lisp_NIL then .ok g.lisp_T
    else
      let a_tag := lisp_object_get_tag a
      let b_tag := lisp_object_get_tag b
      if a_tag ≠ b_tag then .ok g.lisp_NIL
      else if a_tag = lisp_tag_cell then do
        -- lisp_cell_equal
        let car_equal ← lisp_equal g fuel h (lisp_cell_car g h a) (lisp_cell_car g h b)
        if car_equal ≠ g.lisp_NIL then do
          let cdr_equal ← lisp_equal g fuel h (lisp_cell_cdr g h a) (lisp_cell_cdr g h b)
          if cdr_equal ≠ g.lisp_NIL then pure g.lisp_T else pure g.lisp_NIL
        else pure g.lisp_NIL
      else if a_tag = lisp_tag_atom then .ok (lisp_atom_equal g h a b)
      else if a_tag = lisp_tag_char then .ok (lisp_char_equal g a b)
      else if a_tag = lisp_tag_fixnum then .ok (lisp_fixnum_equal g a b)
      else if a_tag = lisp_tag_stream then .ok (lisp_stream_equal g a b)
      else if a_tag = lisp_tag_struct then .ok (lisp_struct_equal g a b)
      else if a_tag = lisp_tag_vector then
        -- lisp_vector_equal
        let a_value := lisp_vector_get_value h a
        let b_value := lisp_vector_get_value h b
        if a_value.2.2 ≠ b_value.2.2 then .ok g.lisp_NIL
        else if a_value.1 = b_value.1 then .ok g.lisp_T
        else
          (List.range a_value.2.2).foldlM
            (fun (so_far : lisp_object_t) (i : Nat) =>
              if so_far = g.lisp_NIL then pure g.lisp_NIL
              else do
                let r ← lisp_equal g fuel h (lisp_vector_value_at h a_value.1 i)
                          (lisp_vector_value_at h b_value.1 i)
                if r = g.lisp_NIL then pure g.lisp_NIL else pure g.lisp_T)
            g.lisp_T
      else if a_tag = lisp_tag_string then .ok (lisp_string_equal g h a b)
      else if a_tag = lisp_tag_subr then
        -- lisp_subr_equal
        match lisp_subr_get_value h a, lisp_subr_get_value h b with
        | some a_value, some b_value =>
          if a_value.1 ≠ b_value.1 then .ok g.lisp_NIL
          else do
            let r ← lisp_equal g fuel h a_value.2 b_value.2
            if r = g.lisp_NIL then pure g.lisp_NIL else pure g.lisp_T
        | _, _ => .ok g.lisp_NIL
      else if a_tag = lisp_tag_interior then .ok (lisp_interior_equal g a b)
      else .ok g.lisp_NIL

/-! ## Property lists (`lisp_plist.c`) -/

/-- The loop of `lisp_plist_create` over the variable arguments after the
first; `rest` holds them in order, the terminating `NULL` (the word `0`)
included. -/
def lisp_plist_create_loop :
    lisp_globals → List lisp_object_t → lisp_heap → lisp_object_t → Run lisp_heap
  | _, [], _, _ => .error lisp_error.fault
  | g, next_entry :: rest, h, plist_cur =>
    if next_entry ≠ 0 then do
      let (next_cell, h1) := lisp_cell_cons h next_entry g.lisp_NIL
      let (_, h2) ← lisp_cell_rplacd h1 plist_cur next_cell
      lisp_plist_create_loop g rest h2 next_cell
    else pure h

/-- Model `lisp_plist_create(entry, ...)`: the arguments are terminated by `NULL`. -/
def lisp_plist_create (g : lisp_globals) (h : lisp_heap) (entry : lisp_object_t)
    (rest : List lisp_object_t) : Run (lisp_object_t × lisp_heap) := do
  let (plist, h1) := lisp_cell_cons h entry g.lisp_NIL
  let h2 ← lisp_plist_create_loop g rest h1 plist
  pure (plist, h2)

/-- Model `lisp_plist_find_entry`: returns `found` and `*entry`. -/
def lisp_plist_find_entry (g : lisp_globals) :
    Nat → lisp_heap → lisp_object_t → lisp_object_t → Run (Bool × lisp_object_t)
  | 0, _, _, _ => .error lisp_error.out_of_fuel
  | fuel + 1, h, plist_cur, symbol => do
    let check_cell := lisp_cell_car g h plist_cur
    let potential_symbol := lisp_cell_car g h check_cell
    let same ← lisp_equal g fuel h symbol potential_symbol
    if same ≠ g.lisp_NIL then pure (true, check_cell)
    else
      let next_cell := lisp_cell_cdr g h plist_cur
      if next_cell ≠ g.lisp_NIL then lisp_plist_find_entry g fuel h next_cell symbol
      else pure (false, plist_cur)

def lisp_plist_get (g : lisp_globals) (fuel : Nat) (h : lisp_heap)
    (plist symbol : lisp_object_t) : Run lisp_object_t := do
  let (found, found_entry) ← lisp_plist_find_entry g fuel h plist symbol
  if found then pure (lisp_cell_cdr g h found_entry) else pure g.lisp_NIL

def lisp_plist_set (g : lisp_globals) (fuel : Nat) (h : lisp_heap)
    (plist symbol value : lisp_object_t) : Run (lisp_object_t × lisp_heap) := do
  let (found, found_entry) ← lisp_plist_find_entry g fuel h plist symbol
  if found then do
    let (_, h1) ← lisp_cell_rplacd h found_entry value
    pure (value, h1)
  else do
    let (new_pair, h1) := lisp_cell_cons h symbol value
    let (new_entry, h2) := lisp_cell_cons h1 new_pair g.lisp_NIL
    let (_, h3) ← lisp_cell_rplacd h2 found_entry new_entry
    pure (value, h3)

def lisp_plist_remprop (g : lisp_globals) (fuel : Nat) (h : lisp_heap)
    (plist symbol : lisp_object_t) : Run (lisp_object_t × lisp_heap) := do
  let (_, h1) ← lisp_plist_set g fuel h plist symbol g.lisp_NIL
  pure (g.lisp_NIL, h1)

/-! ## Environments (`lisp_environment.c`) -/

def lisp_environment_create (g : lisp_globals) (h : lisp_heap) (parent : lisp_object_t) :
    Run (lisp_object_t × lisp_heap) := do
  let (parent_apval_cell, h1) := lisp_cell_cons h g.lisp_APVAL parent
  let (parent_plist, h2) ← lisp_plist_create g h1 parent_apval_cell [0]
  let (parent_cell, h3) := lisp_cell_cons h2 g.lisp_SI_PARENT_ENVIRONMENT parent_plist
  let (environment, h4) ← lisp_plist_create g h3 parent_cell [0]
  pure (environment, h4)

def lisp_environment_parent (g : lisp_globals) (fuel : Nat) (h : lisp_heap)
    (environment : lisp_object_t) : Run lisp_object_t := do
  let parent_plist ← lisp_plist_get g fuel h environment g.lisp_SI_PARENT_ENVIRONMENT
  if parent_plist = g.lisp_NIL then pure g.lisp_NIL
  else lisp_plist_get g fuel h parent_plist g.lisp_APVAL

def lisp_environment_find_symbol (g : lisp_globals) :
    Nat → lisp_heap → lisp_object_t → lisp_object_t → lisp_object_t → Run lisp_object_t
  | 0, _, _, _, _ => .error lisp_error.out_of_fuel
  | fuel + 1, h, environment, symbol, recursive => do
    let (found, entry) ← lisp_plist_find_entry g fuel h environment symbol
    if found then pure entry
    else if recursive = g.lisp_NIL then pure g.lisp_NIL
    else do
      let parent_environment ← lisp_environment_parent g fuel h environment
      if parent_environment = g.lisp_NIL then pure g.lisp_NIL
      else lisp_environment_find_symbol g fuel h parent_environment symbol recursive

def lisp_environment_get_symbol_value (g : lisp_globals) (fuel : Nat) (h : lisp_heap)
    (environment symbol type recursive : lisp_object_t) : Run lisp_object_t := do
  let found_symbol ← lisp_environment_find_symbol g fuel h environment symbol recursive
  if found_symbol = g.lisp_NIL then pure g.lisp_NIL
  else
    let plist := lisp_cell_cdr g h found_symbol
    lisp_plist_get g fuel h plist type

def lisp_environment_set_symbol_value (g : lisp_globals) (fuel : Nat) (h : lisp_heap)
    (environment symbol type value recursive : lisp_object_t) :
    Run (lisp_object_t × lisp_heap) := do
  let found_symbol ← lisp_environment_find_symbol g fuel h environment symbol recursive
  let plist := lisp_cell_cdr g h found_symbol
  if plist = g.lisp_NIL then do
    let (symbol_type_value_cell, h1) := lisp_cell_cons h type value
    let (symbol_plist, h2) ← lisp_plist_create g h1 symbol_type_value_cell [0]
    let (_, h3) ← lisp_plist_set g fuel h2 environment symbol symbol_plist
    pure (value, h3)
  else do
    let (_, h1) ← lisp_plist_set g fuel h plist type value
    pure (value, h1)

def lisp_environment_intern_symbol (g : lisp_globals) (fuel : Nat) (h : lisp_heap)
    (environment atom : lisp_object_t) : Run (lisp_object_t × lisp_heap) := do
  let (_, h1) ← lisp_environment_set_symbol_value g fuel h environment atom
    g.lisp_APVAL g.lisp_NIL g.lisp_NIL
  pure (atom, h1)

/-! ## Streams (`lisp_stream.c`) and their backends

`backend` in a `stream_functions` record names the set of six callables:
`1` the character-buffer stream of `tests_support.c`, `2` the stdio stream
and `3` the stdio pair of `lisp_built_in_streams.c`.  A C `FILE *` is `0` for
`stdin` and `1` for `stdout`. -/

def lisp_stream_flags_at_eof : Nat := 0x00000001
def lisp_stream_flags_readable : Nat := 0x00000002
def lisp_stream_flags_writable : Nat := 0x00000004

def backend_charbuf : Nat := 1
def backend_stdio : Nat := 2
def backend_stdio_pair : Nat := 3

def lisp_stream_create (h : lisp_heap) (functions : lisp_object_t) : lisp_object_t × lisp_heap :=
  lisp_object_allocate h lisp_tag_stream 16 (lisp_record.stream functions 0)

/-- The fields `functions`, `flags` of a stream, when the object points to one. -/
def lisp_stream_get_value (h : lisp_heap) (object : lisp_object_t) :
    Option (lisp_object_t × Nat) :=
  match heap_read h (lisp_object_get_raw_value object) with
  | some (lisp_record.stream functions flags) => some (functions, flags)
  | _ => none

/-- The fields `metadata`, `backend` of the functions record of a stream. -/
def lisp_stream_get_functions (h : lisp_heap) (object : lisp_object_t) :
    Option (lisp_object_t × Nat) :=
  match lisp_stream_get_value h object with
  | some stream =>
    match heap_read h (lisp_object_get_raw_value stream.1) with
    | some (lisp_record.stream_functions metadata backend) => some (metadata, backend)
    | _ => none
  | none => none

/-- Model `fgetc`: the byte read, or `none` for `EOF`. -/
def stdio_fgetc (h : lisp_heap) (file : Nat) : Option Nat × lisp_heap :=
  if file = 0 then
    match h.stdin.pending with
    | ich :: rest => (some ich, { h with stdin := { h.stdin with pending := rest } })
    | [] => (none, { h with stdin := { h.stdin with at_eof := true } })
  else (none, h)

/-- Model `ungetc(ch, file)` for a `char` held as a byte: the byte `0xFF` is
`EOF` once converted to `int` and is refused. -/
def stdio_ungetc (h : lisp_heap) (ch : Nat) (file : Nat) : Option Nat × lisp_heap :=
  if file = 0 ∧ ch ≠ 255 then
    (some ch, { h with stdin := { h.stdin with pending := ch :: h.stdin.pending,
                                               at_eof := false } })
  else (none, h)

/-- Model `fputc`. -/
def stdio_fputc (h : lisp_heap) (ch : Nat) (file : Nat) : lisp_heap :=
  if file = 1 then { h with stdout := { h.stdout with written := ch :: h.stdout.written } }
  else h

/-- Model `feof`. -/
def stdio_feof (h : lisp_heap) (file : Nat) : Bool :=
  if file = 0 then h.stdin.at_eof else if file = 1 then h.stdout.at_eof else false

/-- The `open` callable of a stream. -/
def lisp_stream_backend_open (g : lisp_globals) (h : lisp_heap)
    (stream readable writable : lisp_object_t) : Run (lisp_object_t × lisp_heap) :=
  match lisp_stream_get_functions h stream with
  | none => .error lisp_error.fault
  | some (metadata, backend) =>
    if backend = backend_charbuf then
      -- tests_charbuf_stream_open
      match heap_read h (lisp_object_get_raw_value metadata) with
      | some (lisp_record.charbuf buf r_pos w_pos len max is_open _ _) =>
        if is_open then .ok (g.lisp_NIL, h)
        else .ok (stream, heap_write h (lisp_object_get_raw_value metadata)
          (lisp_record.charbuf buf r_pos w_pos len max true
            (decide (readable ≠ g.lisp_NIL)) (decide (writable ≠ g.lisp_NIL))))
      | _ => .error lisp_error.fault
    else if backend = backend_stdio ∨ backend = backend_stdio_pair then
      -- lisp_stream_stdio_open, lisp_stream_stdio_pair_open
      .ok (stream, h)
    else .error lisp_error.fault

/-- The `close` callable of a stream (the state of a closed `FILE` is not
modelled). -/
def lisp_stream_backend_close (g : lisp_globals) (h : lisp_heap) (stream : lisp_object_t) :
    Run (lisp_object_t × lisp_heap) :=
  match lisp_stream_get_functions h stream with
  | none => .error lisp_error.fault
  | some (metadata, backend) =>
    if backend = backend_charbuf then
      -- tests_charbuf_stream_close
      match heap_read h (lisp_object_get_raw_value metadata) with
      | some (lisp_record.charbuf buf r_pos w_pos len max is_open is_readable is_writable) =>
        if is_open = false then .ok (g.lisp_NIL, h)
        else .ok (stream, heap_write h (lisp_object_get_raw_value metadata)
          (lisp_record.charbuf buf r_pos w_pos len max false is_readable is_writable))
      | _ => .error lisp_error.fault
    else if backend = backend_stdio ∨ backend = backend_stdio_pair then .ok (stream, h)
    else .error lisp_error.fault

/-- The `read_char` callable of a stream. -/
def lisp_stream_backend_read_char (g : lisp_globals) (h : lisp_heap) (stream : lisp_object_t) :
    Run (lisp_object_t × lisp_heap) :=
  match lisp_stream_get_functions h stream with
  | none => .error lisp_error.fault
  | some (metadata, backend) =>
    match heap_read h (lisp_object_get_raw_value metadata) with
    | some (lisp_record.charbuf buf r_pos w_pos len max is_open is_readable is_writable) =>
      -- tests_charbuf_stream_read_char
      if backend ≠ backend_charbuf then .error lisp_error.fault
      else if is_open = false then .ok (g.lisp_NIL, h)
      else if is_readable ∧ r_pos < len then
        let ch := buf.getD r_pos 0
        let h1 := heap_write h (lisp_object_get_raw_value metadata)
          (lisp_record.charbuf buf (r_pos + 1) w_pos len max is_open is_readable is_writable)
        .ok (lisp_char_create (word_of_c_char ch), h1)
      else .ok (g.lisp_NIL, h)
    | some (lisp_record.stdio input _) =>
      -- lisp_stream_stdio_read_char, lisp_stream_stdio_pair_read_char
      if backend ≠ backend_stdio ∧ backend ≠ backend_stdio_pair then .error lisp_error.fault
      else
        match stdio_fgetc h input with
        | (none, h1) => .ok (g.lisp_NIL, h1)
        | (some ich, h1) => .ok (lisp_char_create ich, h1)
    | _ => .error lisp_error.fault

/-- The `unread_char` callable of a stream. -/
def lisp_stream_backend_unread_char (g : lisp_globals) (h : lisp_heap)
    (stream character : lisp_object_t) : Run (lisp_object_t × lisp_heap) :=
  match lisp_stream_get_functions h stream with
  | none => .error lisp_error.fault
  | some (metadata, backend) =>
    match heap_read h (lisp_object_get_raw_value metadata) with
    | some (lisp_record.charbuf buf r_pos w_pos len max is_open is_readable is_writable) =>
      -- tests_charbuf_stream_unread_char
      if backend ≠ backend_charbuf then .error lisp_error.fault
      else if is_open = false then .ok (g.lisp_NIL, h)
      else if is_readable ∧ r_pos > 0 then
        let h1 := heap_write h (lisp_object_get_raw_value metadata)
          (lisp_record.charbuf buf (r_pos - 1) w_pos len max is_open is_readable is_writable)
        .ok (character, h1)
      else .ok (g.lisp_NIL, h)
    | some (lisp_record.stdio input _) =>
      -- lisp_stream_stdio_unread_char, lisp_stream_stdio_pair_unread_char
      if backend ≠ backend_stdio ∧ backend ≠ backend_stdio_pair then .error lisp_error.fault
      else
        let lch := lisp_char_get_value character
        let ch := c_char_of_word lch
        match stdio_ungetc h ch input with
        | (none, h1) => .ok (g.lisp_NIL, h1)
        | (some result, h1) => .ok (lisp_char_create result, h1)
    | _ => .error lisp_error.fault

/-- Store byte `ch` at index `i` of a zero-initialised buffer. -/
def buf_set (buf : List Nat) (i : Nat) (ch : Nat) : List Nat :=
  if i < buf.length then buf.set i ch
  else buf ++ List.replicate (i - buf.length) 0 ++ [ch]

/-- The `write_char` callable of a stream. -/
def lisp_stream_backend_write_char (g : lisp_globals) (h : lisp_heap)
    (stream character : lisp_object_t) : Run (lisp_object_t × lisp_heap) :=
  match lisp_stream_get_functions h stream with
  | none => .error lisp_error.fault
  | some (metadata, backend) =>
    match heap_read h (lisp_object_get_raw_value metadata) with
    | some (lisp_record.charbuf buf r_pos w_pos len max is_open is_readable is_writable) =>
      -- tests_charbuf_stream_write_char
      if backend ≠ backend_charbuf then .error lisp_error.fault
      else if is_open = false then .ok (g.lisp_NIL, h)
      else if is_writable ∧ w_pos < max then
        let character_value := lisp_char_get_value character
        let ch := c_char_of_word character_value
        let h1 := heap_write h (lisp_object_get_raw_value metadata)
          (lisp_record.charbuf (buf_set buf w_pos ch) r_pos (w_pos + 1) len max
            is_open is_readable is_writable)
        .ok (stream, h1)
      else .ok (stream, h)
    | some (lisp_record.stdio _ output) =>
      -- lisp_stream_stdio_write_char, lisp_stream_stdio_pair_write_char
      if backend ≠ backend_stdio ∧ backend ≠ backend_stdio_pair then .error lisp_error.fault
      else
        let lch := lisp_char_get_value character
        let ch := c_char_of_word lch
        .ok (stream, stdio_fputc h ch output)
    | _ => .error lisp_error.fault

/-- The `eofp` callable of a stream. -/
def lisp_stream_backend_eofp (g : lisp_globals) (h : lisp_heap) (stream : lisp_object_t) :
    Run lisp_object_t :=
  match lisp_stream_get_functions h stream with
  | none => .error lisp_error.fault
  | some (metadata, backend) =>
    match heap_read h (lisp_object_get_raw_value metadata) with
    | some (lisp_record.charbuf _ r_pos _ len _ is_open is_readable _) =>
      -- tests_charbuf_stream_eofp
      if backend ≠ backend_charbuf then .error lisp_error.fault
      else if is_open = false then .ok g.lisp_NIL
      else if is_readable ∧ r_pos = len then .ok g.lisp_T
      else .ok g.lisp_NIL
    | some (lisp_record.stdio input output) =>
      if backend = backend_stdio then
        -- lisp_stream_stdio_eofp
        .ok (if stdio_feof h input then g.lisp_T else g.lisp_NIL)
      else if backend = backend_stdio_pair then
        -- lisp_stream_stdio_pair_eofp
        .ok (if stdio_feof h input then g.lisp_T
             else if stdio_feof h output then g.lisp_T else g.lisp_NIL)
      else .error lisp_error.fault
    | _ => .error lisp_error.fault

def lisp_stream_open (g : lisp_globals) (h : lisp_heap)
    (stream readable writable : lisp_object_t) : Run (lisp_object_t × lisp_heap) := do
  let (result, h1) ← lisp_stream_backend_open g h stream readable writable
  if result ≠ g.lisp_NIL then
    match lisp_stream_get_value h1 stream with
    | some (functions, flags) =>
      let flags1 := if readable = g.lisp_T then flags ||| lisp_stream_flags_readable else flags
      let flags2 := if writable = g.lisp_T then flags1 ||| lisp_stream_flags_writable else flags1
      pure (result, heap_write h1 (lisp_object_get_raw_value stream)
        (lisp_record.stream functions flags2))
    | none => .error lisp_error.fault
  else pure (result, h1)

def lisp_stream_close (g : lisp_globals) (h : lisp_heap) (stream : lisp_object_t) :
    Run (lisp_object_t × lisp_heap) := do
  let (result, h1) ← lisp_stream_backend_close g h stream
  match lisp_stream_get_value h1 stream with
  | some (functions, flags) =>
    let flags1 := flags - (flags &&& lisp_stream_flags_readable)
    let flags2 := flags1 - (flags1 &&& lisp_stream_flags_writable)
    pure (result, heap_write h1 (lisp_object_get_raw_value stream)
      (lisp_record.stream functions flags2))
  | none => .error lisp_error.fault

def lisp_stream_read_char (g : lisp_globals) (h : lisp_heap) (stream : lisp_object_t) :
    Run (lisp_object_t × lisp_heap) :=
  lisp_stream_backend_read_char g h stream

def lisp_stream_unread_char (g : lisp_globals) (h : lisp_heap)
    (stream character : lisp_object_t) : Run (lisp_object_t × lisp_heap) :=
  lisp_stream_backend_unread_char g h stream character

def lisp_stream_peek_char (g : lisp_globals) (h : lisp_heap) (stream : lisp_object_t) :
    Run (lisp_object_t × lisp_heap) := do
  let (character, h1) ← lisp_stream_read_char g h stream
  let (_, h2) ← lisp_stream_unread_char g h1 stream character
  pure (character, h2)

def lisp_stream_write_char (g : lisp_globals) (h : lisp_heap)
    (stream value : lisp_object_t) : Run (lisp_object_t × lisp_heap) :=
  lisp_stream_backend_write_char g h stream value

/-- Write the characters `chars` one after the other. -/
def lisp_stream_write_chars (g : lisp_globals) :
    List lisp_object_t → lisp_heap → lisp_object_t → Run lisp_heap
  | [], h, _ => .ok h
  | ch :: rest, h, stream => do
    let (_, h1) ← lisp_stream_write_char g h stream ch
    lisp_stream_write_chars g rest h1 stream

def lisp_stream_write_string (g : lisp_globals) (h : lisp_heap)
    (stream value : lisp_object_t) : Run (lisp_object_t × lisp_heap) := do
  let h1 ← lisp_stream_write_chars g (lisp_string_chars h value) h stream
  pure (stream, h1)

def lisp_stream_eofp (g : lisp_globals) (h : lisp_heap) (stream : lisp_object_t) :
    Run (lisp_object_t × lisp_heap) :=
  match lisp_stream_get_value h stream with
  | none => .error lisp_error.fault
  | some (functions, flags) =>
    if flags &&& lisp_stream_flags_at_eof ≠ 0 then .ok (g.lisp_T, h)
    else do
      let at_eof ← lisp_stream_backend_eofp g h stream
      if at_eof = g.lisp_NIL then pure (g.lisp_NIL, h)
      else pure (g.lisp_T, heap_write h (lisp_object_get_raw_value stream)
        (lisp_record.stream functions (flags ||| lisp_stream_flags_at_eof)))

def lisp_stream_openp (g : lisp_globals) (h : lisp_heap) (stream : lisp_object_t) :
    Run lisp_object_t :=
  match lisp_stream_get_value h stream with
  | none => .error lisp_error.fault
  | some (_, flags) =>
    if flags &&& lisp_stream_flags_readable ≠ 0 ∨ flags &&& lisp_stream_flags_writable ≠ 0
    then .ok g.lisp_T else .ok g.lisp_NIL

/-- In C the third test is `else if (lisp_streamp(stream_designator))`: the
result of the predicate, `lisp_T` or `lisp_NIL`, is used as a truth value and
so compared with the null pointer. -/
def lisp_stream_best_input_stream (g : lisp_globals) (fuel : Nat) (h : lisp_heap)
    (environment stream_designator : lisp_object_t) : Run lisp_object_t :=
  if stream_designator = g.lisp_T then
    lisp_environment_get_symbol_value g fuel h environment g.lisp_TERMINAL_IO_atom g.lisp_APVAL g.lisp_T
  else if stream_designator = g.lisp_NIL then
    lisp_environment_get_symbol_value g fuel h environment g.lisp_STANDARD_INPUT g.lisp_APVAL
      g.lisp_T
  else if lisp_streamp g stream_designator ≠ 0 then pure stream_designator
  else pure g.lisp_NIL

/-- See `lisp_stream_best_input_stream` for the third test. -/
def lisp_stream_best_output_stream (g : lisp_globals) (fuel : Nat) (h : lisp_heap)
    (environment stream_designator : lisp_object_t) : Run lisp_object_t :=
  if stream_designator = g.lisp_T then
    lisp_environment_get_symbol_value g fuel h environment g.lisp_TERMINAL_IO_atom g.lisp_APVAL g.lisp_T
  else if stream_designator = g.lisp_NIL then
    lisp_environment_get_symbol_value g fuel h environment g.lisp_STANDARD_OUTPUT g.lisp_APVAL
      g.lisp_T
  else if lisp_streamp g stream_designator ≠ 0 then pure stream_designator
  else pure g.lisp_NIL

/-! ## Printing (`lisp_printing.c` and the `_print` functions of each kind) -/

def lisp_char_print_quoted (g : lisp_globals) (h : lisp_heap) (stream : lisp_object_t)
    (char_value : Nat) (should_quote : lisp_object_t) : Run (lisp_object_t × lisp_heap) := do
  let h2 ←
    if should_quote ≠ g.lisp_NIL then do
      let octothorpe := lisp_char_create char_octothorpe
      let backslash := lisp_char_create char_backslash
      let (_, h1) ← lisp_stream_write_char g h stream octothorpe
      let (_, h2) ← lisp_stream_write_char g h1 stream backslash
      pure h2
    else pure h
  let object := lisp_char_create char_value
  lisp_stream_write_char g h2 stream object

def lisp_char_print (g : lisp_globals) (h : lisp_heap) (stream : lisp_object_t)
    (char_value : Nat) : Run (lisp_object_t × lisp_heap) :=
  lisp_char_print_quoted g h stream char_value g.lisp_NIL

/-- The loop of `lisp_string_print_quoted` over the characters. -/
def lisp_string_print_loop (g : lisp_globals) :
    List lisp_object_t → lisp_heap → lisp_object_t → Run lisp_heap
  | [], h, _ => .ok h
  | ch_object :: rest, h, stream => do
    let ch := lisp_char_get_value ch_object
    let (_, h1) ← lisp_char_print_quoted g h stream ch g.lisp_NIL
    lisp_string_print_loop g rest h1 stream

/-- Model `lisp_string_print_quoted`; the string is given by its object. -/
def lisp_string_print_quoted (g : lisp_globals) (h : lisp_heap) (stream string : lisp_object_t)
    (should_quote : lisp_object_t) : Run (lisp_object_t × lisp_heap) := do
  let h1 ←
    if should_quote ≠ g.lisp_NIL then do
      let (_, h1) ← lisp_char_print_quoted g h stream char_double_quote g.lisp_NIL
      pure h1
    else pure h
  let h2 ← lisp_string_print_loop g (lisp_string_chars h1 string) h1 stream
  let h3 ←
    if should_quote ≠ g.lisp_NIL then do
      let (_, h3) ← lisp_char_print_quoted g h2 stream char_double_quote g.lisp_NIL
      pure h3
    else pure h2
  pure (g.lisp_T, h3)

def lisp_string_print (g : lisp_globals) (h : lisp_heap) (stream string : lisp_object_t) :
    Run (lisp_object_t × lisp_heap) :=
  lisp_string_print_quoted g h stream string g.lisp_NIL

/-- Model `lisp_atom_print`; the atom is given by its object. -/
def lisp_atom_print (g : lisp_globals) (h : lisp_heap) (stream atom : lisp_object_t) :
    Run (lisp_object_t × lisp_heap) :=
  let (name_value, h1) := lisp_string_create_c h (lisp_atom_get_value h atom)
  lisp_string_print_quoted g h1 stream name_value g.lisp_NIL

/-- The digits of `n` in base `base`, most significant first, in front of `acc`
(upper-case letters above nine). -/
def c_digits : Nat → Nat → Nat → List Nat → List Nat
  | 0, _, _, acc => acc
  | fuel + 1, base, n, acc =>
    let d := n % base
    let digit := if d < 10 then 0x30 + d else 0x41 + (d - 10)
    if n < base then digit :: acc else c_digits fuel base (n / base) (digit :: acc)

/-- Model `snprintf(buffer, 21, "%lld", print_value)`. -/
def c_snprintf_lld (print_value : Int) : List Nat :=
  if print_value < 0 then char_minus :: c_digits 20 10 print_value.natAbs []
  else c_digits 20 10 print_value.natAbs []

/-- Model `snprintf(buffer, 31, "<prefix>%llX>", raw)`: at most thirty bytes. -/
def c_snprintf_llX (pre : List Nat) (raw : Nat) : List Nat :=
  (pre ++ c_digits 16 16 (raw % 2 ^ 64) [] ++ [char_greater_than]).take 30

def lisp_fixnum_print (g : lisp_globals) (h : lisp_heap) (stream : lisp_object_t)
    (fixnum_value : Int) : Run (lisp_object_t × lisp_heap) :=
  let buffer := c_snprintf_lld fixnum_value
  let (string, h1) := lisp_string_create_c h buffer
  lisp_string_print_quoted g h1 stream string g.lisp_NIL

/-- Model `lisp_subr_print`; the `SUBR` is given by its object. -/
def lisp_subr_print (g : lisp_globals) (h : lisp_heap) (stream subr : lisp_object_t) :
    Run (lisp_object_t × lisp_heap) := do
  let (_, h1) ← lisp_char_print_quoted g h stream char_octothorpe g.lisp_NIL
  let (_, h2) ← lisp_char_print_quoted g h1 stream char_single_quote g.lisp_NIL
  match lisp_subr_get_value h2 subr with
  | some subr_value => lisp_string_print_quoted g h2 stream subr_value.2 g.lisp_NIL
  | none => .error lisp_error.fault

/-- The bytes of `#<STREAM 0x`. -/
def text_STREAM : List Nat := [0x23, 0x3c, 0x53, 0x54, 0x52, 0x45, 0x41, 0x4d, 0x20, 0x30, 0x78]

/-- The bytes of `#<INTERIOR 0x`. -/
def text_INTERIOR : List Nat :=
  [0x23, 0x3c, 0x49, 0x4e, 0x54, 0x45, 0x52, 0x49, 0x4f, 0x52, 0x20, 0x30, 0x78]

/-- The bytes of `#<STRUCT 0x`. -/
def text_STRUCT : List Nat := [0x23, 0x3c, 0x53, 0x54, 0x52, 0x55, 0x43, 0x54, 0x20, 0x30, 0x78]

/-- Model `lisp_stream_print`, `lisp_interior_print` and `lisp_struct_print`, which
differ in the prefix only; `raw` is the pointer printed. -/
def lisp_pointer_print (g : lisp_globals) (h : lisp_heap) (stream : lisp_object_t)
    (pre : List Nat) (raw : Nat) : Run (lisp_object_t × lisp_heap) :=
  let buffer := c_snprintf_llX pre raw
  let (buffer_string, h1) := lisp_string_create_c h buffer
  lisp_string_print_quoted g h1 stream buffer_string g.lisp_NIL

mutual

/-- Model `lisp_print`. -/
def lisp_print (g : lisp_globals) :
    Nat → lisp_heap → lisp_object_t → lisp_object_t → lisp_object_t →
    Run (lisp_object_t × lisp_heap)
  | 0, _, _, _, _ => .error lisp_error.out_of_fuel
  | fuel + 1, h, environment, stream, object => do
    let output_stream ← lisp_stream_best_output_stream g fuel h environment stream
    let tag := lisp_object_get_tag object
    if tag = lisp_tag_fixnum then
      lisp_fixnum_print g h output_stream (lisp_fixnum_get_value true object)
    else if tag = lisp_tag_atom then lisp_atom_print g h output_stream object
    else if tag = lisp_tag_cell then
      -- lisp_cell_print
      lisp_cell_print_dotted g fuel h environment output_stream object g.lisp_T
    else if tag = lisp_tag_struct then
      lisp_pointer_print g h output_stream text_STRUCT (lisp_object_get_raw_value object)
    else if tag = lisp_tag_vector then
      lisp_vector_print g fuel h environment output_stream object
    else if tag = lisp_tag_char then
      lisp_char_print g h output_stream (lisp_char_get_value object)
    else if tag = lisp_tag_string then lisp_string_print g h output_stream object
    else if tag = lisp_tag_stream then
      lisp_pointer_print g h output_stream text_STREAM (lisp_object_get_raw_value object)
    else if tag = lisp_tag_subr then lisp_subr_print g h output_stream object
    else if tag = lisp_tag_interior then
      lisp_pointer_print g h output_stream text_INTERIOR (lisp_object_get_raw_value object)
    else .error lisp_error.fault

/-- Model `lisp_print_for_cell`. -/
def lisp_print_for_cell (g : lisp_globals) :
    Nat → lisp_heap → lisp_object_t → lisp_object_t → lisp_object_t → lisp_object_t →
    Run (lisp_object_t × lisp_heap)
  | 0, _, _, _, _, _ => .error lisp_error.out_of_fuel
  | fuel + 1, h, environment, stream, object, compress_dots =>
    let tag := lisp_object_get_tag object
    if tag = lisp_tag_cell then
      lisp_cell_print_dotted g fuel h environment stream object compress_dots
    else if tag = lisp_tag_char then
      lisp_char_print_quoted g h stream (lisp_char_get_value object) g.lisp_T
    else if tag = lisp_tag_string then lisp_string_print_quoted g h stream object g.lisp_T
    else lisp_print g fuel h environment stream object

/-- The `for` loop of `lisp_cell_print_readably` over the `CDR` chain. -/
def lisp_cell_print_readably_loop (g : lisp_globals) :
    Nat → lisp_heap → lisp_object_t → lisp_object_t → lisp_object_t → Run lisp_heap
  | 0, _, _, _, _ => .error lisp_error.out_of_fuel
  | fuel + 1, h, environment, stream, rest =>
    if rest ≠ g.lisp_NIL then do
      let h3 ←
        if lisp_cellp g rest ≠ g.lisp_NIL then do
          let (_, h1) ← lisp_char_print_quoted g h stream char_space g.lisp_NIL
          let rest_car := lisp_cell_car g h1 rest
          let (_, h2) ← lisp_print_for_cell g fuel h1 environment stream rest_car g.lisp_T
          pure h2
        else do
          let (_, h1) ← lisp_char_print_quoted g h stream char_space g.lisp_NIL
          let (_, h2) ← lisp_char_print_quoted g h1 stream char_period g.lisp_NIL
          let (_, h3) ← lisp_char_print_quoted g h2 stream char_space g.lisp_NIL
          let (_, h4) ← lisp_print_for_cell g fuel h3 environment stream rest g.lisp_T
          pure h4
      lisp_cell_print_readably_loop g fuel h3 environment stream (lisp_cell_cdr g h3 rest)
    else pure h

/-- Model `lisp_cell_print_dotted`, with `lisp_cell_print_readably` and
`lisp_cell_print_structurally`; the cell is given by its object. -/
def lisp_cell_print_dotted (g : lisp_globals) :
    Nat → lisp_heap → lisp_object_t → lisp_object_t → lisp_object_t → lisp_object_t →
    Run (lisp_object_t × lisp_heap)
  | 0, _, _, _, _, _ => .error lisp_error.out_of_fuel
  | fuel + 1, h, environment, stream, cell, compress_dots =>
    let cell_value := (lisp_cell_get_value h cell).getD (0, 0)
    if compress_dots = g.lisp_NIL then
      -- lisp_cell_print_structurally
      if lisp_object_get_raw_value cell = 0 then
        let (NULL_string, h1) := lisp_string_create_c h [0x4e, 0x55, 0x4c, 0x4c]
        lisp_string_print_quoted g h1 stream NULL_string g.lisp_NIL
      else do
        let (_, h1) ← lisp_char_print_quoted g h stream char_paren_open g.lisp_NIL
        let (_, h2) ← lisp_print_for_cell g fuel h1 environment stream cell_value.1 g.lisp_NIL
        let (_, h3) ← lisp_char_print_quoted g h2 stream char_space g.lisp_NIL
        let (_, h4) ← lisp_char_print_quoted g h3 stream char_period g.lisp_NIL
        let (_, h5) ← lisp_char_print_quoted g h4 stream char_space g.lisp_NIL
        let (_, h6) ← lisp_print_for_cell g fuel h5 environment stream cell_value.2 g.lisp_NIL
        let (_, h7) ← lisp_char_print_quoted g h6 stream char_paren_close g.lisp_NIL
        pure (g.lisp_T, h7)
    else do
      -- lisp_cell_print_readably
      let (_, h1) ← lisp_char_print_quoted g h stream char_paren_open g.lisp_NIL
      let (_, h2) ← lisp_print_for_cell g fuel h1 environment stream cell_value.1 g.lisp_T
      let h3 ← lisp_cell_print_readably_loop g fuel h2 environment stream cell_value.2
      let (_, h4) ← lisp_char_print_quoted g h3 stream char_paren_close g.lisp_NIL
      pure (g.lisp_T, h4)

/-- The `for` loop of `lisp_vector_print` from index `i`. -/
def lisp_vector_print_loop (g : lisp_globals) :
    Nat → lisp_heap → lisp_object_t → lisp_object_t → Nat → Nat → Nat → Run lisp_heap
  | 0, _, _, _, _, _, _ => .error lisp_error.out_of_fuel
  | fuel + 1, h, environment, stream, values, c, i =>
    if i < c then do
      let (_, h1) ← lisp_print g fuel h environment stream (lisp_vector_value_at h values i)
      let h2 ←
        if i ≠ 0 ∧ i = c - 1 then do
          let (_, h2) ← lisp_char_print_quoted g h1 stream char_space g.lisp_NIL
          pure h2
        else pure h1
      lisp_vector_print_loop g fuel h2 environment stream values c (i + 1)
    else pure h

/-- Model `lisp_vector_print`; the vector is given by its object. -/
def lisp_vector_print (g : lisp_globals) :
    Nat → lisp_heap → lisp_object_t → lisp_object_t → lisp_object_t →
    Run (lisp_object_t × lisp_heap)
  | 0, _, _, _, _ => .error lisp_error.out_of_fuel
  | fuel + 1, h, environment, stream, vector => do
    let (_, h1) ← lisp_char_print_quoted g h stream char_octothorpe g.lisp_NIL
    let (_, h2) ← lisp_char_print_quoted g h1 stream char_paren_open g.lisp_NIL
    let vector_value := lisp_vector_get_value h2 vector
    let h3 ← lisp_vector_print_loop g fuel h2 environment stream vector_value.1
      vector_value.2.2 0
    let (_, h4) ← lisp_char_print_quoted g h3 stream char_paren_close g.lisp_NIL
    pure (g.lisp_T, h4)

end

/-! ## Reading (`lisp_reading.c`) -/

/-- Model `lisp_skip_comment`. -/
def lisp_skip_comment_loop (g : lisp_globals) :
    Nat → lisp_heap → lisp_object_t → Run lisp_heap
  | 0, _, _ => .error lisp_error.out_of_fuel
  | fuel + 1, h, stream => do
    let (ch, h1) ← lisp_stream_read_char g h stream
    if ch = g.lisp_NIL then pure h1
    else
      let ch_value := lisp_char_get_value ch
      if ch_value = char_newline then pure h1
      else lisp_skip_comment_loop g fuel h1 stream

def lisp_skip_comment (g : lisp_globals) (fuel : Nat) (h : lisp_heap) (stream : lisp_object_t) :
    Run lisp_heap := do
  let (ch, h1) ← lisp_stream_read_char g h stream
  if ch = g.lisp_NIL then pure h1
  else lisp_skip_comment_loop g fuel h1 stream

def lisp_skip_whitespace_and_comments (g : lisp_globals) :
    Nat → lisp_heap → lisp_object_t → Run lisp_heap
  | 0, _, _ => .error lisp_error.out_of_fuel
  | fuel + 1, h, stream => do
    let (ch, h1) ← lisp_stream_read_char g h stream
    if ch = g.lisp_NIL then pure h1
    else
      let ch_value := lisp_char_get_value ch
      if ch_value = char_space ∨ ch_value = char_newline ∨ ch_value = char_tab then
        lisp_skip_whitespace_and_comments g fuel h1 stream
      else if ch_value = char_semicolon then do
        let (_, h2) ← lisp_stream_unread_char g h1 stream ch
        let h3 ← lisp_skip_comment g fuel h2 stream
        lisp_skip_whitespace_and_comments g fuel h3 stream
      else do
        let (_, h2) ← lisp_stream_unread_char g h1 stream ch
        pure h2

/-- The `do` loop of `lisp_read_atom`. -/
def lisp_read_atom_loop (g : lisp_globals) :
    Nat → lisp_heap → lisp_object_t → lisp_object_t → Run lisp_heap
  | 0, _, _, _ => .error lisp_error.out_of_fuel
  | fuel + 1, h, stream, atom_name => do
    let (ch, h1) ← lisp_stream_read_char g h stream
    if ch = g.lisp_NIL then pure h1
    else
      let ch_value := lisp_char_get_value ch
      if ch_value = char_space ∨ ch_value = char_newline ∨ ch_value = char_tab
          ∨ ch_value = char_semicolon ∨ ch_value = char_paren_open
          ∨ ch_value = char_paren_close ∨ ch_value = char_octothorpe then do
        let (_, h2) ← lisp_stream_unread_char g h1 stream ch
        pure h2
      else do
        let (_, h2) ← lisp_string_append_char h1 atom_name ch
        lisp_read_atom_loop g fuel h2 stream atom_name

def lisp_read_atom (g : lisp_globals) (fuel : Nat) (h : lisp_heap)
    (environment stream _recursivep : lisp_object_t) : Run (lisp_object_t × lisp_heap) := do
  let (atom_name, h1) := lisp_string_create_empty h
  let (ch, h2) ← lisp_stream_read_char g h1 stream
  if ch = g.lisp_NIL then pure (g.lisp_NIL, h2)
  else do
    let (_, h3) ← lisp_string_append_char h2 atom_name ch
    let h4 ← lisp_read_atom_loop g fuel h3 stream atom_name
    if atom_name ≠ g.lisp_NIL then do
      let (read_atom, h5) := lisp_atom_create h4 atom_name
      let atom_symbol ← lisp_environment_find_symbol g fuel h5 environment read_atom g.lisp_T
      if atom_symbol ≠ g.lisp_NIL then pure (lisp_cell_car g h5 atom_symbol, h5)
      else lisp_environment_intern_symbol g fuel h5 environment read_atom
    else pure (g.lisp_NIL, h4)

/-- Model `atol` on a buffer holding an optional sign and digits. -/
def c_atol (buffer : List Nat) : Int :=
  let digits (l : List Nat) : Nat :=
    (l.takeWhile (fun c => decide (char_0 ≤ c ∧ c ≤ char_9))).foldl
      (fun acc c => 10 * acc + (c - char_0)) 0
  match buffer with
  | [] => 0
  | c :: rest =>
    if c = char_minus then -((digits rest : Nat) : Int)
    else if c = char_plus then ((digits rest : Nat) : Int)
    else ((digits buffer : Nat) : Int)

/-- The `do` loop of `lisp_read_fixnum`; `none` stands for the early
`return lisp_NIL`, otherwise the buffer read. -/
def lisp_read_fixnum_loop (g : lisp_globals) (buffer_max : Nat) :
    Nat → lisp_heap → lisp_object_t → List Nat → Run (Option (List Nat) × lisp_heap)
  | 0, _, _, _ => .error lisp_error.out_of_fuel
  | fuel + 1, h, stream, buffer => do
    let buffer_pos := buffer.length
    let (ch, h1) ← lisp_stream_read_char g h stream
    if ch = g.lisp_NIL then pure (some buffer, h1)
    else
      let ch_value := lisp_char_get_value ch
      if ch_value = char_plus ∨ ch_value = char_minus then
        if buffer_pos ≠ 0 then pure (none, h1)
        else lisp_read_fixnum_loop g buffer_max fuel h1 stream (buffer ++ [c_char_of_word ch_value])
      else if char_0 ≤ ch_value ∧ ch_value ≤ char_9 then
        if buffer_pos = buffer_max then pure (none, h1)
        else lisp_read_fixnum_loop g buffer_max fuel h1 stream (buffer ++ [c_char_of_word ch_value])
      else do
        let (_, h2) ← lisp_stream_unread_char g h1 stream ch
        pure (some buffer, h2)

/-- Model `lisp_read_fixnum` under `__LP64__` (`buffer_max` is `18 + 1`). -/
def lisp_read_fixnum (g : lisp_globals) (fuel : Nat) (h : lisp_heap)
    (_environment stream _recursivep : lisp_object_t) : Run (lisp_object_t × lisp_heap) := do
  let buffer_max := 18 + 1
  let (buffer, h1) ← lisp_read_fixnum_loop g buffer_max fuel h stream []
  match buffer with
  | none => pure (g.lisp_NIL, h1)
  | some buffer =>
    let value := c_atol buffer
    let fixnum := value
    pure (lisp_fixnum_create true fixnum, h1)

/-- The `do` loop of `lisp_read_string`. -/
def lisp_read_string_loop (g : lisp_globals) :
    Nat → lisp_heap → lisp_object_t → lisp_object_t → Run lisp_heap
  | 0, _, _, _ => .error lisp_error.out_of_fuel
  | fuel + 1, h, stream, read_object => do
    let (ch, h1) ← lisp_stream_read_char g h stream
    if ch = g.lisp_NIL then pure h1
    else
      let ch_value := lisp_char_get_value ch
      if ch_value = char_double_quote then pure h1
      else if ch_value = char_backslash then do
        let (ch2, h2) ← lisp_stream_read_char g h1 stream
        if ch2 = g.lisp_NIL then pure h2
        else do
          let (_, h3) ← lisp_string_append_char h2 read_object ch2
          lisp_read_string_loop g fuel h3 stream read_object
      else do
        let (_, h2) ← lisp_string_append_char h1 read_object ch
        lisp_read_string_loop g fuel h2 stream read_object

def lisp_read_string (g : lisp_globals) (fuel : Nat) (h : lisp_heap)
    (_environment stream _recursivep : lisp_object_t) : Run (lisp_object_t × lisp_heap) := do
  let (read_object, h1) := lisp_string_create_empty h
  let (ch, h2) ← lisp_stream_read_char g h1 stream
  if ch = g.lisp_NIL ∨ ch ≠ lisp_char_create char_double_quote then pure (g.lisp_NIL, h2)
  else do
    let h3 ← lisp_read_string_loop g fuel h2 stream read_object
    pure (read_object, h3)

def lisp_read_vector (g : lisp_globals) (h : lisp_heap)
    (_environment _stream _recursivep : lisp_object_t) : Run (lisp_object_t × lisp_heap) :=
  pure (g.lisp_NIL, h)

def lisp_read_character (g : lisp_globals) (h : lisp_heap) (stream : lisp_object_t) :
    Run (lisp_object_t × lisp_heap) := do
  let (ch, h1) ← lisp_stream_read_char g h stream
  if ch = g.lisp_NIL then pure (g.lisp_NIL, h1)
  else if lisp_char_get_value ch ≠ char_octothorpe then .error lisp_error.fault
  else do
    let (ch, h2) ← lisp_stream_read_char g h1 stream
    if ch = g.lisp_NIL then pure (g.lisp_NIL, h2)
    else if lisp_char_get_value ch ≠ char_backslash then .error lisp_error.fault
    else lisp_stream_read_char g h2 stream

/-- The bytes of `%SI:END-OF-LIST`. -/
def text_SI_END_OF_LIST : List Nat :=
  [0x25, 0x53, 0x49, 0x3a, 0x45, 0x4e, 0x44, 0x2d, 0x4f, 0x46, 0x2d, 0x4c, 0x49, 0x53, 0x54]

mutual

/-- Model `lisp_read`. -/
def lisp_read (g : lisp_globals) :
    Nat → lisp_heap → lisp_object_t → lisp_object_t → lisp_object_t →
    Run (lisp_object_t × lisp_heap)
  | 0, _, _, _, _ => .error lisp_error.out_of_fuel
  | fuel + 1, h, environment, stream, recursivep => do
    let input_stream ← lisp_stream_best_input_stream g fuel h environment stream
    lisp_read_object g fuel h environment input_stream recursivep

/-- Model `lisp_read_object`. -/
def lisp_read_object (g : lisp_globals) :
    Nat → lisp_heap → lisp_object_t → lisp_object_t → lisp_object_t →
    Run (lisp_object_t × lisp_heap)
  | 0, _, _, _, _ => .error lisp_error.out_of_fuel
  | fuel + 1, h, environment, stream, recursivep => do
    let h1 ← lisp_skip_whitespace_and_comments g fuel h stream
    let (ch, h2) ← lisp_stream_read_char g h1 stream
    if ch = g.lisp_NIL then pure (g.lisp_NIL, h2)
    else
      let ch_value := lisp_char_get_value ch
      if char_0 ≤ ch_value ∧ ch_value ≤ char_9 then do
        let (_, h3) ← lisp_stream_unread_char g h2 stream ch
        lisp_read_fixnum g fuel h3 environment stream recursivep
      else if ch_value = char_plus ∨ ch_value = char_minus then do
        let (next_ch, h3) ← lisp_stream_read_char g h2 stream
        let next_ch_value := lisp_char_get_value next_ch
        let (_, h4) ← lisp_stream_unread_char g h3 stream next_ch
        let (_, h5) ← lisp_stream_unread_char g h4 stream ch
        if 0x30 ≤ next_ch_value ∧ next_ch_value ≤ 0x39 then
          lisp_read_fixnum g fuel h5 environment stream recursivep
        else lisp_read_atom g fuel h5 environment stream recursivep
      else if ch_value = char_single_quote then do
        let (_, h3) ← lisp_stream_unread_char g h2 stream ch
        lisp_read_quote g fuel h3 environment stream recursivep
      else if ch_value = char_paren_open then do
        let (_, h3) ← lisp_stream_unread_char g h2 stream ch
        lisp_read_list g fuel h3 environment stream recursivep
      else if ch_value = char_paren_close then pure (recursivep, h2)
      else if ch_value = char_double_quote then do
        let (_, h3) ← lisp_stream_unread_char g h2 stream ch
        lisp_read_string g fuel h3 environment stream recursivep
      else if ch_value = char_octothorpe then do
        let (ch2, h3) ← lisp_stream_read_char g h2 stream
        if ch2 = g.lisp_NIL then pure (g.lisp_NIL, h3)
        else
          let ch2_value := lisp_char_get_value ch2
          if ch2_value = char_paren_open then do
            let (_, h4) ← lisp_stream_unread_char g h3 stream ch2
            let (_, h5) ← lisp_stream_unread_char g h4 stream ch
            lisp_read_vector g h5 environment stream recursivep
          else if ch2_value = char_backslash then do
            let (_, h4) ← lisp_stream_unread_char g h3 stream ch2
            let (_, h5) ← lisp_stream_unread_char g h4 stream ch
            lisp_read_character g h5 stream
          else .error lisp_error.fault
      else do
        let (_, h3) ← lisp_stream_unread_char g h2 stream ch
        lisp_read_atom g fuel h3 environment stream recursivep

/-- The `do` loop of `lisp_read_list`. -/
def lisp_read_list_loop (g : lisp_globals) :
    Nat → lisp_heap → lisp_object_t → lisp_object_t → lisp_object_t → lisp_object_t →
    lisp_object_t → Run (lisp_object_t × lisp_heap)
  | 0, _, _, _, _, _, _ => .error lisp_error.out_of_fuel
  | fuel + 1, h, environment, stream, eol_signifier, list_head, list_cur => do
    let (one_object, h1) ← lisp_read_object g fuel h environment stream eol_signifier
    if one_object ≠ eol_signifier then do
      let (read_cell, h2) := lisp_cell_cons h1 one_object g.lisp_NIL
      if list_cur = g.lisp_NIL then
        lisp_read_list_loop g fuel h2 environment stream eol_signifier read_cell read_cell
      else do
        let (_, h3) ← lisp_cell_rplacd h2 list_cur read_cell
        lisp_read_list_loop g fuel h3 environment stream eol_signifier list_head read_cell
    else pure (list_head, h1)

/-- Model `lisp_read_list`. -/
def lisp_read_list (g : lisp_globals) :
    Nat → lisp_heap → lisp_object_t → lisp_object_t → lisp_object_t →
    Run (lisp_object_t × lisp_heap)
  | 0, _, _, _, _ => .error lisp_error.out_of_fuel
  | fuel + 1, h, environment, stream, _recursivep => do
    let (ch, h1) ← lisp_stream_read_char g h stream
    if ch = g.lisp_NIL ∨ ch ≠ lisp_char_create char_paren_open then pure (g.lisp_NIL, h1)
    else
      let (eol_signifier, h2) := lisp_atom_create_c h1 text_SI_END_OF_LIST
      lisp_read_list_loop g fuel h2 environment stream eol_signifier g.lisp_NIL g.lisp_NIL

/-- Model `lisp_read_quote`. -/
def lisp_read_quote (g : lisp_globals) :
    Nat → lisp_heap → lisp_object_t → lisp_object_t → lisp_object_t →
    Run (lisp_object_t × lisp_heap)
  | 0, _, _, _, _ => .error lisp_error.out_of_fuel
  | fuel + 1, h, environment, stream, recursivep => do
    let (ch, h1) ← lisp_stream_read_char g h stream
    if ch ≠ lisp_char_create char_single_quote then pure (g.lisp_NIL, h1)
    else do
      let (object, h2) ← lisp_read g fuel h1 environment stream recursivep
      lisp_cell_list g h2 g.lisp_symbol_QUOTE [object, g.lisp_NIL]

end

/-! ## Evaluation (`lisp_evaluation.c`)

The functions that call `lisp_eval` or `lisp_apply` back take them as the
arguments `ev` and `ap`; the recursion is closed in `lisp_eval`, `lisp_eval_cell`
and `lisp_apply` below. -/

/-- The type of `lisp_eval` once the heap is threaded through. -/
abbrev lisp_eval_fn :=
  lisp_heap → lisp_object_t → lisp_object_t → Run (lisp_object_t × lisp_heap)

/-- The type of `lisp_apply` once the heap is threaded through. -/
abbrev lisp_apply_fn :=
  lisp_heap → lisp_object_t → lisp_object_t → lisp_object_t → Run (lisp_object_t × lisp_heap)

def lisp_eval_atom (g : lisp_globals) (fuel : Nat) (h : lisp_heap)
    (environment atom : lisp_object_t) : Run lisp_object_t := do
  let symbol ← lisp_environment_find_symbol g fuel h environment atom g.lisp_T
  let plist := lisp_cell_cdr g h symbol
  if symbol = g.lisp_NIL ∨ plist = g.lisp_NIL then pure g.lisp_NIL
  else do
    let subr ← lisp_plist_get g fuel h plist g.lisp_SUBR
    if subr ≠ g.lisp_NIL then pure subr
    else do
      let expr ← lisp_plist_get g fuel h plist g.lisp_EXPR
      if expr ≠ g.lisp_NIL then pure expr
      else do
        let apval ← lisp_plist_get g fuel h plist g.lisp_APVAL
        if apval ≠ g.lisp_NIL then pure apval
        else pure g.lisp_NIL

/-- The `do` loop of `lisp_eval_argument_list`. -/
def lisp_eval_argument_list_loop (g : lisp_globals) (ev : lisp_eval_fn) :
    Nat → lisp_heap → lisp_object_t → lisp_object_t → lisp_object_t → lisp_object_t →
    Run (lisp_object_t × lisp_heap)
  | 0, _, _, _, _, _ => .error lisp_error.out_of_fuel
  | fuel + 1, h, environment, lisp_iter, result, result_tail => do
    let car := lisp_cell_car g h lisp_iter
    let (car_evaluated, h1) ← ev h environment car
    let (result_cell, h2) := lisp_cell_cons h1 car_evaluated g.lisp_NIL
    let (result', h3) ←
      if result ≠ g.lisp_NIL then do
        let (_, h3) ← lisp_cell_rplacd h2 result_tail result_cell
        pure (result, h3)
      else pure (result_cell, h2)
    let lisp_iter' := lisp_cell_cdr g h3 lisp_iter
    if lisp_iter' ≠ g.lisp_NIL then
      lisp_eval_argument_list_loop g ev fuel h3 environment lisp_iter' result' result_cell
    else pure (result', h3)

def lisp_eval_argument_list (g : lisp_globals) (ev : lisp_eval_fn) (fuel : Nat) (h : lisp_heap)
    (environment list : lisp_object_t) : Run (lisp_object_t × lisp_heap) :=
  if list = g.lisp_NIL ∨ lisp_cellp g list = g.lisp_NIL then pure (g.lisp_NIL, h)
  else lisp_eval_argument_list_loop g ev fuel h environment list g.lisp_NIL g.lisp_NIL

/-- The `do` loop of `lisp_environment_bind_variables`; returns the two
iterators at loop exit. -/
def lisp_environment_bind_variables_loop (g : lisp_globals) :
    Nat → lisp_heap → lisp_object_t → lisp_object_t → lisp_object_t →
    Run ((lisp_object_t × lisp_object_t) × lisp_heap)
  | 0, _, _, _, _ => .error lisp_error.out_of_fuel
  | fuel + 1, h, environment, variables_iter, values_iter => do
    let the_variable := lisp_cell_car g h variables_iter
    let value := lisp_cell_car g h values_iter
    let (_, h1) ← lisp_environment_set_symbol_value g fuel h environment the_variable
      g.lisp_APVAL value g.lisp_NIL
    let variables_iter' := lisp_cell_cdr g h1 variables_iter
    let values_iter' := lisp_cell_cdr g h1 values_iter
    if variables_iter' ≠ g.lisp_NIL ∧ values_iter' ≠ g.lisp_NIL then
      lisp_environment_bind_variables_loop g fuel h1 environment variables_iter' values_iter'
    else pure ((variables_iter', values_iter'), h1)

def lisp_environment_bind_variables (g : lisp_globals) (fuel : Nat) (h : lisp_heap)
    (environment the_variables values : lisp_object_t) : Run (lisp_object_t × lisp_heap) := do
  let ((variables_iter, values_iter), h1) ←
    lisp_environment_bind_variables_loop g fuel h environment the_variables values
  if variables_iter ≠ values_iter then pure (g.lisp_NIL, h1)
  else pure (g.lisp_T, h1)

/-- The `for` loop of `lisp_apply_expr` over the body forms. -/
def lisp_apply_expr_loop (g : lisp_globals) (ev : lisp_eval_fn) :
    Nat → lisp_heap → lisp_object_t → lisp_object_t → lisp_object_t →
    Run (lisp_object_t × lisp_heap)
  | 0, _, _, _, _ => .error lisp_error.out_of_fuel
  | fuel + 1, h, application_environment, function_next, result =>
    if function_next ≠ g.lisp_NIL then do
      let form := lisp_cell_car g h function_next
      let (result', h1) ← ev h application_environment form
      lisp_apply_expr_loop g ev fuel h1 application_environment
        (lisp_cell_cdr g h1 function_next) result'
    else pure (result, h)

def lisp_apply_expr (g : lisp_globals) (ev : lisp_eval_fn) (fuel : Nat) (h : lisp_heap)
    (environment function arguments : lisp_object_t) : Run (lisp_object_t × lisp_heap) := do
  let (application_environment, h1) ← lisp_environment_create g h environment
  let function_rest := lisp_cell_cdr g h1 function
  let the_variables := lisp_cell_car g h1 function_rest
  let (boundp, h2) ← lisp_environment_bind_variables g fuel h1 application_environment
    the_variables arguments
  if boundp = g.lisp_NIL then pure (g.lisp_NIL, h2)
  else
    lisp_apply_expr_loop g ev fuel h2 application_environment
      (lisp_cell_cdr g h2 function_rest) g.lisp_NIL

/-! ## Special forms (`lisp_built_in_sforms.c`) -/

/-- The functions of the special-form table, by position in `mappings[]`. -/
def sform_AND : Nat := 1
def sform_COND : Nat := 2
def sform_DEFINE : Nat := 3
def sform_DEFUN : Nat := 4
def sform_IF : Nat := 5
def sform_LAMBDA : Nat := 6
def sform_OR : Nat := 7
def sform_QUOTE : Nat := 8
def sform_BLOCK : Nat := 9
def sform_RETURN_FROM : Nat := 10
def sform_RETURN : Nat := 11
def sform_SET : Nat := 12
def sform_SETQ : Nat := 13
def sform_TAGBODY : Nat := 14
def sform_GO : Nat := 15

def lisp_eval_is_special_form (g : lisp_globals) (special_form : lisp_object_t) : Bool :=
  g.lisp_special_form_mappings.any (fun m => decide (lisp_eq g special_form m.1 ≠ g.lisp_NIL))

/-- The `do` loop of `lisp_eval_AND`. -/
def lisp_eval_AND_loop (g : lisp_globals) (ev : lisp_eval_fn) :
    Nat → lisp_heap → lisp_object_t → lisp_object_t → Run (lisp_object_t × lisp_heap)
  | 0, _, _, _ => .error lisp_error.out_of_fuel
  | fuel + 1, h, environment, current => do
    let argument := lisp_cell_car g h current
    let (result, h1) ← ev h environment argument
    if result = g.lisp_NIL then pure (g.lisp_NIL, h1)
    else
      let current' := lisp_cell_cdr g h1 current
      if current' ≠ g.lisp_NIL then lisp_eval_AND_loop g ev fuel h1 environment current'
      else pure (result, h1)

def lisp_eval_AND (g : lisp_globals) (ev : lisp_eval_fn) (fuel : Nat) (h : lisp_heap)
    (environment cell : lisp_object_t) : Run (lisp_object_t × lisp_heap) :=
  let arguments := lisp_cell_cdr g h cell
  if arguments = g.lisp_NIL then pure (g.lisp_T, h)
  else lisp_eval_AND_loop g ev fuel h environment arguments

/-- The inner `do` loop of `lisp_eval_COND` over the forms of a clause. -/
def lisp_eval_COND_forms (g : lisp_globals) (ev : lisp_eval_fn) :
    Nat → lisp_heap → lisp_object_t → lisp_object_t → Run (lisp_object_t × lisp_heap)
  | 0, _, _, _ => .error lisp_error.out_of_fuel
  | fuel + 1, h, environment, form_list => do
    let form := lisp_cell_car g h form_list
    let (result, h1) ← ev h environment form
    let form_list' := lisp_cell_cdr g h1 form_list
    if form_list' ≠ g.lisp_NIL then lisp_eval_COND_forms g ev fuel h1 environment form_list'
    else pure (result, h1)

/-- The outer `do` loop of `lisp_eval_COND` over the clauses. -/
def lisp_eval_COND_loop (g : lisp_globals) (ev : lisp_eval_fn) :
    Nat → lisp_heap → lisp_object_t → lisp_object_t → Run (lisp_object_t × lisp_heap)
  | 0, _, _, _ => .error lisp_error.out_of_fuel
  | fuel + 1, h, environment, condition_list => do
    let condition_and_forms := lisp_cell_car g h condition_list
    let condition := lisp_cell_car g h condition_and_forms
    let (result, h1) ← ev h environment condition
    if result ≠ g.lisp_NIL then
      let form_list := lisp_cell_cdr g h1 condition_and_forms
      lisp_eval_COND_forms g ev fuel h1 environment form_list
    else
      let condition_list' := lisp_cell_cdr g h1 condition_list
      if condition_list' ≠ g.lisp_NIL then
        lisp_eval_COND_loop g ev fuel h1 environment condition_list'
      else pure (result, h1)

def lisp_eval_COND (g : lisp_globals) (ev : lisp_eval_fn) (fuel : Nat) (h : lisp_heap)
    (environment cell : lisp_object_t) : Run (lisp_object_t × lisp_heap) :=
  let condition_list := lisp_cell_cdr g h cell
  lisp_eval_COND_loop g ev fuel h environment condition_list

def lisp_eval_DEFINE (g : lisp_globals) (fuel : Nat) (h : lisp_heap)
    (environment cell : lisp_object_t) : Run (lisp_object_t × lisp_heap) :=
  let cell_rest := lisp_cell_cdr g h cell
  let second := lisp_cell_car g h cell_rest
  let second_rest := lisp_cell_cdr g h cell_rest
  if second ≠ g.lisp_NIL then do
    let symbol_atom := second
    let symbol_expr := lisp_cell_car g h second_rest
    let (_, h1) ← lisp_environment_set_symbol_value g fuel h environment symbol_atom
      g.lisp_EXPR symbol_expr g.lisp_NIL
    pure (symbol_atom, h1)
  else pure (g.lisp_NIL, h)

def lisp_eval_DEFUN (g : lisp_globals) (ev : lisp_eval_fn) (h : lisp_heap)
    (environment cell : lisp_object_t) : Run (lisp_object_t × lisp_heap) := do
  let arglist := lisp_cell_cdr g h cell
  let name := lisp_cell_car g h arglist
  let arguments := lisp_cell_car g h (lisp_cell_cdr g h arglist)
  let body_forms := lisp_cell_cdr g h (lisp_cell_cdr g h arglist)
  let (name_and_body, h1) := lisp_cell_cons h name body_forms
  let (block_form, h2) := lisp_cell_cons h1 g.lisp_symbol_BLOCK name_and_body
  let (lambda_form, h3) ← lisp_cell_list g h2 g.lisp_symbol_LAMBDA
    [arguments, block_form, g.lisp_NIL]
  let (define_form, h4) ← lisp_cell_list g h3 g.lisp_symbol_DEFINE
    [name, lambda_form, g.lisp_NIL]
  ev h4 environment define_form

def lisp_eval_IF (g : lisp_globals) (ev : lisp_eval_fn) (h : lisp_heap)
    (environment cell : lisp_object_t) : Run (lisp_object_t × lisp_heap) := do
  let cell_rest := lisp_cell_cdr g h cell
  let second := lisp_cell_car g h cell_rest
  let second_rest := lisp_cell_cdr g h cell_rest
  let third := lisp_cell_car g h second_rest
  let third_rest := lisp_cell_cdr g h second_rest
  let fourth := lisp_cell_car g h third_rest
  let (evaluated_second, h1) ← ev h environment second
  if evaluated_second ≠ g.lisp_NIL then ev h1 environment third
  else if fourth ≠ g.lisp_NIL then ev h1 environment fourth
  else pure (g.lisp_NIL, h1)

def lisp_eval_LAMBDA (h : lisp_heap) (_environment cell : lisp_object_t) :
    Run (lisp_object_t × lisp_heap) :=
  pure (cell, h)

/-- The `do` loop of `lisp_eval_OR`. -/
def lisp_eval_OR_loop (g : lisp_globals) (ev : lisp_eval_fn) :
    Nat → lisp_heap → lisp_object_t → lisp_object_t → Run (lisp_object_t × lisp_heap)
  | 0, _, _, _ => .error lisp_error.out_of_fuel
  | fuel + 1, h, environment, current => do
    let argument := lisp_cell_car g h current
    let (result, h1) ← ev h environment argument
    if result ≠ g.lisp_NIL then pure (result, h1)
    else
      let current' := lisp_cell_cdr g h1 current
      if current' ≠ g.lisp_NIL then lisp_eval_OR_loop g ev fuel h1 environment current'
      else pure (g.lisp_NIL, h1)

def lisp_eval_OR (g : lisp_globals) (ev : lisp_eval_fn) (fuel : Nat) (h : lisp_heap)
    (environment cell : lisp_object_t) : Run (lisp_object_t × lisp_heap) :=
  let arguments := lisp_cell_cdr g h cell
  if arguments = g.lisp_NIL then pure (g.lisp_NIL, h)
  else lisp_eval_OR_loop g ev fuel h environment arguments

def lisp_eval_QUOTE (g : lisp_globals) (h : lisp_heap) (_environment cell : lisp_object_t) :
    Run (lisp_object_t × lisp_heap) :=
  pure (lisp_cell_car g h (lisp_cell_cdr g h cell), h)

def lisp_eval_SET (g : lisp_globals) (ev : lisp_eval_fn) (fuel : Nat) (h : lisp_heap)
    (environment cell : lisp_object_t) : Run (lisp_object_t × lisp_heap) := do
  let cell_rest := lisp_cell_cdr g h cell
  let second := lisp_cell_car g h cell_rest
  let second_rest := lisp_cell_cdr g h cell_rest
  let (evaluated_second, h1) ← ev h environment second
  if evaluated_second ≠ g.lisp_NIL then do
    let symbol_atom := evaluated_second
    let third := lisp_cell_car g h1 second_rest
    let (evaluated_third, h2) ← ev h1 environment third
    let symbol_expr := evaluated_third
    lisp_environment_set_symbol_value g fuel h2 environment symbol_atom
      g.lisp_APVAL symbol_expr g.lisp_NIL
  else pure (g.lisp_NIL, h1)

def lisp_eval_SETQ (g : lisp_globals) (ev : lisp_eval_fn) (fuel : Nat) (h : lisp_heap)
    (environment cell : lisp_object_t) : Run (lisp_object_t × lisp_heap) := do
  let cell_rest := lisp_cell_cdr g h cell
  let second := lisp_cell_car g h cell_rest
  let second_rest := lisp_cell_cdr g h cell_rest
  let symbol_atom := second
  let third := lisp_cell_car g h second_rest
  let (evaluated_third, h1) ← ev h environment third
  let symbol_expr := evaluated_third
  lisp_environment_set_symbol_value g fuel h1 environment symbol_atom
    g.lisp_APVAL symbol_expr g.lisp_NIL

/-- The `do` loop of `lisp_eval_BLOCK`. -/
def lisp_eval_BLOCK_loop (g : lisp_globals) (ev : lisp_eval_fn) :
    Nat → lisp_heap → lisp_object_t → lisp_object_t → Run (lisp_object_t × lisp_heap)
  | 0, _, _, _ => .error lisp_error.out_of_fuel
  | fuel + 1, h, environment, remaining_body_forms => do
    let body_form := lisp_cell_car g h remaining_body_forms
    let (result, h1) ← ev h environment body_form
    let remaining_body_forms' := lisp_cell_cdr g h1 remaining_body_forms
    if remaining_body_forms' ≠ g.lisp_NIL then
      lisp_eval_BLOCK_loop g ev fuel h1 environment remaining_body_forms'
    else pure (result, h1)

def lisp_eval_BLOCK (g : lisp_globals) (ev : lisp_eval_fn) (fuel : Nat) (h : lisp_heap)
    (environment cell : lisp_object_t) : Run (lisp_object_t × lisp_heap) :=
  let arguments := lisp_cell_cdr g h cell
  let remaining_body_forms := lisp_cell_cdr g h arguments
  lisp_eval_BLOCK_loop g ev fuel h environment remaining_body_forms

def lisp_eval_RETURN_FROM (g : lisp_globals) (h : lisp_heap)
    (_environment _cell : lisp_object_t) : Run (lisp_object_t × lisp_heap) :=
  pure (g.lisp_NIL, h)

def lisp_eval_RETURN (g : lisp_globals) (h : lisp_heap)
    (_environment _cell : lisp_object_t) : Run (lisp_object_t × lisp_heap) :=
  pure (g.lisp_NIL, h)

/-! ### `TAGBODY` and `GO` -/

/-- Append `item` to the accumulation list `(list, tail)` the way
`lisp_tagbody_create_plist` does for `tags` and `forms`. -/
def lisp_tagbody_append (g : lisp_globals) (h : lisp_heap)
    (list tail item : lisp_object_t) : Run ((lisp_object_t × lisp_object_t) × lisp_heap) :=
  if list = g.lisp_NIL then
    let (new_list, h1) := lisp_cell_cons h item g.lisp_NIL
    pure ((new_list, new_list), h1)
  else do
    let (new_tail, h1) := lisp_cell_cons h item g.lisp_NIL
    let (_, h2) ← lisp_cell_rplacd h1 tail new_tail
    pure ((list, new_tail), h2)

/-- The state of the `while` loop of `lisp_tagbody_create_plist`. -/
structure lisp_tagbody_scan where
  tags : lisp_object_t
  tags_tail : lisp_object_t
  tag_current : lisp_object_t
  forms : lisp_object_t
  forms_tail : lisp_object_t

/-- The `while` loop of `lisp_tagbody_create_plist`; `none` stands for the
early `return lisp_NIL`. -/
def lisp_tagbody_create_plist_loop (g : lisp_globals) (execute : lisp_object_t) :
    Nat → lisp_heap → lisp_object_t → lisp_tagbody_scan →
    Run (Option lisp_tagbody_scan × lisp_heap)
  | 0, _, _, _ => .error lisp_error.out_of_fuel
  | fuel + 1, h, current_cell, s =>
    if current_cell ≠ g.lisp_NIL then
      let atom_or_form := lisp_cell_car g h current_cell
      if lisp_atomp g atom_or_form ≠ g.lisp_NIL then do
        let (_, h1) ← lisp_plist_set g fuel h execute s.tag_current s.forms
        let ((tags, tags_tail), h2) ← lisp_tagbody_append g h1 s.tags s.tags_tail s.tag_current
        lisp_tagbody_create_plist_loop g execute fuel h2 (lisp_cell_cdr g h2 current_cell)
          { tags := tags, tags_tail := tags_tail, tag_current := atom_or_form,
            forms := g.lisp_NIL, forms_tail := g.lisp_NIL }
      else if lisp_cellp g atom_or_form ≠ g.lisp_NIL then do
        let ((forms, forms_tail), h1) ← lisp_tagbody_append g h s.forms s.forms_tail atom_or_form
        lisp_tagbody_create_plist_loop g execute fuel h1 (lisp_cell_cdr g h1 current_cell)
          { s with forms := forms, forms_tail := forms_tail }
      else pure (none, h)
    else pure (some s, h)

/-- Model `lisp_tagbody_create_plist`.  The first call of `lisp_plist_create`
(`lisp_built_in_sforms.c:637-639`) passes the entry alone, without the
terminating `NULL`: its list of variable arguments is empty, and
`lisp_plist_create` reads an argument that was not passed. -/
def lisp_tagbody_create_plist (g : lisp_globals) (fuel : Nat) (h : lisp_heap)
    (_environment cell : lisp_object_t) : Run (lisp_object_t × lisp_heap) := do
  let (start_entry, h1) := lisp_cell_cons h g.lisp_SI_TAGBODY_START g.lisp_NIL
  let (execute, h2) ← lisp_plist_create g h1 start_entry []
  let (scan, h3) ← lisp_tagbody_create_plist_loop g execute fuel h2 (lisp_cell_cdr g h2 cell)
    { tags := g.lisp_NIL, tags_tail := g.lisp_NIL, tag_current := g.lisp_SI_TAGBODY_START,
      forms := g.lisp_NIL, forms_tail := g.lisp_NIL }
  match scan with
  | none => pure (g.lisp_NIL, h3)
  | some s =>
    let (_, h4) ← lisp_plist_set g fuel h3 execute s.tag_current s.forms
    let ((tags, tags_tail), h5) ← lisp_tagbody_append g h4 s.tags s.tags_tail s.tag_current
    let (_, h6) ← lisp_plist_set g fuel h5 execute g.lisp_SI_TAGBODY_END g.lisp_NIL
    let (end_tag_cell, h7) := lisp_cell_cons h6 g.lisp_SI_TAGBODY_END g.lisp_NIL
    let (_, h8) ← lisp_cell_rplacd h7 tags_tail end_tag_cell
    let (mapping_entry, h9) := lisp_cell_cons h8 g.lisp_SI_TAGBODY_MAPPING execute
    let (sequence_entry, h10) := lisp_cell_cons h9 g.lisp_SI_TAGBODY_SEQEUENCE tags
    let (next_entry, h11) := lisp_cell_cons h10 g.lisp_SI_TAGBODY_NEXT g.lisp_SI_TAGBODY_START
    lisp_plist_create g h11 mapping_entry [sequence_entry, next_entry, 0]

def lisp_tagbody_push (g : lisp_globals) (fuel : Nat) (h : lisp_heap)
    (environment tagbody_plist : lisp_object_t) : Run lisp_heap := do
  let stack ← lisp_environment_get_symbol_value g fuel h environment
    g.lisp_SI_TAGBODY_STACK g.lisp_APVAL g.lisp_T
  let (new_stack, h1) := lisp_cell_cons h tagbody_plist stack
  let (_, h2) ← lisp_environment_set_symbol_value g fuel h1 environment
    g.lisp_SI_TAGBODY_STACK g.lisp_APVAL new_stack g.lisp_T
  pure h2

/-- The `do` loop of `lisp_tagbody_pop`. -/
def lisp_tagbody_pop_loop (g : lisp_globals) :
    Nat → lisp_heap → lisp_object_t → lisp_object_t → lisp_object_t → Run lisp_heap
  | 0, _, _, _, _ => .error lisp_error.out_of_fuel
  | fuel + 1, h, environment, tagbody_plist, next_cell => do
    let plist := lisp_cell_car g h next_cell
    let next_cell' := lisp_cell_cdr g h next_cell
    if plist = tagbody_plist then do
      let (_, h1) ← lisp_environment_set_symbol_value g fuel h environment
        g.lisp_SI_TAGBODY_STACK g.lisp_APVAL next_cell' g.lisp_T
      pure h1
    else if next_cell' ≠ g.lisp_NIL then
      lisp_tagbody_pop_loop g fuel h environment tagbody_plist next_cell'
    else pure h

def lisp_tagbody_pop (g : lisp_globals) (fuel : Nat) (h : lisp_heap)
    (environment tagbody_plist : lisp_object_t) : Run lisp_heap := do
  let stack ← lisp_environment_get_symbol_value g fuel h environment
    g.lisp_SI_TAGBODY_STACK g.lisp_APVAL g.lisp_T
  lisp_tagbody_pop_loop g fuel h environment tagbody_plist stack

/-- The inner `while` loop of `lisp_tagbody_execute` that runs the sequence
forward to `cur_tag`; returns the adjusted `sequence`. -/
def lisp_tagbody_seek (g : lisp_globals) :
    Nat → lisp_heap → lisp_object_t → lisp_object_t → lisp_object_t → Run lisp_object_t
  | 0, _, _, _, _ => .error lisp_error.out_of_fuel
  | fuel + 1, h, sequence, cur_tag, updated_sequence =>
    if updated_sequence ≠ g.lisp_NIL then
      let seq_tag := lisp_cell_car g h updated_sequence
      if seq_tag = cur_tag then pure updated_sequence
      else lisp_tagbody_seek g fuel h sequence cur_tag (lisp_cell_cdr g h updated_sequence)
    else pure sequence

/-- The inner `while` loop of `lisp_tagbody_execute` over the forms of a tag. -/
def lisp_tagbody_forms (g : lisp_globals) (ev : lisp_eval_fn) :
    Nat → lisp_heap → lisp_object_t → lisp_object_t → Run lisp_heap
  | 0, _, _, _ => .error lisp_error.out_of_fuel
  | fuel + 1, h, environment, forms =>
    if forms ≠ g.lisp_NIL then do
      let form := lisp_cell_car g h forms
      let (_, h1) ← ev h environment form
      lisp_tagbody_forms g ev fuel h1 environment (lisp_cell_cdr g h1 forms)
    else pure h

/-- The outer `while (1)` loop of `lisp_tagbody_execute`. -/
def lisp_tagbody_execute_loop (g : lisp_globals) (ev : lisp_eval_fn) :
    Nat → lisp_heap → lisp_object_t → lisp_object_t → lisp_object_t → Run lisp_heap
  | 0, _, _, _, _ => .error lisp_error.out_of_fuel
  | fuel + 1, h, environment, tagbody_plist, sequence => do
    let cur_tag ← lisp_plist_get g fuel h tagbody_plist g.lisp_SI_TAGBODY_NEXT
    let sequence1 ← lisp_tagbody_seek g fuel h sequence cur_tag sequence
    if cur_tag = g.lisp_SI_TAGBODY_END then lisp_tagbody_pop g fuel h environment tagbody_plist
    else do
      let mapping ← lisp_plist_get g fuel h tagbody_plist g.lisp_SI_TAGBODY_MAPPING
      let forms ← lisp_plist_get g fuel h mapping cur_tag
      let h1 ← lisp_tagbody_forms g ev fuel h environment forms
      let sequence2 := lisp_cell_cdr g h1 sequence1
      let next_tag := lisp_cell_car g h1 sequence2
      let (_, h2) ← lisp_plist_set g fuel h1 tagbody_plist g.lisp_SI_TAGBODY_NEXT next_tag
      lisp_tagbody_execute_loop g ev fuel h2 environment tagbody_plist sequence2

def lisp_tagbody_execute (g : lisp_globals) (ev : lisp_eval_fn) (fuel : Nat) (h : lisp_heap)
    (environment tagbody_plist : lisp_object_t) : Run lisp_heap := do
  let sequence ← lisp_plist_get g fuel h tagbody_plist g.lisp_SI_TAGBODY_SEQEUENCE
  lisp_tagbody_execute_loop g ev fuel h environment tagbody_plist sequence

def lisp_tagbody_set_next (g : lisp_globals) (_environment _tag : lisp_object_t) :
    lisp_object_t :=
  g.lisp_NIL

def lisp_eval_TAGBODY (g : lisp_globals) (ev : lisp_eval_fn) (fuel : Nat) (h : lisp_heap)
    (environment cell : lisp_object_t) : Run (lisp_object_t × lisp_heap) := do
  let (tagbody_plist, h1) ← lisp_tagbody_create_plist g fuel h environment cell
  let h2 ← lisp_tagbody_push g fuel h1 environment tagbody_plist
  let h3 ← lisp_tagbody_execute g ev fuel h2 environment tagbody_plist
  pure (g.lisp_NIL, h3)

def lisp_eval_GO (g : lisp_globals) (h : lisp_heap) (environment cell : lisp_object_t) :
    Run (lisp_object_t × lisp_heap) :=
  let atom := lisp_cell_car g h (lisp_cell_cdr g h cell)
  let _ := lisp_tagbody_set_next g environment atom
  pure (g.lisp_NIL, h)

/-- Model `lisp_eval_special_form`: find the function for the symbol and call it. -/
def lisp_eval_special_form (g : lisp_globals) (ev : lisp_eval_fn) (fuel : Nat) (h : lisp_heap)
    (environment special_form cell : lisp_object_t) : Run (lisp_object_t × lisp_heap) :=
  match g.lisp_special_form_mappings.find?
      (fun m => decide (lisp_eq g special_form m.1 ≠ g.lisp_NIL)) with
  | none => pure (g.lisp_NIL, h)
  | some (_, function) =>
    if function = sform_AND then lisp_eval_AND g ev fuel h environment cell
    else if function = sform_COND then lisp_eval_COND g ev fuel h environment cell
    else if function = sform_DEFINE then lisp_eval_DEFINE g fuel h environment cell
    else if function = sform_DEFUN then lisp_eval_DEFUN g ev h environment cell
    else if function = sform_IF then lisp_eval_IF g ev h environment cell
    else if function = sform_LAMBDA then lisp_eval_LAMBDA h environment cell
    else if function = sform_OR then lisp_eval_OR g ev fuel h environment cell
    else if function = sform_QUOTE then lisp_eval_QUOTE g h environment cell
    else if function = sform_BLOCK then lisp_eval_BLOCK g ev fuel h environment cell
    else if function = sform_RETURN_FROM then lisp_eval_RETURN_FROM g h environment cell
    else if function = sform_RETURN then lisp_eval_RETURN g h environment cell
    else if function = sform_SET then lisp_eval_SET g ev fuel h environment cell
    else if function = sform_SETQ then lisp_eval_SETQ g ev fuel h environment cell
    else if function = sform_TAGBODY then lisp_eval_TAGBODY g ev fuel h environment cell
    else if function = sform_GO then lisp_eval_GO g h environment cell
    else .error lisp_error.fault

/-! ## Built-in `SUBR`s (`lisp_built_in_subrs.c`)

Fixnum arithmetic is done on `intptr_t`; a result outside the word is
undefined in C and is not distinguished here (`lisp_fixnum_create` reduces
it modulo the word size). -/

def lisp_subr_CAR (g : lisp_globals) (h : lisp_heap) (_environment arguments : lisp_object_t) :
    Run (lisp_object_t × lisp_heap) :=
  pure (lisp_cell_car g h (lisp_cell_car g h arguments), h)

def lisp_subr_CDR (g : lisp_globals) (h : lisp_heap) (_environment arguments : lisp_object_t) :
    Run (lisp_object_t × lisp_heap) :=
  pure (lisp_cell_cdr g h (lisp_cell_car g h arguments), h)

def lisp_subr_CONS (g : lisp_globals) (h : lisp_heap) (_environment arguments : lisp_object_t) :
    Run (lisp_object_t × lisp_heap) :=
  let first := lisp_cell_car g h arguments
  let second := lisp_cell_car g h (lisp_cell_cdr g h arguments)
  pure (lisp_cell_cons h first second)

def lisp_subr_ATOM (g : lisp_globals) (h : lisp_heap) (_environment arguments : lisp_object_t) :
    Run (lisp_object_t × lisp_heap) :=
  let first := lisp_cell_car g h arguments
  pure (lisp_atomp g first, h)

def lisp_subr_EQ (g : lisp_globals) (h : lisp_heap) (_environment arguments : lisp_object_t) :
    Run (lisp_object_t × lisp_heap) :=
  let first := lisp_cell_car g h arguments
  let second := lisp_cell_car g h (lisp_cell_cdr g h arguments)
  pure (lisp_eq g first second, h)

def lisp_subr_EQUAL (g : lisp_globals) (fuel : Nat) (h : lisp_heap)
    (_environment arguments : lisp_object_t) : Run (lisp_object_t × lisp_heap) := do
  let first := lisp_cell_car g h arguments
  let second := lisp_cell_car g h (lisp_cell_cdr g h arguments)
  let r ← lisp_equal g fuel h first second
  pure (r, h)

def lisp_subr_LIST (h : lisp_heap) (_environment arguments : lisp_object_t) :
    Run (lisp_object_t × lisp_heap) :=
  pure (arguments, h)

def lisp_subr_NULL (g : lisp_globals) (h : lisp_heap) (_environment arguments : lisp_object_t) :
    Run (lisp_object_t × lisp_heap) :=
  let first := lisp_cell_car g h arguments
  pure (if first = g.lisp_NIL then g.lisp_T else g.lisp_NIL, h)

/-- The `do` loop of `lisp_subr_MEMBER`. -/
def lisp_subr_MEMBER_loop (g : lisp_globals) :
    Nat → lisp_heap → lisp_object_t → lisp_object_t → Run lisp_object_t
  | 0, _, _, _ => .error lisp_error.out_of_fuel
  | fuel + 1, h, x, list => do
    let list_car := lisp_cell_car g h list
    let same ← lisp_equal g fuel h x list_car
    if same ≠ g.lisp_NIL then pure g.lisp_T
    else
      let list' := lisp_cell_cdr g h list
      if list' ≠ g.lisp_NIL then lisp_subr_MEMBER_loop g fuel h x list'
      else pure g.lisp_NIL

def lisp_subr_MEMBER (g : lisp_globals) (fuel : Nat) (h : lisp_heap)
    (_environment arguments : lisp_object_t) : Run (lisp_object_t × lisp_heap) := do
  let x := lisp_cell_car g h arguments
  let list := lisp_cell_car g h (lisp_cell_cdr g h arguments)
  let r ← lisp_subr_MEMBER_loop g fuel h x list
  pure (r, h)

/-- The `while` loop of `lisp_subr_LENGTH`. -/
def lisp_subr_LENGTH_loop (g : lisp_globals) :
    Nat → lisp_heap → lisp_object_t → Int → Run Int
  | 0, _, _, _ => .error lisp_error.out_of_fuel
  | fuel + 1, h, list, length =>
    if list ≠ g.lisp_NIL then lisp_subr_LENGTH_loop g fuel h (lisp_cell_cdr g h list) (length + 1)
    else pure length

def lisp_subr_LENGTH (g : lisp_globals) (fuel : Nat) (h : lisp_heap)
    (_environment arguments : lisp_object_t) : Run (lisp_object_t × lisp_heap) := do
  let list := lisp_cell_car g h arguments
  let length ← lisp_subr_LENGTH_loop g fuel h list 0
  pure (lisp_fixnum_create true length, h)

def lisp_subr_RPLACA (g : lisp_globals) (h : lisp_heap) (_environment arguments : lisp_object_t) :
    Run (lisp_object_t × lisp_heap) :=
  let first := lisp_cell_car g h arguments
  let second := lisp_cell_car g h (lisp_cell_cdr g h arguments)
  lisp_cell_rplaca h first second

def lisp_subr_RPLACD (g : lisp_globals) (h : lisp_heap) (_environment arguments : lisp_object_t) :
    Run (lisp_object_t × lisp_heap) :=
  let first := lisp_cell_car g h arguments
  let second := lisp_cell_car g h (lisp_cell_cdr g h arguments)
  lisp_cell_rplacd h first second

def lisp_subr_NOT (g : lisp_globals) (h : lisp_heap) (_environment arguments : lisp_object_t) :
    Run (lisp_object_t × lisp_heap) :=
  let first := lisp_cell_car g h arguments
  pure (if first = g.lisp_NIL then g.lisp_T else g.lisp_NIL, h)

def lisp_subr_NUMBERP (g : lisp_globals) (h : lisp_heap) (_environment arguments : lisp_object_t) :
    Run (lisp_object_t × lisp_heap) :=
  let first := lisp_cell_car g h arguments
  pure (lisp_fixnump g first, h)

def lisp_subr_ZEROP (g : lisp_globals) (h : lisp_heap) (_environment arguments : lisp_object_t) :
    Run (lisp_object_t × lisp_heap) :=
  let first := lisp_cell_car g h arguments
  if lisp_fixnump g first = g.lisp_NIL then pure (g.lisp_NIL, h)
  else
    let fixnum := lisp_fixnum_get_value true first
    pure (if fixnum = 0 then g.lisp_T else g.lisp_NIL, h)

def lisp_subr_MINUSP (g : lisp_globals) (h : lisp_heap) (_environment arguments : lisp_object_t) :
    Run (lisp_object_t × lisp_heap) :=
  let first := lisp_cell_car g h arguments
  if lisp_fixnump g first = g.lisp_NIL then pure (g.lisp_NIL, h)
  else
    let fixnum := lisp_fixnum_get_value true first
    pure (if fixnum < 0 then g.lisp_T else g.lisp_NIL, h)

/-- The common shape of the five binary comparisons, `compare` being the C
operator applied to the two fixnum values. -/
def lisp_subr_sign_compare (g : lisp_globals) (compare : Int → Int → Bool) (h : lisp_heap)
    (arguments : lisp_object_t) : Run (lisp_object_t × lisp_heap) :=
  let first := lisp_cell_car g h arguments
  if lisp_fixnump g first = g.lisp_NIL then pure (g.lisp_NIL, h)
  else
    let second := lisp_cell_car g h (lisp_cell_cdr g h arguments)
    if lisp_fixnump g second = g.lisp_NIL then pure (g.lisp_NIL, h)
    else
      let x := lisp_fixnum_get_value true first
      let y := lisp_fixnum_get_value true second
      pure (if compare x y then g.lisp_T else g.lisp_NIL, h)

def lisp_subr_sign_LESS_THAN (g : lisp_globals) (h : lisp_heap)
    (_environment arguments : lisp_object_t) : Run (lisp_object_t × lisp_heap) :=
  lisp_subr_sign_compare g (fun x y => decide (x < y)) h arguments

def lisp_subr_sign_LESS_THAN_OR_EQUALS (g : lisp_globals) (h : lisp_heap)
    (_environment arguments : lisp_object_t) : Run (lisp_object_t × lisp_heap) :=
  lisp_subr_sign_compare g (fun x y => decide (x ≤ y)) h arguments

def lisp_subr_sign_GREATER_THAN (g : lisp_globals) (h : lisp_heap)
    (_environment arguments : lisp_object_t) : Run (lisp_object_t × lisp_heap) :=
  lisp_subr_sign_compare g (fun x y => decide (x > y)) h arguments

def lisp_subr_sign_GREATER_THAN_OR_EQUALS (g : lisp_globals) (h : lisp_heap)
    (_environment arguments : lisp_object_t) : Run (lisp_object_t × lisp_heap) :=
  lisp_subr_sign_compare g (fun x y => decide (x ≥ y)) h arguments

def lisp_subr_sign_EQUALS (g : lisp_globals) (h : lisp_heap)
    (_environment arguments : lisp_object_t) : Run (lisp_object_t × lisp_heap) :=
  lisp_subr_sign_compare g (fun x y => decide (x = y)) h arguments

/-- The `while` loop of `lisp_subr_sign_PLUS`; `none` stands for the early
`return lisp_NIL`. -/
def lisp_subr_sign_PLUS_loop (g : lisp_globals) :
    Nat → lisp_heap → lisp_object_t → Int → Run (Option Int)
  | 0, _, _, _ => .error lisp_error.out_of_fuel
  | fuel + 1, h, args, sum =>
    if args ≠ g.lisp_NIL then
      let arg := lisp_cell_car g h args
      if lisp_fixnump g arg = g.lisp_NIL then pure none
      else lisp_subr_sign_PLUS_loop g fuel h (lisp_cell_cdr g h args)
             (sum + lisp_fixnum_get_value true arg)
    else pure (some sum)

def lisp_subr_sign_PLUS (g : lisp_globals) (fuel : Nat) (h : lisp_heap)
    (_environment arguments : lisp_object_t) : Run (lisp_object_t × lisp_heap) := do
  let sum ← lisp_subr_sign_PLUS_loop g fuel h arguments 0
  match sum with
  | none => pure (g.lisp_NIL, h)
  | some sum => pure (lisp_fixnum_create true sum, h)

/-- The `while` loop of `lisp_subr_sign_MINUS`; `none` stands for the early
`return lisp_NIL`. -/
def lisp_subr_sign_MINUS_loop (g : lisp_globals) :
    Nat → lisp_heap → lisp_object_t → Int → Run (Option Int)
  | 0, _, _, _ => .error lisp_error.out_of_fuel
  | fuel + 1, h, subsequent, accumulator =>
    if subsequent ≠ g.lisp_NIL then
      let arg := lisp_cell_car g h subsequent
      if lisp_fixnump g arg = g.lisp_NIL then pure none
      else lisp_subr_sign_MINUS_loop g fuel h (lisp_cell_cdr g h subsequent)
             (accumulator - lisp_fixnum_get_value true arg)
    else pure (some accumulator)

def lisp_subr_sign_MINUS (g : lisp_globals) (fuel : Nat) (h : lisp_heap)
    (_environment arguments : lisp_object_t) : Run (lisp_object_t × lisp_heap) :=
  let first := lisp_cell_car g h arguments
  if lisp_fixnump g first = g.lisp_NIL then pure (g.lisp_NIL, h)
  else
    let accumulator := lisp_fixnum_get_value true first
    let subsequent := lisp_cell_cdr g h arguments
    if subsequent = g.lisp_NIL then pure (lisp_fixnum_create true (- accumulator), h)
    else do
      let accumulator' ← lisp_subr_sign_MINUS_loop g fuel h subsequent accumulator
      match accumulator' with
      | none => pure (g.lisp_NIL, h)
      | some accumulator' => pure (lisp_fixnum_create true accumulator', h)

/-- The `while` loop of `lisp_subr_sign_TIMES`; `none` stands for the early
`return lisp_NIL`. -/
def lisp_subr_sign_TIMES_loop (g : lisp_globals) :
    Nat → lisp_heap → lisp_object_t → Int → Run (Option Int)
  | 0, _, _, _ => .error lisp_error.out_of_fuel
  | fuel + 1, h, args, product =>
    if args ≠ g.lisp_NIL then
      let arg := lisp_cell_car g h args
      if lisp_fixnump g arg = g.lisp_NIL then pure none
      else lisp_subr_sign_TIMES_loop g fuel h (lisp_cell_cdr g h args)
             (product * lisp_fixnum_get_value true arg)
    else pure (some product)

def lisp_subr_sign_TIMES (g : lisp_globals) (fuel : Nat) (h : lisp_heap)
    (_environment arguments : lisp_object_t) : Run (lisp_object_t × lisp_heap) := do
  let product ← lisp_subr_sign_TIMES_loop g fuel h arguments 0
  match product with
  | none => pure (g.lisp_NIL, h)
  | some product => pure (lisp_fixnum_create true product, h)

def lisp_subr_sign_DIVIDE (g : lisp_globals) (h : lisp_heap)
    (_environment arguments : lisp_object_t) : Run (lisp_object_t × lisp_heap) :=
  let first := lisp_cell_car g h arguments
  if lisp_fixnump g first = g.lisp_NIL then pure (g.lisp_NIL, h)
  else
    let second := lisp_cell_car g h (lisp_cell_cdr g h arguments)
    if lisp_fixnump g second = g.lisp_NIL then pure (g.lisp_NIL, h)
    else
      let x := lisp_fixnum_get_value true first
      let y := lisp_fixnum_get_value true second
      if y = 0 then .error lisp_error.fault
      else pure (lisp_fixnum_create true (Int.tdiv x y), h)

def lisp_subr_sign_MODULO (g : lisp_globals) (h : lisp_heap)
    (_environment arguments : lisp_object_t) : Run (lisp_object_t × lisp_heap) :=
  let first := lisp_cell_car g h arguments
  if lisp_fixnump g first = g.lisp_NIL then pure (g.lisp_NIL, h)
  else
    let second := lisp_cell_car g h (lisp_cell_cdr g h arguments)
    if lisp_fixnump g second = g.lisp_NIL then pure (g.lisp_NIL, h)
    else
      let x := lisp_fixnum_get_value true first
      let y := lisp_fixnum_get_value true second
      if y = 0 then .error lisp_error.fault
      else pure (lisp_fixnum_create true (Int.tmod x y), h)

def lisp_subr_STRINGP (g : lisp_globals) (h : lisp_heap) (_environment arguments : lisp_object_t) :
    Run (lisp_object_t × lisp_heap) :=
  let first := lisp_cell_car g h arguments
  pure (lisp_stringp g first, h)

def lisp_subr_STREAMP (g : lisp_globals) (h : lisp_heap) (_environment arguments : lisp_object_t) :
    Run (lisp_object_t × lisp_heap) :=
  let first := lisp_cell_car g h arguments
  pure (lisp_streamp g first, h)

def lisp_subr_READ (g : lisp_globals) (fuel : Nat) (h : lisp_heap)
    (environment arguments : lisp_object_t) : Run (lisp_object_t × lisp_heap) :=
  let stream := lisp_cell_car g h arguments
  if stream ≠ g.lisp_T ∧ lisp_streamp g stream = g.lisp_NIL then pure (g.lisp_NIL, h)
  else lisp_read g fuel h environment stream g.lisp_NIL

def lisp_subr_PRIN1 (g : lisp_globals) (fuel : Nat) (h : lisp_heap)
    (environment arguments : lisp_object_t) : Run (lisp_object_t × lisp_heap) := do
  let object := lisp_cell_car g h arguments
  let stream := lisp_cell_car g h (lisp_cell_cdr g h arguments)
  let (_, h1) ← lisp_print g fuel h environment stream object
  pure (object, h1)

def lisp_subr_PRINC (g : lisp_globals) (fuel : Nat) (h : lisp_heap)
    (environment arguments : lisp_object_t) : Run (lisp_object_t × lisp_heap) := do
  let object := lisp_cell_car g h arguments
  let stream := lisp_cell_car g h (lisp_cell_cdr g h arguments)
  let (_, h1) ← lisp_print g fuel h environment stream object
  pure (object, h1)

def lisp_subr_PRINT (g : lisp_globals) (fuel : Nat) (h : lisp_heap)
    (environment arguments : lisp_object_t) : Run (lisp_object_t × lisp_heap) := do
  let object := lisp_cell_car g h arguments
  let stream := lisp_cell_car g h (lisp_cell_cdr g h arguments)
  let (_, h1) ← lisp_print g fuel h environment stream (lisp_char_create char_newline)
  let (_, h2) ← lisp_print g fuel h1 environment stream object
  let (_, h3) ← lisp_print g fuel h2 environment stream (lisp_char_create char_space)
  pure (object, h3)

def lisp_subr_TERPRI (g : lisp_globals) (fuel : Nat) (h : lisp_heap)
    (environment arguments : lisp_object_t) : Run (lisp_object_t × lisp_heap) := do
  let stream := lisp_cell_car g h arguments
  let (_, h1) ← lisp_print g fuel h environment stream (lisp_char_create char_newline)
  pure (g.lisp_NIL, h1)

def lisp_subr_EVAL (g : lisp_globals) (ev : lisp_eval_fn) (h : lisp_heap)
    (environment arguments : lisp_object_t) : Run (lisp_object_t × lisp_heap) :=
  let form := lisp_cell_car g h arguments
  if form = g.lisp_NIL then pure (g.lisp_NIL, h)
  else ev h environment form

def lisp_subr_APPLY (g : lisp_globals) (ap : lisp_apply_fn) (h : lisp_heap)
    (environment arguments : lisp_object_t) : Run (lisp_object_t × lisp_heap) :=
  let function := lisp_cell_car g h arguments
  if lisp_subrp g function = g.lisp_NIL ∧ lisp_cellp g function = g.lisp_NIL then
    pure (g.lisp_NIL, h)
  else
    let function_arguments := lisp_cell_car g h (lisp_cell_cdr g h arguments)
    ap h environment function function_arguments

/-- The C functions a `SUBR` can hold, in the order of `lisp_built_in_subrs.c`. -/
def subr_CAR : Nat := 1
def subr_CDR : Nat := 2
def subr_CONS : Nat := 3
def subr_ATOM : Nat := 4
def subr_EQ : Nat := 5
def subr_EQUAL : Nat := 6
def subr_LIST : Nat := 7
def subr_NULL : Nat := 8
def subr_MEMBER : Nat := 9
def subr_LENGTH : Nat := 10
def subr_RPLACA : Nat := 11
def subr_RPLACD : Nat := 12
def subr_NOT : Nat := 13
def subr_NUMBERP : Nat := 14
def subr_ZEROP : Nat := 15
def subr_MINUSP : Nat := 16
def subr_sign_LESS_THAN : Nat := 17
def subr_sign_LESS_THAN_OR_EQUALS : Nat := 18
def subr_sign_GREATER_THAN : Nat := 19
def subr_sign_GREATER_THAN_OR_EQUALS : Nat := 20
def subr_sign_EQUALS : Nat := 21
def subr_sign_PLUS : Nat := 22
def subr_sign_MINUS : Nat := 23
def subr_sign_TIMES : Nat := 24
def subr_sign_DIVIDE : Nat := 25
def subr_sign_MODULO : Nat := 26
def subr_STRINGP : Nat := 27
def subr_STREAMP : Nat := 28
def subr_READ : Nat := 29
def subr_PRIN1 : Nat := 30
def subr_PRINC : Nat := 31
def subr_PRINT : Nat := 32
def subr_TERPRI : Nat := 33
def subr_EVAL : Nat := 34
def subr_APPLY : Nat := 35

/-- Model `lisp_subr_call`: call through the function pointer of the `SUBR`.
An object that points to no `SUBR` record makes this a call through a wild
pointer. -/
def lisp_subr_call (g : lisp_globals) (ev : lisp_eval_fn) (ap : lisp_apply_fn) (fuel : Nat)
    (h : lisp_heap) (subr environment arguments : lisp_object_t) :
    Run (lisp_object_t × lisp_heap) :=
  match lisp_subr_get_value h subr with
  | none => .error lisp_error.fault
  | some (function, _) =>
    if function = subr_CAR then lisp_subr_CAR g h environment arguments
    else if function = subr_CDR then lisp_subr_CDR g h environment arguments
    else if function = subr_CONS then lisp_subr_CONS g h environment arguments
    else if function = subr_ATOM then lisp_subr_ATOM g h environment arguments
    else if function = subr_EQ then lisp_subr_EQ g h environment arguments
    else if function = subr_EQUAL then lisp_subr_EQUAL g fuel h environment arguments
    else if function = subr_LIST then lisp_subr_LIST h environment arguments
    else if function = subr_NULL then lisp_subr_NULL g h environment arguments
    else if function = subr_MEMBER then lisp_subr_MEMBER g fuel h environment arguments
    else if function = subr_LENGTH then lisp_subr_LENGTH g fuel h environment arguments
    else if function = subr_RPLACA then lisp_subr_RPLACA g h environment arguments
    else if function = subr_RPLACD then lisp_subr_RPLACD g h environment arguments
    else if function = subr_NOT then lisp_subr_NOT g h environment arguments
    else if function = subr_NUMBERP then lisp_subr_NUMBERP g h environment arguments
    else if function = subr_ZEROP then lisp_subr_ZEROP g h environment arguments
    else if function = subr_MINUSP then lisp_subr_MINUSP g h environment arguments
    else if function = subr_sign_LESS_THAN
      then lisp_subr_sign_LESS_THAN g h environment arguments
    else if function = subr_sign_LESS_THAN_OR_EQUALS
      then lisp_subr_sign_LESS_THAN_OR_EQUALS g h environment arguments
    else if function = subr_sign_GREATER_THAN
      then lisp_subr_sign_GREATER_THAN g h environment arguments
    else if function = subr_sign_GREATER_THAN_OR_EQUALS
      then lisp_subr_sign_GREATER_THAN_OR_EQUALS g h environment arguments
    else if function = subr_sign_EQUALS then lisp_subr_sign_EQUALS g h environment arguments
    else if function = subr_sign_PLUS then lisp_subr_sign_PLUS g fuel h environment arguments
    else if function = subr_sign_MINUS then lisp_subr_sign_MINUS g fuel h environment arguments
    else if function = subr_sign_TIMES then lisp_subr_sign_TIMES g fuel h environment arguments
    else if function = subr_sign_DIVIDE then lisp_subr_sign_DIVIDE g h environment arguments
    else if function = subr_sign_MODULO then lisp_subr_sign_MODULO g h environment arguments
    else if function = subr_STRINGP then lisp_subr_STRINGP g h environment arguments
    else if function = subr_STREAMP then lisp_subr_STREAMP g h environment arguments
    else if function = subr_READ then lisp_subr_READ g fuel h environment arguments
    else if function = subr_PRIN1 then lisp_subr_PRIN1 g fuel h environment arguments
    else if function = subr_PRINC then lisp_subr_PRINC g fuel h environment arguments
    else if function = subr_PRINT then lisp_subr_PRINT g fuel h environment arguments
    else if function = subr_TERPRI then lisp_subr_TERPRI g fuel h environment arguments
    else if function = subr_EVAL then lisp_subr_EVAL g ev h environment arguments
    else if function = subr_APPLY then lisp_subr_APPLY g ap h environment arguments
    else .error lisp_error.fault

def lisp_apply_subr (g : lisp_globals) (ev : lisp_eval_fn) (ap : lisp_apply_fn) (fuel : Nat)
    (h : lisp_heap) (environment function arguments : lisp_object_t) :
    Run (lisp_object_t × lisp_heap) :=
  lisp_subr_call g ev ap fuel h function environment arguments

mutual

/-- Model `lisp_eval`. -/
def lisp_eval (g : lisp_globals) :
    Nat → lisp_heap → lisp_object_t → lisp_object_t → Run (lisp_object_t × lisp_heap)
  | 0, _, _, _ => .error lisp_error.out_of_fuel
  | fuel + 1, h, environment, form =>
    let tag := lisp_object_get_tag form
    if tag = lisp_tag_atom then do
      let result ← lisp_eval_atom g fuel h environment form
      pure (result, h)
    else if tag = lisp_tag_cell then lisp_eval_cell g fuel h environment form
    else pure (form, h)

/-- Model `lisp_eval_cell`. -/
def lisp_eval_cell (g : lisp_globals) :
    Nat → lisp_heap → lisp_object_t → lisp_object_t → Run (lisp_object_t × lisp_heap)
  | 0, _, _, _ => .error lisp_error.out_of_fuel
  | fuel + 1, h, environment, cell =>
    let car := lisp_cell_car g h cell
    if lisp_atomp g car ≠ g.lisp_NIL then
      if lisp_eval_is_special_form g car then
        lisp_eval_special_form g (lisp_eval g fuel) fuel h environment car cell
      else do
        let function ← lisp_eval_atom g fuel h environment car
        if function ≠ g.lisp_NIL then do
          let arguments := lisp_cell_cdr g h cell
          let (evaluated_arguments, h1) ←
            lisp_eval_argument_list g (lisp_eval g fuel) fuel h environment arguments
          lisp_apply g fuel h1 environment function evaluated_arguments
        else pure (g.lisp_NIL, h)
    else if lisp_cellp g car ≠ g.lisp_NIL then do
      let (function, h1) ← lisp_eval_cell g fuel h environment car
      let arguments := lisp_cell_cdr g h1 cell
      let (evaluated_arguments, h2) ←
        lisp_eval_argument_list g (lisp_eval g fuel) fuel h1 environment arguments
      lisp_apply g fuel h2 environment function evaluated_arguments
    else pure (g.lisp_NIL, h)

/-- Model `lisp_apply`. -/
def lisp_apply (g : lisp_globals) :
    Nat → lisp_heap → lisp_object_t → lisp_object_t → lisp_object_t →
    Run (lisp_object_t × lisp_heap)
  | 0, _, _, _, _ => .error lisp_error.out_of_fuel
  | fuel + 1, h, environment, function, arguments =>
    if lisp_cellp g function ≠ g.lisp_NIL then
      lisp_apply_expr g (lisp_eval g fuel) fuel h environment function arguments
    else
      lisp_apply_subr g (lisp_eval g fuel) (lisp_apply g fuel) fuel h environment
        function arguments

end

/-! ## The root environment (`lisp_environment_create_root` and what it calls)

Where C leaves the order of evaluation of the arguments of a call open, the
arguments are evaluated left to right. -/

/-- The bytes of a C string literal. -/
def c_str (s : String) : List Nat := s.toList.map Char.toNat

/-- The globals before `lisp_environment_create_root` has run: all `NULL`. -/
def lisp_globals_NULL : lisp_globals :=
  { lisp_T := 0, lisp_NIL := 0, lisp_TERMINAL_IO_atom := 0, lisp_STANDARD_INPUT := 0,
    lisp_STANDARD_OUTPUT := 0, lisp_PNAME := 0, lisp_EXPR := 0, lisp_SUBR := 0, lisp_APVAL := 0,
    lisp_SI_PARENT_ENVIRONMENT := 0, lisp_symbol_AND := 0, lisp_symbol_COND := 0,
    lisp_symbol_DEFINE := 0, lisp_symbol_DEFUN := 0, lisp_symbol_IF := 0,
    lisp_symbol_LAMBDA := 0, lisp_symbol_OR := 0, lisp_symbol_QUOTE := 0, lisp_symbol_SET := 0,
    lisp_symbol_SETQ := 0, lisp_symbol_BLOCK := 0, lisp_symbol_RETURN_FROM := 0,
    lisp_symbol_RETURN := 0, lisp_symbol_TAGBODY := 0, lisp_symbol_GO := 0,
    lisp_SI_TAGBODY_STACK := 0, lisp_SI_TAGBODY_CURRENT := 0, lisp_SI_TAGBODY_SEQEUENCE := 0,
    lisp_SI_TAGBODY_MAPPING := 0, lisp_SI_TAGBODY_NEXT := 0, lisp_SI_TAGBODY_START := 0,
    lisp_SI_TAGBODY_END := 0, lisp_special_form_mappings := [] }

/-- Create the atom `name` and intern it in `environment`. -/
def lisp_intern_c (g : lisp_globals) (fuel : Nat) (h : lisp_heap) (environment : lisp_object_t)
    (name : String) : Run (lisp_object_t × lisp_heap) :=
  let (atom, h1) := lisp_atom_create_c h (c_str name)
  lisp_environment_intern_symbol g fuel h1 environment atom

def lisp_tagbody_initialize (g : lisp_globals) (fuel : Nat) (h : lisp_heap)
    (environment : lisp_object_t) : Run (lisp_globals × lisp_heap) := do
  let (STACK, h1) := lisp_atom_create_c h (c_str "%SI:*TAGBODY-STACK*")
  let (CURRENT, h2) := lisp_atom_create_c h1 (c_str "%SI:*TAGBODY-CURRENT*")
  let (SEQEUENCE, h3) := lisp_atom_create_c h2 (c_str "%SI:TAGBODY-SEQUENCE")
  let (MAPPING, h4) := lisp_atom_create_c h3 (c_str "%SI:TAGBODY-MAPPING")
  let (NEXT, h5) := lisp_atom_create_c h4 (c_str "%SI:TAGBODY-NEXT")
  let (START, h6) := lisp_atom_create_c h5 (c_str "%SI:TAGBODY-START")
  let (END, h7) := lisp_atom_create_c h6 (c_str "%SI:TAGBODY-END")
  let g1 := { g with lisp_SI_TAGBODY_STACK := STACK, lisp_SI_TAGBODY_CURRENT := CURRENT,
                     lisp_SI_TAGBODY_SEQEUENCE := SEQEUENCE, lisp_SI_TAGBODY_MAPPING := MAPPING,
                     lisp_SI_TAGBODY_NEXT := NEXT, lisp_SI_TAGBODY_START := START,
                     lisp_SI_TAGBODY_END := END }
  let (_, h8) ← lisp_environment_intern_symbol g1 fuel h7 environment STACK
  let (_, h9) ← lisp_environment_intern_symbol g1 fuel h8 environment CURRENT
  let (_, h10) ← lisp_environment_intern_symbol g1 fuel h9 environment SEQEUENCE
  let (_, h11) ← lisp_environment_intern_symbol g1 fuel h10 environment MAPPING
  let (_, h12) ← lisp_environment_intern_symbol g1 fuel h11 environment NEXT
  let (_, h13) ← lisp_environment_intern_symbol g1 fuel h12 environment START
  let (_, h14) ← lisp_environment_intern_symbol g1 fuel h13 environment END
  let (_, h15) ← lisp_environment_set_symbol_value g1 fuel h14 environment STACK
    g1.lisp_APVAL g1.lisp_NIL g1.lisp_NIL
  let (_, h16) ← lisp_environment_set_symbol_value g1 fuel h15 environment CURRENT
    g1.lisp_APVAL g1.lisp_NIL g1.lisp_NIL
  pure (g1, h16)

/-- The table `lisp_special_form_mappings[]` that
`lisp_eval_special_forms_initialize` fills in. -/
def lisp_special_form_mappings_table (g : lisp_globals) : List (lisp_object_t × Nat) :=
  [ (g.lisp_symbol_AND, sform_AND), (g.lisp_symbol_COND, sform_COND),
    (g.lisp_symbol_DEFINE, sform_DEFINE), (g.lisp_symbol_DEFUN, sform_DEFUN),
    (g.lisp_symbol_IF, sform_IF), (g.lisp_symbol_LAMBDA, sform_LAMBDA),
    (g.lisp_symbol_OR, sform_OR), (g.lisp_symbol_QUOTE, sform_QUOTE),
    (g.lisp_symbol_BLOCK, sform_BLOCK), (g.lisp_symbol_RETURN_FROM, sform_RETURN_FROM),
    (g.lisp_symbol_RETURN, sform_RETURN), (g.lisp_symbol_SET, sform_SET),
    (g.lisp_symbol_SETQ, sform_SETQ), (g.lisp_symbol_TAGBODY, sform_TAGBODY),
    (g.lisp_symbol_GO, sform_GO) ]

def lisp_eval_special_forms_initialize (g : lisp_globals) (fuel : Nat) (h : lisp_heap)
    (environment : lisp_object_t) : Run (lisp_globals × lisp_heap) :=
  lisp_tagbody_initialize
    { g with lisp_special_form_mappings := lisp_special_form_mappings_table g }
    fuel h environment

def lisp_environment_add_built_in_special_forms (g : lisp_globals) (fuel : Nat) (h : lisp_heap)
    (environment : lisp_object_t) : Run (lisp_globals × lisp_heap) := do
  let (AND, h1) ← lisp_intern_c g fuel h environment "AND"
  let (COND, h2) ← lisp_intern_c g fuel h1 environment "COND"
  let (DEFINE, h3) ← lisp_intern_c g fuel h2 environment "DEFINE"
  let (DEFUN, h4) ← lisp_intern_c g fuel h3 environment "DEFUN"
  let (IF, h5) ← lisp_intern_c g fuel h4 environment "IF"
  let (LAMBDA, h6) ← lisp_intern_c g fuel h5 environment "LAMBDA"
  let (OR, h7) ← lisp_intern_c g fuel h6 environment "OR"
  let (QUOTE, h8) ← lisp_intern_c g fuel h7 environment "QUOTE"
  let (SET, h9) ← lisp_intern_c g fuel h8 environment "SET"
  let (SETQ, h10) ← lisp_intern_c g fuel h9 environment "SETQ"
  let (BLOCK, h11) ← lisp_intern_c g fuel h10 environment "BLOCK"
  let (RETURN_FROM, h12) ← lisp_intern_c g fuel h11 environment "RETURN-FROM"
  let (RETURN, h13) ← lisp_intern_c g fuel h12 environment "RETURN"
  let (TAGBODY, h14) ← lisp_intern_c g fuel h13 environment "TAGBODY"
  let (GO, h15) ← lisp_intern_c g fuel h14 environment "GO"
  let g1 := { g with lisp_symbol_AND := AND, lisp_symbol_COND := COND,
                     lisp_symbol_DEFINE := DEFINE, lisp_symbol_DEFUN := DEFUN,
                     lisp_symbol_IF := IF, lisp_symbol_LAMBDA := LAMBDA, lisp_symbol_OR := OR,
                     lisp_symbol_QUOTE := QUOTE, lisp_symbol_SET := SET,
                     lisp_symbol_SETQ := SETQ, lisp_symbol_BLOCK := BLOCK,
                     lisp_symbol_RETURN_FROM := RETURN_FROM, lisp_symbol_RETURN := RETURN,
                     lisp_symbol_TAGBODY := TAGBODY, lisp_symbol_GO := GO }
  lisp_eval_special_forms_initialize g1 fuel h15 environment

/-- The table `lisp_built_in_SUBRs[]`: callable and name. -/
def lisp_built_in_SUBRs : List (Nat × String) :=
  [ (subr_CAR, "CAR"), (subr_CDR, "CDR"), (subr_CONS, "CONS"), (subr_ATOM, "ATOM"),
    (subr_EQ, "EQ"), (subr_EQUAL, "EQUAL"), (subr_LIST, "LIST"), (subr_NULL, "NULL"),
    (subr_MEMBER, "MEMBER"), (subr_LENGTH, "LENGTH"), (subr_RPLACA, "RPLACA"),
    (subr_RPLACD, "RPLACD"), (subr_NOT, "NOT"), (subr_NUMBERP, "NUMBERP"),
    (subr_ZEROP, "ZEROP"), (subr_MINUSP, "MINUSP"), (subr_sign_LESS_THAN, "<"),
    (subr_sign_LESS_THAN_OR_EQUALS, "<="), (subr_sign_GREATER_THAN, ">"),
    (subr_sign_GREATER_THAN_OR_EQUALS, ">="), (subr_sign_EQUALS, "="),
    (subr_sign_PLUS, "+"), (subr_sign_MINUS, "-"), (subr_sign_TIMES, "*"),
    (subr_sign_DIVIDE, "/"), (subr_sign_MODULO, "%"), (subr_STRINGP, "STRINGP"),
    (subr_STREAMP, "STREAMP"), (subr_READ, "READ"), (subr_PRIN1, "PRIN1"),
    (subr_PRIN1, "PRINC"), (subr_PRINT, "PRINT"), (subr_TERPRI, "TERPRI"),
    (subr_EVAL, "EVAL"), (subr_APPLY, "APPLY") ]

/-- The `for` loop of `lisp_environment_add_built_in_SUBRs`. -/
def lisp_environment_add_built_in_SUBRs_loop (g : lisp_globals) (fuel : Nat) :
    List (Nat × String) → lisp_heap → lisp_object_t → Run lisp_heap
  | [], h, _ => pure h
  | item :: rest, h, environment => do
    let (symbol, h1) := lisp_atom_create_c h (c_str item.2)
    let (symbol_name, h2) := lisp_string_create_c h1 (c_str item.2)
    let symbol_callable := item.1
    let (symbol_subr, h3) := lisp_subr_create h2 symbol_callable symbol_name
    let (_, h4) ← lisp_environment_set_symbol_value g fuel h3 environment symbol
      g.lisp_SUBR symbol_subr g.lisp_NIL
    let (_, h5) ← lisp_environment_set_symbol_value g fuel h4 environment symbol
      g.lisp_PNAME symbol_name g.lisp_NIL
    lisp_environment_add_built_in_SUBRs_loop g fuel rest h5 environment

def lisp_environment_add_built_in_SUBRs (g : lisp_globals) (fuel : Nat) (h : lisp_heap)
    (environment : lisp_object_t) : Run lisp_heap :=
  lisp_environment_add_built_in_SUBRs_loop g fuel lisp_built_in_SUBRs h environment

/-- Allocate a `struct lisp_stream_functions` and its metadata
(`lisp_stream_functions_stdio`, `lisp_stream_functions_stdio_pair`,
`tests_charbuf_stream_functions`). -/
def lisp_stream_functions_create (h : lisp_heap) (backend : Nat) (metadata_size : Nat)
    (metadata_contents : lisp_record) : lisp_object_t × lisp_heap :=
  let (functions, h1) := lisp_interior_create h 56 (lisp_record.stream_functions 0 backend)
  let (metadata, h2) := lisp_interior_create h1 metadata_size metadata_contents
  (functions, heap_write h2 (lisp_object_get_raw_value functions)
    (lisp_record.stream_functions metadata backend))

def lisp_stream_functions_stdio (h : lisp_heap) (file : Nat) : lisp_object_t × lisp_heap :=
  lisp_stream_functions_create h backend_stdio 8 (lisp_record.stdio file file)

def lisp_stream_functions_stdio_pair (h : lisp_heap) (input output : Nat) :
    lisp_object_t × lisp_heap :=
  lisp_stream_functions_create h backend_stdio_pair 16 (lisp_record.stdio input output)

/-- One of the three blocks of `lisp_environment_add_built_in_streams`. -/
def lisp_environment_add_built_in_stream (g : lisp_globals) (fuel : Nat) (h : lisp_heap)
    (mutable_environment functions readable writable : lisp_object_t) (name : String) :
    Run (lisp_object_t × lisp_heap) := do
  let (stream, h1) := lisp_stream_create h functions
  let (_, h2) ← lisp_stream_open g h1 stream readable writable
  let (stream_name, h3) := lisp_string_create_c h2 (c_str name)
  let (atom, h4) := lisp_atom_create h3 stream_name
  let (_, h5) ← lisp_environment_set_symbol_value g fuel h4 mutable_environment atom
    g.lisp_PNAME stream_name g.lisp_NIL
  let (_, h6) ← lisp_environment_set_symbol_value g fuel h5 mutable_environment atom
    g.lisp_APVAL stream g.lisp_NIL
  pure (atom, h6)

def lisp_environment_add_built_in_streams (g : lisp_globals) (fuel : Nat) (h : lisp_heap)
    (mutable_environment : lisp_object_t) : Run (lisp_globals × lisp_heap) := do
  let (terminal_functions, h1) := lisp_stream_functions_stdio_pair h 0 1
  let (terminal_io, h2) ← lisp_environment_add_built_in_stream g fuel h1 mutable_environment
    terminal_functions g.lisp_T g.lisp_T "*TERMINAL-IO*"
  let g1 := { g with lisp_TERMINAL_IO_atom := terminal_io }
  let (input_functions, h3) := lisp_stream_functions_stdio h2 0
  let (STANDARD_INPUT, h4) ← lisp_environment_add_built_in_stream g1 fuel h3 mutable_environment
    input_functions g.lisp_T g.lisp_NIL "*STANDARD-INPUT*"
  let g2 := { g1 with lisp_STANDARD_INPUT := STANDARD_INPUT }
  let (output_functions, h5) := lisp_stream_functions_stdio h4 1
  let (STANDARD_OUTPUT, h6) ← lisp_environment_add_built_in_stream g2 fuel h5 mutable_environment
    output_functions g.lisp_NIL g.lisp_T "*STANDARD-OUTPUT*"
  pure ({ g2 with lisp_STANDARD_OUTPUT := STANDARD_OUTPUT }, h6)

/-- The first part of `lisp_environment_create_root`: the "raw" root
environment property list, in which each of the seven bootstrap symbols has
its `PNAME` and `APVAL`.  Returns the globals assigned so far, the raw root
environment and the heap. -/
def lisp_environment_create_root_raw (h : lisp_heap) :
    Run ((lisp_globals × lisp_object_t) × lisp_heap) := do
  let (lisp_T_name, h1) := lisp_string_create_c h (c_str "T")
  let (lisp_NIL_name, h2) := lisp_string_create_c h1 (c_str "NIL")
  let (lisp_PNAME_name, h3) := lisp_string_create_c h2 (c_str "PNAME")
  let (lisp_APVAL_name, h4) := lisp_string_create_c h3 (c_str "APVAL")
  let (lisp_EXPR_name, h5) := lisp_string_create_c h4 (c_str "EXPR")
  let (lisp_SUBR_name, h6) := lisp_string_create_c h5 (c_str "SUBR")
  let (lisp_parent_name, h7) := lisp_string_create_c h6 (c_str "%SI:PARENT-ENVIRONMENT")
  let (T, h8) := lisp_atom_create h7 lisp_T_name
  let (NIL, h9) := lisp_atom_create h8 lisp_NIL_name
  let (PNAME, h10) := lisp_atom_create h9 lisp_PNAME_name
  let (APVAL, h11) := lisp_atom_create h10 lisp_APVAL_name
  let (EXPR, h12) := lisp_atom_create h11 lisp_EXPR_name
  let (SUBR, h13) := lisp_atom_create h12 lisp_SUBR_name
  let (PARENT, h14) := lisp_atom_create h13 lisp_parent_name
  let g : lisp_globals :=
    { lisp_globals_NULL with lisp_T := T, lisp_NIL := NIL, lisp_PNAME := PNAME,
                             lisp_APVAL := APVAL, lisp_EXPR := EXPR, lisp_SUBR := SUBR,
                             lisp_SI_PARENT_ENVIRONMENT := PARENT }
  let mk_plist (h : lisp_heap) (name apval : lisp_object_t) :
      Run (lisp_object_t × lisp_heap) :=
    let (pname_cell, ha) := lisp_cell_cons h PNAME name
    let (apval_cell, hb) := lisp_cell_cons ha APVAL apval
    lisp_plist_create g hb pname_cell [apval_cell, 0]
  let (lisp_T_plist, h15) ← mk_plist h14 lisp_T_name T
  let (lisp_NIL_plist, h16) ← mk_plist h15 lisp_NIL_name NIL
  let (lisp_PNAME_plist, h17) ← mk_plist h16 lisp_PNAME_name PNAME
  let (lisp_APVAL_plist, h18) ← mk_plist h17 lisp_APVAL_name APVAL
  let (lisp_EXPR_plist, h19) ← mk_plist h18 lisp_EXPR_name EXPR
  let (lisp_SUBR_plist, h20) ← mk_plist h19 lisp_SUBR_name SUBR
  let (lisp_PARENT_plist, h21) ← mk_plist h20 lisp_parent_name NIL
  let (e1, h22) := lisp_cell_cons h21 T lisp_T_plist
  let (e2, h23) := lisp_cell_cons h22 NIL lisp_NIL_plist
  let (e3, h24) := lisp_cell_cons h23 PNAME lisp_PNAME_plist
  let (e4, h25) := lisp_cell_cons h24 APVAL lisp_APVAL_plist
  let (e5, h26) := lisp_cell_cons h25 EXPR lisp_EXPR_plist
  let (e6, h27) := lisp_cell_cons h26 SUBR lisp_SUBR_plist
  let (e7, h28) := lisp_cell_cons h27 PARENT lisp_PARENT_plist
  let (environment, h29) ← lisp_cell_list g h28 e1 [e2, e3, e4, e5, e6, e7, NIL]
  pure ((g, environment), h29)

/-- Model `lisp_environment_create_root`: returns the globals it assigns, the
mutable child environment and the heap. -/
def lisp_environment_create_root (fuel : Nat) (h : lisp_heap) :
    Run ((lisp_globals × lisp_object_t) × lisp_heap) := do
  let ((g, environment), h29) ← lisp_environment_create_root_raw h
  let (g1, h30) ← lisp_environment_add_built_in_special_forms g fuel h29 environment
  let h31 ← lisp_environment_add_built_in_SUBRs g1 fuel h30 environment
  let (mutable_environment, h32) ← lisp_environment_create g1 h31 environment
  let (g2, h33) ← lisp_environment_add_built_in_streams g1 fuel h32 mutable_environment
  pure ((g2, mutable_environment), h33)

/-! ## The test fixture (`tests_support.c`) -/

def tests_charbuf_stream_functions (h : lisp_heap) (len : Nat) : lisp_object_t × lisp_heap :=
  lisp_stream_functions_create h backend_charbuf 48
    (lisp_record.charbuf [] 0 0 0 (len - 1) false false false)

/-- What `tests_shared_setup` leaves in its global variables. -/
structure tests_fixture where
  globals : lisp_globals
  tests_root_environment : lisp_object_t
  tests_read_stream : lisp_object_t
  tests_write_stream : lisp_object_t
  heap : lisp_heap

/-- Model `tests_shared_setup`; `raw_heap` is the address `calloc` returned. -/
def tests_shared_setup (fuel : Nat) (raw_heap : Nat) : Run tests_fixture := do
  let h := lisp_heap_initialize raw_heap
  let ((g, tests_root_environment), h1) ← lisp_environment_create_root fuel h
  let (tests_read_buffer_functions, h2) := tests_charbuf_stream_functions h1 4096
  let (tests_read_stream, h3) := lisp_stream_create h2 tests_read_buffer_functions
  let (tests_write_buffer_functions, h4) := tests_charbuf_stream_functions h3 4096
  let (tests_write_stream, h5) := lisp_stream_create h4 tests_write_buffer_functions
  let (_, h6) ← lisp_stream_open g h5 tests_read_stream g.lisp_T g.lisp_NIL
  let (_, h7) ← lisp_environment_set_symbol_value g fuel h6 tests_root_environment
    g.lisp_STANDARD_INPUT g.lisp_APVAL tests_read_stream g.lisp_NIL
  let (_, h8) ← lisp_stream_open g h7 tests_write_stream g.lisp_NIL g.lisp_T
  let (_, h9) ← lisp_environment_set_symbol_value g fuel h8 tests_root_environment
    g.lisp_STANDARD_OUTPUT g.lisp_APVAL tests_write_stream g.lisp_NIL
  pure { globals := g, tests_root_environment := tests_root_environment,
         tests_read_stream := tests_read_stream, tests_write_stream := tests_write_stream,
         heap := h9 }

/-- Model `tests_set_read_buffer` on the stream `tests_read_stream`. -/
def tests_set_read_buffer (h : lisp_heap) (tests_read_stream : lisp_object_t)
    (value : List Nat) : Run lisp_heap :=
  match lisp_stream_get_functions h tests_read_stream with
  | some (metadata, _) =>
    match heap_read h (lisp_object_get_raw_value metadata) with
    | some (lisp_record.charbuf _ _ _ _ max is_open is_readable is_writable) =>
      .ok (heap_write h (lisp_object_get_raw_value metadata)
        (lisp_record.charbuf ((c_string value).take max) 0 0 (c_string value).length max
          is_open is_readable is_writable))
    | _ => .error lisp_error.fault
  | none => .error lisp_error.fault

/-- The C string in the buffer of a character-buffer stream
(`tests_write_buffer`). -/
def tests_buffer (h : lisp_heap) (stream : lisp_object_t) : List Nat :=
  match lisp_stream_get_functions h stream with
  | some (metadata, _) =>
    match heap_read h (lisp_object_get_raw_value metadata) with
    | some (lisp_record.charbuf buf _ _ _ _ _ _ _) => c_string buf
    | _ => []
  | none => []

/-- The value of a finished run, if any. -/
def run_value {α : Type} (r : Run (α × lisp_heap)) : Option α :=
  match r with
  | .ok (v, _) => some v
  | .error _ => none

/-- The heap of a finished run, if any. -/
def run_heap {α : Type} (r : Run (α × lisp_heap)) : Option lisp_heap :=
  match r with
  | .ok (_, h) => some h
  | .error _ => none

/-! ## Views used to state the theorems

These read a structure out of the heap the way the C loops walk it; they are
not part of the program. -/

/-- Sanity of the globals: `T` and `NIL` differ, and the well-known keys are
atoms. -/
structure globals_wf (g : lisp_globals) : Prop where
  T_ne_NIL : g.lisp_T ≠ g.lisp_NIL
  NIL_atom : lisp_object_get_tag g.lisp_NIL = lisp_tag_atom
  APVAL_atom : lisp_object_get_tag g.lisp_APVAL = lisp_tag_atom
  EXPR_atom : lisp_object_get_tag g.lisp_EXPR = lisp_tag_atom
  SUBR_atom : lisp_object_get_tag g.lisp_SUBR = lisp_tag_atom
  PARENT_atom : lisp_object_get_tag g.lisp_SI_PARENT_ENVIRONMENT = lisp_tag_atom

/-- The cells `lisp_plist_find_entry` visits from `p`: it always looks at `p`
and goes on while the `CDR` is not `NIL`. -/
def plist_spine (g : lisp_globals) (h : lisp_heap) : lisp_object_t → List lisp_object_t → Bool
  | _, [] => false
  | p, [c] => decide (c = p) && decide (lisp_cell_cdr g h p = g.lisp_NIL)
  | p, c :: c' :: cs =>
    decide (c = p) && decide (lisp_cell_cdr g h p ≠ g.lisp_NIL)
      && plist_spine g h (lisp_cell_cdr g h p) (c' :: cs)

/-- The outcome of `lisp_equal` when the first argument is an atom: identity,
or an atom with the same name. -/
def atom_key_equal (h : lisp_heap) (symbol k : lisp_object_t) : Bool :=
  decide (symbol = k) ||
    (decide (lisp_object_get_tag k = lisp_tag_atom) &&
      decide (c_string (lisp_atom_get_value h symbol) = c_string (lisp_atom_get_value h k)))

/-- The entry (the `(key . value)` pair) of the first visited cell whose key
is equal to the atom `symbol`. -/
def plist_assoc (g : lisp_globals) (h : lisp_heap) (symbol : lisp_object_t) :
    List lisp_object_t → Option lisp_object_t
  | [] => none
  | c :: cs =>
    if atom_key_equal h symbol (lisp_cell_car g h (lisp_cell_car g h c))
    then some (lisp_cell_car g h c)
    else plist_assoc g h symbol cs

/-- The value under the key `symbol`, or `NIL`. -/
def plist_value (g : lisp_globals) (h : lisp_heap) (symbol : lisp_object_t)
    (cells : List lisp_object_t) : lisp_object_t :=
  match plist_assoc g h symbol cells with
  | some entry => lisp_cell_cdr g h entry
  | none => g.lisp_NIL

/-- One frame of an environment as the lookups see it: the cells of the frame
and the cells of the property list under the parent key (empty when the frame
has none). -/
structure frame_view where
  cells : List lisp_object_t
  parent_cells : List lisp_object_t

/-- The parent of a frame, as `lisp_environment_parent` computes it. -/
def frame_parent (g : lisp_globals) (h : lisp_heap) (f : frame_view) : lisp_object_t :=
  if plist_value g h g.lisp_SI_PARENT_ENVIRONMENT f.cells = g.lisp_NIL then g.lisp_NIL
  else plist_value g h g.lisp_APVAL f.parent_cells

/-- The view `f` describes the frame at `environment`. -/
def frame_ok (g : lisp_globals) (h : lisp_heap) (environment : lisp_object_t)
    (f : frame_view) : Bool :=
  plist_spine g h environment f.cells &&
    (decide (plist_value g h g.lisp_SI_PARENT_ENVIRONMENT f.cells = g.lisp_NIL) ||
      plist_spine g h (plist_value g h g.lisp_SI_PARENT_ENVIRONMENT f.cells) f.parent_cells)

/-- The views `frames` describe the chain of frames from `environment` up to
the frame whose parent is `NIL`. -/
def env_chain (g : lisp_globals) (h : lisp_heap) :
    lisp_object_t → List frame_view → Bool
  | _, [] => false
  | environment, [f] =>
    frame_ok g h environment f && decide (frame_parent g h f = g.lisp_NIL)
  | environment, f :: f' :: fs =>
    frame_ok g h environment f && decide (frame_parent g h f ≠ g.lisp_NIL)
      && env_chain g h (frame_parent g h f) (f' :: fs)

/-- The entry of the nearest frame that has one whose key is equal to the
atom `symbol`. -/
def env_assoc (g : lisp_globals) (h : lisp_heap) (symbol : lisp_object_t) :
    List frame_view → Option lisp_object_t
  | [] => none
  | f :: fs =>
    match plist_assoc g h symbol f.cells with
    | some entry => some entry
    | none => env_assoc g h symbol fs

/-- Fuel that suffices to walk the chain. -/
def env_fuel : List frame_view → Nat
  | [] => 0
  | f :: fs => f.cells.length + f.parent_cells.length + 2 + env_fuel fs

/-- The cells `attrs` are the attribute list of the entry the chain has for
`symbol`, when it has one with an attribute list. -/
def entry_attrs_ok (g : lisp_globals) (h : lisp_heap) (symbol : lisp_object_t)
    (frames : List frame_view) (attrs : List lisp_object_t) : Bool :=
  match env_assoc g h symbol frames with
  | none => true
  | some entry =>
    decide (entry = g.lisp_NIL) || decide (lisp_cell_cdr g h entry = g.lisp_NIL)
      || plist_spine g h (lisp_cell_cdr g h entry) attrs

/-- The value the claim gives to an atom: `NIL` when no frame of the chain
binds it, otherwise the `SUBR` of the entry found if that is not `NIL`, else
its `EXPR` if that is not `NIL`, else its `APVAL`.  `attrs` are the cells of
the attribute list of the entry found. -/
def eval_atom_view (g : lisp_globals) (h : lisp_heap) (frames : List frame_view)
    (attrs : List lisp_object_t) (atom : lisp_object_t) : lisp_object_t :=
  match env_assoc g h atom frames with
  | none => g.lisp_NIL
  | some entry =>
    if entry = g.lisp_NIL ∨ lisp_cell_cdr g h entry = g.lisp_NIL then g.lisp_NIL
    else if plist_value g h g.lisp_SUBR attrs ≠ g.lisp_NIL then plist_value g h g.lisp_SUBR attrs
    else if plist_value g h g.lisp_EXPR attrs ≠ g.lisp_NIL then plist_value g h g.lisp_EXPR attrs
    else plist_value g h g.lisp_APVAL attrs

/-! ## Example scenarios

Small environments built with the functions above, on which the theorems are
instantiated: the seven bootstrap symbols of `lisp_environment_create_root`,
to which a scenario adds the special forms and `SUBR`s it needs. -/

/-- The globals, an environment and the heap of a scenario. -/
structure example_state where
  g : lisp_globals
  environment : lisp_object_t
  h : lisp_heap

/-- The cells visited from `p` along the `CDR`s, at most `fuel` of them. -/
def spine_cells (g : lisp_globals) (h : lisp_heap) : Nat → lisp_object_t → List lisp_object_t
  | 0, _ => []
  | fuel + 1, p =>
    if lisp_cell_cdr g h p = g.lisp_NIL then [p]
    else p :: spine_cells g h fuel (lisp_cell_cdr g h p)

/-- The bootstrap frame of `lisp_environment_create_root` on a heap that starts
at `0x100000`. -/
def example_root : example_state :=
  match lisp_environment_create_root_raw ( lisp_heap_initialize 0x100000) with
  | .ok ((g, environment), h) => ⟨g, environment, h⟩
  | .error _ => ⟨lisp_globals_NULL, 0, lisp_heap_initialize 0⟩

/-- A freshly created atom named `T` (not the well-known one) and the heap
after its creation. -/
def example_fresh_T : lisp_object_t × lisp_heap :=
  lisp_atom_create_c example_root.h (c_str "T")

/-- The view of the frame at `environment`, read off the heap. -/
def frame_view_of (g : lisp_globals) (h : lisp_heap) (fuel : Nat)
    (environment : lisp_object_t) : frame_view :=
  let cells := spine_cells g h fuel environment
  let parent_plist := plist_value g h g.lisp_SI_PARENT_ENVIRONMENT cells
  ⟨cells, if parent_plist = g.lisp_NIL then [] else spine_cells g h fuel parent_plist⟩

/-- The cells of the attribute list of the entry the chain has for `symbol`. -/
def entry_attrs_of (g : lisp_globals) (h : lisp_heap) (fuel : Nat) (symbol : lisp_object_t)
    (frames : List frame_view) : List lisp_object_t :=
  match env_assoc g h symbol frames with
  | none => []
  | some entry => spine_cells g h fuel (lisp_cell_cdr g h entry)

/-- The outcome of a set-up, or an empty state when the set-up failed. -/
def example_of_run (r : Run ((lisp_globals × lisp_object_t) × lisp_heap)) : example_state :=
  match r with
  | .ok ((g, environment), h) => ⟨g, environment, h⟩
  | .error _ => ⟨lisp_globals_NULL, 0, lisp_heap_initialize 0⟩

/-- An interpreter over the bootstrap frame, set up as
`lisp_environment_create_root` does but with six of the special forms
(`DEFINE`, `DEFUN`, `IF`, `LAMBDA`, `QUOTE`, `BLOCK`) and one of the rows of
`lisp_built_in_SUBRs` (`*`); the environment is the child of that frame. -/
def example_interpreter_run : Run ((lisp_globals × lisp_object_t) × lisp_heap) := do
  let g := example_root.g
  let root := example_root.environment
  let (DEFINE, h1) ← lisp_intern_c g 64 example_root.h root "DEFINE"
  let (DEFUN, h2) ← lisp_intern_c g 64 h1 root "DEFUN"
  let (IF, h3) ← lisp_intern_c g 64 h2 root "IF"
  let (LAMBDA, h4) ← lisp_intern_c g 64 h3 root "LAMBDA"
  let (QUOTE, h5) ← lisp_intern_c g 64 h4 root "QUOTE"
  let (BLOCK, h6) ← lisp_intern_c g 64 h5 root "BLOCK"
  let g1 := { g with lisp_symbol_DEFINE := DEFINE, lisp_symbol_DEFUN := DEFUN,
                     lisp_symbol_IF := IF, lisp_symbol_LAMBDA := LAMBDA,
                     lisp_symbol_QUOTE := QUOTE, lisp_symbol_BLOCK := BLOCK }
  let g2 := { g1 with lisp_special_form_mappings := lisp_special_form_mappings_table g1 }
  let h7 ← lisp_environment_add_built_in_SUBRs_loop g2 64 [(subr_sign_TIMES, "*")] h6 root
  let (mutable_environment, h8) ← lisp_environment_create g2 h7 root
  pure ((g2, mutable_environment), h8)

def example_interpreter : example_state := example_of_run example_interpreter_run

/-- The forms of `test_evaluating_DEFINE`, built with `lisp_cell_list` as the
test does, followed by the application `(SQUARE 5)`: whether the `DEFINE`
returned the atom `SQUARE`, and the value of the application. -/
def example_SQUARE : Run ((Bool × lisp_object_t) × lisp_heap) := do
  let g := example_interpreter.g
  let (environment, h0) ← lisp_environment_create g example_interpreter.h
    example_interpreter.environment
  let (MULTIPLY, h1) := lisp_atom_create_c h0 (c_str "*")
  let (SQUARE, h2) := lisp_atom_create_c h1 (c_str "SQUARE")
  let (X, h3) := lisp_atom_create_c h2 (c_str "X")
  let (lambda_list, h4) ← lisp_cell_list g h3 X [g.lisp_NIL]
  let (body, h5) ← lisp_cell_list g h4 MULTIPLY [X, X, g.lisp_NIL]
  let (SQUARE_LAMBDA_form, h6) ← lisp_cell_list g h5 g.lisp_symbol_LAMBDA
    [lambda_list, body, g.lisp_NIL]
  let (SQUARE_form, h7) ← lisp_cell_list g h6 g.lisp_symbol_DEFINE
    [SQUARE, SQUARE_LAMBDA_form, g.lisp_NIL]
  let (evaluated_SQUARE_form, h8) ← lisp_eval g 64 h7 environment SQUARE_form
  let (application, h9) ← lisp_cell_list g h8 SQUARE [lisp_fixnum_create true 5, g.lisp_NIL]
  let (value, h10) ← lisp_eval g 64 h9 environment application
  pure ((decide (evaluated_SQUARE_form = SQUARE), value), h10)

/-- Three applications with `lisp_apply` of a lambda form whose body is `'X`:
`(LAMBDA () 'X)` to the one-element list `(1)`, `(LAMBDA (A) 'X)` to the empty
list, and `(LAMBDA (A B) 'X)` to `(1)`.  The outcome says, in this order,
whether the first returned `X`, whether the second returned `X`, whether the
third returned `NIL`, and whether `X` differs from `NIL`. -/
def example_LAMBDA_mismatch : Run ((Bool × Bool × Bool × Bool) × lisp_heap) := do
  let g := example_interpreter.g
  let environment := example_interpreter.environment
  let (X, h1) := lisp_atom_create_c example_interpreter.h (c_str "X")
  let (A, h2) := lisp_atom_create_c h1 (c_str "A")
  let (B, h3) := lisp_atom_create_c h2 (c_str "B")
  let (QUOTE_X, h4) ← lisp_cell_list g h3 g.lisp_symbol_QUOTE [X, g.lisp_NIL]
  let (body, h5) := lisp_cell_cons h4 QUOTE_X g.lisp_NIL
  let (rest_0, h6) := lisp_cell_cons h5 g.lisp_NIL body
  let (LAMBDA_0, h7) := lisp_cell_cons h6 g.lisp_symbol_LAMBDA rest_0
  let (list_A, h8) ← lisp_cell_list g h7 A [g.lisp_NIL]
  let (rest_1, h9) := lisp_cell_cons h8 list_A body
  let (LAMBDA_1, h10) := lisp_cell_cons h9 g.lisp_symbol_LAMBDA rest_1
  let (list_A_B, h11) ← lisp_cell_list g h10 A [B, g.lisp_NIL]
  let (rest_2, h12) := lisp_cell_cons h11 list_A_B body
  let (LAMBDA_2, h13) := lisp_cell_cons h12 g.lisp_symbol_LAMBDA rest_2
  let (one_argument, h14) ← lisp_cell_list g h13 (lisp_fixnum_create true 1) [g.lisp_NIL]
  let (result_0, h15) ← lisp_apply g 64 h14 environment LAMBDA_0 one_argument
  let (result_1, h16) ← lisp_apply g 64 h15 environment LAMBDA_1 g.lisp_NIL
  let (result_2, h17) ← lisp_apply g 64 h16 environment LAMBDA_2 one_argument
  pure ((decide (result_0 = X), decide (result_1 = X), decide (result_2 = g.lisp_NIL),
         decide (X ≠ g.lisp_NIL)), h17)

/-- The interpreter of `example_interpreter` with a character-buffer stream
open for reading, as `tests_shared_setup` makes `tests_read_stream`; the
buffer holds `text`. -/
def example_reader (text : String) : Run (lisp_object_t × lisp_heap) := do
  let g := example_interpreter.g
  let (tests_read_buffer_functions, h1) := tests_charbuf_stream_functions example_interpreter.h 4096
  let (tests_read_stream, h2) := lisp_stream_create h1 tests_read_buffer_functions
  let (_, h3) ← lisp_stream_open g h2 tests_read_stream g.lisp_T g.lisp_NIL
  let h4 ← tests_set_read_buffer h3 tests_read_stream (c_str text)
  pure (tests_read_stream, h4)

/-- One `lisp_read` of `text` in the environment of `example_interpreter`. -/
def example_read (text : String) : Run (lisp_object_t × lisp_heap) := do
  let (tests_read_stream, h) ← example_reader text
  lisp_read example_interpreter.g 64 h example_interpreter.environment tests_read_stream
    example_interpreter.g.lisp_NIL

/-- The shape of what `lisp_read` returns for `text`: whether it is a cell,
whether its `CAR` is the `QUOTE` symbol, and whether its `CDR` is `NIL` (a list
of one element). -/
def example_read_quote_shape (text : String) : Option (Bool × Bool × Bool) :=
  match example_read text with
  | .ok (read_object, h) =>
    some (decide (lisp_cellp example_interpreter.g read_object ≠ example_interpreter.g.lisp_NIL),
          decide (lisp_cell_car example_interpreter.g h read_object
                    = example_interpreter.g.lisp_symbol_QUOTE),
          decide (lisp_cell_cdr example_interpreter.g h read_object
                    = example_interpreter.g.lisp_NIL))
  | .error _ => none

/-- Read `definition` and evaluate it, then evaluate the atom it returned
(which gives the `EXPR` stored for it), then read and evaluate `application`.
The outcome describes the stored `EXPR`: its length along the `CDR`s, whether
its `CAR` is the `LAMBDA` symbol and whether its third element is a cell;
and it gives the value of the application. -/
def example_define_and_apply (definition application : String) :
    Run ((Nat × Bool × Bool × lisp_object_t) × lisp_heap) := do
  let g := example_interpreter.g
  let environment := example_interpreter.environment
  let (tests_read_stream, h) ← example_reader definition
  let (definition_form, h1) ← lisp_read g 64 h environment tests_read_stream g.lisp_NIL
  let (name, h2) ← lisp_eval g 64 h1 environment definition_form
  let (expr, h3) ← lisp_eval g 64 h2 environment name
  let h4 ← tests_set_read_buffer h3 tests_read_stream (c_str application)
  let (application_form, h5) ← lisp_read g 64 h4 environment tests_read_stream g.lisp_NIL
  let (value, h6) ← lisp_eval g 64 h5 environment application_form
  let third := lisp_cell_car g h6 (lisp_cell_cdr g h6 (lisp_cell_cdr g h6 expr))
  pure (((spine_cells g h6 8 expr).length,
         decide (lisp_cell_car g h6 expr = g.lisp_symbol_LAMBDA),
         decide (lisp_cellp g third ≠ g.lisp_NIL), value), h6)

/-! ## Views of lists and of argument evaluation -/

/-- The object `p` is a proper list whose cells are `cells`: each is a cell and
the `CDR` of the last is `NIL`. -/
def list_cells (g : lisp_globals) (h : lisp_heap) : lisp_object_t → List lisp_object_t → Bool
  | p, [] => decide (p = g.lisp_NIL)
  | p, c :: cs =>
    decide (c = p) && decide (lisp_cellp g p ≠ g.lisp_NIL)
      && list_cells g h (lisp_cell_cdr g h p) cs

/-- One evaluation of an argument: the cell that receives the value, the
value, the heap the form is evaluated in, the heap the evaluation leaves, and
the heap once the cell is allocated and appended to the result. -/
structure arg_step where
  cell : lisp_object_t
  value : lisp_object_t
  before : lisp_heap
  after : lisp_heap
  linked : lisp_heap

/-- Evaluate the forms one after the other, each once and each in the heap the
previous one left, putting every value in a new cell that is appended to the
cell `previous` of the value before it. -/
def eval_in_order (g : lisp_globals) (ev : lisp_eval_fn) (environment : lisp_object_t) :
    List lisp_object_t → lisp_heap → Option lisp_object_t → Run (List arg_step)
  | [], _, _ => pure []
  | form :: forms, h, previous => do
    let (value, h1) ← ev h environment form
    let (result_cell, h2) := lisp_cell_cons h1 value g.lisp_NIL
    let h3 ←
      match previous with
      | none => pure h2
      | some result_tail => do
        let (_, h3) ← lisp_cell_rplacd h2 result_tail result_cell
        pure h3
    let rest ← eval_in_order g ev environment forms h3 (some result_cell)
    pure (⟨result_cell, value, h, h1, h3⟩ :: rest)

/-- No evaluation of the run changes the record at a protected address (the
cells of the list of forms, and the result cells allocated so far), and each
leaves the allocation pointer no lower than it found it and on a multiple of
sixteen. -/
def arg_steps_ok : List Nat → List arg_step → Bool
  | _, [] => true
  | protected_addresses, s :: ss =>
    decide (s.before.lisp_heap_cur ≤ s.after.lisp_heap_cur)
      && decide (s.after.lisp_heap_cur % 16 = 0)
      && protected_addresses.all
          (fun a => decide (heap_read s.after a = heap_read s.before a))
      && arg_steps_ok (s.after.lisp_heap_cur :: protected_addresses) ss

/-- The heap a run of evaluations ends with. -/
def arg_steps_heap (h : lisp_heap) (steps : List arg_step) : lisp_heap :=
  match steps.getLast? with
  | some s => s.linked
  | none => h

/-- The list a run of evaluations returns: its first cell, or `NIL`. -/
def arg_steps_result (g : lisp_globals) (steps : List arg_step) : lisp_object_t :=
  match steps.head? with
  | some s => s.cell
  | none => g.lisp_NIL

/-- The cells of `linked`, each given with the value it holds, form a chain in
the heap: every cell holds its value and points to the next one, the last one
to `NIL`. -/
def cells_linked (g : lisp_globals) (h : lisp_heap) :
    List (lisp_object_t × lisp_object_t) → Prop
  | [] => True
  | [p] => heap_read h p.1 = some (lisp_record.cell p.2 g.lisp_NIL)
  | p :: q :: rest =>
    heap_read h p.1 = some (lisp_record.cell p.2 q.1) ∧ cells_linked g h (q :: rest)

/-- The first cell of a chain, or `NIL`. -/
def linked_result (g : lisp_globals) (linked : List (lisp_object_t × lisp_object_t)) :
    lisp_object_t :=
  match linked.head? with
  | some p => p.1
  | none => g.lisp_NIL

/-- The last cell of a chain, or `NIL`. -/
def linked_tail (g : lisp_globals) (linked : List (lisp_object_t × lisp_object_t)) :
    lisp_object_t :=
  match linked.getLast? with
  | some p => p.1
  | none => g.lisp_NIL

/-- Whether a run produced a result. -/
def run_ok {α : Type} (r : Run α) : Bool :=
  match r with
  | .ok _ => true
  | .error _ => false

/-- The steps of a run of evaluations, none if it failed. -/
def run_steps (r : Run (List arg_step)) : List arg_step :=
  match r with
  | .ok steps => steps
  | .error _ => []

/-- The list of forms `(T 'X 5)`, built with `lisp_cell_list` in the heap of
`example_interpreter`, and the heap that holds it. -/
def example_arguments : lisp_object_t × lisp_heap :=
  let g := example_interpreter.g
  let (X, h1) := lisp_atom_create_c example_interpreter.h (c_str "X")
  match lisp_cell_list g h1 g.lisp_symbol_QUOTE [X, g.lisp_NIL] with
  | .ok (QUOTE_X, h2) =>
    match lisp_cell_list g h2 g.lisp_T [QUOTE_X, lisp_fixnum_create true 5, g.lisp_NIL] with
    | .ok r => r
    | .error _ => (0, h2)
  | .error _ => (0, h1)

/-- The cells of the list of `example_arguments`. -/
def example_arguments_cells : List lisp_object_t :=
  spine_cells example_interpreter.g example_arguments.2 4 example_arguments.1

/-- The evaluations of the forms of `example_arguments`, one after the other,
by `lisp_eval`. -/
def example_arguments_steps : List arg_step :=
  run_steps (eval_in_order example_interpreter.g (lisp_eval example_interpreter.g 16)
    example_interpreter.environment
    (example_arguments_cells.map (lisp_cell_car example_interpreter.g example_arguments.2))
    example_arguments.2 none)

/-! ## Views of an application frame -/

/-- The four cells a binding takes in a frame made by `lisp_environment_create`
or extended by `lisp_environment_set_symbol_value`, allocated one after the
other from the address `b`: the pair `(APVAL . value)`, the attribute list that
holds it, the entry `(key . attributes)`, and the cell of the frame, whose
`CDR` is `next`. -/
def binding_at (g : lisp_globals) (h : lisp_heap) (b key value next : Nat) : Prop :=
  heap_read h b = some (lisp_record.cell g.lisp_APVAL value)
  ∧ heap_read h (b + 16) = some (lisp_record.cell b g.lisp_NIL)
  ∧ heap_read h (b + 32) = some (lisp_record.cell key (b + 16))
  ∧ heap_read h (b + 48) = some (lisp_record.cell (b + 32) next)

/-- A frame whose bindings, in order, are `bindings` (keys with values), laid
out from the address `b`. -/
def frame_blocks (g : lisp_globals) (h : lisp_heap) :
    Nat → List (lisp_object_t × lisp_object_t) → Prop
  | _, [] => True
  | b, [kv] => binding_at g h b kv.1 kv.2 g.lisp_NIL
  | b, kv :: kv' :: rest =>
    binding_at g h b kv.1 kv.2 (b + 112) ∧ frame_blocks g h (b + 64) (kv' :: rest)

/-- The cells of the frame laid out from `b`. -/
def block_cells : Nat → List (lisp_object_t × lisp_object_t) → List lisp_object_t
  | _, [] => []
  | b, _ :: rest => (b + 48) :: block_cells (b + 64) rest

/-- The entry of the first binding whose key is equal to the atom `symbol`. -/
def block_assoc (h : lisp_heap) (symbol : lisp_object_t) :
    Nat → List (lisp_object_t × lisp_object_t) → Option lisp_object_t
  | _, [] => none
  | b, kv :: rest =>
    if atom_key_equal h symbol kv.1 then some (b + 32) else block_assoc h symbol (b + 64) rest

/-- Every key is an atom, and none is equal, as `lisp_equal` compares atoms
(by name), to a key before it. -/
def keys_fresh (h : lisp_heap) : List lisp_object_t → Bool
  | [] => true
  | k :: ks =>
    decide (lisp_object_get_tag k = lisp_tag_atom)
      && ks.all (fun p => !atom_key_equal h p k) && keys_fresh h ks

/-- Evaluate the forms one after the other, each once and each in the heap the
previous one left; the result is the value of the last, or `result` when there
is none. -/
def eval_body (ev : lisp_eval_fn) (environment : lisp_object_t) :
    List lisp_object_t → lisp_heap → lisp_object_t → Run (lisp_object_t × lisp_heap)
  | [], h, result => pure (result, h)
  | form :: forms, h, _ => do
    let (value, h1) ← ev h environment form
    eval_body ev environment forms h1 value

/-- No evaluation of the run changes the record at a protected address (the
cells of the list of forms). -/
def body_stable (ev : lisp_eval_fn) (environment : lisp_object_t)
    (protected_addresses : List Nat) : List lisp_object_t → lisp_heap → Bool
  | [], _ => true
  | form :: forms, h =>
    match ev h environment form with
    | .ok (_, h1) =>
      protected_addresses.all (fun a => decide (heap_read h1 a = heap_read h a))
        && body_stable ev environment protected_addresses forms h1
    | .error _ => true

/-- The application environment of `lisp_apply_expr` and the heap in which it
starts to evaluate the body: what `lisp_environment_create` and
`lisp_environment_bind_variables` leave. -/
def apply_frame (g : lisp_globals) (fuel : Nat) (h : lisp_heap)
    (environment function arguments : lisp_object_t) : lisp_object_t × lisp_heap :=
  match lisp_environment_create g h environment with
  | .ok (application_environment, h1) =>
    match lisp_environment_bind_variables g fuel h1 application_environment
        (lisp_cell_car g h1 (lisp_cell_cdr g h1 function)) arguments with
    | .ok (_, h2) => (application_environment, h2)
    | .error _ => (application_environment, h1)
  | .error _ => (0, h)

/-- The heap `lisp_cell_cons` leaves. -/
def cons_heap (h : lisp_heap) (car cdr : lisp_object_t) : lisp_heap :=
  { heap_write h h.lisp_heap_cur (lisp_record.cell car cdr) with
    lisp_heap_cur := h.lisp_heap_cur + 16 }

/-- The heap once the four cells of a binding are allocated, in the order in
which `lisp_environment_create` and `lisp_environment_set_symbol_value`
allocate them. -/
def block_heap (g : lisp_globals) (h : lisp_heap) (key value : lisp_object_t) : lisp_heap :=
  cons_heap
    (cons_heap
      (cons_heap
        (cons_heap h g.lisp_APVAL value)
        h.lisp_heap_cur g.lisp_NIL)
      key (h.lisp_heap_cur + 16))
    (h.lisp_heap_cur + 32) g.lisp_NIL

/-- The scenario of `test_evaluating_LAMBDA_in_function_position`: the lambda
form `(LAMBDA (V) (IF V 'X 'Y))`, the argument lists `(T)` and `(NIL)`, the
atoms `X` and `Y` of the form, and the heap that holds them. -/
structure example_application where
  function : lisp_object_t
  arguments_T : lisp_object_t
  arguments_NIL : lisp_object_t
  X : lisp_object_t
  Y : lisp_object_t
  h : lisp_heap

/-- The forms of `test_evaluating_LAMBDA_in_function_position`, built with
`lisp_cell_list` as the test builds them. -/
def example_LAMBDA_run : Run example_application := do
  let g := example_interpreter.g
  let (V, h1) := lisp_atom_create_c example_interpreter.h (c_str "V")
  let (X, h2) := lisp_atom_create_c h1 (c_str "X")
  let (Y, h3) := lisp_atom_create_c h2 (c_str "Y")
  let (QUOTE_X, h4) ← lisp_cell_list g h3 g.lisp_symbol_QUOTE [X, g.lisp_NIL]
  let (QUOTE_Y, h5) ← lisp_cell_list g h4 g.lisp_symbol_QUOTE [Y, g.lisp_NIL]
  let (IF_form, h6) ← lisp_cell_list g h5 g.lisp_symbol_IF [V, QUOTE_X, QUOTE_Y, g.lisp_NIL]
  let (list_V, h7) ← lisp_cell_list g h6 V [g.lisp_NIL]
  let (LAMBDA_form, h8) ← lisp_cell_list g h7 g.lisp_symbol_LAMBDA [list_V, IF_form, g.lisp_NIL]
  let (arguments_NIL, h9) := lisp_cell_cons h8 g.lisp_NIL g.lisp_NIL
  let (arguments_T, h10) := lisp_cell_cons h9 g.lisp_T g.lisp_NIL
  pure ⟨LAMBDA_form, arguments_T, arguments_NIL, X, Y, h10⟩

def example_LAMBDA : example_application :=
  match example_LAMBDA_run with
  | .ok r => r
  | .error _ => ⟨0, 0, 0, 0, 0, example_interpreter.h⟩

/-- The cells of the parameter list of `example_LAMBDA`. -/
def example_LAMBDA_parameters : List lisp_object_t :=
  spine_cells example_interpreter.g example_LAMBDA.h 4
    (lisp_cell_car example_interpreter.g example_LAMBDA.h
      (lisp_cell_cdr example_interpreter.g example_LAMBDA.h example_LAMBDA.function))

/-- The cells of the body of `example_LAMBDA`. -/
def example_LAMBDA_body : List lisp_object_t :=
  spine_cells example_interpreter.g example_LAMBDA.h 4
    (lisp_cell_cdr example_interpreter.g example_LAMBDA.h
      (lisp_cell_cdr example_interpreter.g example_LAMBDA.h example_LAMBDA.function))

/-- The view of the chain of `example_root`, in the heap of `example_fresh_T`. -/
def example_root_frames : List frame_view :=
  [frame_view_of example_root.g example_fresh_T.2 8 example_root.environment]

/-- The attribute cells of the entry `example_fresh_T` is looked up to. -/
def example_fresh_T_attrs : List lisp_object_t :=
  entry_attrs_of example_root.g example_fresh_T.2 8 example_fresh_T.1 example_root_frames

/-- The application frame of `example_LAMBDA` applied to `(T)`. -/
def example_LAMBDA_frame : lisp_object_t × lisp_heap :=
  apply_frame example_interpreter.g 32 example_LAMBDA.h example_interpreter.environment
    example_LAMBDA.function example_LAMBDA.arguments_T

/-! ## Scenarios for the arithmetic and list `SUBR`s -/

/-- The proper list of the fixnums of `values`, allocated with
`lisp_cell_cons` from the last element to the first on the heap of
`example_root`. -/
def example_fixnum_list : List Int → lisp_object_t × lisp_heap
  | [] => (example_root.g.lisp_NIL, example_root.h)
  | v :: vs =>
    lisp_cell_cons (example_fixnum_list vs).2 (lisp_fixnum_create true v)
      (example_fixnum_list vs).1

/-- The cells of `example_fixnum_list values`. -/
def example_fixnum_cells (values : List Int) : List lisp_object_t :=
  if (example_fixnum_list values).1 = example_root.g.lisp_NIL then []
  else spine_cells example_root.g (example_fixnum_list values).2 (values.length + 1)
    (example_fixnum_list values).1

/-! ## Views of the evaluation of a sequence of forms that stops at `NIL` -/

/-- Evaluate the forms one after the other, each in the heap the previous one
left, and stop with `NIL` at the first whose value is `NIL`, without
evaluating the forms after it; when no value is `NIL` the result is the value
of the last form, or `result` when there is no form. -/
def eval_until_NIL (g : lisp_globals) (ev : lisp_eval_fn) (environment : lisp_object_t) :
    List lisp_object_t → lisp_heap → lisp_object_t → Run (lisp_object_t × lisp_heap)
  | [], h, result => pure (result, h)
  | form :: forms, h, _ => do
    let (value, h1) ← ev h environment form
    if value = g.lisp_NIL then pure (g.lisp_NIL, h1)
    else eval_until_NIL g ev environment forms h1 value

/-- No evaluation that `eval_until_NIL` performs changes the record at a
protected address (the cells of the list of forms). -/
def until_NIL_stable (g : lisp_globals) (ev : lisp_eval_fn) (environment : lisp_object_t)
    (protected_addresses : List Nat) : List lisp_object_t → lisp_heap → Bool
  | [], _ => true
  | form :: forms, h =>
    match ev h environment form with
    | .ok (value, h1) =>
      protected_addresses.all (fun a => decide (heap_read h1 a = heap_read h a))
        && (decide (value = g.lisp_NIL)
            || until_NIL_stable g ev environment protected_addresses forms h1)
    | .error _ => true

/-- The form `(AND T 'X NIL 'Y)`, its cells allocated with `lisp_cell_cons`
from the last to the first on the heap of `example_interpreter`; the `AND`
symbol is a fresh atom, since `lisp_eval_AND` does not look at it. -/
def example_AND : lisp_object_t × lisp_heap :=
  let g := example_interpreter.g
  let (AND, h1) := lisp_atom_create_c example_interpreter.h (c_str "AND")
  let (X, h2) := lisp_atom_create_c h1 (c_str "X")
  let (Y, h3) := lisp_atom_create_c h2 (c_str "Y")
  let (X_rest, h4) := lisp_cell_cons h3 X g.lisp_NIL
  let (QUOTE_X, h5) := lisp_cell_cons h4 g.lisp_symbol_QUOTE X_rest
  let (Y_rest, h6) := lisp_cell_cons h5 Y g.lisp_NIL
  let (QUOTE_Y, h7) := lisp_cell_cons h6 g.lisp_symbol_QUOTE Y_rest
  let (rest_4, h8) := lisp_cell_cons h7 QUOTE_Y g.lisp_NIL
  let (rest_3, h9) := lisp_cell_cons h8 g.lisp_NIL rest_4
  let (rest_2, h10) := lisp_cell_cons h9 QUOTE_X rest_3
  let (rest_1, h11) := lisp_cell_cons h10 g.lisp_T rest_2
  lisp_cell_cons h11 AND rest_1

/-- The cells of the argument forms of `example_AND`. -/
def example_AND_cells : List lisp_object_t :=
  spine_cells example_interpreter.g example_AND.2 4
    (lisp_cell_cdr example_interpreter.g example_AND.2 example_AND.1)

/-! ## Scenarios for the special forms -/

/-- The interpreter of `example_interpreter` with three more of the special
forms of `lisp_environment_add_built_in_special_forms` interned in the
bootstrap frame and entered in the table: `COND`, `SET` and `SETQ`. -/
def example_sforms_run : Run ((lisp_globals × lisp_object_t) × lisp_heap) := do
  let g := example_interpreter.g
  let root := example_root.environment
  let (COND, h1) ← lisp_intern_c g 64 example_interpreter.h root "COND"
  let (SET, h2) ← lisp_intern_c g 64 h1 root "SET"
  let (SETQ, h3) ← lisp_intern_c g 64 h2 root "SETQ"
  let g1 := { g with lisp_symbol_COND := COND, lisp_symbol_SET := SET,
                     lisp_symbol_SETQ := SETQ }
  let g2 := { g1 with lisp_special_form_mappings := lisp_special_form_mappings_table g1 }
  pure ((g2, example_interpreter.environment), h3)

def example_sforms : example_state := example_of_run example_sforms_run

/-- Whether the run ended in the fault that stands for a wild store. -/
def run_faulted {α : Type} (r : Run α) : Bool :=
  match r with
  | .error lisp_error.fault => true
  | _ => false

/-- The forms `(COND (T))` and `(COND (T 5))` evaluated in the environment of
`example_sforms`, and the atom `T` evaluated there: the three values. -/
def example_COND : Run ((lisp_object_t × lisp_object_t × lisp_object_t) × lisp_heap) := do
  let g := example_sforms.g
  let environment := example_sforms.environment
  let (clause, h1) := lisp_cell_cons example_sforms.h g.lisp_T g.lisp_NIL
  let (clauses, h2) := lisp_cell_cons h1 clause g.lisp_NIL
  let (COND_T, h3) := lisp_cell_cons h2 g.lisp_symbol_COND clauses
  let (clause_5, h4) ← lisp_cell_list g h3 g.lisp_T [lisp_fixnum_create true 5, g.lisp_NIL]
  let (COND_T_5, h5) ← lisp_cell_list g h4 g.lisp_symbol_COND [clause_5, g.lisp_NIL]
  let (value, h6) ← lisp_eval g 64 h5 environment COND_T
  let (value_5, h7) ← lisp_eval g 64 h6 environment COND_T_5
  let (value_T, h8) ← lisp_eval g 64 h7 environment g.lisp_T
  pure ((value, value_5, value_T), h8)

/-- The form `(BLOCK B)` evaluated in a new child of the environment of
`example_sforms`, then `(SETQ NIL 5)` and `(BLOCK B)` once more: the three
values. -/
def example_BLOCK : Run ((lisp_object_t × lisp_object_t × lisp_object_t) × lisp_heap) := do
  let g := example_sforms.g
  let (environment, h0) ← lisp_environment_create g example_sforms.h example_sforms.environment
  let (B, h1) := lisp_atom_create_c h0 (c_str "B")
  let (BLOCK_B, h2) ← lisp_cell_list g h1 g.lisp_symbol_BLOCK [B, g.lisp_NIL]
  let (rest_2, h3) := lisp_cell_cons h2 (lisp_fixnum_create true 5) g.lisp_NIL
  let (rest_1, h4) := lisp_cell_cons h3 g.lisp_NIL rest_2
  let (SETQ_NIL_5, h5) := lisp_cell_cons h4 g.lisp_symbol_SETQ rest_1
  let (before, h6) ← lisp_eval g 64 h5 environment BLOCK_B
  let (set, h7) ← lisp_eval g 64 h6 environment SETQ_NIL_5
  let (after, h8) ← lisp_eval g 64 h7 environment BLOCK_B
  pure ((before, set, after), h8)

/-- The argument lists `(NIL NIL)`, `(5 NIL)` and `(NIL (5))` given to
`lisp_subr_MEMBER` on the heap of `example_root`: the three values. -/
def example_MEMBER : Run ((lisp_object_t × lisp_object_t × lisp_object_t) × lisp_heap) := do
  let g := example_root.g
  let environment := example_root.environment
  let (rest_NIL, h1) := lisp_cell_cons example_root.h g.lisp_NIL g.lisp_NIL
  let (NIL_NIL, h2) := lisp_cell_cons h1 g.lisp_NIL rest_NIL
  let (five_NIL, h3) := lisp_cell_cons h2 (lisp_fixnum_create true 5) rest_NIL
  let (list_5, h4) := lisp_cell_cons h3 (lisp_fixnum_create true 5) g.lisp_NIL
  let (rest_5, h5) := lisp_cell_cons h4 list_5 g.lisp_NIL
  let (NIL_list_5, h6) := lisp_cell_cons h5 g.lisp_NIL rest_5
  let (value_NIL_NIL, h7) ← lisp_subr_MEMBER g 16 h6 environment NIL_NIL
  let (value_5_NIL, h8) ← lisp_subr_MEMBER g 16 h7 environment five_NIL
  let (value_NIL_5, h9) ← lisp_subr_MEMBER g 16 h8 environment NIL_list_5
  pure ((value_NIL_NIL, value_5_NIL, value_NIL_5), h9)

/-- The bootstrap frame after `lisp_tagbody_initialize`, with the `TAGBODY`
symbol interned and entered in the table of special forms; the environment is
a child of that frame. -/
def example_tagbody_run : Run ((lisp_globals × lisp_object_t) × lisp_heap) := do
  let g := example_root.g
  let root := example_root.environment
  let (TAGBODY, h1) ← lisp_intern_c g 64 example_root.h root "TAGBODY"
  let g1 := { g with lisp_symbol_TAGBODY := TAGBODY }
  let g2 := { g1 with lisp_special_form_mappings := lisp_special_form_mappings_table g1 }
  let (g3, h2) ← lisp_tagbody_initialize g2 64 h1 root
  let (environment, h3) ← lisp_environment_create g3 h2 root
  pure ((g3, environment), h3)

def example_tagbody : example_state := example_of_run example_tagbody_run

/-- The forms `(TAGBODY)` and `(TAGBODY 5)` evaluated, each on its own, in
the environment of `example_tagbody`: the two outcomes. -/
def example_TAGBODY :
    Run (lisp_object_t × lisp_heap) × Run (lisp_object_t × lisp_heap) :=
  let g := example_tagbody.g
  let environment := example_tagbody.environment
  let (TAGBODY_empty, h1) := lisp_cell_cons example_tagbody.h g.lisp_symbol_TAGBODY g.lisp_NIL
  let (rest, h2) := lisp_cell_cons h1 (lisp_fixnum_create true 5) g.lisp_NIL
  let (TAGBODY_5, h3) := lisp_cell_cons h2 g.lisp_symbol_TAGBODY rest
  (lisp_eval g 64 h3 environment TAGBODY_empty, lisp_eval g 64 h3 environment TAGBODY_5)

/-- Print the one-element list `(leaf)` with `lisp_print` to a character-buffer
stream made as `tests_shared_setup` makes `tests_write_stream`, give the
printed text to a stream made as it makes `tests_read_stream`, and read it
back with `lisp_read`, all in the environment of `example_interpreter`: the
printed text, and whether `lisp_equal` finds the list read equal to the list
printed. -/
def example_round_trip (leaf : lisp_object_t) : Run ((List Nat × Bool) × lisp_heap) := do
  let g := example_interpreter.g
  let environment := example_interpreter.environment
  let (tests_read_buffer_functions, h1) := tests_charbuf_stream_functions example_interpreter.h 4096
  let (tests_read_stream, h2) := lisp_stream_create h1 tests_read_buffer_functions
  let (tests_write_buffer_functions, h3) := tests_charbuf_stream_functions h2 4096
  let (tests_write_stream, h4) := lisp_stream_create h3 tests_write_buffer_functions
  let (_, h5) ← lisp_stream_open g h4 tests_read_stream g.lisp_T g.lisp_NIL
  let (_, h6) ← lisp_stream_open g h5 tests_write_stream g.lisp_NIL g.lisp_T
  let (printed, h7) := lisp_cell_cons h6 leaf g.lisp_NIL
  let (_, h8) ← lisp_print g 64 h7 environment tests_write_stream printed
  let text := tests_buffer h8 tests_write_stream
  let h9 ← tests_set_read_buffer h8 tests_read_stream text
  let (read_back, h10) ← lisp_read g 64 h9 environment tests_read_stream g.lisp_NIL
  let same ← lisp_equal g 64 h10 printed read_back
  pure ((text, decide (same ≠ g.lisp_NIL)), h10)


/-! ## Views of a store into a property list -/

/-- What a heap `h2` keeps of a heap `h1` when cells were stored: every object
outside `fresh` has the `CAR` it had, every object outside `fresh` and
`written` has the `CDR` it had, and every atom has the name it had. -/
structure heap_update (g : lisp_globals) (h1 h2 : lisp_heap)
    (written fresh : List lisp_object_t) : Prop where
  car_eq : ∀ x, x ∉ fresh → lisp_cell_car g h2 x = lisp_cell_car g h1 x
  cdr_eq : ∀ x, x ∉ fresh → x ∉ written → lisp_cell_cdr g h2 x = lisp_cell_cdr g h1 x
  name_eq : ∀ x, lisp_atom_get_value h2 x = lisp_atom_get_value h1 x

/-- Every object of the list is a cell allocated below `lisp_heap_cur`. -/
def cells_allocated (h : lisp_heap) (cells : List lisp_object_t) : Bool :=
  cells.all (fun c =>
    decide (lisp_object_get_tag c = lisp_tag_cell) && decide (c < h.lisp_heap_cur)
      && (lisp_cell_get_value h c).isSome)

/-- The cells of a property list and its entries are allocated cells, all
different from one another. -/
def plist_wf (g : lisp_globals) (h : lisp_heap) (cells : List lisp_object_t) : Bool :=
  cells_allocated h cells && cells_allocated h (cells.map (lisp_cell_car g h))
    && decide ((cells ++ cells.map (lisp_cell_car g h)).Nodup)

/-- The heap `lisp_cell_rplacd` leaves. -/
def rplacd_heap (g : lisp_globals) (h : lisp_heap) (cell newcdr : lisp_object_t) : lisp_heap :=
  heap_write h cell (lisp_record.cell (lisp_cell_car g h cell) newcdr)

/-- The heap `lisp_plist_set` leaves: the `CDR` of the entry found is replaced,
or a new entry and a new cell are allocated and appended to the last cell. -/
def plist_set_heap (g : lisp_globals) (h : lisp_heap) (symbol value : lisp_object_t)
    (cells : List lisp_object_t) : lisp_heap :=
  match plist_assoc g h symbol cells with
  | some entry => rplacd_heap g h entry value
  | none =>
    rplacd_heap g (cons_heap (cons_heap h symbol value) h.lisp_heap_cur g.lisp_NIL)
      (cells.getLastD 0) (h.lisp_heap_cur + 16)

/-- The cells of the property list after `lisp_plist_set`. -/
def plist_set_cells (g : lisp_globals) (h : lisp_heap) (symbol : lisp_object_t)
    (cells : List lisp_object_t) : List lisp_object_t :=
  match plist_assoc g h symbol cells with
  | some _ => cells
  | none => cells ++ [h.lisp_heap_cur + 16]

/-- The entry under `symbol` after `lisp_plist_set`. -/
def plist_set_entry (g : lisp_globals) (h : lisp_heap) (symbol : lisp_object_t)
    (cells : List lisp_object_t) : lisp_object_t :=
  match plist_assoc g h symbol cells with
  | some entry => entry
  | none => h.lisp_heap_cur

/-- The cell whose `CDR` `lisp_plist_set` replaces. -/
def plist_set_written (g : lisp_globals) (h : lisp_heap) (symbol : lisp_object_t)
    (cells : List lisp_object_t) : lisp_object_t :=
  match plist_assoc g h symbol cells with
  | some entry => entry
  | none => cells.getLastD 0

/-- The cells `lisp_plist_set` allocates. -/
def plist_set_fresh (g : lisp_globals) (h : lisp_heap) (symbol : lisp_object_t)
    (cells : List lisp_object_t) : List lisp_object_t :=
  match plist_assoc g h symbol cells with
  | some _ => []
  | none => [h.lisp_heap_cur, h.lisp_heap_cur + 16]

/-- The `n` addresses from `lisp_heap_cur` on, 16 bytes apart, hold no record
yet. -/
def heap_free (h : lisp_heap) (n : Nat) : Bool :=
  (List.range n).all (fun i => decide (heap_read h (h.lisp_heap_cur + 16 * i) = none))

/-- The cells `attrs` are the attribute list of the entry the frame has for
`symbol`, when it has one with an attribute list; they, their pairs, the cells
of the frame and its entries are allocated cells, all different from one
another. -/
def frame_entry_wf (g : lisp_globals) (h : lisp_heap) (symbol : lisp_object_t)
    (cells attrs : List lisp_object_t) : Bool :=
  match plist_assoc g h symbol cells with
  | none => true
  | some entry =>
    decide (lisp_cell_cdr g h entry = g.lisp_NIL)
      || (plist_spine g h (lisp_cell_cdr g h entry) attrs && plist_wf g h attrs
          && decide ((cells ++ cells.map (lisp_cell_car g h) ++ attrs
                        ++ attrs.map (lisp_cell_car g h)).Nodup))

/-- Whether `lisp_environment_set_symbol_value` finds no attribute list for
`symbol` in the frame and creates one. -/
def set_symbol_creates (g : lisp_globals) (h : lisp_heap) (symbol : lisp_object_t)
    (cells : List lisp_object_t) : Bool :=
  match plist_assoc g h symbol cells with
  | none => true
  | some entry => decide (lisp_cell_cdr g h entry = g.lisp_NIL)

/-- The frame has no function for `symbol`: no attribute list for it, or one
whose `SUBR` and `EXPR` are `NIL`. -/
def no_function_binding (g : lisp_globals) (h : lisp_heap) (symbol : lisp_object_t)
    (cells attrs : List lisp_object_t) : Bool :=
  set_symbol_creates g h symbol cells
    || (decide (plist_value g h g.lisp_SUBR attrs = g.lisp_NIL)
        && decide (plist_value g h g.lisp_EXPR attrs = g.lisp_NIL))

/-- The value a frame holds for `symbol` under the key `type`, as
`lisp_environment_get_symbol_value` without recursion reads it; `attrs` are
the cells of the attribute list of the entry. -/
def frame_value (g : lisp_globals) (h : lisp_heap) (symbol type : lisp_object_t)
    (cells attrs : List lisp_object_t) : lisp_object_t :=
  match plist_assoc g h symbol cells with
  | none => g.lisp_NIL
  | some entry => if entry = g.lisp_NIL then g.lisp_NIL else plist_value g h type attrs

/-- The cells `attrs` are the cells `lisp_plist_find_entry` visits in the
attribute list of the entry the frame has for `symbol`, when it has one. -/
def frame_attrs_ok (g : lisp_globals) (h : lisp_heap) (symbol : lisp_object_t)
    (cells attrs : List lisp_object_t) : Bool :=
  match plist_assoc g h symbol cells with
  | none => true
  | some entry => plist_spine g h (lisp_cell_cdr g h entry) attrs

/-- The value and the heap of a finished run (a null value and an empty heap
when it failed). -/
def run_get (r : Run (lisp_object_t × lisp_heap)) : lisp_object_t × lisp_heap :=
  match r with
  | .ok p => p
  | .error _ => (0, lisp_heap_initialize 0)

/-- A scenario for the assignment forms: an environment, its parent, a form,
the two atoms of the form and the heap that holds them. -/
structure example_assignment where
  environment : lisp_object_t
  parent : lisp_object_t
  form : lisp_object_t
  X : lisp_object_t
  Y : lisp_object_t
  h : lisp_heap

/-- The scenario of `test_evaluating_SET`, with a binding to shadow: `X` is
first given the `APVAL` 1 in the environment of `example_sforms`, then a child
environment is created and the form `(SET 'X 'Y)` is built with
`lisp_cell_list` as the test builds it. -/
def example_SET_run : Run example_assignment := do
  let g := example_sforms.g
  let parent := example_sforms.environment
  let (X, h1) := lisp_atom_create_c example_sforms.h (c_str "X")
  let (Y, h2) := lisp_atom_create_c h1 (c_str "Y")
  let (_, h3) ← lisp_environment_set_symbol_value g 16 h2 parent X g.lisp_APVAL
    (lisp_fixnum_create true 1) g.lisp_NIL
  let (environment, h4) ← lisp_environment_create g h3 parent
  let (QUOTE_X, h5) ← lisp_cell_list g h4 g.lisp_symbol_QUOTE [X, g.lisp_NIL]
  let (QUOTE_Y, h6) ← lisp_cell_list g h5 g.lisp_symbol_QUOTE [Y, g.lisp_NIL]
  let (form, h7) ← lisp_cell_list g h6 g.lisp_symbol_SET [QUOTE_X, QUOTE_Y, g.lisp_NIL]
  pure ⟨environment, parent, form, X, Y, h7⟩

def example_SET : example_assignment :=
  match example_SET_run with
  | .ok r => r
  | .error _ => ⟨0, 0, 0, 0, 0, example_sforms.h⟩

/-- The evaluation of the first argument of the form of `example_SET`. -/
def example_SET_first : lisp_object_t × lisp_heap :=
  run_get (lisp_eval example_sforms.g 16 example_SET.h example_SET.environment
    (lisp_cell_car example_sforms.g example_SET.h
      (lisp_cell_cdr example_sforms.g example_SET.h example_SET.form)))

/-- The evaluation of the second argument, after the first. -/
def example_SET_second : lisp_object_t × lisp_heap :=
  run_get (lisp_eval example_sforms.g 16 example_SET_first.2 example_SET.environment
    (lisp_cell_car example_sforms.g example_SET_first.2
      (lisp_cell_cdr example_sforms.g example_SET.h
        (lisp_cell_cdr example_sforms.g example_SET.h example_SET.form))))

/-- The cells of the frame of the parent of `example_SET`, and the cells of
the attribute list it has for `X`. -/
def example_SET_parent : List lisp_object_t × List lisp_object_t :=
  let g := example_sforms.g
  let h := example_SET_second.2
  let cells := spine_cells g h 8 example_SET.parent
  (cells,
   match plist_assoc g h example_SET.X cells with
   | some entry => spine_cells g h 8 (lisp_cell_cdr g h entry)
   | none => [])

/-- The scenario for `SETQ`: a new child of the environment of
`example_sforms` and the form `(SETQ X 1)`, built with `lisp_cell_list`. -/
def example_SETQ_run : Run example_assignment := do
  let g := example_sforms.g
  let parent := example_sforms.environment
  let (X, h1) := lisp_atom_create_c example_sforms.h (c_str "X")
  let (environment, h2) ← lisp_environment_create g h1 parent
  let (form, h3) ← lisp_cell_list g h2 g.lisp_symbol_SETQ
    [X, lisp_fixnum_create true 1, g.lisp_NIL]
  pure ⟨environment, parent, form, X, g.lisp_NIL, h3⟩

def example_SETQ : example_assignment :=
  match example_SETQ_run with
  | .ok r => r
  | .error _ => ⟨0, 0, 0, 0, 0, example_sforms.h⟩

/-- The evaluation of the value form of `example_SETQ`. -/
def example_SETQ_value : lisp_object_t × lisp_heap :=
  run_get (lisp_eval example_sforms.g 16 example_SETQ.h example_SETQ.environment
    (lisp_cell_car example_sforms.g example_SETQ.h
      (lisp_cell_cdr example_sforms.g example_SETQ.h
        (lisp_cell_cdr example_sforms.g example_SETQ.h example_SETQ.form))))

/-- The forms `(DEFINE F (LAMBDA (A) A))` and `(SETQ F 5)` evaluated one after
the other in a new child of the environment of `example_sforms`, then the atom
`F` evaluated there: the value of the `SETQ`, the value of `F`, and the lambda
form. -/
def example_SETQ_function :
    Run ((lisp_object_t × lisp_object_t × lisp_object_t) × lisp_heap) := do
  let g := example_sforms.g
  let (environment, h0) ← lisp_environment_create g example_sforms.h example_sforms.environment
  let (F, h1) := lisp_atom_create_c h0 (c_str "F")
  let (A, h2) := lisp_atom_create_c h1 (c_str "A")
  let (list_A, h3) ← lisp_cell_list g h2 A [g.lisp_NIL]
  let (LAMBDA_form, h4) ← lisp_cell_list g h3 g.lisp_symbol_LAMBDA [list_A, A, g.lisp_NIL]
  let (DEFINE_form, h5) ← lisp_cell_list g h4 g.lisp_symbol_DEFINE [F, LAMBDA_form, g.lisp_NIL]
  let (SETQ_form, h6) ← lisp_cell_list g h5 g.lisp_symbol_SETQ
    [F, lisp_fixnum_create true 5, g.lisp_NIL]
  let (_, h7) ← lisp_eval g 64 h6 environment DEFINE_form
  let (value_SETQ, h8) ← lisp_eval g 64 h7 environment SETQ_form
  let (value_F, h9) ← lisp_eval g 64 h8 environment F
  pure ((value_SETQ, value_F, LAMBDA_form), h9)

/-- The cells of the frame of the environment of `example_SET`. -/
def example_SET_cells : List lisp_object_t :=
  spine_cells example_sforms.g example_SET_second.2 8 example_SET.environment

/-- The cells of the frame of the environment of `example_SETQ`. -/
def example_SETQ_cells : List lisp_object_t :=
  spine_cells example_sforms.g example_SETQ_value.2 8 example_SETQ.environment

/-- The lambda form has the shape `(LAMBDA (a) a)`: a cell whose second
element is a list of the one parameter `a`, an atom, and whose body is the one
form `a`. -/
def identity_lambda (g : lisp_globals) (h : lisp_heap) (lambda a : lisp_object_t) : Bool :=
  decide (lisp_cellp g lambda ≠ g.lisp_NIL)
    && list_cells g h (lisp_cell_car g h (lisp_cell_cdr g h lambda))
        [lisp_cell_car g h (lisp_cell_cdr g h lambda)]
    && decide (lisp_cell_car g h (lisp_cell_car g h (lisp_cell_cdr g h lambda)) = a)
    && list_cells g h (lisp_cell_cdr g h (lisp_cell_cdr g h lambda))
        [lisp_cell_cdr g h (lisp_cell_cdr g h lambda)]
    && decide (lisp_cell_car g h (lisp_cell_cdr g h (lisp_cell_cdr g h lambda)) = a)
    && decide (lisp_object_get_tag a = lisp_tag_atom)

/-- The frame has no `SUBR` for `symbol`: no attribute list for it, or one
whose `SUBR` is `NIL`. -/
def no_SUBR_binding (g : lisp_globals) (h : lisp_heap) (symbol : lisp_object_t)
    (cells attrs : List lisp_object_t) : Bool :=
  set_symbol_creates g h symbol cells
    || decide (plist_value g h g.lisp_SUBR attrs = g.lisp_NIL)


/-- A scenario for `DEFINE`: an environment, the form `(DEFINE F lambda)`, an
application of `F`, the lambda form, the atoms used and the heap that holds
them. -/
structure example_definition where
  environment : lisp_object_t
  define_form : lisp_object_t
  application : lisp_object_t
  lambda : lisp_object_t
  F : lisp_object_t
  A : lisp_object_t
  X : lisp_object_t
  h : lisp_heap

/-- The forms `(DEFINE F (LAMBDA (A) A))` and `(F 'X)`, built with
`lisp_cell_list`, and a new child of the environment of `example_sforms`. -/
def example_DEFINE_run : Run example_definition := do
  let g := example_sforms.g
  let (F, h1) := lisp_atom_create_c example_sforms.h (c_str "F")
  let (A, h2) := lisp_atom_create_c h1 (c_str "A")
  let (X, h3) := lisp_atom_create_c h2 (c_str "X")
  let (environment, h4) ← lisp_environment_create g h3 example_sforms.environment
  let (list_A, h5) ← lisp_cell_list g h4 A [g.lisp_NIL]
  let (lambda, h6) ← lisp_cell_list g h5 g.lisp_symbol_LAMBDA [list_A, A, g.lisp_NIL]
  let (define_form, h7) ← lisp_cell_list g h6 g.lisp_symbol_DEFINE [F, lambda, g.lisp_NIL]
  let (QUOTE_X, h8) ← lisp_cell_list g h7 g.lisp_symbol_QUOTE [X, g.lisp_NIL]
  let (application, h9) ← lisp_cell_list g h8 F [QUOTE_X, g.lisp_NIL]
  pure ⟨environment, define_form, application, lambda, F, A, X, h9⟩

def example_DEFINE : example_definition :=
  match example_DEFINE_run with
  | .ok r => r
  | .error _ => ⟨0, 0, 0, 0, 0, 0, 0, example_sforms.h⟩

/-- The cells of the frame of the environment of `example_DEFINE`. -/
def example_DEFINE_cells : List lisp_object_t :=
  spine_cells example_sforms.g example_DEFINE.h 8 example_DEFINE.environment

/-- The evaluation of the form `(DEFINE F (LAMBDA (A) A))` of `example_DEFINE`. -/
def example_DEFINE_defined : lisp_object_t × lisp_heap :=
  run_get (lisp_eval_DEFINE example_sforms.g 16 example_DEFINE.h example_DEFINE.environment
    example_DEFINE.define_form)

/-- The evaluation of the argument form `'X` of the application, after the
`DEFINE`. -/
def example_DEFINE_argument : lisp_object_t × lisp_heap :=
  run_get (lisp_eval example_sforms.g 14 example_DEFINE_defined.2 example_DEFINE.environment
    (lisp_cell_car example_sforms.g example_DEFINE_defined.2
      (lisp_cell_cdr example_sforms.g example_DEFINE_defined.2 example_DEFINE.application)))

/-- The form `(DEFINE IF (LAMBDA (A) A))` evaluated in a new child of the
environment of `example_sforms`, then the `EXPR` of `IF` read there, the form
`(IF T)` and the atom `T` evaluated there: whether the `DEFINE` returned `IF`,
whether the `EXPR` read is the lambda form, the value of `(IF T)` and the
value of `T`. -/
def example_DEFINE_IF : Run ((Bool × Bool × lisp_object_t × lisp_object_t) × lisp_heap) := do
  let g := example_sforms.g
  let (environment, h0) ← lisp_environment_create g example_sforms.h example_sforms.environment
  let (A, h1) := lisp_atom_create_c h0 (c_str "A")
  let (list_A, h2) ← lisp_cell_list g h1 A [g.lisp_NIL]
  let (lambda, h3) ← lisp_cell_list g h2 g.lisp_symbol_LAMBDA [list_A, A, g.lisp_NIL]
  let (define_form, h4) ← lisp_cell_list g h3 g.lisp_symbol_DEFINE
    [g.lisp_symbol_IF, lambda, g.lisp_NIL]
  let (application, h5) ← lisp_cell_list g h4 g.lisp_symbol_IF [g.lisp_T, g.lisp_NIL]
  let (defined, h6) ← lisp_eval g 64 h5 environment define_form
  let expr ← lisp_environment_get_symbol_value g 64 h6 environment g.lisp_symbol_IF
    g.lisp_EXPR g.lisp_NIL
  let (value, h7) ← lisp_eval g 64 h6 environment application
  let (value_T, h8) ← lisp_eval g 64 h7 environment g.lisp_T
  pure ((decide (defined = g.lisp_symbol_IF), decide (expr = lambda), value, value_T), h8)


/-! ## Views for the reader's interning -/

/-- The objects a lookup in a property list reads: its cells, its entries and
their keys. -/
def plist_objects (g : lisp_globals) (h : lisp_heap) (cells : List lisp_object_t) :
    List lisp_object_t :=
  cells ++ cells.map (lisp_cell_car g h)
    ++ cells.map (fun c => lisp_cell_car g h (lisp_cell_car g h c))

/-- The objects a walk up a chain of frames reads. -/
def chain_objects (g : lisp_globals) (h : lisp_heap) : List frame_view → List lisp_object_t
  | [] => [g.lisp_SI_PARENT_ENVIRONMENT, g.lisp_APVAL]
  | f :: fs =>
    plist_objects g h f.cells ++ plist_objects g h f.parent_cells ++ chain_objects g h fs

/-- The first half of `lisp_read_atom`: read the characters of the token into
a string and create the atom `read_atom` from it; `none` stands for the two
early exits (no character to read, no string). -/
def lisp_read_atom_token (g : lisp_globals) (fuel : Nat) (h : lisp_heap)
    (stream : lisp_object_t) : Run (Option lisp_object_t × lisp_heap) := do
  let (atom_name, h1) := lisp_string_create_empty h
  let (ch, h2) ← lisp_stream_read_char g h1 stream
  if ch = g.lisp_NIL then pure (none, h2)
  else do
    let (_, h3) ← lisp_string_append_char h2 atom_name ch
    let h4 ← lisp_read_atom_loop g fuel h3 stream atom_name
    if atom_name ≠ g.lisp_NIL then
      let (read_atom, h5) := lisp_atom_create h4 atom_name
      pure (some read_atom, h5)
    else pure (none, h4)

/-- The frames of the chain once `lisp_read_atom` has looked `read_atom` up:
as they were when an entry was found, and with one more cell in the first
frame when the atom was interned there. -/
def read_atom_frames (g : lisp_globals) (h : lisp_heap) (read_atom : lisp_object_t)
    (frames : List frame_view) : List frame_view :=
  match env_assoc g h read_atom frames with
  | some _ => frames
  | none =>
    match frames with
    | [] => []
    | f :: fs => { f with cells := f.cells ++ [h.lisp_heap_cur + 48] } :: fs

/-- The heap `h'` holds, for every object of the list, the record `h` holds
for it. -/
def heap_agrees (h h' : lisp_heap) (objects : List lisp_object_t) : Bool :=
  objects.all (fun x =>
    decide (heap_read h' (lisp_object_get_raw_value x)
      = heap_read h (lisp_object_get_raw_value x)))

/-- Every frame of the chain is a well-formed property list. -/
def chain_wf (g : lisp_globals) (h : lisp_heap) (frames : List frame_view) : Bool :=
  frames.all (fun f => plist_wf g h f.cells)

/-- The second half of `lisp_read_atom`: return the atom the environment has
for the name of `read_atom`, or intern `read_atom`. -/
def lisp_read_atom_intern (g : lisp_globals) (fuel : Nat) (h5 : lisp_heap)
    (environment read_atom : lisp_object_t) : Run (lisp_object_t × lisp_heap) := do
  let atom_symbol ← lisp_environment_find_symbol g fuel h5 environment read_atom g.lisp_T
  if atom_symbol ≠ g.lisp_NIL then pure (lisp_cell_car g h5 atom_symbol, h5)
  else lisp_environment_intern_symbol g fuel h5 environment read_atom

/-- The kinds of record the reader never stores into: cells and atom names. -/
def stable_record : lisp_record → Bool
  | lisp_record.cell _ _ => true
  | lisp_record.atom _ => true
  | _ => false

/-- What the reader keeps of a heap while it reads a token: `lisp_heap_cur`
does not go back nor lose its alignment, and the cells and atom names
allocated before stay as they are. -/
def heap_keeps (h h' : lisp_heap) : Prop :=
  h.lisp_heap_cur ≤ h'.lisp_heap_cur
    ∧ (h.lisp_heap_cur % 16 = 0 → h'.lisp_heap_cur % 16 = 0)
    ∧ ∀ (a : Nat) (r : lisp_record), a < h.lisp_heap_cur → heap_read h a = some r →
        stable_record r = true → heap_read h' a = some r

/-- Every object of the list points below `lisp_heap_cur` to a cell or an atom
name. -/
def records_stable (h : lisp_heap) (objects : List lisp_object_t) : Bool :=
  objects.all (fun x =>
    decide (lisp_object_get_raw_value x < h.lisp_heap_cur) &&
      match heap_read h (lisp_object_get_raw_value x) with
      | some r => stable_record r
      | none => false)

/-- The atom and the heap of a finished token phase (a null atom when it ended
without one, an empty heap when it failed). -/
def token_get (r : Run (Option lisp_object_t × lisp_heap)) : lisp_object_t × lisp_heap :=
  match r with
  | .ok (some read_atom, h) => (read_atom, h)
  | .ok (none, h) => (0, h)
  | .error _ => (0, lisp_heap_initialize 0)

/-- Whether a token phase ended with an atom. -/
def token_ok (r : Run (Option lisp_object_t × lisp_heap)) : Bool :=
  match r with
  | .ok (some _, _) => true
  | _ => false

/-- The heap of a finished run (an empty heap when it failed). -/
def heap_get (r : Run lisp_heap) : lisp_heap :=
  match r with
  | .ok h => h
  | .error _ => lisp_heap_initialize 0

/-- A scenario for the reader: an environment, a stream and the heap that
holds them. -/
structure example_reading where
  environment : lisp_object_t
  stream : lisp_object_t
  h : lisp_heap

/-- A new child of the bootstrap frame, as `test_list_reading_atom_interning`
creates one, and a character-buffer stream open for reading, as
`tests_shared_setup` makes `tests_read_stream`, whose buffer holds `text`. -/
def example_reading_run (text : String) : Run example_reading := do
  let g := example_root.g
  let (environment, h0) ← lisp_environment_create g example_root.h example_root.environment
  let (tests_read_buffer_functions, h1) := tests_charbuf_stream_functions h0 4096
  let (tests_read_stream, h2) := lisp_stream_create h1 tests_read_buffer_functions
  let (_, h3) ← lisp_stream_open g h2 tests_read_stream g.lisp_T g.lisp_NIL
  let h4 ← tests_set_read_buffer h3 tests_read_stream (c_str text)
  pure ⟨environment, tests_read_stream, h4⟩

/-- The scenario whose buffer holds the two tokens `A` and `a`. -/
def example_tokens : example_reading :=
  match example_reading_run "A a" with
  | .ok r => r
  | .error _ => ⟨0, 0, example_root.h⟩

/-- The frames of the chain of `example_tokens`: the child and the bootstrap
frame. -/
def example_tokens_frames : List frame_view :=
  [frame_view_of example_root.g example_tokens.h 8 example_tokens.environment,
   frame_view_of example_root.g example_tokens.h 8 example_root.environment]

/-- The atom made of the first token of `example_tokens`. -/
def example_tokens_first_token : lisp_object_t × lisp_heap :=
  token_get (lisp_read_atom_token example_root.g 32 example_tokens.h example_tokens.stream)

/-- The first token read by `lisp_read_atom`. -/
def example_tokens_first : lisp_object_t × lisp_heap :=
  run_get (lisp_read_atom example_root.g 32 example_tokens.h example_tokens.environment
    example_tokens.stream example_root.g.lisp_NIL)

/-- The heap once the blank between the two tokens is skipped. -/
def example_tokens_between : lisp_heap :=
  heap_get (lisp_skip_whitespace_and_comments example_root.g 32 example_tokens_first.2
    example_tokens.stream)

/-- The atom made of the second token of `example_tokens`. -/
def example_tokens_second_token : lisp_object_t × lisp_heap :=
  token_get (lisp_read_atom_token example_root.g 32 example_tokens_between
    example_tokens.stream)

/-- The list `lisp_read` returns for the text `(A a)` in the scenario: whether
it is a list of two elements, whether its first and its second element are the
identical object, and the name of the first. -/
def example_read_pair : Option (Bool × Bool × List Nat) :=
  match example_reading_run "(A a)" with
  | .error _ => none
  | .ok r =>
    match lisp_read example_root.g 32 r.h r.environment r.stream example_root.g.lisp_NIL with
    | .error _ => none
    | .ok (read_list, h) =>
      let g := example_root.g
      let first_A := lisp_cell_car g h read_list
      let second_A := lisp_cell_car g h (lisp_cell_cdr g h read_list)
      some (decide ((spine_cells g h 8 read_list).length = 2
                      ∧ lisp_object_get_tag read_list = lisp_tag_cell),
            decide (first_A = second_A), lisp_atom_get_value h first_A)


/-! ## Views for `lisp_equal` -/

/-- The structure `lisp_equal` walks from `a` ends within `n` nested calls:
the `CAR` and `CDR` of a cell, the elements of a vector and the name of a
`SUBR` are walked with one call less; every other object ends the walk. -/
def value_within (g : lisp_globals) (h : lisp_heap) : Nat → lisp_object_t → Bool
  | 0, _ => false
  | n + 1, a =>
    if lisp_object_get_tag a = lisp_tag_cell then
      value_within g h n (lisp_cell_car g h a) && value_within g h n (lisp_cell_cdr g h a)
    else if lisp_object_get_tag a = lisp_tag_vector then
      (List.range (lisp_vector_get_value h a).2.2).all
        (fun i => value_within g h n (lisp_vector_value_at h (lisp_vector_get_value h a).1 i))
    else if lisp_object_get_tag a = lisp_tag_subr then
      match lisp_subr_get_value h a with
      | some a_value => value_within g h n a_value.2
      | none => true
    else true

/-- Two objects and the heap that holds them. -/
structure example_pair where
  first : lisp_object_t
  second : lisp_object_t
  h : lisp_heap

/-- The lists `(A 1)` and `(a 1)`, each made with `lisp_atom_create_c` and
`lisp_cell_cons` on the bootstrap heap. -/
def example_equal_lists : example_pair :=
  let g := example_root.g
  let (A1, h1) := lisp_atom_create_c example_root.h (c_str "A")
  let (t1, h2) := lisp_cell_cons h1 (lisp_fixnum_create true 1) g.lisp_NIL
  let (l1, h3) := lisp_cell_cons h2 A1 t1
  let (A2, h4) := lisp_atom_create_c h3 (c_str "a")
  let (t2, h5) := lisp_cell_cons h4 (lisp_fixnum_create true 1) g.lisp_NIL
  let (l2, h6) := lisp_cell_cons h5 A2 t2
  ⟨l1, l2, h6⟩

/-- The value of a finished run that returns an object, if any. -/
def run_object (r : Run lisp_object_t) : Option lisp_object_t :=
  match r with
  | .ok v => some v
  | .error _ => none

/-- Two `SUBR`s made one after the other as
`lisp_environment_add_built_in_SUBRs` makes one: each with its own name string
`CAR` and the function of `CAR`. -/
def example_subrs : example_pair :=
  let (name1, h1) := lisp_string_create_c example_root.h (c_str "CAR")
  let (subr1, h2) := lisp_subr_create h1 subr_CAR name1
  let (name2, h3) := lisp_string_create_c h2 (c_str "CAR")
  let (subr2, h4) := lisp_subr_create h3 subr_CAR name2
  ⟨subr1, subr2, h4⟩

/-- The function and the name of each of the two `SUBR`s of `example_subrs`. -/
def example_subrs_values : (Nat × lisp_object_t) × (Nat × lisp_object_t) :=
  ((lisp_subr_get_value example_subrs.h example_subrs.first).getD (0, 0),
   (lisp_subr_get_value example_subrs.h example_subrs.second).getD (0, 0))

/-! ## A scenario for symbol lookup -/

/-- A new child of the bootstrap frame in which `T` is bound to the fixnum 5,
so that the child's entry for `T` shadows the root's. -/
def example_shadow : example_state :=
  match (do
      let g := example_root.g
      let (environment, h1) ← lisp_environment_create g example_root.h example_root.environment
      let (_, h2) ← lisp_environment_set_symbol_value g 16 h1 environment g.lisp_T g.lisp_APVAL
        (lisp_fixnum_create true 5) g.lisp_NIL
      pure ((g, environment), h2) : Run ((lisp_globals × lisp_object_t) × lisp_heap)) with
  | .ok ((g, environment), h) => ⟨g, environment, h⟩
  | .error _ => ⟨lisp_globals_NULL, 0, lisp_heap_initialize 0⟩

/-- The frames of the chain of `example_shadow`: the child and the bootstrap
frame. -/
def example_shadow_frames : List frame_view :=
  [frame_view_of example_root.g example_shadow.h 8 example_shadow.environment,
   frame_view_of example_root.g example_shadow.h 8 example_root.environment]


/-! ## Scenarios for property lists -/

/-- A property list, three keys and the heap that holds them. -/
structure example_plist where
  plist : lisp_object_t
  A : lisp_object_t
  B : lisp_object_t
  C : lisp_object_t
  D : lisp_object_t
  h : lisp_heap

/-- The property list `((A . B) (C . D))` of `plist_setup`, on the bootstrap
heap. -/
def example_plist_AB_CD : example_plist :=
  match (do
      let g := example_root.g
      let (A, h1) := lisp_atom_create_c example_root.h (c_str "A")
      let (B, h2) := lisp_atom_create_c h1 (c_str "B")
      let (C, h3) := lisp_atom_create_c h2 (c_str "C")
      let (D, h4) := lisp_atom_create_c h3 (c_str "D")
      let (ab, h5) := lisp_cell_cons h4 A B
      let (cd, h6) := lisp_cell_cons h5 C D
      let (plist, h7) ← lisp_plist_create g h6 ab [cd, 0]
      pure (⟨plist, A, B, C, D, h7⟩ : example_plist) : Run example_plist) with
  | .ok r => r
  | .error _ => ⟨0, 0, 0, 0, 0, example_root.h⟩

/-- The cells of the property list of `example_plist_AB_CD`. -/
def example_plist_cells : List lisp_object_t :=
  spine_cells example_root.g example_plist_AB_CD.h 4 example_plist_AB_CD.plist

/-- A property list whose second key is its own first entry: `((A . 1)
(E . 2))` where `E` is the cell `(A . 1)` that is the first entry.  The key
`K` is another cell `(A . 1)`.  The outcome gives `lisp_plist_get` of `K`
before `lisp_plist_set` of `A` to 5, `lisp_equal` of `K` and `A`, and
`lisp_plist_get` of `K` after the `lisp_plist_set`. -/
def example_plist_alias : Run ((lisp_object_t × lisp_object_t × lisp_object_t) × lisp_heap) := do
  let g := example_root.g
  let (A, h1) := lisp_atom_create_c example_root.h (c_str "A")
  let (E, h2) := lisp_cell_cons h1 A (lisp_fixnum_create true 1)
  let (second, h3) := lisp_cell_cons h2 E (lisp_fixnum_create true 2)
  let (plist, h4) ← lisp_plist_create g h3 E [second, 0]
  let (K, h5) := lisp_cell_cons h4 A (lisp_fixnum_create true 1)
  let before ← lisp_plist_get g 8 h5 plist K
  let same ← lisp_equal g 8 h5 K A
  let (_, h6) ← lisp_plist_set g 8 h5 plist A (lisp_fixnum_create true 5)
  let after ← lisp_plist_get g 8 h6 plist K
  pure ((before, same, after), h6)

/-! ## Views of a character-buffer stream -/

/-- The fields of the metadata of an open character-buffer stream
(`tests_support.c`) and the address of the metadata. -/
structure charbuf_state where
  metadata : Nat
  buf : List Nat
  r_pos : Nat
  w_pos : Nat
  len : Nat
  max : Nat
  is_readable : Bool
  is_writable : Bool
  deriving DecidableEq

/-- The record of the metadata in the state `st`. -/
def charbuf_record (st : charbuf_state) : lisp_record :=
  lisp_record.charbuf st.buf st.r_pos st.w_pos st.len st.max true st.is_readable st.is_writable

/-- The state of the open character-buffer stream behind `stream`, if it is
one: the stream record, its functions record and the metadata are three
allocations below `lisp_heap_cur`, the metadata apart from the other two. -/
def charbuf_view (h : lisp_heap) (stream : lisp_object_t) : Option charbuf_state :=
  match heap_read h (lisp_object_get_raw_value stream) with
  | some (lisp_record.stream functions _) =>
    match heap_read h (lisp_object_get_raw_value functions) with
    | some (lisp_record.stream_functions metadata backend) =>
      match heap_read h (lisp_object_get_raw_value metadata) with
      | some (lisp_record.charbuf buf r_pos w_pos len max true is_readable is_writable) =>
        if backend = backend_charbuf
            ∧ lisp_object_get_raw_value metadata ≠ lisp_object_get_raw_value stream
            ∧ lisp_object_get_raw_value metadata ≠ lisp_object_get_raw_value functions
            ∧ lisp_object_get_raw_value metadata < h.lisp_heap_cur
            ∧ lisp_object_get_raw_value stream < h.lisp_heap_cur
            ∧ lisp_object_get_raw_value functions < h.lisp_heap_cur
        then some ⟨lisp_object_get_raw_value metadata, buf, r_pos, w_pos, len, max,
          is_readable, is_writable⟩
        else none
      | _ => none
    | _ => none
  | _ => none

/-- The heap `h'` differs from `h` at most in the record at `address`. -/
def heap_same_but (h h' : lisp_heap) (address : Nat) : Prop :=
  h'.lisp_heap_cur = h.lisp_heap_cur
    ∧ ∀ a, a ≠ address → heap_read h' a = heap_read h a

/-- The bytes a reader of a character-buffer stream in the state `st` has
ahead of it: those from `r_pos` up to `len`. -/
def charbuf_ahead (st : charbuf_state) : List Nat :=
  (List.range (st.len - st.r_pos)).map (fun i => st.buf.getD (st.r_pos + i) 0)

/-- The base-10 digits of `n` as characters, the most significant first; zero
is the single digit `0`. -/
def base_10_digits (n : Nat) : List Nat :=
  if n = 0 then [char_0] else (Nat.digits 10 n).reverse.map (fun d => char_0 + d)

/-- A scenario for printing and reading: an environment, a stream open for
reading, a stream open for writing and the heap that holds them. -/
structure example_streams where
  environment : lisp_object_t
  tests_read_stream : lisp_object_t
  tests_write_stream : lisp_object_t
  h : lisp_heap

/-- The bootstrap frame of `example_root` with the two character-buffer streams
of `tests_shared_setup`; the buffer of the read stream holds `text`. -/
def example_streams_run (text : String) : Run example_streams := do
  let g := example_root.g
  let (tests_read_buffer_functions, h1) := tests_charbuf_stream_functions example_root.h 4096
  let (tests_read_stream, h2) := lisp_stream_create h1 tests_read_buffer_functions
  let (tests_write_buffer_functions, h3) := tests_charbuf_stream_functions h2 4096
  let (tests_write_stream, h4) := lisp_stream_create h3 tests_write_buffer_functions
  let (_, h5) ← lisp_stream_open g h4 tests_read_stream g.lisp_T g.lisp_NIL
  let (_, h6) ← lisp_stream_open g h5 tests_write_stream g.lisp_NIL g.lisp_T
  let h7 ← tests_set_read_buffer h6 tests_read_stream (c_str text)
  pure ⟨example_root.environment, tests_read_stream, tests_write_stream, h7⟩

/-- The scenario of `example_streams_run`, once it has run. -/
def example_streams_of (text : String) : example_streams :=
  match example_streams_run text with
  | .ok r => r
  | .error _ => ⟨0, 0, 0, lisp_heap_initialize 0⟩

/-- The streams of `example_streams_of` with the text of the smallest fixnum
in the read buffer. -/
def example_min_streams : example_streams := example_streams_of "-576460752303423488"

/-- The streams of `example_streams_of` with the text of the largest fixnum,
with its sign, in the read buffer. -/
def example_max_streams : example_streams := example_streams_of "+576460752303423487"

/-- The state of the read stream of `example_streams_of text`, for a text of
nineteen characters. -/
def example_read_state (text : String) : charbuf_state :=
  ⟨1050800, c_str text, 0, 0, 19, 4095, true, false⟩

/-- The state of the write stream of `example_streams_of`. -/
def example_write_state : charbuf_state :=
  ⟨1050944, [], 0, 0, 0, 4095, false, true⟩


/-! ## `APPLY` and the application of quoted arguments -/

/-- The symbol `QUOTE` is an atom that the table of special forms maps to
`lisp_eval_QUOTE`. -/
def QUOTE_is_special (g : lisp_globals) : Bool :=
  decide (lisp_object_get_tag g.lisp_symbol_QUOTE = lisp_tag_atom)
    && match g.lisp_special_form_mappings.find?
        (fun m => decide (lisp_eq g g.lisp_symbol_QUOTE m.1 ≠ g.lisp_NIL)) with
      | some m => decide (m.2 = sform_QUOTE)
      | none => false

/-- The object `form` is the form `(QUOTE v)`, in cells allocated below
`base`. -/
def is_quote_form (g : lisp_globals) (h : lisp_heap) (base : Nat)
    (form v : lisp_object_t) : Bool :=
  decide (lisp_object_get_tag form = lisp_tag_cell)
    && decide (lisp_cell_car g h form = g.lisp_symbol_QUOTE)
    && decide (lisp_cell_car g h (lisp_cell_cdr g h form) = v)
    && decide (lisp_object_get_raw_value form < base)
    && decide (lisp_object_get_raw_value (lisp_cell_cdr g h form) < base)

/-- The cells `cells`, allocated below `base`, hold in order the forms
`(QUOTE v)` for the values `values`. -/
def quote_forms (g : lisp_globals) (h : lisp_heap) (base : Nat) :
    List lisp_object_t → List lisp_object_t → Bool
  | [], [] => true
  | c :: cs, v :: vs =>
    decide (lisp_object_get_raw_value c < base)
      && is_quote_form g h base (lisp_cell_car g h c) v && quote_forms g h base cs vs
  | _, _ => false

/-- A scenario for `APPLY`: a callable, a list of values, the argument list
`(function list)` of `APPLY`, a form that applies a symbol bound to the
callable to the quoted values, and the environment and heap that hold
them. -/
structure example_application_of where
  environment : lisp_object_t
  function : lisp_object_t
  head : lisp_object_t
  list : lisp_object_t
  arguments : lisp_object_t
  form : lisp_object_t
  h : lisp_heap

/-- The interpreter of `example_interpreter` with the row `LIST` of
`lisp_built_in_SUBRs` added to its root frame; the callable is the `SUBR` of
`LIST` (or of `*` when `times` is set), the list is `(2 3)`, and the form is
`(LIST (QUOTE 2) (QUOTE 3))` (or `(* (QUOTE 2) (QUOTE 3))`), built with
`lisp_cell_cons`. -/
def example_APPLY_run (times : Bool) : Run example_application_of := do
  let g := example_interpreter.g
  let environment := example_interpreter.environment
  let root ← lisp_environment_parent g 64 example_interpreter.h environment
  let h1 ← lisp_environment_add_built_in_SUBRs_loop g 64 [(subr_LIST, "LIST")]
    example_interpreter.h root
  let (head, h2) := lisp_atom_create_c h1 (c_str (if times then "*" else "LIST"))
  let function ← lisp_eval_atom g 64 h2 environment head
  let two := lisp_fixnum_create true 2
  let three := lisp_fixnum_create true 3
  let (l2, h3) := lisp_cell_cons h2 three g.lisp_NIL
  let (list, h4) := lisp_cell_cons h3 two l2
  let (a2, h5) := lisp_cell_cons h4 list g.lisp_NIL
  let (arguments, h6) := lisp_cell_cons h5 function a2
  let (q3', h7) := lisp_cell_cons h6 three g.lisp_NIL
  let (q3, h8) := lisp_cell_cons h7 g.lisp_symbol_QUOTE q3'
  let (q2', h9) := lisp_cell_cons h8 two g.lisp_NIL
  let (q2, h10) := lisp_cell_cons h9 g.lisp_symbol_QUOTE q2'
  let (f3, h11) := lisp_cell_cons h10 q3 g.lisp_NIL
  let (f2, h12) := lisp_cell_cons h11 q2 f3
  let (form, h13) := lisp_cell_cons h12 head f2
  pure ⟨environment, function, head, list, arguments, form, h13⟩

/-- The scenario of `example_APPLY_run`, once it has run. -/
def example_APPLY (times : Bool) : example_application_of :=
  match example_APPLY_run times with
  | .ok r => r
  | .error _ => ⟨0, 0, 0, 0, 0, 0, lisp_heap_initialize 0⟩

/-- The two runs C21 compares in the scenario `example_APPLY`: the `APPLY`
`SUBR` on the argument list, and `lisp_eval` of the form. -/
def example_APPLY_results (times : Bool) :
    Run (lisp_object_t × lisp_heap) × Run (lisp_object_t × lisp_heap) :=
  let s := example_APPLY times
  (lisp_subr_APPLY example_interpreter.g (lisp_apply example_interpreter.g 40) s.h
      s.environment s.arguments,
   lisp_eval example_interpreter.g 42 s.h s.environment s.form)


/-! ## What the registrations of `lisp_environment_create_root` keep -/

/-- The globals `g'` hold the well-known atoms that `g` holds. -/
def core_eq (g g' : lisp_globals) : Prop :=
  g'.lisp_T = g.lisp_T ∧ g'.lisp_NIL = g.lisp_NIL ∧ g'.lisp_PNAME = g.lisp_PNAME
    ∧ g'.lisp_APVAL = g.lisp_APVAL ∧ g'.lisp_EXPR = g.lisp_EXPR ∧ g'.lisp_SUBR = g.lisp_SUBR
    ∧ g'.lisp_SI_PARENT_ENVIRONMENT = g.lisp_SI_PARENT_ENVIRONMENT

/-- The heap `h'` holds what `h` held, and more above it: the records below
the `lisp_heap_cur` of `h` are those of `h`, `lisp_heap_cur` did not go back
nor lose its alignment, and nothing is stored yet from the new
`lisp_heap_cur` on when nothing was from the old one on. -/
structure heap_extends (h h' : lisp_heap) : Prop where
  cur : h.lisp_heap_cur ≤ h'.lisp_heap_cur
  aligned : h.lisp_heap_cur % 16 = 0 → h'.lisp_heap_cur % 16 = 0
  same : ∀ a, a < h.lisp_heap_cur → heap_read h' a = heap_read h a
  free : (∀ a, h.lisp_heap_cur ≤ a → heap_read h a = none) →
    ∀ a, h'.lisp_heap_cur ≤ a → heap_read h' a = none

/-- The frame at `environment` is a well-formed property list with the cells
`cells`; its keys were allocated, and the name of each is one of `used`;
`lisp_heap_cur` is aligned and nothing is stored from there on. -/
structure frame_inv (g : lisp_globals) (h : lisp_heap) (environment : lisp_object_t)
    (cells : List lisp_object_t) (used : List (List Nat)) : Prop where
  spine : plist_spine g h environment cells = true
  wf : plist_wf g h cells = true
  keys : ∀ c ∈ cells,
    lisp_object_get_raw_value (lisp_cell_car g h (lisp_cell_car g h c)) < h.lisp_heap_cur
  names : ∀ c ∈ cells,
    c_string (lisp_atom_get_value h (lisp_cell_car g h (lisp_cell_car g h c))) ∈ used
  aligned : h.lisp_heap_cur % 16 = 0
  free : ∀ a, h.lisp_heap_cur ≤ a → heap_read h a = none

/-- The heap `h` holds below `A` the records `h0` holds there, but for the
`CDR` of the cell `last`; the cells of a frame after the first `n` were
allocated from `A` on. -/
structure heap_kept (g : lisp_globals) (h0 h : lisp_heap) (A last : Nat)
    (cells : List lisp_object_t) (n : Nat) : Prop where
  cur : A ≤ h.lisp_heap_cur
  same : ∀ a, a < A → a ≠ last → heap_read h a = heap_read h0 a
  car : lisp_cell_car g h last = lisp_cell_car g h0 last
  tail : ∀ c ∈ cells.drop n, A ≤ c
  last_cell : (cells.take n).getLastD 0 = last
  length : n ≤ cells.length

/-- The heap `lisp_environment_set_symbol_value` leaves when it creates an
entry for `symbol` with the attribute `type`: the four cells of the binding
are allocated and the last cell of the frame, `last`, points to the new
one. -/
def reg_heap (g : lisp_globals) (h : lisp_heap) (symbol type value last : lisp_object_t) :
    lisp_heap :=
  rplacd_heap g
    (cons_heap
      (cons_heap
        (cons_heap (cons_heap h type value) h.lisp_heap_cur g.lisp_NIL)
        symbol (h.lisp_heap_cur + 16))
      (h.lisp_heap_cur + 32) g.lisp_NIL)
    last (h.lisp_heap_cur + 48)

/-- The heap `h'` holds what `h` held but for the records at the addresses
`written`, and more above it. -/
structure heap_changes (h h' : lisp_heap) (written : List Nat) : Prop where
  cur : h.lisp_heap_cur ≤ h'.lisp_heap_cur
  aligned : h.lisp_heap_cur % 16 = 0 → h'.lisp_heap_cur % 16 = 0
  same : ∀ a, a < h.lisp_heap_cur → a ∉ written → heap_read h' a = heap_read h a
  free : (∀ a, h.lisp_heap_cur ≤ a → heap_read h a = none) →
    ∀ a, h'.lisp_heap_cur ≤ a → heap_read h' a = none

/-- The binding allocated at `b` is the entry the frame has for `symbol`:
the pair `(type . value)` at `b`, the one cell of the attribute list at
`b + 16`, the entry `(symbol . attributes)` at `b + 32`; the pair and the cell
are none of the cells, entries and keys of the frame. -/
structure entry_at (g : lisp_globals) (h : lisp_heap) (cells : List lisp_object_t)
    (symbol : lisp_object_t) (b : Nat) (type value : lisp_object_t) : Prop where
  assoc : plist_assoc g h symbol cells = some (b + 32)
  pair : heap_read h b = some (lisp_record.cell type value)
  attr : heap_read h (b + 16) = some (lisp_record.cell b g.lisp_NIL)
  entry : heap_read h (b + 32) = some (lisp_record.cell symbol (b + 16))
  aligned : b % 16 = 0
  below : b + 64 ≤ h.lisp_heap_cur
  apart : ∀ o ∈ plist_objects g h cells,
    lisp_object_get_raw_value o ≠ b ∧ lisp_object_get_raw_value o ≠ b + 16

/-- The root frame while `lisp_environment_create_root` fills it in: the frame
of the bootstrap heap `h0` with the cells `extra` appended; of the records of
`h0` only the last cell of that frame has changed, in its `CDR`. -/
structure root_inv (g0 : lisp_globals) (h0 : lisp_heap) (environment : lisp_object_t)
    (cells0 : List lisp_object_t) (g : lisp_globals) (h : lisp_heap)
    (extra : List lisp_object_t) (used : List (List Nat)) : Prop where
  core : core_eq g0 g
  wf : globals_wf g
  frame : frame_inv g h environment (cells0 ++ extra) used
  kept : heap_kept g h0 h h0.lisp_heap_cur (cells0.getLastD 0) (cells0 ++ extra) cells0.length
  last_below : cells0.getLastD 0 < h0.lisp_heap_cur
  last_aligned : cells0.getLastD 0 % 16 = 0

/-- No record lies at or above `lisp_heap_cur`. -/
def heap_bounded (h : lisp_heap) : Prop :=
  ∀ a, h.lisp_heap_cur ≤ a → heap_read h a = none

/-- A run that ends leaves a heap with nothing above `lisp_heap_cur`. -/
def run_bounded {α : Type} (r : Run (α × lisp_heap)) : Prop :=
  ∀ v, r = .ok v → heap_bounded v.2

/-- The cells of the bootstrap frame of `example_root`. -/
def example_root_cells : List lisp_object_t :=
  spine_cells example_root.g example_root.h 8 example_root.environment

/-- The names of the seven symbols of the bootstrap frame. -/
def bootstrap_names : List (List Nat) :=
  [c_str "T", c_str "NIL", c_str "PNAME", c_str "APVAL", c_str "EXPR", c_str "SUBR",
    c_str "%SI:PARENT-ENVIRONMENT"]

/-- The run ends, with a result that satisfies `Q`. -/
def run_post {α : Type} (r : Run α) (Q : α → Prop) : Prop :=
  ∃ v, r = .ok v ∧ Q v

/-- The object is an allocated atom with the name `n`. -/
structure atom_named (h : lisp_heap) (a : lisp_object_t) (n : List Nat) : Prop where
  tag : lisp_object_get_tag a = lisp_tag_atom
  below : lisp_object_get_raw_value a < h.lisp_heap_cur
  name : lisp_atom_get_value h a = n

/-- The name, as `strcmp` reads it, of an atom made with `lisp_atom_create_c`. -/
def atom_name_c (name : String) : List Nat :=
  c_string ((c_string (c_str name)).map c_upcase)

/-- The names `lisp_environment_add_built_in_special_forms` interns. -/
def special_form_names : List (List Nat) :=
  ["AND", "COND", "DEFINE", "DEFUN", "IF", "LAMBDA", "OR", "QUOTE", "SET", "SETQ", "BLOCK",
    "RETURN-FROM", "RETURN", "TAGBODY", "GO"].map atom_name_c

/-- The names `lisp_tagbody_initialize` interns. -/
def tagbody_names : List (List Nat) :=
  ["%SI:*TAGBODY-STACK*", "%SI:*TAGBODY-CURRENT*", "%SI:TAGBODY-SEQUENCE",
    "%SI:TAGBODY-MAPPING", "%SI:TAGBODY-NEXT", "%SI:TAGBODY-START", "%SI:TAGBODY-END"].map
    atom_name_c

/-- The names `lisp_environment_add_built_in_SUBRs` registers. -/
def subr_names : List (List Nat) :=
  lisp_built_in_SUBRs.map (fun item => atom_name_c item.2)

/-- The name, as `strcmp` reads it, of an atom made with `lisp_atom_create`
from the string `lisp_string_create_c` makes of `name`. -/
def atom_name_s (name : String) : List Nat :=
  c_string (((c_str name).map (fun c => lisp_char_create (word_of_c_char c))).map
    (fun char_object => c_upcase (c_char_of_word (lisp_char_get_value char_object))))

/-- The root frame and its child while `lisp_environment_add_built_in_streams`
fills the child in: the objects of the root frame lie below `B`, the cells of
the child from `B` on, and the first binding of the child, allocated at `B`,
is that of the parent key to the root frame. -/
structure env_inv (g0 : lisp_globals) (h0 : lisp_heap) (environment : lisp_object_t)
    (cells0 : List lisp_object_t) (g : lisp_globals) (h : lisp_heap)
    (extra : List lisp_object_t) (used : List (List Nat)) (B : Nat)
    (mutable_environment : lisp_object_t) (ccells : List lisp_object_t)
    (cused : List (List Nat)) : Prop where
  root : root_inv g0 h0 environment cells0 g h extra used
  base : h0.lisp_heap_cur ≤ B
  below : ∀ o ∈ plist_objects g h (cells0 ++ extra), lisp_object_get_raw_value o < B
  child : frame_inv g h mutable_environment ccells cused
  above : ∀ c ∈ ccells, B ≤ c
  parent : entry_at g h ccells g.lisp_SI_PARENT_ENVIRONMENT B g.lisp_APVAL environment

/-- The entry of the `i`-th cell of the bootstrap frame of `example_root`. -/
def bootstrap_entry (i : Nat) : lisp_object_t :=
  lisp_cell_car example_root.g example_root.h (example_root_cells.getD i 0)

/-- The cells of the attribute list of the `i`-th entry of the bootstrap frame
of `example_root`. -/
def bootstrap_attrs (i : Nat) : List lisp_object_t :=
  spine_cells example_root.g example_root.h 4
    (lisp_cell_cdr example_root.g example_root.h (bootstrap_entry i))

/-- The object lies in the bootstrap heap of `example_root`, and not in the
last cell of its frame. -/
def bootstrap_kept (o : lisp_object_t) : Prop :=
  lisp_object_get_raw_value o < example_root.h.lisp_heap_cur
    ∧ lisp_object_get_raw_value o ≠ example_root_cells.getLastD 0

/-- What the bootstrap heap of `example_root` holds for the symbol `s`, the
key of the `i`-th entry of its frame: an attribute list whose `PNAME` is a
string that spells `name` and whose `APVAL` is `s`. -/
def bootstrap_symbol_facts (i : Nat) (s : lisp_object_t) (name : String) : Prop :=
  lisp_object_get_tag s = lisp_tag_atom
    ∧ bootstrap_kept s
    ∧ plist_assoc example_root.g example_root.h s example_root_cells = some (bootstrap_entry i)
    ∧ lisp_cell_car example_root.g example_root.h (bootstrap_entry i) = s
    ∧ plist_spine example_root.g example_root.h
        (lisp_cell_cdr example_root.g example_root.h (bootstrap_entry i)) (bootstrap_attrs i)
        = true
    ∧ (∀ o ∈ plist_objects example_root.g example_root.h (bootstrap_attrs i), bootstrap_kept o)
    ∧ lisp_object_get_tag
        (plist_value example_root.g example_root.h example_root.g.lisp_PNAME (bootstrap_attrs i))
        = lisp_tag_string
    ∧ bootstrap_kept
        (plist_value example_root.g example_root.h example_root.g.lisp_PNAME (bootstrap_attrs i))
    ∧ bootstrap_kept (lisp_string_get_value example_root.h
        (plist_value example_root.g example_root.h example_root.g.lisp_PNAME
          (bootstrap_attrs i))).1
    ∧ (lisp_string_chars example_root.h
        (plist_value example_root.g example_root.h example_root.g.lisp_PNAME
          (bootstrap_attrs i))).map lisp_char_get_value = c_str name
    ∧ plist_value example_root.g example_root.h example_root.g.lisp_APVAL (bootstrap_attrs i) = s
    ∧ (bootstrap_attrs i).length = 2

/-- What the closing lookups use of the bootstrap heap of `example_root`. -/
def bootstrap_facts : Prop :=
  (∀ n ∈ special_form_names ++ tagbody_names, n ∉ bootstrap_names)
    ∧ (∀ n ∈ subr_names, n ∉ tagbody_names ++ (special_form_names ++ bootstrap_names))
    ∧ atom_key_equal example_root.h example_root.g.lisp_PNAME example_root.g.lisp_SUBR = false
    ∧ atom_key_equal example_root.h example_root.g.lisp_APVAL example_root.g.lisp_PNAME = false
    ∧ lisp_object_get_tag example_root.g.lisp_PNAME = lisp_tag_atom
    ∧ bootstrap_kept example_root.g.lisp_PNAME
    ∧ bootstrap_kept example_root.g.lisp_SUBR
    ∧ bootstrap_kept example_root.g.lisp_APVAL
    ∧ bootstrap_kept example_root.g.lisp_SI_PARENT_ENVIRONMENT
    ∧ c_string (lisp_atom_get_value example_root.h example_root.g.lisp_SI_PARENT_ENVIRONMENT)
        ∈ bootstrap_names
    ∧ (∀ c ∈ example_root_cells, c ≠ example_root_cells.getLastD 0 → bootstrap_kept c)
    ∧ (∀ o ∈ example_root_cells.map (lisp_cell_car example_root.g example_root.h)
          ++ example_root_cells.map (fun c => lisp_cell_car example_root.g example_root.h
              (lisp_cell_car example_root.g example_root.h c)), bootstrap_kept o)
    ∧ example_root_cells.length = 7
    ∧ plist_assoc example_root.g example_root.h example_root.g.lisp_SI_PARENT_ENVIRONMENT
        example_root_cells = some (bootstrap_entry 6)
    ∧ plist_spine example_root.g example_root.h
        (lisp_cell_cdr example_root.g example_root.h (bootstrap_entry 6)) (bootstrap_attrs 6)
        = true
    ∧ (∀ o ∈ plist_objects example_root.g example_root.h (bootstrap_attrs 6), bootstrap_kept o)
    ∧ lisp_cell_cdr example_root.g example_root.h (bootstrap_entry 6) ≠ example_root.g.lisp_NIL
    ∧ plist_value example_root.g example_root.h example_root.g.lisp_APVAL (bootstrap_attrs 6)
        = example_root.g.lisp_NIL
    ∧ (bootstrap_attrs 6).length = 2


/-! ## Scenarios for standalone printing, truncated input and calls -/

/-- Read one object from `text` with `lisp_read`, print it as a standalone
value with `lisp_print` to the write stream of `example_streams_of`, give the
printed text to the read stream and read it back: the object read first, the
printed text and the object read back. -/
def example_print_then_read (text : String) :
    Run ((lisp_object_t × List Nat × lisp_object_t) × lisp_heap) := do
  let g := example_root.g
  let s := example_streams_of text
  let (object, h1) ← lisp_read g 64 s.h s.environment s.tests_read_stream g.lisp_NIL
  let (_, h2) ← lisp_print g 64 h1 s.environment s.tests_write_stream object
  let printed := tests_buffer h2 s.tests_write_stream
  let h3 ← tests_set_read_buffer h2 s.tests_read_stream printed
  let (read_back, h4) ← lisp_read g 64 h3 s.environment s.tests_read_stream g.lisp_NIL
  pure ((object, printed, read_back), h4)

/-- One `lisp_read` of `text` in the scenario of `example_reading_run`: the
object read, its tag and, for a string, its characters. -/
def example_read_text (text : String) : Run ((lisp_object_t × Nat × List Nat) × lisp_heap) := do
  let g := example_root.g
  let s ← example_reading_run text
  let (object, h1) ← lisp_read g 64 s.h s.environment s.stream g.lisp_NIL
  pure ((object, lisp_object_get_tag object,
         (lisp_string_chars h1 object).map lisp_char_get_value), h1)

/-- Read two forms from the texts `first` and `second` and evaluate them one
after the other in the environment of `example_sforms`, with a read stream
made as `tests_shared_setup` makes `tests_read_stream`: the outcome of the
evaluation of the second form. -/
def example_eval_two (first second : String) : Run (lisp_object_t × lisp_heap) := do
  let g := example_sforms.g
  let environment := example_sforms.environment
  let (tests_read_buffer_functions, h1) := tests_charbuf_stream_functions example_sforms.h 4096
  let (tests_read_stream, h2) := lisp_stream_create h1 tests_read_buffer_functions
  let (_, h3) ← lisp_stream_open g h2 tests_read_stream g.lisp_T g.lisp_NIL
  let h4 ← tests_set_read_buffer h3 tests_read_stream (c_str first)
  let (first_form, h5) ← lisp_read g 64 h4 environment tests_read_stream g.lisp_NIL
  let (_, h6) ← lisp_eval g 64 h5 environment first_form
  let h7 ← tests_set_read_buffer h6 tests_read_stream (c_str second)
  let (second_form, h8) ← lisp_read g 64 h7 environment tests_read_stream g.lisp_NIL
  lisp_eval g 64 h8 environment second_form

/-- A new child `E` of the environment `P` of `example_sforms`, made by
`lisp_environment_create`; the form in `text` is read by `lisp_read` and
evaluated in `E`: the parent of `E` before, the value of the form and the
parent of `E` afterwards. -/
def example_parent_after (text : String) :
    Run ((lisp_object_t × lisp_object_t × lisp_object_t) × lisp_heap) := do
  let g := example_sforms.g
  let P := example_sforms.environment
  let (E, h0) ← lisp_environment_create g example_sforms.h P
  let (tests_read_buffer_functions, h1) := tests_charbuf_stream_functions h0 4096
  let (tests_read_stream, h2) := lisp_stream_create h1 tests_read_buffer_functions
  let (_, h3) ← lisp_stream_open g h2 tests_read_stream g.lisp_T g.lisp_NIL
  let h4 ← tests_set_read_buffer h3 tests_read_stream (c_str text)
  let before ← lisp_environment_parent g 64 h4 E
  let (form, h5) ← lisp_read g 64 h4 E tests_read_stream g.lisp_NIL
  let (value, h6) ← lisp_eval g 64 h5 E form
  let after ← lisp_environment_parent g 64 h6 E
  pure ((before, value, after), h6)

/-- The bootstrap frame after `lisp_tagbody_initialize`, with the symbols
`TAGBODY` and `SETQ` interned and entered in the table of special forms and
the row `CONS` of `lisp_built_in_SUBRs` added; the environment is a child of
that frame. -/
def example_tagbody_SETQ_run : Run ((lisp_globals × lisp_object_t) × lisp_heap) := do
  let g := example_root.g
  let root := example_root.environment
  let (TAGBODY, h1) ← lisp_intern_c g 64 example_root.h root "TAGBODY"
  let (SETQ, h2) ← lisp_intern_c g 64 h1 root "SETQ"
  let g1 := { g with lisp_symbol_TAGBODY := TAGBODY, lisp_symbol_SETQ := SETQ }
  let g2 := { g1 with lisp_special_form_mappings := lisp_special_form_mappings_table g1 }
  let (g3, h3) ← lisp_tagbody_initialize g2 64 h2 root
  let h4 ← lisp_environment_add_built_in_SUBRs_loop g3 64 [(subr_CONS, "CONS")] h3 root
  let (environment, h5) ← lisp_environment_create g3 h4 root
  pure ((g3, environment), h5)

def example_tagbody_SETQ : example_state := example_of_run example_tagbody_SETQ_run

/-- The fixnums along a list of fixnums, at most `fuel` of them. -/
def fixnum_list_values (g : lisp_globals) (h : lisp_heap) (fuel : Nat) (list : lisp_object_t) :
    List Int :=
  if list = g.lisp_NIL then []
  else (spine_cells g h fuel list).map
    (fun c => lisp_fixnum_get_value true (lisp_cell_car g h c))

/-- The form in `text` read by `lisp_read` and evaluated in the environment
of `example_tagbody_SETQ`: the value of `%SI:*TAGBODY-STACK*` on entry, the
value of the form, the value of `%SI:*TAGBODY-STACK*` on return and the
fixnums in the list that is the value of the atom `L` afterwards. -/
def example_TAGBODY_trace (text : String) :
    Run ((lisp_object_t × lisp_object_t × lisp_object_t × List Int) × lisp_heap) := do
  let g := example_tagbody_SETQ.g
  let environment := example_tagbody_SETQ.environment
  let (tests_read_buffer_functions, h1) :=
    tests_charbuf_stream_functions example_tagbody_SETQ.h 4096
  let (tests_read_stream, h2) := lisp_stream_create h1 tests_read_buffer_functions
  let (_, h3) ← lisp_stream_open g h2 tests_read_stream g.lisp_T g.lisp_NIL
  let h4 ← tests_set_read_buffer h3 tests_read_stream (c_str text)
  let (form, h5) ← lisp_read g 64 h4 environment tests_read_stream g.lisp_NIL
  let entry ← lisp_environment_get_symbol_value g 64 h5 environment g.lisp_SI_TAGBODY_STACK
    g.lisp_APVAL g.lisp_T
  let (value, h6) ← lisp_eval g 64 h5 environment form
  let stack ← lisp_environment_get_symbol_value g 64 h6 environment g.lisp_SI_TAGBODY_STACK
    g.lisp_APVAL g.lisp_T
  let (L, h7) := lisp_atom_create_c h6 (c_str "L")
  let list ← lisp_environment_get_symbol_value g 64 h7 environment L g.lisp_APVAL g.lisp_T
  pure ((entry, value, stack, fixnum_list_values g h7 8 list), h7)

/-- The argument list `(first second)` made with `lisp_cell_cons` on the heap
of `example_root`, and the heap that holds it. -/
def example_argument_pair (first second : lisp_object_t) : lisp_object_t × lisp_heap :=
  let (rest, h1) := lisp_cell_cons example_root.h second example_root.g.lisp_NIL
  lisp_cell_cons h1 first rest

/-- The string of `test_reallocation` (`check_string.c`): an interior of one
slot that holds the character `A`, and a string of capacity 1 and length 1
made of it with `lisp_string_create`, on the heap of `example_root`: the
interior, the string and the heap. -/
def example_full_string : (lisp_object_t × lisp_object_t) × lisp_heap :=
  let (chars_interior, h1) := lisp_interior_create example_root.h (8 * 1)
    (lisp_record.interior [lisp_char_create 0x41])
  let (string, h2) := lisp_string_create h1 chars_interior 1 1
  ((chars_interior, string), h2)

/-- The scenario of `example_reading_run` whose buffer holds the single
character `(`. -/
def example_open_list : example_reading :=
  match example_reading_run "(" with
  | .ok r => r
  | .error _ => ⟨0, 0, lisp_heap_initialize 0⟩

/-! ## The text of a cell printed readably -/

/-- A value made of `NIL`, atoms, fixnums, characters, strings and cells. -/
inductive printed_value where
  | nil : printed_value
  | atom (name : List Nat) : printed_value
  | fixnum (value : Int) : printed_value
  | char (c : Nat) : printed_value
  | string (chars : List Nat) : printed_value
  | cell (car cdr : printed_value) : printed_value

/-- The decimal text of a fixnum: its base-10 digits, after a `-` when it is
negative. -/
def fixnum_text (f : Int) : List Nat :=
  (if f < 0 then [char_minus] else []) ++ base_10_digits f.natAbs

/-- The text of a value that is no cell when it is printed inside a cell: the
name of an atom, the digits of a fixnum, a character after `#\`, a string
between double quotes. -/
def leaf_text : printed_value → List Nat
  | .nil => c_str "NIL"
  | .atom name => name
  | .fixnum f => fixnum_text f
  | .char c => [char_octothorpe, char_backslash, c]
  | .string chars => [char_double_quote] ++ chars ++ [char_double_quote]
  | .cell _ _ => []

/-- The text of a value inside a cell that is printed readably, as the
description of the readable format gives it.  As an element (`in_cdr` is
false) a cell is `(`, its `CAR`, the text of its `CDR` chain and `)`.  In a
`CDR` chain (`in_cdr` is true) a cell is a space, its `CAR` and the rest of
the chain; `NIL` ends the chain; and any other value is ` . ` followed by
that value. -/
def text_in_cell : printed_value → Bool → List Nat
  | .cell car cdr, in_cdr =>
    (if in_cdr then [char_space] else [char_paren_open])
      ++ text_in_cell car false ++ text_in_cell cdr true
      ++ (if in_cdr then [] else [char_paren_close])
  | .nil, in_cdr => if in_cdr then [] else leaf_text .nil
  | .atom name, in_cdr =>
    (if in_cdr then [char_space, char_period, char_space] else []) ++ leaf_text (.atom name)
  | .fixnum f, in_cdr =>
    (if in_cdr then [char_space, char_period, char_space] else []) ++ leaf_text (.fixnum f)
  | .char c, in_cdr =>
    (if in_cdr then [char_space, char_period, char_space] else []) ++ leaf_text (.char c)
  | .string chars, in_cdr =>
    (if in_cdr then [char_space, char_period, char_space] else []) ++ leaf_text (.string chars)

/-- The text of a value printed readably as an element. -/
def readable_text (v : printed_value) : List Nat := text_in_cell v false

/-- The record at `address` was allocated and is not the metadata at `m`. -/
def allocated_apart (h : lisp_heap) (m address : Nat) : Bool :=
  decide (address < h.lisp_heap_cur) && decide (address ≠ m)

/-- Whether the object `o` in the heap `h` is the value `v`: `NIL` is the
atom `lisp_NIL`, named `NIL`; an atom has the given name, of ASCII characters;
a fixnum lies in the range of fixnums; a character is ASCII; a string has the
given ASCII characters; and a cell has a `CAR` and a `CDR` that are the
values of the parts.  The records of `o` lie apart from the metadata at `m`
of the stream printed to. -/
def represents (g : lisp_globals) (h : lisp_heap) (m : Nat) :
    lisp_object_t → printed_value → Bool
  | o, .nil =>
    decide (o = g.lisp_NIL) && allocated_apart h m (lisp_object_get_raw_value o)
      && decide (heap_read h (lisp_object_get_raw_value o)
          = some (lisp_record.atom (c_str "NIL")))
  | o, .atom name =>
    decide (o ≠ g.lisp_NIL) && decide (lisp_object_get_tag o = lisp_tag_atom)
      && allocated_apart h m (lisp_object_get_raw_value o)
      && decide (heap_read h (lisp_object_get_raw_value o) = some (lisp_record.atom name))
      && name.all (fun c => decide (c ≠ 0 ∧ c < 128))
  | o, .fixnum f =>
    decide (o = lisp_fixnum_create true f)
      && decide (lisp_fixnum_min true ≤ f ∧ f ≤ lisp_fixnum_max true)
  | o, .char c => decide (o = lisp_char_create c) && decide (c < 128)
  | o, .string chars =>
    decide (lisp_object_get_tag o = lisp_tag_string)
      && allocated_apart h m (lisp_object_get_raw_value o)
      && (match heap_read h (lisp_object_get_raw_value o) with
          | some (lisp_record.string buffer _ _) =>
            allocated_apart h m (lisp_object_get_raw_value buffer)
              && (match heap_read h (lisp_object_get_raw_value buffer) with
                  | some (lisp_record.interior _) => true
                  | _ => false)
          | _ => false)
      && decide (lisp_string_chars h o
          = chars.map (fun c => lisp_char_create (word_of_c_char c)))
      && chars.all (fun c => decide (c < 128))
  | o, .cell car cdr =>
    decide (lisp_object_get_tag o = lisp_tag_cell)
      && allocated_apart h m (lisp_object_get_raw_value o)
      && (match heap_read h (lisp_object_get_raw_value o) with
          | some (lisp_record.cell x y) => represents g h m x car && represents g h m y cdr
          | _ => false)

/-- Fuel that is enough to print a value inside a cell. -/
def print_fuel : printed_value → Nat
  | .cell car cdr => 2 + max (print_fuel car) (print_fuel cdr)
  | _ => 3

/-- The state of a character-buffer stream after `text` was written at its
end. -/
def charbuf_appended (st : charbuf_state) (text : List Nat) : charbuf_state :=
  { st with buf := st.buf ++ text, w_pos := st.w_pos + text.length }

/-- The heap `h'` keeps what `h` has allocated, except the record at `m`. -/
def heap_kept_except (h h' : lisp_heap) (m : Nat) : Prop :=
  h.lisp_heap_cur ≤ h'.lisp_heap_cur
    ∧ (h.lisp_heap_cur % 16 = 0 → h'.lisp_heap_cur % 16 = 0)
    ∧ ∀ a, a < h.lisp_heap_cur → a ≠ m → heap_read h' a = heap_read h a

/-- The stream is an open character-buffer stream in the state `st`, open
for writing at the end of its buffer, on an aligned heap. -/
structure print_ready (h : lisp_heap) (stream : lisp_object_t) (st : charbuf_state) :
    Prop where
  view : charbuf_view h stream = some st
  writable : st.is_writable = true
  at_end : st.w_pos = st.buf.length
  aligned : h.lisp_heap_cur % 16 = 0

/-- Printing the value `v` as an element of a cell appends its text: every
object that is `v`, printed by `lisp_print_for_cell` with enough fuel to a
stream with room for the text, leaves the text at the end of the buffer. -/
def prints_element (g : lisp_globals) (environment stream : lisp_object_t)
    (v : printed_value) : Prop :=
  ∀ (fuel : Nat) (h : lisp_heap) (st : charbuf_state) (o : lisp_object_t),
    print_fuel v ≤ fuel → print_ready h stream st → represents g h st.metadata o v = true →
    st.w_pos + (text_in_cell v false).length ≤ st.max →
    ∃ r h', lisp_print_for_cell g fuel h environment stream o g.lisp_T = .ok (r, h')
      ∧ print_ready h' stream (charbuf_appended st (text_in_cell v false))
      ∧ heap_kept_except h h' st.metadata

/-- Printing the value `v` as the rest of a `CDR` chain appends its text: the
loop of `lisp_cell_print_readably` from an object that is `v`. -/
def prints_chain (g : lisp_globals) (environment stream : lisp_object_t)
    (v : printed_value) : Prop :=
  ∀ (fuel : Nat) (h : lisp_heap) (st : charbuf_state) (o : lisp_object_t),
    print_fuel v ≤ fuel → print_ready h stream st → represents g h st.metadata o v = true →
    st.w_pos + (text_in_cell v true).length ≤ st.max →
    ∃ h', lisp_cell_print_readably_loop g fuel h environment stream o = .ok h'
      ∧ print_ready h' stream (charbuf_appended st (text_in_cell v true))
      ∧ heap_kept_except h h' st.metadata

/-- Three cells made on the heap of `example_streams_of` with
`lisp_atom_create_c`, `lisp_string_create_c` and `lisp_cell_cons`: the list
`(X Y Z)` of three atoms, the property list `((A . B) (C . D))`, and the
dotted list `("abc" #\a -42 . X)`; and the heap that holds them. -/
def example_printed_cells : (lisp_object_t × lisp_object_t × lisp_object_t) × lisp_heap :=
  let g := example_root.g
  let (X, h1) := lisp_atom_create_c (example_streams_of "").h (c_str "X")
  let (Y, h2) := lisp_atom_create_c h1 (c_str "Y")
  let (Z, h3) := lisp_atom_create_c h2 (c_str "Z")
  let (list_Z, h4) := lisp_cell_cons h3 Z g.lisp_NIL
  let (list_Y_Z, h5) := lisp_cell_cons h4 Y list_Z
  let (list_X_Y_Z, h6) := lisp_cell_cons h5 X list_Y_Z
  let (A, h7) := lisp_atom_create_c h6 (c_str "A")
  let (B, h8) := lisp_atom_create_c h7 (c_str "B")
  let (C, h9) := lisp_atom_create_c h8 (c_str "C")
  let (D, h10) := lisp_atom_create_c h9 (c_str "D")
  let (A_B, h11) := lisp_cell_cons h10 A B
  let (C_D, h12) := lisp_cell_cons h11 C D
  let (plist_rest, h13) := lisp_cell_cons h12 C_D g.lisp_NIL
  let (plist, h14) := lisp_cell_cons h13 A_B plist_rest
  let (abc, h15) := lisp_string_create_c h14 (c_str "abc")
  let (dotted_2, h16) := lisp_cell_cons h15 (lisp_fixnum_create true (-42)) X
  let (dotted_1, h17) := lisp_cell_cons h16 (lisp_char_create 0x61) dotted_2
  let (dotted, h18) := lisp_cell_cons h17 abc dotted_1
  ((list_X_Y_Z, plist, dotted), h18)

/-- The value `(X Y Z)`. -/
def value_X_Y_Z : printed_value :=
  .cell (.atom (c_str "X")) (.cell (.atom (c_str "Y")) (.cell (.atom (c_str "Z")) .nil))

/-- The value `((A . B) (C . D))`. -/
def value_plist : printed_value :=
  .cell (.cell (.atom (c_str "A")) (.atom (c_str "B")))
    (.cell (.cell (.atom (c_str "C")) (.atom (c_str "D"))) .nil)

/-- The value `("abc" #\a -42 . X)`. -/
def value_dotted : printed_value :=
  .cell (.string (c_str "abc"))
    (.cell (.char 0x61) (.cell (.fixnum (-42)) (.atom (c_str "X"))))


/-! ## A string that is not closed before the end of the stream -/

/-- The characters `lisp_read_string` keeps of the text that follows the
opening double quote, when the stream ends before a closing one: a backslash
makes the character after it literal, and a backslash that ends the text is
dropped. -/
def string_body_chars : List Nat → List Nat
  | [] => []
  | c :: rest =>
    if c = char_backslash then
      match rest with
      | [] => []
      | d :: ds => d :: string_body_chars ds
    else c :: string_body_chars rest

/-- The text that follows the opening double quote has no closing double
quote: every double quote in it comes right after a backslash that makes it
literal. -/
def string_body_open : List Nat → Bool
  | [] => true
  | c :: rest =>
    if c = char_double_quote then false
    else if c = char_backslash then
      match rest with
      | [] => true
      | _ :: ds => string_body_open ds
    else string_body_open rest

/-- The string `s` on the aligned heap `h`: its record holds the buffer
`chars`, the capacity `cap` and the length `len`, at most `cap`; the buffer
holds `slots`; both are allocated. -/
structure string_ready (h : lisp_heap) (s chars : lisp_object_t) (cap len : Nat)
    (slots : List lisp_object_t) : Prop where
  record : heap_read h (lisp_object_get_raw_value s) = some (lisp_record.string chars cap len)
  buffer : heap_read h (lisp_object_get_raw_value chars) = some (lisp_record.interior slots)
  fits : len ≤ cap
  aligned : h.lisp_heap_cur % 16 = 0
  allocated : lisp_object_get_raw_value s < h.lisp_heap_cur
  buffer_allocated : lisp_object_get_raw_value chars < h.lisp_heap_cur

/-- The streams of `example_streams_of` with, in the read buffer, the five
characters `"a\"b`: a string that is opened and not closed, with a double
quote made literal by a backslash. -/
def example_open_string : example_streams := example_streams_of "\"a\\\"b"

/-- The state of the read stream of `example_open_string`. -/
def example_open_string_state : charbuf_state :=
  ⟨1050800, c_str "\"a\\\"b", 0, 0, 5, 4095, true, false⟩


/-! ## Reading back the text of a list -/

/-- The characters that end the token of an atom in `lisp_read_atom`. -/
def atom_terminator (c : Nat) : Bool :=
  decide (c = char_space ∨ c = char_newline ∨ c = char_tab ∨ c = char_semicolon
    ∨ c = char_paren_open ∨ c = char_paren_close ∨ c = char_octothorpe)

/-- The names of the atoms `lisp_read` makes of ASCII text.  The name is not
empty; none of its characters ends a token; it has no lower-case letter, as
the reader stores names in upper case; its first character is no digit, no
single quote and no double quote, which start other values; and a leading
`+` or `-` is not followed by a digit. -/
def reader_name : List Nat → Bool
  | [] => false
  | c :: cs =>
    (c :: cs).all (fun x =>
        decide (x ≠ 0 ∧ x < 128) && !atom_terminator x && decide (c_upcase x = x))
      && !decide (char_0 ≤ c ∧ c ≤ char_9)
      && decide (c ≠ char_single_quote) && decide (c ≠ char_double_quote)
      && (!decide (c = char_plus ∨ c = char_minus) ||
          match cs with
          | [] => true
          | d :: _ => !decide (char_0 ≤ d ∧ d ≤ char_9))

/-- The values of the round trip.  As an element (`in_cdr` is false): `NIL`,
an atom with a name the reader makes, a fixnum, a character other than `NUL`,
or a list of such elements.  As the rest of a list (`in_cdr` is true): `NIL`,
which ends the list, or a cell; so every list is proper. -/
def round_trip_value : printed_value → Bool → Bool
  | .nil, _ => true
  | .atom name, in_cdr => !in_cdr && reader_name name
  | .fixnum _, in_cdr => !in_cdr
  | .char c, in_cdr => !in_cdr && decide (c ≠ 0)
  | .string _, _ => false
  | .cell a d, _ => round_trip_value a false && round_trip_value d true

/-- Every atom among the elements of the object `o`, which is the value `v`,
has an entry in the chain of frames, as every atom the reader returned has;
so has `NIL` when it is an element. -/
def leaves_interned (g : lisp_globals) (h : lisp_heap) (frames : List frame_view) :
    lisp_object_t → printed_value → Bool → Bool
  | _, .nil, in_cdr => in_cdr || (env_assoc g h g.lisp_NIL frames).isSome
  | o, .atom _, _ => (env_assoc g h o frames).isSome
  | _, .fixnum _, _ => true
  | _, .char _, _ => true
  | _, .string _, _ => true
  | o, .cell a d, _ =>
    match heap_read h (lisp_object_get_raw_value o) with
    | some (lisp_record.cell x y) =>
      leaves_interned g h frames x a false && leaves_interned g h frames y d true
    | _ => false

/-- The object `o` is an atom allocated below `base` whose name, read as a C
string, is `name`. -/
def atom_read_back (h : lisp_heap) (base : Nat) (o : lisp_object_t) (name : List Nat) : Bool :=
  decide (lisp_object_get_tag o = lisp_tag_atom)
    && decide (lisp_object_get_raw_value o < base)
    && match heap_read h (lisp_object_get_raw_value o) with
       | some (lisp_record.atom n) => decide (c_string n = name)
       | _ => false

/-- What the reader gives back for the text of the value `v`: an atom of the
environment, allocated below `base`, with the name of the atom (the name
`NIL` for `NIL` as an element); the fixnum; the character; and for a list new
cells, allocated from `lo` up to `hi`, that hold what the reader gives back
for the elements and end in `NIL`. -/
def read_back (g : lisp_globals) (h : lisp_heap) (base lo hi : Nat) :
    lisp_object_t → printed_value → Bool → Bool
  | o, .nil, in_cdr =>
    if in_cdr then decide (o = g.lisp_NIL) else atom_read_back h base o (c_str "NIL")
  | o, .atom name, in_cdr => !in_cdr && atom_read_back h base o name
  | o, .fixnum f, in_cdr => !in_cdr && decide (o = lisp_fixnum_create true f)
  | o, .char c, in_cdr => !in_cdr && decide (o = lisp_char_create c)
  | _, .string _, _ => false
  | o, .cell a d, _ =>
    decide (lisp_object_get_tag o = lisp_tag_cell)
      && decide (lo ≤ lisp_object_get_raw_value o)
      && decide (lisp_object_get_raw_value o < hi)
      && (match heap_read h (lisp_object_get_raw_value o) with
          | some (lisp_record.cell x y) =>
            read_back g h base lo hi x a false && read_back g h base lo hi y d true
          | _ => false)

/-- The number of values in a value. -/
def value_size : printed_value → Nat
  | .cell a d => 1 + value_size a + value_size d
  | _ => 1

/-- Fuel that is enough to read a text of the given length in a chain of
frames. -/
def read_fuel (frames : List frame_view) (length : Nat) : Nat :=
  3 * length + env_fuel frames + 8

/-- The heap `h'` keeps what `heap_keeps` keeps of `h`, except the record at
`address`. -/
def heap_keeps_but (h h' : lisp_heap) (address : Nat) : Prop :=
  h.lisp_heap_cur ≤ h'.lisp_heap_cur
    ∧ (h.lisp_heap_cur % 16 = 0 → h'.lisp_heap_cur % 16 = 0)
    ∧ ∀ (a : Nat) (r : lisp_record), a < h.lisp_heap_cur → a ≠ address →
        heap_read h a = some r → stable_record r = true → heap_read h' a = some r

/-- The stream is a readable character-buffer stream with `text` ahead, on
the aligned heap `h`, which keeps the cells and atom names of `h0`. -/
structure read_ready (h0 h : lisp_heap) (stream : lisp_object_t) (text : List Nat) :
    Prop where
  state : ∃ st, charbuf_view h stream = some st ∧ st.is_readable = true
    ∧ charbuf_ahead st = text
  aligned : h.lisp_heap_cur % 16 = 0
  keeps : heap_keeps h0 h

/-- The chain of frames of the environment in the heap `h0`: the frames are
well formed and their records are cells and atom names. -/
structure read_base (g : lisp_globals) (h0 : lisp_heap) (environment : lisp_object_t)
    (frames : List frame_view) : Prop where
  chain : env_chain g h0 environment frames = true
  wf : chain_wf g h0 frames = true
  stable : records_stable h0 (chain_objects g h0 frames) = true

/-- The object `src` is the value `v` in the heap `h0`, a value of the round
trip whose atoms are interned. -/
structure source_value (g : lisp_globals) (h0 : lisp_heap) (m : Nat)
    (frames : List frame_view) (src : lisp_object_t) (v : printed_value) (in_cdr : Bool) :
    Prop where
  value : represents g h0 m src v = true
  interned : leaves_interned g h0 frames src v in_cdr = true
  domain : round_trip_value v in_cdr = true

/-- What follows the text of an element: nothing is asked after a list, which
ends with its closing parenthesis; after any other value comes a space or a
closing parenthesis. -/
def tail_ok (v : printed_value) (tail : List Nat) : Prop :=
  (∃ a d, v = .cell a d)
    ∨ ∃ r rest, tail = r :: rest ∧ (r = char_space ∨ r = char_paren_close)

/-- Reading the value `v` as an element: `lisp_read_object`, with enough
fuel, on the text of `v` after at most one space, returns an object that is
what the reader gives back for `v`, leaves the stream after the text, and
keeps the cells and atom names of the heap. -/
def reads_element (g : lisp_globals) (environment stream : lisp_object_t)
    (frames : List frame_view) (h0 : lisp_heap) (m : Nat) (v : printed_value) : Prop :=
  ∀ (fuel : Nat) (h : lisp_heap) (ws tail : List Nat) (src recursivep : lisp_object_t),
    read_fuel frames (readable_text v).length ≤ fuel →
    (ws = [] ∨ ws = [char_space]) →
    read_ready h0 h stream (ws ++ readable_text v ++ tail) →
    tail_ok v tail →
    source_value g h0 m frames src v false →
    ∃ o h', lisp_read_object g fuel h environment stream recursivep = .ok (o, h')
      ∧ read_ready h0 h' stream tail
      ∧ heap_keeps h h'
      ∧ read_back g h' h0.lisp_heap_cur h.lisp_heap_cur h'.lisp_heap_cur o v false = true

/-- Reading the value `d` as the rest of a list: the loop of `lisp_read_list`,
with enough fuel, on the text of `d` and the closing parenthesis, with
`list_cur` the last cell read so far, returns `list_head`, leaves the stream
after the parenthesis, and stores in the `CDR` of `list_cur` what the reader
gives back for `d`; it keeps the other cells and the atom names of the
heap. -/
def reads_chain (g : lisp_globals) (environment stream : lisp_object_t)
    (frames : List frame_view) (h0 : lisp_heap) (m : Nat) (d : printed_value) : Prop :=
  ∀ (fuel : Nat) (h : lisp_heap) (tail : List Nat)
    (src eol list_head : lisp_object_t) (list_cur : Nat) (car_cur : lisp_object_t),
    read_fuel frames ((text_in_cell d true).length + 1) ≤ fuel →
    read_ready h0 h stream (text_in_cell d true ++ [char_paren_close] ++ tail) →
    source_value g h0 m frames src d true →
    lisp_object_get_tag eol = lisp_tag_atom →
    h0.lisp_heap_cur ≤ lisp_object_get_raw_value eol →
    list_cur % 16 = 0 → h0.lisp_heap_cur ≤ list_cur → list_cur < h.lisp_heap_cur →
    heap_read h list_cur = some (lisp_record.cell car_cur g.lisp_NIL) →
    ∃ h' y, lisp_read_list_loop g fuel h environment stream eol list_head list_cur
          = .ok (list_head, h')
      ∧ read_ready h0 h' stream tail
      ∧ heap_keeps_but h h' list_cur
      ∧ heap_read h' list_cur = some (lisp_record.cell car_cur y)
      ∧ read_back g h' h0.lisp_heap_cur h.lisp_heap_cur h'.lisp_heap_cur y d true = true

/-- A scenario for the round trip of a list: the list, the heap in which it is
printed and the heap in which the printed text is read. -/
structure example_list where
  L : lisp_object_t
  h_print : lisp_heap
  h_read : lisp_heap

/-- The list `(A (B -7) #\c NIL)` is read from the read stream of
`example_streams_of`; it is printed to the write stream; and the text found
in the buffer of the write stream is given to the read stream, as
`tests_set_read_buffer` does between the two halves of a test. -/
def example_list_run : Run example_list := do
  let g := example_root.g
  let s := example_streams_of "(A (B -7) #\\c NIL)"
  let (L, h1) ← lisp_read g 64 s.h s.environment s.tests_read_stream g.lisp_NIL
  let (_, h2) ← lisp_print g 16 h1 s.environment s.tests_write_stream L
  let h3 ← tests_set_read_buffer h2 s.tests_read_stream (tests_buffer h2 s.tests_write_stream)
  pure ⟨L, h1, h3⟩

/-- The scenario of `example_list_run`, once it has run. -/
def example_list_of : example_list :=
  match example_list_run with
  | .ok r => r
  | .error _ => ⟨0, lisp_heap_initialize 0, lisp_heap_initialize 0⟩

/-- The value `(A (B -7) #\c NIL)`. -/
def value_example_list : printed_value :=
  .cell (.atom (c_str "A"))
    (.cell (.cell (.atom (c_str "B")) (.cell (.fixnum (-7)) .nil))
      (.cell (.char 0x63) (.cell .nil .nil)))

/-- The frames of the chain of `example_list_of` in the heap `h`: the
bootstrap frame alone. -/
def example_list_frames (h : lisp_heap) : List frame_view :=
  [frame_view_of example_root.g h 16 example_root.environment]


/-! ## Theorems -/


theorem and_two_pow_of_lt (x i : Nat) (h : x < 2 ^ i) : x &&& 2 ^ i = 0 := by
  rw [Nat.and_two_pow, Nat.testBit_lt_two_pow h]; simp

theorem and_two_pow_of_ge (x i : Nat) (h1 : 2 ^ i ≤ x) (h2 : x < 2 ^ (i + 1)) :
    x &&& 2 ^ i = 2 ^ i := by
  rw [Nat.and_two_pow]
  have : x.testBit i = true := by
    rw [Nat.testBit_to_div_mod]
    have h3 : x / 2 ^ i = 1 := by
      apply Nat.div_eq_of_lt_le
      · simpa using h1
      · rw [pow_succ] at h2; omega
    simp [h3]
  simp [this]

theorem two_pow_or_of_ge (x i : Nat) (h1 : 2 ^ i ≤ x) (h2 : x < 2 ^ (i + 1)) :
    2 ^ i ||| x = x := by
  have h := and_two_pow_of_ge x i h1 h2
  apply Nat.eq_of_testBit_eq
  intro j
  rw [Nat.testBit_or, Nat.testBit_two_pow]
  by_cases hj : i = j
  · subst hj
    have : x.testBit i = true := by
      have := congrArg (fun y => y.testBit i) h
      simp [Nat.testBit_and, Nat.testBit_two_pow] at this
      exact this
    simp [this]
  · simp [hj]

theorem mul16_or (k t : Nat) (ht : t < 16) : 16 * k ||| t = 16 * k + t := by
  have := Nat.mul_add_lt_is_or (i := 4) (b := t) (by simpa using ht) k
  simpa using this.symm

theorem and15 (x : Nat) : x &&& 0xF = x % 16 := by
  have := Nat.and_pow_two_sub_one_eq_mod x 4
  simpa using this

theorem fixnum_roundtrip_nonneg (W : Nat) (hW : 6 ≤ W) (n : Nat) (hn : n < 2 ^ (W - 5)) :
    let c := (if n &&& 2 ^ (W - 1) ≠ 0 then 2 ^ (W - 1) else 0)
              ||| ((n - (n &&& 2 ^ (W - 1))) <<< 4) % 2 ^ W ||| 2
    c = 16 * n + 2 := by
  intro c
  have hlt : n < 2 ^ (W - 1) := lt_of_lt_of_le hn (Nat.pow_le_pow_right (by norm_num) (by omega))
  have h0 : n &&& 2 ^ (W - 1) = 0 := and_two_pow_of_lt n _ hlt
  have h16 : 16 * n < 2 ^ W := by
    have : 2 ^ W = 16 * (2 ^ (W - 5) * 2) := by
      have : W = (W - 5) + 1 + 4 := by omega
      conv_lhs => rw [this]
      rw [pow_add, pow_add]; ring
    omega
  show (if n &&& 2 ^ (W - 1) ≠ 0 then 2 ^ (W - 1) else 0)
              ||| ((n - (n &&& 2 ^ (W - 1))) <<< 4) % 2 ^ W ||| 2 = 16 * n + 2
  rw [h0]
  simp only [ne_eq, not_true_eq_false, ↓reduceIte, Nat.sub_zero, Nat.zero_or, Nat.shiftLeft_eq]
  have : n * 2 ^ 4 = 16 * n := by ring
  rw [this, Nat.mod_eq_of_lt h16, mul16_or _ _ (by norm_num)]

theorem word_of_int_nonneg (lp64 : Bool) (n : Nat) (h : n < 2 ^ word_bits lp64) :
    word_of_int lp64 (n : Int) = n := by
  unfold word_of_int
  have : ((n : Int) % (2 ^ word_bits lp64 : Int)) = (n : Int) := by
    apply Int.emod_eq_of_lt (by omega)
    exact_mod_cast h
  rw [this]; simp

theorem word_of_int_neg (lp64 : Bool) (m : Nat) (h1 : 0 < m) (h : m ≤ 2 ^ word_bits lp64) :
    word_of_int lp64 (-(m : Int)) = 2 ^ word_bits lp64 - m := by
  unfold word_of_int
  have : ((-(m : Int)) % (2 ^ word_bits lp64 : Int)) = ((2 ^ word_bits lp64 - m : Nat) : Int) := by
    rw [Int.neg_emod]
    rw [Int.emod_eq_of_lt]
    · push_cast [Nat.cast_sub h]; rfl
    · have : (m : Int) ≤ 2 ^ word_bits lp64 := by exact_mod_cast h
      omega
    · have : (0 : Int) < m := by exact_mod_cast h1
      omega
  rw [this]; simp

theorem fixnum_create_nonneg (lp64 : Bool) (n : Nat) (hn : n < 2 ^ (word_bits lp64 - 5)) :
    lisp_fixnum_create lp64 (n : Int) = 16 * n + 2 := by
  have hW : 6 ≤ word_bits lp64 := by cases lp64 <;> simp [word_bits]
  have hlt : n < 2 ^ (word_bits lp64) :=
    lt_of_lt_of_le hn (Nat.pow_le_pow_right (by norm_num) (by omega))
  have hm : lisp_fixnum_highbit_mask lp64 = 2 ^ (word_bits lp64 - 1) := by
    cases lp64 <;> simp [word_bits, lisp_fixnum_highbit_mask]
  unfold lisp_fixnum_create clear_highbit
  simp only [word_of_int_nonneg lp64 n hlt, hm, lisp_fixnum_no_mask, lisp_tag_fixnum]
  exact fixnum_roundtrip_nonneg _ hW n hn

theorem fixnum_create_neg (lp64 : Bool) (m : Nat) (h1 : 0 < m)
    (hm : m ≤ 2 ^ (word_bits lp64 - 5)) :
    lisp_fixnum_create lp64 (-(m : Int)) = 2 ^ word_bits lp64 - 16 * m + 2 := by
  have hle : m ≤ 2 ^ word_bits lp64 :=
    le_trans hm (Nat.pow_le_pow_right (by norm_num) (by omega))
  unfold lisp_fixnum_create clear_highbit
  simp only [word_of_int_neg lp64 m h1 hle, lisp_fixnum_no_mask, lisp_tag_fixnum]
  cases lp64
  · simp only [word_bits, lisp_fixnum_highbit_mask, Bool.false_eq_true, ↓reduceIte] at hm ⊢
    norm_num at hm ⊢
    have e1 : (4294967296 - m) &&& 2147483648 = 2147483648 :=
      and_two_pow_of_ge (4294967296 - m) 31 (by norm_num; omega) (by norm_num; omega)
    rw [e1]
    simp only [Nat.shiftLeft_eq]
    have e2 : (4294967296 - m - 2147483648) * 2 ^ 4 % 4294967296 = 4294967296 - 16 * m := by
      norm_num; omega
    rw [e2]
    have e3 : 2147483648 ||| (4294967296 - 16 * m) = 4294967296 - 16 * m :=
      two_pow_or_of_ge (4294967296 - 16 * m) 31 (by norm_num; omega) (by norm_num; omega)
    simp only [show (2147483648 : Nat) ≠ 0 by norm_num, ne_eq, not_false_eq_true, ↓reduceIte, e3]
    have e4 : 4294967296 - 16 * m = 16 * (268435456 - m) := by omega
    rw [e4, mul16_or _ _ (by norm_num)]
  · simp only [word_bits, lisp_fixnum_highbit_mask, ↓reduceIte] at hm ⊢
    norm_num at hm ⊢
    have e1 : (18446744073709551616 - m) &&& 9223372036854775808 = 9223372036854775808 :=
      and_two_pow_of_ge (18446744073709551616 - m) 63 (by norm_num; omega) (by norm_num; omega)
    rw [e1]
    simp only [Nat.shiftLeft_eq]
    have e2 : (18446744073709551616 - m - 9223372036854775808) * 2 ^ 4 % 18446744073709551616
        = 18446744073709551616 - 16 * m := by
      norm_num; omega
    rw [e2]
    have e3 : 9223372036854775808 ||| (18446744073709551616 - 16 * m)
        = 18446744073709551616 - 16 * m :=
      two_pow_or_of_ge (18446744073709551616 - 16 * m) 63 (by norm_num; omega)
        (by norm_num; omega)
    simp only [show (9223372036854775808 : Nat) ≠ 0 by norm_num, ne_eq, not_false_eq_true,
      ↓reduceIte, e3]
    have e4 : 18446744073709551616 - 16 * m = 16 * (1152921504606846976 - m) := by omega
    rw [e4, mul16_or _ _ (by norm_num)]

theorem raw_value_mul16_add (k t : Nat) (ht : t < 16) :
    lisp_object_get_raw_value (16 * k + t) = 16 * k ∧ lisp_object_get_tag (16 * k + t) = t := by
  unfold lisp_object_get_raw_value lisp_object_get_tag LISP_TAG_MASK
  rw [and15]
  have : (16 * k + t) % 16 = t := by omega
  rw [this]
  constructor <;> omega

theorem fixnum_get_value_nonneg (lp64 : Bool) (n : Nat) (hn : n < 2 ^ (word_bits lp64 - 5)) :
    lisp_fixnum_get_value lp64 (16 * n + 2) = (n : Int) := by
  unfold lisp_fixnum_get_value clear_highbit
  simp only [(raw_value_mul16_add n 2 (by norm_num)).1, lisp_fixnum_no_mask]
  cases lp64
  · simp only [word_bits, lisp_fixnum_highbit_mask, Bool.false_eq_true, ↓reduceIte] at hn ⊢
    norm_num at hn
    have e1 : 16 * n &&& 2147483648 = 0 := and_two_pow_of_lt (16 * n) 31 (by norm_num; omega)
    rw [e1]
    simp only [ne_eq, not_true_eq_false, ↓reduceIte, Nat.sub_zero, Nat.zero_or,
      Nat.shiftRight_eq_div_pow]
    have e2 : 16 * n / 2 ^ 4 = n := by norm_num
    rw [e2]
    unfold int_of_word
    simp only [word_bits, Bool.false_eq_true, ↓reduceIte]
    norm_num
    split <;> omega
  · simp only [word_bits, lisp_fixnum_highbit_mask, ↓reduceIte] at hn ⊢
    norm_num at hn
    have e1 : 16 * n &&& 9223372036854775808 = 0 :=
      and_two_pow_of_lt (16 * n) 63 (by norm_num; omega)
    rw [e1]
    simp only [ne_eq, not_true_eq_false, ↓reduceIte, Nat.sub_zero, Nat.zero_or,
      Nat.shiftRight_eq_div_pow]
    have e2 : 16 * n / 2 ^ 4 = n := by norm_num
    rw [e2]
    unfold int_of_word
    simp only [word_bits, ↓reduceIte]
    norm_num
    split <;> omega

theorem fixnum_get_value_neg (lp64 : Bool) (m : Nat) (h1 : 0 < m)
    (hm : m ≤ 2 ^ (word_bits lp64 - 5)) :
    lisp_fixnum_get_value lp64 (2 ^ word_bits lp64 - 16 * m + 2) = -(m : Int) := by
  unfold lisp_fixnum_get_value clear_highbit
  cases lp64
  · simp only [word_bits, lisp_fixnum_highbit_mask, lisp_fixnum_negative_mask,
      lisp_fixnum_no_mask, Bool.false_eq_true, ↓reduceIte] at hm ⊢
    norm_num at hm ⊢
    have e0 : 4294967296 - 16 * m + 2 = 16 * (268435456 - m) + 2 := by omega
    rw [e0, (raw_value_mul16_add _ 2 (by norm_num)).1]
    have e1 : 16 * (268435456 - m) &&& 2147483648 = 2147483648 :=
      and_two_pow_of_ge _ 31 (by norm_num; omega) (by norm_num; omega)
    rw [e1]
    simp only [show (2147483648 : Nat) ≠ 0 by norm_num, ne_eq, not_false_eq_true, ↓reduceIte,
      Nat.shiftRight_eq_div_pow]
    have e2 : (16 * (268435456 - m) - 2147483648) / 2 ^ 4 = 134217728 - m := by
      norm_num; omega
    rw [e2]
    have e3 : 4160749568 ||| (134217728 - m) = 4160749568 + (134217728 - m) := by
      have := Nat.mul_add_lt_is_or (i := 27) (b := 134217728 - m) (by norm_num; omega) 31
      norm_num at this
      exact this.symm
    rw [e3]
    unfold int_of_word
    simp only [word_bits, Bool.false_eq_true, ↓reduceIte]
    norm_num
    have e4 : (4160749568 + (134217728 - m)) % 4294967296 = 4294967296 - m := by omega
    rw [e4]
    have : ¬ (4294967296 - m < 2147483648) := by omega
    simp only [this, ↓reduceIte]
    omega
  · simp only [word_bits, lisp_fixnum_highbit_mask, lisp_fixnum_negative_mask,
      lisp_fixnum_no_mask, ↓reduceIte] at hm ⊢
    norm_num at hm ⊢
    have e0 : 18446744073709551616 - 16 * m + 2 = 16 * (1152921504606846976 - m) + 2 := by
      omega
    rw [e0, (raw_value_mul16_add _ 2 (by norm_num)).1]
    have e1 : 16 * (1152921504606846976 - m) &&& 9223372036854775808 = 9223372036854775808 :=
      and_two_pow_of_ge _ 63 (by norm_num; omega) (by norm_num; omega)
    rw [e1]
    simp only [show (9223372036854775808 : Nat) ≠ 0 by norm_num, ne_eq, not_false_eq_true,
      ↓reduceIte, Nat.shiftRight_eq_div_pow]
    have e2 : (16 * (1152921504606846976 - m) - 9223372036854775808) / 2 ^ 4
        = 576460752303423488 - m := by
      norm_num; omega
    rw [e2]
    have e3 : 17870283321406128128 ||| (576460752303423488 - m)
        = 17870283321406128128 + (576460752303423488 - m) := by
      have := Nat.mul_add_lt_is_or (i := 59) (b := 576460752303423488 - m)
        (by norm_num; omega) 31
      norm_num at this
      exact this.symm
    rw [e3]
    unfold int_of_word
    simp only [word_bits, ↓reduceIte]
    norm_num
    have e4 : (17870283321406128128 + (576460752303423488 - m)) % 18446744073709551616
        = 18446744073709551616 - m := by omega
    rw [e4]
    have : ¬ (18446744073709551616 - m < 9223372036854775808) := by omega
    simp only [this, ↓reduceIte]
    omega

/-- C5. For every integer `f` in the representable fixnum range (60 bits signed on a
64-bit host, 28 bits on a 32-bit host), decoding the fixnum created from `f` gives `f`
back, and the created word carries the fixnum tag. -/
theorem C5_fixnum_create_get_value (lp64 : Bool) (f : Int)
    (hmin : lisp_fixnum_min lp64 ≤ f) (hmax : f ≤ lisp_fixnum_max lp64) :
    lisp_fixnum_get_value lp64 (lisp_fixnum_create lp64 f) = f ∧
      lisp_object_get_tag (lisp_fixnum_create lp64 f) = lisp_tag_fixnum := by
  unfold lisp_fixnum_min at hmin
  unfold lisp_fixnum_max at hmax
  have hpos : (0 : Int) < 2 ^ (word_bits lp64 - 5) := by positivity
  rcases Int.lt_or_le f 0 with hneg | hnn
  · obtain ⟨m, hm⟩ : ∃ m : Nat, f = -(m : Int) := ⟨(-f).toNat, by omega⟩
    subst hm
    have h1 : 0 < m := by omega
    have h2 : m ≤ 2 ^ (word_bits lp64 - 5) := by
      have : (m : Int) ≤ 2 ^ (word_bits lp64 - 5) := by omega
      exact_mod_cast this
    have hW : 2 ^ word_bits lp64 = 16 * (2 ^ (word_bits lp64 - 5) * 2) := by
      cases lp64 <;> simp [word_bits]
    rw [fixnum_create_neg lp64 m h1 h2]
    refine ⟨fixnum_get_value_neg lp64 m h1 h2, ?_⟩
    have e : 2 ^ word_bits lp64 - 16 * m + 2 = 16 * (2 ^ (word_bits lp64 - 5) * 2 - m) + 2 := by
      omega
    rw [e]
    exact (raw_value_mul16_add _ 2 (by norm_num)).2
  · obtain ⟨n, hn⟩ : ∃ n : Nat, f = (n : Int) := ⟨f.toNat, by omega⟩
    subst hn
    have h2 : n < 2 ^ (word_bits lp64 - 5) := by
      have : (n : Int) < 2 ^ (word_bits lp64 - 5) := by omega
      exact_mod_cast this
    rw [fixnum_create_nonneg lp64 n h2]
    exact ⟨fixnum_get_value_nonneg lp64 n h2, (raw_value_mul16_add _ 2 (by norm_num)).2⟩

/-- C5 at the 64-bit minimum `-2^59`. -/
theorem C5_fixnum_create_get_value_witness :
    lisp_fixnum_min true ≤ -576460752303423488 ∧
      -576460752303423488 ≤ lisp_fixnum_max true ∧
      lisp_fixnum_get_value true (lisp_fixnum_create true (-576460752303423488))
        = -576460752303423488 ∧
      lisp_object_get_tag (lisp_fixnum_create true (-576460752303423488)) = lisp_tag_fixnum :=
  ⟨by decide, by decide,
   C5_fixnum_create_get_value true (-576460752303423488) (by decide) (by decide)⟩

/-! ## Tags and the typed heap -/

theorem lisp_object_get_tag_eq (o : Nat) : lisp_object_get_tag o = o % 16 := by
  unfold lisp_object_get_tag LISP_TAG_MASK
  exact and15 o

theorem lisp_object_get_raw_value_eq (o : Nat) : lisp_object_get_raw_value o = o - o % 16 := by
  unfold lisp_object_get_raw_value LISP_TAG_MASK
  rw [and15]

theorem heap_read_write (h : lisp_heap) (a : Nat) (r : lisp_record) (b : Nat) :
    heap_read (heap_write h a r) b = if b = a then some r else heap_read h b := rfl

theorem heap_write_cur (h : lisp_heap) (a : Nat) (r : lisp_record) :
    (heap_write h a r).lisp_heap_cur = h.lisp_heap_cur := rfl



theorem lisp_cellp_eq_NIL (g : lisp_globals) (hg : globals_wf g) (o : Nat) :
    lisp_cellp g o = g.lisp_NIL ↔ o % 16 ≠ 0 := by
  unfold lisp_cellp lisp_object_has_tag
  rw [lisp_object_get_tag_eq]
  simp only [lisp_tag_cell]
  split
  · simp [hg.T_ne_NIL, *]
  · simp [*]

theorem lisp_cell_car_cell (g : lisp_globals) (hg : globals_wf g) (h : lisp_heap)
    (c a b : Nat) (hc : c % 16 = 0) (hr : heap_read h c = some (lisp_record.cell a b)) :
    lisp_cell_car g h c = a ∧ lisp_cell_cdr g h c = b := by
  have hne : c ≠ g.lisp_NIL := by
    intro e
    have := hg.NIL_atom
    rw [lisp_object_get_tag_eq, ← e, hc] at this
    simp [lisp_tag_atom] at this
  have hcp : ¬ (lisp_cellp g c = g.lisp_NIL) := by
    rw [lisp_cellp_eq_NIL g hg]; simp [hc]
  have hv : lisp_cell_get_value h c = some (a, b) := by
    unfold lisp_cell_get_value
    rw [lisp_object_get_raw_value_eq, hc, Nat.sub_zero, hr]
  unfold lisp_cell_car lisp_cell_cdr
  simp [hne, hcp, hv]

theorem lisp_cell_car_not_cell (g : lisp_globals) (hg : globals_wf g) (h : lisp_heap)
    (c : Nat) (hc : c % 16 ≠ 0) :
    lisp_cell_car g h c = g.lisp_NIL ∧ lisp_cell_cdr g h c = g.lisp_NIL := by
  have hcp : lisp_cellp g c = g.lisp_NIL := (lisp_cellp_eq_NIL g hg c).2 hc
  unfold lisp_cell_car lisp_cell_cdr
  simp [hcp]

theorem lisp_cell_car_NIL (g : lisp_globals) (h : lisp_heap) :
    lisp_cell_car g h g.lisp_NIL = g.lisp_NIL ∧ lisp_cell_cdr g h g.lisp_NIL = g.lisp_NIL := by
  unfold lisp_cell_car lisp_cell_cdr
  simp

/-! ## Property lists: what the loops see -/





theorem lisp_equal_atom (g : lisp_globals) (hg : globals_wf g) (fuel : Nat) (h : lisp_heap)
    (symbol k : Nat) (hs : lisp_object_get_tag symbol = lisp_tag_atom) :
    lisp_equal g (fuel + 1) h symbol k
      = .ok (if atom_key_equal h symbol k then g.lisp_T else g.lisp_NIL) := by
  unfold lisp_equal atom_key_equal lisp_eq
  by_cases e : symbol = k
  · simp [e, hg.T_ne_NIL]
  · simp only [e, ↓reduceIte, ne_eq, not_true_eq_false, decide_False, Bool.false_or]
    rw [hs]
    by_cases ht : lisp_object_get_tag k = lisp_tag_atom
    · simp [ht, lisp_tag_atom, lisp_tag_cell, lisp_atom_equal]
    · have : ¬ (lisp_tag_atom = lisp_object_get_tag k) := fun e => ht e.symm
      simp [ht, this]

theorem plist_find_entry_spec (g : lisp_globals) (hg : globals_wf g) (h : lisp_heap)
    (symbol : Nat) (hs : lisp_object_get_tag symbol = lisp_tag_atom) :
    ∀ (cells : List Nat) (p : Nat), plist_spine g h p cells = true →
    ∀ fuel, cells.length < fuel →
      lisp_plist_find_entry g fuel h p symbol =
        .ok (match plist_assoc g h symbol cells with
             | some entry => (true, entry)
             | none => (false, cells.getLastD p)) := by
  intro cells
  induction cells with
  | nil => intro p hsp; simp [plist_spine] at hsp
  | cons c cs ih =>
    intro p hsp fuel hf
    obtain ⟨n, rfl⟩ : ∃ n, fuel = n + 1 := ⟨fuel - 1, by simp at hf; omega⟩
    obtain ⟨m, rfl⟩ : ∃ m, n = m + 1 := ⟨n - 1, by simp at hf; omega⟩
    unfold lisp_plist_find_entry
    simp only [bind, Except.bind, lisp_equal_atom g hg m h symbol _ hs]
    cases cs with
    | nil =>
      simp only [plist_spine, Bool.and_eq_true, decide_eq_true_eq] at hsp
      obtain ⟨rfl, hcdr⟩ := hsp
      by_cases hk : atom_key_equal h symbol (lisp_cell_car g h (lisp_cell_car g h c)) = true
      · simp [plist_assoc, hk, hg.T_ne_NIL, pure, Except.pure]
      · simp [plist_assoc, hk, hcdr, pure, Except.pure]
    | cons c' cs' =>
      simp only [plist_spine, Bool.and_eq_true, decide_eq_true_eq] at hsp
      obtain ⟨⟨rfl, hcdr⟩, hrest⟩ := hsp
      by_cases hk : atom_key_equal h symbol (lisp_cell_car g h (lisp_cell_car g h c)) = true
      · simp [plist_assoc, hk, hg.T_ne_NIL, pure, Except.pure]
      · have := ih _ hrest (m + 1) (by simp at hf ⊢; omega)
        simp only [plist_assoc, hk, hcdr, ne_eq, not_false_eq_true, ↓reduceIte, this,
          not_true_eq_false, Bool.false_eq_true]
        cases plist_assoc g h symbol (c' :: cs') <;> simp [List.getLastD]

theorem plist_get_spec (g : lisp_globals) (hg : globals_wf g) (h : lisp_heap)
    (symbol : Nat) (hs : lisp_object_get_tag symbol = lisp_tag_atom)
    (cells : List Nat) (p : Nat) (hsp : plist_spine g h p cells = true)
    (fuel : Nat) (hf : cells.length < fuel) :
    lisp_plist_get g fuel h p symbol = .ok (plist_value g h symbol cells) := by
  unfold lisp_plist_get plist_value
  rw [plist_find_entry_spec g hg h symbol hs cells p hsp fuel hf]
  cases plist_assoc g h symbol cells <;> simp [bind, Except.bind, pure, Except.pure]



theorem environment_parent_spec (g : lisp_globals) (hg : globals_wf g) (h : lisp_heap)
    (environment : Nat) (f : frame_view) (hok : frame_ok g h environment f = true)
    (fuel : Nat) (hf : f.cells.length + f.parent_cells.length < fuel) :
    lisp_environment_parent g fuel h environment = .ok (frame_parent g h f) := by
  unfold frame_ok at hok
  simp only [Bool.and_eq_true, Bool.or_eq_true, decide_eq_true_eq] at hok
  obtain ⟨hsp, hpar⟩ := hok
  unfold lisp_environment_parent frame_parent
  rw [plist_get_spec g hg h _ hg.PARENT_atom f.cells environment hsp fuel (by omega)]
  simp only [bind, Except.bind]
  by_cases hn : plist_value g h g.lisp_SI_PARENT_ENVIRONMENT f.cells = g.lisp_NIL
  · simp [hn, pure, Except.pure]
  · simp only [hn, ↓reduceIte]
    rcases hpar with hpar | hpar
    · exact absurd hpar hn
    · exact plist_get_spec g hg h _ hg.APVAL_atom f.parent_cells _ hpar fuel (by omega)

theorem environment_find_symbol_spec (g : lisp_globals) (hg : globals_wf g) (h : lisp_heap)
    (symbol : Nat) (hs : lisp_object_get_tag symbol = lisp_tag_atom) :
    ∀ (frames : List frame_view) (environment : Nat), env_chain g h environment frames = true →
    ∀ fuel, env_fuel frames < fuel →
      lisp_environment_find_symbol g fuel h environment symbol g.lisp_T =
        .ok (match env_assoc g h symbol frames with
             | some entry => entry
             | none => g.lisp_NIL) := by
  intro frames
  induction frames with
  | nil => intro e he; simp [env_chain] at he
  | cons f fs ih =>
    intro environment he fuel hf
    obtain ⟨n, rfl⟩ : ∃ n, fuel = n + 1 := ⟨fuel - 1, by simp [env_fuel] at hf; omega⟩
    have hok : frame_ok g h environment f = true := by
      cases fs <;> simp [env_chain] at he <;> simp [he]
    have hsp : plist_spine g h environment f.cells = true := by
      unfold frame_ok at hok; simp at hok; exact hok.1
    unfold lisp_environment_find_symbol
    rw [plist_find_entry_spec g hg h symbol hs f.cells environment hsp n
      (by simp [env_fuel] at hf; omega)]
    simp only [bind, Except.bind, env_assoc]
    cases hpa : plist_assoc g h symbol f.cells with
    | some entry => simp [pure, Except.pure]
    | none =>
      simp only [Bool.false_eq_true, ↓reduceIte, hg.T_ne_NIL]
      rw [environment_parent_spec g hg h environment f hok n (by simp [env_fuel] at hf; omega)]
      cases fs with
      | nil =>
        simp [env_chain] at he
        simp [he.2, env_assoc, pure, Except.pure]
      | cons f' fs' =>
        simp only [env_chain, Bool.and_eq_true, decide_eq_true_eq] at he
        obtain ⟨⟨_, hne⟩, hrest⟩ := he
        simp only [hne, ↓reduceIte]
        exact ih _ hrest n (by simp [env_fuel] at hf ⊢; omega)

theorem eval_atom_spec (g : lisp_globals) (hg : globals_wf g) (h : lisp_heap)
    (environment atom : Nat) (frames : List frame_view) (attrs : List Nat)
    (ha : lisp_object_get_tag atom = lisp_tag_atom)
    (hE : env_chain g h environment frames = true)
    (hattrs : entry_attrs_ok g h atom frames attrs = true)
    (fuel : Nat) (hf : env_fuel frames + attrs.length < fuel) :
    lisp_eval_atom g fuel h environment atom
      = .ok (eval_atom_view g h frames attrs atom) := by
  unfold lisp_eval_atom eval_atom_view
  rw [environment_find_symbol_spec g hg h atom ha frames environment hE fuel (by omega)]
  simp only [bind, Except.bind]
  cases hfind : env_assoc g h atom frames with
  | none => simp [pure, Except.pure]
  | some entry =>
    simp only
    by_cases hd : entry = g.lisp_NIL ∨ lisp_cell_cdr g h entry = g.lisp_NIL
    · simp [hd, pure, Except.pure]
    · simp only [hd, ↓reduceIte]
      have hd' : entry ≠ g.lisp_NIL ∧ lisp_cell_cdr g h entry ≠ g.lisp_NIL := by
        constructor
        · intro e; exact hd (Or.inl e)
        · intro e; exact hd (Or.inr e)
      have hsp : plist_spine g h (lisp_cell_cdr g h entry) attrs = true := by
        unfold entry_attrs_ok at hattrs
        rw [hfind] at hattrs
        simpa [hd'.1, hd'.2] using hattrs
      rw [plist_get_spec g hg h _ hg.SUBR_atom attrs _ hsp fuel (by omega)]
      simp only
      by_cases h1 : plist_value g h g.lisp_SUBR attrs = g.lisp_NIL
      · simp only [h1, ne_eq, not_true_eq_false, ↓reduceIte]
        rw [plist_get_spec g hg h _ hg.EXPR_atom attrs _ hsp fuel (by omega)]
        simp only
        by_cases h2 : plist_value g h g.lisp_EXPR attrs = g.lisp_NIL
        · simp only [h2, ne_eq, not_true_eq_false, ↓reduceIte]
          rw [plist_get_spec g hg h _ hg.APVAL_atom attrs _ hsp fuel (by omega)]
          simp only
          by_cases h3 : plist_value g h g.lisp_APVAL attrs = g.lisp_NIL
          · simp [h3, pure, Except.pure]
          · simp [h3, pure, Except.pure]
        · simp [h2, pure, Except.pure]
      · simp [h1, pure, Except.pure]

/-- C1. For an environment whose chain of frames is finite and an atom `a`,
`lisp_eval` terminates without touching the heap and returns `NIL` when no
frame of the chain has an entry whose key is equal to `a`, and otherwise, for
the entry of the nearest such frame, its `SUBR` if that is not `NIL`, else its
`EXPR` if that is not `NIL`, else its `APVAL`. -/
theorem C1_eval_atom (g : lisp_globals) (hg : globals_wf g) (h : lisp_heap)
    (environment atom : lisp_object_t) (frames : List frame_view)
    (attrs : List lisp_object_t)
    (ha : lisp_object_get_tag atom = lisp_tag_atom)
    (hE : env_chain g h environment frames = true)
    (hattrs : entry_attrs_ok g h atom frames attrs = true)
    (fuel : Nat) (hf : env_fuel frames + attrs.length + 1 < fuel) :
    lisp_eval g fuel h environment atom
      = .ok (eval_atom_view g h frames attrs atom, h) := by
  obtain ⟨n, rfl⟩ : ∃ n, fuel = n + 1 := ⟨fuel - 1, by omega⟩
  unfold lisp_eval
  simp only [ha, ↓reduceIte]
  rw [eval_atom_spec g hg h environment atom frames attrs ha hE hattrs n (by omega)]
  rfl

set_option maxRecDepth 100000 in
theorem example_root_globals_wf : globals_wf example_root.g := by
  have H : example_root.g.lisp_T ≠ example_root.g.lisp_NIL
      ∧ lisp_object_get_tag example_root.g.lisp_NIL = lisp_tag_atom
      ∧ lisp_object_get_tag example_root.g.lisp_APVAL = lisp_tag_atom
      ∧ lisp_object_get_tag example_root.g.lisp_EXPR = lisp_tag_atom
      ∧ lisp_object_get_tag example_root.g.lisp_SUBR = lisp_tag_atom
      ∧ lisp_object_get_tag example_root.g.lisp_SI_PARENT_ENVIRONMENT = lisp_tag_atom := by
    decide!
  exact ⟨H.1, H.2.1, H.2.2.1, H.2.2.2.1, H.2.2.2.2.1, H.2.2.2.2.2⟩

set_option maxRecDepth 100000 in
/-- C1 at a fresh atom named `T` in the bootstrap frame: it evaluates to the
well-known `T`, which is a different object. -/
theorem C1_eval_atom_witness :
    lisp_eval example_root.g 24 example_fresh_T.2 example_root.environment example_fresh_T.1
        = .ok (example_root.g.lisp_T, example_fresh_T.2)
      ∧ example_fresh_T.1 ≠ example_root.g.lisp_T := by
  have H : lisp_object_get_tag example_fresh_T.1 = lisp_tag_atom
      ∧ env_chain example_root.g example_fresh_T.2 example_root.environment
          example_root_frames = true
      ∧ entry_attrs_ok example_root.g example_fresh_T.2 example_fresh_T.1 example_root_frames
          example_fresh_T_attrs = true
      ∧ env_fuel example_root_frames + example_fresh_T_attrs.length + 1 < 24
      ∧ eval_atom_view example_root.g example_fresh_T.2 example_root_frames
          example_fresh_T_attrs example_fresh_T.1 = example_root.g.lisp_T
      ∧ example_fresh_T.1 ≠ example_root.g.lisp_T := by
    decide!
  have key := C1_eval_atom example_root.g example_root_globals_wf example_fresh_T.2
      example_root.environment example_fresh_T.1 example_root_frames example_fresh_T_attrs
      H.1 H.2.1 H.2.2.1 24 H.2.2.2.1
  rw [H.2.2.2.2.1] at key
  exact ⟨key, H.2.2.2.2.2⟩


/-- The loop of `lisp_subr_sign_TIMES` started at the product `0` that the
function starts it at ends with `0`, or early at a non-fixnum. -/
theorem TIMES_loop_zero (g : lisp_globals) (h : lisp_heap) :
    ∀ (fuel : Nat) (args : lisp_object_t),
      lisp_subr_sign_TIMES_loop g fuel h args 0 = .error lisp_error.out_of_fuel
      ∨ lisp_subr_sign_TIMES_loop g fuel h args 0 = .ok none
      ∨ lisp_subr_sign_TIMES_loop g fuel h args 0 = .ok (some 0) := by
  intro fuel
  induction fuel with
  | zero => intro args; left; rfl
  | succ n ih =>
    intro args
    unfold lisp_subr_sign_TIMES_loop
    by_cases ha : args ≠ g.lisp_NIL
    · simp only [ha, ↓reduceIte, ne_eq, not_false_eq_true]
      by_cases hfx : lisp_fixnump g (lisp_cell_car g h args) = g.lisp_NIL
      · simp [hfx, pure, Except.pure]
      · simp only [hfx, ↓reduceIte, Int.zero_mul]
        exact ih _
    · simp [ha, pure, Except.pure]

set_option maxRecDepth 100000 in
/-- C9 (the code departs from it). After `(DEFINE SQUARE (LAMBDA (X) (* X X)))`,
which returns the atom `SQUARE`, evaluating `(SQUARE 5)` returns the fixnum 0,
which is not the fixnum 25; and whatever its arguments, `lisp_subr_sign_TIMES`
returns `NIL` or the fixnum 0 and leaves the heap as it was, because its
running product starts at 0. -/
theorem C9_SQUARE_5_is_0 :
    run_value example_SQUARE = some (true, lisp_fixnum_create true 0)
    ∧ lisp_fixnum_create true 0 ≠ lisp_fixnum_create true 25
    ∧ ∀ (g : lisp_globals) (fuel : Nat) (h : lisp_heap) (environment arguments : lisp_object_t),
        lisp_subr_sign_TIMES g fuel h environment arguments = .error lisp_error.out_of_fuel
        ∨ lisp_subr_sign_TIMES g fuel h environment arguments = .ok (g.lisp_NIL, h)
        ∨ lisp_subr_sign_TIMES g fuel h environment arguments
            = .ok (lisp_fixnum_create true 0, h) := by
  have H : run_value example_SQUARE = some (true, lisp_fixnum_create true 0)
      ∧ lisp_fixnum_create true 0 ≠ lisp_fixnum_create true 25 := by
    decide!
  refine ⟨H.1, H.2, ?_⟩
  intro g fuel h environment arguments
  unfold lisp_subr_sign_TIMES
  rcases TIMES_loop_zero g h fuel arguments with e | e | e
  · left; rw [e]; rfl
  · right; left; rw [e]; rfl
  · right; right; rw [e]; rfl


set_option maxRecDepth 100000 in
/-- C3 (the code departs from it). Applied with `lisp_apply`, `(LAMBDA () 'X)`
given one argument and `(LAMBDA (A) 'X)` given no argument both evaluate the
body and return `X`, which is not `NIL`; `(LAMBDA (A B) 'X)` given one
argument returns `NIL` as the claim says. -/
theorem C3_LAMBDA_mismatch_evaluates_body :
    run_value example_LAMBDA_mismatch = some (true, true, true, true) := by
  decide!


set_option maxRecDepth 100000 in
/-- C8 (the code departs from it). Reading `'NIL` and reading `'()` both
return the one-element list `(QUOTE)`: a cell whose `CAR` is the `QUOTE` symbol
and whose `CDR` is `NIL`, not a list of two elements; reading `'A` returns a
list whose `CDR` is not `NIL`. -/
theorem C8_read_quote_NIL_is_one_element :
    example_read_quote_shape "'NIL" = some (true, true, true)
    ∧ example_read_quote_shape "'()" = some (true, true, true)
    ∧ example_read_quote_shape "'A" = some (true, true, false) := by
  decide!


set_option maxRecDepth 100000 in
/-- C10 (the code departs from it). With an empty parameter list,
`(DEFUN F () 42)` stores the one-element list `(LAMBDA)` as the `EXPR` of `F`,
without the `BLOCK` and the body, and `(F)` then returns `NIL`; the form
`(DEFINE F (LAMBDA () (BLOCK F 42)))` stores a list of three elements whose
third is the `BLOCK` form, and `(F)` then returns 42.  With the parameter list
`(A)`, `DEFUN` stores such a list of three elements too. -/
theorem C10_DEFUN_empty_parameter_list_drops_body :
    run_value (example_define_and_apply "(DEFUN F () 42)" "(F)")
        = some (1, true, false, example_interpreter.g.lisp_NIL)
    ∧ run_value (example_define_and_apply "(DEFINE F (LAMBDA () (BLOCK F 42)))" "(F)")
        = some (3, true, true, lisp_fixnum_create true 42)
    ∧ example_interpreter.g.lisp_NIL ≠ lisp_fixnum_create true 42
    ∧ run_value (example_define_and_apply "(DEFUN F (A) 42)" "(F 1)")
        = some (3, true, true, lisp_fixnum_create true 42) := by
  decide!


/-! ## Argument evaluation -/

theorem lisp_cell_car_congr (g : lisp_globals) (h h' : lisp_heap) (x : Nat)
    (e : heap_read h' (lisp_object_get_raw_value x) = heap_read h (lisp_object_get_raw_value x)) :
    lisp_cell_car g h' x = lisp_cell_car g h x ∧ lisp_cell_cdr g h' x = lisp_cell_cdr g h x := by
  unfold lisp_cell_car lisp_cell_cdr lisp_cell_get_value
  rw [e]
  exact ⟨rfl, rfl⟩

theorem list_cells_congr (g : lisp_globals) (h h' : lisp_heap) :
    ∀ (cells : List Nat) (p : Nat),
      (∀ x ∈ cells, heap_read h' (lisp_object_get_raw_value x)
        = heap_read h (lisp_object_get_raw_value x)) →
      list_cells g h' p cells = list_cells g h p cells := by
  intro cells
  induction cells with
  | nil => intro p _; rfl
  | cons c cs ih =>
    intro p hx
    unfold list_cells
    by_cases e : c = p
    · subst e
      rw [(lisp_cell_car_congr g h h' c (hx c (List.mem_cons_self _ _))).2,
        ih _ (fun x hx' => hx x (List.mem_cons_of_mem _ hx'))]
    · simp [e]

theorem cells_linked_congr (g : lisp_globals) (h h' : lisp_heap) :
    ∀ (linked : List (Nat × Nat)),
      (∀ p ∈ linked, heap_read h' p.1 = heap_read h p.1) →
      cells_linked g h linked → cells_linked g h' linked := by
  intro linked
  induction linked with
  | nil => intro _ _; trivial
  | cons p rest ih =>
    intro hx hl
    cases rest with
    | nil =>
      unfold cells_linked at hl ⊢
      rw [hx p (List.mem_cons_self _ _)]; exact hl
    | cons q rest =>
      unfold cells_linked at hl ⊢
      refine ⟨?_, ih (fun x hx' => hx x (List.mem_cons_of_mem _ hx')) hl.2⟩
      rw [hx p (List.mem_cons_self _ _)]; exact hl.1

/-- Appending a cell to a chain: the old last cell now points to the new one. -/
theorem cells_linked_snoc (g : lisp_globals) (h h' : lisp_heap) (c v : Nat) :
    ∀ (init : List (Nat × Nat)) (last : Nat × Nat),
      cells_linked g h (init ++ [last]) →
      (∀ p ∈ init, heap_read h' p.1 = heap_read h p.1) →
      heap_read h' last.1 = some (lisp_record.cell last.2 c) →
      heap_read h' c = some (lisp_record.cell v g.lisp_NIL) →
      cells_linked g h' (init ++ [last] ++ [(c, v)]) := by
  intro init
  induction init with
  | nil =>
    intro last _ _ hlast hc
    exact ⟨hlast, hc⟩
  | cons p rest ih =>
    intro last hl hx hlast hc
    have hrest := ih last
    cases rest with
    | nil =>
      simp only [List.cons_append, List.nil_append] at hl ⊢
      unfold cells_linked at hl
      refine ⟨?_, ?_⟩
      · rw [hx p (List.mem_cons_self _ _)]; exact hl.1
      · exact ⟨hlast, hc⟩
    | cons q rest =>
      simp only [List.cons_append] at hl hrest ⊢
      unfold cells_linked at hl
      refine ⟨?_, ?_⟩
      · rw [hx p (List.mem_cons_self _ _)]; exact hl.1
      · exact hrest hl.2 (fun x hx' => hx x (List.mem_cons_of_mem _ hx')) hlast hc

/-- The last cell of a chain points to `NIL`. -/
theorem cells_linked_last (g : lisp_globals) (h : lisp_heap) :
    ∀ (init : List (Nat × Nat)) (last : Nat × Nat),
      cells_linked g h (init ++ [last]) →
      heap_read h last.1 = some (lisp_record.cell last.2 g.lisp_NIL) := by
  intro init
  induction init with
  | nil => intro last hl; exact hl
  | cons p rest ih =>
    intro last hl
    cases rest with
    | nil => exact hl.2
    | cons q rest =>
      simp only [List.cons_append] at hl ih
      unfold cells_linked at hl
      exact ih last hl.2

/-- A chain of aligned cells is a proper list that holds the values. -/
theorem cells_linked_list (g : lisp_globals) (hg : globals_wf g) (h : lisp_heap) :
    ∀ (linked : List (Nat × Nat)),
      cells_linked g h linked → (∀ p ∈ linked, p.1 % 16 = 0) →
      list_cells g h (linked_result g linked) (linked.map Prod.fst) = true
      ∧ (linked.map Prod.fst).map (lisp_cell_car g h) = linked.map Prod.snd := by
  intro linked
  induction linked with
  | nil => intro _ _; simp [list_cells, linked_result]
  | cons p rest ih =>
    intro hl ha
    have hp := ha p (List.mem_cons_self _ _)
    have hcp : ¬ (lisp_cellp g p.1 = g.lisp_NIL) := by
      rw [lisp_cellp_eq_NIL g hg]; simp [hp]
    cases rest with
    | nil =>
      unfold cells_linked at hl
      have hc := lisp_cell_car_cell g hg h p.1 _ _ hp hl
      simp [list_cells, linked_result, hcp, hc.1, hc.2]
    | cons q rest =>
      unfold cells_linked at hl
      have hc := lisp_cell_car_cell g hg h p.1 _ _ hp hl.1
      have := ih hl.2 (fun x hx' => ha x (List.mem_cons_of_mem _ hx'))
      simp only [linked_result, List.head?_cons, List.map_cons] at this ⊢
      refine ⟨?_, ?_⟩
      · rw [list_cells, hc.2]
        simp only [decide_True, ne_eq, hcp, not_false_eq_true, Bool.and_self, Bool.true_and]
        exact this.1
      · rw [hc.1, this.2]


theorem lisp_cell_cons_eq (h : lisp_heap) (a b : Nat) :
    lisp_cell_cons h a b
      = (h.lisp_heap_cur,
         { heap_write h h.lisp_heap_cur (lisp_record.cell a b) with
           lisp_heap_cur := h.lisp_heap_cur + 16 }) := by
  unfold lisp_cell_cons lisp_object_allocate lisp_round_to_next_multiple lisp_tag_cell
  simp

theorem heap_read_cons (h : lisp_heap) (a b x : Nat) :
    heap_read (lisp_cell_cons h a b).2 x
      = if x = h.lisp_heap_cur then some (lisp_record.cell a b) else heap_read h x := by
  rw [lisp_cell_cons_eq]
  rfl

theorem raw_value_aligned (c : Nat) (hc : c % 16 = 0) : lisp_object_get_raw_value c = c := by
  rw [lisp_object_get_raw_value_eq, hc]; rfl

theorem raw_value_le (c : Nat) : lisp_object_get_raw_value c ≤ c := by
  rw [lisp_object_get_raw_value_eq]; omega

theorem aligned_ne_NIL (g : lisp_globals) (hg : globals_wf g) (c : Nat) (hc : c % 16 = 0) :
    c ≠ g.lisp_NIL := by
  intro e
  have := hg.NIL_atom
  rw [lisp_object_get_tag_eq, ← e, hc] at this
  simp [lisp_tag_atom] at this

theorem linked_result_snoc (g : lisp_globals) (hg : globals_wf g)
    (done : List (Nat × Nat)) (p : Nat × Nat)
    (hd : ∀ q ∈ done, q.1 % 16 = 0) :
    (if linked_result g done ≠ g.lisp_NIL then linked_result g done else p.1)
      = linked_result g (done ++ [p]) := by
  cases done with
  | nil => simp [linked_result]
  | cons q rest =>
    have := aligned_ne_NIL g hg q.1 (hd q (List.mem_cons_self _ _))
    simp [linked_result, this]

/-- The step that appends the new result cell to the chain built so far. -/
theorem arg_link (g : lisp_globals) (hg : globals_wf g) (h1 : lisp_heap) (v : Nat)
    (done : List (Nat × Nat))
    (hd : ∀ q ∈ done, q.1 % 16 = 0 ∧ q.1 < h1.lisp_heap_cur)
    (hnd : (done.map Prod.fst).Nodup)
    (hl : cells_linked g h1 done) :
    ∃ h3 : lisp_heap,
      ((done.getLast?.map Prod.fst = none ∧ linked_result g done = g.lisp_NIL
          ∧ h3 = (lisp_cell_cons h1 v g.lisp_NIL).2)
        ∨ (∃ t, done.getLast?.map Prod.fst = some t ∧ linked_result g done ≠ g.lisp_NIL
          ∧ linked_tail g done = t
          ∧ lisp_cell_rplacd (lisp_cell_cons h1 v g.lisp_NIL).2 t h1.lisp_heap_cur
              = .ok (t, h3)))
      ∧ h3.lisp_heap_cur = h1.lisp_heap_cur + 16
      ∧ cells_linked g h3 (done ++ [(h1.lisp_heap_cur, v)])
      ∧ (∀ x, x < h1.lisp_heap_cur → (∀ q ∈ done, q.1 ≠ x) →
          heap_read h3 x = heap_read h1 x) := by
  rcases List.eq_nil_or_concat done with e | ⟨init, last, e⟩
  · subst e
    refine ⟨(lisp_cell_cons h1 v g.lisp_NIL).2, Or.inl ⟨rfl, rfl, rfl⟩, ?_, ?_, ?_⟩
    · rw [lisp_cell_cons_eq]
    · show heap_read _ _ = _
      rw [heap_read_cons]; simp
    · intro x hx _
      rw [heap_read_cons]
      simp [Nat.ne_of_lt hx]
  · rw [List.concat_eq_append] at e
    subst e
    have hlast := hd last (by simp)
    have hlast_read : heap_read (lisp_cell_cons h1 v g.lisp_NIL).2 last.1
        = some (lisp_record.cell last.2 g.lisp_NIL) := by
      rw [heap_read_cons, if_neg (Nat.ne_of_lt hlast.2)]
      exact cells_linked_last g h1 init last hl
    have hget : lisp_cell_get_value (lisp_cell_cons h1 v g.lisp_NIL).2 last.1
        = some (last.2, g.lisp_NIL) := by
      unfold lisp_cell_get_value
      rw [raw_value_aligned _ hlast.1, hlast_read]
    have hne : linked_result g (init ++ [last]) ≠ g.lisp_NIL := by
      cases init with
      | nil => exact aligned_ne_NIL g hg _ hlast.1
      | cons q rest => exact aligned_ne_NIL g hg _ (hd q (by simp)).1
    refine ⟨heap_write (lisp_cell_cons h1 v g.lisp_NIL).2 last.1
        (lisp_record.cell last.2 h1.lisp_heap_cur), Or.inr ⟨last.1, by simp, hne, ?_, ?_⟩,
        ?_, ?_, ?_⟩
    · simp [linked_tail]
    · simp [lisp_cell_rplacd, hget, raw_value_aligned _ hlast.1]
    · rw [heap_write_cur, lisp_cell_cons_eq]
    · apply cells_linked_snoc g h1 _ h1.lisp_heap_cur v init last hl
      · intro p hp
        have hp' := hd p (by simp [hp])
        have hne' : p.1 ≠ last.1 := by
          intro e
          rw [List.map_append, List.nodup_append] at hnd
          exact hnd.2.2 (List.mem_map_of_mem _ hp) (by simp [e])
        rw [heap_read_write, if_neg hne', heap_read_cons, if_neg (Nat.ne_of_lt hp'.2)]
      · rw [heap_read_write, if_pos rfl]
      · rw [heap_read_write, if_neg (Nat.ne_of_gt hlast.2), heap_read_cons, if_pos rfl]
    · intro x hx hq
      rw [heap_read_write, if_neg (Ne.symm (hq last (by simp))), heap_read_cons,
        if_neg (Nat.ne_of_lt hx)]


theorem arg_steps_heap_cons (h : lisp_heap) (s : arg_step) (rest : List arg_step) :
    arg_steps_heap h (s :: rest) = arg_steps_heap s.linked rest := by
  cases rest with
  | nil => rfl
  | cons r rest =>
    cases hgl : (r :: rest).getLast? with
    | none => simp at hgl
    | some x => simp [arg_steps_heap, List.getLast?_cons_cons, hgl]

theorem lisp_cellp_NIL (g : lisp_globals) (hg : globals_wf g) :
    lisp_cellp g g.lisp_NIL = g.lisp_NIL := by
  unfold lisp_cellp lisp_object_has_tag
  rw [hg.NIL_atom]
  simp [lisp_tag_atom, lisp_tag_cell]

theorem arg_loop_unfold (g : lisp_globals) (ev : lisp_eval_fn) (n : Nat) (h : lisp_heap)
    (environment c result result_tail : Nat) :
    lisp_eval_argument_list_loop g ev (n + 1) h environment c result result_tail
      = (match ev h environment (lisp_cell_car g h c) with
         | .error e => .error e
         | .ok (v, h1) =>
           match (if result ≠ g.lisp_NIL then do
                    let (_, h3) ← lisp_cell_rplacd (lisp_cell_cons h1 v g.lisp_NIL).2
                      result_tail (lisp_cell_cons h1 v g.lisp_NIL).1
                    pure (result, h3)
                  else (pure ((lisp_cell_cons h1 v g.lisp_NIL).1,
                    (lisp_cell_cons h1 v g.lisp_NIL).2) : Run (lisp_object_t × lisp_heap))) with
           | .error e => .error e
           | .ok (result', h3) =>
             if lisp_cell_cdr g h3 c ≠ g.lisp_NIL then
               lisp_eval_argument_list_loop g ev n h3 environment (lisp_cell_cdr g h3 c)
                 result' (lisp_cell_cons h1 v g.lisp_NIL).1
             else .ok (result', h3)) := by
  rw [lisp_eval_argument_list_loop]
  simp only [bind, Except.bind]
  cases ev h environment (lisp_cell_car g h c) with
  | error e => rfl
  | ok r =>
    obtain ⟨v, h1⟩ := r
    simp only
    split
    · generalize lisp_cell_rplacd _ _ _ = r
      cases r <;> rfl
    · rfl

theorem eval_in_order_unfold (g : lisp_globals) (ev : lisp_eval_fn) (environment : Nat)
    (form : Nat) (forms : List Nat) (h : lisp_heap) (previous : Option Nat) :
    eval_in_order g ev environment (form :: forms) h previous
      = (match ev h environment form with
         | .error e => .error e
         | .ok (v, h1) =>
           match (match previous with
                  | none => (pure (lisp_cell_cons h1 v g.lisp_NIL).2 : Run lisp_heap)
                  | some result_tail => do
                    let (_, h3) ← lisp_cell_rplacd (lisp_cell_cons h1 v g.lisp_NIL).2 result_tail
                      (lisp_cell_cons h1 v g.lisp_NIL).1
                    pure h3) with
           | .error e => .error e
           | .ok h3 =>
             match eval_in_order g ev environment forms h3
                 (some (lisp_cell_cons h1 v g.lisp_NIL).1) with
             | .error e => .error e
             | .ok rest =>
               .ok (⟨(lisp_cell_cons h1 v g.lisp_NIL).1, v, h, h1, h3⟩ :: rest)) := by
  rw [eval_in_order]
  simp only [bind, Except.bind]
  cases ev h environment form with
  | error e => rfl
  | ok r =>
    obtain ⟨v, h1⟩ := r
    simp only
    cases previous with
    | none =>
      simp only [pure, Except.pure]
      generalize eval_in_order _ _ _ _ _ _ = r
      cases r <;> rfl
    | some t =>
      simp only [pure, Except.pure]
      generalize lisp_cell_rplacd _ _ _ = r
      cases r with
      | error e => rfl
      | ok r =>
        simp only
        generalize eval_in_order _ _ _ _ _ _ = r'
        cases r' <;> rfl

theorem eval_in_order_cons_ok (g : lisp_globals) (ev : lisp_eval_fn) (environment : Nat)
    (form : Nat) (forms : List Nat) (h : lisp_heap) (previous : Option Nat)
    (steps : List arg_step)
    (ht : eval_in_order g ev environment (form :: forms) h previous = .ok steps) :
    ∃ (v : Nat) (h1 h3 : lisp_heap) (rest : List arg_step),
      ev h environment form = .ok (v, h1)
      ∧ ((previous = none ∧ h3 = (lisp_cell_cons h1 v g.lisp_NIL).2)
          ∨ (∃ t b, previous = some t
              ∧ lisp_cell_rplacd (lisp_cell_cons h1 v g.lisp_NIL).2 t
                  (lisp_cell_cons h1 v g.lisp_NIL).1 = .ok (b, h3)))
      ∧ eval_in_order g ev environment forms h3 (some (lisp_cell_cons h1 v g.lisp_NIL).1)
          = .ok rest
      ∧ steps = ⟨(lisp_cell_cons h1 v g.lisp_NIL).1, v, h, h1, h3⟩ :: rest := by
  rw [eval_in_order_unfold] at ht
  cases hev : ev h environment form with
  | error e => rw [hev] at ht; cases ht
  | ok r =>
    obtain ⟨v, h1⟩ := r
    rw [hev] at ht
    simp only at ht
    cases previous with
    | none =>
      simp only [pure, Except.pure] at ht
      cases hr : eval_in_order g ev environment forms (lisp_cell_cons h1 v g.lisp_NIL).2
          (some (lisp_cell_cons h1 v g.lisp_NIL).1) with
      | error e => rw [hr] at ht; cases ht
      | ok rest =>
        rw [hr] at ht
        simp only [Except.ok.injEq] at ht
        exact ⟨v, h1, _, rest, rfl, Or.inl ⟨rfl, rfl⟩, hr, ht.symm⟩
    | some t =>
      simp only [bind, Except.bind, pure, Except.pure] at ht
      cases hp : lisp_cell_rplacd (lisp_cell_cons h1 v g.lisp_NIL).2 t
          (lisp_cell_cons h1 v g.lisp_NIL).1 with
      | error e => rw [hp] at ht; cases ht
      | ok r =>
        obtain ⟨b, h3⟩ := r
        rw [hp] at ht
        simp only at ht
        cases hr : eval_in_order g ev environment forms h3
            (some (lisp_cell_cons h1 v g.lisp_NIL).1) with
        | error e => rw [hr] at ht; cases ht
        | ok rest =>
          rw [hr] at ht
          simp only [Except.ok.injEq] at ht
          exact ⟨v, h1, h3, rest, rfl, Or.inr ⟨t, b, rfl, hp⟩, hr, ht.symm⟩

/-- One turn of the loop of `lisp_eval_argument_list`. -/
theorem arg_iteration (g : lisp_globals) (hg : globals_wf g) (ev : lisp_eval_fn)
    (environment : Nat) (base : Nat)
    (cs : List Nat) (c : Nat) (h : lisp_heap) (done : List (Nat × Nat))
    (P : List Nat) (steps : List arg_step) (n : Nat)
    (hlist : list_cells g h c (c :: cs) = true)
    (hcells : ∀ x ∈ c :: cs,
      lisp_object_get_raw_value x ∈ P ∧ lisp_object_get_raw_value x < base)
    (hdone : ∀ p ∈ done, p.1 ∈ P ∧ p.1 % 16 = 0 ∧ base ≤ p.1)
    (hnd : (done.map Prod.fst).Nodup)
    (hP : ∀ a ∈ P, a < h.lisp_heap_cur)
    (hl : cells_linked g h done)
    (htrace : eval_in_order g ev environment ((c :: cs).map (lisp_cell_car g h)) h
        (done.getLast?.map Prod.fst) = .ok steps)
    (hok : arg_steps_ok P steps = true)
    (hbase : base ≤ h.lisp_heap_cur) :
    ∃ (v : Nat) (h1 h3 : lisp_heap) (rest : List arg_step),
      steps = ⟨h1.lisp_heap_cur, v, h, h1, h3⟩ :: rest
      ∧ eval_in_order g ev environment (cs.map (lisp_cell_car g h3)) h3
          ((done ++ [(h1.lisp_heap_cur, v)]).getLast?.map Prod.fst) = .ok rest
      ∧ arg_steps_ok (h1.lisp_heap_cur :: P) rest = true
      ∧ lisp_eval_argument_list_loop g ev (n + 1) h environment c
          (linked_result g done) (linked_tail g done)
        = (if lisp_cell_cdr g h c ≠ g.lisp_NIL then
             lisp_eval_argument_list_loop g ev n h3 environment (lisp_cell_cdr g h c)
               (linked_result g (done ++ [(h1.lisp_heap_cur, v)]))
               (linked_tail g (done ++ [(h1.lisp_heap_cur, v)]))
           else .ok (linked_result g (done ++ [(h1.lisp_heap_cur, v)]), h3))
      ∧ cells_linked g h3 (done ++ [(h1.lisp_heap_cur, v)])
      ∧ list_cells g h3 (lisp_cell_cdr g h c) cs = true
      ∧ (∀ a ∈ h1.lisp_heap_cur :: P, a < h3.lisp_heap_cur)
      ∧ h1.lisp_heap_cur % 16 = 0 ∧ base ≤ h1.lisp_heap_cur
      ∧ base ≤ h3.lisp_heap_cur := by
  rw [List.map_cons] at htrace
  obtain ⟨v, h1, h3, rest, hev, hlink, hrest, hsteps⟩ :=
    eval_in_order_cons_ok g ev environment _ _ h _ steps htrace
  have hc1 : (lisp_cell_cons h1 v g.lisp_NIL).1 = h1.lisp_heap_cur := by
    rw [lisp_cell_cons_eq]
  rw [hc1] at hlink hrest hsteps
  subst hsteps
  -- what the run says about this evaluation
  simp only [arg_steps_ok, Bool.and_eq_true, decide_eq_true_eq, List.all_eq_true] at hok
  obtain ⟨⟨⟨hmono, halign⟩, hpres⟩, hokrest⟩ := hok
  have hdone1 : ∀ q ∈ done, q.1 % 16 = 0 ∧ q.1 < h1.lisp_heap_cur := by
    intro q hq
    have := hdone q hq
    exact ⟨this.2.1, Nat.lt_of_lt_of_le (hP _ this.1) hmono⟩
  have hl1 : cells_linked g h1 done :=
    cells_linked_congr g h h1 done (fun p hp => hpres _ (hdone p hp).1) hl
  obtain ⟨h3', hcase, hcur3, hl3, hframe⟩ := arg_link g hg h1 v done hdone1 hnd hl1
  have h3eq : h3 = h3' := by
    rcases hlink with ⟨hn, e⟩ | ⟨t, b, hs, e⟩
    · rcases hcase with ⟨_, _, e'⟩ | ⟨t', hs', _, _, _⟩
      · rw [e, e']
      · rw [hn] at hs'; cases hs'
    · rcases hcase with ⟨hn', _, _⟩ | ⟨t', hs', _, _, e'⟩
      · rw [hn'] at hs; cases hs
      · rw [hs'] at hs
        cases hs
        rw [e'] at e
        cases e
        rfl
  subst h3eq
  have hcells3 : ∀ x ∈ c :: cs, heap_read h3 (lisp_object_get_raw_value x)
      = heap_read h (lisp_object_get_raw_value x) := by
    intro x hx
    have hx' := hcells x hx
    rw [hframe _ (Nat.lt_of_lt_of_le (hP _ hx'.1) hmono) ?_, hpres _ hx'.1]
    intro q hq e
    have := (hdone q hq).2.2
    omega
  have hcdr : lisp_cell_cdr g h3 c = lisp_cell_cdr g h c :=
    (lisp_cell_car_congr g h h3 c (hcells3 c (List.mem_cons_self _ _))).2
  have hmap : cs.map (lisp_cell_car g h3) = cs.map (lisp_cell_car g h) := by
    apply List.map_congr_left
    intro x hx
    exact (lisp_cell_car_congr g h h3 x (hcells3 x (List.mem_cons_of_mem _ hx))).1
  refine ⟨v, h1, h3, rest, rfl, ?_, hokrest, ?_, hl3, ?_, ?_, halign, by omega, by omega⟩
  · rw [hmap]
    simpa using hrest
  · rw [arg_loop_unfold, hev]
    simp only [hc1]
    rcases hcase with ⟨_, hres, e'⟩ | ⟨t', _, hres, htail, e'⟩
    · have := linked_result_snoc g hg done (h1.lisp_heap_cur, v) (fun q hq => (hdone1 q hq).1)
      rw [hres] at this
      simp only [ne_eq, not_true_eq_false, ↓reduceIte] at this
      rw [hres, ← e']
      simp only [ne_eq, not_true_eq_false, ↓reduceIte, pure, Except.pure, hcdr, ← this]
      simp [linked_tail]
    · have := linked_result_snoc g hg done (h1.lisp_heap_cur, v) (fun q hq => (hdone1 q hq).1)
      simp only [hres, ne_eq, not_false_eq_true, ↓reduceIte] at this
      simp only [hres, ne_eq, not_false_eq_true, ↓reduceIte, htail, e', bind, Except.bind, pure,
        Except.pure, hcdr, ← this]
      simp [linked_tail]
  · have := hlist
    rw [list_cells] at this
    simp only [Bool.and_eq_true, decide_eq_true_eq] at this
    rw [list_cells_congr g h h3 cs _ (fun x hx => hcells3 x (List.mem_cons_of_mem _ hx))]
    exact this.2
  · intro a ha
    rw [hcur3]
    rcases List.mem_cons.1 ha with e | ha'
    · omega
    · have := hP a ha'
      omega


/-- The loop of `lisp_eval_argument_list`, entered with the chain `done` built
so far, does what `eval_in_order` says. -/
theorem arg_loop_spec (g : lisp_globals) (hg : globals_wf g) (ev : lisp_eval_fn)
    (environment : Nat) (base : Nat) :
    ∀ (cs : List Nat) (c : Nat) (h : lisp_heap) (done : List (Nat × Nat))
      (P : List Nat) (steps : List arg_step) (fuel : Nat),
      list_cells g h c (c :: cs) = true →
      (∀ x ∈ c :: cs, lisp_object_get_raw_value x ∈ P ∧ lisp_object_get_raw_value x < base) →
      (∀ p ∈ done, p.1 ∈ P ∧ p.1 % 16 = 0 ∧ base ≤ p.1) →
      (done.map Prod.fst).Nodup →
      (∀ a ∈ P, a < h.lisp_heap_cur) →
      cells_linked g h done →
      eval_in_order g ev environment ((c :: cs).map (lisp_cell_car g h)) h
        (done.getLast?.map Prod.fst) = .ok steps →
      arg_steps_ok P steps = true →
      cs.length < fuel →
      base ≤ h.lisp_heap_cur →
      lisp_eval_argument_list_loop g ev fuel h environment c
          (linked_result g done) (linked_tail g done)
        = .ok (linked_result g (done ++ steps.map (fun s => (s.cell, s.value))),
               arg_steps_heap h steps)
      ∧ cells_linked g (arg_steps_heap h steps)
          (done ++ steps.map (fun s => (s.cell, s.value)))
      ∧ steps.length = cs.length + 1
      ∧ (∀ s ∈ steps, s.cell % 16 = 0 ∧ base ≤ s.cell) := by
  intro cs
  induction cs with
  | nil =>
    intro c h done P steps fuel hlist hcells hdone hnd hP hl htrace hok hfuel hbase
    obtain ⟨n, rfl⟩ : ∃ n, fuel = n + 1 := ⟨fuel - 1, by omega⟩
    obtain ⟨v, h1, h3, rest, hsteps, hrest, _, hloop, hl3, hlist3, _, halign, hb1, _⟩ :=
      arg_iteration g hg ev environment base [] c h done P steps n hlist hcells hdone hnd hP hl
        htrace hok hbase
    simp only [List.map_nil, eval_in_order, pure, Except.pure, Except.ok.injEq] at hrest
    subst hrest
    subst hsteps
    simp only [list_cells, decide_eq_true_eq] at hlist3
    rw [hloop, hlist3]
    simp only [ne_eq, not_true_eq_false, ↓reduceIte, List.map_cons, List.map_nil,
      List.length_singleton, List.length_nil, zero_add, List.mem_singleton, forall_eq, true_and]
    exact ⟨rfl, hl3, halign, hb1⟩
  | cons c' cs ih =>
    intro c h done P steps fuel hlist hcells hdone hnd hP hl htrace hok hfuel hbase
    obtain ⟨n, rfl⟩ : ∃ n, fuel = n + 1 := ⟨fuel - 1, by omega⟩
    obtain ⟨v, h1, h3, rest, hsteps, hrest, hokrest, hloop, hl3, hlist3, hP3, halign, hb1, hb3⟩ :=
      arg_iteration g hg ev environment base (c' :: cs) c h done P steps n hlist hcells hdone hnd
        hP hl htrace hok hbase
    subst hsteps
    have hc' : lisp_cell_cdr g h c = c' := by
      have := hlist3
      rw [list_cells] at this
      simp only [Bool.and_eq_true, decide_eq_true_eq] at this
      exact this.1.1.symm
    have hc'ne : c' ≠ g.lisp_NIL := by
      have := hlist3
      rw [list_cells] at this
      simp only [Bool.and_eq_true, decide_eq_true_eq] at this
      intro e
      apply this.1.2
      rw [hc', e]
      exact lisp_cellp_NIL g hg
    rw [hc'] at hloop hlist3
    have hnew : ∀ q ∈ done, q.1 ≠ h1.lisp_heap_cur := by
      intro q hq e
      have h1' := hP _ (hdone q hq).1
      have h2' := hP3 h1.lisp_heap_cur (List.mem_cons_self _ _)
      simp only [arg_steps_ok] at hok
      simp only [Bool.and_eq_true, decide_eq_true_eq] at hok
      have := hok.1.1.1
      omega
    obtain ⟨hr, hlr, hlen, hfresh⟩ := ih c' h3 (done ++ [(h1.lisp_heap_cur, v)])
      (h1.lisp_heap_cur :: P) rest n hlist3
      (fun x hx => ⟨List.mem_cons_of_mem _ (hcells x (List.mem_cons_of_mem _ hx)).1,
        (hcells x (List.mem_cons_of_mem _ hx)).2⟩)
      (by
        intro p hp
        rcases List.mem_append.1 hp with hp' | hp'
        · exact ⟨List.mem_cons_of_mem _ (hdone p hp').1, (hdone p hp').2⟩
        · simp only [List.mem_singleton] at hp'
          subst hp'
          exact ⟨List.mem_cons_self _ _, halign, hb1⟩)
      (by
        rw [List.map_append, List.nodup_append]
        refine ⟨hnd, by simp, ?_⟩
        intro a ha hb
        simp only [List.map_cons, List.map_nil, List.mem_singleton] at hb
        obtain ⟨q, hq, rfl⟩ := List.mem_map.1 ha
        exact hnew q hq hb)
      hP3 hl3 hrest hokrest (by simp only [List.length_cons] at hfuel; omega) hb3
    rw [hloop]
    simp only [ne_eq, hc'ne, not_false_eq_true, ↓reduceIte, List.map_cons, List.length_cons]
    rw [arg_steps_heap_cons]
    simp only [List.append_assoc, List.singleton_append] at hr hlr
    refine ⟨hr, hlr, by omega, ?_⟩
    intro s hs
    rcases List.mem_cons.1 hs with e | hs'
    · subst e; exact ⟨halign, hb1⟩
    · exact hfresh s hs'


theorem run_steps_ok (r : Run (List arg_step)) (h : run_ok r = true) :
    r = .ok (run_steps r) := by
  cases r with
  | error e => simp [run_ok] at h
  | ok s => rfl

theorem arg_steps_result_eq (g : lisp_globals) (steps : List arg_step) :
    arg_steps_result g steps = linked_result g (steps.map (fun s => (s.cell, s.value))) := by
  cases steps <;> rfl

/-- C4. For a proper list of forms whose cells were allocated before the
call, `lisp_eval_argument_list` evaluates the forms as `eval_in_order` does
(each once, from the first to the last, each in the heap the previous one
left) and, when no evaluation touches a cell of the list of forms or a result
cell, returns a proper list of as many cells as there are forms, all of them
allocated by the call, whose elements are the values in order. -/
theorem C4_eval_argument_list (g : lisp_globals) (hg : globals_wf g) (ev : lisp_eval_fn)
    (environment list : lisp_object_t) (h : lisp_heap) (cells : List lisp_object_t)
    (steps : List arg_step) (fuel : Nat)
    (hlist : list_cells g h list cells = true)
    (hbefore : cells.all
      (fun c => decide (lisp_object_get_raw_value c < h.lisp_heap_cur)) = true)
    (htrace : eval_in_order g ev environment (cells.map (lisp_cell_car g h)) h none
      = .ok steps)
    (hok : arg_steps_ok (cells.map lisp_object_get_raw_value) steps = true)
    (hfuel : cells.length ≤ fuel) :
    lisp_eval_argument_list g ev fuel h environment list
        = .ok (arg_steps_result g steps, arg_steps_heap h steps)
      ∧ steps.length = cells.length
      ∧ list_cells g (arg_steps_heap h steps) (arg_steps_result g steps)
          (steps.map arg_step.cell) = true
      ∧ (steps.map arg_step.cell).map (lisp_cell_car g (arg_steps_heap h steps))
          = steps.map arg_step.value
      ∧ (∀ s ∈ steps, h.lisp_heap_cur ≤ s.cell) := by
  cases cells with
  | nil =>
    simp only [list_cells, decide_eq_true_eq] at hlist
    simp only [List.map_nil, eval_in_order, pure, Except.pure, Except.ok.injEq] at htrace
    subst htrace
    subst hlist
    simp [lisp_eval_argument_list, arg_steps_result, arg_steps_heap, list_cells, pure,
      Except.pure]
  | cons c cs =>
    have hl := hlist
    rw [list_cells] at hl
    simp only [Bool.and_eq_true, decide_eq_true_eq] at hl
    obtain ⟨⟨hc, hcp⟩, _⟩ := hl
    subst hc
    have hne : c ≠ g.lisp_NIL := by
      intro e
      apply hcp
      rw [e]
      exact lisp_cellp_NIL g hg
    simp only [List.all_eq_true, decide_eq_true_eq] at hbefore
    obtain ⟨hr, hlr, hlen, hfresh⟩ := arg_loop_spec g hg ev environment h.lisp_heap_cur cs c h []
      ((c :: cs).map lisp_object_get_raw_value) steps fuel hlist
      (fun x hx => ⟨List.mem_map_of_mem _ hx, hbefore x hx⟩)
      (by simp) (by simp)
      (by
        intro a ha
        obtain ⟨x, hx, rfl⟩ := List.mem_map.1 ha
        exact hbefore x hx)
      trivial htrace hok (by simp only [List.length_cons] at hfuel; omega) (Nat.le_refl _)
    simp only [List.nil_append] at hr hlr
    have hlist' := cells_linked_list g hg (arg_steps_heap h steps)
      (steps.map (fun s => (s.cell, s.value))) hlr
      (by
        intro p hp
        obtain ⟨s, hs, rfl⟩ := List.mem_map.1 hp
        exact (hfresh s hs).1)
    simp only [List.map_map] at hlist'
    refine ⟨?_, ?_, ?_, ?_, fun s hs => (hfresh s hs).2⟩
    · unfold lisp_eval_argument_list
      simp only [hne, hcp, or_self, ↓reduceIte]
      rw [arg_steps_result_eq]
      exact hr
    · simp only [List.length_cons]; omega
    · rw [arg_steps_result_eq]
      exact hlist'.1
    · rw [List.map_map]
      exact hlist'.2

set_option maxRecDepth 100000 in
theorem example_interpreter_globals_wf : globals_wf example_interpreter.g := by
  have H : example_interpreter.g.lisp_T ≠ example_interpreter.g.lisp_NIL
      ∧ lisp_object_get_tag example_interpreter.g.lisp_NIL = lisp_tag_atom
      ∧ lisp_object_get_tag example_interpreter.g.lisp_APVAL = lisp_tag_atom
      ∧ lisp_object_get_tag example_interpreter.g.lisp_EXPR = lisp_tag_atom
      ∧ lisp_object_get_tag example_interpreter.g.lisp_SUBR = lisp_tag_atom
      ∧ lisp_object_get_tag example_interpreter.g.lisp_SI_PARENT_ENVIRONMENT
          = lisp_tag_atom := by
    decide!
  exact ⟨H.1, H.2.1, H.2.2.1, H.2.2.2.1, H.2.2.2.2.1, H.2.2.2.2.2⟩

set_option maxRecDepth 100000 in
/-- C4 on the list of forms `(T 'X 5)` evaluated by `lisp_eval`: the result is
a list of three new cells that holds `T`, the atom `X` and the fixnum 5. -/
theorem C4_eval_argument_list_witness :
    lisp_eval_argument_list example_interpreter.g (lisp_eval example_interpreter.g 16) 3
          example_arguments.2 example_interpreter.environment example_arguments.1
        = .ok (arg_steps_result example_interpreter.g example_arguments_steps,
               arg_steps_heap example_arguments.2 example_arguments_steps)
      ∧ example_arguments_steps.length = example_arguments_cells.length
      ∧ list_cells example_interpreter.g
          (arg_steps_heap example_arguments.2 example_arguments_steps)
          (arg_steps_result example_interpreter.g example_arguments_steps)
          (example_arguments_steps.map arg_step.cell) = true
      ∧ (example_arguments_steps.map arg_step.cell).map
          (lisp_cell_car example_interpreter.g
            (arg_steps_heap example_arguments.2 example_arguments_steps))
          = example_arguments_steps.map arg_step.value
      ∧ (∀ s ∈ example_arguments_steps, example_arguments.2.lisp_heap_cur ≤ s.cell) := by
  have H : list_cells example_interpreter.g example_arguments.2 example_arguments.1
        example_arguments_cells = true
      ∧ example_arguments_cells.all
          (fun c => decide (lisp_object_get_raw_value c < example_arguments.2.lisp_heap_cur))
          = true
      ∧ run_ok (eval_in_order example_interpreter.g (lisp_eval example_interpreter.g 16)
          example_interpreter.environment
          (example_arguments_cells.map
            (lisp_cell_car example_interpreter.g example_arguments.2))
          example_arguments.2 none) = true
      ∧ arg_steps_ok (example_arguments_cells.map lisp_object_get_raw_value)
          example_arguments_steps = true
      ∧ example_arguments_cells.length ≤ 3 := by
    decide!
  exact C4_eval_argument_list example_interpreter.g example_interpreter_globals_wf
    (lisp_eval example_interpreter.g 16) example_interpreter.environment example_arguments.1
    example_arguments.2 example_arguments_cells example_arguments_steps 3
    H.1 H.2.1 (run_steps_ok _ H.2.2.1) H.2.2.2.1 H.2.2.2.2


/-! ## Application frames -/

theorem binding_at_congr (g : lisp_globals) (h h' : lisp_heap) (b k v next : Nat)
    (hx : ∀ x, b ≤ x → x < b + 64 → heap_read h' x = heap_read h x)
    (hb : binding_at g h b k v next) : binding_at g h' b k v next := by
  unfold binding_at at hb ⊢
  rw [hx b (by omega) (by omega), hx (b + 16) (by omega) (by omega),
    hx (b + 32) (by omega) (by omega), hx (b + 48) (by omega) (by omega)]
  exact hb

theorem frame_blocks_congr (g : lisp_globals) (h h' : lisp_heap) :
    ∀ (L : List (Nat × Nat)) (b : Nat),
      (∀ x, b ≤ x → x < b + 64 * L.length → heap_read h' x = heap_read h x) →
      frame_blocks g h b L → frame_blocks g h' b L := by
  intro L
  induction L with
  | nil => intro b _ _; trivial
  | cons kv rest ih =>
    intro b hx hb
    cases rest with
    | nil =>
      unfold frame_blocks at hb ⊢
      exact binding_at_congr g h h' b _ _ _
        (fun x h1 h2 => hx x h1 (by simp only [List.length_cons, List.length_nil]; omega)) hb
    | cons kv' rest =>
      unfold frame_blocks at hb ⊢
      refine ⟨binding_at_congr g h h' b _ _ _
        (fun x h1 h2 => hx x h1 (by simp only [List.length_cons]; omega)) hb.1, ?_⟩
      apply ih (b + 64) _ hb.2
      intro x h1 h2
      apply hx x (by omega)
      simp only [List.length_cons] at h2 ⊢
      omega

theorem binding_at_reads (g : lisp_globals) (hg : globals_wf g) (h : lisp_heap)
    (b k v next : Nat) (hb16 : b % 16 = 0) (hb : binding_at g h b k v next) :
    lisp_cell_car g h (b + 48) = b + 32 ∧ lisp_cell_cdr g h (b + 48) = next
    ∧ lisp_cell_car g h (b + 32) = k ∧ lisp_cell_cdr g h (b + 32) = b + 16
    ∧ lisp_cell_car g h (b + 16) = b ∧ lisp_cell_cdr g h (b + 16) = g.lisp_NIL
    ∧ lisp_cell_car g h b = g.lisp_APVAL ∧ lisp_cell_cdr g h b = v := by
  obtain ⟨h0, h1, h2, h3⟩ := hb
  have r3 := lisp_cell_car_cell g hg h (b + 48) _ _ (by omega) h3
  have r2 := lisp_cell_car_cell g hg h (b + 32) _ _ (by omega) h2
  have r1 := lisp_cell_car_cell g hg h (b + 16) _ _ (by omega) h1
  have r0 := lisp_cell_car_cell g hg h b _ _ hb16 h0
  exact ⟨r3.1, r3.2, r2.1, r2.2, r1.1, r1.2, r0.1, r0.2⟩

theorem frame_blocks_head (g : lisp_globals) (h : lisp_heap) (b : Nat) (kv : Nat × Nat)
    (rest : List (Nat × Nat)) (hb : frame_blocks g h b (kv :: rest)) :
    binding_at g h b kv.1 kv.2 (if rest = [] then g.lisp_NIL else b + 112)
    ∧ frame_blocks g h (b + 64) rest := by
  cases rest with
  | nil => exact ⟨hb, trivial⟩
  | cons kv' rest => exact ⟨hb.1, hb.2⟩

theorem blocks_spine (g : lisp_globals) (hg : globals_wf g) (h : lisp_heap) :
    ∀ (L : List (Nat × Nat)) (b : Nat), L ≠ [] → b % 16 = 0 →
      frame_blocks g h b L → plist_spine g h (b + 48) (block_cells b L) = true := by
  intro L
  induction L with
  | nil => intro b hne; exact absurd rfl hne
  | cons kv rest ih =>
    intro b _ hb16 hb
    obtain ⟨hhead, hrest⟩ := frame_blocks_head g h b kv rest hb
    have hr := binding_at_reads g hg h b _ _ _ hb16 hhead
    cases rest with
    | nil =>
      simp only [↓reduceIte] at hr
      simp [block_cells, plist_spine, hr.2.1]
    | cons kv' rest =>
      simp only [reduceCtorEq, ↓reduceIte] at hr
      have hne : b + 112 ≠ g.lisp_NIL := aligned_ne_NIL g hg (b + 112) (by omega)
      have := ih (b + 64) (by simp) (by omega) hrest
      simp only [block_cells] at this ⊢
      simp only [plist_spine, hr.2.1, decide_True, ne_eq, hne, not_false_eq_true, Bool.and_self,
        Bool.true_and]
      exact this

theorem blocks_assoc (g : lisp_globals) (hg : globals_wf g) (h : lisp_heap) (p : Nat) :
    ∀ (L : List (Nat × Nat)) (b : Nat), b % 16 = 0 →
      frame_blocks g h b L → plist_assoc g h p (block_cells b L) = block_assoc h p b L := by
  intro L
  induction L with
  | nil => intro b _ _; rfl
  | cons kv rest ih =>
    intro b hb16 hb
    obtain ⟨hhead, hrest⟩ := frame_blocks_head g h b kv rest hb
    have hr := binding_at_reads g hg h b _ _ _ hb16 hhead
    simp only [block_cells, plist_assoc, block_assoc, hr.1, hr.2.2.1]
    rw [ih (b + 64) (by omega) hrest]

theorem block_cells_length (L : List (Nat × Nat)) : ∀ b, (block_cells b L).length = L.length := by
  induction L with
  | nil => intro b; rfl
  | cons kv rest ih => intro b; simp [block_cells, ih]

theorem block_cells_getLastD (L : List (Nat × Nat)) :
    ∀ b d, L ≠ [] → (block_cells b L).getLastD d = b + 64 * (L.length - 1) + 48 := by
  induction L with
  | nil => intro b d hne; exact absurd rfl hne
  | cons kv rest ih =>
    intro b d _
    cases rest with
    | nil => simp [block_cells]
    | cons kv' rest =>
      have := ih (b + 64) (b + 48) (by simp)
      simp only [block_cells, List.getLastD_cons, List.length_cons] at this ⊢
      rw [this]
      show (b + 64 + 64 * (rest.length + 1 - 1) + 48 : Nat)
        = b + 64 * (rest.length + 1 + 1 - 1) + 48
      omega

theorem atom_key_equal_congr (h h' : lisp_heap) (p k : Nat)
    (hp : heap_read h' (lisp_object_get_raw_value p) = heap_read h (lisp_object_get_raw_value p))
    (hk : heap_read h' (lisp_object_get_raw_value k) = heap_read h (lisp_object_get_raw_value k)) :
    atom_key_equal h' p k = atom_key_equal h p k := by
  unfold atom_key_equal lisp_atom_get_value
  rw [hp, hk]

theorem block_assoc_congr (h h' : lisp_heap) (p : Nat) :
    ∀ (L : List (Nat × Nat)) (b : Nat),
      (∀ kv ∈ L, atom_key_equal h' p kv.1 = atom_key_equal h p kv.1) →
      block_assoc h' p b L = block_assoc h p b L := by
  intro L
  induction L with
  | nil => intro b _; rfl
  | cons kv rest ih =>
    intro b hx
    simp only [block_assoc, hx kv (List.mem_cons_self _ _)]
    rw [ih (b + 64) (fun kv' hkv => hx kv' (List.mem_cons_of_mem _ hkv))]

theorem block_assoc_none (h : lisp_heap) (p : Nat) :
    ∀ (L : List (Nat × Nat)) (b : Nat),
      (∀ kv ∈ L, atom_key_equal h p kv.1 = false) → block_assoc h p b L = none := by
  intro L
  induction L with
  | nil => intro b _; rfl
  | cons kv rest ih =>
    intro b hx
    simp only [block_assoc, hx kv (List.mem_cons_self _ _), Bool.false_eq_true, ↓reduceIte]
    exact ih (b + 64) (fun kv' hkv => hx kv' (List.mem_cons_of_mem _ hkv))

/-- Looking for a key the frame does not have ends at the last cell. -/
theorem blocks_find_none (g : lisp_globals) (hg : globals_wf g) (h : lisp_heap)
    (b : Nat) (L : List (Nat × Nat)) (p : Nat) (fuel : Nat)
    (hL : L ≠ []) (hb16 : b % 16 = 0) (hb : frame_blocks g h b L)
    (hp : lisp_object_get_tag p = lisp_tag_atom)
    (hnone : ∀ kv ∈ L, atom_key_equal h p kv.1 = false)
    (hfuel : L.length < fuel) :
    lisp_plist_find_entry g fuel h (b + 48) p
      = .ok (false, b + 64 * (L.length - 1) + 48) := by
  rw [plist_find_entry_spec g hg h p hp (block_cells b L) (b + 48)
    (blocks_spine g hg h L b hL hb16 hb) fuel (by rw [block_cells_length]; exact hfuel),
    blocks_assoc g hg h p L b hb16 hb, block_assoc_none h p L b hnone]
  simp only [block_cells_getLastD L b (b + 48) hL]


theorem lisp_cell_cons_heap (h : lisp_heap) (a b : Nat) :
    lisp_cell_cons h a b = (h.lisp_heap_cur, cons_heap h a b) := by
  rw [lisp_cell_cons_eq]; rfl

theorem cons_heap_cur (h : lisp_heap) (a b : Nat) :
    (cons_heap h a b).lisp_heap_cur = h.lisp_heap_cur + 16 := rfl

theorem cons_heap_read (h : lisp_heap) (a b x : Nat) :
    heap_read (cons_heap h a b) x
      = if x = h.lisp_heap_cur then some (lisp_record.cell a b) else heap_read h x := rfl

theorem lisp_plist_create_one (g : lisp_globals) (h : lisp_heap) (entry : Nat) :
    lisp_plist_create g h entry [0]
      = .ok (h.lisp_heap_cur, cons_heap h entry g.lisp_NIL) := by
  unfold lisp_plist_create
  simp [lisp_plist_create_loop, lisp_cell_cons_heap, bind, Except.bind, pure, Except.pure]

theorem block_heap_cur (g : lisp_globals) (h : lisp_heap) (k v : Nat) :
    (block_heap g h k v).lisp_heap_cur = h.lisp_heap_cur + 64 := rfl

theorem block_heap_read (g : lisp_globals) (h : lisp_heap) (k v x : Nat) :
    heap_read (block_heap g h k v) x
      = if x = h.lisp_heap_cur + 48 then
          some (lisp_record.cell (h.lisp_heap_cur + 32) g.lisp_NIL)
        else if x = h.lisp_heap_cur + 32 then
          some (lisp_record.cell k (h.lisp_heap_cur + 16))
        else if x = h.lisp_heap_cur + 16 then
          some (lisp_record.cell h.lisp_heap_cur g.lisp_NIL)
        else if x = h.lisp_heap_cur then some (lisp_record.cell g.lisp_APVAL v)
        else heap_read h x := rfl

theorem block_heap_binding (g : lisp_globals) (h : lisp_heap) (k v : Nat) :
    binding_at g (block_heap g h k v) h.lisp_heap_cur k v g.lisp_NIL := by
  unfold binding_at
  simp [block_heap_read]

theorem block_heap_old (g : lisp_globals) (h : lisp_heap) (k v x : Nat)
    (hx : x < h.lisp_heap_cur) :
    heap_read (block_heap g h k v) x = heap_read h x := by
  rw [block_heap_read]
  simp [Nat.ne_of_lt hx, show x ≠ h.lisp_heap_cur + 48 by omega,
    show x ≠ h.lisp_heap_cur + 32 by omega, show x ≠ h.lisp_heap_cur + 16 by omega]

/-- What `lisp_environment_create` does: one binding, of the parent key. -/
theorem environment_create_spec (g : lisp_globals) (h : lisp_heap) (parent : Nat) :
    lisp_environment_create g h parent
      = .ok (h.lisp_heap_cur + 48, block_heap g h g.lisp_SI_PARENT_ENVIRONMENT parent) := by
  unfold lisp_environment_create block_heap
  simp only [lisp_plist_create_one, lisp_cell_cons_heap, cons_heap_cur, bind, Except.bind, pure,
    Except.pure]


theorem frame_blocks_snoc (g : lisp_globals) (H H' : lisp_heap) (p a : Nat) :
    ∀ (L : List (Nat × Nat)) (b : Nat), L ≠ [] → frame_blocks g H b L →
      (∀ x, b ≤ x → x < b + 64 * L.length → x ≠ b + 64 * (L.length - 1) + 48 →
        heap_read H' x = heap_read H x) →
      heap_read H' (b + 64 * (L.length - 1) + 48)
        = some (lisp_record.cell (b + 64 * (L.length - 1) + 32) (b + 64 * L.length + 48)) →
      binding_at g H' (b + 64 * L.length) p a g.lisp_NIL →
      frame_blocks g H' b (L ++ [(p, a)]) := by
  intro L
  induction L with
  | nil => intro b hne; exact absurd rfl hne
  | cons kv rest ih =>
    intro b _ hb hx hlast hnew
    cases rest with
    | nil =>
      simp only [List.length_singleton, Nat.sub_self, Nat.mul_zero, Nat.add_zero,
        Nat.mul_one] at hx hlast hnew
      unfold frame_blocks at hb
      obtain ⟨h0, h1, h2, h3⟩ := hb
      refine ⟨⟨?_, ?_, ?_, ?_⟩, hnew⟩
      · rw [hx b (by omega) (by omega) (by omega)]; exact h0
      · rw [hx (b + 16) (by omega) (by omega) (by omega)]; exact h1
      · rw [hx (b + 32) (by omega) (by omega) (by omega)]; exact h2
      · rw [hlast]
    | cons kv' rest =>
      unfold frame_blocks at hb
      simp only [List.length_cons] at hx hlast hnew ih
      have hstep := ih (b + 64) (by simp) hb.2
        (fun x h1 h2 h3 => hx x (by omega) (by omega) (by omega))
        (by
          have e1 : b + 64 + 64 * (rest.length + 1 - 1) + 48
              = b + 64 * (rest.length + 1 + 1 - 1) + 48 := by omega
          have e2 : b + 64 + 64 * (rest.length + 1 - 1) + 32
              = b + 64 * (rest.length + 1 + 1 - 1) + 32 := by omega
          have e3 : b + 64 + 64 * (rest.length + 1) + 48
              = b + 64 * (rest.length + 1 + 1) + 48 := by omega
          rw [e1, e2, e3]
          exact hlast)
        (by
          have e1 : b + 64 + 64 * (rest.length + 1) = b + 64 * (rest.length + 1 + 1) := by omega
          rw [e1]
          exact hnew)
      refine ⟨binding_at_congr g H H' b _ _ _ ?_ hb.1, hstep⟩
      intro x h1 h2
      exact hx x h1 (by omega) (by omega)

theorem frame_blocks_last (g : lisp_globals) (H : lisp_heap) :
    ∀ (L : List (Nat × Nat)) (b : Nat), L ≠ [] → frame_blocks g H b L →
      heap_read H (b + 64 * (L.length - 1) + 48)
        = some (lisp_record.cell (b + 64 * (L.length - 1) + 32) g.lisp_NIL) := by
  intro L
  induction L with
  | nil => intro b hne; exact absurd rfl hne
  | cons kv rest ih =>
    intro b _ hb
    cases rest with
    | nil =>
      simp only [List.length_singleton, Nat.sub_self, Nat.mul_zero, Nat.add_zero]
      exact hb.2.2.2
    | cons kv' rest =>
      have := ih (b + 64) (by simp) hb.2
      simp only [List.length_cons] at this ⊢
      have e1 : b + 64 + 64 * (rest.length + 1 - 1) + 48
          = b + 64 * (rest.length + 1 + 1 - 1) + 48 := by omega
      have e2 : b + 64 + 64 * (rest.length + 1 - 1) + 32
          = b + 64 * (rest.length + 1 + 1 - 1) + 32 := by omega
      rw [e1, e2] at this
      exact this

/-- Binding a key the frame does not have appends one binding to the frame. -/
theorem bind_one (g : lisp_globals) (hg : globals_wf g) (H : lisp_heap) (A0 : Nat)
    (L : List (Nat × Nat)) (p a : Nat) (fuel : Nat)
    (hL : L ≠ []) (hA : A0 % 16 = 0) (hb : frame_blocks g H A0 L)
    (hcur : H.lisp_heap_cur = A0 + 64 * L.length)
    (hp : lisp_object_get_tag p = lisp_tag_atom)
    (hpold : lisp_object_get_raw_value p < A0)
    (hkold : ∀ kv ∈ L, lisp_object_get_raw_value kv.1 < A0)
    (hnone : ∀ kv ∈ L, atom_key_equal H p kv.1 = false)
    (hfuel : L.length + 1 < fuel) :
    ∃ H', lisp_environment_set_symbol_value g fuel H (A0 + 48) p g.lisp_APVAL a g.lisp_NIL
          = .ok (a, H')
      ∧ frame_blocks g H' A0 (L ++ [(p, a)])
      ∧ H'.lisp_heap_cur = A0 + 64 * (L.length + 1)
      ∧ ∀ x, x < A0 → heap_read H' x = heap_read H x := by
  obtain ⟨n, rfl⟩ : ∃ n, fuel = n + 1 := ⟨fuel - 1, by omega⟩
  have hlen : 0 < L.length := List.length_pos.2 hL
  have hfind : lisp_environment_find_symbol g (n + 1) H (A0 + 48) p g.lisp_NIL
      = .ok g.lisp_NIL := by
    unfold lisp_environment_find_symbol
    rw [blocks_find_none g hg H A0 L p n hL hA hb hp hnone (by omega)]
    simp [bind, Except.bind, pure, Except.pure]
  -- the heap after the first two allocations
  have hb2 : frame_blocks g
      (cons_heap (cons_heap H g.lisp_APVAL a) H.lisp_heap_cur g.lisp_NIL) A0 L := by
    apply frame_blocks_congr g H _ L A0 _ hb
    intro x _ h2
    rw [cons_heap_read, cons_heap_read, cons_heap_cur]
    rw [if_neg (by omega), if_neg (by omega)]
  have hnone2 : ∀ kv ∈ L, atom_key_equal
      (cons_heap (cons_heap H g.lisp_APVAL a) H.lisp_heap_cur g.lisp_NIL) p kv.1 = false := by
    intro kv hkv
    rw [atom_key_equal_congr H _ p kv.1 ?_ ?_]
    · exact hnone kv hkv
    · rw [cons_heap_read, cons_heap_read, cons_heap_cur]
      rw [if_neg (by omega), if_neg (by omega)]
    · have := hkold kv hkv
      rw [cons_heap_read, cons_heap_read, cons_heap_cur]
      rw [if_neg (by omega), if_neg (by omega)]
  have hlast := frame_blocks_last g H L A0 hL hb
  have hlast16 : (A0 + 64 * (L.length - 1) + 48) % 16 = 0 := by omega
  have hget : lisp_cell_get_value (block_heap g H p a) (A0 + 64 * (L.length - 1) + 48)
      = some (A0 + 64 * (L.length - 1) + 32, g.lisp_NIL) := by
    unfold lisp_cell_get_value
    rw [raw_value_aligned _ hlast16, block_heap_old g H p a _ (by omega), hlast]
  refine ⟨heap_write (block_heap g H p a) (A0 + 64 * (L.length - 1) + 48)
      (lisp_record.cell (A0 + 64 * (L.length - 1) + 32) (H.lisp_heap_cur + 48)), ?_, ?_, ?_, ?_⟩
  · unfold lisp_environment_set_symbol_value
    rw [hfind]
    simp only [bind, Except.bind, (lisp_cell_car_NIL g H).2, ↓reduceIte, lisp_cell_cons_heap,
      lisp_plist_create_one, cons_heap_cur]
    unfold lisp_plist_set
    rw [blocks_find_none g hg _ A0 L p (n + 1) hL hA hb2 hp hnone2 (by omega)]
    simp only [bind, Except.bind, Bool.false_eq_true, ↓reduceIte, lisp_cell_cons_heap,
      cons_heap_cur]
    have e : cons_heap (cons_heap (cons_heap (cons_heap H g.lisp_APVAL a) H.lisp_heap_cur
        g.lisp_NIL) p (H.lisp_heap_cur + 16)) (H.lisp_heap_cur + 16 + 16) g.lisp_NIL
        = block_heap g H p a := rfl
    rw [e]
    unfold lisp_cell_rplacd
    rw [hget, raw_value_aligned _ hlast16]
    rfl
  · apply frame_blocks_snoc g H _ p a L A0 hL hb
    · intro x h1 h2 h3
      rw [heap_read_write, if_neg h3, block_heap_old g H p a x (by omega)]
    · rw [heap_read_write, if_pos rfl, hcur]
    · rw [← hcur]
      apply binding_at_congr g (block_heap g H p a) _ _ _ _ _ _ (block_heap_binding g H p a)
      intro x h1 _
      rw [heap_read_write, if_neg (by omega)]
  · rw [heap_write_cur, block_heap_cur, hcur]
    omega
  · intro x hx
    rw [heap_read_write, if_neg (by omega), block_heap_old g H p a x (by omega)]


theorem keys_fresh_congr (h h' : lisp_heap) :
    ∀ (ks : List Nat),
      (∀ k ∈ ks, heap_read h' (lisp_object_get_raw_value k)
        = heap_read h (lisp_object_get_raw_value k)) →
      keys_fresh h' ks = keys_fresh h ks := by
  intro ks
  induction ks with
  | nil => intro _; rfl
  | cons k ks ih =>
    intro hx
    unfold keys_fresh
    rw [ih (fun k' hk' => hx k' (List.mem_cons_of_mem _ hk'))]
    have e : ks.all (fun p => !atom_key_equal h' p k) = ks.all (fun p => !atom_key_equal h p k) := by
      apply Bool.eq_iff_iff.2
      simp only [List.all_eq_true]
      constructor
      · intro hall p hp
        rw [← atom_key_equal_congr h h' p k (hx p (List.mem_cons_of_mem _ hp))
          (hx k (List.mem_cons_self _ _))]
        exact hall p hp
      · intro hall p hp
        rw [atom_key_equal_congr h h' p k (hx p (List.mem_cons_of_mem _ hp))
          (hx k (List.mem_cons_self _ _))]
        exact hall p hp
    rw [e]

theorem keys_fresh_append (h : lisp_heap) (p : Nat) (rest : List Nat) :
    ∀ (ks : List Nat), keys_fresh h (ks ++ p :: rest) = true →
      (∀ k ∈ ks, atom_key_equal h p k = false)
      ∧ lisp_object_get_tag p = lisp_tag_atom := by
  intro ks
  induction ks with
  | nil =>
    intro hk
    simp only [List.nil_append, keys_fresh, Bool.and_eq_true, decide_eq_true_eq] at hk
    exact ⟨fun k hk' => absurd hk' (List.not_mem_nil _), hk.1.1⟩
  | cons k ks ih =>
    intro hk
    simp only [List.cons_append, keys_fresh, Bool.and_eq_true, decide_eq_true_eq,
      List.all_eq_true, Bool.not_eq_true'] at hk
    have := ih hk.2
    refine ⟨?_, this.2⟩
    intro k' hk'
    rcases List.mem_cons.1 hk' with e | hk''
    · subst e
      exact hk.1.2 p (by simp)
    · exact this.1 k' hk''

theorem list_cells_head (g : lisp_globals) (h : lisp_heap) (p c : Nat) (cs : List Nat)
    (hl : list_cells g h p (c :: cs) = true) :
    c = p ∧ lisp_cellp g p ≠ g.lisp_NIL ∧ list_cells g h (lisp_cell_cdr g h p) cs = true := by
  rw [list_cells] at hl
  simp only [Bool.and_eq_true, decide_eq_true_eq] at hl
  exact ⟨hl.1.1, hl.1.2, hl.2⟩

theorem list_cells_ne_NIL (g : lisp_globals) (hg : globals_wf g) (h : lisp_heap) (p c : Nat)
    (cs : List Nat) (hl : list_cells g h p (c :: cs) = true) : p ≠ g.lisp_NIL := by
  intro e
  apply (list_cells_head g h p c cs hl).2.1
  rw [e]
  exact lisp_cellp_NIL g hg

/-- The loop of `lisp_environment_bind_variables` on two lists of the same
length appends one binding per variable and ends with both iterators `NIL`. -/
theorem bind_loop_spec (g : lisp_globals) (hg : globals_wf g) (A0 : Nat) (hA : A0 % 16 = 0) :
    ∀ (pcs acs : List Nat) (pc ac : Nat) (H : lisp_heap) (L : List (Nat × Nat)) (fuel : Nat),
      pcs.length = acs.length →
      list_cells g H pc (pc :: pcs) = true →
      list_cells g H ac (ac :: acs) = true →
      (∀ x ∈ pc :: pcs, lisp_object_get_raw_value x < A0) →
      (∀ x ∈ ac :: acs, lisp_object_get_raw_value x < A0) →
      L ≠ [] → frame_blocks g H A0 L → H.lisp_heap_cur = A0 + 64 * L.length →
      keys_fresh H (L.map Prod.fst ++ (pc :: pcs).map (lisp_cell_car g H)) = true →
      (∀ k ∈ L.map Prod.fst ++ (pc :: pcs).map (lisp_cell_car g H),
        lisp_object_get_raw_value k < A0) →
      L.length + 2 * pcs.length + 2 < fuel →
      ∃ H', lisp_environment_bind_variables_loop g fuel H (A0 + 48) pc ac
            = .ok ((g.lisp_NIL, g.lisp_NIL), H')
        ∧ frame_blocks g H' A0
            (L ++ List.zip ((pc :: pcs).map (lisp_cell_car g H))
              ((ac :: acs).map (lisp_cell_car g H)))
        ∧ H'.lisp_heap_cur = A0 + 64 * (L.length + pcs.length + 1)
        ∧ ∀ x, x < A0 → heap_read H' x = heap_read H x := by
  intro pcs
  induction pcs with
  | nil =>
    intro acs pc ac H L fuel hlen hpl hal hpold haold hL hb hcur hkeys hkold hfuel
    have hacs : acs = [] := List.length_eq_zero.1 hlen.symm
    subst hacs
    obtain ⟨n, rfl⟩ : ∃ n, fuel = n + 1 := ⟨fuel - 1, by omega⟩
    have hk := keys_fresh_append H (lisp_cell_car g H pc) [] (L.map Prod.fst) hkeys
    obtain ⟨H', hset, hb', hcur', hold'⟩ := bind_one g hg H A0 L (lisp_cell_car g H pc)
      (lisp_cell_car g H ac) n hL hA hb hcur hk.2
      (hkold _ (by simp))
      (fun kv hkv => hkold _ (List.mem_append_left _ (List.mem_map_of_mem _ hkv)))
      (fun kv hkv => hk.1 _ (List.mem_map_of_mem _ hkv))
      (by simp only [List.length_nil] at hfuel; omega)
    refine ⟨H', ?_, by simpa using hb', by simpa using hcur', hold'⟩
    have hp' := (lisp_cell_car_congr g H H' pc (hold' _ (hpold pc (by simp)))).2
    have ha' := (lisp_cell_car_congr g H H' ac (hold' _ (haold ac (by simp)))).2
    have hp0 := (list_cells_head g H pc pc [] hpl).2.2
    have ha0 := (list_cells_head g H ac ac [] hal).2.2
    simp only [list_cells, decide_eq_true_eq] at hp0 ha0
    simp [lisp_environment_bind_variables_loop, hset, bind, Except.bind, pure, Except.pure, hp',
      ha', hp0, ha0]
  | cons pc' pcs ih =>
    intro acs pc ac H L fuel hlen hpl hal hpold haold hL hb hcur hkeys hkold hfuel
    obtain ⟨ac', acs, rfl⟩ : ∃ ac' acs', acs = ac' :: acs' := by
      cases acs with
      | nil => simp at hlen
      | cons a as => exact ⟨a, as, rfl⟩
    obtain ⟨n, rfl⟩ : ∃ n, fuel = n + 1 := ⟨fuel - 1, by omega⟩
    have hk := keys_fresh_append H (lisp_cell_car g H pc)
      ((pc' :: pcs).map (lisp_cell_car g H)) (L.map Prod.fst) hkeys
    obtain ⟨H', hset, hb', hcur', hold'⟩ := bind_one g hg H A0 L (lisp_cell_car g H pc)
      (lisp_cell_car g H ac) n hL hA hb hcur hk.2
      (hkold _ (by simp))
      (fun kv hkv => hkold _ (List.mem_append_left _ (List.mem_map_of_mem _ hkv)))
      (fun kv hkv => hk.1 _ (List.mem_map_of_mem _ hkv))
      (by simp only [List.length_cons] at hfuel; omega)
    have hpc := list_cells_head g H pc pc (pc' :: pcs) hpl
    have hac := list_cells_head g H ac ac (ac' :: acs) hal
    have hpc' := list_cells_head g H _ pc' pcs hpc.2.2
    have hac' := list_cells_head g H _ ac' acs hac.2.2
    have hpcdr : lisp_cell_cdr g H' pc = pc' := by
      rw [(lisp_cell_car_congr g H H' pc (hold' _ (hpold pc (by simp)))).2]
      exact hpc'.1.symm
    have hacdr : lisp_cell_cdr g H' ac = ac' := by
      rw [(lisp_cell_car_congr g H H' ac (hold' _ (haold ac (by simp)))).2]
      exact hac'.1.symm
    have hpl' : list_cells g H' pc' (pc' :: pcs) = true := by
      rw [list_cells_congr g H H' (pc' :: pcs) pc'
        (fun x hx => hold' _ (hpold x (List.mem_cons_of_mem _ hx)))]
      have := hpc.2.2
      rw [← hpc'.1] at this
      exact this
    have hal' : list_cells g H' ac' (ac' :: acs) = true := by
      rw [list_cells_congr g H H' (ac' :: acs) ac'
        (fun x hx => hold' _ (haold x (List.mem_cons_of_mem _ hx)))]
      have := hac.2.2
      rw [← hac'.1] at this
      exact this
    have hmapp : (pc' :: pcs).map (lisp_cell_car g H') = (pc' :: pcs).map (lisp_cell_car g H) := by
      apply List.map_congr_left
      intro x hx
      exact (lisp_cell_car_congr g H H' x (hold' _ (hpold x (List.mem_cons_of_mem _ hx)))).1
    have hmapa : (ac' :: acs).map (lisp_cell_car g H') = (ac' :: acs).map (lisp_cell_car g H) := by
      apply List.map_congr_left
      intro x hx
      exact (lisp_cell_car_congr g H H' x (hold' _ (haold x (List.mem_cons_of_mem _ hx)))).1
    have hkeys' : keys_fresh H' ((L ++ [(lisp_cell_car g H pc, lisp_cell_car g H ac)]).map Prod.fst
        ++ (pc' :: pcs).map (lisp_cell_car g H')) = true := by
      rw [hmapp, keys_fresh_congr H H']
      · simpa using hkeys
      · intro k hk'
        apply hold'
        apply hkold
        simpa using hk'
    obtain ⟨H'', hloop, hb'', hcur'', hold''⟩ := ih acs pc' ac' H'
      (L ++ [(lisp_cell_car g H pc, lisp_cell_car g H ac)]) n
      (by simpa using hlen) hpl' hal'
      (fun x hx => hpold x (List.mem_cons_of_mem _ hx))
      (fun x hx => haold x (List.mem_cons_of_mem _ hx))
      (by simp) hb' (by rw [hcur']; simp) hkeys'
      (by
        intro k hk'
        rw [hmapp] at hk'
        apply hkold
        simpa using hk')
      (by simp only [List.length_append, List.length_cons, List.length_nil] at hfuel ⊢; omega)
    refine ⟨H'', ?_, ?_, ?_, fun x hx => by rw [hold'' x hx, hold' x hx]⟩
    · rw [lisp_environment_bind_variables_loop]
      simp only [hset, bind, Except.bind, hpcdr, hacdr, ne_eq,
        list_cells_ne_NIL g hg H' pc' pc' pcs hpl', list_cells_ne_NIL g hg H' ac' ac' acs hal',
        not_false_eq_true, and_self, ↓reduceIte]
      exact hloop
    · rw [hmapp, hmapa] at hb''
      simpa using hb''
    · rw [hcur'']
      simp only [List.length_append, List.length_cons, List.length_nil]
      omega


theorem atom_key_equal_self (h : lisp_heap) (k : Nat) : atom_key_equal h k k = true := by
  unfold atom_key_equal
  simp

/-- Where a binding of the frame lies, and that a lookup of its key finds it. -/
theorem blocks_locate (g : lisp_globals) (H : lisp_heap) :
    ∀ (L : List (Nat × Nat)) (b : Nat), b % 16 = 0 → frame_blocks g H b L →
      keys_fresh H (L.map Prod.fst) = true →
      ∀ kv ∈ L, ∃ c next, c % 16 = 0 ∧ binding_at g H c kv.1 kv.2 next
        ∧ block_assoc H kv.1 b L = some (c + 32) := by
  intro L
  induction L with
  | nil => intro b _ _ _ kv hkv; exact absurd hkv (List.not_mem_nil _)
  | cons kv0 rest ih =>
    intro b hb16 hb hkeys kv hkv
    obtain ⟨hhead, hrest⟩ := frame_blocks_head g H b kv0 rest hb
    simp only [List.map_cons, keys_fresh, Bool.and_eq_true, decide_eq_true_eq, List.all_eq_true,
      Bool.not_eq_true'] at hkeys
    by_cases e : kv = kv0
    · subst e
      exact ⟨b, _, hb16, hhead, by simp [block_assoc, atom_key_equal_self]⟩
    · have hmem : kv ∈ rest := by
        rcases List.mem_cons.1 hkv with e' | h'
        · exact absurd e' e
        · exact h'
      obtain ⟨c, next, hc16, hbind, hassoc⟩ := ih (b + 64) (by omega) hrest hkeys.2 kv hmem
      refine ⟨c, next, hc16, hbind, ?_⟩
      simp only [block_assoc, hkeys.1.2 kv.1 (List.mem_map_of_mem _ hmem), Bool.false_eq_true,
        ↓reduceIte]
      exact hassoc

/-- The attribute list of a binding holds its value under `APVAL`. -/
theorem binding_plist_get (g : lisp_globals) (hg : globals_wf g) (H : lisp_heap)
    (c k v next : Nat) (hc16 : c % 16 = 0) (hbind : binding_at g H c k v next)
    (fuel : Nat) (hfuel : 1 < fuel) :
    lisp_plist_get g fuel H (c + 16) g.lisp_APVAL = .ok v := by
  have hr := binding_at_reads g hg H c k v next hc16 hbind
  have hsp : plist_spine g H (c + 16) [c + 16] = true := by
    simp [plist_spine, hr.2.2.2.2.2.1]
  rw [plist_get_spec g hg H g.lisp_APVAL hg.APVAL_atom [c + 16] (c + 16) hsp fuel
    (by simpa using hfuel)]
  simp [plist_value, plist_assoc, hr.2.2.2.2.1, hr.2.2.2.2.2.2.1, hr.2.2.2.2.2.2.2,
    atom_key_equal_self]

/-- Looking a key of the frame up: the entry found, and the value under
`APVAL`. -/
theorem blocks_get (g : lisp_globals) (hg : globals_wf g) (H : lisp_heap) (A0 : Nat)
    (hA : A0 % 16 = 0) (L : List (Nat × Nat)) (hb : frame_blocks g H A0 L)
    (hkeys : keys_fresh H (L.map Prod.fst) = true)
    (fuel : Nat) (hfuel : L.length + 2 < fuel) (kv : Nat × Nat) (hkv : kv ∈ L) :
    lisp_environment_get_symbol_value g fuel H (A0 + 48) kv.1 g.lisp_APVAL g.lisp_NIL
        = .ok kv.2
      ∧ ∃ c next, c % 16 = 0 ∧ binding_at g H c kv.1 kv.2 next
        ∧ lisp_plist_get g fuel H (A0 + 48) kv.1 = .ok (c + 16) := by
  obtain ⟨c, next, hc16, hbind, hassoc⟩ := blocks_locate g H L A0 hA hb hkeys kv hkv
  have hL : L ≠ [] := List.ne_nil_of_mem hkv
  have hr := binding_at_reads g hg H c _ _ _ hc16 hbind
  have hatom : lisp_object_get_tag kv.1 = lisp_tag_atom := by
    have : ∀ (ks : List Nat), keys_fresh H ks = true → ∀ k ∈ ks,
        lisp_object_get_tag k = lisp_tag_atom := by
      intro ks
      induction ks with
      | nil => intro _ k hk; exact absurd hk (List.not_mem_nil _)
      | cons k0 ks ih =>
        intro hk k hmem
        simp only [keys_fresh, Bool.and_eq_true, decide_eq_true_eq] at hk
        rcases List.mem_cons.1 hmem with e | h'
        · rw [e]; exact hk.1.1
        · exact ih hk.2 k h'
    exact this _ hkeys kv.1 (List.mem_map_of_mem _ hkv)
  have hfind : ∀ n, L.length < n →
      lisp_plist_find_entry g n H (A0 + 48) kv.1 = .ok (true, c + 32) := by
    intro n hn
    rw [plist_find_entry_spec g hg H kv.1 hatom (block_cells A0 L) (A0 + 48)
      (blocks_spine g hg H L A0 hL hA hb) n (by rw [block_cells_length]; exact hn),
      blocks_assoc g hg H kv.1 L A0 hA hb, hassoc]
  have hne : c + 32 ≠ g.lisp_NIL := aligned_ne_NIL g hg (c + 32) (by omega)
  refine ⟨?_, c, next, hc16, hbind, ?_⟩
  · obtain ⟨n, rfl⟩ : ∃ n, fuel = n + 1 := ⟨fuel - 1, by omega⟩
    unfold lisp_environment_get_symbol_value
    rw [lisp_environment_find_symbol, hfind n (by omega)]
    simp only [bind, Except.bind, ↓reduceIte, pure, Except.pure, hne, hr.2.2.2.1]
    exact binding_plist_get g hg H c _ _ _ hc16 hbind (n + 1) (by omega)
  · unfold lisp_plist_get
    rw [hfind fuel (by omega)]
    simp [bind, Except.bind, pure, Except.pure, hr.2.2.2.1]


/-- Protecting fewer addresses asks less. -/
theorem body_stable_mono (ev : lisp_eval_fn) (environment : Nat) (P Q : List Nat)
    (hPQ : ∀ a ∈ P, a ∈ Q) :
    ∀ (forms : List Nat) (H : lisp_heap),
      body_stable ev environment Q forms H = true →
      body_stable ev environment P forms H = true := by
  intro forms
  induction forms with
  | nil => intro H _; rfl
  | cons f fs ih =>
    intro H hst
    simp only [body_stable] at hst ⊢
    cases hev : ev H environment f with
    | error e => rfl
    | ok r =>
      obtain ⟨v, h1⟩ := r
      rw [hev] at hst
      simp only [Bool.and_eq_true, List.all_eq_true, decide_eq_true_eq] at hst ⊢
      exact ⟨fun a ha => hst.1 a (hPQ a ha), ih h1 hst.2⟩


/-- The loop of `lisp_apply_expr` over the body forms evaluates them as
`eval_body` does, when no evaluation touches a cell of the list of forms. -/
theorem body_loop_spec (g : lisp_globals) (hg : globals_wf g) (ev : lisp_eval_fn)
    (environment : Nat) :
    ∀ (bcells : List Nat) (function_next : Nat) (H : lisp_heap) (result : Nat) (fuel : Nat),
      list_cells g H function_next bcells = true →
      body_stable ev environment (bcells.map lisp_object_get_raw_value)
        (bcells.map (lisp_cell_car g H)) H = true →
      bcells.length < fuel →
      lisp_apply_expr_loop g ev fuel H environment function_next result
        = eval_body ev environment (bcells.map (lisp_cell_car g H)) H result := by
  intro bcells
  induction bcells with
  | nil =>
    intro fn H result fuel hl _ hfuel
    obtain ⟨n, rfl⟩ : ∃ n, fuel = n + 1 := ⟨fuel - 1, by omega⟩
    simp only [list_cells, decide_eq_true_eq] at hl
    subst hl
    simp [lisp_apply_expr_loop, eval_body]
  | cons c cs ih =>
    intro fn H result fuel hl hst hfuel
    obtain ⟨n, rfl⟩ : ∃ n, fuel = n + 1 := ⟨fuel - 1, by omega⟩
    have hne := list_cells_ne_NIL g hg H fn c cs hl
    obtain ⟨hc, _, hrest⟩ := list_cells_head g H fn c cs hl
    subst hc
    rw [lisp_apply_expr_loop]
    simp only [ne_eq, hne, not_false_eq_true, ↓reduceIte, List.map_cons, eval_body, bind,
      Except.bind]
    simp only [List.map_cons, body_stable] at hst
    cases hev : ev H environment (lisp_cell_car g H c) with
    | error e => rfl
    | ok r =>
      obtain ⟨v, h1⟩ := r
      rw [hev] at hst
      simp only [Bool.and_eq_true, List.all_eq_true, decide_eq_true_eq, List.mem_cons,
        List.mem_map, forall_eq_or_imp, forall_exists_index, and_imp,
        forall_apply_eq_imp_iff₂] at hst
      obtain ⟨⟨hc1, hcs1⟩, hst'⟩ := hst
      simp only
      have hcdr := (lisp_cell_car_congr g H h1 c hc1).2
      have hmap : cs.map (lisp_cell_car g h1) = cs.map (lisp_cell_car g H) := by
        apply List.map_congr_left
        intro x hx
        exact (lisp_cell_car_congr g H h1 x (hcs1 x hx)).1
      have hl1 : list_cells g h1 (lisp_cell_cdr g h1 c) cs = true := by
        rw [hcdr, list_cells_congr g H h1 cs _ hcs1]
        exact hrest
      have hst1 : body_stable ev environment (cs.map lisp_object_get_raw_value)
          (cs.map (lisp_cell_car g h1)) h1 = true := by
        rw [hmap]
        exact body_stable_mono ev environment _ _ (fun a ha => List.mem_cons_of_mem _ ha) _ _ hst'
      rw [ih (lisp_cell_cdr g h1 c) h1 v n hl1 hst1 (by simp only [List.length_cons] at hfuel; omega),
        hmap]


/-- The application of a lambda form, with the layout of the application
frame. -/
theorem apply_lambda_spec (g : lisp_globals) (hg : globals_wf g) (h : lisp_heap)
    (E f args : lisp_object_t) (pcells acells bcells : List lisp_object_t) (fuel : Nat)
    (halign : h.lisp_heap_cur % 16 = 0)
    (hf : lisp_cellp g f ≠ g.lisp_NIL)
    (hparams : list_cells g h (lisp_cell_car g h (lisp_cell_cdr g h f)) pcells = true)
    (hn : pcells ≠ [])
    (hargs : list_cells g h args acells = true)
    (hlen : acells.length = pcells.length)
    (hbody : list_cells g h (lisp_cell_cdr g h (lisp_cell_cdr g h f)) bcells = true)
    (hold : (f :: lisp_cell_cdr g h f :: pcells ++ acells ++ bcells
        ++ g.lisp_SI_PARENT_ENVIRONMENT :: pcells.map (lisp_cell_car g h)).all
      (fun x => decide (lisp_object_get_raw_value x < h.lisp_heap_cur)) = true)
    (hkeys : keys_fresh h (g.lisp_SI_PARENT_ENVIRONMENT :: pcells.map (lisp_cell_car g h))
      = true)
    (hfuel : 2 * pcells.length + bcells.length + 3 < fuel) :
    (body_stable (lisp_eval g fuel) (apply_frame g fuel h E f args).1
          (bcells.map lisp_object_get_raw_value) (bcells.map (lisp_cell_car g h))
          (apply_frame g fuel h E f args).2 = true →
        lisp_apply g (fuel + 1) h E f args
          = eval_body (lisp_eval g fuel) (apply_frame g fuel h E f args).1
              (bcells.map (lisp_cell_car g h)) (apply_frame g fuel h E f args).2 g.lisp_NIL)
      ∧ h.lisp_heap_cur ≤ (apply_frame g fuel h E f args).1
      ∧ (∀ x, x < h.lisp_heap_cur →
          heap_read (apply_frame g fuel h E f args).2 x = heap_read h x)
      ∧ lisp_environment_parent g fuel (apply_frame g fuel h E f args).2
          (apply_frame g fuel h E f args).1 = .ok E
      ∧ (∀ pa ∈ List.zip (pcells.map (lisp_cell_car g h)) (acells.map (lisp_cell_car g h)),
          lisp_environment_get_symbol_value g fuel (apply_frame g fuel h E f args).2
            (apply_frame g fuel h E f args).1 pa.1 g.lisp_APVAL g.lisp_NIL = .ok pa.2)
      ∧ frame_blocks g (apply_frame g fuel h E f args).2 h.lisp_heap_cur
          ((g.lisp_SI_PARENT_ENVIRONMENT, E) ::
            List.zip (pcells.map (lisp_cell_car g h)) (acells.map (lisp_cell_car g h)))
      ∧ (apply_frame g fuel h E f args).1 = h.lisp_heap_cur + 48 := by
  -- the lists
  obtain ⟨pc, pcs, rfl⟩ : ∃ pc pcs, pcells = pc :: pcs := by
    cases pcells with
    | nil => exact absurd rfl hn
    | cons a as => exact ⟨a, as, rfl⟩
  obtain ⟨ac, acs, rfl⟩ : ∃ ac acs', acells = ac :: acs' := by
    cases acells with
    | nil => simp at hlen
    | cons a as => exact ⟨a, as, rfl⟩
  simp only [List.all_eq_true, decide_eq_true_eq] at hold
  have hold_f := hold f (by simp)
  have hold_r := hold (lisp_cell_cdr g h f) (by simp)
  have hold_p : ∀ x ∈ pc :: pcs, lisp_object_get_raw_value x < h.lisp_heap_cur :=
    fun x hx => hold x (by simp only [List.mem_cons, List.mem_append]; simp only [List.mem_cons] at hx; tauto)
  have hold_a : ∀ x ∈ ac :: acs, lisp_object_get_raw_value x < h.lisp_heap_cur :=
    fun x hx => hold x (by simp only [List.mem_cons, List.mem_append]; simp only [List.mem_cons] at hx; tauto)
  have hold_b : ∀ x ∈ bcells, lisp_object_get_raw_value x < h.lisp_heap_cur :=
    fun x hx => hold x (by simp only [List.mem_cons, List.mem_append]; tauto)
  have hold_k : ∀ k ∈ g.lisp_SI_PARENT_ENVIRONMENT :: (pc :: pcs).map (lisp_cell_car g h),
      lisp_object_get_raw_value k < h.lisp_heap_cur :=
    fun x hx => hold x (by simp only [List.mem_cons, List.mem_append]; simp only [List.mem_cons] at hx; tauto)
  -- the frame `lisp_environment_create` makes
  have hcreate := environment_create_spec g h E
  have h1old : ∀ x, x < h.lisp_heap_cur →
      heap_read (block_heap g h g.lisp_SI_PARENT_ENVIRONMENT E) x = heap_read h x :=
    fun x hx => block_heap_old g h _ _ x hx
  have hpc_eq := (list_cells_head g h _ pc pcs hparams).1
  have hac_eq := (list_cells_head g h _ ac acs hargs).1
  have hcdr1 : lisp_cell_cdr g (block_heap g h g.lisp_SI_PARENT_ENVIRONMENT E) f
      = lisp_cell_cdr g h f := (lisp_cell_car_congr g h _ f (h1old _ hold_f)).2
  have hvars1 : lisp_cell_car g (block_heap g h g.lisp_SI_PARENT_ENVIRONMENT E)
      (lisp_cell_cdr g h f) = pc := by
    rw [(lisp_cell_car_congr g h _ _ (h1old _ hold_r)).1]; exact hpc_eq.symm
  have hmapp : (pc :: pcs).map (lisp_cell_car g (block_heap g h g.lisp_SI_PARENT_ENVIRONMENT E))
      = (pc :: pcs).map (lisp_cell_car g h) := by
    apply List.map_congr_left
    intro x hx
    exact (lisp_cell_car_congr g h _ x (h1old _ (hold_p x hx))).1
  have hmapa : (ac :: acs).map (lisp_cell_car g (block_heap g h g.lisp_SI_PARENT_ENVIRONMENT E))
      = (ac :: acs).map (lisp_cell_car g h) := by
    apply List.map_congr_left
    intro x hx
    exact (lisp_cell_car_congr g h _ x (h1old _ (hold_a x hx))).1
  obtain ⟨H', hloop, hblocks, hcur', hold'⟩ := bind_loop_spec g hg h.lisp_heap_cur halign pcs acs
    pc ac (block_heap g h g.lisp_SI_PARENT_ENVIRONMENT E) [(g.lisp_SI_PARENT_ENVIRONMENT, E)] fuel
    (by simpa using hlen.symm)
    (by
      rw [list_cells_congr g h _ (pc :: pcs) pc (fun x hx => h1old _ (hold_p x hx))]
      have := hparams
      rw [← hpc_eq] at this
      exact this)
    (by
      rw [list_cells_congr g h _ (ac :: acs) ac (fun x hx => h1old _ (hold_a x hx))]
      have := hargs
      rw [← hac_eq] at this
      exact this)
    hold_p hold_a (by simp) (block_heap_binding g h _ _) (by rw [block_heap_cur]; simp)
    (by
      rw [hmapp, keys_fresh_congr h _ _ (fun k hk => h1old _ (hold_k k (by simpa using hk)))]
      simpa using hkeys)
    (by
      rw [hmapp]
      intro k hk
      exact hold_k k (by simpa using hk))
    (by simp only [List.length_cons, List.length_nil] at hfuel ⊢; omega)
  rw [hmapp, hmapa] at hblocks
  have hHold : ∀ x, x < h.lisp_heap_cur → heap_read H' x = heap_read h x :=
    fun x hx => by rw [hold' x hx, h1old x hx]
  have hbind : lisp_environment_bind_variables g fuel
      (block_heap g h g.lisp_SI_PARENT_ENVIRONMENT E) (h.lisp_heap_cur + 48) pc ac
      = .ok (g.lisp_T, H') := by
    unfold lisp_environment_bind_variables
    rw [hloop]
    simp [bind, Except.bind, pure, Except.pure]
  have hframe : apply_frame g fuel h E f args = (h.lisp_heap_cur + 48, H') := by
    unfold apply_frame
    rw [hcreate]
    simp only [hcdr1, hvars1]
    rw [← hac_eq, hbind]
  rw [hframe]
  simp only
  have hkeys' : keys_fresh H' ((((g.lisp_SI_PARENT_ENVIRONMENT, E) ::
      List.zip ((pc :: pcs).map (lisp_cell_car g h)) ((ac :: acs).map (lisp_cell_car g h)))).map
        Prod.fst) = true := by
    have e : ((((g.lisp_SI_PARENT_ENVIRONMENT, E) ::
        List.zip ((pc :: pcs).map (lisp_cell_car g h))
          ((ac :: acs).map (lisp_cell_car g h)))).map Prod.fst)
        = g.lisp_SI_PARENT_ENVIRONMENT :: (pc :: pcs).map (lisp_cell_car g h) := by
      rw [List.map_cons, List.map_fst_zip]
      simp only [List.length_map]
      exact Nat.le_of_eq hlen.symm
    rw [e, keys_fresh_congr h H' _ (fun k hk => hHold _ (hold_k k hk))]
    exact hkeys
  have hget := blocks_get g hg H' h.lisp_heap_cur halign _ hblocks hkeys' fuel
    (by
      have e : (List.zip ((pc :: pcs).map (lisp_cell_car g h))
          ((ac :: acs).map (lisp_cell_car g h))).length ≤ pcs.length + 1 := by
        rw [List.length_zip, List.length_map, List.length_map, List.length_cons]
        exact Nat.min_le_left _ _
      rw [List.length_append, List.length_singleton]
      simp only [List.length_cons] at hfuel e
      omega)
  refine ⟨?_, by omega, hHold, ?_, ?_, by simpa using hblocks, trivial⟩
  · intro hstable
    rw [lisp_apply]
    simp only [ne_eq, hf, not_false_eq_true, ↓reduceIte]
    unfold lisp_apply_expr
    rw [hcreate]
    simp only [bind, Except.bind, hcdr1, hvars1]
    rw [← hac_eq, hbind]
    simp only [hg.T_ne_NIL, ↓reduceIte]
    have hbcdr : lisp_cell_cdr g H' (lisp_cell_cdr g h f)
        = lisp_cell_cdr g h (lisp_cell_cdr g h f) :=
      (lisp_cell_car_congr g h H' _ (hHold _ hold_r)).2
    have hmapb : bcells.map (lisp_cell_car g H') = bcells.map (lisp_cell_car g h) := by
      apply List.map_congr_left
      intro x hx
      exact (lisp_cell_car_congr g h H' x (hHold _ (hold_b x hx))).1
    rw [hbcdr, body_loop_spec g hg (lisp_eval g fuel) (h.lisp_heap_cur + 48) bcells _ H'
      g.lisp_NIL fuel
      (by rw [list_cells_congr g h H' bcells _ (fun x hx => hHold _ (hold_b x hx))]; exact hbody)
      (by rw [hmapb]; exact hstable) (by omega), hmapb]
  · obtain ⟨_, c, next, hc16, hbnd, hpg⟩ := hget (g.lisp_SI_PARENT_ENVIRONMENT, E) (by simp)
    unfold lisp_environment_parent
    rw [hpg]
    simp only [bind, Except.bind, aligned_ne_NIL g hg (c + 16) (by omega), ↓reduceIte]
    exact binding_plist_get g hg H' c _ _ _ hc16 hbnd fuel (by omega)
  · intro pa hpa
    exact (hget pa (List.mem_append_right _ hpa)).1

/-- C2. `lisp_apply` of a lambda form with n ≥ 1 parameters (atoms with
pairwise different names, none named like the parent key) to a list of n
values makes a new frame whose parent is `E`, binds there the `APVAL` of each
parameter to the value at the same position, leaves every record that existed
before the call as it was, and returns what `eval_body` gives for the body
forms in the new frame: each evaluated once, in order, the value of the last
being the result. -/
theorem C2_apply_lambda (g : lisp_globals) (hg : globals_wf g) (h : lisp_heap)
    (E f args : lisp_object_t) (pcells acells bcells : List lisp_object_t) (fuel : Nat)
    (halign : h.lisp_heap_cur % 16 = 0)
    (hf : lisp_cellp g f ≠ g.lisp_NIL)
    (hparams : list_cells g h (lisp_cell_car g h (lisp_cell_cdr g h f)) pcells = true)
    (hn : pcells ≠ [])
    (hargs : list_cells g h args acells = true)
    (hlen : acells.length = pcells.length)
    (hbody : list_cells g h (lisp_cell_cdr g h (lisp_cell_cdr g h f)) bcells = true)
    (hold : (f :: lisp_cell_cdr g h f :: pcells ++ acells ++ bcells
        ++ g.lisp_SI_PARENT_ENVIRONMENT :: pcells.map (lisp_cell_car g h)).all
      (fun x => decide (lisp_object_get_raw_value x < h.lisp_heap_cur)) = true)
    (hkeys : keys_fresh h (g.lisp_SI_PARENT_ENVIRONMENT :: pcells.map (lisp_cell_car g h))
      = true)
    (hstable : body_stable (lisp_eval g fuel) (apply_frame g fuel h E f args).1
      (bcells.map lisp_object_get_raw_value) (bcells.map (lisp_cell_car g h))
      (apply_frame g fuel h E f args).2 = true)
    (hfuel : 2 * pcells.length + bcells.length + 3 < fuel) :
    lisp_apply g (fuel + 1) h E f args
        = eval_body (lisp_eval g fuel) (apply_frame g fuel h E f args).1
            (bcells.map (lisp_cell_car g h)) (apply_frame g fuel h E f args).2 g.lisp_NIL
      ∧ h.lisp_heap_cur ≤ (apply_frame g fuel h E f args).1
      ∧ (∀ x, x < h.lisp_heap_cur →
          heap_read (apply_frame g fuel h E f args).2 x = heap_read h x)
      ∧ lisp_environment_parent g fuel (apply_frame g fuel h E f args).2
          (apply_frame g fuel h E f args).1 = .ok E
      ∧ (∀ pa ∈ List.zip (pcells.map (lisp_cell_car g h)) (acells.map (lisp_cell_car g h)),
          lisp_environment_get_symbol_value g fuel (apply_frame g fuel h E f args).2
            (apply_frame g fuel h E f args).1 pa.1 g.lisp_APVAL g.lisp_NIL = .ok pa.2) := by
  obtain ⟨r1, r2, r3, r4, r5, _⟩ := apply_lambda_spec g hg h E f args pcells acells bcells fuel
    halign hf hparams hn hargs hlen hbody hold hkeys hfuel
  exact ⟨r1 hstable, r2, r3, r4, r5⟩

set_option maxRecDepth 100000 in
/-- C2 on `(LAMBDA (V) (IF V 'X 'Y))` applied to `(T)`: the application
returns `X`; applied to `(NIL)` it returns `Y`. -/
theorem C2_apply_lambda_witness :
    (run_value (lisp_apply example_interpreter.g 33 example_LAMBDA.h
        example_interpreter.environment example_LAMBDA.function example_LAMBDA.arguments_T)
        = some example_LAMBDA.X
      ∧ run_value (lisp_apply example_interpreter.g 33 example_LAMBDA.h
        example_interpreter.environment example_LAMBDA.function example_LAMBDA.arguments_NIL)
        = some example_LAMBDA.Y
      ∧ example_LAMBDA.X ≠ example_LAMBDA.Y)
    ∧ (lisp_apply example_interpreter.g (32 + 1) example_LAMBDA.h
          example_interpreter.environment example_LAMBDA.function example_LAMBDA.arguments_T
        = eval_body (lisp_eval example_interpreter.g 32)
            (apply_frame example_interpreter.g 32 example_LAMBDA.h
              example_interpreter.environment example_LAMBDA.function
              example_LAMBDA.arguments_T).1
            (example_LAMBDA_body.map (lisp_cell_car example_interpreter.g example_LAMBDA.h))
            (apply_frame example_interpreter.g 32 example_LAMBDA.h
              example_interpreter.environment example_LAMBDA.function
              example_LAMBDA.arguments_T).2 example_interpreter.g.lisp_NIL
      ∧ example_LAMBDA.h.lisp_heap_cur
          ≤ (apply_frame example_interpreter.g 32 example_LAMBDA.h
              example_interpreter.environment example_LAMBDA.function
              example_LAMBDA.arguments_T).1
      ∧ (∀ x, x < example_LAMBDA.h.lisp_heap_cur →
          heap_read (apply_frame example_interpreter.g 32 example_LAMBDA.h
              example_interpreter.environment example_LAMBDA.function
              example_LAMBDA.arguments_T).2 x = heap_read example_LAMBDA.h x)
      ∧ lisp_environment_parent example_interpreter.g 32
          (apply_frame example_interpreter.g 32 example_LAMBDA.h
              example_interpreter.environment example_LAMBDA.function
              example_LAMBDA.arguments_T).2
          (apply_frame example_interpreter.g 32 example_LAMBDA.h
              example_interpreter.environment example_LAMBDA.function
              example_LAMBDA.arguments_T).1 = .ok example_interpreter.environment
      ∧ (∀ pa ∈ List.zip
            (example_LAMBDA_parameters.map
              (lisp_cell_car example_interpreter.g example_LAMBDA.h))
            ([example_LAMBDA.arguments_T].map
              (lisp_cell_car example_interpreter.g example_LAMBDA.h)),
          lisp_environment_get_symbol_value example_interpreter.g 32
            (apply_frame example_interpreter.g 32 example_LAMBDA.h
              example_interpreter.environment example_LAMBDA.function
              example_LAMBDA.arguments_T).2
            (apply_frame example_interpreter.g 32 example_LAMBDA.h
              example_interpreter.environment example_LAMBDA.function
              example_LAMBDA.arguments_T).1 pa.1 example_interpreter.g.lisp_APVAL
            example_interpreter.g.lisp_NIL = .ok pa.2)) := by
  have H : (run_value (lisp_apply example_interpreter.g 33 example_LAMBDA.h
          example_interpreter.environment example_LAMBDA.function example_LAMBDA.arguments_T)
          = some example_LAMBDA.X
        ∧ run_value (lisp_apply example_interpreter.g 33 example_LAMBDA.h
          example_interpreter.environment example_LAMBDA.function
          example_LAMBDA.arguments_NIL) = some example_LAMBDA.Y
        ∧ example_LAMBDA.X ≠ example_LAMBDA.Y)
      ∧ example_LAMBDA.h.lisp_heap_cur % 16 = 0
      ∧ lisp_cellp example_interpreter.g example_LAMBDA.function
          ≠ example_interpreter.g.lisp_NIL
      ∧ list_cells example_interpreter.g example_LAMBDA.h
          (lisp_cell_car example_interpreter.g example_LAMBDA.h
            (lisp_cell_cdr example_interpreter.g example_LAMBDA.h example_LAMBDA.function))
          example_LAMBDA_parameters = true
      ∧ example_LAMBDA_parameters ≠ []
      ∧ list_cells example_interpreter.g example_LAMBDA.h example_LAMBDA.arguments_T
          [example_LAMBDA.arguments_T] = true
      ∧ [example_LAMBDA.arguments_T].length = example_LAMBDA_parameters.length
      ∧ list_cells example_interpreter.g example_LAMBDA.h
          (lisp_cell_cdr example_interpreter.g example_LAMBDA.h
            (lisp_cell_cdr example_interpreter.g example_LAMBDA.h example_LAMBDA.function))
          example_LAMBDA_body = true
      ∧ (example_LAMBDA.function
          :: lisp_cell_cdr example_interpreter.g example_LAMBDA.h example_LAMBDA.function
          :: example_LAMBDA_parameters ++ [example_LAMBDA.arguments_T] ++ example_LAMBDA_body
          ++ example_interpreter.g.lisp_SI_PARENT_ENVIRONMENT
            :: example_LAMBDA_parameters.map
              (lisp_cell_car example_interpreter.g example_LAMBDA.h)).all
          (fun x => decide (lisp_object_get_raw_value x < example_LAMBDA.h.lisp_heap_cur))
          = true
      ∧ keys_fresh example_LAMBDA.h (example_interpreter.g.lisp_SI_PARENT_ENVIRONMENT
          :: example_LAMBDA_parameters.map
            (lisp_cell_car example_interpreter.g example_LAMBDA.h)) = true
      ∧ body_stable (lisp_eval example_interpreter.g 32)
          (apply_frame example_interpreter.g 32 example_LAMBDA.h
            example_interpreter.environment example_LAMBDA.function
            example_LAMBDA.arguments_T).1
          (example_LAMBDA_body.map lisp_object_get_raw_value)
          (example_LAMBDA_body.map (lisp_cell_car example_interpreter.g example_LAMBDA.h))
          (apply_frame example_interpreter.g 32 example_LAMBDA.h
            example_interpreter.environment example_LAMBDA.function
            example_LAMBDA.arguments_T).2 = true
      ∧ 2 * example_LAMBDA_parameters.length + example_LAMBDA_body.length + 3 < 32 := by
    decide!
  obtain ⟨hout, h1, h2, h3, h4, h5, h6, h7, h8, h9, h10, h11⟩ := H
  exact ⟨hout,
    C2_apply_lambda example_interpreter.g example_interpreter_globals_wf example_LAMBDA.h
      example_interpreter.environment example_LAMBDA.function example_LAMBDA.arguments_T
      example_LAMBDA_parameters [example_LAMBDA.arguments_T] example_LAMBDA_body 32
      h1 h2 h3 h4 h5 h6 h7 h8 h9 h10 h11⟩


/-! ## The arithmetic `SUBR`s `+` and `-` -/

theorem fixnum_round_trip (lp64 : Bool) (f : Int)
    (hmin : lisp_fixnum_min lp64 ≤ f) (hmax : f ≤ lisp_fixnum_max lp64) :
    lisp_fixnum_get_value lp64 (lisp_fixnum_create lp64 f) = f ∧
      lisp_object_get_tag (lisp_fixnum_create lp64 f) = lisp_tag_fixnum := by
  unfold lisp_fixnum_min at hmin
  unfold lisp_fixnum_max at hmax
  have hpos : (0 : Int) < 2 ^ (word_bits lp64 - 5) := by positivity
  rcases Int.lt_or_le f 0 with hneg | hnn
  · obtain ⟨m, hm⟩ : ∃ m : Nat, f = -(m : Int) := ⟨(-f).toNat, by omega⟩
    subst hm
    have h1 : 0 < m := by omega
    have h2 : m ≤ 2 ^ (word_bits lp64 - 5) := by
      have : (m : Int) ≤ 2 ^ (word_bits lp64 - 5) := by omega
      exact_mod_cast this
    have hW : 2 ^ word_bits lp64 = 16 * (2 ^ (word_bits lp64 - 5) * 2) := by
      cases lp64 <;> simp [word_bits]
    rw [fixnum_create_neg lp64 m h1 h2]
    refine ⟨fixnum_get_value_neg lp64 m h1 h2, ?_⟩
    have e : 2 ^ word_bits lp64 - 16 * m + 2 = 16 * (2 ^ (word_bits lp64 - 5) * 2 - m) + 2 := by
      omega
    rw [e]
    exact (raw_value_mul16_add _ 2 (by norm_num)).2
  · obtain ⟨n, hn⟩ : ∃ n : Nat, f = (n : Int) := ⟨f.toNat, by omega⟩
    subst hn
    have h2 : n < 2 ^ (word_bits lp64 - 5) := by
      have : (n : Int) < 2 ^ (word_bits lp64 - 5) := by omega
      exact_mod_cast this
    rw [fixnum_create_nonneg lp64 n h2]
    exact ⟨fixnum_get_value_nonneg lp64 n h2, (raw_value_mul16_add _ 2 (by norm_num)).2⟩

theorem lisp_fixnump_eq_NIL (g : lisp_globals) (hg : globals_wf g) (o : Nat) :
    lisp_fixnump g o = g.lisp_NIL ↔ lisp_object_get_tag o ≠ lisp_tag_fixnum := by
  unfold lisp_fixnump lisp_object_has_tag
  by_cases e : lisp_object_get_tag o = lisp_tag_fixnum
  · simp [e, hg.T_ne_NIL]
  · simp [e]

theorem lisp_cell_car_NIL_eq (g : lisp_globals) (hg : globals_wf g) (h : lisp_heap) :
    lisp_cell_car g h g.lisp_NIL = g.lisp_NIL ∧ lisp_cell_cdr g h g.lisp_NIL = g.lisp_NIL := by
  apply lisp_cell_car_not_cell g hg h
  have := hg.NIL_atom
  rw [lisp_object_get_tag_eq] at this
  rw [this]
  decide

theorem PLUS_loop_spec (g : lisp_globals) (hg : globals_wf g) (h : lisp_heap) :
    ∀ (cells : List Nat) (args : Nat) (sum : Int) (fuel : Nat),
      list_cells g h args cells = true → cells.length < fuel →
      lisp_subr_sign_PLUS_loop g fuel h args sum
        = .ok (if cells.all (fun c =>
                  decide (lisp_object_get_tag (lisp_cell_car g h c) = lisp_tag_fixnum)) = true
               then some (sum + (cells.map (fun c =>
                  lisp_fixnum_get_value true (lisp_cell_car g h c))).sum)
               else none) := by
  intro cells
  induction cells with
  | nil =>
    intro args sum fuel hl hfuel
    obtain ⟨n, rfl⟩ : ∃ n, fuel = n + 1 := ⟨fuel - 1, by omega⟩
    simp only [list_cells, decide_eq_true_eq] at hl
    subst hl
    simp [lisp_subr_sign_PLUS_loop, pure, Except.pure]
  | cons c cs ih =>
    intro args sum fuel hl hfuel
    obtain ⟨n, rfl⟩ : ∃ n, fuel = n + 1 := ⟨fuel - 1, by omega⟩
    have hne := list_cells_ne_NIL g hg h args c cs hl
    obtain ⟨hc, _, hrest⟩ := list_cells_head g h args c cs hl
    subst hc
    rw [lisp_subr_sign_PLUS_loop]
    simp only [ne_eq, hne, not_false_eq_true, ↓reduceIte]
    by_cases hfix : lisp_object_get_tag (lisp_cell_car g h c) = lisp_tag_fixnum
    · have h1 : ¬ lisp_fixnump g (lisp_cell_car g h c) = g.lisp_NIL := by
        rw [lisp_fixnump_eq_NIL g hg]; simpa using hfix
      simp only [h1, ↓reduceIte]
      rw [ih _ _ n hrest (by simp only [List.length_cons] at hfuel; omega)]
      simp only [List.all_cons, hfix, decide_True, Bool.true_and, List.map_cons, List.sum_cons,
        add_assoc]
    · have h1 : lisp_fixnump g (lisp_cell_car g h c) = g.lisp_NIL := by
        rw [lisp_fixnump_eq_NIL g hg]; exact hfix
      simp [h1, hfix, pure, Except.pure]

/-- Claim C18: on a proper list of arguments, the `+` subr returns the fixnum
made from the sum of the arguments' fixnum values when every argument is a
fixnum (the fixnum of `0` for the empty list), and that object is a fixnum
whose value is the sum whenever the sum is representable; when some argument
is not a fixnum it returns `NIL`.  The heap is left as it was. -/
theorem C18_PLUS_sums_fixnums (g : lisp_globals) (hg : globals_wf g) (h : lisp_heap)
    (environment arguments : lisp_object_t) (cells : List lisp_object_t) (fuel : Nat)
    (hlist : list_cells g h arguments cells = true) (hfuel : cells.length < fuel) :
    (cells.all (fun c =>
        decide (lisp_object_get_tag (lisp_cell_car g h c) = lisp_tag_fixnum)) = true →
      lisp_subr_sign_PLUS g fuel h environment arguments
        = .ok (lisp_fixnum_create true
            (cells.map (fun c => lisp_fixnum_get_value true (lisp_cell_car g h c))).sum, h)
      ∧ (lisp_fixnum_min true
            ≤ (cells.map (fun c => lisp_fixnum_get_value true (lisp_cell_car g h c))).sum →
          (cells.map (fun c => lisp_fixnum_get_value true (lisp_cell_car g h c))).sum
            ≤ lisp_fixnum_max true →
          lisp_fixnum_get_value true (lisp_fixnum_create true
              (cells.map (fun c => lisp_fixnum_get_value true (lisp_cell_car g h c))).sum)
            = (cells.map (fun c => lisp_fixnum_get_value true (lisp_cell_car g h c))).sum
          ∧ lisp_object_get_tag (lisp_fixnum_create true
              (cells.map (fun c => lisp_fixnum_get_value true (lisp_cell_car g h c))).sum)
            = lisp_tag_fixnum))
    ∧ (cells.all (fun c =>
        decide (lisp_object_get_tag (lisp_cell_car g h c) = lisp_tag_fixnum)) = false →
      lisp_subr_sign_PLUS g fuel h environment arguments = .ok (g.lisp_NIL, h)) := by
  have hloop := PLUS_loop_spec g hg h cells arguments 0 fuel hlist hfuel
  refine ⟨fun hall => ⟨?_, fun hmin hmax => ?_⟩, fun hnot => ?_⟩
  · unfold lisp_subr_sign_PLUS
    rw [hloop]
    simp [hall, bind, Except.bind, pure, Except.pure]
  · have h5 := fixnum_round_trip true _ hmin hmax
    exact h5
  · unfold lisp_subr_sign_PLUS
    rw [hloop]
    simp [hnot, bind, Except.bind, pure, Except.pure]

set_option maxRecDepth 100000 in
/-- C18 on the argument list `(1 2 -3 4)` of
`test_evaluating_PLUS_with_n_arguments`: the `+` subr returns the fixnum 4. -/
theorem C18_PLUS_sums_fixnums_witness :
    lisp_subr_sign_PLUS example_root.g 8 (example_fixnum_list [1, 2, -3, 4]).2
        example_root.environment (example_fixnum_list [1, 2, -3, 4]).1
      = .ok (lisp_fixnum_create true 4, (example_fixnum_list [1, 2, -3, 4]).2) := by
  have H : list_cells example_root.g (example_fixnum_list [1, 2, -3, 4]).2
        (example_fixnum_list [1, 2, -3, 4]).1 (example_fixnum_cells [1, 2, -3, 4]) = true
      ∧ (example_fixnum_cells [1, 2, -3, 4]).length < 8
      ∧ (example_fixnum_cells [1, 2, -3, 4]).all (fun c =>
          decide (lisp_object_get_tag (lisp_cell_car example_root.g
            (example_fixnum_list [1, 2, -3, 4]).2 c) = lisp_tag_fixnum)) = true
      ∧ ((example_fixnum_cells [1, 2, -3, 4]).map (fun c =>
          lisp_fixnum_get_value true (lisp_cell_car example_root.g
            (example_fixnum_list [1, 2, -3, 4]).2 c))).sum = 4 := by
    decide!
  have h := ((C18_PLUS_sums_fixnums example_root.g example_root_globals_wf
    (example_fixnum_list [1, 2, -3, 4]).2 example_root.environment
    (example_fixnum_list [1, 2, -3, 4]).1 (example_fixnum_cells [1, 2, -3, 4]) 8
    H.1 H.2.1).1 H.2.2.1).1
  rw [H.2.2.2] at h
  exact h

theorem MINUS_loop_spec (g : lisp_globals) (hg : globals_wf g) (h : lisp_heap) :
    ∀ (cells : List Nat) (subsequent : Nat) (accumulator : Int) (fuel : Nat),
      list_cells g h subsequent cells = true → cells.length < fuel →
      lisp_subr_sign_MINUS_loop g fuel h subsequent accumulator
        = .ok (if cells.all (fun c =>
                  decide (lisp_object_get_tag (lisp_cell_car g h c) = lisp_tag_fixnum)) = true
               then some (accumulator - (cells.map (fun c =>
                  lisp_fixnum_get_value true (lisp_cell_car g h c))).sum)
               else none) := by
  intro cells
  induction cells with
  | nil =>
    intro args acc fuel hl hfuel
    obtain ⟨n, rfl⟩ : ∃ n, fuel = n + 1 := ⟨fuel - 1, by omega⟩
    simp only [list_cells, decide_eq_true_eq] at hl
    subst hl
    simp [lisp_subr_sign_MINUS_loop, pure, Except.pure]
  | cons c cs ih =>
    intro args acc fuel hl hfuel
    obtain ⟨n, rfl⟩ : ∃ n, fuel = n + 1 := ⟨fuel - 1, by omega⟩
    have hne := list_cells_ne_NIL g hg h args c cs hl
    obtain ⟨hc, _, hrest⟩ := list_cells_head g h args c cs hl
    subst hc
    rw [lisp_subr_sign_MINUS_loop]
    simp only [ne_eq, hne, not_false_eq_true, ↓reduceIte]
    by_cases hfix : lisp_object_get_tag (lisp_cell_car g h c) = lisp_tag_fixnum
    · have h1 : ¬ lisp_fixnump g (lisp_cell_car g h c) = g.lisp_NIL := by
        rw [lisp_fixnump_eq_NIL g hg]; simpa using hfix
      simp only [h1, ↓reduceIte]
      rw [ih _ _ n hrest (by simp only [List.length_cons] at hfuel; omega)]
      simp only [List.all_cons, hfix, decide_True, Bool.true_and, List.map_cons, List.sum_cons,
        sub_sub]
    · have h1 : lisp_fixnump g (lisp_cell_car g h c) = g.lisp_NIL := by
        rw [lisp_fixnump_eq_NIL g hg]; exact hfix
      simp [h1, hfix, pure, Except.pure]

theorem foldl_sub_eq (ys : List Int) : ∀ x : Int, ys.foldl (· - ·) x = x - ys.sum := by
  induction ys with
  | nil => intro x; simp
  | cons y ys ih => intro x; simp only [List.sum_cons, List.foldl_cons]; rw [ih]; ring

/-- Claim C19: on a proper list of arguments whose elements are all fixnums,
the `-` subr returns the fixnum made from `-x` when the list holds the single
value `x`, and from `x - y1 - ... - yn` when it holds `x, y1, ..., yn` with
`n >= 1`; that object is a fixnum with this value whenever the value is
representable.  It returns `NIL` for the empty list and whenever some
argument is not a fixnum.  The heap is left as it was. -/
theorem C19_MINUS_negates_or_subtracts (g : lisp_globals) (hg : globals_wf g) (h : lisp_heap)
    (environment arguments : lisp_object_t) (cells : List lisp_object_t) (fuel : Nat)
    (hlist : list_cells g h arguments cells = true) (hfuel : cells.length < fuel) :
    (∀ (c : lisp_object_t) (cs : List lisp_object_t), cells = c :: cs →
      (c :: cs).all (fun c =>
        decide (lisp_object_get_tag (lisp_cell_car g h c) = lisp_tag_fixnum)) = true →
      lisp_subr_sign_MINUS g fuel h environment arguments
        = .ok (lisp_fixnum_create true
            (if cs = [] then - lisp_fixnum_get_value true (lisp_cell_car g h c)
             else (cs.map (fun c => lisp_fixnum_get_value true (lisp_cell_car g h c))).foldl
                    (· - ·) (lisp_fixnum_get_value true (lisp_cell_car g h c))), h)
      ∧ ∀ r : Int,
          r = (if cs = [] then - lisp_fixnum_get_value true (lisp_cell_car g h c)
               else (cs.map (fun c => lisp_fixnum_get_value true (lisp_cell_car g h c))).foldl
                      (· - ·) (lisp_fixnum_get_value true (lisp_cell_car g h c))) →
          lisp_fixnum_min true ≤ r → r ≤ lisp_fixnum_max true →
          lisp_fixnum_get_value true (lisp_fixnum_create true r) = r
          ∧ lisp_object_get_tag (lisp_fixnum_create true r) = lisp_tag_fixnum)
    ∧ (cells = [] ∨ cells.all (fun c =>
          decide (lisp_object_get_tag (lisp_cell_car g h c) = lisp_tag_fixnum)) = false →
        lisp_subr_sign_MINUS g fuel h environment arguments = .ok (g.lisp_NIL, h)) := by
  have hNIL : lisp_fixnump g g.lisp_NIL = g.lisp_NIL := by
    rw [lisp_fixnump_eq_NIL g hg, hg.NIL_atom]; decide
  refine ⟨?_, ?_⟩
  · intro c cs hcells hall
    subst hcells
    refine ⟨?_, fun r _ hmin hmax => fixnum_round_trip true r hmin hmax⟩
    obtain ⟨hc, _, hrest⟩ := list_cells_head g h arguments c cs hlist
    subst hc
    simp only [List.all_cons, Bool.and_eq_true, decide_eq_true_eq] at hall
    have h1 : ¬ lisp_fixnump g (lisp_cell_car g h c) = g.lisp_NIL := by
      rw [lisp_fixnump_eq_NIL g hg]; simpa using hall.1
    unfold lisp_subr_sign_MINUS
    simp only [h1, ↓reduceIte]
    cases cs with
    | nil =>
      simp only [list_cells, decide_eq_true_eq] at hrest
      simp only [hrest, ↓reduceIte, pure, Except.pure]
    | cons c' cs' =>
      have hne := list_cells_ne_NIL g hg h _ c' cs' hrest
      simp only [hne, ↓reduceIte]
      rw [MINUS_loop_spec g hg h (c' :: cs') _ _ fuel hrest
        (by simp only [List.length_cons] at hfuel ⊢; omega)]
      simp only [hall.2, ↓reduceIte, bind, Except.bind, pure, Except.pure]
      simp only [reduceCtorEq, ↓reduceIte]
      rw [foldl_sub_eq]
  · intro hcase
    cases cells with
    | nil =>
      simp only [list_cells, decide_eq_true_eq] at hlist
      subst hlist
      unfold lisp_subr_sign_MINUS
      simp [(lisp_cell_car_NIL_eq g hg h).1, hNIL, pure, Except.pure]
    | cons c cs =>
      have hnot : (c :: cs).all (fun c =>
          decide (lisp_object_get_tag (lisp_cell_car g h c) = lisp_tag_fixnum)) = false := by
        rcases hcase with e | e
        · cases e
        · exact e
      obtain ⟨hc, _, hrest⟩ := list_cells_head g h arguments c cs hlist
      subst hc
      unfold lisp_subr_sign_MINUS
      by_cases hfix : lisp_object_get_tag (lisp_cell_car g h c) = lisp_tag_fixnum
      · have h1 : ¬ lisp_fixnump g (lisp_cell_car g h c) = g.lisp_NIL := by
          rw [lisp_fixnump_eq_NIL g hg]; simpa using hfix
        simp only [h1, ↓reduceIte]
        simp only [List.all_cons, hfix, decide_True, Bool.true_and] at hnot
        cases cs with
        | nil => simp at hnot
        | cons c' cs' =>
          have hne := list_cells_ne_NIL g hg h _ c' cs' hrest
          simp only [hne, ↓reduceIte]
          rw [MINUS_loop_spec g hg h (c' :: cs') _ _ fuel hrest
            (by simp only [List.length_cons] at hfuel ⊢; omega)]
          simp [hnot, bind, Except.bind, pure, Except.pure]
      · have h1 : lisp_fixnump g (lisp_cell_car g h c) = g.lisp_NIL := by
          rw [lisp_fixnump_eq_NIL g hg]; exact hfix
        simp [h1, pure, Except.pure]

set_option maxRecDepth 100000 in
/-- C19 on the argument list `(1 -2 -3 4)` of
`test_evaluating_MINUS_with_n_arguments`: the `-` subr returns the fixnum 2. -/
theorem C19_MINUS_negates_or_subtracts_witness :
    lisp_subr_sign_MINUS example_root.g 8 (example_fixnum_list [1, -2, -3, 4]).2
        example_root.environment (example_fixnum_list [1, -2, -3, 4]).1
      = .ok (lisp_fixnum_create true 2, (example_fixnum_list [1, -2, -3, 4]).2) := by
  have H : list_cells example_root.g (example_fixnum_list [1, -2, -3, 4]).2
        (example_fixnum_list [1, -2, -3, 4]).1 (example_fixnum_cells [1, -2, -3, 4]) = true
      ∧ (example_fixnum_cells [1, -2, -3, 4]).length < 8
      ∧ (example_fixnum_cells [1, -2, -3, 4]).all (fun c =>
          decide (lisp_object_get_tag (lisp_cell_car example_root.g
            (example_fixnum_list [1, -2, -3, 4]).2 c) = lisp_tag_fixnum)) = true
      ∧ (2 : Int) = (if (example_fixnum_cells [1, -2, -3, 4]).tail = []
          then - lisp_fixnum_get_value true (lisp_cell_car example_root.g
            (example_fixnum_list [1, -2, -3, 4]).2 ((example_fixnum_cells [1, -2, -3, 4]).headD 0))
          else ((example_fixnum_cells [1, -2, -3, 4]).tail.map (fun c =>
            lisp_fixnum_get_value true (lisp_cell_car example_root.g
              (example_fixnum_list [1, -2, -3, 4]).2 c))).foldl (· - ·)
            (lisp_fixnum_get_value true (lisp_cell_car example_root.g
              (example_fixnum_list [1, -2, -3, 4]).2
              ((example_fixnum_cells [1, -2, -3, 4]).headD 0))))
      ∧ example_fixnum_cells [1, -2, -3, 4]
          = (example_fixnum_cells [1, -2, -3, 4]).headD 0
              :: (example_fixnum_cells [1, -2, -3, 4]).tail := by
    decide!
  have h := ((C19_MINUS_negates_or_subtracts example_root.g example_root_globals_wf
    (example_fixnum_list [1, -2, -3, 4]).2 example_root.environment
    (example_fixnum_list [1, -2, -3, 4]).1 (example_fixnum_cells [1, -2, -3, 4]) 8
    H.1 H.2.1).1 _ _ H.2.2.2.2 (H.2.2.2.2 ▸ H.2.2.1)).1
  rw [← H.2.2.2.1] at h
  exact h

/-! ## The special form `AND` -/

theorem until_NIL_stable_mono (g : lisp_globals) (ev : lisp_eval_fn) (environment : Nat)
    (P Q : List Nat) (hPQ : ∀ a ∈ P, a ∈ Q) :
    ∀ (forms : List Nat) (H : lisp_heap),
      until_NIL_stable g ev environment Q forms H = true →
      until_NIL_stable g ev environment P forms H = true := by
  intro forms
  induction forms with
  | nil => intro H _; rfl
  | cons f fs ih =>
    intro H hst
    simp only [until_NIL_stable] at hst ⊢
    cases hev : ev H environment f with
    | error e => rfl
    | ok r =>
      obtain ⟨v, h1⟩ := r
      rw [hev] at hst
      simp only [Bool.and_eq_true, Bool.or_eq_true, List.all_eq_true, decide_eq_true_eq] at hst ⊢
      refine ⟨fun a ha => hst.1 a (hPQ a ha), ?_⟩
      rcases hst.2 with e | e
      · exact Or.inl e
      · exact Or.inr (ih h1 e)

theorem AND_loop_spec (g : lisp_globals) (hg : globals_wf g) (ev : lisp_eval_fn)
    (environment : Nat) :
    ∀ (cs : List Nat) (c : Nat) (H : lisp_heap) (result : Nat) (fuel : Nat),
      list_cells g H c (c :: cs) = true →
      until_NIL_stable g ev environment ((c :: cs).map lisp_object_get_raw_value)
        ((c :: cs).map (lisp_cell_car g H)) H = true →
      cs.length < fuel →
      lisp_eval_AND_loop g ev fuel H environment c
        = eval_until_NIL g ev environment ((c :: cs).map (lisp_cell_car g H)) H result := by
  intro cs
  induction cs with
  | nil =>
    intro c H result fuel hl hst hfuel
    obtain ⟨n, rfl⟩ : ∃ n, fuel = n + 1 := ⟨fuel - 1, by omega⟩
    obtain ⟨_, _, hrest⟩ := list_cells_head g H c c [] hl
    simp only [list_cells, decide_eq_true_eq] at hrest
    rw [lisp_eval_AND_loop]
    simp only [List.map_cons, List.map_nil, eval_until_NIL, bind, Except.bind]
    simp only [List.map_cons, List.map_nil, until_NIL_stable] at hst
    cases hev : ev H environment (lisp_cell_car g H c) with
    | error e => rfl
    | ok r =>
      obtain ⟨v, h1⟩ := r
      rw [hev] at hst
      simp only [Bool.and_eq_true, List.all_eq_true, decide_eq_true_eq, List.mem_singleton,
        forall_eq] at hst
      simp only
      have hcdr := (lisp_cell_car_congr g H h1 c hst.1).2
      rw [hcdr, hrest]
      by_cases hv : v = g.lisp_NIL
      · simp [hv]
      · simp [hv, pure, Except.pure]
  | cons c' cs ih =>
    intro c H result fuel hl hst hfuel
    obtain ⟨n, rfl⟩ : ∃ n, fuel = n + 1 := ⟨fuel - 1, by omega⟩
    obtain ⟨_, _, hrest⟩ := list_cells_head g H c c (c' :: cs) hl
    have hne := list_cells_ne_NIL g hg H _ c' cs hrest
    obtain ⟨hc', _, _⟩ := list_cells_head g H _ c' cs hrest
    rw [lisp_eval_AND_loop]
    rw [List.map_cons, eval_until_NIL]
    simp only [List.map_cons, until_NIL_stable] at hst
    simp only [bind, Except.bind]
    cases hev : ev H environment (lisp_cell_car g H c) with
    | error e => rfl
    | ok r =>
      obtain ⟨v, h1⟩ := r
      rw [hev] at hst
      simp only [Bool.and_eq_true, Bool.or_eq_true, List.all_eq_true, decide_eq_true_eq] at hst
      obtain ⟨hsame, hst'⟩ := hst
      simp only
      by_cases hv : v = g.lisp_NIL
      · simp [hv]
      · simp only [hv, ↓reduceIte]
        have hst2 := hst'.resolve_left hv
        have hcdr := (lisp_cell_car_congr g H h1 c
          (hsame _ (by simp))).2
        rw [hcdr]
        simp only [ne_eq, hne, not_false_eq_true, ↓reduceIte]
        have hsame' : ∀ x ∈ c' :: cs, heap_read h1 (lisp_object_get_raw_value x)
            = heap_read H (lisp_object_get_raw_value x) := by
          intro x hx
          exact hsame _ (List.mem_map_of_mem _ (List.mem_cons_of_mem _ hx))
        have hmap : (c' :: cs).map (lisp_cell_car g h1) = (c' :: cs).map (lisp_cell_car g H) := by
          apply List.map_congr_left
          intro x hx
          exact (lisp_cell_car_congr g H h1 x (hsame' x hx)).1
        have hl1 : list_cells g h1 (lisp_cell_cdr g H c) (c' :: cs) = true := by
          rw [list_cells_congr g H h1 (c' :: cs) _ hsame']
          exact hrest
        rw [← hc'] at hl1 ⊢
        rw [ih c' h1 v n hl1
          (by
            rw [hmap]
            exact until_NIL_stable_mono g ev environment _ _
              (fun a ha => List.mem_cons_of_mem _ ha) _ _ hst2)
          (by simp only [List.length_cons] at hfuel; omega)]
        rw [hmap]

/-- Claim C15: `lisp_eval_AND` on a form whose argument forms are the elements
of a proper list returns `T` when there is no argument form; otherwise it
evaluates the forms from left to right, each once and each in the heap the
previous one left, returns `NIL` as soon as one evaluates to `NIL` without
evaluating the forms after it, and returns the value of the last form when
none evaluates to `NIL` (this is `eval_until_NIL` started with `T`). -/
theorem C15_AND_short_circuits (g : lisp_globals) (hg : globals_wf g) (ev : lisp_eval_fn)
    (environment cell : lisp_object_t) (h : lisp_heap) (cells : List lisp_object_t)
    (fuel : Nat)
    (hlist : list_cells g h (lisp_cell_cdr g h cell) cells = true)
    (hstable : until_NIL_stable g ev environment (cells.map lisp_object_get_raw_value)
      (cells.map (lisp_cell_car g h)) h = true)
    (hfuel : cells.length ≤ fuel) :
    lisp_eval_AND g ev fuel h environment cell
      = eval_until_NIL g ev environment (cells.map (lisp_cell_car g h)) h g.lisp_T := by
  unfold lisp_eval_AND
  cases cells with
  | nil =>
    simp only [list_cells, decide_eq_true_eq] at hlist
    simp [hlist, eval_until_NIL]
  | cons c cs =>
    have hne := list_cells_ne_NIL g hg h _ c cs hlist
    obtain ⟨hc, _, _⟩ := list_cells_head g h _ c cs hlist
    simp only [hne, ↓reduceIte]
    rw [← hc] at hlist ⊢
    exact AND_loop_spec g hg ev environment cs c h g.lisp_T fuel hlist hstable
      (by simp only [List.length_cons] at hfuel; omega)

theorem run_value_eq {α : Type} (r s : Run (α × lisp_heap)) (e : r = s) :
    run_value r = run_value s := by
  rw [e]

set_option maxRecDepth 100000 in
/-- C15 on the form `(AND T 'X NIL 'Y)` evaluated by `lisp_eval`: the value is
`NIL`, the value of the third form. -/
theorem C15_AND_short_circuits_witness :
    run_value (lisp_eval_AND example_interpreter.g (lisp_eval example_interpreter.g 16) 4
        example_AND.2 example_interpreter.environment example_AND.1)
      = some example_interpreter.g.lisp_NIL := by
  have H : list_cells example_interpreter.g example_AND.2
        (lisp_cell_cdr example_interpreter.g example_AND.2 example_AND.1) example_AND_cells = true
      ∧ until_NIL_stable example_interpreter.g (lisp_eval example_interpreter.g 16)
          example_interpreter.environment (example_AND_cells.map lisp_object_get_raw_value)
          (example_AND_cells.map (lisp_cell_car example_interpreter.g example_AND.2))
          example_AND.2 = true
      ∧ example_AND_cells.length ≤ 4
      ∧ run_value (eval_until_NIL example_interpreter.g (lisp_eval example_interpreter.g 16)
          example_interpreter.environment
          (example_AND_cells.map (lisp_cell_car example_interpreter.g example_AND.2))
          example_AND.2 example_interpreter.g.lisp_T) = some example_interpreter.g.lisp_NIL := by
    decide!
  rw [C15_AND_short_circuits example_interpreter.g example_interpreter_globals_wf
    (lisp_eval example_interpreter.g 16) example_interpreter.environment example_AND.1
    example_AND.2 example_AND_cells 4 H.1 H.2.1 H.2.2.1]
  exact H.2.2.2

/-! ## Forms on which the code departs from its documentation -/

set_option maxRecDepth 100000 in
/-- Claim C11 at the failing input `(COND (T))`: the test `T` evaluates to `T`,
which is not `NIL`, the clause has no body form, and `lisp_eval` returns `NIL`
instead of the value of the test; with a body form, `(COND (T 5))` returns the
value 5 of that form. -/
theorem C11_COND_without_body_returns_NIL :
    run_value example_COND
        = some (example_sforms.g.lisp_NIL, lisp_fixnum_create true 5, example_sforms.g.lisp_T)
      ∧ example_sforms.g.lisp_T ≠ example_sforms.g.lisp_NIL := by
  decide!

set_option maxRecDepth 100000 in
/-- Claim C16 at the failing input `(BLOCK B)` evaluated after `(SETQ NIL 5)`:
the form has no body form, and `lisp_eval` returns the fixnum 5, the value of
the atom `NIL` in the environment, instead of `NIL`; before the `SETQ` the
same form returns `NIL`. -/
theorem C16_BLOCK_without_body_evaluates_NIL :
    run_value example_BLOCK
        = some (example_sforms.g.lisp_NIL, lisp_fixnum_create true 5, lisp_fixnum_create true 5)
      ∧ lisp_fixnum_create true 5 ≠ example_sforms.g.lisp_NIL := by
  decide!

set_option maxRecDepth 100000 in
/-- Claim C20 at the failing input `(MEMBER NIL NIL)`: the list is empty, and
`lisp_subr_MEMBER` returns `T` instead of `NIL`; it returns `NIL` for the
fixnum 5 and the empty list, and for `NIL` and the list `(5)`. -/
theorem C20_MEMBER_NIL_in_empty_list_is_T :
    run_value example_MEMBER
        = some (example_root.g.lisp_T, example_root.g.lisp_NIL, example_root.g.lisp_NIL)
      ∧ example_root.g.lisp_T ≠ example_root.g.lisp_NIL := by
  decide!

/-- The call of `lisp_plist_create` without the terminating `NULL` reads an
argument that was not passed: `lisp_tagbody_create_plist` faults there, for
every heap and every form. -/
theorem tagbody_create_plist_faults (g : lisp_globals) (fuel : Nat) (h : lisp_heap)
    (environment cell : lisp_object_t) :
    lisp_tagbody_create_plist g fuel h environment cell = .error lisp_error.fault := by
  unfold lisp_tagbody_create_plist lisp_plist_create
  simp only [lisp_plist_create_loop, bind, Except.bind]

set_option maxRecDepth 100000 in
/-- The forms `(TAGBODY)` and `(TAGBODY 5)` of `example_TAGBODY` both end in
the fault. -/
theorem example_TAGBODY_faults :
    run_faulted example_TAGBODY.1 = true ∧ run_faulted example_TAGBODY.2 = true := by
  decide!

/-- Claim C17 at the failing inputs, every `TAGBODY` form: `lisp_eval_TAGBODY`
does not return `NIL`.  Its first step, `lisp_tagbody_create_plist`, calls
`lisp_plist_create` with one argument and no terminating `NULL`, so the
function reads an argument that was not passed; the evaluation ends there,
whatever the evaluator, the heap, the environment and the form are.  In the
environment of `example_tagbody`, `lisp_eval` of `(TAGBODY)` and of
`(TAGBODY 5)` ends in that fault. -/
theorem C17_TAGBODY_does_not_return_NIL :
    (∀ (g : lisp_globals) (ev : lisp_eval_fn) (fuel : Nat) (h : lisp_heap)
        (environment cell : lisp_object_t),
        lisp_eval_TAGBODY g ev fuel h environment cell = .error lisp_error.fault)
      ∧ run_faulted example_TAGBODY.1 = true
      ∧ run_faulted example_TAGBODY.2 = true := by
  refine ⟨?_, example_TAGBODY_faults.1, example_TAGBODY_faults.2⟩
  intro g ev fuel h environment cell
  unfold lisp_eval_TAGBODY
  simp only [tagbody_create_plist_faults, bind, Except.bind]

set_option maxRecDepth 100000 in
/-- Claim C7 as stated fails for a character above the codes of one byte: the
list whose one element is the character with codepoint 300 is printed as
`(#\,)`, the text of the character with codepoint 44, and the list read back
is not `lisp_equal` to it; the list whose element is the character `a` is
printed as `(#\a)` and reads back equal. -/
theorem C7_character_300_counterexample :
    run_value (example_round_trip (lisp_char_create 300)) = some (c_str "(#\\,)", false)
      ∧ run_value (example_round_trip (lisp_char_create 97)) = some (c_str "(#\\a)", true)
      ∧ lisp_object_get_tag (lisp_char_create 300) = lisp_tag_char
      ∧ lisp_char_get_value (lisp_char_create 300) = 300 := by
  decide!


/-! ## Stores into cells -/

theorem tag_cell_iff (c : Nat) : lisp_object_get_tag c = lisp_tag_cell ↔ c % 16 = 0 := by
  rw [lisp_object_get_tag_eq]; rfl

theorem heap_update_refl (g : lisp_globals) (h : lisp_heap) : heap_update g h h [] [] :=
  ⟨fun _ _ => rfl, fun _ _ _ => rfl, fun _ => rfl⟩

theorem heap_update_trans (g : lisp_globals) (h1 h2 h3 : lisp_heap)
    (W1 F1 W2 F2 : List Nat) (u1 : heap_update g h1 h2 W1 F1) (u2 : heap_update g h2 h3 W2 F2) :
    heap_update g h1 h3 (W1 ++ W2) (F1 ++ F2) := by
  refine ⟨fun x hx => ?_, fun x hx hw => ?_, fun x => ?_⟩
  · rw [u2.car_eq x (fun e => hx (List.mem_append_right _ e)),
      u1.car_eq x (fun e => hx (List.mem_append_left _ e))]
  · rw [u2.cdr_eq x (fun e => hx (List.mem_append_right _ e))
        (fun e => hw (List.mem_append_right _ e)),
      u1.cdr_eq x (fun e => hx (List.mem_append_left _ e))
        (fun e => hw (List.mem_append_left _ e))]
  · rw [u2.name_eq, u1.name_eq]

theorem heap_update_mono (g : lisp_globals) (h1 h2 : lisp_heap) (W F W' F' : List Nat)
    (u : heap_update g h1 h2 W F) (hW : ∀ x ∈ W, x ∈ W') (hF : ∀ x ∈ F, x ∈ F') :
    heap_update g h1 h2 W' F' :=
  ⟨fun x hx => u.car_eq x (fun e => hx (hF x e)),
   fun x hx hw => u.cdr_eq x (fun e => hx (hF x e)) (fun e => hw (hW x e)),
   u.name_eq⟩

theorem get_value_congr (h h' : lisp_heap) (x : Nat)
    (e : heap_read h' (lisp_object_get_raw_value x) = heap_read h (lisp_object_get_raw_value x)) :
    lisp_cell_get_value h' x = lisp_cell_get_value h x := by
  unfold lisp_cell_get_value
  rw [e]

theorem get_value_of_read (h : lisp_heap) (x a b : Nat)
    (e : heap_read h (lisp_object_get_raw_value x) = some (lisp_record.cell a b)) :
    lisp_cell_get_value h x = some (a, b) := by
  unfold lisp_cell_get_value
  rw [e]

theorem read_of_get_value (h : lisp_heap) (x a b : Nat)
    (e : lisp_cell_get_value h x = some (a, b)) :
    heap_read h (lisp_object_get_raw_value x) = some (lisp_record.cell a b) := by
  unfold lisp_cell_get_value at e
  cases hr : heap_read h (lisp_object_get_raw_value x) with
  | none => rw [hr] at e; cases e
  | some r =>
    rw [hr] at e
    cases r <;> simp at e
    obtain ⟨rfl, rfl⟩ := e
    rfl

theorem lisp_cell_car_eq_of_get_value (g : lisp_globals) (h h' : lisp_heap) (x : Nat)
    (e : lisp_cellp g x ≠ g.lisp_NIL → lisp_cell_get_value h' x = lisp_cell_get_value h x) :
    lisp_cell_car g h' x = lisp_cell_car g h x ∧ lisp_cell_cdr g h' x = lisp_cell_cdr g h x := by
  unfold lisp_cell_car lisp_cell_cdr
  by_cases h1 : x = g.lisp_NIL
  · simp [h1]
  · by_cases h2 : lisp_cellp g x = g.lisp_NIL
    · simp [h1, h2]
    · simp [h1, h2, e h2]

theorem lisp_cell_car_of_get_value (g : lisp_globals) (hg : globals_wf g) (h : lisp_heap)
    (c a b : Nat) (hc : c % 16 = 0) (hv : lisp_cell_get_value h c = some (a, b)) :
    lisp_cell_car g h c = a ∧ lisp_cell_cdr g h c = b := by
  have hne : c ≠ g.lisp_NIL := aligned_ne_NIL g hg c hc
  have hcp : ¬ (lisp_cellp g c = g.lisp_NIL) := by
    rw [lisp_cellp_eq_NIL g hg]; simp [hc]
  unfold lisp_cell_car lisp_cell_cdr
  simp [hne, hcp, hv]

/-- Replacing the `CDR` of a cell keeps every `CAR`, every other `CDR` and
every atom name. -/
theorem rplacd_heap_update (g : lisp_globals) (hg : globals_wf g) (h : lisp_heap)
    (w v : Nat) (hw : w % 16 = 0) (hv : (lisp_cell_get_value h w).isSome = true) :
    lisp_cell_rplacd h w v = .ok (w, rplacd_heap g h w v)
      ∧ heap_update g h (rplacd_heap g h w v) [w] []
      ∧ lisp_cell_cdr g (rplacd_heap g h w v) w = v
      ∧ (rplacd_heap g h w v).lisp_heap_cur = h.lisp_heap_cur
      ∧ (∀ a, a ≠ w → heap_read (rplacd_heap g h w v) a = heap_read h a)
      ∧ (∀ x, (lisp_cell_get_value (rplacd_heap g h w v) x).isSome
            = (lisp_cell_get_value h x).isSome) := by
  obtain ⟨⟨a, b⟩, hab⟩ := Option.isSome_iff_exists.1 hv
  have hcar := (lisp_cell_car_of_get_value g hg h w a b hw hab).1
  have hraw := raw_value_aligned w hw
  have hread : heap_read h w = some (lisp_record.cell a b) := by
    have := read_of_get_value h w a b hab
    rwa [hraw] at this
  have hgv : ∀ x, lisp_cellp g x ≠ g.lisp_NIL → x ≠ w →
      lisp_cell_get_value (rplacd_heap g h w v) x = lisp_cell_get_value h x := by
    intro x hx hxw
    have hx16 : x % 16 = 0 := by
      by_contra e
      exact hx ((lisp_cellp_eq_NIL g hg x).2 e)
    apply get_value_congr
    rw [raw_value_aligned x hx16]
    unfold rplacd_heap
    rw [heap_read_write]
    simp [hxw]
  have hgw : lisp_cell_get_value (rplacd_heap g h w v) w = some (a, v) := by
    apply get_value_of_read
    rw [hraw]
    unfold rplacd_heap
    rw [heap_read_write, hcar]
    simp
  refine ⟨?_, ⟨?_, ?_, ?_⟩, ?_, rfl, ?_, ?_⟩
  · unfold lisp_cell_rplacd rplacd_heap
    rw [hab, hraw, hcar]
  · intro x _
    by_cases hxw : x = w
    · subst hxw
      rw [(lisp_cell_car_of_get_value g hg _ x a v hw hgw).1, hcar]
    · exact (lisp_cell_car_eq_of_get_value g h _ x (fun hx => hgv x hx hxw)).1
  · intro x _ hxw
    have hxw' : x ≠ w := by simpa using hxw
    exact (lisp_cell_car_eq_of_get_value g h _ x (fun hx => hgv x hx hxw')).2
  · intro x
    unfold lisp_atom_get_value rplacd_heap
    rw [heap_read_write]
    by_cases e : lisp_object_get_raw_value x = w
    · simp [e, hread]
    · simp [e]
  · exact (lisp_cell_car_of_get_value g hg _ w a v hw hgw).2
  · intro a ha
    unfold rplacd_heap
    rw [heap_read_write]
    simp [ha]
  · intro x
    unfold lisp_cell_get_value rplacd_heap
    rw [heap_read_write]
    by_cases e : lisp_object_get_raw_value x = w
    · simp [e, hread]
    · simp [e]

/-- Allocating a cell at a free address keeps the `CAR` and the `CDR` of
every other object, and every atom name. -/
theorem cons_heap_update (g : lisp_globals) (hg : globals_wf g) (h : lisp_heap) (a b : Nat)
    (halign : h.lisp_heap_cur % 16 = 0) (hfree : heap_read h h.lisp_heap_cur = none) :
    heap_update g h (cons_heap h a b) [] [h.lisp_heap_cur]
      ∧ lisp_cell_car g (cons_heap h a b) h.lisp_heap_cur = a
      ∧ lisp_cell_cdr g (cons_heap h a b) h.lisp_heap_cur = b
      ∧ (∀ x, x ≠ h.lisp_heap_cur → heap_read (cons_heap h a b) x = heap_read h x)
      ∧ (∀ x, lisp_object_get_raw_value x ≠ h.lisp_heap_cur →
            lisp_cell_get_value (cons_heap h a b) x = lisp_cell_get_value h x)
      ∧ lisp_cell_get_value (cons_heap h a b) h.lisp_heap_cur = some (a, b) := by
  have hgv : ∀ x, lisp_cellp g x ≠ g.lisp_NIL → x ≠ h.lisp_heap_cur →
      lisp_cell_get_value (cons_heap h a b) x = lisp_cell_get_value h x := by
    intro x hx hxw
    have hx16 : x % 16 = 0 := by
      by_contra e
      exact hx ((lisp_cellp_eq_NIL g hg x).2 e)
    apply get_value_congr
    rw [raw_value_aligned x hx16, cons_heap_read]
    simp [hxw]
  have hnew := lisp_cell_car_cell g hg (cons_heap h a b) h.lisp_heap_cur a b halign
    (by rw [cons_heap_read]; simp)
  refine ⟨⟨?_, ?_, ?_⟩, hnew.1, hnew.2, ?_, ?_, ?_⟩
  · intro x hx
    have hx' : x ≠ h.lisp_heap_cur := by simpa using hx
    exact (lisp_cell_car_eq_of_get_value g h _ x (fun e => hgv x e hx')).1
  · intro x hx _
    have hx' : x ≠ h.lisp_heap_cur := by simpa using hx
    exact (lisp_cell_car_eq_of_get_value g h _ x (fun e => hgv x e hx')).2
  · intro x
    unfold lisp_atom_get_value
    rw [cons_heap_read]
    by_cases e : lisp_object_get_raw_value x = h.lisp_heap_cur
    · simp [e, hfree]
    · simp [e]
  · intro x hx
    rw [cons_heap_read]
    simp [hx]
  · intro x hx
    apply get_value_congr
    rw [cons_heap_read]
    simp [hx]
  · apply get_value_of_read
    rw [raw_value_aligned _ halign, cons_heap_read]
    simp

/-! ## Views of a property list across a store -/

theorem atom_key_equal_update (g : lisp_globals) (h h' : lisp_heap) (W F : List Nat)
    (u : heap_update g h h' W F) (s k : Nat) :
    atom_key_equal h' s k = atom_key_equal h s k := by
  unfold atom_key_equal
  rw [u.name_eq, u.name_eq]

theorem plist_spine_update (g : lisp_globals) (h h' : lisp_heap) (W F : List Nat)
    (u : heap_update g h h' W F) :
    ∀ (cells : List Nat) (p : Nat), (∀ c ∈ cells, c ∉ F ∧ c ∉ W) →
      plist_spine g h' p cells = plist_spine g h p cells := by
  intro cells
  induction cells with
  | nil => intro p _; rfl
  | cons c cs ih =>
    intro p hc
    have hcc := hc c (List.mem_cons_self _ _)
    cases cs with
    | nil =>
      simp only [plist_spine]
      by_cases e : c = p
      · subst e
        rw [u.cdr_eq c hcc.1 hcc.2]
      · simp [e]
    | cons c' cs' =>
      simp only [plist_spine]
      by_cases e : c = p
      · subst e
        rw [u.cdr_eq c hcc.1 hcc.2, ih _ (fun x hx => hc x (List.mem_cons_of_mem _ hx))]
      · simp [e]

theorem plist_assoc_update (g : lisp_globals) (h h' : lisp_heap) (W F : List Nat)
    (u : heap_update g h h' W F) (s : Nat) :
    ∀ (cells : List Nat), (∀ c ∈ cells, c ∉ F ∧ lisp_cell_car g h c ∉ F) →
      plist_assoc g h' s cells = plist_assoc g h s cells := by
  intro cells
  induction cells with
  | nil => intro _; rfl
  | cons c cs ih =>
    intro hc
    have hcc := hc c (List.mem_cons_self _ _)
    simp only [plist_assoc]
    rw [u.car_eq c hcc.1, u.car_eq _ hcc.2, atom_key_equal_update g h h' W F u,
      ih (fun x hx => hc x (List.mem_cons_of_mem _ hx))]

theorem plist_assoc_mem (g : lisp_globals) (h : lisp_heap) (s : Nat) :
    ∀ (cells : List Nat) (e : Nat), plist_assoc g h s cells = some e →
      e ∈ cells.map (lisp_cell_car g h)
        ∧ atom_key_equal h s (lisp_cell_car g h e) = true := by
  intro cells
  induction cells with
  | nil => intro e he; cases he
  | cons c cs ih =>
    intro e he
    simp only [plist_assoc] at he
    by_cases hk : atom_key_equal h s (lisp_cell_car g h (lisp_cell_car g h c)) = true
    · simp only [hk, ↓reduceIte, Option.some.injEq] at he
      subst he
      exact ⟨by simp, hk⟩
    · simp only [hk, Bool.false_eq_true, ↓reduceIte] at he
      obtain ⟨h1, h2⟩ := ih e he
      exact ⟨List.mem_cons_of_mem _ h1, h2⟩

theorem plist_value_update (g : lisp_globals) (h h' : lisp_heap) (W F : List Nat)
    (u : heap_update g h h' W F) (s : Nat) (cells : List Nat)
    (hc : ∀ c ∈ cells, c ∉ F ∧ lisp_cell_car g h c ∉ F)
    (hw : ∀ e, plist_assoc g h s cells = some e → e ∉ W) :
    plist_value g h' s cells = plist_value g h s cells := by
  unfold plist_value
  rw [plist_assoc_update g h h' W F u s cells hc]
  cases he : plist_assoc g h s cells with
  | none => rfl
  | some e =>
    have hm := (plist_assoc_mem g h s cells e he).1
    obtain ⟨c, hcm, rfl⟩ := List.mem_map.1 hm
    exact u.cdr_eq _ (hc c hcm).2 (hw _ he)

/-- Two keys that are not equal cannot find the same entry. -/
theorem plist_assoc_ne (g : lisp_globals) (h : lisp_heap) (s k : Nat) (cells cells' : List Nat)
    (hk : lisp_object_get_tag k = lisp_tag_atom)
    (hsk : atom_key_equal h s k = false) (e : Nat)
    (h1 : plist_assoc g h s cells = some e) (h2 : plist_assoc g h k cells' = some e) : False := by
  have a1 := (plist_assoc_mem g h s cells e h1).2
  have a2 := (plist_assoc_mem g h k cells' e h2).2
  unfold atom_key_equal at a1 a2 hsk
  simp only [Bool.or_eq_true, Bool.and_eq_true, decide_eq_true_eq, Bool.or_eq_false_iff,
    Bool.and_eq_false_iff, decide_eq_false_iff_not] at a1 a2 hsk
  obtain ⟨hne, hnn⟩ := hsk
  have hnn' : ¬ c_string (lisp_atom_get_value h s) = c_string (lisp_atom_get_value h k) := by
    rcases hnn with e | e
    · exact absurd hk e
    · exact e
  rcases a1 with a1 | a1 <;> rcases a2 with a2 | a2
  · exact hne (a1.trans a2.symm)
  · apply hnn'; rw [a1, a2.2]
  · apply hnn'; rw [a1.2, a2]
  · apply hnn'; rw [a1.2, a2.2]

theorem plist_assoc_append (g : lisp_globals) (h : lisp_heap) (s n : Nat) :
    ∀ (cells : List Nat),
      plist_assoc g h s (cells ++ [n])
        = match plist_assoc g h s cells with
          | some e => some e
          | none =>
            if atom_key_equal h s (lisp_cell_car g h (lisp_cell_car g h n)) then
              some (lisp_cell_car g h n)
            else none := by
  intro cells
  induction cells with
  | nil => simp [plist_assoc]
  | cons c cs ih =>
    simp only [List.cons_append, plist_assoc]
    by_cases hk : atom_key_equal h s (lisp_cell_car g h (lisp_cell_car g h c)) = true
    · simp [hk]
    · simp only [hk, Bool.false_eq_true, ↓reduceIte]
      exact ih

theorem plist_spine_ne_nil (g : lisp_globals) (h : lisp_heap) (p : Nat) (cells : List Nat)
    (hsp : plist_spine g h p cells = true) : cells ≠ [] := by
  intro e
  subst e
  simp [plist_spine] at hsp

theorem plist_spine_snoc (g : lisp_globals) (h h' : lisp_heap) (n : Nat) :
    ∀ (cells : List Nat) (p : Nat), plist_spine g h p cells = true → cells.Nodup →
      (∀ c ∈ cells, c ≠ cells.getLastD 0 → lisp_cell_cdr g h' c = lisp_cell_cdr g h c) →
      lisp_cell_cdr g h' (cells.getLastD 0) = n → n ≠ g.lisp_NIL →
      lisp_cell_cdr g h' n = g.lisp_NIL →
      plist_spine g h' p (cells ++ [n]) = true := by
  intro cells
  induction cells with
  | nil => intro p hsp; simp [plist_spine] at hsp
  | cons c cs ih =>
    intro p hsp hnd hsame hlast hn hnn
    cases cs with
    | nil =>
      simp only [plist_spine, Bool.and_eq_true, decide_eq_true_eq] at hsp
      obtain ⟨rfl, _⟩ := hsp
      simp only [List.getLastD_cons, List.getLastD_nil] at hlast
      simp [plist_spine, hlast, hn, hnn]
    | cons c' cs' =>
      simp only [plist_spine, Bool.and_eq_true, decide_eq_true_eq] at hsp
      obtain ⟨⟨rfl, hcdr⟩, hrest⟩ := hsp
      have hlast_eq : (c :: c' :: cs').getLastD 0 = (c' :: cs').getLastD 0 := by
        simp [List.getLastD]
      have hmem : (c' :: cs').getLastD 0 ∈ c' :: cs' := by
        rw [List.getLastD_eq_getLast?, List.getLast?_eq_getLast _ (by simp)]
        exact List.getLast_mem _
      have hc_ne : c ≠ (c :: c' :: cs').getLastD 0 := by
        rw [hlast_eq]
        intro e
        rw [List.nodup_cons] at hnd
        exact hnd.1 (e ▸ hmem)
      have hcdr' := hsame c (List.mem_cons_self _ _) hc_ne
      simp only [List.cons_append, plist_spine, Bool.and_eq_true, decide_eq_true_eq, true_and]
      rw [hcdr']
      refine ⟨hcdr, ?_⟩
      have := ih _ hrest (List.nodup_cons.1 hnd).2
        (fun x hx hne => hsame x (List.mem_cons_of_mem _ hx) (by rw [hlast_eq]; exact hne))
        (by rw [← hlast_eq]; exact hlast) hn hnn
      simpa using this

/-! ## `lisp_plist_set` -/

theorem cells_allocated_mem (h : lisp_heap) (cells : List Nat) (hal : cells_allocated h cells = true)
    (c : Nat) (hc : c ∈ cells) :
    c % 16 = 0 ∧ c < h.lisp_heap_cur ∧ (lisp_cell_get_value h c).isSome = true := by
  unfold cells_allocated at hal
  rw [List.all_eq_true] at hal
  have := hal c hc
  simp only [Bool.and_eq_true, decide_eq_true_eq] at this
  exact ⟨(tag_cell_iff c).1 this.1.1, this.1.2, this.2⟩

theorem plist_wf_parts (g : lisp_globals) (h : lisp_heap) (cells : List Nat)
    (hwf : plist_wf g h cells = true) :
    cells_allocated h cells = true ∧ cells_allocated h (cells.map (lisp_cell_car g h)) = true
      ∧ (cells ++ cells.map (lisp_cell_car g h)).Nodup := by
  unfold plist_wf at hwf
  simp only [Bool.and_eq_true, decide_eq_true_eq] at hwf
  exact ⟨hwf.1.1, hwf.1.2, hwf.2⟩

theorem getLastD_mem (cells : List Nat) (hne : cells ≠ []) (d : Nat) :
    cells.getLastD d ∈ cells := by
  rw [List.getLastD_eq_getLast?, List.getLast?_eq_getLast _ hne]
  exact List.getLast_mem _

theorem getLastD_irrel (cells : List Nat) (hne : cells ≠ []) (d d' : Nat) :
    cells.getLastD d = cells.getLastD d' := by
  rw [List.getLastD_eq_getLast?, List.getLastD_eq_getLast?, List.getLast?_eq_getLast _ hne]
  rfl

theorem plist_set_found (g : lisp_globals) (hg : globals_wf g) (h : lisp_heap)
    (p symbol value : Nat) (cells : List Nat) (fuel : Nat)
    (hs : lisp_object_get_tag symbol = lisp_tag_atom)
    (hsp : plist_spine g h p cells = true) (hwf : plist_wf g h cells = true)
    (hfuel : cells.length < fuel) (e : Nat) (he : plist_assoc g h symbol cells = some e) :
    lisp_plist_set g fuel h p symbol value = .ok (value, rplacd_heap g h e value)
      ∧ heap_update g h (rplacd_heap g h e value) [e] []
      ∧ plist_spine g (rplacd_heap g h e value) p cells = true
      ∧ plist_assoc g (rplacd_heap g h e value) symbol cells = some e
      ∧ lisp_cell_cdr g (rplacd_heap g h e value) e = value
      ∧ (∀ s, atom_key_equal h s symbol = false →
          plist_value g (rplacd_heap g h e value) s cells = plist_value g h s cells)
      ∧ (rplacd_heap g h e value).lisp_heap_cur = h.lisp_heap_cur
      ∧ (∀ a, a ≠ e → heap_read (rplacd_heap g h e value) a = heap_read h a)
      ∧ e ∈ cells.map (lisp_cell_car g h) ∧ e % 16 = 0 := by
  obtain ⟨hal, hale, hnd⟩ := plist_wf_parts g h cells hwf
  have hem := (plist_assoc_mem g h symbol cells e he).1
  obtain ⟨he16, _, hesome⟩ := cells_allocated_mem h _ hale e hem
  obtain ⟨hrp, hu, hcdr, hcur, hread, _⟩ := rplacd_heap_update g hg h e value he16 hesome
  have he_cells : e ∉ cells := by
    intro hin
    exact (List.nodup_append.1 hnd).2.2 hin hem
  have hassoc : ∀ s, plist_assoc g (rplacd_heap g h e value) s cells = plist_assoc g h s cells :=
    fun s => plist_assoc_update g h _ [e] [] hu s cells (fun c _ => ⟨by simp, by simp⟩)
  refine ⟨?_, hu, ?_, ?_, hcdr, ?_, hcur, hread, hem, he16⟩
  · unfold lisp_plist_set
    rw [plist_find_entry_spec g hg h symbol hs cells p hsp fuel hfuel, he]
    simp only [bind, Except.bind, ↓reduceIte, hrp, pure, Except.pure]
  · rw [plist_spine_update g h _ [e] [] hu cells p
      (fun c hc => ⟨by simp, by
        simp only [List.mem_singleton]
        intro e'
        exact he_cells (e' ▸ hc)⟩)]
    exact hsp
  · rw [hassoc, he]
  · intro s hsk
    apply plist_value_update g h _ [e] [] hu s cells (fun c _ => ⟨by simp, by simp⟩)
    intro e' he' hin
    simp only [List.mem_singleton] at hin
    subst hin
    exact plist_assoc_ne g h s symbol cells cells hs hsk e' he' he

theorem plist_set_append (g : lisp_globals) (hg : globals_wf g) (h : lisp_heap)
    (p symbol value : Nat) (cells : List Nat) (fuel : Nat)
    (hs : lisp_object_get_tag symbol = lisp_tag_atom)
    (hsp : plist_spine g h p cells = true) (hwf : plist_wf g h cells = true)
    (halign : h.lisp_heap_cur % 16 = 0)
    (hfree : heap_read h h.lisp_heap_cur = none ∧ heap_read h (h.lisp_heap_cur + 16) = none)
    (hfuel : cells.length < fuel) (he : plist_assoc g h symbol cells = none) :
    lisp_plist_set g fuel h p symbol value
        = .ok (value, plist_set_heap g h symbol value cells)
      ∧ heap_update g h (plist_set_heap g h symbol value cells) [cells.getLastD 0]
          [h.lisp_heap_cur, h.lisp_heap_cur + 16]
      ∧ plist_spine g (plist_set_heap g h symbol value cells) p
          (cells ++ [h.lisp_heap_cur + 16]) = true
      ∧ plist_assoc g (plist_set_heap g h symbol value cells) symbol
          (cells ++ [h.lisp_heap_cur + 16]) = some h.lisp_heap_cur
      ∧ lisp_cell_car g (plist_set_heap g h symbol value cells) h.lisp_heap_cur = symbol
      ∧ lisp_cell_cdr g (plist_set_heap g h symbol value cells) h.lisp_heap_cur = value
      ∧ (∀ s, atom_key_equal h s symbol = false →
          plist_value g (plist_set_heap g h symbol value cells) s
            (cells ++ [h.lisp_heap_cur + 16]) = plist_value g h s cells)
      ∧ (plist_set_heap g h symbol value cells).lisp_heap_cur = h.lisp_heap_cur + 32
      ∧ (∀ a, a ≠ cells.getLastD 0 → a ≠ h.lisp_heap_cur → a ≠ h.lisp_heap_cur + 16 →
          heap_read (plist_set_heap g h symbol value cells) a = heap_read h a)
      ∧ cells.getLastD 0 ∈ cells := by
  obtain ⟨hal, hale, hnd⟩ := plist_wf_parts g h cells hwf
  have hne := plist_spine_ne_nil g h p cells hsp
  have hlm := getLastD_mem cells hne 0
  obtain ⟨hl16, hllt, hlsome⟩ := cells_allocated_mem h _ hal _ hlm
  have hheap : plist_set_heap g h symbol value cells
      = rplacd_heap g (cons_heap (cons_heap h symbol value) h.lisp_heap_cur g.lisp_NIL)
          (cells.getLastD 0) (h.lisp_heap_cur + 16) := by
    unfold plist_set_heap
    rw [he]
  rw [hheap]
  -- first allocation
  obtain ⟨u1, hcar1, hcdr1, hread1, hgv1, _⟩ :=
    cons_heap_update g hg h symbol value halign hfree.1
  have hcur1 : (cons_heap h symbol value).lisp_heap_cur = h.lisp_heap_cur + 16 := rfl
  -- second allocation
  have hfree2 : heap_read (cons_heap h symbol value) (cons_heap h symbol value).lisp_heap_cur
      = none := by
    rw [hcur1, hread1 _ (by omega)]
    exact hfree.2
  obtain ⟨u2, hcar2, hcdr2, hread2, hgv2, _⟩ :=
    cons_heap_update g hg (cons_heap h symbol value) h.lisp_heap_cur g.lisp_NIL
      (by rw [hcur1]; omega) hfree2
  rw [hcur1] at u2 hcar2 hcdr2 hread2 hgv2
  -- the store
  have hraw_last := raw_value_aligned _ hl16
  have hlsome2 : (lisp_cell_get_value
      (cons_heap (cons_heap h symbol value) h.lisp_heap_cur g.lisp_NIL)
      (cells.getLastD 0)).isSome = true := by
    rw [hgv2 _ (by rw [hraw_last]; omega), hgv1 _ (by rw [hraw_last]; omega)]
    exact hlsome
  obtain ⟨hrp, u3, hcdr3, hcur3, hread3, _⟩ :=
    rplacd_heap_update g hg (cons_heap (cons_heap h symbol value) h.lisp_heap_cur g.lisp_NIL)
      (cells.getLastD 0) (h.lisp_heap_cur + 16) hl16 hlsome2
  have u : heap_update g h
      (rplacd_heap g (cons_heap (cons_heap h symbol value) h.lisp_heap_cur g.lisp_NIL)
        (cells.getLastD 0) (h.lisp_heap_cur + 16))
      [cells.getLastD 0] [h.lisp_heap_cur, h.lisp_heap_cur + 16] := by
    have := heap_update_trans g _ _ _ _ _ _ _ (heap_update_trans g _ _ _ _ _ _ _ u1 u2) u3
    simpa using this
  have hB_ne : h.lisp_heap_cur ≠ cells.getLastD 0 := by omega
  have hB16_ne : h.lisp_heap_cur + 16 ≠ cells.getLastD 0 := by omega
  have hcarB : lisp_cell_car g
      (rplacd_heap g (cons_heap (cons_heap h symbol value) h.lisp_heap_cur g.lisp_NIL)
        (cells.getLastD 0) (h.lisp_heap_cur + 16)) h.lisp_heap_cur = symbol := by
    rw [u3.car_eq _ (by simp), u2.car_eq _ (by simp), hcar1]
  have hcdrB : lisp_cell_cdr g
      (rplacd_heap g (cons_heap (cons_heap h symbol value) h.lisp_heap_cur g.lisp_NIL)
        (cells.getLastD 0) (h.lisp_heap_cur + 16)) h.lisp_heap_cur = value := by
    rw [u3.cdr_eq _ (by simp) (by simpa using hB_ne), u2.cdr_eq _ (by simp) (by simp), hcdr1]
  have hcarB16 : lisp_cell_car g
      (rplacd_heap g (cons_heap (cons_heap h symbol value) h.lisp_heap_cur g.lisp_NIL)
        (cells.getLastD 0) (h.lisp_heap_cur + 16)) (h.lisp_heap_cur + 16)
        = h.lisp_heap_cur := by
    rw [u3.car_eq _ (by simp), hcar2]
  have hcdrB16 : lisp_cell_cdr g
      (rplacd_heap g (cons_heap (cons_heap h symbol value) h.lisp_heap_cur g.lisp_NIL)
        (cells.getLastD 0) (h.lisp_heap_cur + 16)) (h.lisp_heap_cur + 16)
        = g.lisp_NIL := by
    rw [u3.cdr_eq _ (by simp) (by simpa using hB16_ne), hcdr2]
  have hold : ∀ c ∈ cells, c ∉ [h.lisp_heap_cur, h.lisp_heap_cur + 16]
      ∧ lisp_cell_car g h c ∉ [h.lisp_heap_cur, h.lisp_heap_cur + 16] := by
    intro c hc
    have h1 := (cells_allocated_mem h _ hal c hc).2.1
    have h2 := (cells_allocated_mem h _ hale _ (List.mem_map_of_mem _ hc)).2.1
    simp only [List.mem_cons, List.mem_singleton, List.not_mem_nil, or_false, not_or]
    exact ⟨⟨by omega, by omega⟩,
      ⟨Nat.ne_of_lt h2, Nat.ne_of_lt (Nat.lt_of_lt_of_le h2 (Nat.le_add_right _ _))⟩⟩
  have hassoc_old : ∀ s, plist_assoc g
      (rplacd_heap g (cons_heap (cons_heap h symbol value) h.lisp_heap_cur g.lisp_NIL)
        (cells.getLastD 0) (h.lisp_heap_cur + 16)) s cells = plist_assoc g h s cells :=
    fun s => plist_assoc_update g h _ _ _ u s cells hold
  have hkey : ∀ s, atom_key_equal
      (rplacd_heap g (cons_heap (cons_heap h symbol value) h.lisp_heap_cur g.lisp_NIL)
        (cells.getLastD 0) (h.lisp_heap_cur + 16)) s symbol = atom_key_equal h s symbol :=
    fun s => atom_key_equal_update g h _ _ _ u s symbol
  refine ⟨?_, u, ?_, ?_, hcarB, hcdrB, ?_, ?_, ?_, hlm⟩
  · unfold lisp_plist_set
    rw [plist_find_entry_spec g hg h symbol hs cells p hsp fuel hfuel, he]
    simp only [bind, Except.bind, Bool.false_eq_true, ↓reduceIte, lisp_cell_cons_heap, hcur1]
    rw [getLastD_irrel cells hne p 0, hrp]
    rfl
  · apply plist_spine_snoc g h _ (h.lisp_heap_cur + 16) cells p hsp
      (List.nodup_append.1 hnd).1
    · intro c hc hcl
      exact u.cdr_eq c (hold c hc).1 (by simpa using hcl)
    · exact hcdr3
    · exact aligned_ne_NIL g hg _ (by omega)
    · exact hcdrB16
  · rw [plist_assoc_append, hassoc_old, he]
    simp only [hcarB16, hcarB, hkey, atom_key_equal_self, ↓reduceIte]
  · intro s hsk
    unfold plist_value
    rw [plist_assoc_append, hassoc_old]
    cases hs' : plist_assoc g h s cells with
    | some e' =>
      simp only
      have hm := (plist_assoc_mem g h s cells e' hs').1
      obtain ⟨c, hcm, rfl⟩ := List.mem_map.1 hm
      apply u.cdr_eq _ (hold c hcm).2
      simp only [List.mem_singleton]
      intro e
      exact (List.nodup_append.1 hnd).2.2 hlm (e ▸ hm)
    | none =>
      simp only [hcarB16, hcarB, hkey, hsk, Bool.false_eq_true, ↓reduceIte]
  · rw [hcur3]
    rfl
  · intro a h1 h2 h3
    rw [hread3 a h1, hread2 a h3, hread1 a h2]

/-! ## `lisp_plist_set`, both cases -/

theorem heap_free_at (h : lisp_heap) (n i : Nat) (hf : heap_free h n = true) (hi : i < n) :
    heap_read h (h.lisp_heap_cur + 16 * i) = none := by
  unfold heap_free at hf
  rw [List.all_eq_true] at hf
  have := hf i (List.mem_range.2 hi)
  simpa using this

theorem plist_set_spec (g : lisp_globals) (hg : globals_wf g) (h : lisp_heap)
    (p symbol value : Nat) (cells : List Nat) (fuel : Nat)
    (hs : lisp_object_get_tag symbol = lisp_tag_atom)
    (hsp : plist_spine g h p cells = true) (hwf : plist_wf g h cells = true)
    (halign : h.lisp_heap_cur % 16 = 0)
    (hfree : heap_read h h.lisp_heap_cur = none ∧ heap_read h (h.lisp_heap_cur + 16) = none)
    (hfuel : cells.length < fuel) :
    lisp_plist_set g fuel h p symbol value
        = .ok (value, plist_set_heap g h symbol value cells)
      ∧ heap_update g h (plist_set_heap g h symbol value cells)
          [plist_set_written g h symbol cells] [h.lisp_heap_cur, h.lisp_heap_cur + 16]
      ∧ plist_spine g (plist_set_heap g h symbol value cells) p
          (plist_set_cells g h symbol cells) = true
      ∧ plist_assoc g (plist_set_heap g h symbol value cells) symbol
          (plist_set_cells g h symbol cells) = some (plist_set_entry g h symbol cells)
      ∧ lisp_cell_cdr g (plist_set_heap g h symbol value cells)
          (plist_set_entry g h symbol cells) = value
      ∧ (∀ s, atom_key_equal h s symbol = false →
          plist_value g (plist_set_heap g h symbol value cells) s
            (plist_set_cells g h symbol cells) = plist_value g h s cells)
      ∧ h.lisp_heap_cur ≤ (plist_set_heap g h symbol value cells).lisp_heap_cur
      ∧ (plist_set_heap g h symbol value cells).lisp_heap_cur ≤ h.lisp_heap_cur + 32
      ∧ (plist_set_heap g h symbol value cells).lisp_heap_cur % 16 = 0
      ∧ (∀ a : Nat, a ≠ plist_set_written g h symbol cells → a ≠ h.lisp_heap_cur →
          a ≠ h.lisp_heap_cur + 16 →
          heap_read (plist_set_heap g h symbol value cells) a = heap_read h a)
      ∧ plist_set_written g h symbol cells ∈ cells ++ cells.map (lisp_cell_car g h)
      ∧ plist_set_entry g h symbol cells % 16 = 0
      ∧ (plist_set_cells g h symbol cells).length ≤ cells.length + 1
      ∧ (plist_assoc g h symbol cells = none → plist_set_entry g h symbol cells = h.lisp_heap_cur
          ∧ lisp_cell_car g (plist_set_heap g h symbol value cells) h.lisp_heap_cur = symbol) := by
  cases he : plist_assoc g h symbol cells with
  | some e =>
    obtain ⟨r1, r2, r3, r4, r5, r6, r7, r8, r9, r10⟩ :=
      plist_set_found g hg h p symbol value cells fuel hs hsp hwf hfuel e he
    have hh : plist_set_heap g h symbol value cells = rplacd_heap g h e value := by
      unfold plist_set_heap; rw [he]
    have hc : plist_set_cells g h symbol cells = cells := by
      unfold plist_set_cells; rw [he]
    have hen : plist_set_entry g h symbol cells = e := by
      unfold plist_set_entry; rw [he]
    have hw : plist_set_written g h symbol cells = e := by
      unfold plist_set_written; rw [he]
    rw [hh, hc, hen, hw]
    refine ⟨r1, heap_update_mono g _ _ _ _ _ _ r2 (fun _ hx => hx) (fun _ hx => by cases hx),
      r3, r4, r5, r6, by rw [r7], by rw [r7]; omega, by rw [r7]; exact halign,
      fun a h1 _ _ => r8 a h1, List.mem_append_right _ r9, r10, by omega, fun e' => by cases e'⟩
  | none =>
    obtain ⟨r1, r2, r3, r4, r5, r6, r7, r8, r9, r10⟩ :=
      plist_set_append g hg h p symbol value cells fuel hs hsp hwf halign hfree hfuel he
    have hc : plist_set_cells g h symbol cells = cells ++ [h.lisp_heap_cur + 16] := by
      unfold plist_set_cells; rw [he]
    have hen : plist_set_entry g h symbol cells = h.lisp_heap_cur := by
      unfold plist_set_entry; rw [he]
    have hw : plist_set_written g h symbol cells = cells.getLastD 0 := by
      unfold plist_set_written; rw [he]
    rw [hc, hen, hw]
    refine ⟨r1, r2, r3, r4, r6, r7, by rw [r8]; omega, by rw [r8], by rw [r8]; omega,
      r9, List.mem_append_left _ r10, halign, by simp, fun _ => ⟨rfl, r5⟩⟩

/-- The well-formedness of a property list survives a store that does not
touch its cells. -/
theorem plist_wf_update (g : lisp_globals) (h h' : lisp_heap) (W F : List Nat)
    (u : heap_update g h h' W F) (cells : List Nat) (hwf : plist_wf g h cells = true)
    (hF : ∀ c ∈ cells ++ cells.map (lisp_cell_car g h), c ∉ F)
    (hcur : h.lisp_heap_cur ≤ h'.lisp_heap_cur)
    (hsome : ∀ c ∈ cells ++ cells.map (lisp_cell_car g h),
      (lisp_cell_get_value h' c).isSome = (lisp_cell_get_value h c).isSome) :
    plist_wf g h' cells = true := by
  obtain ⟨hal, hale, hnd⟩ := plist_wf_parts g h cells hwf
  have hmap : cells.map (lisp_cell_car g h') = cells.map (lisp_cell_car g h) := by
    apply List.map_congr_left
    intro c hc
    exact u.car_eq c (hF c (List.mem_append_left _ hc))
  have hall : ∀ L : List Nat, (∀ c ∈ L, c ∈ cells ++ cells.map (lisp_cell_car g h)) →
      cells_allocated h L = true → cells_allocated h' L = true := by
    intro L hL hLa
    unfold cells_allocated at hLa ⊢
    rw [List.all_eq_true] at hLa ⊢
    intro c hc
    have := hLa c hc
    simp only [Bool.and_eq_true, decide_eq_true_eq] at this ⊢
    exact ⟨⟨this.1.1, Nat.lt_of_lt_of_le this.1.2 hcur⟩, by rw [hsome c (hL c hc)]; exact this.2⟩
  unfold plist_wf
  rw [hmap]
  simp only [Bool.and_eq_true, decide_eq_true_eq]
  exact ⟨⟨hall cells (fun c hc => List.mem_append_left _ hc) hal,
    hall _ (fun c hc => List.mem_append_right _ hc) hale⟩, hnd⟩

/-! ## `lisp_environment_set_symbol_value` on the frame itself -/

theorem find_symbol_own (g : lisp_globals) (hg : globals_wf g) (h : lisp_heap)
    (environment symbol : Nat) (hs : lisp_object_get_tag symbol = lisp_tag_atom)
    (cells : List Nat) (hsp : plist_spine g h environment cells = true)
    (fuel : Nat) (hf : cells.length + 1 < fuel) :
    lisp_environment_find_symbol g fuel h environment symbol g.lisp_NIL
      = .ok (match plist_assoc g h symbol cells with
             | some entry => entry
             | none => g.lisp_NIL) := by
  obtain ⟨n, rfl⟩ : ∃ n, fuel = n + 1 := ⟨fuel - 1, by omega⟩
  unfold lisp_environment_find_symbol
  rw [plist_find_entry_spec g hg h symbol hs cells environment hsp n (by omega)]
  cases plist_assoc g h symbol cells <;> simp [bind, Except.bind, pure, Except.pure]

theorem find_symbol_found (g : lisp_globals) (hg : globals_wf g) (h : lisp_heap)
    (environment symbol recursive : Nat) (hs : lisp_object_get_tag symbol = lisp_tag_atom)
    (cells : List Nat) (hsp : plist_spine g h environment cells = true)
    (e : Nat) (he : plist_assoc g h symbol cells = some e)
    (fuel : Nat) (hf : cells.length + 1 < fuel) :
    lisp_environment_find_symbol g fuel h environment symbol recursive = .ok e := by
  obtain ⟨n, rfl⟩ : ∃ n, fuel = n + 1 := ⟨fuel - 1, by omega⟩
  unfold lisp_environment_find_symbol
  rw [plist_find_entry_spec g hg h symbol hs cells environment hsp n (by omega), he]
  simp [bind, Except.bind, pure, Except.pure]

theorem plist_wf_lt (g : lisp_globals) (h : lisp_heap) (cells : List Nat)
    (hwf : plist_wf g h cells = true) (c : Nat)
    (hc : c ∈ cells ++ cells.map (lisp_cell_car g h)) :
    c % 16 = 0 ∧ c < h.lisp_heap_cur ∧ (lisp_cell_get_value h c).isSome = true := by
  obtain ⟨hal, hale, _⟩ := plist_wf_parts g h cells hwf
  rcases List.mem_append.1 hc with h1 | h1
  · exact cells_allocated_mem h _ hal c h1
  · exact cells_allocated_mem h _ hale c h1

/-- The two cells `lisp_environment_set_symbol_value` allocates for a new
attribute list. -/
theorem attribute_list_create (g : lisp_globals) (hg : globals_wf g) (h : lisp_heap)
    (type value : Nat) (halign : h.lisp_heap_cur % 16 = 0) (hfree : heap_free h 4 = true) :
    heap_update g h (cons_heap (cons_heap h type value) h.lisp_heap_cur g.lisp_NIL) []
        [h.lisp_heap_cur, h.lisp_heap_cur + 16]
      ∧ lisp_cell_car g (cons_heap (cons_heap h type value) h.lisp_heap_cur g.lisp_NIL)
          h.lisp_heap_cur = type
      ∧ lisp_cell_cdr g (cons_heap (cons_heap h type value) h.lisp_heap_cur g.lisp_NIL)
          h.lisp_heap_cur = value
      ∧ lisp_cell_car g (cons_heap (cons_heap h type value) h.lisp_heap_cur g.lisp_NIL)
          (h.lisp_heap_cur + 16) = h.lisp_heap_cur
      ∧ lisp_cell_cdr g (cons_heap (cons_heap h type value) h.lisp_heap_cur g.lisp_NIL)
          (h.lisp_heap_cur + 16) = g.lisp_NIL
      ∧ (∀ a, a ≠ h.lisp_heap_cur → a ≠ h.lisp_heap_cur + 16 →
          heap_read (cons_heap (cons_heap h type value) h.lisp_heap_cur g.lisp_NIL) a
            = heap_read h a)
      ∧ (∀ x, x < h.lisp_heap_cur →
          lisp_cell_get_value (cons_heap (cons_heap h type value) h.lisp_heap_cur g.lisp_NIL) x
            = lisp_cell_get_value h x)
      ∧ (cons_heap (cons_heap h type value) h.lisp_heap_cur g.lisp_NIL).lisp_heap_cur
          = h.lisp_heap_cur + 32 := by
  have hf0 := heap_free_at h 4 0 hfree (by omega)
  have hf1 := heap_free_at h 4 1 hfree (by omega)
  simp only [Nat.mul_zero, Nat.add_zero, Nat.mul_one] at hf0 hf1
  obtain ⟨u1, hcar1, hcdr1, hread1, hgv1, _⟩ := cons_heap_update g hg h type value halign hf0
  have hcur1 : (cons_heap h type value).lisp_heap_cur = h.lisp_heap_cur + 16 := rfl
  have hfree2 : heap_read (cons_heap h type value) (cons_heap h type value).lisp_heap_cur
      = none := by
    rw [hcur1, hread1 _ (by omega)]
    exact hf1
  obtain ⟨u2, hcar2, hcdr2, hread2, hgv2, _⟩ :=
    cons_heap_update g hg (cons_heap h type value) h.lisp_heap_cur g.lisp_NIL
      (by rw [hcur1]; omega) hfree2
  rw [hcur1] at u2 hcar2 hcdr2 hread2 hgv2
  refine ⟨?_, ?_, ?_, hcar2, hcdr2, ?_, ?_, rfl⟩
  · have := heap_update_trans g _ _ _ _ _ _ _ u1 u2
    simpa using this
  · rw [u2.car_eq _ (by simp), hcar1]
  · rw [u2.cdr_eq _ (by simp) (by simp), hcdr1]
  · intro a h1 h2
    rw [hread2 a h2, hread1 a h1]
  · intro x hx
    have hr := raw_value_le x
    rw [hgv2 x (by omega), hgv1 x (by omega)]

theorem set_symbol_value_create (g : lisp_globals) (hg : globals_wf g) (h : lisp_heap)
    (environment symbol type value : Nat) (cells : List Nat) (fuel : Nat)
    (hs : lisp_object_get_tag symbol = lisp_tag_atom)
    (hsp : plist_spine g h environment cells = true) (hwf : plist_wf g h cells = true)
    (hcreate : set_symbol_creates g h symbol cells = true)
    (halign : h.lisp_heap_cur % 16 = 0) (hfree : heap_free h 4 = true)
    (hfuel : cells.length + 2 < fuel) :
    ∃ (h' : lisp_heap) (cells' : List Nat) (e' w : Nat),
      lisp_environment_set_symbol_value g fuel h environment symbol type value g.lisp_NIL
          = .ok (value, h')
        ∧ plist_spine g h' environment cells' = true
        ∧ plist_assoc g h' symbol cells' = some e'
        ∧ e' % 16 = 0
        ∧ lisp_cell_cdr g h' e' = h.lisp_heap_cur + 16
        ∧ lisp_cell_cdr g h' (h.lisp_heap_cur + 16) = g.lisp_NIL
        ∧ lisp_cell_car g h' (h.lisp_heap_cur + 16) = h.lisp_heap_cur
        ∧ lisp_cell_car g h' h.lisp_heap_cur = type
        ∧ lisp_cell_cdr g h' h.lisp_heap_cur = value
        ∧ cells'.length ≤ cells.length + 1
        ∧ h.lisp_heap_cur ≤ h'.lisp_heap_cur ∧ h'.lisp_heap_cur % 16 = 0
        ∧ h'.lisp_heap_cur ≤ h.lisp_heap_cur + 64
        ∧ w ∈ cells ++ cells.map (lisp_cell_car g h)
        ∧ heap_update g h h' [w]
            [h.lisp_heap_cur, h.lisp_heap_cur + 16, h.lisp_heap_cur + 32, h.lisp_heap_cur + 48]
        ∧ (∀ a, a < h.lisp_heap_cur → a ≠ w → heap_read h' a = heap_read h a)
        ∧ (∀ a, h.lisp_heap_cur + 64 ≤ a → heap_read h' a = heap_read h a)
        ∧ (∀ e, plist_assoc g h symbol cells = some e → e' = e ∧ cells' = cells)
        ∧ (plist_assoc g h symbol cells = none → e' = h.lisp_heap_cur + 32
            ∧ lisp_cell_car g h' e' = symbol
            ∧ cells' = cells ++ [h.lisp_heap_cur + 48]) := by
  obtain ⟨u12, hcarB, hcdrB, hcarB16, hcdrB16, hread12, hgv12, hcur2⟩ :=
    attribute_list_create g hg h type value halign hfree
  have hf2 := heap_free_at h 4 2 hfree (by omega)
  have hf3 := heap_free_at h 4 3 hfree (by omega)
  have hold : ∀ c ∈ cells ++ cells.map (lisp_cell_car g h),
      c % 16 = 0 ∧ c < h.lisp_heap_cur ∧ (lisp_cell_get_value h c).isSome = true :=
    fun c hc => plist_wf_lt g h cells hwf c hc
  have holdF : ∀ c ∈ cells ++ cells.map (lisp_cell_car g h),
      c ∉ [h.lisp_heap_cur, h.lisp_heap_cur + 16] := by
    intro c hc
    have := (hold c hc).2.1
    simp only [List.mem_cons, List.mem_singleton, List.not_mem_nil, or_false, not_or]
    exact ⟨Nat.ne_of_lt this, Nat.ne_of_lt (Nat.lt_of_lt_of_le this (Nat.le_add_right _ _))⟩
  -- the frame in the heap that holds the new attribute list
  have hsp2 : plist_spine g (cons_heap (cons_heap h type value) h.lisp_heap_cur g.lisp_NIL)
      environment cells = true := by
    rw [plist_spine_update g h _ _ _ u12 cells environment
      (fun c hc => ⟨holdF c (List.mem_append_left _ hc), by simp⟩)]
    exact hsp
  have hwf2 : plist_wf g (cons_heap (cons_heap h type value) h.lisp_heap_cur g.lisp_NIL)
      cells = true :=
    plist_wf_update g h _ _ _ u12 cells hwf holdF (by rw [hcur2]; omega)
      (fun c hc => by rw [hgv12 c (hold c hc).2.1])
  have hmap2 : cells.map (lisp_cell_car g
      (cons_heap (cons_heap h type value) h.lisp_heap_cur g.lisp_NIL))
      = cells.map (lisp_cell_car g h) := by
    apply List.map_congr_left
    intro c hc
    exact u12.car_eq c (holdF c (List.mem_append_left _ hc))
  have hassoc2 : plist_assoc g (cons_heap (cons_heap h type value) h.lisp_heap_cur g.lisp_NIL)
      symbol cells = plist_assoc g h symbol cells :=
    plist_assoc_update g h _ _ _ u12 symbol cells
      (fun c hc => ⟨holdF c (List.mem_append_left _ hc),
        holdF _ (List.mem_append_right _ (List.mem_map_of_mem _ hc))⟩)
  obtain ⟨r1, r2, r3, r4, r5, _, r7, r8, r9, r10, r11, r12, r13, r14⟩ :=
    plist_set_spec g hg (cons_heap (cons_heap h type value) h.lisp_heap_cur g.lisp_NIL)
      environment symbol (h.lisp_heap_cur + 16) cells fuel hs hsp2 hwf2
      (by rw [hcur2]; omega)
      (by
        rw [hcur2]
        constructor
        · rw [hread12 _ (by omega) (by omega)]; exact hf2
        · rw [hread12 _ (by omega) (by omega)]; exact hf3)
      (by omega)
  rw [hcur2] at r2 r7 r8 r10 r14
  rw [show h.lisp_heap_cur + 32 + 16 = h.lisp_heap_cur + 48 from rfl] at r2 r10
  rw [hmap2] at r11
  have hw_lt := (hold _ r11).2.1
  have hwB : h.lisp_heap_cur ≠ plist_set_written g
      (cons_heap (cons_heap h type value) h.lisp_heap_cur g.lisp_NIL) symbol cells :=
    fun e => by rw [← e] at hw_lt; exact Nat.lt_irrefl _ hw_lt
  have hwB16 : h.lisp_heap_cur + 16 ≠ plist_set_written g
      (cons_heap (cons_heap h type value) h.lisp_heap_cur g.lisp_NIL) symbol cells :=
    fun e => by rw [← e] at hw_lt; omega
  -- the search of the symbol
  have hfind : lisp_environment_find_symbol g fuel h environment symbol g.lisp_NIL
      = .ok (match plist_assoc g h symbol cells with
             | some entry => entry
             | none => g.lisp_NIL) :=
    find_symbol_own g hg h environment symbol hs cells hsp fuel (by omega)
  have hplist : lisp_cell_cdr g h (match plist_assoc g h symbol cells with
      | some entry => entry
      | none => g.lisp_NIL) = g.lisp_NIL := by
    unfold set_symbol_creates at hcreate
    cases he : plist_assoc g h symbol cells with
    | none => exact (lisp_cell_car_NIL_eq g hg h).2
    | some e => rw [he] at hcreate; simpa using hcreate
  refine ⟨_, _, _, _, ?_, r3, r4, r12, r5, ?_, ?_, ?_, ?_, r13, ?_, r9, ?_, r11, ?_, ?_, ?_,
    ?_, ?_⟩
  · unfold lisp_environment_set_symbol_value
    rw [hfind]
    simp only [bind, Except.bind, hplist, ↓reduceIte, lisp_cell_cons_heap,
      lisp_plist_create_one]
    rw [show (cons_heap h type value).lisp_heap_cur = h.lisp_heap_cur + 16 from rfl, r1]
    rfl
  · rw [r2.cdr_eq _ (by simp) (by simpa using hwB16), hcdrB16]
  · rw [r2.car_eq _ (by simp), hcarB16]
  · rw [r2.car_eq _ (by simp), hcarB]
  · rw [r2.cdr_eq _ (by simp) (by simpa using hwB), hcdrB]
  · omega
  · omega
  · have := heap_update_trans g _ _ _ _ _ _ _ u12 r2
    simpa using this
  · intro a h1 h2
    rw [r10 a h2 (by omega) (by omega), hread12 a (by omega) (by omega)]
  · intro a h1
    rw [r10 a (by omega) (by omega) (by omega), hread12 a (by omega) (by omega)]
  · intro e he
    rw [← hassoc2] at he
    constructor
    · unfold plist_set_entry; rw [he]
    · unfold plist_set_cells; rw [he]
  · intro he
    rw [← hassoc2] at he
    have := r14 he
    refine ⟨this.1, by rw [this.1]; exact this.2, ?_⟩
    unfold plist_set_cells
    rw [he, hcur2]

theorem frame_entry_wf_parts (g : lisp_globals) (h : lisp_heap) (symbol : Nat)
    (cells attrs : List Nat) (hent : frame_entry_wf g h symbol cells attrs = true)
    (e : Nat) (he : plist_assoc g h symbol cells = some e)
    (hcdr : lisp_cell_cdr g h e ≠ g.lisp_NIL) :
    plist_spine g h (lisp_cell_cdr g h e) attrs = true ∧ plist_wf g h attrs = true
      ∧ (∀ x ∈ cells ++ cells.map (lisp_cell_car g h),
          x ∉ attrs ++ attrs.map (lisp_cell_car g h)) := by
  unfold frame_entry_wf at hent
  rw [he] at hent
  simp only [Bool.or_eq_true, decide_eq_true_eq, Bool.and_eq_true] at hent
  rcases hent with h1 | h1
  · exact absurd h1 hcdr
  · refine ⟨h1.1.1, h1.1.2, ?_⟩
    have hnd := h1.2
    rw [List.append_assoc, List.append_assoc] at hnd
    rw [← List.append_assoc] at hnd
    intro x hx hx'
    exact (List.nodup_append.1 hnd).2.2 hx hx'

theorem set_symbol_value_modify (g : lisp_globals) (hg : globals_wf g) (h : lisp_heap)
    (environment symbol type value : Nat) (cells attrs : List Nat) (fuel : Nat)
    (hs : lisp_object_get_tag symbol = lisp_tag_atom)
    (ht : lisp_object_get_tag type = lisp_tag_atom)
    (hsp : plist_spine g h environment cells = true) (hwf : plist_wf g h cells = true)
    (hent : frame_entry_wf g h symbol cells attrs = true)
    (e : Nat) (he : plist_assoc g h symbol cells = some e)
    (hcdr : lisp_cell_cdr g h e ≠ g.lisp_NIL)
    (halign : h.lisp_heap_cur % 16 = 0) (hfree : heap_free h 4 = true)
    (hfuel : cells.length + attrs.length + 2 < fuel) :
    ∃ (h' : lisp_heap) (attrs' : List Nat) (w : Nat),
      lisp_environment_set_symbol_value g fuel h environment symbol type value g.lisp_NIL
          = .ok (value, h')
        ∧ plist_spine g h' environment cells = true
        ∧ plist_assoc g h' symbol cells = some e
        ∧ e % 16 = 0
        ∧ lisp_cell_cdr g h' e = lisp_cell_cdr g h e
        ∧ plist_spine g h' (lisp_cell_cdr g h e) attrs' = true
        ∧ plist_value g h' type attrs' = value
        ∧ (∀ t, atom_key_equal h t type = false →
            plist_value g h' t attrs' = plist_value g h t attrs)
        ∧ attrs'.length ≤ attrs.length + 1
        ∧ h.lisp_heap_cur ≤ h'.lisp_heap_cur ∧ h'.lisp_heap_cur % 16 = 0
        ∧ h'.lisp_heap_cur ≤ h.lisp_heap_cur + 64
        ∧ w ∈ attrs ++ attrs.map (lisp_cell_car g h)
        ∧ heap_update g h h' [w]
            [h.lisp_heap_cur, h.lisp_heap_cur + 16, h.lisp_heap_cur + 32, h.lisp_heap_cur + 48]
        ∧ (∀ a, a < h.lisp_heap_cur → a ≠ w → heap_read h' a = heap_read h a)
        ∧ (∀ a, h.lisp_heap_cur + 64 ≤ a → heap_read h' a = heap_read h a) := by
  obtain ⟨hspa, hwfa, hdisj⟩ := frame_entry_wf_parts g h symbol cells attrs hent e he hcdr
  have hf0 := heap_free_at h 4 0 hfree (by omega)
  have hf1 := heap_free_at h 4 1 hfree (by omega)
  simp only [Nat.mul_zero, Nat.add_zero, Nat.mul_one] at hf0 hf1
  obtain ⟨r1, r2, r3, r4, r5, r6, r7, r8, r9, r10, r11, r12, r13, _⟩ :=
    plist_set_spec g hg h (lisp_cell_cdr g h e) type value attrs fuel ht hspa hwfa halign
      ⟨hf0, hf1⟩ (by omega)
  have hold : ∀ c ∈ cells ++ cells.map (lisp_cell_car g h),
      c % 16 = 0 ∧ c < h.lisp_heap_cur ∧ (lisp_cell_get_value h c).isSome = true :=
    fun c hc => plist_wf_lt g h cells hwf c hc
  have holdF : ∀ c ∈ cells ++ cells.map (lisp_cell_car g h),
      c ∉ [h.lisp_heap_cur, h.lisp_heap_cur + 16] := by
    intro c hc
    have := (hold c hc).2.1
    simp only [List.mem_cons, List.mem_singleton, List.not_mem_nil, or_false, not_or]
    exact ⟨Nat.ne_of_lt this, Nat.ne_of_lt (Nat.lt_of_lt_of_le this (Nat.le_add_right _ _))⟩
  have holdW : ∀ c ∈ cells ++ cells.map (lisp_cell_car g h),
      c ∉ [plist_set_written g h type attrs] := by
    intro c hc hin
    simp only [List.mem_singleton] at hin
    exact hdisj c hc (hin ▸ r11)
  have hem := (plist_assoc_mem g h symbol cells e he).1
  have hfind : lisp_environment_find_symbol g fuel h environment symbol g.lisp_NIL
      = .ok e := find_symbol_found g hg h environment symbol _ hs cells hsp e he fuel (by omega)
  have hw_lt := (plist_wf_lt g h attrs hwfa _ r11).2.1
  refine ⟨_, _, _, ?_, ?_, ?_, (hold e (List.mem_append_right _ hem)).1, ?_, r3, ?_, r6, r13,
    r7, r9, by omega, r11, ?_, ?_, ?_⟩
  · unfold lisp_environment_set_symbol_value
    rw [hfind]
    simp only [bind, Except.bind, hcdr, ↓reduceIte, r1]
    rfl
  · rw [plist_spine_update g h _ _ _ r2 cells environment
      (fun c hc => ⟨holdF c (List.mem_append_left _ hc), holdW c (List.mem_append_left _ hc)⟩)]
    exact hsp
  · rw [plist_assoc_update g h _ _ _ r2 symbol cells
      (fun c hc => ⟨holdF c (List.mem_append_left _ hc),
        holdF _ (List.mem_append_right _ (List.mem_map_of_mem _ hc))⟩)]
    exact he
  · exact r2.cdr_eq e (holdF e (List.mem_append_right _ hem))
      (holdW e (List.mem_append_right _ hem))
  · unfold plist_value
    rw [r4]
    exact r5
  · exact heap_update_mono g _ _ _ _ _ _ r2 (fun _ hx => hx)
      (fun x hx => by
        simp only [List.mem_cons, List.mem_singleton, List.not_mem_nil, or_false] at hx ⊢
        rcases hx with e | e
        · exact Or.inl e
        · exact Or.inr (Or.inl e))
  · intro a h1 h2
    exact r10 a h2 (Nat.ne_of_lt h1) (Nat.ne_of_lt (Nat.lt_of_lt_of_le h1 (Nat.le_add_right _ _)))
  · intro a h1
    exact r10 a (by omega) (by omega) (by omega)

/-- What `lisp_environment_set_symbol_value` without recursion does to a
well-formed frame: afterwards the frame has an entry for the symbol, with a
non-empty attribute list in which `type` has the value stored and every other
key has the value it had (`NIL` when the list is new); one cell of the frame
or of the attribute list has a new `CDR`, at most four cells are allocated,
and nothing else is touched. -/
theorem set_symbol_value_spec (g : lisp_globals) (hg : globals_wf g) (h : lisp_heap)
    (environment symbol type value : Nat) (cells attrs : List Nat) (fuel : Nat)
    (hs : lisp_object_get_tag symbol = lisp_tag_atom)
    (ht : lisp_object_get_tag type = lisp_tag_atom)
    (hsp : plist_spine g h environment cells = true) (hwf : plist_wf g h cells = true)
    (hent : frame_entry_wf g h symbol cells attrs = true)
    (halign : h.lisp_heap_cur % 16 = 0) (hfree : heap_free h 4 = true)
    (hfuel : cells.length + attrs.length + 2 < fuel) :
    ∃ (h' : lisp_heap) (cells' : List Nat) (e' : Nat) (attrs' : List Nat) (w : Nat),
      lisp_environment_set_symbol_value g fuel h environment symbol type value g.lisp_NIL
          = .ok (value, h')
        ∧ plist_spine g h' environment cells' = true
        ∧ plist_assoc g h' symbol cells' = some e'
        ∧ e' % 16 = 0
        ∧ lisp_cell_cdr g h' e' ≠ g.lisp_NIL
        ∧ plist_spine g h' (lisp_cell_cdr g h' e') attrs' = true
        ∧ plist_value g h' type attrs' = value
        ∧ (∀ t, atom_key_equal h t type = false →
            plist_value g h' t attrs'
              = if set_symbol_creates g h symbol cells = true then g.lisp_NIL
                else plist_value g h t attrs)
        ∧ cells'.length ≤ cells.length + 1
        ∧ attrs'.length ≤ attrs.length + 1
        ∧ h.lisp_heap_cur ≤ h'.lisp_heap_cur ∧ h'.lisp_heap_cur % 16 = 0
        ∧ h'.lisp_heap_cur ≤ h.lisp_heap_cur + 64
        ∧ w ∈ cells ++ cells.map (lisp_cell_car g h) ++ attrs ++ attrs.map (lisp_cell_car g h)
        ∧ w < h.lisp_heap_cur
        ∧ heap_update g h h' [w]
            [h.lisp_heap_cur, h.lisp_heap_cur + 16, h.lisp_heap_cur + 32, h.lisp_heap_cur + 48]
        ∧ (∀ a, a < h.lisp_heap_cur → a ≠ w → heap_read h' a = heap_read h a)
        ∧ (∀ a, h.lisp_heap_cur + 64 ≤ a → heap_read h' a = heap_read h a)
        ∧ (∀ e, plist_assoc g h symbol cells = some e → e' = e ∧ cells' = cells)
        ∧ (plist_assoc g h symbol cells = none → h.lisp_heap_cur ≤ e'
            ∧ lisp_cell_car g h' e' = symbol ∧ cells'.length = cells.length + 1) := by
  by_cases hcreate : set_symbol_creates g h symbol cells = true
  · obtain ⟨h', cells', e', w, r1, r2, r3, r4, r5, r6, r7, r8, r9, r10, r11, r12, r13, r14,
      r15, r16, r17, r18, r19⟩ :=
      set_symbol_value_create g hg h environment symbol type value cells fuel hs hsp hwf
        hcreate halign hfree (by omega)
    have hname : ∀ t, atom_key_equal h' t type = atom_key_equal h t type :=
      fun t => atom_key_equal_update g h h' _ _ r15 t type
    refine ⟨h', cells', e', [h.lisp_heap_cur + 16], w, r1, r2, r3, r4, ?_, ?_, ?_, ?_, r10,
      by simp, r11, r12, r13, ?_, (plist_wf_lt g h cells hwf w r14).2.1, r15, r16, r17, r18,
      ?_⟩
    · rw [r5]
      exact aligned_ne_NIL g hg _ (by omega)
    · rw [r5]
      simp [plist_spine, r6]
    · simp [plist_value, plist_assoc, r7, r8, r9, atom_key_equal_self]
    · intro t htt
      simp [plist_value, plist_assoc, r7, r8, hname, htt, hcreate]
    · rw [List.append_assoc]
      exact List.mem_append_left _ r14
    · intro hn
      obtain ⟨q1, q2, q3⟩ := r19 hn
      refine ⟨by rw [q1]; omega, q2, by rw [q3]; simp⟩
  · have hc' : ∃ e, plist_assoc g h symbol cells = some e ∧ lisp_cell_cdr g h e ≠ g.lisp_NIL := by
      unfold set_symbol_creates at hcreate
      cases he : plist_assoc g h symbol cells with
      | none => rw [he] at hcreate; exact absurd rfl hcreate
      | some e => rw [he] at hcreate; exact ⟨e, rfl, by simpa using hcreate⟩
    obtain ⟨e, he, hcdr⟩ := hc'
    obtain ⟨h', attrs', w, r1, r2, r3, r4, r5, r6, r7, r8, r9, r10, r11, r12, r13, r14, r15,
      r16⟩ :=
      set_symbol_value_modify g hg h environment symbol type value cells attrs fuel hs ht hsp
        hwf hent e he hcdr halign hfree hfuel
    obtain ⟨_, hwfa, _⟩ := frame_entry_wf_parts g h symbol cells attrs hent e he hcdr
    refine ⟨h', cells, e, attrs', w, r1, r2, r3, r4, by rw [r5]; exact hcdr,
      by rw [r5]; exact r6, r7, ?_, by omega, r9, r10, r11, r12, ?_,
      (plist_wf_lt g h attrs hwfa w r13).2.1, r14, r15, r16,
      fun e0 he0 => ⟨by rw [he] at he0; exact Option.some.inj he0, rfl⟩,
      fun hn => by rw [he] at hn; cases hn⟩
    · intro t htt
      rw [r8 t htt]
      simp [hcreate]
    · rw [List.append_assoc]
      exact List.mem_append_right _ r13

/-! ## Reading a frame -/

theorem get_symbol_value_frame (g : lisp_globals) (hg : globals_wf g) (h : lisp_heap)
    (environment symbol type : Nat) (cells attrs : List Nat)
    (hs : lisp_object_get_tag symbol = lisp_tag_atom)
    (ht : lisp_object_get_tag type = lisp_tag_atom)
    (hsp : plist_spine g h environment cells = true)
    (hat : frame_attrs_ok g h symbol cells attrs = true)
    (fuel : Nat) (hf : cells.length + attrs.length + 2 < fuel) :
    lisp_environment_get_symbol_value g fuel h environment symbol type g.lisp_NIL
      = .ok (frame_value g h symbol type cells attrs) := by
  unfold lisp_environment_get_symbol_value frame_value
  rw [find_symbol_own g hg h environment symbol hs cells hsp fuel (by omega)]
  unfold frame_attrs_ok at hat
  cases he : plist_assoc g h symbol cells with
  | none => simp [bind, Except.bind, pure, Except.pure]
  | some e =>
    rw [he] at hat
    simp only [bind, Except.bind]
    by_cases hn : e = g.lisp_NIL
    · simp [hn, pure, Except.pure]
    · simp only [hn, ↓reduceIte]
      exact plist_get_spec g hg h type ht attrs _ hat fuel (by omega)

theorem eval_atom_own (g : lisp_globals) (hg : globals_wf g) (h : lisp_heap)
    (environment atom : Nat) (cells attrs : List Nat) (e : Nat)
    (ha : lisp_object_get_tag atom = lisp_tag_atom)
    (hsp : plist_spine g h environment cells = true)
    (he : plist_assoc g h atom cells = some e) (he16 : e % 16 = 0)
    (hcdr : lisp_cell_cdr g h e ≠ g.lisp_NIL)
    (hspa : plist_spine g h (lisp_cell_cdr g h e) attrs = true)
    (fuel : Nat) (hf : cells.length + attrs.length + 2 < fuel) :
    lisp_eval_atom g fuel h environment atom
      = .ok (if plist_value g h g.lisp_SUBR attrs ≠ g.lisp_NIL then
               plist_value g h g.lisp_SUBR attrs
             else if plist_value g h g.lisp_EXPR attrs ≠ g.lisp_NIL then
               plist_value g h g.lisp_EXPR attrs
             else plist_value g h g.lisp_APVAL attrs) := by
  unfold lisp_eval_atom
  rw [find_symbol_found g hg h environment atom _ ha cells hsp e he fuel (by omega)]
  have hne : e ≠ g.lisp_NIL := aligned_ne_NIL g hg e he16
  simp only [bind, Except.bind, hne, hcdr, or_self, ↓reduceIte]
  rw [plist_get_spec g hg h _ hg.SUBR_atom attrs _ hspa fuel (by omega)]
  simp only
  by_cases h1 : plist_value g h g.lisp_SUBR attrs = g.lisp_NIL
  · simp only [h1, ne_eq, not_true_eq_false, ↓reduceIte]
    rw [plist_get_spec g hg h _ hg.EXPR_atom attrs _ hspa fuel (by omega)]
    simp only
    by_cases h2 : plist_value g h g.lisp_EXPR attrs = g.lisp_NIL
    · simp only [h2, ne_eq, not_true_eq_false, ↓reduceIte]
      rw [plist_get_spec g hg h _ hg.APVAL_atom attrs _ hspa fuel (by omega)]
      simp only
      by_cases h3 : plist_value g h g.lisp_APVAL attrs = g.lisp_NIL
      · simp [h3, pure, Except.pure]
      · simp [h3, pure, Except.pure]
    · simp [h2, pure, Except.pure]
  · simp [h1, pure, Except.pure]

/-- A lookup in a frame none of whose cells is written or new gives what it
gave. -/
theorem frame_value_update (g : lisp_globals) (h h' : lisp_heap) (W F : List Nat)
    (u : heap_update g h h' W F) (environment symbol type : Nat) (cells attrs : List Nat)
    (hsp : plist_spine g h environment cells = true)
    (hat : frame_attrs_ok g h symbol cells attrs = true)
    (hobj : ∀ x ∈ cells ++ cells.map (lisp_cell_car g h) ++ attrs
                  ++ attrs.map (lisp_cell_car g h), x ∉ F ∧ x ∉ W) :
    plist_spine g h' environment cells = true
      ∧ frame_attrs_ok g h' symbol cells attrs = true
      ∧ frame_value g h' symbol type cells attrs = frame_value g h symbol type cells attrs := by
  have h1 : ∀ c ∈ cells, c ∉ F ∧ c ∉ W := fun c hc =>
    hobj c (List.mem_append_left _ (List.mem_append_left _ (List.mem_append_left _ hc)))
  have h2 : ∀ c ∈ cells, lisp_cell_car g h c ∉ F ∧ lisp_cell_car g h c ∉ W := fun c hc =>
    hobj _ (List.mem_append_left _ (List.mem_append_left _
      (List.mem_append_right _ (List.mem_map_of_mem _ hc))))
  have h3 : ∀ c ∈ attrs, c ∉ F ∧ c ∉ W := fun c hc =>
    hobj c (List.mem_append_left _ (List.mem_append_right _ hc))
  have h4 : ∀ c ∈ attrs, lisp_cell_car g h c ∉ F ∧ lisp_cell_car g h c ∉ W := fun c hc =>
    hobj _ (List.mem_append_right _ (List.mem_map_of_mem _ hc))
  have hassoc : plist_assoc g h' symbol cells = plist_assoc g h symbol cells :=
    plist_assoc_update g h h' W F u symbol cells (fun c hc => ⟨(h1 c hc).1, (h2 c hc).1⟩)
  refine ⟨?_, ?_, ?_⟩
  · rw [plist_spine_update g h h' W F u cells environment h1]
    exact hsp
  · unfold frame_attrs_ok at hat ⊢
    rw [hassoc]
    cases he : plist_assoc g h symbol cells with
    | none => rfl
    | some e =>
      rw [he] at hat
      simp only
      obtain ⟨c, hc, rfl⟩ := List.mem_map.1 (plist_assoc_mem g h symbol cells e he).1
      rw [u.cdr_eq _ (h2 c hc).1 (h2 c hc).2, plist_spine_update g h h' W F u attrs _ h3]
      exact hat
  · unfold frame_value
    rw [hassoc]
    cases he : plist_assoc g h symbol cells with
    | none => rfl
    | some e =>
      simp only
      by_cases hn : e = g.lisp_NIL
      · simp [hn]
      · simp only [hn, ↓reduceIte]
        exact plist_value_update g h h' W F u type attrs
          (fun c hc => ⟨(h3 c hc).1, (h4 c hc).1⟩)
          (fun p hp => by
            obtain ⟨c, hc, rfl⟩ := List.mem_map.1 (plist_assoc_mem g h type attrs p hp).1
            exact (h4 c hc).2)

/-! ## The special forms `SET` and `SETQ` -/

theorem run_get_ok (r : Run (lisp_object_t × lisp_heap)) (h : run_ok r = true) :
    r = .ok (run_get r) := by
  cases r with
  | error e => simp [run_ok] at h
  | ok s => rfl

/-- Claim C14: when `n` evaluates to an atom `a` other than `NIL` and then `v`
evaluates to `w`, `lisp_eval_SET` returns `w`; afterwards the frame of the
environment itself has an entry for `a` (the entry it had, or a new one with
key `a` appended to the frame when it had none) and
`lisp_environment_get_symbol_value` without recursion gives `w` for its
`APVAL`; exactly one cell allocated before has a new `CDR`, a cell of that
frame or of the attribute list of `a` in it, and in every frame that does not
hold this cell (every ancestor, when the frames of the chain share no cell)
the lookup of `a` without recursion gives for every key what it gave before.
When `n` evaluates to `NIL`, `lisp_eval_SET` returns `NIL` in the heap the
evaluation of `n` left. -/
theorem C14_SET_binds_in_own_frame (g : lisp_globals) (hg : globals_wf g) (ev : lisp_eval_fn)
    (environment cell : lisp_object_t) (h : lisp_heap) (fuel : Nat) :
    (∀ (a w : lisp_object_t) (h1 h2 : lisp_heap) (cells attrs : List lisp_object_t),
        ev h environment (lisp_cell_car g h (lisp_cell_cdr g h cell)) = .ok (a, h1) →
        a ≠ g.lisp_NIL → lisp_object_get_tag a = lisp_tag_atom →
        ev h1 environment
          (lisp_cell_car g h1 (lisp_cell_cdr g h (lisp_cell_cdr g h cell))) = .ok (w, h2) →
        plist_spine g h2 environment cells = true → plist_wf g h2 cells = true →
        frame_entry_wf g h2 a cells attrs = true →
        h2.lisp_heap_cur % 16 = 0 → heap_free h2 4 = true →
        cells.length + attrs.length + 4 < fuel →
        ∃ (h' : lisp_heap) (written : lisp_object_t) (cells' : List lisp_object_t)
            (entry : lisp_object_t),
          lisp_eval_SET g ev fuel h environment cell = .ok (w, h')
          ∧ lisp_environment_get_symbol_value g fuel h' environment a g.lisp_APVAL g.lisp_NIL
              = .ok w
          ∧ plist_spine g h' environment cells' = true
          ∧ plist_assoc g h' a cells' = some entry
          ∧ (∀ e, plist_assoc g h2 a cells = some e → entry = e ∧ cells' = cells)
          ∧ (plist_assoc g h2 a cells = none → h2.lisp_heap_cur ≤ entry
              ∧ lisp_cell_car g h' entry = a ∧ cells'.length = cells.length + 1)
          ∧ written ∈ cells ++ cells.map (lisp_cell_car g h2) ++ attrs
              ++ attrs.map (lisp_cell_car g h2)
          ∧ (∀ x, x < h2.lisp_heap_cur → x ≠ written → heap_read h' x = heap_read h2 x)
          ∧ (∀ (frame type : lisp_object_t) (frame_cells frame_attrs : List lisp_object_t),
              lisp_object_get_tag type = lisp_tag_atom →
              plist_spine g h2 frame frame_cells = true →
              frame_attrs_ok g h2 a frame_cells frame_attrs = true →
              (∀ x ∈ frame_cells ++ frame_cells.map (lisp_cell_car g h2) ++ frame_attrs
                    ++ frame_attrs.map (lisp_cell_car g h2),
                 x < h2.lisp_heap_cur ∧ x ≠ written) →
              frame_cells.length + frame_attrs.length + 2 < fuel →
              lisp_environment_get_symbol_value g fuel h' frame a type g.lisp_NIL
                = lisp_environment_get_symbol_value g fuel h2 frame a type g.lisp_NIL))
    ∧ (∀ h1 : lisp_heap,
        ev h environment (lisp_cell_car g h (lisp_cell_cdr g h cell)) = .ok (g.lisp_NIL, h1) →
        lisp_eval_SET g ev fuel h environment cell = .ok (g.lisp_NIL, h1)) := by
  constructor
  · intro a w h1 h2 cells attrs hn haN ha hv hsp hwf hent halign hfree hfuel
    obtain ⟨h', cells', e', attrs', wr, r1, r2, r3, r4, r5, r6, r7, _, r9, r10, _, _, _, r14,
      r15, r16, r17, _, r19, r20⟩ :=
      set_symbol_value_spec g hg h2 environment a g.lisp_APVAL w cells attrs fuel ha
        hg.APVAL_atom hsp hwf hent halign hfree (by omega)
    refine ⟨h', wr, cells', e', ?_, ?_, r2, r3, r19, r20, r14, r17, ?_⟩
    · unfold lisp_eval_SET
      simp only [bind, Except.bind, hn, ne_eq, haN, not_false_eq_true, ↓reduceIte, hv]
      exact r1
    · rw [get_symbol_value_frame g hg h' environment a g.lisp_APVAL cells' attrs' ha
        hg.APVAL_atom r2 (by unfold frame_attrs_ok; rw [r3]; exact r6) fuel (by omega)]
      unfold frame_value
      rw [r3]
      simp only [aligned_ne_NIL g hg e' r4, ↓reduceIte, r7]
    · intro P t cellsP attrsP ht hspP hatP hobj hfuelP
      have hobj' : ∀ x ∈ cellsP ++ cellsP.map (lisp_cell_car g h2) ++ attrsP
          ++ attrsP.map (lisp_cell_car g h2),
          x ∉ [h2.lisp_heap_cur, h2.lisp_heap_cur + 16, h2.lisp_heap_cur + 32,
                h2.lisp_heap_cur + 48] ∧ x ∉ [wr] := by
        intro x hx
        obtain ⟨hlt, hne⟩ := hobj x hx
        simp only [List.mem_cons, List.mem_singleton, List.not_mem_nil, or_false, not_or]
        exact ⟨⟨Nat.ne_of_lt hlt, Nat.ne_of_lt (Nat.lt_of_lt_of_le hlt (Nat.le_add_right _ _)),
          Nat.ne_of_lt (Nat.lt_of_lt_of_le hlt (Nat.le_add_right _ _)),
          Nat.ne_of_lt (Nat.lt_of_lt_of_le hlt (Nat.le_add_right _ _))⟩, hne⟩
      obtain ⟨q1, q2, q3⟩ := frame_value_update g h2 h' _ _ r16 P a t cellsP attrsP hspP hatP
        hobj'
      rw [get_symbol_value_frame g hg h' P a t cellsP attrsP ha ht q1 q2 fuel hfuelP,
        get_symbol_value_frame g hg h2 P a t cellsP attrsP ha ht hspP hatP fuel hfuelP, q3]
  · intro h1 hn
    unfold lisp_eval_SET
    simp [bind, Except.bind, hn, pure, Except.pure]

/-- The amended claim C12: when the frame of the environment itself holds no
`SUBR` and no `EXPR` for the atom `x`, and `v` evaluates to `w`,
`lisp_eval_SETQ` on `(SETQ x v)` returns `w`, and in the heap it leaves
`lisp_eval` of `x` in the same environment gives `w`. -/
theorem C12_SETQ_then_eval (g : lisp_globals) (hg : globals_wf g) (ev : lisp_eval_fn)
    (environment cell : lisp_object_t) (h h1 : lisp_heap) (w : lisp_object_t)
    (cells attrs : List lisp_object_t) (fuel : Nat)
    (hx : lisp_object_get_tag (lisp_cell_car g h (lisp_cell_cdr g h cell)) = lisp_tag_atom)
    (hv : ev h environment
      (lisp_cell_car g h (lisp_cell_cdr g h (lisp_cell_cdr g h cell))) = .ok (w, h1))
    (hsp : plist_spine g h1 environment cells = true) (hwf : plist_wf g h1 cells = true)
    (hent : frame_entry_wf g h1 (lisp_cell_car g h (lisp_cell_cdr g h cell)) cells attrs = true)
    (hfun : no_function_binding g h1 (lisp_cell_car g h (lisp_cell_cdr g h cell)) cells attrs
      = true)
    (hkeys : atom_key_equal h1 g.lisp_SUBR g.lisp_APVAL = false
      ∧ atom_key_equal h1 g.lisp_EXPR g.lisp_APVAL = false)
    (halign : h1.lisp_heap_cur % 16 = 0) (hfree : heap_free h1 4 = true)
    (hfuel : cells.length + attrs.length + 6 < fuel) :
    ∃ h' : lisp_heap,
      lisp_eval_SETQ g ev fuel h environment cell = .ok (w, h')
        ∧ lisp_eval g fuel h' environment (lisp_cell_car g h (lisp_cell_cdr g h cell))
            = .ok (w, h') := by
  obtain ⟨h', cells', e', attrs', wr, r1, r2, r3, r4, r5, r6, r7, r8, r9, r10, _⟩ :=
    set_symbol_value_spec g hg h1 environment (lisp_cell_car g h (lisp_cell_cdr g h cell))
      g.lisp_APVAL w cells attrs fuel hx hg.APVAL_atom hsp hwf hent halign hfree (by omega)
  have hother : ∀ t, atom_key_equal h1 t g.lisp_APVAL = false →
      (set_symbol_creates g h1 (lisp_cell_car g h (lisp_cell_cdr g h cell)) cells = true
        ∨ plist_value g h1 t attrs = g.lisp_NIL) →
      plist_value g h' t attrs' = g.lisp_NIL := by
    intro t ht hc
    rw [r8 t ht]
    rcases hc with hc | hc
    · simp [hc]
    · simp [hc]
  unfold no_function_binding at hfun
  simp only [Bool.or_eq_true, Bool.and_eq_true, decide_eq_true_eq] at hfun
  have hSUBR : plist_value g h' g.lisp_SUBR attrs' = g.lisp_NIL :=
    hother _ hkeys.1 (hfun.imp id (fun x => x.1))
  have hEXPR : plist_value g h' g.lisp_EXPR attrs' = g.lisp_NIL :=
    hother _ hkeys.2 (hfun.imp id (fun x => x.2))
  refine ⟨h', ?_, ?_⟩
  · unfold lisp_eval_SETQ
    simp only [bind, Except.bind, hv]
    exact r1
  · obtain ⟨n, rfl⟩ : ∃ n, fuel = n + 1 := ⟨fuel - 1, by omega⟩
    unfold lisp_eval
    simp only [hx, ↓reduceIte, bind, Except.bind]
    rw [eval_atom_own g hg h' environment _ cells' attrs' e' hx r2 r3 r4 r5 r6 n (by omega)]
    simp [hSUBR, hEXPR, r7, pure, Except.pure]

set_option maxRecDepth 100000 in
theorem example_sforms_globals_wf : globals_wf example_sforms.g := by
  have H : example_sforms.g.lisp_T ≠ example_sforms.g.lisp_NIL
      ∧ lisp_object_get_tag example_sforms.g.lisp_NIL = lisp_tag_atom
      ∧ lisp_object_get_tag example_sforms.g.lisp_APVAL = lisp_tag_atom
      ∧ lisp_object_get_tag example_sforms.g.lisp_EXPR = lisp_tag_atom
      ∧ lisp_object_get_tag example_sforms.g.lisp_SUBR = lisp_tag_atom
      ∧ lisp_object_get_tag example_sforms.g.lisp_SI_PARENT_ENVIRONMENT = lisp_tag_atom := by
    decide!
  exact ⟨H.1, H.2.1, H.2.2.1, H.2.2.2.1, H.2.2.2.2.1, H.2.2.2.2.2⟩

set_option maxRecDepth 100000 in
/-- C14 on the form `(SET 'X 'Y)` of `test_evaluating_SET`, evaluated in a
child of an environment that binds `X` to 1: the form returns `Y`, the `APVAL`
of `X` in the child is `Y`, and the lookup of `X` in the parent gives what it
gave before. -/
theorem C14_SET_binds_in_own_frame_witness :
    ∃ h' : lisp_heap,
      lisp_eval_SET example_sforms.g (lisp_eval example_sforms.g 16) 16 example_SET.h
          example_SET.environment example_SET.form = .ok (example_SET.Y, h')
        ∧ lisp_environment_get_symbol_value example_sforms.g 16 h' example_SET.environment
            example_SET.X example_sforms.g.lisp_APVAL example_sforms.g.lisp_NIL
            = .ok example_SET.Y
        ∧ lisp_environment_get_symbol_value example_sforms.g 16 h' example_SET.parent
            example_SET.X example_sforms.g.lisp_APVAL example_sforms.g.lisp_NIL
            = lisp_environment_get_symbol_value example_sforms.g 16 example_SET_second.2
                example_SET.parent example_SET.X example_sforms.g.lisp_APVAL
                example_sforms.g.lisp_NIL := by
  have H : run_ok (lisp_eval example_sforms.g 16 example_SET.h example_SET.environment
          (lisp_cell_car example_sforms.g example_SET.h
            (lisp_cell_cdr example_sforms.g example_SET.h example_SET.form))) = true
      ∧ run_ok (lisp_eval example_sforms.g 16 example_SET_first.2 example_SET.environment
          (lisp_cell_car example_sforms.g example_SET_first.2
            (lisp_cell_cdr example_sforms.g example_SET.h
              (lisp_cell_cdr example_sforms.g example_SET.h example_SET.form)))) = true
      ∧ example_SET_first.1 = example_SET.X
      ∧ example_SET.X ≠ example_sforms.g.lisp_NIL
      ∧ lisp_object_get_tag example_SET.X = lisp_tag_atom
      ∧ example_SET_second.1 = example_SET.Y
      ∧ plist_spine example_sforms.g example_SET_second.2 example_SET.environment
          example_SET_cells = true
      ∧ plist_wf example_sforms.g example_SET_second.2 example_SET_cells = true
      ∧ frame_entry_wf example_sforms.g example_SET_second.2 example_SET.X example_SET_cells []
          = true
      ∧ example_SET_second.2.lisp_heap_cur % 16 = 0
      ∧ heap_free example_SET_second.2 4 = true
      ∧ example_SET_cells.length + ([] : List lisp_object_t).length + 4 < 16
      ∧ plist_spine example_sforms.g example_SET_second.2 example_SET.parent
          example_SET_parent.1 = true
      ∧ frame_attrs_ok example_sforms.g example_SET_second.2 example_SET.X
          example_SET_parent.1 example_SET_parent.2 = true
      ∧ (example_SET_parent.1
            ++ example_SET_parent.1.map (lisp_cell_car example_sforms.g example_SET_second.2)
            ++ example_SET_parent.2
            ++ example_SET_parent.2.map (lisp_cell_car example_sforms.g example_SET_second.2)).all
          (fun x => decide (x < example_SET_second.2.lisp_heap_cur)
            && decide (x ∉ example_SET_cells
                ++ example_SET_cells.map (lisp_cell_car example_sforms.g example_SET_second.2)
                ++ [] ++ ([] : List lisp_object_t).map
                    (lisp_cell_car example_sforms.g example_SET_second.2))) = true
      ∧ example_SET_parent.1.length + example_SET_parent.2.length + 2 < 16 := by
    decide!
  obtain ⟨H1, H2, H3, H4, H5, H6, H7, H8, H9, H10, H11, H12, H13, H14, H15, H16⟩ := H
  obtain ⟨h', written, cells', entry, c1, c2, _, _, _, _, c7, _, c9⟩ :=
    (C14_SET_binds_in_own_frame example_sforms.g example_sforms_globals_wf
      (lisp_eval example_sforms.g 16) example_SET.environment example_SET.form example_SET.h
      16).1 example_SET_first.1 example_SET_second.1 example_SET_first.2 example_SET_second.2
      example_SET_cells [] (run_get_ok _ H1) (by rw [H3]; exact H4) (by rw [H3]; exact H5)
      (run_get_ok _ H2) H7 H8 (by rw [H3]; exact H9) H10 H11 H12
  rw [H3] at c2 c9
  rw [H6] at c1 c2
  refine ⟨h', c1, c2, ?_⟩
  apply c9 example_SET.parent example_sforms.g.lisp_APVAL example_SET_parent.1
    example_SET_parent.2 example_sforms_globals_wf.APVAL_atom H13 H14 ?_ H16
  intro x hx
  rw [List.all_eq_true] at H15
  have := H15 x hx
  simp only [Bool.and_eq_true, decide_eq_true_eq] at this
  refine ⟨this.1, ?_⟩
  intro e
  exact this.2 (e ▸ c7)

set_option maxRecDepth 100000 in
/-- The amended C12 on the form `(SETQ X 1)` evaluated in a new environment:
the form returns the fixnum 1, and afterwards `X` evaluates to it. -/
theorem C12_SETQ_then_eval_witness :
    ∃ h' : lisp_heap,
      lisp_eval_SETQ example_sforms.g (lisp_eval example_sforms.g 16) 16 example_SETQ.h
          example_SETQ.environment example_SETQ.form = .ok (lisp_fixnum_create true 1, h')
        ∧ lisp_eval example_sforms.g 16 h' example_SETQ.environment example_SETQ.X
            = .ok (lisp_fixnum_create true 1, h') := by
  have H : run_ok (lisp_eval example_sforms.g 16 example_SETQ.h example_SETQ.environment
          (lisp_cell_car example_sforms.g example_SETQ.h
            (lisp_cell_cdr example_sforms.g example_SETQ.h
              (lisp_cell_cdr example_sforms.g example_SETQ.h example_SETQ.form)))) = true
      ∧ lisp_cell_car example_sforms.g example_SETQ.h
          (lisp_cell_cdr example_sforms.g example_SETQ.h example_SETQ.form) = example_SETQ.X
      ∧ lisp_object_get_tag example_SETQ.X = lisp_tag_atom
      ∧ example_SETQ_value.1 = lisp_fixnum_create true 1
      ∧ plist_spine example_sforms.g example_SETQ_value.2 example_SETQ.environment
          example_SETQ_cells = true
      ∧ plist_wf example_sforms.g example_SETQ_value.2 example_SETQ_cells = true
      ∧ frame_entry_wf example_sforms.g example_SETQ_value.2 example_SETQ.X
          example_SETQ_cells [] = true
      ∧ no_function_binding example_sforms.g example_SETQ_value.2 example_SETQ.X
          example_SETQ_cells [] = true
      ∧ atom_key_equal example_SETQ_value.2 example_sforms.g.lisp_SUBR
          example_sforms.g.lisp_APVAL = false
      ∧ atom_key_equal example_SETQ_value.2 example_sforms.g.lisp_EXPR
          example_sforms.g.lisp_APVAL = false
      ∧ example_SETQ_value.2.lisp_heap_cur % 16 = 0
      ∧ heap_free example_SETQ_value.2 4 = true
      ∧ example_SETQ_cells.length + ([] : List lisp_object_t).length + 6 < 16 := by
    decide!
  obtain ⟨H1, H2, H3, H4, H5, H6, H7, H8, H9, H10, H11, H12, H13⟩ := H
  obtain ⟨h', c1, c2⟩ :=
    C12_SETQ_then_eval example_sforms.g example_sforms_globals_wf
      (lisp_eval example_sforms.g 16) example_SETQ.environment example_SETQ.form
      example_SETQ.h example_SETQ_value.2 example_SETQ_value.1 example_SETQ_cells [] 16
      (by rw [H2]; exact H3) (run_get_ok _ H1) H5 H6 (by rw [H2]; exact H7)
      (by rw [H2]; exact H8) ⟨H9, H10⟩ H11 H12 H13
  rw [H2] at c2
  rw [H4] at c1 c2
  exact ⟨h', c1, c2⟩

set_option maxRecDepth 100000 in
/-- Claim C12 as stated fails when the frame holds a function for the atom:
after `(DEFINE F (LAMBDA (A) A))`, the form `(SETQ F 5)` returns the fixnum 5
but `F` still evaluates to the lambda form, not to 5. -/
theorem C12_SETQ_of_defined_function_counterexample :
    (run_value example_SETQ_function).map (fun r => (r.1, decide (r.2.1 = r.2.2)))
        = some (lisp_fixnum_create true 5, true)
      ∧ (run_value example_SETQ_function).map
          (fun r => decide (r.2.1 = lisp_fixnum_create true 5)) = some false := by
  decide!


/-! ## A variable of an application frame -/

theorem eval_bound_variable (g : lisp_globals) (hg : globals_wf g) (H : lisp_heap) (A0 : Nat)
    (hA : A0 % 16 = 0) (L : List (Nat × Nat)) (hL : L ≠ []) (hb : frame_blocks g H A0 L)
    (hkeys : keys_fresh H (L.map Prod.fst) = true)
    (hS : atom_key_equal H g.lisp_SUBR g.lisp_APVAL = false)
    (hE : atom_key_equal H g.lisp_EXPR g.lisp_APVAL = false)
    (kv : Nat × Nat) (hkv : kv ∈ L) (ha : lisp_object_get_tag kv.1 = lisp_tag_atom)
    (fuel : Nat) (hfuel : L.length + 4 < fuel) :
    lisp_eval g fuel H (A0 + 48) kv.1 = .ok (kv.2, H) := by
  obtain ⟨c, next, hc16, hbind, hassoc⟩ := blocks_locate g H L A0 hA hb hkeys kv hkv
  obtain ⟨_, _, q3, q4, q5, q6, q7, q8⟩ := binding_at_reads g hg H c kv.1 kv.2 next hc16 hbind
  have hsp := blocks_spine g hg H L A0 hL hA hb
  have has := blocks_assoc g hg H kv.1 L A0 hA hb
  rw [hassoc] at has
  obtain ⟨n, rfl⟩ : ∃ n, fuel = n + 1 := ⟨fuel - 1, by omega⟩
  unfold lisp_eval
  simp only [ha, ↓reduceIte, bind, Except.bind]
  rw [eval_atom_own g hg H (A0 + 48) kv.1 (block_cells A0 L) [c + 16] (c + 32) ha hsp has
    (by omega) (by rw [q4]; exact aligned_ne_NIL g hg _ (by omega))
    (by rw [q4]; simp [plist_spine, q6]) n
    (by rw [block_cells_length]; simp only [List.length_singleton]; omega)]
  simp [plist_value, plist_assoc, q5, q7, q8, hS, hE, atom_key_equal_self, pure, Except.pure]

theorem car_cdr_cons_old (g : lisp_globals) (h : lisp_heap) (a b x : Nat)
    (hx : lisp_object_get_raw_value x < h.lisp_heap_cur) :
    heap_read (cons_heap h a b) (lisp_object_get_raw_value x)
        = heap_read h (lisp_object_get_raw_value x)
      ∧ lisp_cell_car g (cons_heap h a b) x = lisp_cell_car g h x
      ∧ lisp_cell_cdr g (cons_heap h a b) x = lisp_cell_cdr g h x := by
  have e : heap_read (cons_heap h a b) (lisp_object_get_raw_value x)
      = heap_read h (lisp_object_get_raw_value x) := by
    rw [cons_heap_read]
    simp [Nat.ne_of_lt hx]
  exact ⟨e, (lisp_cell_car_congr g h _ x e).1, (lisp_cell_car_congr g h _ x e).2⟩

/-- The argument list of an application with one argument form. -/
theorem eval_one_argument (g : lisp_globals) (hg : globals_wf g) (ev : lisp_eval_fn)
    (environment list : Nat) (h hx : lisp_heap) (v : Nat) (fuel : Nat)
    (hlist : list_cells g h list [list] = true)
    (hev : ev h environment (lisp_cell_car g h list) = .ok (v, hx))
    (hcdr : lisp_cell_cdr g hx list = g.lisp_NIL)
    (hold : lisp_object_get_raw_value list < hx.lisp_heap_cur)
    (hfuel : 0 < fuel) :
    lisp_eval_argument_list g ev fuel h environment list
      = .ok (hx.lisp_heap_cur, cons_heap hx v g.lisp_NIL) := by
  obtain ⟨n, rfl⟩ : ∃ n, fuel = n + 1 := ⟨fuel - 1, by omega⟩
  have hne := list_cells_ne_NIL g hg h list list [] hlist
  obtain ⟨_, hcp, _⟩ := list_cells_head g h list list [] hlist
  unfold lisp_eval_argument_list
  simp only [hne, hcp, or_self, ↓reduceIte]
  unfold lisp_eval_argument_list_loop
  simp only [bind, Except.bind, hev, lisp_cell_cons_heap, ne_eq, not_true_eq_false, ↓reduceIte,
    pure, Except.pure]
  rw [(car_cdr_cons_old g hx v g.lisp_NIL list hold).2.2, hcdr]
  simp

theorem identity_lambda_parts (g : lisp_globals) (h : lisp_heap) (lambda a : Nat)
    (hid : identity_lambda g h lambda a = true) :
    lisp_cellp g lambda ≠ g.lisp_NIL
      ∧ list_cells g h (lisp_cell_car g h (lisp_cell_cdr g h lambda))
          [lisp_cell_car g h (lisp_cell_cdr g h lambda)] = true
      ∧ lisp_cell_car g h (lisp_cell_car g h (lisp_cell_cdr g h lambda)) = a
      ∧ list_cells g h (lisp_cell_cdr g h (lisp_cell_cdr g h lambda))
          [lisp_cell_cdr g h (lisp_cell_cdr g h lambda)] = true
      ∧ lisp_cell_car g h (lisp_cell_cdr g h (lisp_cell_cdr g h lambda)) = a
      ∧ lisp_object_get_tag a = lisp_tag_atom := by
  unfold identity_lambda at hid
  simp only [Bool.and_eq_true, decide_eq_true_eq] at hid
  exact ⟨hid.1.1.1.1.1, hid.1.1.1.1.2, hid.1.1.1.2, hid.1.1.2, hid.1.2, hid.2⟩

/-- The application of a lambda form of the shape `(LAMBDA (a) a)` to one
value returns that value. -/
theorem apply_identity_lambda (g : lisp_globals) (hg : globals_wf g) (h : lisp_heap)
    (environment lambda a args v : Nat) (k : Nat)
    (halign : h.lisp_heap_cur % 16 = 0)
    (hid : identity_lambda g h lambda a = true)
    (hargs : list_cells g h args [args] = true) (hv : lisp_cell_car g h args = v)
    (hold : ([lambda, lisp_cell_cdr g h lambda,
        lisp_cell_car g h (lisp_cell_cdr g h lambda),
        lisp_cell_cdr g h (lisp_cell_cdr g h lambda), args, g.lisp_SI_PARENT_ENVIRONMENT, a,
        g.lisp_SUBR, g.lisp_EXPR, g.lisp_APVAL]).all
      (fun x => decide (lisp_object_get_raw_value x < h.lisp_heap_cur)) = true)
    (hkeys : keys_fresh h [g.lisp_SI_PARENT_ENVIRONMENT, a] = true)
    (hS : atom_key_equal h g.lisp_SUBR g.lisp_APVAL = false)
    (hE : atom_key_equal h g.lisp_EXPR g.lisp_APVAL = false)
    (hfuel : 6 < k) :
    ∃ H : lisp_heap, lisp_apply g (k + 1) h environment lambda args = .ok (v, H) := by
  obtain ⟨i1, i2, i3, i4, i5, i6⟩ := identity_lambda_parts g h lambda a hid
  simp only [List.all_eq_true, decide_eq_true_eq] at hold
  obtain ⟨r1, _, r3, _, _, r6, r7⟩ := apply_lambda_spec g hg h environment lambda args
    [lisp_cell_car g h (lisp_cell_cdr g h lambda)] [args]
    [lisp_cell_cdr g h (lisp_cell_cdr g h lambda)] k halign i1 i2 (by simp) hargs rfl i4
    (by
      simp only [List.all_eq_true, decide_eq_true_eq]
      intro x hx
      apply hold x
      simp only [List.map_cons, List.map_nil, List.cons_append, List.nil_append, List.mem_cons,
        List.not_mem_nil, or_false, i3] at hx ⊢
      tauto)
    (by simpa [i3] using hkeys)
    (by simp only [List.length_singleton]; omega)
  simp only [List.map_cons, List.map_nil, i3, i5, hv, List.zip_cons_cons, List.zip_nil_right]
    at r1 r6
  have hread : ∀ x, lisp_object_get_raw_value x < h.lisp_heap_cur →
      heap_read (apply_frame g k h environment lambda args).2 (lisp_object_get_raw_value x)
        = heap_read h (lisp_object_get_raw_value x) := fun x hx => r3 _ hx
  have hkeys' : keys_fresh (apply_frame g k h environment lambda args).2
      [g.lisp_SI_PARENT_ENVIRONMENT, a] = true := by
    rw [keys_fresh_congr h _ _ (fun x hx => hread x (hold x (by
      simp only [List.mem_cons, List.not_mem_nil, or_false] at hx ⊢; tauto)))]
    exact hkeys
  have hS' : atom_key_equal (apply_frame g k h environment lambda args).2 g.lisp_SUBR
      g.lisp_APVAL = false := by
    rw [atom_key_equal_congr h _ _ _ (hread _ (hold _ (by simp))) (hread _ (hold _ (by simp)))]
    exact hS
  have hE' : atom_key_equal (apply_frame g k h environment lambda args).2 g.lisp_EXPR
      g.lisp_APVAL = false := by
    rw [atom_key_equal_congr h _ _ _ (hread _ (hold _ (by simp))) (hread _ (hold _ (by simp)))]
    exact hE
  have hev := eval_bound_variable g hg (apply_frame g k h environment lambda args).2
    h.lisp_heap_cur halign _ (by simp) r6 (by simpa using hkeys') hS' hE' (a, v) (by simp) i6 k
    (by simp only [List.length_cons, List.length_nil]; omega)
  rw [← r7] at hev
  simp only at hev
  refine ⟨(apply_frame g k h environment lambda args).2, ?_⟩
  rw [r1 (by simp [body_stable, hev])]
  simp [eval_body, hev, bind, Except.bind, pure, Except.pure]

theorem lisp_atomp_ne_NIL (g : lisp_globals) (hg : globals_wf g) (o : Nat)
    (ho : lisp_object_get_tag o = lisp_tag_atom) : lisp_atomp g o ≠ g.lisp_NIL := by
  unfold lisp_atomp lisp_object_has_tag
  simp [ho, hg.T_ne_NIL]

theorem identity_lambda_cons (g : lisp_globals) (hx : lisp_heap) (v lambda a : Nat)
    (hid : identity_lambda g hx lambda a = true)
    (o1 : lisp_object_get_raw_value lambda < hx.lisp_heap_cur)
    (o2 : lisp_object_get_raw_value (lisp_cell_cdr g hx lambda) < hx.lisp_heap_cur)
    (o3 : lisp_object_get_raw_value (lisp_cell_car g hx (lisp_cell_cdr g hx lambda))
      < hx.lisp_heap_cur)
    (o4 : lisp_object_get_raw_value (lisp_cell_cdr g hx (lisp_cell_cdr g hx lambda))
      < hx.lisp_heap_cur) :
    identity_lambda g (cons_heap hx v g.lisp_NIL) lambda a = true
      ∧ lisp_cell_cdr g (cons_heap hx v g.lisp_NIL) lambda = lisp_cell_cdr g hx lambda
      ∧ lisp_cell_car g (cons_heap hx v g.lisp_NIL) (lisp_cell_cdr g hx lambda)
          = lisp_cell_car g hx (lisp_cell_cdr g hx lambda)
      ∧ lisp_cell_cdr g (cons_heap hx v g.lisp_NIL) (lisp_cell_cdr g hx lambda)
          = lisp_cell_cdr g hx (lisp_cell_cdr g hx lambda) := by
  obtain ⟨i1, i2, i3, i4, i5, i6⟩ := identity_lambda_parts g hx lambda a hid
  have c1 := car_cdr_cons_old g hx v g.lisp_NIL _ o1
  have c2 := car_cdr_cons_old g hx v g.lisp_NIL _ o2
  have c3 := car_cdr_cons_old g hx v g.lisp_NIL _ o3
  have c4 := car_cdr_cons_old g hx v g.lisp_NIL _ o4
  refine ⟨?_, c1.2.2, c2.2.1, c2.2.2⟩
  have l3 : list_cells g (cons_heap hx v g.lisp_NIL)
      (lisp_cell_car g hx (lisp_cell_cdr g hx lambda))
      [lisp_cell_car g hx (lisp_cell_cdr g hx lambda)] = true := by
    rw [list_cells_congr g hx _ [_] _ (fun x hx' => by
      simp only [List.mem_singleton] at hx'; subst hx'; exact c3.1)]
    exact i2
  have l4 : list_cells g (cons_heap hx v g.lisp_NIL)
      (lisp_cell_cdr g hx (lisp_cell_cdr g hx lambda))
      [lisp_cell_cdr g hx (lisp_cell_cdr g hx lambda)] = true := by
    rw [list_cells_congr g hx _ [_] _ (fun x hx' => by
      simp only [List.mem_singleton] at hx'; subst hx'; exact c4.1)]
    exact i4
  unfold identity_lambda
  rw [c1.2.2, c2.2.1, c2.2.2, c3.2.1, c4.2.1, l3, l4]
  simp [i1, i3, i5, i6]

/-- The application `(f x)` when the frame gives the lambda form
`(LAMBDA (a) a)` for `f`. -/
theorem apply_defined_identity (g : lisp_globals) (hg : globals_wf g)
    (environment f lambda : Nat) (h' : lisp_heap) (cells' attrs' : List Nat) (e' : Nat)
    (hf : lisp_object_get_tag f = lisp_tag_atom)
    (r2 : plist_spine g h' environment cells' = true)
    (r3 : plist_assoc g h' f cells' = some e') (r4 : e' % 16 = 0)
    (r5 : lisp_cell_cdr g h' e' ≠ g.lisp_NIL)
    (r6 : plist_spine g h' (lisp_cell_cdr g h' e') attrs' = true)
    (r7 : plist_value g h' g.lisp_EXPR attrs' = lambda)
    (hSUBR : plist_value g h' g.lisp_SUBR attrs' = g.lisp_NIL)
    (a application v : Nat) (hx : lisp_heap) (n : Nat)
    (hnsf : lisp_eval_is_special_form g f = false)
    (happ : lisp_object_get_tag application = lisp_tag_cell)
    (hcar : lisp_cell_car g h' application = f)
    (hlist : list_cells g h' (lisp_cell_cdr g h' application)
      [lisp_cell_cdr g h' application] = true)
    (hev : lisp_eval g n h' environment
      (lisp_cell_car g h' (lisp_cell_cdr g h' application)) = .ok (v, hx))
    (hcdr : lisp_cell_cdr g hx (lisp_cell_cdr g h' application) = g.lisp_NIL)
    (hid : identity_lambda g hx lambda a = true)
    (hxalign : hx.lisp_heap_cur % 16 = 0)
    (hold : ([lisp_cell_cdr g h' application, lambda, lisp_cell_cdr g hx lambda,
        lisp_cell_car g hx (lisp_cell_cdr g hx lambda),
        lisp_cell_cdr g hx (lisp_cell_cdr g hx lambda),
        g.lisp_SI_PARENT_ENVIRONMENT, a, g.lisp_SUBR, g.lisp_EXPR, g.lisp_APVAL]).all
      (fun x => decide (lisp_object_get_raw_value x < hx.lisp_heap_cur)) = true)
    (hkeys : keys_fresh hx [g.lisp_SI_PARENT_ENVIRONMENT, a] = true)
    (hS : atom_key_equal hx g.lisp_SUBR g.lisp_APVAL = false)
    (hE : atom_key_equal hx g.lisp_EXPR g.lisp_APVAL = false)
    (hn1 : cells'.length + attrs'.length + 2 < n) (hn2 : 9 < n) :
    ∃ h'' : lisp_heap, lisp_eval g (n + 2) h' environment application = .ok (v, h'') := by
  obtain ⟨i1, _, _, _, _, _⟩ := identity_lambda_parts g hx lambda a hid
  simp only [List.all_cons, List.all_nil, Bool.and_true, Bool.and_eq_true,
    decide_eq_true_eq] at hold
  obtain ⟨oxc, o1, o2, o3, o4, oP, oa, oS, oE, oA⟩ := hold
  have hlam_ne : lambda ≠ g.lisp_NIL := by
    intro e
    rw [e] at i1
    exact i1 (lisp_cellp_NIL g hg)
  have hfun : lisp_eval_atom g n h' environment f = .ok lambda := by
    rw [eval_atom_own g hg h' environment _ cells' attrs' e' hf r2 r3 r4 r5 r6 n hn1]
    simp [hSUBR, r7, hlam_ne]
  obtain ⟨k, rfl⟩ : ∃ k, n = k + 1 := ⟨n - 1, by omega⟩
  have hargs := eval_one_argument g hg (lisp_eval g (k + 1)) environment
    (lisp_cell_cdr g h' application) h' hx v (k + 1) hlist hev hcdr oxc (by omega)
  obtain ⟨hid2, e1, e2, e3⟩ := identity_lambda_cons g hx v lambda a hid o1 o2 o3 o4
  have hnew := lisp_cell_car_cell g hg (cons_heap hx v g.lisp_NIL) hx.lisp_heap_cur v
    g.lisp_NIL hxalign (by rw [cons_heap_read]; simp)
  have hcp_new : lisp_cellp g hx.lisp_heap_cur ≠ g.lisp_NIL := by
    rw [Ne, lisp_cellp_eq_NIL g hg]; simp [hxalign]
  have hraw_new : lisp_object_get_raw_value hx.lisp_heap_cur = hx.lisp_heap_cur :=
    raw_value_aligned _ hxalign
  have hrd : ∀ x, lisp_object_get_raw_value x < hx.lisp_heap_cur →
      heap_read (cons_heap hx v g.lisp_NIL) (lisp_object_get_raw_value x)
        = heap_read hx (lisp_object_get_raw_value x) :=
    fun x hx' => (car_cdr_cons_old g hx v g.lisp_NIL x hx').1
  have hkeys2 : keys_fresh (cons_heap hx v g.lisp_NIL) [g.lisp_SI_PARENT_ENVIRONMENT, a]
      = true := by
    rw [keys_fresh_congr hx _ _ (fun x hx' => by
      simp only [List.mem_cons, List.not_mem_nil, or_false] at hx'
      rcases hx' with e | e
      · subst e; exact hrd _ oP
      · subst e; exact hrd _ oa)]
    exact hkeys
  have hS2 : atom_key_equal (cons_heap hx v g.lisp_NIL) g.lisp_SUBR g.lisp_APVAL = false := by
    rw [atom_key_equal_congr hx _ _ _ (hrd _ oS) (hrd _ oA)]
    exact hS
  have hE2 : atom_key_equal (cons_heap hx v g.lisp_NIL) g.lisp_EXPR g.lisp_APVAL = false := by
    rw [atom_key_equal_congr hx _ _ _ (hrd _ oE) (hrd _ oA)]
    exact hE
  have hold2 : ([lambda, lisp_cell_cdr g (cons_heap hx v g.lisp_NIL) lambda,
      lisp_cell_car g (cons_heap hx v g.lisp_NIL)
        (lisp_cell_cdr g (cons_heap hx v g.lisp_NIL) lambda),
      lisp_cell_cdr g (cons_heap hx v g.lisp_NIL)
        (lisp_cell_cdr g (cons_heap hx v g.lisp_NIL) lambda), hx.lisp_heap_cur,
      g.lisp_SI_PARENT_ENVIRONMENT, a, g.lisp_SUBR, g.lisp_EXPR, g.lisp_APVAL]).all
      (fun x => decide (lisp_object_get_raw_value x
        < (cons_heap hx v g.lisp_NIL).lisp_heap_cur)) = true := by
    rw [e1, e2, e3, cons_heap_cur]
    simp only [List.all_cons, List.all_nil, Bool.and_true, Bool.and_eq_true,
      decide_eq_true_eq, hraw_new]
    have w : ∀ y : Nat, y < hx.lisp_heap_cur → y < hx.lisp_heap_cur + 16 :=
      fun y hy => Nat.lt_of_lt_of_le hy (Nat.le_add_right _ _)
    exact ⟨w _ o1, w _ o2, w _ o3, w _ o4, Nat.lt_add_of_pos_right (by norm_num), w _ oP,
      w _ oa, w _ oS, w _ oE, w _ oA⟩
  obtain ⟨H, hap⟩ := apply_identity_lambda g hg (cons_heap hx v g.lisp_NIL) environment
    lambda a hx.lisp_heap_cur v k (by rw [cons_heap_cur]; omega) hid2
    (by simp [list_cells, hcp_new, hnew.2]) hnew.1 hold2 hkeys2 hS2 hE2 (by omega)
  refine ⟨H, ?_⟩
  have htag : ¬ lisp_object_get_tag application = lisp_tag_atom := by
    rw [happ]; decide
  unfold lisp_eval
  simp only [htag, happ, ↓reduceIte]
  unfold lisp_eval_cell
  simp only [hcar, lisp_atomp_ne_NIL g hg _ hf, ne_eq, not_false_eq_true, ↓reduceIte, hnsf,
    Bool.false_eq_true, bind, Except.bind, hfun, hlam_ne, hargs]
  exact hap

/-- The amended claim C13.  In a well-formed frame, for an atom `f` other than
`NIL`, `lisp_eval_DEFINE` on `(DEFINE f lambda)` returns `f` and leaves
`lambda`, unevaluated, as the `EXPR` that
`lisp_environment_get_symbol_value` finds for `f` in the frame of the
environment itself.  When moreover `f` is not the symbol of a special form,
that frame held no `SUBR` for `f`, and `lambda` still has the shape
`(LAMBDA (a) a)` once the argument form `x` is evaluated, `lisp_eval` of the
application `(f x)` returns the value `v` that `lisp_eval` of `x` returns. -/
theorem C13_DEFINE_identity_then_apply (g : lisp_globals) (hg : globals_wf g)
    (environment define_form : lisp_object_t) (h : lisp_heap)
    (cells attrs : List lisp_object_t) (fuel : Nat)
    (hf : lisp_object_get_tag (lisp_cell_car g h (lisp_cell_cdr g h define_form))
      = lisp_tag_atom)
    (hfN : lisp_cell_car g h (lisp_cell_cdr g h define_form) ≠ g.lisp_NIL)
    (hsp : plist_spine g h environment cells = true) (hwf : plist_wf g h cells = true)
    (hent : frame_entry_wf g h (lisp_cell_car g h (lisp_cell_cdr g h define_form)) cells attrs
      = true)
    (halign : h.lisp_heap_cur % 16 = 0) (hfree : heap_free h 4 = true)
    (hfuel : cells.length + attrs.length + 4 < fuel) :
    (∃ h' : lisp_heap,
        lisp_eval_DEFINE g fuel h environment define_form
            = .ok (lisp_cell_car g h (lisp_cell_cdr g h define_form), h')
          ∧ lisp_environment_get_symbol_value g fuel h' environment
              (lisp_cell_car g h (lisp_cell_cdr g h define_form)) g.lisp_EXPR g.lisp_NIL
              = .ok (lisp_cell_car g h (lisp_cell_cdr g h (lisp_cell_cdr g h define_form))))
      ∧ (∀ h' : lisp_heap,
          lisp_eval_DEFINE g fuel h environment define_form
            = .ok (lisp_cell_car g h (lisp_cell_cdr g h define_form), h') →
          ∀ (a application v : lisp_object_t) (hx : lisp_heap) (n : Nat),
            no_SUBR_binding g h (lisp_cell_car g h (lisp_cell_cdr g h define_form)) cells attrs
              = true →
            lisp_eval_is_special_form g (lisp_cell_car g h (lisp_cell_cdr g h define_form))
              = false →
            atom_key_equal h g.lisp_SUBR g.lisp_EXPR = false →
            lisp_object_get_tag application = lisp_tag_cell →
            lisp_cell_car g h' application
              = lisp_cell_car g h (lisp_cell_cdr g h define_form) →
            list_cells g h' (lisp_cell_cdr g h' application)
              [lisp_cell_cdr g h' application] = true →
            lisp_eval g n h' environment
              (lisp_cell_car g h' (lisp_cell_cdr g h' application)) = .ok (v, hx) →
            lisp_cell_cdr g hx (lisp_cell_cdr g h' application) = g.lisp_NIL →
            identity_lambda g hx
              (lisp_cell_car g h (lisp_cell_cdr g h (lisp_cell_cdr g h define_form))) a = true →
            hx.lisp_heap_cur % 16 = 0 →
            ([lisp_cell_cdr g h' application,
              lisp_cell_car g h (lisp_cell_cdr g h (lisp_cell_cdr g h define_form)),
              lisp_cell_cdr g hx
                (lisp_cell_car g h (lisp_cell_cdr g h (lisp_cell_cdr g h define_form))),
              lisp_cell_car g hx (lisp_cell_cdr g hx
                (lisp_cell_car g h (lisp_cell_cdr g h (lisp_cell_cdr g h define_form)))),
              lisp_cell_cdr g hx (lisp_cell_cdr g hx
                (lisp_cell_car g h (lisp_cell_cdr g h (lisp_cell_cdr g h define_form)))),
              g.lisp_SI_PARENT_ENVIRONMENT, a, g.lisp_SUBR, g.lisp_EXPR, g.lisp_APVAL]).all
              (fun x => decide (lisp_object_get_raw_value x < hx.lisp_heap_cur)) = true →
            keys_fresh hx [g.lisp_SI_PARENT_ENVIRONMENT, a] = true →
            atom_key_equal hx g.lisp_SUBR g.lisp_APVAL = false →
            atom_key_equal hx g.lisp_EXPR g.lisp_APVAL = false →
            cells.length + attrs.length + 4 < n → 9 < n →
            ∃ h'' : lisp_heap,
              lisp_eval g (n + 2) h' environment application = .ok (v, h'')) := by
  obtain ⟨h0, cells', e', attrs', wr, r1, r2, r3, r4, r5, r6, r7, r8, r9, r10, _⟩ :=
    set_symbol_value_spec g hg h environment (lisp_cell_car g h (lisp_cell_cdr g h define_form))
      g.lisp_EXPR (lisp_cell_car g h (lisp_cell_cdr g h (lisp_cell_cdr g h define_form)))
      cells attrs fuel hf hg.EXPR_atom hsp hwf hent halign hfree (by omega)
  have hdef : lisp_eval_DEFINE g fuel h environment define_form
      = .ok (lisp_cell_car g h (lisp_cell_cdr g h define_form), h0) := by
    unfold lisp_eval_DEFINE
    simp only [ne_eq, hfN, not_false_eq_true, ↓reduceIte, bind, Except.bind, r1]
    rfl
  refine ⟨⟨h0, hdef, ?_⟩, ?_⟩
  · rw [get_symbol_value_frame g hg h0 environment _ g.lisp_EXPR cells' attrs' hf
      hg.EXPR_atom r2 (by unfold frame_attrs_ok; rw [r3]; exact r6) fuel (by omega)]
    unfold frame_value
    rw [r3]
    simp only [aligned_ne_NIL g hg e' r4, ↓reduceIte, r7]
  · intro h' hdef' a application v hx n hnoS hnsf hSE happ hcar hlist hev hcdr hid hxalign hold
      hkeys hS hE hn1 hn2
    have hh : h' = h0 := by
      rw [hdef] at hdef'
      injection hdef' with e
      exact (Prod.mk.inj e).2.symm
    subst hh
    have hSUBR : plist_value g h' g.lisp_SUBR attrs' = g.lisp_NIL := by
      rw [r8 _ hSE]
      unfold no_SUBR_binding at hnoS
      simp only [Bool.or_eq_true, decide_eq_true_eq] at hnoS
      rcases hnoS with e | e
      · simp [e]
      · simp [e]
    exact apply_defined_identity g hg environment _ _ h' cells' attrs' e' hf r2 r3 r4 r5 r6 r7
      hSUBR a application v hx n hnsf happ hcar hlist hev hcdr hid hxalign hold hkeys hS hE
      (by omega) hn2

set_option maxRecDepth 100000 in
/-- The amended C13 on `(DEFINE F (LAMBDA (A) A))` evaluated in a new
environment: the form returns `F`, the `EXPR` of `F` in that environment is
the lambda form, and the application `(F 'X)` then evaluates to `X`, the value
of `'X`. -/
theorem C13_DEFINE_identity_then_apply_witness :
    ∃ h' h'' : lisp_heap,
      lisp_eval_DEFINE example_sforms.g 16 example_DEFINE.h example_DEFINE.environment
          example_DEFINE.define_form = .ok (example_DEFINE.F, h')
        ∧ lisp_environment_get_symbol_value example_sforms.g 16 h' example_DEFINE.environment
            example_DEFINE.F example_sforms.g.lisp_EXPR example_sforms.g.lisp_NIL
            = .ok example_DEFINE.lambda
        ∧ lisp_eval example_sforms.g 16 h' example_DEFINE.environment
            example_DEFINE.application = .ok (example_DEFINE.X, h'') := by
  have H : lisp_cell_car example_sforms.g example_DEFINE.h
          (lisp_cell_cdr example_sforms.g example_DEFINE.h example_DEFINE.define_form)
        = example_DEFINE.F
      ∧ lisp_cell_car example_sforms.g example_DEFINE.h
          (lisp_cell_cdr example_sforms.g example_DEFINE.h
            (lisp_cell_cdr example_sforms.g example_DEFINE.h example_DEFINE.define_form))
        = example_DEFINE.lambda
      ∧ lisp_object_get_tag example_DEFINE.F = lisp_tag_atom
      ∧ example_DEFINE.F ≠ example_sforms.g.lisp_NIL
      ∧ plist_spine example_sforms.g example_DEFINE.h example_DEFINE.environment
          example_DEFINE_cells = true
      ∧ plist_wf example_sforms.g example_DEFINE.h example_DEFINE_cells = true
      ∧ frame_entry_wf example_sforms.g example_DEFINE.h example_DEFINE.F
          example_DEFINE_cells [] = true
      ∧ example_DEFINE.h.lisp_heap_cur % 16 = 0
      ∧ heap_free example_DEFINE.h 4 = true
      ∧ example_DEFINE_cells.length + ([] : List lisp_object_t).length + 4 < 14
      ∧ run_ok (lisp_eval_DEFINE example_sforms.g 16 example_DEFINE.h
          example_DEFINE.environment example_DEFINE.define_form) = true
      ∧ example_DEFINE_defined.1 = example_DEFINE.F
      ∧ no_SUBR_binding example_sforms.g example_DEFINE.h example_DEFINE.F
          example_DEFINE_cells [] = true
      ∧ lisp_eval_is_special_form example_sforms.g example_DEFINE.F = false
      ∧ atom_key_equal example_DEFINE.h example_sforms.g.lisp_SUBR example_sforms.g.lisp_EXPR
          = false
      ∧ lisp_object_get_tag example_DEFINE.application = lisp_tag_cell
      ∧ lisp_cell_car example_sforms.g example_DEFINE_defined.2 example_DEFINE.application
          = example_DEFINE.F
      ∧ list_cells example_sforms.g example_DEFINE_defined.2
          (lisp_cell_cdr example_sforms.g example_DEFINE_defined.2 example_DEFINE.application)
          [lisp_cell_cdr example_sforms.g example_DEFINE_defined.2 example_DEFINE.application]
          = true
      ∧ run_ok (lisp_eval example_sforms.g 14 example_DEFINE_defined.2
          example_DEFINE.environment
          (lisp_cell_car example_sforms.g example_DEFINE_defined.2
            (lisp_cell_cdr example_sforms.g example_DEFINE_defined.2
              example_DEFINE.application))) = true
      ∧ example_DEFINE_argument.1 = example_DEFINE.X
      ∧ lisp_cell_cdr example_sforms.g example_DEFINE_argument.2
          (lisp_cell_cdr example_sforms.g example_DEFINE_defined.2 example_DEFINE.application)
          = example_sforms.g.lisp_NIL
      ∧ identity_lambda example_sforms.g example_DEFINE_argument.2 example_DEFINE.lambda
          example_DEFINE.A = true
      ∧ example_DEFINE_argument.2.lisp_heap_cur % 16 = 0
      ∧ ([lisp_cell_cdr example_sforms.g example_DEFINE_defined.2 example_DEFINE.application,
          example_DEFINE.lambda,
          lisp_cell_cdr example_sforms.g example_DEFINE_argument.2 example_DEFINE.lambda,
          lisp_cell_car example_sforms.g example_DEFINE_argument.2
            (lisp_cell_cdr example_sforms.g example_DEFINE_argument.2 example_DEFINE.lambda),
          lisp_cell_cdr example_sforms.g example_DEFINE_argument.2
            (lisp_cell_cdr example_sforms.g example_DEFINE_argument.2 example_DEFINE.lambda),
          example_sforms.g.lisp_SI_PARENT_ENVIRONMENT, example_DEFINE.A,
          example_sforms.g.lisp_SUBR, example_sforms.g.lisp_EXPR,
          example_sforms.g.lisp_APVAL]).all
          (fun x => decide (lisp_object_get_raw_value x
            < example_DEFINE_argument.2.lisp_heap_cur)) = true
      ∧ keys_fresh example_DEFINE_argument.2
          [example_sforms.g.lisp_SI_PARENT_ENVIRONMENT, example_DEFINE.A] = true
      ∧ atom_key_equal example_DEFINE_argument.2 example_sforms.g.lisp_SUBR
          example_sforms.g.lisp_APVAL = false
      ∧ atom_key_equal example_DEFINE_argument.2 example_sforms.g.lisp_EXPR
          example_sforms.g.lisp_APVAL = false := by
    decide!
  obtain ⟨H1, H2, H3, H4, H5, H6, H7, H8, H9, H10, H11, H12, H13, H14, H15, H16, H17, H18, H19,
    H20, H21, H22, H23, H24, H25, H26, H27⟩ := H
  have T := C13_DEFINE_identity_then_apply example_sforms.g example_sforms_globals_wf
    example_DEFINE.environment example_DEFINE.define_form example_DEFINE.h
    example_DEFINE_cells [] 16 (by rw [H1]; exact H3) (by rw [H1]; exact H4) H5 H6
    (by rw [H1]; exact H7) H8 H9 (by omega)
  rw [H1, H2] at T
  have hd : lisp_eval_DEFINE example_sforms.g 16 example_DEFINE.h example_DEFINE.environment
      example_DEFINE.define_form = .ok (example_DEFINE.F, example_DEFINE_defined.2) :=
    (run_get_ok _ H11).trans (congrArg Except.ok (Prod.ext H12 rfl))
  obtain ⟨⟨h', d1, d2⟩, B⟩ := T
  have hh : h' = example_DEFINE_defined.2 := by
    rw [hd] at d1
    injection d1 with e
    exact (Prod.mk.inj e).2.symm
  subst hh
  obtain ⟨h'', b⟩ := B _ d1 example_DEFINE.A example_DEFINE.application
    example_DEFINE_argument.1 example_DEFINE_argument.2 14 H13 H14 H15 H16 H17 H18
    (run_get_ok _ H19) H21 H22 H23 H24 H25 H26 H27 H10 (by omega)
  rw [H20] at b
  exact ⟨_, h'', d1, d2, b⟩

set_option maxRecDepth 100000 in
/-- Claim C13 as stated fails when `f` is the symbol of a special form: after
`(DEFINE IF (LAMBDA (A) A))`, which returns `IF` and stores the lambda form as
its `EXPR`, the form `(IF T)` is still evaluated as the special form and
returns `NIL`, while `T` evaluates to `T`. -/
theorem C13_DEFINE_of_special_form_counterexample :
    run_value example_DEFINE_IF
        = some (true, true, example_sforms.g.lisp_NIL, example_sforms.g.lisp_T)
      ∧ example_sforms.g.lisp_T ≠ example_sforms.g.lisp_NIL := by
  decide!


/-! ## The reader's interning of atoms -/

theorem lisp_read_atom_eq (g : lisp_globals) (fuel : Nat) (h : lisp_heap)
    (environment stream recursivep : Nat) :
    lisp_read_atom g fuel h environment stream recursivep
      = (do
          let (token, h5) ← lisp_read_atom_token g fuel h stream
          match token with
          | none => pure (g.lisp_NIL, h5)
          | some read_atom => lisp_read_atom_intern g fuel h5 environment read_atom) := by
  unfold lisp_read_atom lisp_read_atom_token lisp_read_atom_intern
  simp only [bind, Except.bind, pure, Except.pure]
  cases h1 : lisp_stream_read_char g (lisp_string_create_empty h).2 stream with
  | error e => rfl
  | ok r =>
    obtain ⟨ch, h2⟩ := r
    simp only
    by_cases hch : ch = g.lisp_NIL
    · simp [hch]
    · simp only [hch, ↓reduceIte]
      cases h3 : lisp_string_append_char h2 (lisp_string_create_empty h).1 ch with
      | error e => rfl
      | ok r3 =>
        obtain ⟨x, h3'⟩ := r3
        simp only
        cases h4 : lisp_read_atom_loop g fuel h3' stream (lisp_string_create_empty h).1 with
        | error e => rfl
        | ok h4' =>
          simp only
          by_cases hn : (lisp_string_create_empty h).1 = g.lisp_NIL
          · simp [hn]
          · simp only [ne_eq, hn, not_false_eq_true, ↓reduceIte]

theorem heap_agrees_mem (h h' : lisp_heap) (xs : List Nat) (ha : heap_agrees h h' xs = true)
    (x : Nat) (hx : x ∈ xs) :
    heap_read h' (lisp_object_get_raw_value x) = heap_read h (lisp_object_get_raw_value x) := by
  unfold heap_agrees at ha
  rw [List.all_eq_true] at ha
  simpa using ha x hx

theorem atom_get_value_agree (h h' : lisp_heap) (x : Nat)
    (e : heap_read h' (lisp_object_get_raw_value x) = heap_read h (lisp_object_get_raw_value x)) :
    lisp_atom_get_value h' x = lisp_atom_get_value h x := by
  unfold lisp_atom_get_value
  rw [e]

/-- Two atoms with the same name compare alike with any key. -/
theorem atom_key_equal_rename (h h' : lisp_heap) (s s' k : Nat)
    (hs : lisp_object_get_tag s = lisp_tag_atom) (hs' : lisp_object_get_tag s' = lisp_tag_atom)
    (hname : c_string (lisp_atom_get_value h' s') = c_string (lisp_atom_get_value h s))
    (hk : heap_read h' (lisp_object_get_raw_value k) = heap_read h (lisp_object_get_raw_value k)) :
    atom_key_equal h' s' k = atom_key_equal h s k := by
  unfold atom_key_equal
  rw [atom_get_value_agree h h' k hk, hname]
  by_cases ht : lisp_object_get_tag k = lisp_tag_atom
  · by_cases hn : c_string (lisp_atom_get_value h s) = c_string (lisp_atom_get_value h k)
    · simp [ht, hn]
    · have e1 : s ≠ k := fun e => hn (by rw [e])
      have e2 : s' ≠ k := by
        intro e
        apply hn
        rw [← hname, e, atom_get_value_agree h h' k hk]
      simp [ht, hn, e1, e2]
  · have e1 : s ≠ k := fun e => ht (e ▸ hs)
    have e2 : s' ≠ k := fun e => ht (e ▸ hs')
    simp [ht, e1, e2]

theorem plist_objects_agree (g : lisp_globals) (h h' : lisp_heap) (cells : List Nat)
    (ha : ∀ x ∈ plist_objects g h cells,
      heap_read h' (lisp_object_get_raw_value x) = heap_read h (lisp_object_get_raw_value x))
    (c : Nat) (hc : c ∈ cells) :
    heap_read h' (lisp_object_get_raw_value c) = heap_read h (lisp_object_get_raw_value c)
      ∧ heap_read h' (lisp_object_get_raw_value (lisp_cell_car g h c))
          = heap_read h (lisp_object_get_raw_value (lisp_cell_car g h c))
      ∧ heap_read h' (lisp_object_get_raw_value (lisp_cell_car g h (lisp_cell_car g h c)))
          = heap_read h (lisp_object_get_raw_value (lisp_cell_car g h (lisp_cell_car g h c))) := by
  refine ⟨ha c ?_, ha _ ?_, ha _ ?_⟩
  · unfold plist_objects
    exact List.mem_append_left _ (List.mem_append_left _ hc)
  · unfold plist_objects
    exact List.mem_append_left _ (List.mem_append_right _ (List.mem_map_of_mem _ hc))
  · unfold plist_objects
    exact List.mem_append_right _
      (List.mem_map_of_mem (fun c => lisp_cell_car g h (lisp_cell_car g h c)) hc)

theorem plist_spine_agree (g : lisp_globals) (h h' : lisp_heap) :
    ∀ (cells : List Nat) (p : Nat),
      (∀ c ∈ cells, heap_read h' (lisp_object_get_raw_value c)
        = heap_read h (lisp_object_get_raw_value c)) →
      plist_spine g h' p cells = plist_spine g h p cells := by
  intro cells
  induction cells with
  | nil => intro p _; rfl
  | cons c cs ih =>
    intro p hc
    have hcc := (lisp_cell_car_congr g h h' c (hc c (List.mem_cons_self _ _))).2
    cases cs with
    | nil =>
      simp only [plist_spine]
      by_cases e : c = p
      · subst e; rw [hcc]
      · simp [e]
    | cons c' cs' =>
      simp only [plist_spine]
      by_cases e : c = p
      · subst e
        rw [hcc, ih _ (fun x hx => hc x (List.mem_cons_of_mem _ hx))]
      · simp [e]

theorem plist_assoc_rename (g : lisp_globals) (h h' : lisp_heap) (s s' : Nat)
    (hs : lisp_object_get_tag s = lisp_tag_atom) (hs' : lisp_object_get_tag s' = lisp_tag_atom)
    (hname : c_string (lisp_atom_get_value h' s') = c_string (lisp_atom_get_value h s)) :
    ∀ (cells : List Nat),
      (∀ x ∈ plist_objects g h cells,
        heap_read h' (lisp_object_get_raw_value x) = heap_read h (lisp_object_get_raw_value x)) →
      plist_assoc g h' s' cells = plist_assoc g h s cells := by
  intro cells ha
  have hall := plist_objects_agree g h h' cells ha
  clear ha
  induction cells with
  | nil => rfl
  | cons c cs ih =>
    obtain ⟨a1, a2, a3⟩ := hall c (List.mem_cons_self _ _)
    simp only [plist_assoc]
    rw [(lisp_cell_car_congr g h h' c a1).1, (lisp_cell_car_congr g h h' _ a2).1,
      atom_key_equal_rename h h' s s' _ hs hs' hname a3,
      ih (fun x hx => hall x (List.mem_cons_of_mem _ hx))]

theorem plist_value_agree (g : lisp_globals) (h h' : lisp_heap) (s : Nat)
    (hs : lisp_object_get_tag s = lisp_tag_atom)
    (hsa : heap_read h' (lisp_object_get_raw_value s) = heap_read h (lisp_object_get_raw_value s))
    (cells : List Nat)
    (ha : ∀ x ∈ plist_objects g h cells,
      heap_read h' (lisp_object_get_raw_value x) = heap_read h (lisp_object_get_raw_value x)) :
    plist_value g h' s cells = plist_value g h s cells := by
  unfold plist_value
  rw [plist_assoc_rename g h h' s s hs hs (by rw [atom_get_value_agree h h' s hsa]) cells ha]
  cases hpa : plist_assoc g h s cells with
  | none => rfl
  | some e =>
    simp only
    obtain ⟨c, hc, rfl⟩ := List.mem_map.1 (plist_assoc_mem g h s cells e hpa).1
    exact (lisp_cell_car_congr g h h' _ (plist_objects_agree g h h' cells ha c hc).2.1).2

theorem chain_objects_globals (g : lisp_globals) (h : lisp_heap) :
    ∀ (frames : List frame_view),
      g.lisp_SI_PARENT_ENVIRONMENT ∈ chain_objects g h frames
        ∧ g.lisp_APVAL ∈ chain_objects g h frames := by
  intro frames
  induction frames with
  | nil => simp [chain_objects]
  | cons f fs ih =>
    unfold chain_objects
    exact ⟨List.mem_append_right _ ih.1, List.mem_append_right _ ih.2⟩

theorem frame_agree (g : lisp_globals) (hg : globals_wf g) (h h' : lisp_heap) (f : frame_view)
    (hP : heap_read h' (lisp_object_get_raw_value g.lisp_SI_PARENT_ENVIRONMENT)
      = heap_read h (lisp_object_get_raw_value g.lisp_SI_PARENT_ENVIRONMENT))
    (hA : heap_read h' (lisp_object_get_raw_value g.lisp_APVAL)
      = heap_read h (lisp_object_get_raw_value g.lisp_APVAL))
    (hc : ∀ x ∈ plist_objects g h f.cells,
      heap_read h' (lisp_object_get_raw_value x) = heap_read h (lisp_object_get_raw_value x))
    (hp : ∀ x ∈ plist_objects g h f.parent_cells,
      heap_read h' (lisp_object_get_raw_value x) = heap_read h (lisp_object_get_raw_value x))
    (environment : Nat) :
    frame_ok g h' environment f = frame_ok g h environment f
      ∧ frame_parent g h' f = frame_parent g h f := by
  have e1 := plist_value_agree g h h' _ hg.PARENT_atom hP f.cells hc
  have e2 := plist_value_agree g h h' _ hg.APVAL_atom hA f.parent_cells hp
  have e3 := plist_spine_agree g h h' f.cells environment
    (fun c hcm => (plist_objects_agree g h h' f.cells hc c hcm).1)
  have e4 := plist_spine_agree g h h' f.parent_cells
    (plist_value g h g.lisp_SI_PARENT_ENVIRONMENT f.cells)
    (fun c hcm => (plist_objects_agree g h h' f.parent_cells hp c hcm).1)
  unfold frame_ok frame_parent
  rw [e1, e2, e3, e4]
  exact ⟨rfl, rfl⟩

theorem env_chain_agree (g : lisp_globals) (hg : globals_wf g) (h h' : lisp_heap) :
    ∀ (frames : List frame_view) (environment : Nat),
      (∀ x ∈ chain_objects g h frames,
        heap_read h' (lisp_object_get_raw_value x) = heap_read h (lisp_object_get_raw_value x)) →
      env_chain g h' environment frames = env_chain g h environment frames := by
  intro frames
  induction frames with
  | nil => intro _ _; rfl
  | cons f fs ih =>
    intro environment ha
    have hrest : ∀ x ∈ chain_objects g h fs,
        heap_read h' (lisp_object_get_raw_value x) = heap_read h (lisp_object_get_raw_value x) :=
      fun x hx => ha x (by unfold chain_objects; exact List.mem_append_right _ hx)
    have hgl := chain_objects_globals g h fs
    obtain ⟨e1, e2⟩ := frame_agree g hg h h' f (hrest _ hgl.1) (hrest _ hgl.2)
      (fun x hx => ha x (by
        unfold chain_objects
        exact List.mem_append_left _ (List.mem_append_left _ hx)))
      (fun x hx => ha x (by
        unfold chain_objects
        exact List.mem_append_left _ (List.mem_append_right _ hx)))
      environment
    cases fs with
    | nil => simp only [env_chain, e1, e2]
    | cons f' fs' => simp only [env_chain, e1, e2, ih _ hrest]

theorem env_assoc_rename (g : lisp_globals) (h h' : lisp_heap) (s s' : Nat)
    (hs : lisp_object_get_tag s = lisp_tag_atom) (hs' : lisp_object_get_tag s' = lisp_tag_atom)
    (hname : c_string (lisp_atom_get_value h' s') = c_string (lisp_atom_get_value h s)) :
    ∀ (frames : List frame_view),
      (∀ x ∈ chain_objects g h frames,
        heap_read h' (lisp_object_get_raw_value x) = heap_read h (lisp_object_get_raw_value x)) →
      env_assoc g h' s' frames = env_assoc g h s frames := by
  intro frames
  induction frames with
  | nil => intro _; rfl
  | cons f fs ih =>
    intro ha
    simp only [env_assoc]
    rw [plist_assoc_rename g h h' s s' hs hs' hname f.cells
      (fun x hx => ha x (by
        unfold chain_objects
        exact List.mem_append_left _ (List.mem_append_left _ hx))),
      ih (fun x hx => ha x (by unfold chain_objects; exact List.mem_append_right _ hx))]

/-- An entry the chain has for a symbol is an entry of one of its frames. -/
theorem env_assoc_mem (g : lisp_globals) (h : lisp_heap) (s : Nat) :
    ∀ (frames : List frame_view) (e : Nat), env_assoc g h s frames = some e →
      ∃ f ∈ frames, plist_assoc g h s f.cells = some e := by
  intro frames
  induction frames with
  | nil => intro e he; cases he
  | cons f fs ih =>
    intro e he
    simp only [env_assoc] at he
    cases hpa : plist_assoc g h s f.cells with
    | some e' =>
      rw [hpa] at he
      simp only [Option.some.injEq] at he
      subst he
      exact ⟨f, List.mem_cons_self _ _, hpa⟩
    | none =>
      rw [hpa] at he
      obtain ⟨f', hf', hp'⟩ := ih e he
      exact ⟨f', List.mem_cons_of_mem _ hf', hp'⟩

/-- In a chain of well-formed frames the entry found is an allocated cell
whose key is an atom with the name looked up. -/
theorem env_assoc_entry (g : lisp_globals) (h : lisp_heap) (s : Nat)
    (hs : lisp_object_get_tag s = lisp_tag_atom)
    (frames : List frame_view) (hwf : chain_wf g h frames = true)
    (e : Nat) (he : env_assoc g h s frames = some e) :
    e % 16 = 0 ∧ e < h.lisp_heap_cur
      ∧ lisp_object_get_tag (lisp_cell_car g h e) = lisp_tag_atom
      ∧ c_string (lisp_atom_get_value h (lisp_cell_car g h e))
          = c_string (lisp_atom_get_value h s) := by
  obtain ⟨f, hf, hpa⟩ := env_assoc_mem g h s frames e he
  unfold chain_wf at hwf
  rw [List.all_eq_true] at hwf
  have hwf' := hwf f hf
  obtain ⟨hm, hk⟩ := plist_assoc_mem g h s f.cells e hpa
  obtain ⟨a1, a2, _⟩ := plist_wf_lt g h f.cells hwf' e (List.mem_append_right _ hm)
  refine ⟨a1, a2, ?_⟩
  unfold atom_key_equal at hk
  simp only [Bool.or_eq_true, Bool.and_eq_true, decide_eq_true_eq] at hk
  rcases hk with hk | hk
  · rw [← hk]; exact ⟨hs, rfl⟩
  · exact ⟨hk.1, hk.2.symm⟩

theorem chain_objects_frame (g : lisp_globals) (h : lisp_heap) :
    ∀ (frames : List frame_view) (f : frame_view), f ∈ frames →
      ∀ x ∈ plist_objects g h f.cells, x ∈ chain_objects g h frames := by
  intro frames
  induction frames with
  | nil => intro f hf; cases hf
  | cons f0 fs ih =>
    intro f hf x hx
    unfold chain_objects
    rcases List.mem_cons.1 hf with e | hf'
    · subst e
      exact List.mem_append_left _ (List.mem_append_left _ hx)
    · exact List.mem_append_right _ (ih f hf' x hx)

theorem plist_objects_entry (g : lisp_globals) (h : lisp_heap) (cells : List Nat) (e : Nat)
    (he : e ∈ cells.map (lisp_cell_car g h)) : e ∈ plist_objects g h cells := by
  unfold plist_objects
  exact List.mem_append_left _ (List.mem_append_right _ he)

/-- The lookup half of `lisp_read_atom` finds or interns an atom, and finds
that same atom again for every atom of the same name, in every heap that holds
the records of the chain as the first lookup left them. -/
theorem read_atom_intern_twice (g : lisp_globals) (hg : globals_wf g) (fuel : Nat)
    (h1 : lisp_heap) (environment r1 : Nat) (frames : List frame_view)
    (hs : lisp_object_get_tag r1 = lisp_tag_atom)
    (hchain : env_chain g h1 environment frames = true)
    (hwf : chain_wf g h1 frames = true)
    (hal : h1.lisp_heap_cur % 16 = 0) (hfree : heap_free h1 4 = true)
    (hfuel : env_fuel frames + 2 < fuel) :
    ∃ (a : Nat) (ha : lisp_heap),
      lisp_read_atom_intern g fuel h1 environment r1 = .ok (a, ha)
        ∧ lisp_object_get_tag a = lisp_tag_atom
        ∧ c_string (lisp_atom_get_value ha a) = c_string (lisp_atom_get_value h1 r1)
        ∧ h1.lisp_heap_cur ≤ ha.lisp_heap_cur
        ∧ (∀ e, env_assoc g h1 r1 frames = some e → a = lisp_cell_car g h1 e ∧ ha = h1)
        ∧ (env_assoc g h1 r1 frames = none → a = r1)
        ∧ ∀ (h2 : lisp_heap) (r2 : Nat), lisp_object_get_tag r2 = lisp_tag_atom →
            c_string (lisp_atom_get_value h2 r2) = c_string (lisp_atom_get_value h1 r1) →
            (∀ x ∈ chain_objects g ha (read_atom_frames g h1 r1 frames),
              heap_read h2 (lisp_object_get_raw_value x)
                = heap_read ha (lisp_object_get_raw_value x)) →
            lisp_read_atom_intern g fuel h2 environment r2 = .ok (a, h2) := by
  have hfind := environment_find_symbol_spec g hg h1 r1 hs frames environment hchain fuel
    (by omega)
  cases hea : env_assoc g h1 r1 frames with
  | some e =>
    rw [hea] at hfind
    simp only at hfind
    obtain ⟨e16, _, ktag, kname⟩ := env_assoc_entry g h1 r1 hs frames hwf e hea
    have ene : e ≠ g.lisp_NIL := aligned_ne_NIL g hg e e16
    refine ⟨lisp_cell_car g h1 e, h1, ?_, ktag, kname, Nat.le_refl _, ?_, ?_, ?_⟩
    · unfold lisp_read_atom_intern
      rw [hfind]
      simp [bind, Except.bind, pure, Except.pure, ene]
    · intro e0 he0
      cases he0
      exact ⟨rfl, rfl⟩
    · intro hn; cases hn
    · intro h2 r2 hs2 hname hag
      have hfr : read_atom_frames g h1 r1 frames = frames := by
        unfold read_atom_frames; rw [hea]
      rw [hfr] at hag
      have hchain2 : env_chain g h2 environment frames = true := by
        rw [env_chain_agree g hg h1 h2 frames environment hag]; exact hchain
      have hea2 : env_assoc g h2 r2 frames = some e := by
        rw [env_assoc_rename g h1 h2 r1 r2 hs hs2 hname frames hag]; exact hea
      have hfind2 := environment_find_symbol_spec g hg h2 r2 hs2 frames environment hchain2 fuel
        (by omega)
      rw [hea2] at hfind2
      simp only at hfind2
      obtain ⟨f, hf, hpa⟩ := env_assoc_mem g h1 r1 frames e hea
      have hmem : e ∈ chain_objects g h1 frames :=
        chain_objects_frame g h1 frames f hf e
          (plist_objects_entry g h1 f.cells e (plist_assoc_mem g h1 r1 f.cells e hpa).1)
      unfold lisp_read_atom_intern
      rw [hfind2]
      simp [bind, Except.bind, pure, Except.pure, ene,
        (lisp_cell_car_congr g h1 h2 e (hag e hmem)).1]
  | none =>
    rw [hea] at hfind
    simp only at hfind
    cases frames with
    | nil => simp [env_chain] at hchain
    | cons f fs =>
      have hok : frame_ok g h1 environment f = true := by
        cases fs <;> simp [env_chain] at hchain <;> simp [hchain]
      have hsp : plist_spine g h1 environment f.cells = true := by
        unfold frame_ok at hok; simp at hok; exact hok.1
      have hwff : plist_wf g h1 f.cells = true := by
        unfold chain_wf at hwf
        rw [List.all_eq_true] at hwf
        exact hwf f (List.mem_cons_self _ _)
      have hpn : plist_assoc g h1 r1 f.cells = none := by
        simp only [env_assoc] at hea
        cases hp : plist_assoc g h1 r1 f.cells with
        | none => rfl
        | some e => rw [hp] at hea; cases hea
      have hcreate : set_symbol_creates g h1 r1 f.cells = true := by
        unfold set_symbol_creates; rw [hpn]
      obtain ⟨h', cells', e', w, c1, c2, c3, c4, _, _, _, _, _, _, c11, _, _, _, c15, _, _, _,
          c19⟩ :=
        set_symbol_value_create g hg h1 environment r1 g.lisp_APVAL g.lisp_NIL f.cells fuel
          hs hsp hwff hcreate hal hfree (by simp [env_fuel] at hfuel; omega)
      obtain ⟨d1, d2, d3⟩ := c19 hpn
      subst d3
      refine ⟨r1, h', ?_, hs, by rw [c15.name_eq], c11, ?_, fun _ => rfl, ?_⟩
      · unfold lisp_read_atom_intern lisp_environment_intern_symbol
        rw [hfind, c1]
        simp [bind, Except.bind, pure, Except.pure]
      · intro e he; cases he
      · intro h2 r2 hs2 hname hag
        have hfr : read_atom_frames g h1 r1 (f :: fs)
            = { f with cells := f.cells ++ [h1.lisp_heap_cur + 48] } :: fs := by
          unfold read_atom_frames; rw [hea]
        rw [hfr] at hag
        have hag' : ∀ x ∈ plist_objects g h' (f.cells ++ [h1.lisp_heap_cur + 48]),
            heap_read h2 (lisp_object_get_raw_value x)
              = heap_read h' (lisp_object_get_raw_value x) := by
          intro x hx
          apply hag
          unfold chain_objects
          exact List.mem_append_left _ (List.mem_append_left _ hx)
        have hsp2 : plist_spine g h2 environment (f.cells ++ [h1.lisp_heap_cur + 48]) = true := by
          rw [plist_spine_agree g h' h2 _ environment
            (fun c hc => (plist_objects_agree g h' h2 _ hag' c hc).1)]
          exact c2
        have hpa2 : plist_assoc g h2 r2 (f.cells ++ [h1.lisp_heap_cur + 48]) = some e' := by
          rw [plist_assoc_rename g h' h2 r1 r2 hs hs2 (by rw [hname, c15.name_eq]) _ hag']
          exact c3
        have hfind2 := find_symbol_found g hg h2 environment r2 g.lisp_T hs2 _ hsp2 e' hpa2 fuel
          (by simp [env_fuel] at hfuel ⊢; omega)
        have ene : e' ≠ g.lisp_NIL := aligned_ne_NIL g hg e' c4
        have hcar : lisp_cell_car g h2 e' = r1 := by
          rw [(lisp_cell_car_congr g h' h2 e' (hag' e'
            (plist_objects_entry g h' _ e' (plist_assoc_mem g h' r1 _ e' c3).1))).1]
          exact d2
        unfold lisp_read_atom_intern
        rw [hfind2]
        simp [bind, Except.bind, pure, Except.pure, ene, hcar]

/-! ## What reading a token keeps of the heap -/

theorem heap_keeps_refl (h : lisp_heap) : heap_keeps h h :=
  ⟨Nat.le_refl _, fun e => e, fun _ _ _ e _ => e⟩

theorem heap_keeps_trans (h1 h2 h3 : lisp_heap) (a : heap_keeps h1 h2) (b : heap_keeps h2 h3) :
    heap_keeps h1 h3 :=
  ⟨Nat.le_trans a.1 b.1, fun e => b.2.1 (a.2.1 e),
    fun x r hx hr hs => b.2.2 x r (Nat.lt_of_lt_of_le hx a.1) (a.2.2 x r hx hr hs) hs⟩

theorem round_16 (size : Nat) :
    lisp_round_to_next_multiple size 16 % 16 = 0 := by
  unfold lisp_round_to_next_multiple
  split <;> omega

theorem heap_keeps_allocate (h : lisp_heap) (tag size : Nat) (contents : lisp_record) :
    heap_keeps h (lisp_object_allocate h tag size contents).2 := by
  unfold lisp_object_allocate
  refine ⟨Nat.le_add_right _ _, ?_, ?_⟩
  · intro e
    have := round_16 size
    simp only
    omega
  · intro a r ha hr _
    show (if a = h.lisp_heap_cur then _ else heap_read h a) = some r
    rw [if_neg (Nat.ne_of_lt ha)]
    exact hr

/-- A store into a record that is neither a cell nor an atom name. -/
theorem heap_keeps_write (h : lisp_heap) (address : Nat) (r0 new : lisp_record)
    (h0 : heap_read h address = some r0) (hs0 : stable_record r0 = false) :
    heap_keeps h (heap_write h address new) := by
  refine ⟨Nat.le_refl _, fun e => e, ?_⟩
  intro a r _ hr hs
  rw [heap_read_write]
  have : a ≠ address := by
    intro e
    rw [e, h0] at hr
    cases hr
    rw [hs0] at hs
    cases hs
  rw [if_neg this]
  exact hr

theorem heap_keeps_stdin (h : lisp_heap) (f : stdio_FILE) :
    heap_keeps h { h with stdin := f } :=
  ⟨Nat.le_refl _, fun e => e, fun _ _ _ e _ => e⟩

theorem stdio_fgetc_keeps (h : lisp_heap) (file : Nat) :
    heap_keeps h (stdio_fgetc h file).2 := by
  unfold stdio_fgetc
  split
  · split
    · exact heap_keeps_stdin _ _
    · exact heap_keeps_stdin _ _
  · exact heap_keeps_refl _

theorem stdio_ungetc_keeps (h : lisp_heap) (ch file : Nat) :
    heap_keeps h (stdio_ungetc h ch file).2 := by
  unfold stdio_ungetc
  split
  · exact heap_keeps_stdin _ _
  · exact heap_keeps_refl _

theorem stream_read_char_keeps (g : lisp_globals) (h : lisp_heap) (stream ch : Nat)
    (h' : lisp_heap) (e : lisp_stream_read_char g h stream = .ok (ch, h')) :
    heap_keeps h h' := by
  unfold lisp_stream_read_char lisp_stream_backend_read_char at e
  split at e
  · cases e
  · split at e
    · rename_i hr
      split at e
      · cases e
      · split at e
        · cases e; exact heap_keeps_refl _
        · split at e
          · cases e
            exact heap_keeps_write _ _ _ _ hr rfl
          · cases e; exact heap_keeps_refl _
    · split at e
      · cases e
      · rename_i input _ _ _
        have k := stdio_fgetc_keeps h input
        split at e
        · rename_i heq
          rw [heq] at k
          cases e
          exact k
        · rename_i heq
          rw [heq] at k
          cases e
          exact k
    · cases e

theorem stream_unread_char_keeps (g : lisp_globals) (h : lisp_heap) (stream ch r : Nat)
    (h' : lisp_heap) (e : lisp_stream_unread_char g h stream ch = .ok (r, h')) :
    heap_keeps h h' := by
  unfold lisp_stream_unread_char lisp_stream_backend_unread_char at e
  split at e
  · cases e
  · split at e
    · rename_i hr
      split at e
      · cases e
      · split at e
        · cases e; exact heap_keeps_refl _
        · split at e
          · cases e
            exact heap_keeps_write _ _ _ _ hr rfl
          · cases e; exact heap_keeps_refl _
    · split at e
      · cases e
      · rename_i input _ _ _
        have k := stdio_ungetc_keeps h (c_char_of_word (lisp_char_get_value ch)) input
        simp only at e
        split at e
        · rename_i heq
          rw [heq] at k
          cases e
          exact k
        · rename_i heq
          rw [heq] at k
          cases e
          exact k
    · cases e

theorem string_create_empty_keeps (h : lisp_heap) :
    heap_keeps h (lisp_string_create_empty h).2 := by
  unfold lisp_string_create_empty lisp_string_create lisp_interior_create
  exact heap_keeps_trans _ _ _
    (heap_keeps_allocate h lisp_tag_interior (8 * 16) (lisp_record.interior []))
    (heap_keeps_allocate _ lisp_tag_string 24 _)

theorem string_reallocate_keeps (h : lisp_heap) (sv : lisp_object_t × Nat × Nat) :
    heap_keeps h (lisp_string_reallocate h sv).2 := by
  unfold lisp_string_reallocate lisp_interior_create
  exact heap_keeps_allocate h lisp_tag_interior (8 * (sv.2.1 + 16))
    (lisp_record.interior (List.take sv.2.1 (lisp_interior_get_value h sv.1)))

theorem string_append_char_keeps (h : lisp_heap) (string ch r : Nat) (h' : lisp_heap)
    (e : lisp_string_append_char h string ch = .ok (r, h')) : heap_keeps h h' := by
  unfold lisp_string_append_char at e
  split at e
  · rename_i chars0 capacity0 length hr
    have hX : heap_keeps h
        (if lisp_string_needs_reallocation (chars0, capacity0, length) = true
          then lisp_string_reallocate h (chars0, capacity0, length)
          else ((chars0, capacity0), h)).2 := by
      split
      · exact string_reallocate_keeps _ _
      · exact heap_keeps_refl _
    generalize (if lisp_string_needs_reallocation (chars0, capacity0, length) = true
          then lisp_string_reallocate h (chars0, capacity0, length)
          else ((chars0, capacity0), h)) = X at e hX
    obtain ⟨⟨chars, capacity⟩, h1⟩ := X
    simp only at e hX
    split at e
    · rename_i slots hi
      cases e
      refine ⟨hX.1, hX.2.1, ?_⟩
      intro a rec ha hrec hst
      have h1a := hX.2.2 a rec ha hrec hst
      have n1 : a ≠ lisp_object_get_raw_value string := by
        intro e
        rw [e, hr] at hrec
        cases hrec
        cases hst
      have n2 : a ≠ lisp_object_get_raw_value chars := by
        intro e
        rw [e, hi] at h1a
        cases h1a
        cases hst
      rw [heap_read_write, if_neg n1, heap_read_write, if_neg n2]
      exact h1a
    · cases e
  · cases e

theorem read_atom_loop_keeps (g : lisp_globals) :
    ∀ (fuel : Nat) (h : lisp_heap) (stream atom_name : Nat) (h' : lisp_heap),
      lisp_read_atom_loop g fuel h stream atom_name = .ok h' → heap_keeps h h' := by
  intro fuel
  induction fuel with
  | zero => intro h stream atom_name h' e; cases e
  | succ n ih =>
    intro h stream atom_name h' e
    unfold lisp_read_atom_loop at e
    simp only [bind, Except.bind, pure, Except.pure] at e
    cases hr : lisp_stream_read_char g h stream with
    | error err => rw [hr] at e; cases e
    | ok r =>
      obtain ⟨ch, h1⟩ := r
      have k1 := stream_read_char_keeps g h stream ch h1 hr
      rw [hr] at e
      simp only at e
      split at e
      · cases e; exact k1
      · split at e
        · cases hu : lisp_stream_unread_char g h1 stream ch with
          | error err => rw [hu] at e; cases e
          | ok r2 =>
            obtain ⟨x, h2⟩ := r2
            rw [hu] at e
            cases e
            exact heap_keeps_trans _ _ _ k1 (stream_unread_char_keeps g h1 stream ch x h2 hu)
        · cases ha : lisp_string_append_char h1 atom_name ch with
          | error err => rw [ha] at e; cases e
          | ok r2 =>
            obtain ⟨x, h2⟩ := r2
            rw [ha] at e
            exact heap_keeps_trans _ _ _ k1
              (heap_keeps_trans _ _ _ (string_append_char_keeps h1 atom_name ch x h2 ha)
                (ih h2 stream atom_name h' e))

theorem atom_create_tag (h : lisp_heap) (atom_name : Nat) (hal : h.lisp_heap_cur % 16 = 0) :
    lisp_object_get_tag (lisp_atom_create h atom_name).1 = lisp_tag_atom := by
  unfold lisp_atom_create lisp_object_allocate
  simp only
  obtain ⟨k, hk⟩ : ∃ k, h.lisp_heap_cur = 16 * k := ⟨h.lisp_heap_cur / 16, by omega⟩
  rw [hk, lisp_object_get_tag_eq]
  unfold lisp_tag_atom
  rw [mul16_or k 1 (by omega)]
  omega

/-- Reading the characters of a token and creating its atom keeps the cells
and atom names of the heap, and the atom created has the atom tag. -/
theorem read_atom_token_keeps (g : lisp_globals) (fuel : Nat) (h : lisp_heap) (stream : Nat)
    (token : Option Nat) (h' : lisp_heap)
    (e : lisp_read_atom_token g fuel h stream = .ok (token, h')) :
    heap_keeps h h'
      ∧ (h.lisp_heap_cur % 16 = 0 → ∀ r, token = some r →
          lisp_object_get_tag r = lisp_tag_atom) := by
  unfold lisp_read_atom_token at e
  simp only [bind, Except.bind, pure, Except.pure] at e
  have k0 := string_create_empty_keeps h
  cases hr : lisp_stream_read_char g (lisp_string_create_empty h).2 stream with
  | error err => rw [hr] at e; cases e
  | ok r =>
    obtain ⟨ch, h2⟩ := r
    have k1 := stream_read_char_keeps g _ stream ch h2 hr
    rw [hr] at e
    simp only at e
    split at e
    · cases e
      exact ⟨heap_keeps_trans _ _ _ k0 k1, fun _ r hr => by cases hr⟩
    · cases ha : lisp_string_append_char h2 (lisp_string_create_empty h).1 ch with
      | error err => rw [ha] at e; cases e
      | ok r3 =>
        obtain ⟨x, h3⟩ := r3
        have k2 := string_append_char_keeps h2 _ ch x h3 ha
        rw [ha] at e
        simp only at e
        cases hl : lisp_read_atom_loop g fuel h3 stream (lisp_string_create_empty h).1 with
        | error err => rw [hl] at e; cases e
        | ok h4 =>
          have k3 := read_atom_loop_keeps g fuel h3 stream _ h4 hl
          have k04 := heap_keeps_trans _ _ _ k0
            (heap_keeps_trans _ _ _ k1 (heap_keeps_trans _ _ _ k2 k3))
          rw [hl] at e
          simp only at e
          split at e
          · cases e
            refine ⟨heap_keeps_trans _ _ _ k04 ?_, ?_⟩
            · unfold lisp_atom_create
              exact heap_keeps_allocate h4 lisp_tag_atom _ _
            · intro hal r hr
              cases hr
              exact atom_create_tag h4 _ (k04.2.1 hal)
          · cases e
            exact ⟨k04, fun _ r hr => by cases hr⟩

/-- The heap the reader leaves holds every stable record of the list as it
was. -/
theorem heap_keeps_agrees (h h' : lisp_heap) (k : heap_keeps h h') (xs : List Nat)
    (hst : records_stable h xs = true) (x : Nat) (hx : x ∈ xs) :
    heap_read h' (lisp_object_get_raw_value x) = heap_read h (lisp_object_get_raw_value x) := by
  unfold records_stable at hst
  rw [List.all_eq_true] at hst
  have := hst x hx
  simp only [Bool.and_eq_true, decide_eq_true_eq] at this
  obtain ⟨hlt, hrec⟩ := this
  cases hr : heap_read h (lisp_object_get_raw_value x) with
  | none => rw [hr] at hrec; cases hrec
  | some r =>
    rw [hr] at hrec
    exact k.2.2 _ r hlt hr hrec

theorem cells_allocated_agree (h h' : lisp_heap) (hcur : h.lisp_heap_cur ≤ h'.lisp_heap_cur)
    (cells : List Nat) (hal : cells_allocated h cells = true)
    (ha : ∀ c ∈ cells, heap_read h' (lisp_object_get_raw_value c)
      = heap_read h (lisp_object_get_raw_value c)) :
    cells_allocated h' cells = true := by
  unfold cells_allocated at hal ⊢
  rw [List.all_eq_true] at hal ⊢
  intro c hc
  have := hal c hc
  simp only [Bool.and_eq_true, decide_eq_true_eq] at this ⊢
  rw [get_value_congr h h' c (ha c hc)]
  exact ⟨⟨this.1.1, Nat.lt_of_lt_of_le this.1.2 hcur⟩, this.2⟩

theorem plist_wf_agree (g : lisp_globals) (h h' : lisp_heap)
    (hcur : h.lisp_heap_cur ≤ h'.lisp_heap_cur) (cells : List Nat)
    (hwf : plist_wf g h cells = true)
    (ha : ∀ x ∈ plist_objects g h cells,
      heap_read h' (lisp_object_get_raw_value x) = heap_read h (lisp_object_get_raw_value x)) :
    plist_wf g h' cells = true := by
  obtain ⟨w1, w2, w3⟩ := plist_wf_parts g h cells hwf
  have hall := plist_objects_agree g h h' cells ha
  have hmap : cells.map (lisp_cell_car g h') = cells.map (lisp_cell_car g h) :=
    List.map_congr_left (fun c hc => (lisp_cell_car_congr g h h' c (hall c hc).1).1)
  unfold plist_wf
  rw [hmap]
  simp only [Bool.and_eq_true, decide_eq_true_eq]
  refine ⟨⟨cells_allocated_agree h h' hcur cells w1 (fun c hc => (hall c hc).1),
    cells_allocated_agree h h' hcur _ w2 ?_⟩, w3⟩
  intro e he
  obtain ⟨c, hc, rfl⟩ := List.mem_map.1 he
  exact (hall c hc).2.1

theorem chain_wf_agree (g : lisp_globals) (h h' : lisp_heap)
    (hcur : h.lisp_heap_cur ≤ h'.lisp_heap_cur) (frames : List frame_view)
    (hwf : chain_wf g h frames = true)
    (ha : ∀ x ∈ chain_objects g h frames,
      heap_read h' (lisp_object_get_raw_value x) = heap_read h (lisp_object_get_raw_value x)) :
    chain_wf g h' frames = true := by
  unfold chain_wf at hwf ⊢
  rw [List.all_eq_true] at hwf ⊢
  intro f hf
  exact plist_wf_agree g h h' hcur f.cells (hwf f hf)
    (fun x hx => ha x (chain_objects_frame g h frames f hf x hx))

/-- C6: an atom token read by `lisp_read_atom` (the function `lisp_read` hands
every atom token to) in a well-formed chain of frames gives an atom with the
upper-cased name of the token: the key of the entry the chain already has for
that name, or the atom just created, which is then interned in the first
frame.  Every later read of a token with the same upper-cased name, from any
stream and in any heap that still holds the records of the chain as the first
read left them, returns that identical object. -/
theorem C6_read_atom_same_name_is_eq (g : lisp_globals) (hg : globals_wf g) (fuel : Nat)
    (h : lisp_heap) (environment stream recursivep : Nat) (frames : List frame_view)
    (r1 : Nat) (h1 : lisp_heap)
    (htok : lisp_read_atom_token g fuel h stream = .ok (some r1, h1))
    (hal : h.lisp_heap_cur % 16 = 0)
    (hchain : env_chain g h environment frames = true)
    (hwf : chain_wf g h frames = true)
    (hst : records_stable h (chain_objects g h frames) = true)
    (hfree : heap_free h1 4 = true)
    (hfuel : env_fuel frames + 2 < fuel) :
    ∃ (a : Nat) (ha : lisp_heap),
      lisp_read_atom g fuel h environment stream recursivep = .ok (a, ha)
        ∧ lisp_object_get_tag a = lisp_tag_atom
        ∧ c_string (lisp_atom_get_value ha a) = c_string (lisp_atom_get_value h1 r1)
        ∧ (∀ e, env_assoc g h1 r1 frames = some e → a = lisp_cell_car g h e ∧ ha = h1)
        ∧ (env_assoc g h1 r1 frames = none → a = r1)
        ∧ ∀ (h' : lisp_heap) (stream' recursivep' r2 : Nat) (h2 : lisp_heap),
            h'.lisp_heap_cur % 16 = 0 →
            heap_agrees ha h' (chain_objects g ha (read_atom_frames g h1 r1 frames)) = true →
            records_stable h' (chain_objects g ha (read_atom_frames g h1 r1 frames)) = true →
            lisp_read_atom_token g fuel h' stream' = .ok (some r2, h2) →
            c_string (lisp_atom_get_value h2 r2) = c_string (lisp_atom_get_value h1 r1) →
            lisp_read_atom g fuel h' environment stream' recursivep' = .ok (a, h2) := by
  obtain ⟨k, ktag⟩ := read_atom_token_keeps g fuel h stream (some r1) h1 htok
  have hs : lisp_object_get_tag r1 = lisp_tag_atom := ktag hal r1 rfl
  have hag : ∀ x ∈ chain_objects g h frames,
      heap_read h1 (lisp_object_get_raw_value x) = heap_read h (lisp_object_get_raw_value x) :=
    heap_keeps_agrees h h1 k _ hst
  have hchain1 : env_chain g h1 environment frames = true := by
    rw [env_chain_agree g hg h h1 frames environment hag]; exact hchain
  have hwf1 := chain_wf_agree g h h1 k.1 frames hwf hag
  obtain ⟨a, ha, c1, c2, c3, _, c5, c6, c7⟩ :=
    read_atom_intern_twice g hg fuel h1 environment r1 frames hs hchain1 hwf1 (k.2.1 hal) hfree
      hfuel
  refine ⟨a, ha, ?_, c2, c3, ?_, c6, ?_⟩
  · rw [lisp_read_atom_eq, htok]
    exact c1
  · intro e he
    obtain ⟨d1, d2⟩ := c5 e he
    refine ⟨?_, d2⟩
    rw [d1]
    obtain ⟨f, hf, hpa⟩ := env_assoc_mem g h1 r1 frames e he
    have hm : e ∈ f.cells.map (lisp_cell_car g h1) := (plist_assoc_mem g h1 r1 f.cells e hpa).1
    obtain ⟨c, hc, rfl⟩ := List.mem_map.1 hm
    have hcc := plist_objects_agree g h h1 f.cells
      (fun x hx => hag x (chain_objects_frame g h frames f hf x hx)) c hc
    rw [(lisp_cell_car_congr g h h1 c hcc.1).1]
    exact (lisp_cell_car_congr g h h1 _ hcc.2.1).1
  · intro h' stream' recursivep' r2 h2 hal' hag' hst' htok' hname
    obtain ⟨k', ktag'⟩ := read_atom_token_keeps g fuel h' stream' (some r2) h2 htok'
    rw [lisp_read_atom_eq, htok']
    refine c7 h2 r2 (ktag' hal' r2 rfl) hname ?_
    intro x hx
    rw [heap_keeps_agrees h' h2 k' _ hst' x hx]
    exact heap_agrees_mem ha h' _ hag' x hx

theorem token_get_ok (r : Run (Option lisp_object_t × lisp_heap)) (h : token_ok r = true) :
    r = .ok (some (token_get r).1, (token_get r).2) := by
  cases r with
  | error e => cases h
  | ok p =>
    obtain ⟨t, h'⟩ := p
    cases t with
    | none => cases h
    | some a => rfl

set_option maxRecDepth 100000 in
/-- C6 at the two tokens `A` and `a` read one after the other from a
character buffer in a new child of the bootstrap frame, where no frame has an
entry for the name: the first read interns the atom it created, and the second
read, once the blank is skipped, returns that identical object (and not the
atom it created itself); `lisp_read` of the text `(A a)` gives a list of two
elements that are the identical object. -/
theorem C6_read_atom_same_name_is_eq_witness :
    lisp_read_atom example_root.g 32 example_tokens.h example_tokens.environment
        example_tokens.stream example_root.g.lisp_NIL = .ok example_tokens_first
      ∧ lisp_read_atom example_root.g 32 example_tokens_between example_tokens.environment
          example_tokens.stream example_root.g.lisp_NIL
          = .ok (example_tokens_first.1, example_tokens_second_token.2)
      ∧ example_tokens_first.1 = example_tokens_first_token.1
      ∧ example_tokens_second_token.1 ≠ example_tokens_first.1
      ∧ lisp_atom_get_value example_tokens_first.2 example_tokens_first.1 = c_str "A"
      ∧ example_read_pair = some (true, true, c_str "A") := by
  have H : token_ok (lisp_read_atom_token example_root.g 32 example_tokens.h
          example_tokens.stream) = true
      ∧ example_tokens.h.lisp_heap_cur % 16 = 0
      ∧ env_chain example_root.g example_tokens.h example_tokens.environment
          example_tokens_frames = true
      ∧ chain_wf example_root.g example_tokens.h example_tokens_frames = true
      ∧ records_stable example_tokens.h
          (chain_objects example_root.g example_tokens.h example_tokens_frames) = true
      ∧ heap_free example_tokens_first_token.2 4 = true
      ∧ env_fuel example_tokens_frames + 2 < 32
      ∧ run_ok (lisp_read_atom example_root.g 32 example_tokens.h example_tokens.environment
          example_tokens.stream example_root.g.lisp_NIL) = true
      ∧ example_tokens_between.lisp_heap_cur % 16 = 0
      ∧ heap_agrees example_tokens_first.2 example_tokens_between
          (chain_objects example_root.g example_tokens_first.2
            (read_atom_frames example_root.g example_tokens_first_token.2
              example_tokens_first_token.1 example_tokens_frames)) = true
      ∧ records_stable example_tokens_between
          (chain_objects example_root.g example_tokens_first.2
            (read_atom_frames example_root.g example_tokens_first_token.2
              example_tokens_first_token.1 example_tokens_frames)) = true
      ∧ token_ok (lisp_read_atom_token example_root.g 32 example_tokens_between
          example_tokens.stream) = true
      ∧ c_string (lisp_atom_get_value example_tokens_second_token.2
            example_tokens_second_token.1)
          = c_string (lisp_atom_get_value example_tokens_first_token.2
              example_tokens_first_token.1)
      ∧ example_tokens_first.1 = example_tokens_first_token.1
      ∧ example_tokens_second_token.1 ≠ example_tokens_first.1
      ∧ lisp_atom_get_value example_tokens_first.2 example_tokens_first.1 = c_str "A"
      ∧ example_read_pair = some (true, true, c_str "A") := by
    decide!
  obtain ⟨H1, H2, H3, H4, H5, H6, H7, H8, H9, H10, H11, H12, H13, H14, H15, H16, H17⟩ := H
  obtain ⟨a, ha, c1, _, _, _, _, c6⟩ :=
    C6_read_atom_same_name_is_eq example_root.g example_root_globals_wf 32 example_tokens.h
      example_tokens.environment example_tokens.stream example_root.g.lisp_NIL
      example_tokens_frames example_tokens_first_token.1 example_tokens_first_token.2
      (token_get_ok _ H1) H2 H3 H4 H5 H6 H7
  have e1 := run_get_ok _ H8
  have e2 : (a, ha) = example_tokens_first := by
    have := c1.symm.trans e1
    injection this
  have ea : a = example_tokens_first.1 := congrArg Prod.fst e2
  have eh : ha = example_tokens_first.2 := congrArg Prod.snd e2
  subst ea eh
  exact ⟨e1, c6 example_tokens_between example_tokens.stream example_root.g.lisp_NIL
    example_tokens_second_token.1 example_tokens_second_token.2 H9 H10 H11
    (token_get_ok _ H12) H13, H14, H15, H16, H17⟩


/-! ## Cells and characters -/

/-- C28: a cell made by `lisp_cell_cons` on an aligned heap has the cell tag,
its `CAR` is the first argument and its `CDR` the second; and in every heap
`lisp_cell_car` and `lisp_cell_cdr` return `NIL` for `NIL` and for every
object whose tag is not the cell tag. -/
theorem C28_cons_car_cdr (g : lisp_globals) (hg : globals_wf g) (h : lisp_heap)
    (hal : h.lisp_heap_cur % 16 = 0) (a b : Nat) :
    lisp_object_get_tag (lisp_cell_cons h a b).1 = lisp_tag_cell
      ∧ lisp_cell_car g (lisp_cell_cons h a b).2 (lisp_cell_cons h a b).1 = a
      ∧ lisp_cell_cdr g (lisp_cell_cons h a b).2 (lisp_cell_cons h a b).1 = b
      ∧ ∀ (h' : lisp_heap) (x : Nat),
          x = g.lisp_NIL ∨ lisp_object_get_tag x ≠ lisp_tag_cell →
          lisp_cell_car g h' x = g.lisp_NIL ∧ lisp_cell_cdr g h' x = g.lisp_NIL := by
  have hr : heap_read (lisp_cell_cons h a b).2 h.lisp_heap_cur = some (lisp_record.cell a b) := by
    rw [heap_read_cons]; simp
  have hobj : (lisp_cell_cons h a b).1 = h.lisp_heap_cur := by rw [lisp_cell_cons_eq]
  have hcc := lisp_cell_car_cell g hg (lisp_cell_cons h a b).2 h.lisp_heap_cur a b hal hr
  refine ⟨?_, ?_, ?_, ?_⟩
  · rw [hobj, tag_cell_iff]; exact hal
  · rw [hobj]; exact hcc.1
  · rw [hobj]; exact hcc.2
  · intro h' x hx
    rcases hx with hx | hx
    · rw [hx]; exact lisp_cell_car_NIL g h'
    · apply lisp_cell_car_not_cell g hg h' x
      intro e
      exact hx ((tag_cell_iff x).2 e)

set_option maxRecDepth 100000 in
/-- C28 at the bootstrap heap: the cell `(T . NIL)` made there, and the `CAR`
and `CDR` of the atom `T`, of a fixnum and of `NIL`. -/
theorem C28_cons_car_cdr_witness :
    lisp_object_get_tag (lisp_cell_cons example_root.h example_root.g.lisp_T
        example_root.g.lisp_NIL).1 = lisp_tag_cell
      ∧ lisp_cell_car example_root.g
          (lisp_cell_cons example_root.h example_root.g.lisp_T example_root.g.lisp_NIL).2
          (lisp_cell_cons example_root.h example_root.g.lisp_T example_root.g.lisp_NIL).1
          = example_root.g.lisp_T
      ∧ lisp_cell_cdr example_root.g
          (lisp_cell_cons example_root.h example_root.g.lisp_T example_root.g.lisp_NIL).2
          (lisp_cell_cons example_root.h example_root.g.lisp_T example_root.g.lisp_NIL).1
          = example_root.g.lisp_NIL
      ∧ lisp_cell_car example_root.g example_root.h example_root.g.lisp_T
          = example_root.g.lisp_NIL
      ∧ lisp_cell_cdr example_root.g example_root.h (lisp_fixnum_create true 5)
          = example_root.g.lisp_NIL
      ∧ lisp_cell_car example_root.g example_root.h example_root.g.lisp_NIL
          = example_root.g.lisp_NIL := by
  have H : example_root.h.lisp_heap_cur % 16 = 0
      ∧ lisp_object_get_tag example_root.g.lisp_T ≠ lisp_tag_cell
      ∧ lisp_object_get_tag (lisp_fixnum_create true 5) ≠ lisp_tag_cell := by
    decide!
  obtain ⟨c1, c2, c3, c4⟩ := C28_cons_car_cdr example_root.g example_root_globals_wf
    example_root.h H.1 example_root.g.lisp_T example_root.g.lisp_NIL
  exact ⟨c1, c2, c3, (c4 example_root.h _ (Or.inr H.2.1)).1,
    (c4 example_root.h _ (Or.inr H.2.2)).2, (c4 example_root.h _ (Or.inl rfl)).1⟩

theorem and_char_value_mask (c : Nat) (hc : c < 2 ^ 28) :
    16 * c &&& lisp_char_value_mask = 16 * c := by
  have e1 : 16 * c = c <<< 4 := by rw [Nat.shiftLeft_eq]; omega
  have e2 : lisp_char_value_mask = (2 ^ 28 - 1) <<< 4 := by
    unfold lisp_char_value_mask; decide
  have e3 : c <<< 4 &&& (2 ^ 28 - 1) <<< 4 = (c &&& (2 ^ 28 - 1)) <<< 4 := by
    apply Nat.eq_of_testBit_eq
    intro j
    simp only [Nat.testBit_and, Nat.testBit_shiftLeft]
    cases decide (j ≥ 4) <;> simp
  rw [e1, e2, e3, Nat.and_pow_two_sub_one_eq_mod, Nat.mod_eq_of_lt hc]

/-- C29: for every codepoint below `2 ^ 28`, `lisp_char_get_value` gives back
what `lisp_char_create` was given, the character has the char tag, and its raw
value is the codepoint shifted left by four bits. -/
theorem C29_char_create_get_value (c : Nat) (hc : c < 2 ^ 28) :
    lisp_char_get_value (lisp_char_create c) = c
      ∧ lisp_object_get_tag (lisp_char_create c) = lisp_tag_char
      ∧ lisp_object_get_raw_value (lisp_char_create c) = c <<< 4 := by
  have e0 : (c <<< 4) % 2 ^ 64 = 16 * c := by
    rw [Nat.shiftLeft_eq, Nat.mod_eq_of_lt (by omega)]; omega
  have e1 : lisp_char_create c = 16 * c + 5 := by
    unfold lisp_char_create
    simp only [e0, and_char_value_mask c hc, lisp_tag_char]
    exact mul16_or c 5 (by omega)
  have e2 : lisp_object_get_raw_value (lisp_char_create c) = 16 * c := by
    rw [e1, lisp_object_get_raw_value_eq]; omega
  refine ⟨?_, ?_, ?_⟩
  · unfold lisp_char_get_value
    simp only [e2, and_char_value_mask c hc]
    rw [Nat.shiftRight_eq_div_pow]; omega
  · rw [e1, lisp_object_get_tag_eq]; unfold lisp_tag_char; omega
  · rw [e2, Nat.shiftLeft_eq]; omega

/-- C29 at the codepoints `0`, `a` and the largest one, `2 ^ 28 - 1`. -/
theorem C29_char_create_get_value_witness :
    (lisp_char_get_value (lisp_char_create 0) = 0
      ∧ lisp_object_get_tag (lisp_char_create 0) = lisp_tag_char
      ∧ lisp_object_get_raw_value (lisp_char_create 0) = 0 <<< 4)
    ∧ (lisp_char_get_value (lisp_char_create 0x61) = 0x61
      ∧ lisp_object_get_tag (lisp_char_create 0x61) = lisp_tag_char
      ∧ lisp_object_get_raw_value (lisp_char_create 0x61) = 0x61 <<< 4)
    ∧ (lisp_char_get_value (lisp_char_create (2 ^ 28 - 1)) = 2 ^ 28 - 1
      ∧ lisp_object_get_tag (lisp_char_create (2 ^ 28 - 1)) = lisp_tag_char
      ∧ lisp_object_get_raw_value (lisp_char_create (2 ^ 28 - 1)) = (2 ^ 28 - 1) <<< 4) :=
  ⟨C29_char_create_get_value 0 (by decide), C29_char_create_get_value 0x61 (by decide),
    C29_char_create_get_value (2 ^ 28 - 1) (by decide)⟩

/-! ## `lisp_equal` -/

theorem lisp_atom_equal_symm (g : lisp_globals) (h : lisp_heap) (a b : Nat) :
    lisp_atom_equal g h a b = lisp_atom_equal g h b a := by
  unfold lisp_atom_equal
  by_cases e : c_string (lisp_atom_get_value h a) = c_string (lisp_atom_get_value h b)
  · simp [e]
  · have e' : ¬ c_string (lisp_atom_get_value h b) = c_string (lisp_atom_get_value h a) :=
      fun x => e x.symm
    simp [e, e']

theorem lisp_string_equal_symm (g : lisp_globals) (h : lisp_heap) (a b : Nat) :
    lisp_string_equal g h a b = lisp_string_equal g h b a := by
  unfold lisp_string_equal
  by_cases e : (lisp_string_get_value h a).2.2 = (lisp_string_get_value h b).2.2
  · by_cases e2 : lisp_string_chars h a = lisp_string_chars h b
    · simp [e, e2]
    · have e2' : ¬ lisp_string_chars h b = lisp_string_chars h a := fun x => e2 x.symm
      simp [e, e2, e2']
  · have e' : ¬ (lisp_string_get_value h b).2.2 = (lisp_string_get_value h a).2.2 :=
      fun x => e x.symm
    simp [e, e']

theorem foldlM_vector_equal_congr (g : lisp_globals) (n : Nat) (h : lisp_heap)
    (ih : ∀ (a b : Nat), lisp_equal g n h a b = lisp_equal g n h b a) (va vb : Nat)
    (l : List Nat) (init : Nat) :
    List.foldlM
        (fun (so_far : lisp_object_t) (i : Nat) =>
          if so_far = g.lisp_NIL then (pure g.lisp_NIL : Run lisp_object_t)
          else do
            let r ← lisp_equal g n h (lisp_vector_value_at h va i) (lisp_vector_value_at h vb i)
            if r = g.lisp_NIL then pure g.lisp_NIL else pure g.lisp_T)
        init l
      = List.foldlM
        (fun (so_far : lisp_object_t) (i : Nat) =>
          if so_far = g.lisp_NIL then (pure g.lisp_NIL : Run lisp_object_t)
          else do
            let r ← lisp_equal g n h (lisp_vector_value_at h vb i) (lisp_vector_value_at h va i)
            if r = g.lisp_NIL then pure g.lisp_NIL else pure g.lisp_T)
        init l := by
  congr 1
  funext so_far i
  rw [ih]

theorem lisp_equal_symm_step (g : lisp_globals) (n : Nat) (h : lisp_heap)
    (ih : ∀ (a b : Nat), lisp_equal g n h a b = lisp_equal g n h b a)
    (a b t : Nat) (e : ¬ a = b) (e' : ¬ b = a)
    (ha : lisp_object_get_tag a = t) (hb : lisp_object_get_tag b = t) :
    lisp_equal g (n + 1) h a b = lisp_equal g (n + 1) h b a := by
  rw [lisp_equal, lisp_equal]
  simp only [lisp_eq, if_neg e, if_neg e']
  simp only [ha, hb]
  simp only [ne_eq, not_true_eq_false, ↓reduceIte]
  by_cases t0 : t = lisp_tag_cell
  · simp only [t0, ↓reduceIte]
    rw [ih (lisp_cell_car g h a) (lisp_cell_car g h b),
      ih (lisp_cell_cdr g h a) (lisp_cell_cdr g h b)]
  simp only [t0, ↓reduceIte]
  by_cases t1 : t = lisp_tag_atom
  · simp only [t1, ↓reduceIte]
    rw [lisp_atom_equal_symm]
  simp only [t1, ↓reduceIte]
  by_cases t2 : t = lisp_tag_char
  · simp [t2, lisp_char_equal, e, e']
  simp only [t2, ↓reduceIte]
  by_cases t3 : t = lisp_tag_fixnum
  · simp [t3, lisp_fixnum_equal, e, e']
  simp only [t3, ↓reduceIte]
  by_cases t4 : t = lisp_tag_stream
  · simp [t4, lisp_stream_equal, e, e']
  simp only [t4, ↓reduceIte]
  by_cases t5 : t = lisp_tag_struct
  · simp [t5, lisp_struct_equal]
  simp only [t5, ↓reduceIte]
  by_cases t6 : t = lisp_tag_vector
  · simp only [t6, ↓reduceIte]
    by_cases c : (lisp_vector_get_value h a).2.2 = (lisp_vector_get_value h b).2.2
    · by_cases v : (lisp_vector_get_value h a).1 = (lisp_vector_get_value h b).1
      · simp [c, v]
      · have v' : ¬ (lisp_vector_get_value h b).1 = (lisp_vector_get_value h a).1 :=
          fun x => v x.symm
        simp only [c, v, v', not_true_eq_false, ↓reduceIte]
        exact foldlM_vector_equal_congr g n h ih _ _ _ _
    · have c' : ¬ (lisp_vector_get_value h b).2.2 = (lisp_vector_get_value h a).2.2 :=
        fun x => c x.symm
      simp [c, c']
  simp only [t6, ↓reduceIte]
  by_cases t7 : t = lisp_tag_string
  · simp only [t7, ↓reduceIte]
    rw [lisp_string_equal_symm]
  simp only [t7, ↓reduceIte]
  by_cases t8 : t = lisp_tag_subr
  · simp only [t8, ↓reduceIte]
    cases lisp_subr_get_value h a with
    | none => cases lisp_subr_get_value h b <;> rfl
    | some av =>
      cases lisp_subr_get_value h b with
      | none => rfl
      | some bv =>
        simp only
        by_cases f : av.1 = bv.1
        · simp only [f, not_true_eq_false, ↓reduceIte]
          rw [ih av.2 bv.2]
        · have f' : ¬ bv.1 = av.1 := fun x => f x.symm
          simp [f, f']
  simp only [t8, ↓reduceIte]
  by_cases t9 : t = lisp_tag_interior
  · simp [t9, lisp_interior_equal, e, e']
  simp only [t9, ↓reduceIte]

theorem lisp_equal_symm (g : lisp_globals) :
    ∀ (fuel : Nat) (h : lisp_heap) (a b : Nat),
      lisp_equal g fuel h a b = lisp_equal g fuel h b a := by
  intro fuel
  induction fuel with
  | zero => intro h a b; rfl
  | succ n ih =>
    intro h a b
    by_cases e : a = b
    · subst e; rfl
    · have e' : ¬ b = a := fun x => e x.symm
      by_cases ht : lisp_object_get_tag a = lisp_object_get_tag b
      · exact lisp_equal_symm_step g n h (ih h) a b _ e e' ht rfl
      · have ht' : ¬ lisp_object_get_tag b = lisp_object_get_tag a := fun x => ht x.symm
        rw [lisp_equal, lisp_equal]
        simp [lisp_eq, e, e', ht, ht']

theorem foldlM_vector_equal_ok (g : lisp_globals) (n : Nat) (h : lisp_heap) (va vb : Nat) :
    ∀ (l : List Nat) (init : Nat),
      (∀ i ∈ l, ∃ r, lisp_equal g n h (lisp_vector_value_at h va i)
        (lisp_vector_value_at h vb i) = .ok r) →
      ∃ r, List.foldlM
        (fun (so_far : lisp_object_t) (i : Nat) =>
          if so_far = g.lisp_NIL then (pure g.lisp_NIL : Run lisp_object_t)
          else do
            let r ← lisp_equal g n h (lisp_vector_value_at h va i) (lisp_vector_value_at h vb i)
            if r = g.lisp_NIL then pure g.lisp_NIL else pure g.lisp_T)
        init l = .ok r := by
  intro l
  induction l with
  | nil => intro init _; exact ⟨init, rfl⟩
  | cons i is ih =>
    intro init hall
    obtain ⟨r, hr⟩ := hall i (List.mem_cons_self _ _)
    have hrest := fun j hj => hall j (List.mem_cons_of_mem _ hj)
    simp only [List.foldlM_cons]
    by_cases e : init = g.lisp_NIL
    · simp only [e, ↓reduceIte, pure, Except.pure, bind, Except.bind]
      exact ih _ hrest
    · simp only [e, ↓reduceIte, hr, pure, Except.pure, bind, Except.bind]
      by_cases e2 : r = g.lisp_NIL
      · simp only [e2, ↓reduceIte]
        exact ih _ hrest
      · simp only [e2, ↓reduceIte]
        exact ih _ hrest

theorem lisp_equal_terminates (g : lisp_globals) :
    ∀ (n : Nat) (h : lisp_heap) (a b : Nat), value_within g h n a = true →
      ∃ r, lisp_equal g n h a b = .ok r := by
  intro n
  induction n with
  | zero => intro h a b hw; simp [value_within] at hw
  | succ n ih =>
    intro h a b hw
    rw [lisp_equal]
    by_cases c0 : lisp_eq g a b ≠ g.lisp_NIL
    · exact ⟨g.lisp_T, by rw [if_pos c0]⟩
    rw [if_neg c0]
    simp only [ne_eq]
    by_cases ht : lisp_object_get_tag a = lisp_object_get_tag b
    swap
    · simp only [ht, not_false_eq_true, ↓reduceIte]; exact ⟨_, rfl⟩
    simp only [ht, not_true_eq_false, ↓reduceIte]
    rw [value_within] at hw
    rw [ht] at hw
    generalize lisp_object_get_tag b = t at hw
    by_cases t0 : t = lisp_tag_cell
    · simp only [t0, ↓reduceIte, Bool.and_eq_true] at hw ⊢
      obtain ⟨r1, h1⟩ := ih h (lisp_cell_car g h a) (lisp_cell_car g h b) hw.1
      obtain ⟨r2, h2⟩ := ih h (lisp_cell_cdr g h a) (lisp_cell_cdr g h b) hw.2
      simp only [h1, h2, bind, Except.bind, pure, Except.pure]
      by_cases c1 : r1 = g.lisp_NIL
      · simp only [c1, not_true_eq_false, ↓reduceIte]; exact ⟨_, rfl⟩
      · simp only [c1, not_false_eq_true, ↓reduceIte]
        by_cases c2 : r2 = g.lisp_NIL
        · simp only [c2, not_true_eq_false, ↓reduceIte]; exact ⟨_, rfl⟩
        · simp only [c2, not_false_eq_true, ↓reduceIte]; exact ⟨_, rfl⟩
    simp only [t0, ↓reduceIte] at hw ⊢
    by_cases t1 : t = lisp_tag_atom
    · simp only [t1, ↓reduceIte]; exact ⟨_, rfl⟩
    simp only [t1, ↓reduceIte]
    by_cases t2 : t = lisp_tag_char
    · simp only [t2, ↓reduceIte]; exact ⟨_, rfl⟩
    simp only [t2, ↓reduceIte]
    by_cases t3 : t = lisp_tag_fixnum
    · simp only [t3, ↓reduceIte]; exact ⟨_, rfl⟩
    simp only [t3, ↓reduceIte]
    by_cases t4 : t = lisp_tag_stream
    · simp only [t4, ↓reduceIte]; exact ⟨_, rfl⟩
    simp only [t4, ↓reduceIte]
    by_cases t5 : t = lisp_tag_struct
    · simp only [t5, ↓reduceIte]; exact ⟨_, rfl⟩
    simp only [t5, ↓reduceIte]
    by_cases t6 : t = lisp_tag_vector
    · simp only [t6, ↓reduceIte, List.all_eq_true] at hw ⊢
      by_cases c : (lisp_vector_get_value h a).2.2 = (lisp_vector_get_value h b).2.2
      · by_cases v : (lisp_vector_get_value h a).1 = (lisp_vector_get_value h b).1
        · simp only [c, v, not_true_eq_false, ↓reduceIte]; exact ⟨_, rfl⟩
        · simp only [c, v, not_true_eq_false, ↓reduceIte]
          rw [← c]
          exact foldlM_vector_equal_ok g n h _ _ _ _ (fun i hi => ih h _ _ (hw i hi))
      · simp only [c, not_false_eq_true, ↓reduceIte]; exact ⟨_, rfl⟩
    simp only [t6, ↓reduceIte] at hw ⊢
    by_cases t7 : t = lisp_tag_string
    · simp only [t7, ↓reduceIte]; exact ⟨_, rfl⟩
    simp only [t7, ↓reduceIte]
    by_cases t8 : t = lisp_tag_subr
    · simp only [t8, ↓reduceIte] at hw ⊢
      cases hva : lisp_subr_get_value h a with
      | none => cases lisp_subr_get_value h b <;> exact ⟨_, rfl⟩
      | some av =>
        rw [hva] at hw
        cases lisp_subr_get_value h b with
        | none => exact ⟨_, rfl⟩
        | some bv =>
          simp only at hw ⊢
          by_cases f : av.1 = bv.1
          · obtain ⟨r, hr⟩ := ih h av.2 bv.2 hw
            simp only [f, not_true_eq_false, ↓reduceIte, hr, bind, Except.bind, pure,
              Except.pure]
            by_cases c : r = g.lisp_NIL
            · simp only [c, ↓reduceIte]; exact ⟨_, rfl⟩
            · simp only [c, ↓reduceIte]; exact ⟨_, rfl⟩
          · simp only [f, not_false_eq_true, ↓reduceIte]; exact ⟨_, rfl⟩
    simp only [t8, ↓reduceIte]
    by_cases t9 : t = lisp_tag_interior
    · simp only [t9, ↓reduceIte]; exact ⟨_, rfl⟩
    · simp only [t9, ↓reduceIte]; exact ⟨_, rfl⟩

/-- C25: `lisp_equal` gives the same outcome for `(v1, v2)` and for
`(v2, v1)`, with every amount of fuel and for objects of every kind; and when
the structure of `v1` ends within `n` nested calls, both calls return a value
with the fuel `n`. -/
theorem C25_equal_symmetric (g : lisp_globals) (h : lisp_heap) (v1 v2 : Nat) :
    (∀ fuel, lisp_equal g fuel h v1 v2 = lisp_equal g fuel h v2 v1)
      ∧ ∀ n, value_within g h n v1 = true →
          ∃ r, lisp_equal g n h v1 v2 = .ok r ∧ lisp_equal g n h v2 v1 = .ok r := by
  refine ⟨fun fuel => lisp_equal_symm g fuel h v1 v2, ?_⟩
  intro n hw
  obtain ⟨r, hr⟩ := lisp_equal_terminates g n h v1 v2 hw
  exact ⟨r, hr, by rw [← lisp_equal_symm g n h v1 v2]; exact hr⟩

theorem run_object_ok (r : Run lisp_object_t) (v : Nat) (e : run_object r = some v) :
    r = .ok v := by
  cases r with
  | error x => cases e
  | ok w =>
    simp only [run_object, Option.some.injEq] at e
    rw [e]

set_option maxRecDepth 100000 in
/-- C25 at the lists `(A 1)` and `(a 1)`, two different objects: they are
equal in both orders; and a list and a fixnum are unequal in both orders. -/
theorem C25_equal_symmetric_witness :
    lisp_equal example_root.g 3 example_equal_lists.h example_equal_lists.first
        example_equal_lists.second = .ok example_root.g.lisp_T
      ∧ lisp_equal example_root.g 3 example_equal_lists.h example_equal_lists.second
          example_equal_lists.first = .ok example_root.g.lisp_T
      ∧ example_equal_lists.first ≠ example_equal_lists.second
      ∧ lisp_equal example_root.g 3 example_equal_lists.h (lisp_fixnum_create true 1)
          example_equal_lists.first = .ok example_root.g.lisp_NIL := by
  have H : value_within example_root.g example_equal_lists.h 3 example_equal_lists.first = true
      ∧ run_object (lisp_equal example_root.g 3 example_equal_lists.h example_equal_lists.first
          example_equal_lists.second) = some example_root.g.lisp_T
      ∧ example_equal_lists.first ≠ example_equal_lists.second
      ∧ run_object (lisp_equal example_root.g 3 example_equal_lists.h example_equal_lists.first
          (lisp_fixnum_create true 1)) = some example_root.g.lisp_NIL := by
    decide!
  obtain ⟨c1, c2⟩ := C25_equal_symmetric example_root.g example_equal_lists.h
    example_equal_lists.first example_equal_lists.second
  obtain ⟨r, r1, r2⟩ := c2 3 H.1
  have er : r = example_root.g.lisp_T := by
    have := r1.symm.trans (run_object_ok _ _ H.2.1)
    injection this
  subst er
  have c3 := (C25_equal_symmetric example_root.g example_equal_lists.h
    example_equal_lists.first (lisp_fixnum_create true 1)).1 3
  exact ⟨r1, r2, H.2.2.1, by rw [← c3]; exact run_object_ok _ _ H.2.2.2⟩

/-! ## Equality of `SUBR`s and of atoms -/

/-- The outcome of `lisp_equal` on two `SUBR`s. -/
theorem lisp_equal_subr (g : lisp_globals) (fuel : Nat) (h : lisp_heap) (a b : Nat)
    (fa na fb nb : Nat) (e : a ≠ b)
    (ha : lisp_object_get_tag a = lisp_tag_subr) (hb : lisp_object_get_tag b = lisp_tag_subr)
    (hva : lisp_subr_get_value h a = some (fa, na))
    (hvb : lisp_subr_get_value h b = some (fb, nb)) :
    lisp_equal g (fuel + 1) h a b
      = (if fa ≠ fb then .ok g.lisp_NIL
        else do
          let r ← lisp_equal g fuel h na nb
          if r = g.lisp_NIL then pure g.lisp_NIL else pure g.lisp_T) := by
  rw [lisp_equal]
  simp only [lisp_eq, if_neg e, ha, hb, hva, hvb]
  simp [lisp_tag_subr, lisp_tag_cell, lisp_tag_atom, lisp_tag_char, lisp_tag_fixnum,
    lisp_tag_stream, lisp_tag_struct, lisp_tag_vector, lisp_tag_string]

/-- The outcome of `lisp_equal` on two objects with the same tag, for a tag
whose comparison is `a == b`. -/
theorem lisp_equal_identity (g : lisp_globals) (hg : globals_wf g) (fuel : Nat) (h : lisp_heap)
    (a b t : Nat) (ht : t = lisp_tag_stream ∨ t = lisp_tag_interior)
    (ha : lisp_object_get_tag a = t) (hb : lisp_object_get_tag b = t) :
    lisp_equal g (fuel + 1) h a b = .ok (lisp_eq g a b) := by
  rw [lisp_equal]
  by_cases e : a = b
  · simp [lisp_eq, e, hg.T_ne_NIL]
  · simp only [lisp_eq, if_neg e, ha, hb]
    rcases ht with ht | ht
    · simp [ht, lisp_tag_subr, lisp_tag_cell, lisp_tag_atom, lisp_tag_char, lisp_tag_fixnum,
        lisp_tag_stream, lisp_tag_struct, lisp_tag_vector, lisp_tag_string, lisp_stream_equal, e]
    · simp [ht, lisp_tag_subr, lisp_tag_cell, lisp_tag_atom, lisp_tag_char, lisp_tag_fixnum,
        lisp_tag_stream, lisp_tag_struct, lisp_tag_vector, lisp_tag_string, lisp_tag_interior,
        lisp_interior_equal, e]

/-- C26, amended: two `SUBR`s are `lisp_equal` exactly when they are the
identical object or have the same function and `lisp_equal` names; two
streams, and two interior pointers, are `lisp_equal` exactly when they are the
identical object. -/
theorem C26_subr_equal (g : lisp_globals) (hg : globals_wf g) (fuel : Nat) (h : lisp_heap)
    (a b fa na fb nb : Nat)
    (ha : lisp_object_get_tag a = lisp_tag_subr) (hb : lisp_object_get_tag b = lisp_tag_subr)
    (hva : lisp_subr_get_value h a = some (fa, na))
    (hvb : lisp_subr_get_value h b = some (fb, nb)) :
    (lisp_equal g (fuel + 1) h a b = .ok g.lisp_T
        ↔ lisp_eq g a b = g.lisp_T
          ∨ (fa = fb ∧ ∃ r, lisp_equal g fuel h na nb = .ok r ∧ r ≠ g.lisp_NIL))
      ∧ ∀ (x y t : Nat), t = lisp_tag_stream ∨ t = lisp_tag_interior →
          lisp_object_get_tag x = t → lisp_object_get_tag y = t →
          lisp_equal g (fuel + 1) h x y = .ok (lisp_eq g x y) := by
  refine ⟨?_, fun x y t ht hx hy => lisp_equal_identity g hg fuel h x y t ht hx hy⟩
  by_cases e : a = b
  · subst e
    have : lisp_equal g (fuel + 1) h a a = .ok g.lisp_T := by
      rw [lisp_equal]; simp [lisp_eq, hg.T_ne_NIL]
    simp [this, lisp_eq]
  · rw [lisp_equal_subr g fuel h a b fa na fb nb e ha hb hva hvb]
    have hne : ¬ lisp_eq g a b = g.lisp_T := by
      simp [lisp_eq, e, Ne.symm hg.T_ne_NIL]
    by_cases f : fa = fb
    · simp only [f, ne_eq, not_true_eq_false, ↓reduceIte, hne, false_or, true_and]
      cases hr : lisp_equal g fuel h na nb with
      | error x => simp [bind, Except.bind]
      | ok r =>
        by_cases c : r = g.lisp_NIL
        · simp [bind, Except.bind, pure, Except.pure, c, Ne.symm hg.T_ne_NIL]
        · simp [bind, Except.bind, pure, Except.pure, c]
    · simp [f, hne, Ne.symm hg.T_ne_NIL]

set_option maxRecDepth 100000 in
/-- C26 (amended) at the two `SUBR`s of `example_subrs`, made separately for
the function of `CAR` with two name strings `CAR`: they are `lisp_equal`. -/
theorem C26_subr_equal_witness :
    lisp_equal example_root.g 3 example_subrs.h example_subrs.first example_subrs.second
        = .ok example_root.g.lisp_T
      ∧ example_subrs_values.1.1 = example_subrs_values.2.1
      ∧ example_subrs_values.1.2 ≠ example_subrs_values.2.2 := by
  have H : lisp_object_get_tag example_subrs.first = lisp_tag_subr
      ∧ lisp_object_get_tag example_subrs.second = lisp_tag_subr
      ∧ lisp_subr_get_value example_subrs.h example_subrs.first
          = some (example_subrs_values.1.1, example_subrs_values.1.2)
      ∧ lisp_subr_get_value example_subrs.h example_subrs.second
          = some (example_subrs_values.2.1, example_subrs_values.2.2)
      ∧ example_subrs_values.1.1 = example_subrs_values.2.1
      ∧ run_object (lisp_equal example_root.g 2 example_subrs.h example_subrs_values.1.2
          example_subrs_values.2.2) = some example_root.g.lisp_T
      ∧ example_root.g.lisp_T ≠ example_root.g.lisp_NIL
      ∧ example_subrs_values.1.2 ≠ example_subrs_values.2.2 := by
    decide!
  obtain ⟨H1, H2, H3, H4, H5, H6, H7, H8⟩ := H
  exact ⟨((C26_subr_equal example_root.g example_root_globals_wf 2 example_subrs.h
    example_subrs.first example_subrs.second _ _ _ _ H1 H2 H3 H4).1).2
      (Or.inr ⟨H5, _, run_object_ok _ _ H6, H7⟩), H5, H8⟩

set_option maxRecDepth 100000 in
/-- C26 as stated fails: the two `SUBR`s of `example_subrs` are `lisp_equal`
(`lisp_subr_equal` compares the functions and the names) although they are
not `lisp_eq`. -/
theorem C26_equal_subrs_not_eq_counterexample :
    lisp_object_get_tag example_subrs.first = lisp_tag_subr
      ∧ lisp_object_get_tag example_subrs.second = lisp_tag_subr
      ∧ run_object (lisp_equal example_root.g 3 example_subrs.h example_subrs.first
          example_subrs.second) = some example_root.g.lisp_T
      ∧ lisp_eq example_root.g example_subrs.first example_subrs.second
          = example_root.g.lisp_NIL
      ∧ example_root.g.lisp_T ≠ example_root.g.lisp_NIL := by
  decide!

/-! ## Atoms -/

theorem c_upcase_ne_zero (x : Nat) (hx : x ≠ 0) : c_upcase x ≠ 0 := by
  unfold c_upcase
  split <;> omega

theorem c_string_no_NUL (s : List Nat) : ∀ x ∈ c_string s, x ≠ 0 := by
  intro x hx
  have := List.mem_takeWhile_imp hx
  simpa using this

theorem c_string_of_no_NUL (s : List Nat) (hs : ∀ x ∈ s, x ≠ 0) : c_string s = s := by
  unfold c_string
  rw [List.takeWhile_eq_self_iff]
  intro x hx
  simpa using hs x hx

/-- The name `lisp_atom_create_c` stores ends at no earlier `NUL`. -/
theorem c_string_map_upcase (s : List Nat) :
    c_string ((c_string s).map c_upcase) = (c_string s).map c_upcase := by
  apply c_string_of_no_NUL
  intro x hx
  obtain ⟨y, hy, rfl⟩ := List.mem_map.1 hx
  exact c_upcase_ne_zero y (c_string_no_NUL s y hy)

/-- An allocation with the atom tag on an aligned heap. -/
theorem allocate_atom (h : lisp_heap) (hal : h.lisp_heap_cur % 16 = 0) (size : Nat)
    (name : List Nat) :
    lisp_object_get_tag (lisp_object_allocate h lisp_tag_atom size (lisp_record.atom name)).1
        = lisp_tag_atom
      ∧ lisp_object_get_raw_value
          (lisp_object_allocate h lisp_tag_atom size (lisp_record.atom name)).1
          = h.lisp_heap_cur
      ∧ heap_read (lisp_object_allocate h lisp_tag_atom size (lisp_record.atom name)).2
          h.lisp_heap_cur = some (lisp_record.atom name)
      ∧ (∀ x, x ≠ h.lisp_heap_cur →
          heap_read (lisp_object_allocate h lisp_tag_atom size (lisp_record.atom name)).2 x
            = heap_read h x)
      ∧ h.lisp_heap_cur
          < (lisp_object_allocate h lisp_tag_atom size (lisp_record.atom name)).2.lisp_heap_cur
      ∧ (lisp_object_allocate h lisp_tag_atom size (lisp_record.atom name)).2.lisp_heap_cur % 16
          = 0 := by
  obtain ⟨k, hk⟩ : ∃ k, h.lisp_heap_cur = 16 * k := ⟨h.lisp_heap_cur / 16, by omega⟩
  have hobj : (lisp_object_allocate h lisp_tag_atom size (lisp_record.atom name)).1
      = h.lisp_heap_cur + 1 := by
    unfold lisp_object_allocate lisp_tag_atom
    simp only
    rw [hk]
    exact mul16_or k 1 (by omega)
  have hr := round_16 size
  have hpos : 0 < lisp_round_to_next_multiple size 16 := by
    unfold lisp_round_to_next_multiple
    split <;> omega
  refine ⟨?_, ?_, ?_, ?_, ?_, ?_⟩
  · rw [hobj, lisp_object_get_tag_eq]; unfold lisp_tag_atom; omega
  · rw [hobj, lisp_object_get_raw_value_eq]; omega
  · unfold lisp_object_allocate; simp [heap_read, heap_write]
  · intro x hx
    unfold lisp_object_allocate
    simp [heap_read, heap_write, hx]
  · unfold lisp_object_allocate
    simp only
    omega
  · unfold lisp_object_allocate
    simp only
    omega

/-- Two atoms allocated one after the other: their names, their tags and
the outcome of `lisp_equal` and of `lisp_eq`. -/
theorem allocate_two_atoms (g : lisp_globals) (hg : globals_wf g) (h : lisp_heap)
    (hal : h.lisp_heap_cur % 16 = 0) (size1 size2 : Nat) (name1 name2 : List Nat) (fuel : Nat)
    (r1 r2 : lisp_object_t × lisp_heap)
    (e1 : r1 = lisp_object_allocate h lisp_tag_atom size1 (lisp_record.atom name1))
    (e2 : r2 = lisp_object_allocate r1.2 lisp_tag_atom size2 (lisp_record.atom name2)) :
    lisp_object_get_tag r1.1 = lisp_tag_atom
      ∧ lisp_object_get_tag r2.1 = lisp_tag_atom
      ∧ lisp_atom_get_value r2.2 r1.1 = name1
      ∧ lisp_atom_get_value r2.2 r2.1 = name2
      ∧ lisp_equal g (fuel + 1) r2.2 r1.1 r2.1
          = .ok (if c_string name1 = c_string name2 then g.lisp_T else g.lisp_NIL)
      ∧ lisp_eq g r1.1 r2.1 = g.lisp_NIL := by
  obtain ⟨a1, a2, a3, a4, a5, a6⟩ := allocate_atom h hal size1 name1
  rw [← e1] at a1 a2 a3 a4 a5 a6
  obtain ⟨b1, b2, b3, b4, b5, b6⟩ := allocate_atom r1.2 a6 size2 name2
  rw [← e2] at b1 b2 b3 b4 b5 b6
  have n1 : lisp_atom_get_value r2.2 r1.1 = name1 := by
    unfold lisp_atom_get_value
    rw [a2, b4 _ (Nat.ne_of_lt a5), a3]
  have n2 : lisp_atom_get_value r2.2 r2.1 = name2 := by
    unfold lisp_atom_get_value
    rw [b2, b3]
  have hne : r1.1 ≠ r2.1 := by
    intro e
    have := congrArg lisp_object_get_raw_value e
    rw [a2, b2] at this
    omega
  refine ⟨a1, b1, n1, n2, ?_, by simp [lisp_eq, hne]⟩
  rw [lisp_equal_atom g hg fuel r2.2 r1.1 r2.1 a1]
  unfold atom_key_equal
  rw [n1, n2]
  simp [hne, b1]

/-- C27: two atoms created one after the other on an aligned heap, with
`lisp_atom_create_c` from the C strings `s1` and `s2` or with
`lisp_atom_create` from the strings `n1` and `n2`, have the atom tag and
store the upper-cased names; `lisp_equal` returns `T` for them exactly when
the upper-cased names are the same (for `lisp_atom_create`, up to the first
`NUL`, where `strcmp` stops), and they are never `lisp_eq`. -/
theorem C27_atom_create_equal (g : lisp_globals) (hg : globals_wf g) (h : lisp_heap)
    (hal : h.lisp_heap_cur % 16 = 0) (fuel : Nat) :
    (∀ (s1 s2 : List Nat),
      lisp_object_get_tag (lisp_atom_create_c h s1).1 = lisp_tag_atom
        ∧ lisp_object_get_tag (lisp_atom_create_c (lisp_atom_create_c h s1).2 s2).1
            = lisp_tag_atom
        ∧ lisp_atom_get_value (lisp_atom_create_c (lisp_atom_create_c h s1).2 s2).2
            (lisp_atom_create_c h s1).1 = (c_string s1).map c_upcase
        ∧ lisp_atom_get_value (lisp_atom_create_c (lisp_atom_create_c h s1).2 s2).2
            (lisp_atom_create_c (lisp_atom_create_c h s1).2 s2).1 = (c_string s2).map c_upcase
        ∧ lisp_equal g (fuel + 1) (lisp_atom_create_c (lisp_atom_create_c h s1).2 s2).2
            (lisp_atom_create_c h s1).1 (lisp_atom_create_c (lisp_atom_create_c h s1).2 s2).1
            = .ok (if (c_string s1).map c_upcase = (c_string s2).map c_upcase
                   then g.lisp_T else g.lisp_NIL)
        ∧ lisp_eq g (lisp_atom_create_c h s1).1
            (lisp_atom_create_c (lisp_atom_create_c h s1).2 s2).1 = g.lisp_NIL)
    ∧ ∀ (n1 n2 : Nat),
      lisp_object_get_tag (lisp_atom_create h n1).1 = lisp_tag_atom
        ∧ lisp_object_get_tag (lisp_atom_create (lisp_atom_create h n1).2 n2).1 = lisp_tag_atom
        ∧ lisp_atom_get_value (lisp_atom_create (lisp_atom_create h n1).2 n2).2
            (lisp_atom_create h n1).1
            = (lisp_string_chars h n1).map
                (fun char_object => c_upcase (c_char_of_word (lisp_char_get_value char_object)))
        ∧ lisp_atom_get_value (lisp_atom_create (lisp_atom_create h n1).2 n2).2
            (lisp_atom_create (lisp_atom_create h n1).2 n2).1
            = (lisp_string_chars (lisp_atom_create h n1).2 n2).map
                (fun char_object => c_upcase (c_char_of_word (lisp_char_get_value char_object)))
        ∧ lisp_equal g (fuel + 1) (lisp_atom_create (lisp_atom_create h n1).2 n2).2
            (lisp_atom_create h n1).1 (lisp_atom_create (lisp_atom_create h n1).2 n2).1
            = .ok (if c_string ((lisp_string_chars h n1).map
                        (fun char_object =>
                          c_upcase (c_char_of_word (lisp_char_get_value char_object))))
                      = c_string ((lisp_string_chars (lisp_atom_create h n1).2 n2).map
                        (fun char_object =>
                          c_upcase (c_char_of_word (lisp_char_get_value char_object))))
                   then g.lisp_T else g.lisp_NIL)
        ∧ lisp_eq g (lisp_atom_create h n1).1
            (lisp_atom_create (lisp_atom_create h n1).2 n2).1 = g.lisp_NIL := by
  refine ⟨fun s1 s2 => ?_, fun n1 n2 => ?_⟩
  · have := allocate_two_atoms g hg h hal _ _ _ _ fuel (lisp_atom_create_c h s1)
      (lisp_atom_create_c (lisp_atom_create_c h s1).2 s2) rfl rfl
    rw [c_string_map_upcase, c_string_map_upcase] at this
    exact this
  · exact allocate_two_atoms g hg h hal _ _ _ _ fuel (lisp_atom_create h n1)
      (lisp_atom_create (lisp_atom_create h n1).2 n2) rfl rfl

set_option maxRecDepth 100000 in
/-- C27 on the bootstrap heap: the atom created from `one` and the atom
created from `ONE` are `lisp_equal` and not `lisp_eq`, and both are named
`ONE`; the atom created from `ABC` has the atom tag and the name `ABC`; the
atoms created from `one` and `two` are not `lisp_equal`. -/
theorem C27_atom_create_equal_witness :
    lisp_equal example_root.g 1
        (lisp_atom_create_c (lisp_atom_create_c example_root.h (c_str "one")).2 (c_str "ONE")).2
        (lisp_atom_create_c example_root.h (c_str "one")).1
        (lisp_atom_create_c (lisp_atom_create_c example_root.h (c_str "one")).2 (c_str "ONE")).1
        = .ok example_root.g.lisp_T
      ∧ lisp_eq example_root.g (lisp_atom_create_c example_root.h (c_str "one")).1
          (lisp_atom_create_c (lisp_atom_create_c example_root.h (c_str "one")).2
            (c_str "ONE")).1 = example_root.g.lisp_NIL
      ∧ lisp_atom_get_value
          (lisp_atom_create_c (lisp_atom_create_c example_root.h (c_str "one")).2 (c_str "ONE")).2
          (lisp_atom_create_c example_root.h (c_str "one")).1 = c_str "ONE"
      ∧ lisp_object_get_tag (lisp_atom_create_c example_root.h (c_str "ABC")).1 = lisp_tag_atom
      ∧ lisp_atom_get_value
          (lisp_atom_create_c (lisp_atom_create_c example_root.h (c_str "ABC")).2 (c_str "ABC")).2
          (lisp_atom_create_c example_root.h (c_str "ABC")).1 = c_str "ABC"
      ∧ lisp_equal example_root.g 1
          (lisp_atom_create_c (lisp_atom_create_c example_root.h (c_str "one")).2
            (c_str "two")).2
          (lisp_atom_create_c example_root.h (c_str "one")).1
          (lisp_atom_create_c (lisp_atom_create_c example_root.h (c_str "one")).2
            (c_str "two")).1
          = .ok example_root.g.lisp_NIL := by
  have H : example_root.h.lisp_heap_cur % 16 = 0
      ∧ (c_string (c_str "one")).map c_upcase = (c_string (c_str "ONE")).map c_upcase
      ∧ (c_string (c_str "one")).map c_upcase = c_str "ONE"
      ∧ (c_string (c_str "ABC")).map c_upcase = c_str "ABC"
      ∧ (c_string (c_str "one")).map c_upcase ≠ (c_string (c_str "two")).map c_upcase := by
    decide!
  obtain ⟨H1, H2, H3, H4, H5⟩ := H
  have key := (C27_atom_create_equal example_root.g example_root_globals_wf example_root.h H1 0).1
  obtain ⟨_, _, c3, _, c5, c6⟩ := key (c_str "one") (c_str "ONE")
  obtain ⟨d1, _, d3, _, _, _⟩ := key (c_str "ABC") (c_str "ABC")
  obtain ⟨_, _, _, _, e5, _⟩ := key (c_str "one") (c_str "two")
  rw [if_pos H2] at c5
  rw [if_neg H5] at e5
  rw [H3] at c3
  rw [H4] at d3
  exact ⟨c5, c6, c3, d1, d3, e5⟩

/-! ## Symbol lookup -/

theorem environment_find_symbol_recursive (g : lisp_globals) (hg : globals_wf g) (h : lisp_heap)
    (symbol recursive : Nat) (hs : lisp_object_get_tag symbol = lisp_tag_atom)
    (hr : recursive ≠ g.lisp_NIL) :
    ∀ (frames : List frame_view) (environment : Nat), env_chain g h environment frames = true →
    ∀ fuel, env_fuel frames < fuel →
      lisp_environment_find_symbol g fuel h environment symbol recursive =
        .ok (match env_assoc g h symbol frames with
             | some entry => entry
             | none => g.lisp_NIL) := by
  intro frames
  induction frames with
  | nil => intro e he; simp [env_chain] at he
  | cons f fs ih =>
    intro environment he fuel hf
    obtain ⟨n, rfl⟩ : ∃ n, fuel = n + 1 := ⟨fuel - 1, by simp [env_fuel] at hf; omega⟩
    have hok : frame_ok g h environment f = true := by
      cases fs <;> simp [env_chain] at he <;> simp [he]
    have hsp : plist_spine g h environment f.cells = true := by
      unfold frame_ok at hok; simp at hok; exact hok.1
    unfold lisp_environment_find_symbol
    rw [plist_find_entry_spec g hg h symbol hs f.cells environment hsp n
      (by simp [env_fuel] at hf; omega)]
    simp only [bind, Except.bind, env_assoc]
    cases hpa : plist_assoc g h symbol f.cells with
    | some entry => simp [pure, Except.pure]
    | none =>
      simp only [Bool.false_eq_true, ↓reduceIte, hr]
      rw [environment_parent_spec g hg h environment f hok n (by simp [env_fuel] at hf; omega)]
      cases fs with
      | nil =>
        simp [env_chain] at he
        simp [he.2, env_assoc, pure, Except.pure]
      | cons f' fs' =>
        simp only [env_chain, Bool.and_eq_true, decide_eq_true_eq] at he
        obtain ⟨⟨_, hne⟩, hrest⟩ := he
        simp only [hne, ↓reduceIte]
        exact ih _ hrest n (by simp [env_fuel] at hf ⊢; omega)

/-- C22: in a chain of frames that ends at a frame without parent, 
`lisp_environment_find_symbol` with a `recursive` argument other than `NIL`
returns the entry of the nearest frame that has an entry whose key is equal
to the atom, and `NIL` when no frame has one; with `recursive` `NIL` it
looks at the first frame only.  The entry returned has a key equal to the
atom. -/
theorem C22_find_symbol_nearest_frame (g : lisp_globals) (hg : globals_wf g) (h : lisp_heap)
    (environment a : Nat) (frames : List frame_view)
    (ha : lisp_object_get_tag a = lisp_tag_atom)
    (hchain : env_chain g h environment frames = true)
    (fuel : Nat) (hfuel : env_fuel frames < fuel) :
    (∀ recursive, recursive ≠ g.lisp_NIL →
        lisp_environment_find_symbol g fuel h environment a recursive
          = .ok (match env_assoc g h a frames with
                 | some entry => entry
                 | none => g.lisp_NIL))
      ∧ lisp_environment_find_symbol g fuel h environment a g.lisp_NIL
          = .ok (match env_assoc g h a (frames.take 1) with
                 | some entry => entry
                 | none => g.lisp_NIL)
      ∧ ∀ entry, env_assoc g h a frames = some entry →
          atom_key_equal h a (lisp_cell_car g h entry) = true
            ∧ ∃ f ∈ frames, entry ∈ f.cells.map (lisp_cell_car g h) := by
  refine ⟨fun recursive hr =>
    environment_find_symbol_recursive g hg h a recursive ha hr frames environment hchain fuel
      hfuel, ?_, ?_⟩
  · cases frames with
    | nil => simp [env_chain] at hchain
    | cons f fs =>
      have hok : frame_ok g h environment f = true := by
        cases fs <;> simp [env_chain] at hchain <;> simp [hchain]
      have hsp : plist_spine g h environment f.cells = true := by
        unfold frame_ok at hok; simp at hok; exact hok.1
      rw [find_symbol_own g hg h environment a ha f.cells hsp fuel
        (by simp [env_fuel] at hfuel; omega)]
      simp only [List.take_succ_cons, List.take_zero, env_assoc]
      cases plist_assoc g h a f.cells <;> rfl
  · intro entry he
    obtain ⟨f, hf, hpa⟩ := env_assoc_mem g h a frames entry he
    obtain ⟨m1, m2⟩ := plist_assoc_mem g h a f.cells entry hpa
    exact ⟨m2, f, hf, m1⟩

set_option maxRecDepth 100000 in
/-- C22 in a child of the bootstrap frame that binds `T` itself: the lookup
of `T` returns the child's entry (the second of its frame), which shadows the
root's; the lookup of `PNAME` ascends to the root's entry (the third of the
root frame); without recursion `PNAME` is not found in the child. -/
theorem C22_find_symbol_nearest_frame_witness :
    lisp_environment_find_symbol example_root.g 24 example_shadow.h example_shadow.environment
        example_root.g.lisp_T example_root.g.lisp_T
        = .ok (lisp_cell_car example_root.g example_shadow.h
            (lisp_cell_cdr example_root.g example_shadow.h example_shadow.environment))
      ∧ lisp_environment_find_symbol example_root.g 24 example_shadow.h
          example_shadow.environment example_root.g.lisp_PNAME example_root.g.lisp_T
          = .ok (lisp_cell_car example_root.g example_shadow.h
              (lisp_cell_cdr example_root.g example_shadow.h
                (lisp_cell_cdr example_root.g example_shadow.h example_root.environment)))
      ∧ lisp_environment_find_symbol example_root.g 24 example_shadow.h
          example_shadow.environment example_root.g.lisp_PNAME example_root.g.lisp_NIL
          = .ok example_root.g.lisp_NIL
      ∧ lisp_cell_car example_root.g example_shadow.h
            (lisp_cell_cdr example_root.g example_shadow.h example_shadow.environment)
          ≠ lisp_cell_car example_root.g example_shadow.h example_root.environment
      ∧ lisp_cell_car example_root.g example_shadow.h
          (lisp_cell_car example_root.g example_shadow.h example_root.environment)
          = example_root.g.lisp_T := by
  have H : lisp_object_get_tag example_root.g.lisp_T = lisp_tag_atom
      ∧ lisp_object_get_tag example_root.g.lisp_PNAME = lisp_tag_atom
      ∧ env_chain example_root.g example_shadow.h example_shadow.environment
          example_shadow_frames = true
      ∧ env_fuel example_shadow_frames < 24
      ∧ example_root.g.lisp_T ≠ example_root.g.lisp_NIL
      ∧ env_assoc example_root.g example_shadow.h example_root.g.lisp_T example_shadow_frames
          = some (lisp_cell_car example_root.g example_shadow.h
              (lisp_cell_cdr example_root.g example_shadow.h example_shadow.environment))
      ∧ env_assoc example_root.g example_shadow.h example_root.g.lisp_PNAME
          example_shadow_frames
          = some (lisp_cell_car example_root.g example_shadow.h
              (lisp_cell_cdr example_root.g example_shadow.h
                (lisp_cell_cdr example_root.g example_shadow.h example_root.environment)))
      ∧ env_assoc example_root.g example_shadow.h example_root.g.lisp_PNAME
          (example_shadow_frames.take 1) = none
      ∧ lisp_cell_car example_root.g example_shadow.h
            (lisp_cell_cdr example_root.g example_shadow.h example_shadow.environment)
          ≠ lisp_cell_car example_root.g example_shadow.h example_root.environment
      ∧ lisp_cell_car example_root.g example_shadow.h
          (lisp_cell_car example_root.g example_shadow.h example_root.environment)
          = example_root.g.lisp_T := by
    decide!
  obtain ⟨H1, H2, H3, H4, H5, H6, H7, H8, H9, H10⟩ := H
  obtain ⟨c1, _, _⟩ := C22_find_symbol_nearest_frame example_root.g example_root_globals_wf
    example_shadow.h example_shadow.environment example_root.g.lisp_T example_shadow_frames
    H1 H3 24 H4
  obtain ⟨d1, d2, _⟩ := C22_find_symbol_nearest_frame example_root.g example_root_globals_wf
    example_shadow.h example_shadow.environment example_root.g.lisp_PNAME example_shadow_frames
    H2 H3 24 H4
  have c1' := c1 example_root.g.lisp_T H5
  have d1' := d1 example_root.g.lisp_T H5
  rw [H6] at c1'
  rw [H7] at d1'
  rw [H8] at d2
  exact ⟨c1', d1', d2, H9, H10⟩


/-! ## `lisp_plist_set` followed by `lisp_plist_get` -/

/-- C24, amended to keys that are atoms: on a well-formed, non-empty property
list, `lisp_plist_set` of the atom `k` to `v` returns `v`; afterwards
`lisp_plist_get` of `k` returns `v` and `lisp_plist_get` of every atom not
equal to `k` returns what it returned before; every cell of the list holds
the entry it held, with the key it had; an entry found for `k` is updated in
place (the cells of the list are the same), and when there is none a new
entry `(k . v)` is appended in a new last cell; `lisp_plist_get` of an atom
without entry returns `NIL`. -/
theorem C24_plist_set_then_get (g : lisp_globals) (hg : globals_wf g) (h : lisp_heap)
    (p k v : Nat) (cells : List Nat) (fuel : Nat)
    (hk : lisp_object_get_tag k = lisp_tag_atom)
    (hsp : plist_spine g h p cells = true) (hwf : plist_wf g h cells = true)
    (halign : h.lisp_heap_cur % 16 = 0) (hfree : heap_free h 2 = true)
    (hfuel : cells.length < fuel) :
    ∃ h' : lisp_heap,
      lisp_plist_set g fuel h p k v = .ok (v, h')
        ∧ lisp_plist_get g (fuel + 1) h' p k = .ok v
        ∧ (∀ k2, lisp_object_get_tag k2 = lisp_tag_atom → atom_key_equal h k2 k = false →
            lisp_plist_get g (fuel + 1) h' p k2 = lisp_plist_get g fuel h p k2)
        ∧ (∀ k2, lisp_object_get_tag k2 = lisp_tag_atom → plist_assoc g h k2 cells = none →
            lisp_plist_get g fuel h p k2 = .ok g.lisp_NIL)
        ∧ (∀ c ∈ cells, lisp_cell_car g h' c = lisp_cell_car g h c
            ∧ lisp_cell_car g h' (lisp_cell_car g h c)
                = lisp_cell_car g h (lisp_cell_car g h c))
        ∧ (∀ e, plist_assoc g h k cells = some e →
            plist_spine g h' p cells = true ∧ lisp_cell_cdr g h' e = v
              ∧ h'.lisp_heap_cur = h.lisp_heap_cur)
        ∧ (plist_assoc g h k cells = none →
            plist_spine g h' p (cells ++ [h.lisp_heap_cur + 16]) = true
              ∧ lisp_cell_car g h' (h.lisp_heap_cur + 16) = h.lisp_heap_cur
              ∧ lisp_cell_car g h' h.lisp_heap_cur = k
              ∧ lisp_cell_cdr g h' h.lisp_heap_cur = v) := by
  have hf0 := heap_free_at h 2 0 hfree (by omega)
  have hf1 := heap_free_at h 2 1 hfree (by omega)
  simp only [Nat.mul_zero, Nat.add_zero, Nat.mul_one] at hf0 hf1
  obtain ⟨r1, r2, r3, r4, r5, r6, r7, r8, r9, r10, r11, r12, r13, r14⟩ :=
    plist_set_spec g hg h p k v cells fuel hk hsp hwf halign ⟨hf0, hf1⟩ hfuel
  have hold : ∀ c ∈ cells ++ cells.map (lisp_cell_car g h),
      c ∉ [h.lisp_heap_cur, h.lisp_heap_cur + 16] := by
    intro c hc
    have := (plist_wf_lt g h cells hwf c hc).2.1
    simp only [List.mem_cons, List.mem_singleton, List.not_mem_nil, or_false, not_or]
    exact ⟨Nat.ne_of_lt this, Nat.ne_of_lt (Nat.lt_of_lt_of_le this (Nat.le_add_right _ _))⟩
  have hcars : ∀ c ∈ cells, lisp_cell_car g (plist_set_heap g h k v cells) c = lisp_cell_car g h c
      ∧ lisp_cell_car g (plist_set_heap g h k v cells) (lisp_cell_car g h c)
          = lisp_cell_car g h (lisp_cell_car g h c) := by
    intro c hc
    exact ⟨r2.car_eq c (hold c (List.mem_append_left _ hc)),
      r2.car_eq _ (hold _ (List.mem_append_right _ (List.mem_map_of_mem _ hc)))⟩
  have hget : ∀ s, lisp_object_get_tag s = lisp_tag_atom →
      lisp_plist_get g (fuel + 1) (plist_set_heap g h k v cells) p s
        = .ok (plist_value g (plist_set_heap g h k v cells) s (plist_set_cells g h k cells)) :=
    fun s hs => plist_get_spec g hg _ s hs _ p r3 (fuel + 1) (by omega)
  refine ⟨plist_set_heap g h k v cells, r1, ?_, ?_, ?_, hcars, ?_, ?_⟩
  · rw [hget k hk]
    unfold plist_value
    rw [r4]
    simp only
    rw [r5]
  · intro k2 hk2 hne
    rw [hget k2 hk2, r6 k2 hne, plist_get_spec g hg h k2 hk2 cells p hsp fuel hfuel]
  · intro k2 hk2 hn
    rw [plist_get_spec g hg h k2 hk2 cells p hsp fuel hfuel]
    unfold plist_value
    rw [hn]
  · intro e he
    have hc : plist_set_cells g h k cells = cells := by unfold plist_set_cells; rw [he]
    have hen : plist_set_entry g h k cells = e := by unfold plist_set_entry; rw [he]
    have hh : plist_set_heap g h k v cells = rplacd_heap g h e v := by
      unfold plist_set_heap; rw [he]
    rw [hc] at r3
    rw [hen] at r5
    exact ⟨r3, r5, by rw [hh]; rfl⟩
  · intro hn
    have hc : plist_set_cells g h k cells = cells ++ [h.lisp_heap_cur + 16] := by
      unfold plist_set_cells; rw [hn]
    have hen : plist_set_entry g h k cells = h.lisp_heap_cur := by
      unfold plist_set_entry; rw [hn]
    rw [hc] at r3 r4
    rw [hen] at r4 r5
    refine ⟨r3, ?_, (r14 hn).2, r5⟩
    have hm := (plist_assoc_mem g _ k _ _ r4).1
    rw [List.map_append, List.mem_append] at hm
    rcases hm with hm | hm
    · obtain ⟨c, hc1, hc2⟩ := List.mem_map.1 hm
      rw [(hcars c hc1).1] at hc2
      have := (plist_wf_lt g h cells hwf _
        (List.mem_append_right _ (List.mem_map_of_mem (lisp_cell_car g h) hc1))).2.1
      rw [hc2] at this
      exact absurd this (Nat.lt_irrefl _)
    · simp only [List.map_cons, List.map_nil, List.mem_singleton] at hm
      exact hm.symm

set_option maxRecDepth 100000 in
/-- C24 (amended) on the property list `((A . B) (C . D))`: after
`lisp_plist_set` of `A` to `D` the value of `A` is `D` and the value of `C` is
still `D`; after `lisp_plist_set` of `B`, which has no entry, to `A`, the value
of `B` is `A`, the value of `A` is still `B`, and the list has a third cell. -/
theorem C24_plist_set_then_get_witness :
    (∃ h' : lisp_heap,
      lisp_plist_set example_root.g 4 example_plist_AB_CD.h example_plist_AB_CD.plist
          example_plist_AB_CD.A example_plist_AB_CD.D = .ok (example_plist_AB_CD.D, h')
        ∧ lisp_plist_get example_root.g 5 h' example_plist_AB_CD.plist example_plist_AB_CD.A
            = .ok example_plist_AB_CD.D
        ∧ lisp_plist_get example_root.g 5 h' example_plist_AB_CD.plist example_plist_AB_CD.C
            = .ok example_plist_AB_CD.D
        ∧ plist_spine example_root.g h' example_plist_AB_CD.plist example_plist_cells = true)
    ∧ ∃ h' : lisp_heap,
      lisp_plist_set example_root.g 4 example_plist_AB_CD.h example_plist_AB_CD.plist
          example_plist_AB_CD.B example_plist_AB_CD.A = .ok (example_plist_AB_CD.A, h')
        ∧ lisp_plist_get example_root.g 5 h' example_plist_AB_CD.plist example_plist_AB_CD.B
            = .ok example_plist_AB_CD.A
        ∧ lisp_plist_get example_root.g 5 h' example_plist_AB_CD.plist example_plist_AB_CD.A
            = .ok example_plist_AB_CD.B
        ∧ plist_spine example_root.g h' example_plist_AB_CD.plist
            (example_plist_cells ++ [example_plist_AB_CD.h.lisp_heap_cur + 16]) = true := by
  have H : lisp_object_get_tag example_plist_AB_CD.A = lisp_tag_atom
      ∧ lisp_object_get_tag example_plist_AB_CD.B = lisp_tag_atom
      ∧ lisp_object_get_tag example_plist_AB_CD.C = lisp_tag_atom
      ∧ plist_spine example_root.g example_plist_AB_CD.h example_plist_AB_CD.plist
          example_plist_cells = true
      ∧ plist_wf example_root.g example_plist_AB_CD.h example_plist_cells = true
      ∧ example_plist_AB_CD.h.lisp_heap_cur % 16 = 0
      ∧ heap_free example_plist_AB_CD.h 2 = true
      ∧ example_plist_cells.length < 4
      ∧ atom_key_equal example_plist_AB_CD.h example_plist_AB_CD.C example_plist_AB_CD.A = false
      ∧ atom_key_equal example_plist_AB_CD.h example_plist_AB_CD.A example_plist_AB_CD.B = false
      ∧ run_object (lisp_plist_get example_root.g 4 example_plist_AB_CD.h
          example_plist_AB_CD.plist example_plist_AB_CD.C) = some example_plist_AB_CD.D
      ∧ run_object (lisp_plist_get example_root.g 4 example_plist_AB_CD.h
          example_plist_AB_CD.plist example_plist_AB_CD.A) = some example_plist_AB_CD.B
      ∧ (plist_assoc example_root.g example_plist_AB_CD.h example_plist_AB_CD.A
          example_plist_cells).isSome = true
      ∧ plist_assoc example_root.g example_plist_AB_CD.h example_plist_AB_CD.B
          example_plist_cells = none := by
    decide!
  obtain ⟨H1, H2, H3, H4, H5, H6, H7, H8, H9, H10, H11, H12, H13, H14⟩ := H
  constructor
  · obtain ⟨h', c1, c2, c3, _, _, c6, _⟩ :=
      C24_plist_set_then_get example_root.g example_root_globals_wf example_plist_AB_CD.h
        example_plist_AB_CD.plist example_plist_AB_CD.A example_plist_AB_CD.D
        example_plist_cells 4 H1 H4 H5 H6 H7 H8
    obtain ⟨e, he⟩ := Option.isSome_iff_exists.1 H13
    exact ⟨h', c1, c2, by rw [c3 _ H3 H9]; exact run_object_ok _ _ H11, (c6 e he).1⟩
  · obtain ⟨h', c1, c2, c3, _, _, _, c7⟩ :=
      C24_plist_set_then_get example_root.g example_root_globals_wf example_plist_AB_CD.h
        example_plist_AB_CD.plist example_plist_AB_CD.B example_plist_AB_CD.A
        example_plist_cells 4 H2 H4 H5 H6 H7 H8
    exact ⟨h', c1, c2, by rw [c3 _ H1 H10]; exact run_object_ok _ _ H12, (c7 H14).1⟩

set_option maxRecDepth 100000 in
/-- C24 as stated, for every key, fails when a key of the list shares a
cell with the entry that is updated: in the list `((A . 1) (E . 2))` whose
second key `E` is the first entry itself, the key `K`, another cell
`(A . 1)`, has the value 2; `K` is not equal to `A`; after `lisp_plist_set`
of `A` to 5 the entry `E` is `(A . 5)` and `lisp_plist_get` of `K` returns
`NIL`. -/
theorem C24_key_sharing_an_entry_counterexample :
    run_value example_plist_alias
      = some (lisp_fixnum_create true 2, example_root.g.lisp_NIL, example_root.g.lisp_NIL)
      ∧ lisp_fixnum_create true 2 ≠ example_root.g.lisp_NIL := by
  decide!

/-! ## Character-buffer streams -/

theorem heap_same_but_refl (h : lisp_heap) (m : Nat) : heap_same_but h h m :=
  ⟨rfl, fun _ _ => rfl⟩

theorem heap_same_but_trans (h1 h2 h3 : lisp_heap) (m : Nat)
    (a : heap_same_but h1 h2 m) (b : heap_same_but h2 h3 m) : heap_same_but h1 h3 m :=
  ⟨b.1.trans a.1, fun x hx => (b.2 x hx).trans (a.2 x hx)⟩

theorem heap_same_but_write (h : lisp_heap) (m : Nat) (r : lisp_record) :
    heap_same_but h (heap_write h m r) m :=
  ⟨rfl, fun a ha => by rw [heap_read_write, if_neg ha]⟩

/-- What `charbuf_view` reads. -/
theorem charbuf_view_parts (h : lisp_heap) (stream : Nat) (st : charbuf_state)
    (hv : charbuf_view h stream = some st) :
    ∃ functions flags metadata,
      heap_read h (lisp_object_get_raw_value stream) = some (lisp_record.stream functions flags)
        ∧ heap_read h (lisp_object_get_raw_value functions)
            = some (lisp_record.stream_functions metadata backend_charbuf)
        ∧ heap_read h (lisp_object_get_raw_value metadata) = some (charbuf_record st)
        ∧ st.metadata = lisp_object_get_raw_value metadata
        ∧ st.metadata ≠ lisp_object_get_raw_value stream
        ∧ st.metadata ≠ lisp_object_get_raw_value functions
        ∧ st.metadata < h.lisp_heap_cur
        ∧ lisp_object_get_raw_value stream < h.lisp_heap_cur
        ∧ lisp_object_get_raw_value functions < h.lisp_heap_cur := by
  unfold charbuf_view at hv
  split at hv
  · rename_i functions flags h1
    split at hv
    · rename_i metadata backend h2
      split at hv
      · rename_i buf r_pos w_pos len max rd wr h3
        split at hv
        · rename_i hc
          simp only [Option.some.injEq] at hv
          subst hv
          obtain ⟨c1, c2, c3, c4, c5, c6⟩ := hc
          subst c1
          exact ⟨functions, flags, metadata, h1, h2, h3, rfl, c2, c3, c4, c5, c6⟩
        · cases hv
      · cases hv
    · cases hv
  · cases hv

/-- The view in a heap that holds the three records, with another state of
the metadata. -/
theorem charbuf_view_of_parts (h h' : lisp_heap) (stream : Nat) (st st' : charbuf_state)
    (hv : charbuf_view h stream = some st)
    (hcur : h.lisp_heap_cur ≤ h'.lisp_heap_cur)
    (hm : st'.metadata = st.metadata)
    (hrec : heap_read h' st.metadata = some (charbuf_record st'))
    (hother : ∀ a, a ≠ st.metadata → a < h.lisp_heap_cur → heap_read h' a = heap_read h a) :
    charbuf_view h' stream = some st' := by
  obtain ⟨functions, flags, metadata, p1, p2, p3, p4, p5, p6, p7, p8, p9⟩ :=
    charbuf_view_parts h stream st hv
  unfold charbuf_view
  rw [hother _ (Ne.symm p5) p8, p1]
  simp only
  rw [hother _ (Ne.symm p6) p9, p2]
  simp only
  rw [← p4, hrec]
  unfold charbuf_record
  simp only
  have hc : True ∧ st.metadata ≠ lisp_object_get_raw_value stream
      ∧ st.metadata ≠ lisp_object_get_raw_value functions
      ∧ st.metadata < h'.lisp_heap_cur
      ∧ lisp_object_get_raw_value stream < h'.lisp_heap_cur
      ∧ lisp_object_get_raw_value functions < h'.lisp_heap_cur :=
    ⟨trivial, p5, p6, Nat.lt_of_lt_of_le p7 hcur, Nat.lt_of_lt_of_le p8 hcur,
      Nat.lt_of_lt_of_le p9 hcur⟩
  rw [if_pos hc, ← hm]

theorem stream_get_functions_charbuf (h : lisp_heap) (stream : Nat) (st : charbuf_state)
    (hv : charbuf_view h stream = some st) :
    ∃ metadata, lisp_stream_get_functions h stream = some (metadata, backend_charbuf)
      ∧ lisp_object_get_raw_value metadata = st.metadata
      ∧ heap_read h (lisp_object_get_raw_value metadata) = some (charbuf_record st) := by
  obtain ⟨functions, flags, metadata, p1, p2, p3, p4, _⟩ := charbuf_view_parts h stream st hv
  refine ⟨metadata, ?_, p4.symm, p3⟩
  unfold lisp_stream_get_functions lisp_stream_get_value
  rw [p1]
  simp only
  rw [p2]

theorem charbuf_view_write (h : lisp_heap) (stream : Nat) (st st' : charbuf_state)
    (hv : charbuf_view h stream = some st) (hm : st'.metadata = st.metadata) :
    charbuf_view (heap_write h st.metadata (charbuf_record st')) stream = some st' :=
  charbuf_view_of_parts h _ stream st st' hv (Nat.le_refl _) hm
    (by rw [heap_read_write, if_pos rfl])
    (fun a ha _ => by rw [heap_read_write, if_neg ha])

/-- Reading a character from a character-buffer stream that has one. -/
theorem charbuf_read_char (g : lisp_globals) (h : lisp_heap) (stream : Nat) (st : charbuf_state)
    (hv : charbuf_view h stream = some st) (hrd : st.is_readable = true)
    (hlt : st.r_pos < st.len) :
    lisp_stream_read_char g h stream
      = .ok (lisp_char_create (word_of_c_char (st.buf.getD st.r_pos 0)),
          heap_write h st.metadata (charbuf_record { st with r_pos := st.r_pos + 1 })) := by
  obtain ⟨metadata, f1, f2, f3⟩ := stream_get_functions_charbuf h stream st hv
  unfold lisp_stream_read_char lisp_stream_backend_read_char
  rw [f1]
  simp only
  rw [f3]
  unfold charbuf_record
  simp only [ne_eq, not_true_eq_false, ↓reduceIte, Bool.true_eq_false, hrd, hlt, and_self, f2]

/-- Reading from a character-buffer stream at the end of its text. -/
theorem charbuf_read_char_eof (g : lisp_globals) (h : lisp_heap) (stream : Nat)
    (st : charbuf_state) (hv : charbuf_view h stream = some st) (hge : st.len ≤ st.r_pos) :
    lisp_stream_read_char g h stream = .ok (g.lisp_NIL, h) := by
  obtain ⟨metadata, f1, f2, f3⟩ := stream_get_functions_charbuf h stream st hv
  unfold lisp_stream_read_char lisp_stream_backend_read_char
  rw [f1]
  simp only
  rw [f3]
  unfold charbuf_record
  have : ¬ st.r_pos < st.len := by omega
  simp only [ne_eq, not_true_eq_false, ↓reduceIte, Bool.true_eq_false, this, and_false]

/-- Putting a character back into a character-buffer stream. -/
theorem charbuf_unread_char (g : lisp_globals) (h : lisp_heap) (stream ch : Nat)
    (st : charbuf_state) (hv : charbuf_view h stream = some st) (hrd : st.is_readable = true)
    (hpos : 0 < st.r_pos) :
    lisp_stream_unread_char g h stream ch
      = .ok (ch, heap_write h st.metadata (charbuf_record { st with r_pos := st.r_pos - 1 })) := by
  obtain ⟨metadata, f1, f2, f3⟩ := stream_get_functions_charbuf h stream st hv
  unfold lisp_stream_unread_char lisp_stream_backend_unread_char
  rw [f1]
  simp only
  rw [f3]
  unfold charbuf_record
  simp only [ne_eq, not_true_eq_false, ↓reduceIte, Bool.true_eq_false, hrd, gt_iff_lt, hpos,
    and_self, f2]

/-- Writing a character to a character-buffer stream that has room. -/
theorem charbuf_write_char (g : lisp_globals) (h : lisp_heap) (stream ch : Nat)
    (st : charbuf_state) (hv : charbuf_view h stream = some st) (hwr : st.is_writable = true)
    (hlt : st.w_pos < st.max) :
    lisp_stream_write_char g h stream ch
      = .ok (stream, heap_write h st.metadata
          (charbuf_record { st with
            buf := buf_set st.buf st.w_pos (c_char_of_word (lisp_char_get_value ch)),
            w_pos := st.w_pos + 1 })) := by
  obtain ⟨metadata, f1, f2, f3⟩ := stream_get_functions_charbuf h stream st hv
  unfold lisp_stream_write_char lisp_stream_backend_write_char
  rw [f1]
  simp only
  rw [f3]
  unfold charbuf_record
  simp only [ne_eq, not_true_eq_false, ↓reduceIte, Bool.true_eq_false, hwr, hlt, and_self, f2]

/-! ## Decimal text of a fixnum -/

theorem c_digits_eq : ∀ (fuel n : Nat) (acc : List Nat), 0 < n → n < 10 ^ fuel →
    c_digits fuel 10 n acc = (Nat.digits 10 n).reverse.map (fun d => char_0 + d) ++ acc := by
  intro fuel
  induction fuel with
  | zero => intro n acc h0 h1; simp at h1; omega
  | succ fuel ih =>
    intro n acc h0 h1
    have hd : n % 10 < 10 := Nat.mod_lt _ (by norm_num)
    have e : Nat.digits 10 n = (n % 10) :: Nat.digits 10 (n / 10) :=
      Nat.digits_def' (by norm_num) h0
    unfold c_digits
    simp only [hd, ↓reduceIte]
    by_cases c : n < 10
    · rw [if_pos c]
      have e1 : n / 10 = 0 := by omega
      have e2 : n % 10 = n := by omega
      rw [e, e1, e2]
      simp [char_0]
    · rw [if_neg c]
      have h2 : 0 < n / 10 := by omega
      have h3 : n / 10 < 10 ^ fuel := by
        rw [Nat.div_lt_iff_lt_mul (by norm_num)]
        calc n < 10 ^ (fuel + 1) := h1
          _ = 10 ^ fuel * 10 := by ring
      rw [ih (n / 10) _ h2 h3, e]
      simp [char_0]

theorem c_digits_base_10 (n : Nat) (hn : n < 10 ^ 20) :
    c_digits 20 10 n [] = base_10_digits n := by
  unfold base_10_digits
  by_cases c : n = 0
  · subst c; rfl
  · rw [if_neg c, c_digits_eq 20 n [] (by omega) hn, List.append_nil]

theorem c_snprintf_lld_eq (f : Int) (hf : f.natAbs < 10 ^ 20) :
    c_snprintf_lld f
      = (if f < 0 then [char_minus] else []) ++ base_10_digits f.natAbs := by
  unfold c_snprintf_lld
  rw [c_digits_base_10 _ hf]
  split <;> simp

theorem base_10_digits_digit (n : Nat) :
    ∀ c ∈ base_10_digits n, char_0 ≤ c ∧ c ≤ char_9 := by
  intro c hc
  unfold base_10_digits at hc
  by_cases c0 : n = 0
  · rw [if_pos c0] at hc
    simp only [List.mem_singleton] at hc
    subst hc
    decide
  · rw [if_neg c0] at hc
    simp only [List.mem_map, List.mem_reverse] at hc
    obtain ⟨d, hd, rfl⟩ := hc
    have := Nat.digits_lt_base (by norm_num : 1 < 10) hd
    unfold char_0 char_9
    omega

theorem base_10_digits_ne_nil (n : Nat) : base_10_digits n ≠ [] := by
  unfold base_10_digits
  by_cases c0 : n = 0
  · rw [if_pos c0]; simp
  · rw [if_neg c0]
    simp only [ne_eq, List.map_eq_nil_iff, List.reverse_eq_nil_iff]
    exact fun e => c0 (Nat.digits_eq_nil_iff_eq_zero.1 e)

theorem base_10_digits_length (n k : Nat) (hk : 0 < k) (hn : n < 10 ^ k) :
    (base_10_digits n).length ≤ k := by
  unfold base_10_digits
  by_cases c0 : n = 0
  · rw [if_pos c0]; simpa using hk
  · rw [if_neg c0]
    simp only [List.length_map, List.length_reverse]
    rw [Nat.digits_len 10 n (by norm_num) c0]
    exact Nat.log_lt_of_lt_pow c0 hn

theorem foldl_decimal (ds : List Nat) :
    (ds.reverse.map (fun d => char_0 + d)).foldl (fun acc c => 10 * acc + (c - char_0)) 0
      = Nat.ofDigits 10 ds := by
  induction ds with
  | nil => rfl
  | cons d ds ih =>
    simp only [List.reverse_cons, List.map_append, List.map_cons, List.map_nil,
      List.foldl_append, List.foldl_cons, List.foldl_nil, ih, Nat.ofDigits_cons]
    omega

theorem base_10_digits_value (n : Nat) :
    (base_10_digits n).foldl (fun acc c => 10 * acc + (c - char_0)) 0 = n := by
  unfold base_10_digits
  by_cases c0 : n = 0
  · rw [if_pos c0]; subst c0; rfl
  · rw [if_neg c0, foldl_decimal, Nat.ofDigits_digits]

theorem takeWhile_digits (n : Nat) :
    (base_10_digits n).takeWhile (fun c => decide (char_0 ≤ c ∧ c ≤ char_9))
      = base_10_digits n := by
  rw [List.takeWhile_eq_self_iff]
  intro c hc
  simpa using base_10_digits_digit n c hc

theorem c_atol_minus (n : Nat) : c_atol (char_minus :: base_10_digits n) = -(n : Int) := by
  unfold c_atol
  simp only [↓reduceIte, takeWhile_digits, base_10_digits_value]

theorem c_atol_plus (n : Nat) : c_atol (char_plus :: base_10_digits n) = (n : Int) := by
  unfold c_atol
  have : ¬ char_plus = char_minus := by decide
  simp only [this, ↓reduceIte, takeWhile_digits, base_10_digits_value]

theorem c_atol_digits (n : Nat) : c_atol (base_10_digits n) = (n : Int) := by
  have h0 := base_10_digits_ne_nil n
  have h1 := base_10_digits_digit n
  have h2 := takeWhile_digits n
  have h3 := base_10_digits_value n
  generalize base_10_digits n = l at h0 h1 h2 h3
  cases l with
  | nil => exact absurd rfl h0
  | cons c rest =>
    have hc := h1 c (List.mem_cons_self _ _)
    unfold char_0 char_9 at hc
    have n1 : ¬ c = char_minus := by unfold char_minus; omega
    have n2 : ¬ c = char_plus := by unfold char_plus; omega
    unfold c_atol
    simp only [n1, n2, ↓reduceIte, h2, h3]

/-- What `atol` makes of the text `snprintf` wrote. -/
theorem c_atol_snprintf (f : Int) (hf : f.natAbs < 10 ^ 20) :
    c_atol (c_snprintf_lld f) = f := by
  rw [c_snprintf_lld_eq f hf]
  by_cases c : f < 0
  · rw [if_pos c, List.singleton_append, c_atol_minus]; omega
  · rw [if_neg c, List.nil_append, c_atol_digits]; omega

/-! ## Reading from and writing to a character buffer, by its state -/

theorem charbuf_ahead_nil (st : charbuf_state) (e : charbuf_ahead st = []) :
    st.len ≤ st.r_pos := by
  unfold charbuf_ahead at e
  simp only [List.map_eq_nil_iff, List.range_eq_nil] at e
  omega

theorem charbuf_ahead_cons (st : charbuf_state) (c : Nat) (cs : List Nat)
    (e : charbuf_ahead st = c :: cs) :
    st.r_pos < st.len ∧ st.buf.getD st.r_pos 0 = c
      ∧ charbuf_ahead { st with r_pos := st.r_pos + 1 } = cs := by
  unfold charbuf_ahead at e ⊢
  obtain ⟨m, hm⟩ : ∃ m, st.len - st.r_pos = m + 1 := by
    cases k : st.len - st.r_pos with
    | zero => rw [k] at e; simp at e
    | succ m => exact ⟨m, rfl⟩
  rw [hm, List.range_succ_eq_map] at e
  simp only [List.map_cons, List.map_map, Nat.add_zero, List.cons.injEq] at e
  refine ⟨by omega, e.1, ?_⟩
  have e2 : st.len - (st.r_pos + 1) = m := by omega
  simp only [e2]
  rw [← e.2]
  apply List.map_congr_left
  intro i _
  simp only [Function.comp, Nat.succ_eq_add_one]
  congr 1
  omega

theorem char_create_value (c : Nat) (hc : c < 2 ^ 28) :
    lisp_char_get_value (lisp_char_create c) = c
      ∧ lisp_object_get_tag (lisp_char_create c) = lisp_tag_char := by
  have e0 : (c <<< 4) % 2 ^ 64 = 16 * c := by
    rw [Nat.shiftLeft_eq, Nat.mod_eq_of_lt (by omega)]; omega
  have e1 : lisp_char_create c = 16 * c + 5 := by
    unfold lisp_char_create
    simp only [e0, and_char_value_mask c hc, lisp_tag_char]
    exact mul16_or c 5 (by omega)
  have e2 : lisp_object_get_raw_value (lisp_char_create c) = 16 * c := by
    rw [e1, lisp_object_get_raw_value_eq]; omega
  refine ⟨?_, ?_⟩
  · unfold lisp_char_get_value
    simp only [e2, and_char_value_mask c hc]
    rw [Nat.shiftRight_eq_div_pow]; omega
  · rw [e1, lisp_object_get_tag_eq]; unfold lisp_tag_char; omega

/-- An ASCII byte survives the way into a character and back. -/
theorem ascii_char (g : lisp_globals) (hg : globals_wf g) (c : Nat) (hc : c < 128) :
    lisp_char_get_value (lisp_char_create (word_of_c_char c)) = c
      ∧ c_char_of_word c = c
      ∧ lisp_char_create (word_of_c_char c) ≠ g.lisp_NIL
      ∧ word_of_c_char c = c := by
  have e : word_of_c_char c = c := by unfold word_of_c_char; rw [if_pos hc]
  have h1 := char_create_value c (by omega)
  rw [e]
  refine ⟨h1.1, ?_, ?_, rfl⟩
  · unfold c_char_of_word; omega
  · intro x
    have := hg.NIL_atom
    rw [← x, h1.2] at this
    revert this
    decide

theorem view_read_char (g : lisp_globals) (h : lisp_heap) (stream : Nat) (st : charbuf_state)
    (c : Nat) (cs : List Nat)
    (hv : charbuf_view h stream = some st) (hrd : st.is_readable = true)
    (e : charbuf_ahead st = c :: cs) :
    ∃ h', lisp_stream_read_char g h stream = .ok (lisp_char_create (word_of_c_char c), h')
      ∧ charbuf_view h' stream = some { st with r_pos := st.r_pos + 1 }
      ∧ h'.lisp_heap_cur = h.lisp_heap_cur := by
  obtain ⟨e1, e2, _⟩ := charbuf_ahead_cons st c cs e
  refine ⟨_, ?_, charbuf_view_write h stream st { st with r_pos := st.r_pos + 1 } hv rfl, rfl⟩
  rw [charbuf_read_char g h stream st hv hrd e1, e2]

theorem view_read_eof (g : lisp_globals) (h : lisp_heap) (stream : Nat) (st : charbuf_state)
    (hv : charbuf_view h stream = some st) (e : charbuf_ahead st = []) :
    lisp_stream_read_char g h stream = .ok (g.lisp_NIL, h) :=
  charbuf_read_char_eof g h stream st hv (charbuf_ahead_nil st e)

theorem view_unread_char (g : lisp_globals) (h : lisp_heap) (stream ch : Nat)
    (st : charbuf_state) (hv : charbuf_view h stream = some st) (hrd : st.is_readable = true)
    (hpos : 0 < st.r_pos) :
    ∃ h', lisp_stream_unread_char g h stream ch = .ok (ch, h')
      ∧ charbuf_view h' stream = some { st with r_pos := st.r_pos - 1 }
      ∧ h'.lisp_heap_cur = h.lisp_heap_cur :=
  ⟨_, charbuf_unread_char g h stream ch st hv hrd hpos,
    charbuf_view_write h stream st { st with r_pos := st.r_pos - 1 } hv rfl, rfl⟩

/-- Reading a character and putting it back leaves the state as it was. -/
theorem view_read_unread (g : lisp_globals) (h : lisp_heap) (stream : Nat) (st : charbuf_state)
    (c : Nat) (cs : List Nat)
    (hv : charbuf_view h stream = some st) (hrd : st.is_readable = true)
    (e : charbuf_ahead st = c :: cs) :
    ∃ h1 h2, lisp_stream_read_char g h stream = .ok (lisp_char_create (word_of_c_char c), h1)
      ∧ charbuf_view h1 stream = some { st with r_pos := st.r_pos + 1 }
      ∧ (∀ ch, lisp_stream_unread_char g h1 stream ch = .ok (ch, h2))
      ∧ charbuf_view h2 stream = some st
      ∧ h2.lisp_heap_cur = h.lisp_heap_cur := by
  obtain ⟨h1, r1, v1, k1⟩ := view_read_char g h stream st c cs hv hrd e
  refine ⟨h1, heap_write h1 st.metadata (charbuf_record st), r1, v1, ?_, ?_, k1⟩
  · intro ch
    rw [charbuf_unread_char g h1 stream ch _ v1 hrd (Nat.succ_pos _)]
    rfl
  · exact charbuf_view_write h1 stream { st with r_pos := st.r_pos + 1 } st v1 rfl

/-! ## Reading a fixnum from a character buffer -/

theorem digit_ascii (c : Nat) (hc : char_0 ≤ c ∧ c ≤ char_9) :
    c < 128 ∧ c ≠ char_plus ∧ c ≠ char_minus := by
  unfold char_0 char_9 at hc
  unfold char_plus char_minus
  omega

/-- The loop of `lisp_read_fixnum` over digits that end the input. -/
theorem read_fixnum_loop_digits (g : lisp_globals) (hg : globals_wf g) (stream : Nat) :
    ∀ (ds : List Nat), (∀ c ∈ ds, char_0 ≤ c ∧ c ≤ char_9) →
    ∀ (fuel : Nat) (h : lisp_heap) (st : charbuf_state) (acc : List Nat),
      charbuf_view h stream = some st → st.is_readable = true → charbuf_ahead st = ds →
      acc.length + ds.length ≤ 19 → ds.length < fuel →
      ∃ h', lisp_read_fixnum_loop g 19 fuel h stream acc = .ok (some (acc ++ ds), h')
        ∧ charbuf_view h' stream = some { st with r_pos := st.r_pos + ds.length }
        ∧ h'.lisp_heap_cur = h.lisp_heap_cur := by
  intro ds
  induction ds with
  | nil =>
    intro _ fuel h st acc hv hrd ha _ hf
    obtain ⟨k, rfl⟩ : ∃ k, fuel = k + 1 := ⟨fuel - 1, by simp at hf; omega⟩
    refine ⟨h, ?_, hv, rfl⟩
    unfold lisp_read_fixnum_loop
    rw [view_read_eof g h stream st hv ha]
    simp only [bind, Except.bind, ↓reduceIte, pure, Except.pure, List.append_nil]
  | cons c cs ih =>
    intro hds fuel h st acc hv hrd ha hl hf
    obtain ⟨k, rfl⟩ : ∃ k, fuel = k + 1 := ⟨fuel - 1, by simp at hf; omega⟩
    have hc := hds c (List.mem_cons_self _ _)
    obtain ⟨a1, a2, a3⟩ := digit_ascii c hc
    obtain ⟨b1, b2, b3, _⟩ := ascii_char g hg c a1
    obtain ⟨h1, r1, v1, k1⟩ := view_read_char g h stream st c cs hv hrd ha
    have ha1 := (charbuf_ahead_cons st c cs ha).2.2
    simp only [List.length_cons] at hl hf
    obtain ⟨h2, r2, v2, k2⟩ := ih (fun x hx => hds x (List.mem_cons_of_mem _ hx)) k h1
      { st with r_pos := st.r_pos + 1 } (acc ++ [c]) v1 hrd ha1
      (by simp only [List.length_append, List.length_singleton]; omega) (by omega)
    refine ⟨h2, ?_, ?_, by rw [k2, k1]⟩
    · unfold lisp_read_fixnum_loop
      rw [r1]
      have n0 : ¬ acc.length = 19 := by omega
      simp only [bind, Except.bind, if_neg b3, b1, a2, a3, or_self, ↓reduceIte, hc, and_self,
        n0, b2]
      rw [r2]
      simp only [List.append_assoc, List.singleton_append]
    · rw [v2]
      simp only [List.length_cons, Nat.add_assoc, Nat.add_comm 1]

/-- The loop of `lisp_read_fixnum` over an optional sign and digits that end
the input. -/
theorem read_fixnum_loop_text (g : lisp_globals) (hg : globals_wf g) (stream : Nat)
    (text ds : List Nat) (hds : ∀ c ∈ ds, char_0 ≤ c ∧ c ≤ char_9) (hlen : ds.length ≤ 18)
    (htext : text = ds ∨ text = char_minus :: ds ∨ text = char_plus :: ds)
    (fuel : Nat) (h : lisp_heap) (st : charbuf_state)
    (hv : charbuf_view h stream = some st) (hrd : st.is_readable = true)
    (ha : charbuf_ahead st = text) (hf : text.length < fuel) :
    ∃ h', lisp_read_fixnum_loop g 19 fuel h stream [] = .ok (some text, h')
      ∧ charbuf_view h' stream = some { st with r_pos := st.r_pos + text.length }
      ∧ h'.lisp_heap_cur = h.lisp_heap_cur := by
  have sign : ∀ c, (c = char_minus ∨ c = char_plus) → text = c :: ds →
      ∃ h', lisp_read_fixnum_loop g 19 fuel h stream [] = .ok (some text, h')
        ∧ charbuf_view h' stream = some { st with r_pos := st.r_pos + text.length }
        ∧ h'.lisp_heap_cur = h.lisp_heap_cur := by
    intro c hc e
    subst e
    obtain ⟨k, rfl⟩ : ∃ k, fuel = k + 1 := ⟨fuel - 1, by simp at hf; omega⟩
    have a1 : c < 128 := by
      rcases hc with x | x <;> subst x <;> decide
    have a2 : c = char_plus ∨ c = char_minus := hc.symm
    obtain ⟨b1, b2, b3, _⟩ := ascii_char g hg c a1
    obtain ⟨h1, r1, v1, k1⟩ := view_read_char g h stream st c ds hv hrd ha
    have ha1 := (charbuf_ahead_cons st c ds ha).2.2
    simp only [List.length_cons] at hf
    obtain ⟨h2, r2, v2, k2⟩ := read_fixnum_loop_digits g hg stream ds hds k h1
      { st with r_pos := st.r_pos + 1 } [c] v1 hrd ha1
      (by simp only [List.length_singleton]; omega) (by omega)
    refine ⟨h2, ?_, ?_, by rw [k2, k1]⟩
    · unfold lisp_read_fixnum_loop
      rw [r1]
      simp only [bind, Except.bind, if_neg b3, b1, a2, ↓reduceIte, List.length_nil, ne_eq,
        not_true_eq_false, List.nil_append, b2]
      rw [r2]
      simp only [List.singleton_append]
    · rw [v2]
      simp only [List.length_cons, Nat.add_assoc, Nat.add_comm 1]
  rcases htext with e | e | e
  · subst e
    obtain ⟨h2, r2, v2, k2⟩ := read_fixnum_loop_digits g hg stream text hds fuel h st [] hv hrd ha
      (by simp only [List.length_nil]; omega) hf
    exact ⟨h2, by rw [r2, List.nil_append], v2, k2⟩
  · exact sign char_minus (Or.inl rfl) e
  · exact sign char_plus (Or.inr rfl) e

/-- What `lisp_read_fixnum` returns for an optional sign and at most eighteen
digits that end the input. -/
theorem read_fixnum_text (g : lisp_globals) (hg : globals_wf g)
    (environment stream recursivep : Nat)
    (text ds : List Nat) (hds : ∀ c ∈ ds, char_0 ≤ c ∧ c ≤ char_9) (hlen : ds.length ≤ 18)
    (htext : text = ds ∨ text = char_minus :: ds ∨ text = char_plus :: ds)
    (fuel : Nat) (h : lisp_heap) (st : charbuf_state)
    (hv : charbuf_view h stream = some st) (hrd : st.is_readable = true)
    (ha : charbuf_ahead st = text) (hf : text.length < fuel) :
    ∃ h', lisp_read_fixnum g fuel h environment stream recursivep
        = .ok (lisp_fixnum_create true (c_atol text), h')
      ∧ charbuf_view h' stream = some { st with r_pos := st.r_pos + text.length }
      ∧ h'.lisp_heap_cur = h.lisp_heap_cur := by
  obtain ⟨h2, r2, v2, k2⟩ :=
    read_fixnum_loop_text g hg stream text ds hds hlen htext fuel h st hv hrd ha hf
  refine ⟨h2, ?_, v2, k2⟩
  unfold lisp_read_fixnum
  simp only [bind, Except.bind, Nat.reduceAdd, r2, pure, Except.pure]

/-- Nothing is skipped in front of a character that is neither white space
nor the start of a comment. -/
theorem skip_whitespace_none (g : lisp_globals) (hg : globals_wf g) (stream : Nat)
    (k : Nat) (h : lisp_heap) (st : charbuf_state) (c : Nat) (cs : List Nat)
    (hv : charbuf_view h stream = some st) (hrd : st.is_readable = true)
    (ha : charbuf_ahead st = c :: cs) (hc : c < 128)
    (n1 : c ≠ char_space) (n2 : c ≠ char_newline) (n3 : c ≠ char_tab)
    (n4 : c ≠ char_semicolon) :
    ∃ h', lisp_skip_whitespace_and_comments g (k + 1) h stream = .ok h'
      ∧ charbuf_view h' stream = some st ∧ h'.lisp_heap_cur = h.lisp_heap_cur := by
  obtain ⟨b1, b2, b3, _⟩ := ascii_char g hg c hc
  obtain ⟨h1, h2, r1, _, r2, v2, k2⟩ := view_read_unread g h stream st c cs hv hrd ha
  refine ⟨h2, ?_, v2, k2⟩
  unfold lisp_skip_whitespace_and_comments
  rw [r1]
  simp only [bind, Except.bind, if_neg b3, b1, n1, n2, n3, n4, or_self, ↓reduceIte, r2,
    pure, Except.pure]

/-- What `lisp_read` returns for an optional sign and at most eighteen digits
that end the input of the stream it is given. -/
theorem read_text (g : lisp_globals) (hg : globals_wf g)
    (environment stream recursivep : Nat)
    (hs1 : stream ≠ g.lisp_T) (hs2 : stream ≠ g.lisp_NIL) (hs3 : lisp_streamp g stream ≠ 0)
    (text ds : List Nat) (hds : ∀ c ∈ ds, char_0 ≤ c ∧ c ≤ char_9) (hlen : ds.length ≤ 18)
    (hne : ds ≠ [])
    (htext : text = ds ∨ text = char_minus :: ds ∨ text = char_plus :: ds)
    (fuel : Nat) (h : lisp_heap) (st : charbuf_state)
    (hv : charbuf_view h stream = some st) (hrd : st.is_readable = true)
    (ha : charbuf_ahead st = text) (hf : text.length < fuel) :
    ∃ h', lisp_read g (fuel + 3) h environment stream recursivep
        = .ok (lisp_fixnum_create true (c_atol text), h')
      ∧ charbuf_view h' stream = some { st with r_pos := st.r_pos + text.length }
      ∧ h'.lisp_heap_cur = h.lisp_heap_cur := by
  obtain ⟨d, ds', rfl⟩ : ∃ d ds', ds = d :: ds' := by
    cases ds with
    | nil => exact absurd rfl hne
    | cons d ds' => exact ⟨d, ds', rfl⟩
  have hd := hds d (List.mem_cons_self _ _)
  obtain ⟨d1, d2, d3⟩ := digit_ascii d hd
  obtain ⟨e1, e2, e3, _⟩ := ascii_char g hg d d1
  have best : lisp_stream_best_input_stream g (fuel + 2) h environment stream = .ok stream := by
    unfold lisp_stream_best_input_stream
    simp only [if_neg hs1, if_neg hs2, ne_eq, hs3, not_false_eq_true, ↓reduceIte, pure,
      Except.pure]
  have start : lisp_read g (fuel + 3) h environment stream recursivep
      = lisp_read_object g (fuel + 2) h environment stream recursivep := by
    rw [lisp_read]
    simp only [bind, Except.bind, best]
  rw [start]
  have sign : ∀ c, (c = char_minus ∨ c = char_plus) → text = c :: d :: ds' →
      ∃ h', lisp_read_object g (fuel + 2) h environment stream recursivep
          = .ok (lisp_fixnum_create true (c_atol text), h')
        ∧ charbuf_view h' stream = some { st with r_pos := st.r_pos + text.length }
        ∧ h'.lisp_heap_cur = h.lisp_heap_cur := by
    intro c hc e
    have a1 : c < 128 := by
      rcases hc with x | x <;> subst x <;> decide
    have a2 : c = char_plus ∨ c = char_minus := hc.symm
    have a3 : ¬ (char_0 ≤ c ∧ c ≤ char_9) := by
      rcases hc with x | x <;> subst x <;> decide
    have a4 : c ≠ char_space ∧ c ≠ char_newline ∧ c ≠ char_tab ∧ c ≠ char_semicolon := by
      rcases hc with x | x <;> subst x <;> decide
    obtain ⟨b1, b2, b3, _⟩ := ascii_char g hg c a1
    rw [e] at ha
    obtain ⟨h1, s1, v1, k1⟩ := skip_whitespace_none g hg stream fuel h st c (d :: ds') hv hrd ha a1
      a4.1 a4.2.1 a4.2.2.1 a4.2.2.2
    obtain ⟨h2, r2, v2, k2⟩ := view_read_char g h1 stream st c (d :: ds') v1 hrd ha
    have ha2 := (charbuf_ahead_cons st c (d :: ds') ha).2.2
    obtain ⟨h3, h4, r3, _, r4, v4, k4⟩ := view_read_unread g h2 stream
      { st with r_pos := st.r_pos + 1 } d ds' v2 hrd ha2
    obtain ⟨h5, r5, v5, k5⟩ := view_unread_char g h4 stream
      (lisp_char_create (word_of_c_char c)) { st with r_pos := st.r_pos + 1 } v4 hrd
      (Nat.succ_pos _)
    have v5' : charbuf_view h5 stream = some st := v5
    obtain ⟨h6, r6, v6, k6⟩ := read_fixnum_text g hg environment stream recursivep text
      (d :: ds') hds hlen htext (fuel + 1) h5 st v5' hrd (by rw [e]; exact ha) (by omega)
    refine ⟨h6, ?_, v6, by rw [k6, k5, k4, k2, k1]⟩
    rw [lisp_read_object]
    have hd' : 0x30 ≤ d ∧ d ≤ 0x39 := hd
    simp only [bind, Except.bind, s1, r2, if_neg b3, b1, a3, a2, ↓reduceIte, r3, e1, r4, r5,
      hd', and_self, r6]
  rcases htext with e | e | e
  · have a4 : d ≠ char_space ∧ d ≠ char_newline ∧ d ≠ char_tab ∧ d ≠ char_semicolon := by
      unfold char_0 char_9 at hd
      unfold char_space char_newline char_tab char_semicolon
      omega
    rw [e] at ha
    obtain ⟨h1, s1, v1, k1⟩ := skip_whitespace_none g hg stream fuel h st d ds' hv hrd ha d1
      a4.1 a4.2.1 a4.2.2.1 a4.2.2.2
    obtain ⟨h2, h3, r2, _, r3, v3, k3⟩ := view_read_unread g h1 stream st d ds' v1 hrd ha
    obtain ⟨h6, r6, v6, k6⟩ := read_fixnum_text g hg environment stream recursivep text
      (d :: ds') hds hlen (Or.inl e) (fuel + 1) h3 st v3 hrd (by rw [e]; exact ha) (by omega)
    refine ⟨h6, ?_, v6, by rw [k6, k3, k1]⟩
    rw [lisp_read_object]
    simp only [bind, Except.bind, s1, r2, if_neg e3, e1, hd, and_self, ↓reduceIte, r3, r6]
  · exact sign char_minus (Or.inl rfl) e
  · exact sign char_plus (Or.inr rfl) e

/-! ## Printing a fixnum to a character buffer -/

theorem allocate_object (h : lisp_heap) (hal : h.lisp_heap_cur % 16 = 0) (tag : Nat)
    (ht : tag < 16) (size : Nat) (contents : lisp_record) :
    lisp_object_get_tag (lisp_object_allocate h tag size contents).1 = tag
      ∧ lisp_object_get_raw_value (lisp_object_allocate h tag size contents).1
          = h.lisp_heap_cur
      ∧ heap_read (lisp_object_allocate h tag size contents).2 h.lisp_heap_cur = some contents
      ∧ (∀ x, x ≠ h.lisp_heap_cur →
          heap_read (lisp_object_allocate h tag size contents).2 x = heap_read h x)
      ∧ h.lisp_heap_cur < (lisp_object_allocate h tag size contents).2.lisp_heap_cur
      ∧ (lisp_object_allocate h tag size contents).2.lisp_heap_cur % 16 = 0 := by
  obtain ⟨k, hk⟩ : ∃ k, h.lisp_heap_cur = 16 * k := ⟨h.lisp_heap_cur / 16, by omega⟩
  have hobj : (lisp_object_allocate h tag size contents).1 = h.lisp_heap_cur + tag := by
    unfold lisp_object_allocate
    simp only
    rw [hk]
    exact mul16_or k tag ht
  have hr := round_16 size
  have hpos : 0 < lisp_round_to_next_multiple size 16 := by
    unfold lisp_round_to_next_multiple
    split <;> omega
  refine ⟨?_, ?_, ?_, ?_, ?_, ?_⟩
  · rw [hobj, lisp_object_get_tag_eq]; omega
  · rw [hobj, lisp_object_get_raw_value_eq]; omega
  · unfold lisp_object_allocate; simp [heap_read, heap_write]
  · intro x hx
    unfold lisp_object_allocate
    simp [heap_read, heap_write, hx]
  · unfold lisp_object_allocate
    simp only
    omega
  · unfold lisp_object_allocate
    simp only
    omega

theorem range_map_getD (l : List Nat) :
    (List.range l.length).map (fun i => l.getD i 0) = l := by
  apply List.ext_getElem
  · simp
  · intro i h1 h2
    simp only [List.getElem_map, List.getElem_range, List.getD_eq_getElem?_getD]
    rw [List.getElem?_eq_getElem h2]
    rfl

/-- The string `lisp_string_create_c` makes of a text without `NUL`: its
characters, and what it leaves of the heap. -/
theorem string_create_c_chars (h : lisp_heap) (hal : h.lisp_heap_cur % 16 = 0)
    (text : List Nat) (hnn : ∀ x ∈ text, x ≠ 0) :
    lisp_string_chars (lisp_string_create_c h text).2 (lisp_string_create_c h text).1
        = text.map (fun c => lisp_char_create (word_of_c_char c))
      ∧ h.lisp_heap_cur ≤ (lisp_string_create_c h text).2.lisp_heap_cur
      ∧ (lisp_string_create_c h text).2.lisp_heap_cur % 16 = 0
      ∧ (∀ a, a < h.lisp_heap_cur →
          heap_read (lisp_string_create_c h text).2 a = heap_read h a) := by
  have e0 := c_string_of_no_NUL text hnn
  obtain ⟨_, a2, a3, a4, a5, a6⟩ := allocate_object h hal lisp_tag_interior (by decide)
    (8 * lisp_round_to_next_multiple text.length 16)
    (lisp_record.interior (text.map (fun ch => lisp_char_create (word_of_c_char ch))))
  generalize hr1 : lisp_object_allocate h lisp_tag_interior
    (8 * lisp_round_to_next_multiple text.length 16)
    (lisp_record.interior (text.map (fun ch => lisp_char_create (word_of_c_char ch)))) = r1
    at a2 a3 a4 a5 a6
  obtain ⟨_, b2, b3, b4, b5, b6⟩ := allocate_object r1.2 a6 lisp_tag_string (by decide) 24
    (lisp_record.string r1.1
      (if lisp_round_to_next_multiple text.length 16 > 0
        then lisp_round_to_next_multiple text.length 16 else text.length) text.length)
  have e : lisp_string_create_c h text
      = lisp_object_allocate r1.2 lisp_tag_string 24
          (lisp_record.string r1.1
            (if lisp_round_to_next_multiple text.length 16 > 0
              then lisp_round_to_next_multiple text.length 16 else text.length)
            text.length) := by
    unfold lisp_string_create_c lisp_interior_create lisp_string_create
    simp only [e0, hr1]
  rw [e]
  generalize lisp_object_allocate r1.2 lisp_tag_string 24
    (lisp_record.string r1.1
      (if lisp_round_to_next_multiple text.length 16 > 0
        then lisp_round_to_next_multiple text.length 16 else text.length) text.length) = r2
    at b2 b3 b4 b5 b6
  refine ⟨?_, by omega, b6, ?_⟩
  · unfold lisp_string_chars lisp_string_get_value lisp_interior_get_value
    rw [b2, b3]
    simp only
    rw [a2, b4 _ (by omega), a3]
    simp only
    have := range_map_getD (text.map (fun c => lisp_char_create (word_of_c_char c)))
    rw [List.length_map] at this
    exact this
  · intro a ha
    rw [b4 a (by omega), a4 a (by omega)]

theorem charbuf_view_keep (h h' : lisp_heap) (stream : Nat) (st : charbuf_state)
    (hv : charbuf_view h stream = some st) (hcur : h.lisp_heap_cur ≤ h'.lisp_heap_cur)
    (hkeep : ∀ a, a < h.lisp_heap_cur → heap_read h' a = heap_read h a) :
    charbuf_view h' stream = some st := by
  obtain ⟨functions, flags, metadata, _, _, p3, p4, _, _, p7, _, _⟩ :=
    charbuf_view_parts h stream st hv
  refine charbuf_view_of_parts h h' stream st st hv hcur rfl ?_ (fun a _ ha => hkeep a ha)
  rw [hkeep _ p7, p4, p3]

theorem view_write_char (g : lisp_globals) (hg : globals_wf g) (h : lisp_heap) (stream : Nat)
    (st : charbuf_state) (c : Nat) (hc : c < 128)
    (hv : charbuf_view h stream = some st) (hwr : st.is_writable = true)
    (hlt : st.w_pos < st.max) (hw : st.w_pos = st.buf.length) :
    ∃ h', lisp_char_print_quoted g h stream c g.lisp_NIL = .ok (stream, h')
      ∧ charbuf_view h' stream
          = some { st with buf := st.buf ++ [c], w_pos := st.w_pos + 1 }
      ∧ h'.lisp_heap_cur = h.lisp_heap_cur := by
  obtain ⟨b1, b2, _, b4⟩ := ascii_char g hg c hc
  rw [b4] at b1
  have e : buf_set st.buf st.w_pos c = st.buf ++ [c] := by
    unfold buf_set
    rw [hw, if_neg (Nat.lt_irrefl _), Nat.sub_self]
    simp
  refine ⟨_, ?_, charbuf_view_write h stream st
    { st with buf := st.buf ++ [c], w_pos := st.w_pos + 1 } hv rfl, rfl⟩
  unfold lisp_char_print_quoted
  simp only [ne_eq, not_true_eq_false, ↓reduceIte, bind, Except.bind, pure, Except.pure]
  rw [charbuf_write_char g h stream _ st hv hwr hlt, b1, b2, e]

/-- The loop of `lisp_string_print_quoted` over ASCII characters, on a buffer
with room for them. -/
theorem string_print_loop_view (g : lisp_globals) (hg : globals_wf g) (stream : Nat) :
    ∀ (cs : List Nat), (∀ c ∈ cs, c < 128) →
    ∀ (h : lisp_heap) (st : charbuf_state),
      charbuf_view h stream = some st → st.is_writable = true →
      st.w_pos + cs.length ≤ st.max → st.w_pos = st.buf.length →
      ∃ h', lisp_string_print_loop g (cs.map (fun c => lisp_char_create (word_of_c_char c)))
            h stream = .ok h'
        ∧ charbuf_view h' stream
            = some { st with buf := st.buf ++ cs, w_pos := st.w_pos + cs.length }
        ∧ h'.lisp_heap_cur = h.lisp_heap_cur := by
  intro cs
  induction cs with
  | nil =>
    intro _ h st hv _ _ _
    refine ⟨h, rfl, ?_, rfl⟩
    rw [hv]
    simp only [List.append_nil, List.length_nil, Nat.add_zero]
  | cons c cs ih =>
    intro hcs h st hv hwr hroom hw
    have hc := hcs c (List.mem_cons_self _ _)
    obtain ⟨b1, _, _, _⟩ := ascii_char g hg c hc
    simp only [List.length_cons] at hroom
    obtain ⟨h1, r1, v1, k1⟩ := view_write_char g hg h stream st c hc hv hwr (by omega) hw
    obtain ⟨h2, r2, v2, k2⟩ := ih (fun x hx => hcs x (List.mem_cons_of_mem _ hx)) h1
      { st with buf := st.buf ++ [c], w_pos := st.w_pos + 1 } v1 hwr
      (by simp only; omega)
      (by simp only [List.length_append, List.length_singleton]; omega)
    refine ⟨h2, ?_, ?_, by rw [k2, k1]⟩
    · simp only [List.map_cons]
      unfold lisp_string_print_loop
      simp only [b1, bind, Except.bind, r1, r2]
    · rw [v2]
      simp only [List.append_assoc, List.singleton_append, List.length_cons, Nat.add_assoc,
        Nat.add_comm 1]

theorem fixnum_natAbs_bound (f : Int)
    (hmin : lisp_fixnum_min true ≤ f) (hmax : f ≤ lisp_fixnum_max true) :
    f.natAbs < 10 ^ 18 := by
  have e1 : lisp_fixnum_min true = -576460752303423488 := by decide
  have e2 : lisp_fixnum_max true = 576460752303423487 := by decide
  rw [e1] at hmin
  rw [e2] at hmax
  omega

theorem snprintf_lld_chars (f : Int) (hf : f.natAbs < 10 ^ 20) :
    ∀ c ∈ c_snprintf_lld f, c < 128 ∧ c ≠ 0 ∧ c ≠ char_plus := by
  intro c hc
  rw [c_snprintf_lld_eq f hf, List.mem_append] at hc
  rcases hc with hc | hc
  · split at hc
    · simp only [List.mem_singleton] at hc
      subst hc
      decide
    · cases hc
  · have := base_10_digits_digit _ c hc
    unfold char_0 char_9 at this
    unfold char_plus
    omega

theorem tests_buffer_view (h : lisp_heap) (stream : Nat) (st : charbuf_state)
    (hv : charbuf_view h stream = some st) : tests_buffer h stream = c_string st.buf := by
  obtain ⟨metadata, f1, _, f3⟩ := stream_get_functions_charbuf h stream st hv
  unfold tests_buffer
  rw [f1]
  simp only
  rw [f3]
  rfl

/-- What `lisp_fixnum_print` writes to a character buffer with room for it. -/
theorem fixnum_print_view (g : lisp_globals) (hg : globals_wf g) (h : lisp_heap)
    (stream : Nat) (st : charbuf_state) (f : Int) (hf : f.natAbs < 10 ^ 20)
    (hv : charbuf_view h stream = some st) (hwr : st.is_writable = true)
    (hw : st.w_pos = st.buf.length)
    (hroom : st.w_pos + (c_snprintf_lld f).length ≤ st.max)
    (hal : h.lisp_heap_cur % 16 = 0) :
    ∃ h', lisp_fixnum_print g h stream f = .ok (g.lisp_T, h')
      ∧ charbuf_view h' stream
          = some { st with buf := st.buf ++ c_snprintf_lld f,
                           w_pos := st.w_pos + (c_snprintf_lld f).length } := by
  have hch := snprintf_lld_chars f hf
  obtain ⟨s1, s2, _, s4⟩ := string_create_c_chars h hal (c_snprintf_lld f)
    (fun x hx => (hch x hx).2.1)
  have v1 := charbuf_view_keep h (lisp_string_create_c h (c_snprintf_lld f)).2 stream st hv s2 s4
  obtain ⟨h2, r2, v2, _⟩ := string_print_loop_view g hg stream (c_snprintf_lld f)
    (fun x hx => (hch x hx).1) _ st v1 hwr hroom hw
  refine ⟨h2, ?_, v2⟩
  unfold lisp_fixnum_print lisp_string_print_quoted
  simp only [ne_eq, not_true_eq_false, ↓reduceIte, bind, Except.bind, pure, Except.pure, s1, r2]

/-- C30: for every fixnum `f` in the representable range (of the LP64 build),
the text `lisp_fixnum_print` makes of `f` is its base-10 digits, with a
leading `-` when `f` is negative, and has no `+`. Printing `f`, with
`lisp_fixnum_print` or with `lisp_print` of the fixnum object, to an open
writable character-buffer stream with room for the text appends exactly
that text to the buffer. Reading that text, or for a non-negative `f` that
text with an explicit `+` in front, from a readable character-buffer stream
whose input ends with it, with `lisp_read_fixnum` or with `lisp_read`,
returns a fixnum object whose value is `f`. The bounds of the range are
covered: nothing is asked of `f` beyond lying between the minimum and the
maximum. -/
theorem C30_fixnum_print_then_read (g : lisp_globals) (hg : globals_wf g) (f : Int)
    (hmin : lisp_fixnum_min true ≤ f) (hmax : f ≤ lisp_fixnum_max true) :
    c_snprintf_lld f = (if f < 0 then [char_minus] else []) ++ base_10_digits f.natAbs
      ∧ char_plus ∉ c_snprintf_lld f
      ∧ (∀ (h : lisp_heap) (environment out : lisp_object_t) (st : charbuf_state)
          (fuel : Nat),
          out ≠ g.lisp_T → out ≠ g.lisp_NIL → lisp_streamp g out ≠ 0 →
          charbuf_view h out = some st → st.is_writable = true →
          st.w_pos = st.buf.length → (∀ b ∈ st.buf, b ≠ 0) →
          st.w_pos + (c_snprintf_lld f).length ≤ st.max → h.lisp_heap_cur % 16 = 0 →
          ∃ h', lisp_fixnum_print g h out f = .ok (g.lisp_T, h')
            ∧ lisp_print g (fuel + 1) h environment out (lisp_fixnum_create true f)
                = .ok (g.lisp_T, h')
            ∧ tests_buffer h' out = st.buf ++ c_snprintf_lld f)
      ∧ (∀ (text : List Nat),
          (text = c_snprintf_lld f ∨ (0 ≤ f ∧ text = char_plus :: c_snprintf_lld f)) →
          ∀ (h : lisp_heap) (environment inp recursivep : lisp_object_t)
            (st : charbuf_state) (fuel : Nat),
          inp ≠ g.lisp_T → inp ≠ g.lisp_NIL → lisp_streamp g inp ≠ 0 →
          charbuf_view h inp = some st → st.is_readable = true →
          charbuf_ahead st = text → text.length < fuel →
          ∃ v h1 h2, lisp_read_fixnum g fuel h environment inp recursivep = .ok (v, h1)
            ∧ lisp_read g (fuel + 3) h environment inp recursivep = .ok (v, h2)
            ∧ lisp_object_get_tag v = lisp_tag_fixnum
            ∧ lisp_fixnum_get_value true v = f) := by
  have hb := fixnum_natAbs_bound f hmin hmax
  have hf : f.natAbs < 10 ^ 20 := Nat.lt_of_lt_of_le hb (by norm_num)
  have hch := snprintf_lld_chars f hf
  have htext := c_snprintf_lld_eq f hf
  have hrt := fixnum_round_trip true f hmin hmax
  refine ⟨htext, fun x => (hch _ x).2.2 rfl, ?_, ?_⟩
  · intro h environment out st fuel hs1 hs2 hs3 hv hwr hw hnn hroom hal
    obtain ⟨h', r, v⟩ := fixnum_print_view g hg h out st f hf hv hwr hw hroom hal
    refine ⟨h', r, ?_, ?_⟩
    · have best : lisp_stream_best_output_stream g fuel h environment out = .ok out := by
        unfold lisp_stream_best_output_stream
        simp only [if_neg hs1, if_neg hs2, ne_eq, hs3, not_false_eq_true, ↓reduceIte, pure,
          Except.pure]
      rw [lisp_print]
      simp only [bind, Except.bind, best, hrt.2, ↓reduceIte, hrt.1, r]
    · rw [tests_buffer_view h' out _ v]
      apply c_string_of_no_NUL
      intro x hx
      rcases List.mem_append.1 hx with y | y
      · exact hnn x y
      · exact (hch x y).2.1
  · intro text ht h environment inp recursivep st fuel hs1 hs2 hs3 hv hrd ha hfuel
    have hds := base_10_digits_digit f.natAbs
    have hlen := base_10_digits_length f.natAbs 18 (by norm_num) hb
    have hne := base_10_digits_ne_nil f.natAbs
    have shape : (text = base_10_digits f.natAbs ∨ text = char_minus :: base_10_digits f.natAbs
        ∨ text = char_plus :: base_10_digits f.natAbs) ∧ c_atol text = f := by
      rcases ht with e | ⟨e0, e⟩
      · refine ⟨?_, by rw [e]; exact c_atol_snprintf f hf⟩
        rw [e, htext]
        by_cases c : f < 0
        · rw [if_pos c]; exact Or.inr (Or.inl rfl)
        · rw [if_neg c]; exact Or.inl rfl
      · have c : ¬ f < 0 := by omega
        rw [htext, if_neg c, List.nil_append] at e
        refine ⟨Or.inr (Or.inr e), ?_⟩
        rw [e, c_atol_plus]
        omega
    obtain ⟨h1, r1, _, _⟩ := read_fixnum_text g hg environment inp recursivep text
      (base_10_digits f.natAbs) hds hlen shape.1 fuel h st hv hrd ha hfuel
    obtain ⟨h2, r2, _, _⟩ := read_text g hg environment inp recursivep hs1 hs2 hs3 text
      (base_10_digits f.natAbs) hds hlen hne shape.1 fuel h st hv hrd ha hfuel
    rw [shape.2] at r1 r2
    exact ⟨_, h1, h2, r1, r2, hrt.2, hrt.1⟩

set_option maxRecDepth 100000 in
/-- C30 at the smallest and at the largest fixnum, on the two character-buffer
streams of the test fixture: `lisp_print` of the smallest leaves
`-576460752303423488` in the write buffer and `lisp_read` of that text
returns a fixnum with that value; `lisp_print` of the largest leaves
`576460752303423487` and `lisp_read` of `+576460752303423487` returns a
fixnum with that value. -/
theorem C30_fixnum_print_then_read_witness :
    (∃ h', lisp_print example_root.g 1 example_min_streams.h example_min_streams.environment
          example_min_streams.tests_write_stream (lisp_fixnum_create true (lisp_fixnum_min true))
          = .ok (example_root.g.lisp_T, h')
        ∧ tests_buffer h' example_min_streams.tests_write_stream
            = c_str "-576460752303423488")
      ∧ (∃ v h', lisp_read example_root.g 23 example_min_streams.h
            example_min_streams.environment example_min_streams.tests_read_stream
            example_root.g.lisp_NIL = .ok (v, h')
          ∧ lisp_object_get_tag v = lisp_tag_fixnum
          ∧ lisp_fixnum_get_value true v = lisp_fixnum_min true)
      ∧ (∃ h', lisp_print example_root.g 1 example_max_streams.h
            example_max_streams.environment example_max_streams.tests_write_stream
            (lisp_fixnum_create true (lisp_fixnum_max true))
            = .ok (example_root.g.lisp_T, h')
          ∧ tests_buffer h' example_max_streams.tests_write_stream
              = c_str "576460752303423487")
      ∧ (∃ v h', lisp_read example_root.g 23 example_max_streams.h
            example_max_streams.environment example_max_streams.tests_read_stream
            example_root.g.lisp_NIL = .ok (v, h')
          ∧ lisp_object_get_tag v = lisp_tag_fixnum
          ∧ lisp_fixnum_get_value true v = lisp_fixnum_max true) := by
  have H : (lisp_fixnum_min true ≤ lisp_fixnum_min true
        ∧ lisp_fixnum_min true ≤ lisp_fixnum_max true
        ∧ lisp_fixnum_max true ≤ lisp_fixnum_max true
        ∧ (0 : Int) ≤ lisp_fixnum_max true
        ∧ c_snprintf_lld (lisp_fixnum_min true) = c_str "-576460752303423488"
        ∧ c_snprintf_lld (lisp_fixnum_max true) = c_str "576460752303423487")
      ∧ (example_min_streams.tests_write_stream ≠ example_root.g.lisp_T
        ∧ example_min_streams.tests_write_stream ≠ example_root.g.lisp_NIL
        ∧ lisp_streamp example_root.g example_min_streams.tests_write_stream ≠ 0
        ∧ charbuf_view example_min_streams.h example_min_streams.tests_write_stream
            = some example_write_state
        ∧ example_min_streams.h.lisp_heap_cur % 16 = 0
        ∧ example_min_streams.tests_read_stream ≠ example_root.g.lisp_T
        ∧ example_min_streams.tests_read_stream ≠ example_root.g.lisp_NIL
        ∧ lisp_streamp example_root.g example_min_streams.tests_read_stream ≠ 0
        ∧ charbuf_view example_min_streams.h example_min_streams.tests_read_stream
            = some (example_read_state "-576460752303423488")
        ∧ charbuf_ahead (example_read_state "-576460752303423488")
            = c_snprintf_lld (lisp_fixnum_min true))
      ∧ (example_max_streams.tests_write_stream ≠ example_root.g.lisp_T
        ∧ example_max_streams.tests_write_stream ≠ example_root.g.lisp_NIL
        ∧ lisp_streamp example_root.g example_max_streams.tests_write_stream ≠ 0
        ∧ charbuf_view example_max_streams.h example_max_streams.tests_write_stream
            = some example_write_state
        ∧ example_max_streams.h.lisp_heap_cur % 16 = 0
        ∧ example_max_streams.tests_read_stream ≠ example_root.g.lisp_T
        ∧ example_max_streams.tests_read_stream ≠ example_root.g.lisp_NIL
        ∧ lisp_streamp example_root.g example_max_streams.tests_read_stream ≠ 0
        ∧ charbuf_view example_max_streams.h example_max_streams.tests_read_stream
            = some (example_read_state "+576460752303423487")
        ∧ charbuf_ahead (example_read_state "+576460752303423487")
            = char_plus :: c_snprintf_lld (lisp_fixnum_max true)) := by
    decide!
  obtain ⟨⟨A1, A2, A3, A4, A5, A6⟩, ⟨B1, B2, B3, B4, B5, B6, B7, B8, B9, B10⟩,
    ⟨C1, C2, C3, C4, C5, C6, C7, C8, C9, C10⟩⟩ := H
  obtain ⟨_, _, pmin, rmin⟩ := C30_fixnum_print_then_read example_root.g
    example_root_globals_wf (lisp_fixnum_min true) A1 A2
  obtain ⟨_, _, pmax, rmax⟩ := C30_fixnum_print_then_read example_root.g
    example_root_globals_wf (lisp_fixnum_max true) A2 A3
  refine ⟨?_, ?_, ?_, ?_⟩
  · obtain ⟨h', _, r, t⟩ := pmin example_min_streams.h example_min_streams.environment
      example_min_streams.tests_write_stream example_write_state 0 B1 B2 B3 B4 rfl rfl
      (fun b hb => by cases hb) (by rw [A5]; decide) B5
    exact ⟨h', r, by rw [t, A5]; rfl⟩
  · obtain ⟨v, _, h2, _, r, t, w⟩ := rmin _ (Or.inl rfl) example_min_streams.h
      example_min_streams.environment example_min_streams.tests_read_stream
      example_root.g.lisp_NIL (example_read_state "-576460752303423488") 20 B6 B7 B8 B9 rfl
      B10 (by rw [A5]; decide)
    exact ⟨v, h2, r, t, w⟩
  · obtain ⟨h', _, r, t⟩ := pmax example_max_streams.h example_max_streams.environment
      example_max_streams.tests_write_stream example_write_state 0 C1 C2 C3 C4 rfl rfl
      (fun b hb => by cases hb) (by rw [A6]; decide) C5
    exact ⟨h', r, by rw [t, A6]; rfl⟩
  · obtain ⟨v, _, h2, _, r, t, w⟩ := rmax _ (Or.inr ⟨A4, rfl⟩) example_max_streams.h
      example_max_streams.environment example_max_streams.tests_read_stream
      example_root.g.lisp_NIL (example_read_state "+576460752303423487") 20 C6 C7 C8 C9 rfl
      C10 (by rw [A6]; decide)
    exact ⟨v, h2, r, t, w⟩


/-! ## `APPLY` and the application of quoted arguments -/

theorem QUOTE_is_special_parts (g : lisp_globals) (hq : QUOTE_is_special g = true) :
    lisp_object_get_tag g.lisp_symbol_QUOTE = lisp_tag_atom
      ∧ ∃ m1, g.lisp_special_form_mappings.find?
          (fun m => decide (lisp_eq g g.lisp_symbol_QUOTE m.1 ≠ g.lisp_NIL))
          = some (m1, sform_QUOTE) := by
  unfold QUOTE_is_special at hq
  simp only [Bool.and_eq_true, decide_eq_true_eq] at hq
  refine ⟨hq.1, ?_⟩
  have h2 := hq.2
  split at h2
  · rename_i m hm
    obtain ⟨m1, m2⟩ := m
    simp only [decide_eq_true_eq] at h2
    subst h2
    exact ⟨m1, hm⟩
  · cases h2

/-- The value of a form `(QUOTE v)`. -/
theorem eval_quote_form (g : lisp_globals) (hg : globals_wf g) (hq : QUOTE_is_special g = true)
    (h : lisp_heap) (base environment form v : Nat) (k : Nat)
    (hf : is_quote_form g h base form v = true) :
    lisp_eval g (k + 2) h environment form = .ok (v, h) := by
  obtain ⟨q1, m1, q2⟩ := QUOTE_is_special_parts g hq
  unfold is_quote_form at hf
  simp only [Bool.and_eq_true, decide_eq_true_eq] at hf
  obtain ⟨⟨⟨⟨f1, f2⟩, f3⟩, _⟩, _⟩ := hf
  have hatom : lisp_atomp g g.lisp_symbol_QUOTE ≠ g.lisp_NIL := by
    unfold lisp_atomp lisp_object_has_tag
    rw [if_pos q1]
    exact hg.T_ne_NIL
  have hsp : lisp_eval_is_special_form g g.lisp_symbol_QUOTE = true := by
    unfold lisp_eval_is_special_form
    rw [List.any_eq_true]
    have hp := List.find?_some (p := fun m : Nat × Nat =>
      decide (lisp_eq g g.lisp_symbol_QUOTE m.1 ≠ g.lisp_NIL)) q2
    exact ⟨_, List.mem_of_find?_eq_some q2, hp⟩
  rw [lisp_eval]
  have n1 : ¬ lisp_tag_cell = lisp_tag_atom := by decide
  simp only [f1, n1, ↓reduceIte]
  rw [lisp_eval_cell]
  simp only [f2, hatom, ne_eq, not_false_eq_true, ↓reduceIte, hsp]
  unfold lisp_eval_special_form
  rw [q2]
  simp only [sform_QUOTE, sform_AND, sform_COND, sform_DEFINE, sform_DEFUN, sform_IF,
    sform_LAMBDA, sform_OR, Nat.reduceEqDiff, ↓reduceIte, OfNat.ofNat_ne_one]
  unfold lisp_eval_QUOTE
  rw [f3]
  rfl

theorem is_quote_form_congr (g : lisp_globals) (h h' : lisp_heap) (base form v : Nat)
    (hs : ∀ a, a < base → heap_read h' a = heap_read h a)
    (hf : is_quote_form g h base form v = true) :
    is_quote_form g h' base form v = true := by
  unfold is_quote_form at hf ⊢
  simp only [Bool.and_eq_true, decide_eq_true_eq] at hf ⊢
  obtain ⟨⟨⟨⟨f1, f2⟩, f3⟩, f4⟩, f5⟩ := hf
  have e1 := lisp_cell_car_congr g h h' form (hs _ f4)
  have e2 := lisp_cell_car_congr g h h' (lisp_cell_cdr g h form) (hs _ f5)
  rw [e1.1, e1.2, e2.1]
  exact ⟨⟨⟨⟨f1, f2⟩, f3⟩, f4⟩, f5⟩

theorem quote_forms_congr (g : lisp_globals) (h h' : lisp_heap) (base : Nat)
    (hs : ∀ a, a < base → heap_read h' a = heap_read h a) :
    ∀ (cells values : List Nat), quote_forms g h base cells values = true →
      quote_forms g h' base cells values = true := by
  intro cells
  induction cells with
  | nil =>
    intro values hv
    cases values with
    | nil => rfl
    | cons v vs => simp [quote_forms] at hv
  | cons c cs ih =>
    intro values hv
    cases values with
    | nil => simp [quote_forms] at hv
    | cons v vs =>
      unfold quote_forms at hv ⊢
      simp only [Bool.and_eq_true, decide_eq_true_eq] at hv ⊢
      obtain ⟨⟨a1, a2⟩, a3⟩ := hv
      have e := lisp_cell_car_congr g h h' c (hs _ a1)
      rw [e.1]
      exact ⟨⟨a1, is_quote_form_congr g h h' base _ v hs a2⟩, ih vs a3⟩

theorem quote_forms_below (g : lisp_globals) (h : lisp_heap) (base : Nat) :
    ∀ (cells values : List Nat), quote_forms g h base cells values = true →
      (∀ x ∈ cells, lisp_object_get_raw_value x < base) ∧ cells.length = values.length := by
  intro cells
  induction cells with
  | nil =>
    intro values hv
    cases values with
    | nil => simp
    | cons v vs => simp [quote_forms] at hv
  | cons c cs ih =>
    intro values hv
    cases values with
    | nil => simp [quote_forms] at hv
    | cons v vs =>
      unfold quote_forms at hv
      simp only [Bool.and_eq_true, decide_eq_true_eq] at hv
      obtain ⟨⟨a1, _⟩, a3⟩ := hv
      obtain ⟨i1, i2⟩ := ih vs a3
      refine ⟨?_, by simp [i2]⟩
      intro x hx
      rcases List.mem_cons.1 hx with e | e
      · rw [e]; exact a1
      · exact i1 x e

/-- The loop of `lisp_eval_argument_list` over forms `(QUOTE v)`: it appends to
the chain built so far one new cell for each value, and leaves the records
below `base` as they are. -/
theorem quote_loop (g : lisp_globals) (hg : globals_wf g) (hq : QUOTE_is_special g = true)
    (environment base k : Nat) :
    ∀ (cs vs : List Nat) (c v : Nat) (h : lisp_heap) (done : List (Nat × Nat)) (fuel : Nat),
      list_cells g h c (c :: cs) = true →
      quote_forms g h base (c :: cs) (v :: vs) = true →
      (∀ p ∈ done, p.1 % 16 = 0 ∧ base ≤ p.1 ∧ p.1 < h.lisp_heap_cur) →
      (done.map Prod.fst).Nodup →
      cells_linked g h done →
      base ≤ h.lisp_heap_cur → h.lisp_heap_cur % 16 = 0 →
      cs.length < fuel →
      ∃ (h' : lisp_heap) (new : List (Nat × Nat)),
        lisp_eval_argument_list_loop g (lisp_eval g (k + 2)) fuel h environment c
            (linked_result g done) (linked_tail g done)
          = .ok (linked_result g (done ++ new), h')
        ∧ cells_linked g h' (done ++ new)
        ∧ new.map Prod.snd = v :: vs
        ∧ (∀ p ∈ new, p.1 % 16 = 0 ∧ h.lisp_heap_cur ≤ p.1 ∧ p.1 < h'.lisp_heap_cur)
        ∧ (∀ a, a < base → heap_read h' a = heap_read h a)
        ∧ h.lisp_heap_cur ≤ h'.lisp_heap_cur := by
  intro cs
  induction cs with
  | nil =>
    intro vs c v h done fuel hlist hqf hdone hnd hl hbase hal hfuel
    obtain ⟨n, rfl⟩ : ∃ n, fuel = n + 1 := ⟨fuel - 1, by omega⟩
    have hqf' := hqf
    unfold quote_forms at hqf'
    simp only [Bool.and_eq_true, decide_eq_true_eq] at hqf'
    obtain ⟨⟨a1, a2⟩, a3⟩ := hqf'
    have hvs : vs = [] := by
      cases vs with
      | nil => rfl
      | cons w ws => simp [quote_forms] at a3
    subst hvs
    have hev := eval_quote_form g hg hq h base environment _ v k a2
    obtain ⟨h3, hcase, hcur3, hl3, hread3⟩ := arg_link g hg h v done
      (fun q hq' => ⟨(hdone q hq').1, (hdone q hq').2.2⟩) hnd hl
    have hc1 : (lisp_cell_cons h v g.lisp_NIL).1 = h.lisp_heap_cur := by
      rw [lisp_cell_cons_eq]
    have hsame : ∀ a, a < base → heap_read h3 a = heap_read h a := by
      intro a ha
      apply hread3 a (by omega)
      intro q hq' e
      have := (hdone q hq').2.1
      omega
    have hcdr : lisp_cell_cdr g h3 c = g.lisp_NIL := by
      rw [(lisp_cell_car_congr g h h3 c (hsame _ a1)).2]
      unfold list_cells at hlist
      simp only [Bool.and_eq_true, decide_eq_true_eq] at hlist
      have := hlist.2
      unfold list_cells at this
      simpa using this
    have hres := linked_result_snoc g hg done (h.lisp_heap_cur, v) (fun q hq' => (hdone q hq').1)
    refine ⟨h3, [(h.lisp_heap_cur, v)], ?_, hl3, rfl, ?_, hsame, by omega⟩
    · rw [arg_loop_unfold, hev]
      simp only [hc1]
      rcases hcase with ⟨_, e2, e3⟩ | ⟨t, _, e2, e3, e4⟩
      · subst e3
        simp only [e2, ne_eq, not_true_eq_false, ↓reduceIte, pure, Except.pure, hc1, hcdr]
        rw [← hres, e2]
        simp
      · rw [e3, e4]
        simp only [ne_eq, e2, not_false_eq_true, ↓reduceIte, bind, Except.bind, pure,
          Except.pure, hcdr, not_true_eq_false]
        rw [← hres]
        simp [e2]
    · intro p hp
      simp only [List.mem_singleton] at hp
      subst hp
      exact ⟨hal, Nat.le_refl _, by simp only; omega⟩
  | cons c2 cs ih =>
    intro vs c v h done fuel hlist hqf hdone hnd hl hbase hal hfuel
    obtain ⟨n, rfl⟩ : ∃ n, fuel = n + 1 := ⟨fuel - 1, by omega⟩
    have hqf' := hqf
    unfold quote_forms at hqf'
    simp only [Bool.and_eq_true, decide_eq_true_eq] at hqf'
    obtain ⟨⟨a1, a2⟩, a3⟩ := hqf'
    obtain ⟨v2, vs2, rfl⟩ : ∃ v2 vs2, vs = v2 :: vs2 := by
      cases vs with
      | nil => simp [quote_forms] at a3
      | cons w ws => exact ⟨w, ws, rfl⟩
    have hev := eval_quote_form g hg hq h base environment _ v k a2
    obtain ⟨h3, hcase, hcur3, hl3, hread3⟩ := arg_link g hg h v done
      (fun q hq' => ⟨(hdone q hq').1, (hdone q hq').2.2⟩) hnd hl
    have hc1 : (lisp_cell_cons h v g.lisp_NIL).1 = h.lisp_heap_cur := by
      rw [lisp_cell_cons_eq]
    have hsame : ∀ a, a < base → heap_read h3 a = heap_read h a := by
      intro a ha
      apply hread3 a (by omega)
      intro q hq' e
      have := (hdone q hq').2.1
      omega
    have hlist' := hlist
    unfold list_cells at hlist'
    simp only [Bool.and_eq_true, decide_eq_true_eq] at hlist'
    have hrest := hlist'.2
    have hc2 : c2 = lisp_cell_cdr g h c := by
      unfold list_cells at hrest
      simp only [Bool.and_eq_true, decide_eq_true_eq] at hrest
      exact hrest.1.1
    have hcdr : lisp_cell_cdr g h3 c = c2 := by
      rw [(lisp_cell_car_congr g h h3 c (hsame _ a1)).2, hc2]
    have hrest2 : list_cells g h c2 (c2 :: cs) = true := by
      rw [← hc2] at hrest
      exact hrest
    have hne : c2 ≠ g.lisp_NIL := list_cells_ne_NIL g hg h c2 c2 cs hrest2
    have hbelow := (quote_forms_below g h base _ _ a3).1
    have hlist3 : list_cells g h3 c2 (c2 :: cs) = true := by
      rw [list_cells_congr g h h3 (c2 :: cs) c2 (fun x hx => hsame _ (hbelow x hx))]
      exact hrest2
    have hqf3 := quote_forms_congr g h h3 base hsame _ _ a3
    have hres := linked_result_snoc g hg done (h.lisp_heap_cur, v) (fun q hq' => (hdone q hq').1)
    have htail : linked_tail g (done ++ [(h.lisp_heap_cur, v)]) = h.lisp_heap_cur := by
      simp [linked_tail]
    obtain ⟨h', new, r1, r2, r3, r4, r5, r6⟩ := ih vs2 c2 v2 h3 (done ++ [(h.lisp_heap_cur, v)]) n
      hlist3 hqf3
      (by
        intro p hp
        rcases List.mem_append.1 hp with e | e
        · have := hdone p e
          exact ⟨this.1, this.2.1, by omega⟩
        · simp only [List.mem_singleton] at e
          subst e
          exact ⟨hal, hbase, by simp only; omega⟩)
      (by
        rw [List.map_append, List.nodup_append]
        refine ⟨hnd, by simp, ?_⟩
        intro a ha hb
        simp only [List.map_cons, List.map_nil, List.mem_singleton] at hb
        obtain ⟨q, hq', rfl⟩ := List.mem_map.1 ha
        have := (hdone q hq').2.2
        omega)
      hl3 (by omega) (by omega) (by simp only [List.length_cons] at hfuel; omega)
    refine ⟨h', (h.lisp_heap_cur, v) :: new, ?_, ?_, ?_, ?_, ?_, by omega⟩
    · rw [arg_loop_unfold, hev]
      simp only [hc1]
      rw [htail] at r1
      rw [List.append_assoc, List.singleton_append] at r1
      rcases hcase with ⟨_, e2, e3⟩ | ⟨t, _, e2, e3, e4⟩
      · subst e3
        simp only [e2, ne_eq, not_true_eq_false, ↓reduceIte, pure, Except.pure, hc1, hcdr, hne,
          not_false_eq_true]
        rw [← hres, e2] at r1
        simp only [ne_eq, not_true_eq_false, ↓reduceIte] at r1
        exact r1
      · rw [e3, e4]
        simp only [ne_eq, e2, not_false_eq_true, ↓reduceIte, bind, Except.bind, pure,
          Except.pure, hcdr, hne]
        rw [← hres] at r1
        simp only [ne_eq, e2, not_false_eq_true, ↓reduceIte] at r1
        exact r1
    · rw [List.append_assoc, List.singleton_append] at r2
      exact r2
    · rw [List.map_cons, r3]
    · intro p hp
      rcases List.mem_cons.1 hp with e | e
      · subst e
        exact ⟨hal, Nat.le_refl _, by simp only; omega⟩
      · have := r4 p e
        exact ⟨this.1, by omega, this.2.2⟩
    · intro a ha
      rw [r5 a ha, hsame a ha]

/-- What `lisp_eval_argument_list` makes of a list of forms `(QUOTE v)`: a
list of new cells that holds the values. -/
theorem eval_quoted_arguments (g : lisp_globals) (hg : globals_wf g)
    (hq : QUOTE_is_special g = true) (environment k fuel : Nat) (h : lisp_heap) (list : Nat)
    (cells values : List Nat)
    (hlist : list_cells g h list cells = true)
    (hqf : quote_forms g h h.lisp_heap_cur cells values = true)
    (hal : h.lisp_heap_cur % 16 = 0)
    (hfuel : cells.length ≤ fuel) :
    ∃ (L' : Nat) (h' : lisp_heap) (newcells : List Nat),
      lisp_eval_argument_list g (lisp_eval g (k + 2)) fuel h environment list = .ok (L', h')
      ∧ list_cells g h' L' newcells = true
      ∧ newcells.map (lisp_cell_car g h') = values
      ∧ (∀ x ∈ newcells, h.lisp_heap_cur ≤ x)
      ∧ (∀ a, a < h.lisp_heap_cur → heap_read h' a = heap_read h a)
      ∧ (values = [] → L' = g.lisp_NIL ∧ h' = h) := by
  cases cells with
  | nil =>
    have hv : values = [] := by
      cases values with
      | nil => rfl
      | cons v vs => simp [quote_forms] at hqf
    subst hv
    have hn : list = g.lisp_NIL := by
      unfold list_cells at hlist
      simpa using hlist
    refine ⟨g.lisp_NIL, h, [], ?_, ?_, rfl, by simp, fun _ _ => rfl, fun _ => ⟨rfl, rfl⟩⟩
    · unfold lisp_eval_argument_list
      simp only [hn, true_or, ↓reduceIte, pure, Except.pure]
    · simp [list_cells]
  | cons c cs =>
    obtain ⟨v, vs, rfl⟩ : ∃ v vs, values = v :: vs := by
      cases values with
      | nil => simp [quote_forms] at hqf
      | cons v vs => exact ⟨v, vs, rfl⟩
    obtain ⟨hc, hcp, _⟩ := list_cells_head g h list c cs hlist
    subst hc
    have hne := list_cells_ne_NIL g hg h c c cs hlist
    obtain ⟨h', new, r1, r2, r3, r4, r5, _⟩ := quote_loop g hg hq environment
      h.lisp_heap_cur k cs vs c v h [] fuel hlist hqf (by simp) (by simp) trivial
      (Nat.le_refl _) hal (by simp only [List.length_cons] at hfuel; omega)
    simp only [List.nil_append] at r1 r2
    have hl := cells_linked_list g hg h' new r2 (fun p hp => (r4 p hp).1)
    refine ⟨linked_result g new, h', new.map Prod.fst, ?_, hl.1, by rw [hl.2, r3], ?_, r5,
      fun e => by cases e⟩
    · unfold lisp_eval_argument_list
      simp only [hne, hcp, or_self, ↓reduceIte]
      exact r1
    · intro x hx
      obtain ⟨p, hp, rfl⟩ := List.mem_map.1 hx
      exact (r4 p hp).2.1

/-- The `APPLY` `SUBR`, given a callable `c` (a `SUBR` or a cell) and a list,
returns what `lisp_apply` returns for `c` and that very list. Evaluating a
form whose head evaluates to `c` (a symbol that is no special form, or a cell
whose evaluation leaves the heap as it is) and whose arguments are the forms
`(QUOTE a1) ... (QUOTE an)` returns what `lisp_apply` returns for `c` and a
list of `n` new cells that holds `a1 ... an`, in the heap with these cells;
the records allocated before are untouched. With no argument the two are the
same computation. `APPLY` of a first argument that is neither a `SUBR` nor a
cell returns `NIL`. -/
theorem APPLY_and_quoted_form (g : lisp_globals) (hg : globals_wf g)
    (hq : QUOTE_is_special g = true)
    (h : lisp_heap) (environment arguments form c : lisp_object_t)
    (list_cells_of_L cells values : List lisp_object_t) (k : Nat)
    (hc : lisp_subrp g c ≠ g.lisp_NIL ∨ lisp_cellp g c ≠ g.lisp_NIL)
    (harg : lisp_cell_car g h arguments = c)
    (hL : list_cells g h (lisp_cell_car g h (lisp_cell_cdr g h arguments)) list_cells_of_L
      = true)
    (hLv : list_cells_of_L.map (lisp_cell_car g h) = values)
    (hhead : (lisp_atomp g (lisp_cell_car g h form) ≠ g.lisp_NIL
          ∧ lisp_eval_is_special_form g (lisp_cell_car g h form) = false
          ∧ lisp_eval_atom g (k + 2) h environment (lisp_cell_car g h form) = .ok c)
        ∨ (lisp_atomp g (lisp_cell_car g h form) = g.lisp_NIL
          ∧ lisp_cellp g (lisp_cell_car g h form) ≠ g.lisp_NIL
          ∧ lisp_eval_cell g (k + 2) h environment (lisp_cell_car g h form) = .ok (c, h)))
    (hlist : list_cells g h (lisp_cell_cdr g h form) cells = true)
    (hqf : quote_forms g h h.lisp_heap_cur cells values = true)
    (hal : h.lisp_heap_cur % 16 = 0)
    (hfuel : cells.length ≤ k + 2) :
    lisp_subr_APPLY g (lisp_apply g (k + 2)) h environment arguments
        = lisp_apply g (k + 2) h environment c
            (lisp_cell_car g h (lisp_cell_cdr g h arguments))
      ∧ (∃ (L' : lisp_object_t) (h' : lisp_heap) (newcells : List lisp_object_t),
          lisp_eval_cell g (k + 3) h environment form
              = lisp_apply g (k + 2) h' environment c L'
            ∧ list_cells g h' L' newcells = true
            ∧ newcells.map (lisp_cell_car g h') = values
            ∧ (∀ x ∈ newcells, h.lisp_heap_cur ≤ x)
            ∧ (∀ a, a < h.lisp_heap_cur → heap_read h' a = heap_read h a))
      ∧ (values = [] →
          lisp_eval_cell g (k + 3) h environment form
            = lisp_subr_APPLY g (lisp_apply g (k + 2)) h environment arguments)
      ∧ (∀ (ap : lisp_apply_fn) (h0 : lisp_heap) (E a : lisp_object_t),
          lisp_subrp g (lisp_cell_car g h0 a) = g.lisp_NIL →
          lisp_cellp g (lisp_cell_car g h0 a) = g.lisp_NIL →
          lisp_subr_APPLY g ap h0 E a = .ok (g.lisp_NIL, h0)) := by
  have happly : lisp_subr_APPLY g (lisp_apply g (k + 2)) h environment arguments
      = lisp_apply g (k + 2) h environment c
          (lisp_cell_car g h (lisp_cell_cdr g h arguments)) := by
    unfold lisp_subr_APPLY
    simp only [harg]
    rw [if_neg]
    intro hx
    rcases hc with x | x
    · exact x hx.1
    · exact x hx.2
  have hcne : c ≠ g.lisp_NIL := by
    intro e
    rcases hc with x | x
    · apply x
      rw [e]
      unfold lisp_subrp lisp_object_has_tag
      rw [hg.NIL_atom]
      simp [lisp_tag_atom, lisp_tag_subr]
    · apply x
      rw [e]
      exact lisp_cellp_NIL g hg
  obtain ⟨L', h', newcells, r1, r2, r3, r4, r5, r6⟩ := eval_quoted_arguments g hg hq environment
    k (k + 2) h (lisp_cell_cdr g h form) cells values hlist hqf hal hfuel
  have heval : lisp_eval_cell g (k + 3) h environment form
      = lisp_apply g (k + 2) h' environment c L' := by
    rw [lisp_eval_cell]
    rcases hhead with ⟨a1, a2, a3⟩ | ⟨a1, a2, a3⟩
    · simp only [a1, ne_eq, not_false_eq_true, ↓reduceIte, a2, Bool.false_eq_true, bind,
        Except.bind, a3, hcne, r1]
    · simp only [a1, ne_eq, not_true_eq_false, ↓reduceIte, a2, not_false_eq_true, bind,
        Except.bind, a3, r1]
  refine ⟨happly, ⟨L', h', newcells, heval, r2, r3, r4, r5⟩, ?_, ?_⟩
  · intro hv
    obtain ⟨e1, e2⟩ := r6 hv
    have hLn : lisp_cell_car g h (lisp_cell_cdr g h arguments) = g.lisp_NIL := by
      rw [hv] at hLv
      have : list_cells_of_L = [] := List.map_eq_nil_iff.1 hLv
      rw [this] at hL
      unfold list_cells at hL
      simpa using hL
    rw [heval, happly, e1, e2, hLn]
  · intro ap h0 E a x1 x2
    unfold lisp_subr_APPLY
    simp only [x1, x2, and_self, ↓reduceIte, pure, Except.pure]


/-! ## The frame of the root environment under the registrations -/

theorem core_eq_refl (g : lisp_globals) : core_eq g g :=
  ⟨rfl, rfl, rfl, rfl, rfl, rfl, rfl⟩

theorem core_eq_trans (g1 g2 g3 : lisp_globals) (a : core_eq g1 g2) (b : core_eq g2 g3) :
    core_eq g1 g3 :=
  ⟨b.1.trans a.1, b.2.1.trans a.2.1, b.2.2.1.trans a.2.2.1, b.2.2.2.1.trans a.2.2.2.1,
    b.2.2.2.2.1.trans a.2.2.2.2.1, b.2.2.2.2.2.1.trans a.2.2.2.2.2.1,
    b.2.2.2.2.2.2.trans a.2.2.2.2.2.2⟩

theorem core_globals_wf (g g' : lisp_globals) (hc : core_eq g g') (hg : globals_wf g) :
    globals_wf g' := by
  obtain ⟨c1, c2, _, c4, c5, c6, c7⟩ := hc
  exact ⟨by rw [c1, c2]; exact hg.T_ne_NIL, by rw [c2]; exact hg.NIL_atom,
    by rw [c4]; exact hg.APVAL_atom, by rw [c5]; exact hg.EXPR_atom,
    by rw [c6]; exact hg.SUBR_atom, by rw [c7]; exact hg.PARENT_atom⟩

theorem core_car (g g' : lisp_globals) (hc : core_eq g g') (h : lisp_heap) (x : Nat) :
    lisp_cell_car g' h x = lisp_cell_car g h x ∧ lisp_cell_cdr g' h x = lisp_cell_cdr g h x := by
  unfold lisp_cell_car lisp_cell_cdr lisp_cellp lisp_object_has_tag
  rw [hc.1, hc.2.1]
  exact ⟨rfl, rfl⟩

theorem core_spine (g g' : lisp_globals) (hc : core_eq g g') (h : lisp_heap) :
    ∀ (cells : List Nat) (p : Nat), plist_spine g' h p cells = plist_spine g h p cells := by
  intro cells
  induction cells with
  | nil => intro p; rfl
  | cons c cs ih =>
    intro p
    cases cs with
    | nil =>
      unfold plist_spine
      rw [(core_car g g' hc h p).2, hc.2.1]
    | cons c2 cs =>
      unfold plist_spine
      rw [(core_car g g' hc h p).2, hc.2.1, ih]

theorem core_map_car (g g' : lisp_globals) (hc : core_eq g g') (h : lisp_heap)
    (cells : List Nat) : cells.map (lisp_cell_car g' h) = cells.map (lisp_cell_car g h) :=
  List.map_congr_left (fun c _ => (core_car g g' hc h c).1)

theorem core_wf (g g' : lisp_globals) (hc : core_eq g g') (h : lisp_heap) (cells : List Nat) :
    plist_wf g' h cells = plist_wf g h cells := by
  unfold plist_wf
  rw [core_map_car g g' hc]

theorem core_assoc (g g' : lisp_globals) (hc : core_eq g g') (h : lisp_heap) (s : Nat) :
    ∀ (cells : List Nat), plist_assoc g' h s cells = plist_assoc g h s cells := by
  intro cells
  induction cells with
  | nil => rfl
  | cons c cs ih =>
    unfold plist_assoc
    rw [(core_car g g' hc h c).1, (core_car g g' hc h _).1, ih]

theorem core_value (g g' : lisp_globals) (hc : core_eq g g') (h : lisp_heap) (s : Nat)
    (cells : List Nat) : plist_value g' h s cells = plist_value g h s cells := by
  unfold plist_value
  rw [core_assoc g g' hc]
  cases plist_assoc g h s cells with
  | none => exact hc.2.1
  | some e => exact (core_car g g' hc h e).2

theorem core_frame_inv (g g' : lisp_globals) (hc : core_eq g g') (h : lisp_heap)
    (environment : Nat) (cells : List Nat) (used : List (List Nat))
    (fi : frame_inv g h environment cells used) : frame_inv g' h environment cells used := by
  refine ⟨by rw [core_spine g g' hc]; exact fi.spine, by rw [core_wf g g' hc]; exact fi.wf,
    ?_, ?_, fi.aligned, fi.free⟩
  · intro c hcm
    rw [(core_car g g' hc h c).1, (core_car g g' hc h _).1]
    exact fi.keys c hcm
  · intro c hcm
    rw [(core_car g g' hc h c).1, (core_car g g' hc h _).1]
    exact fi.names c hcm

theorem core_kept (g g' : lisp_globals) (hc : core_eq g g') (h0 h : lisp_heap) (A last : Nat)
    (cells : List Nat) (n : Nat) (k : heap_kept g h0 h A last cells n) :
    heap_kept g' h0 h A last cells n :=
  ⟨k.cur, k.same, by rw [(core_car g g' hc h last).1, (core_car g g' hc h0 last).1]; exact k.car,
    k.tail, k.last_cell, k.length⟩

/-! ### Allocation -/

theorem heap_extends_refl (h : lisp_heap) : heap_extends h h :=
  ⟨Nat.le_refl _, fun e => e, fun _ _ => rfl, fun e => e⟩

theorem heap_extends_trans (h1 h2 h3 : lisp_heap) (a : heap_extends h1 h2)
    (b : heap_extends h2 h3) : heap_extends h1 h3 :=
  ⟨Nat.le_trans a.cur b.cur, fun e => b.aligned (a.aligned e),
    fun x hx => by rw [b.same x (Nat.lt_of_lt_of_le hx a.cur), a.same x hx],
    fun e => b.free (a.free e)⟩

theorem heap_extends_allocate (h : lisp_heap) (tag size : Nat) (contents : lisp_record) :
    heap_extends h (lisp_object_allocate h tag size contents).2 := by
  have hr := round_16 size
  have hpos : 0 < lisp_round_to_next_multiple size 16 := by
    unfold lisp_round_to_next_multiple
    split <;> omega
  unfold lisp_object_allocate
  refine ⟨Nat.le_add_right _ _, ?_, ?_, ?_⟩
  · intro e
    simp only
    omega
  · intro a ha
    simp [heap_read, heap_write, Nat.ne_of_lt ha]
  · intro hf a ha
    simp only at ha
    have := hf a (by omega)
    simp only [heap_read, heap_write] at this ⊢
    rw [if_neg (by omega)]
    exact this

theorem heap_extends_atom_create_c (h : lisp_heap) (name : List Nat) :
    heap_extends h (lisp_atom_create_c h name).2 := by
  unfold lisp_atom_create_c
  exact heap_extends_allocate _ _ _ _

theorem heap_extends_atom_create (h : lisp_heap) (name : Nat) :
    heap_extends h (lisp_atom_create h name).2 := by
  unfold lisp_atom_create
  exact heap_extends_allocate _ _ _ _

theorem heap_extends_string_create_c (h : lisp_heap) (text : List Nat) :
    heap_extends h (lisp_string_create_c h text).2 := by
  unfold lisp_string_create_c lisp_string_create lisp_interior_create
  exact heap_extends_trans _ _ _
    (heap_extends_allocate h lisp_tag_interior
      (8 * lisp_round_to_next_multiple (c_string text).length 16)
      (lisp_record.interior
        (List.map (fun ch => lisp_char_create (word_of_c_char ch)) (c_string text))))
    (heap_extends_allocate _ lisp_tag_string 24 _)

theorem heap_extends_subr_create (h : lisp_heap) (function name : Nat) :
    heap_extends h (lisp_subr_create h function name).2 := by
  unfold lisp_subr_create
  exact heap_extends_allocate _ _ _ _

/-- A frame stays what it is when the heap is extended. -/
theorem frame_inv_extend (g : lisp_globals) (h h' : lisp_heap) (environment : Nat)
    (cells : List Nat) (used : List (List Nat)) (fi : frame_inv g h environment cells used)
    (x : heap_extends h h') : frame_inv g h' environment cells used := by
  have hobj : ∀ o ∈ plist_objects g h cells,
      heap_read h' (lisp_object_get_raw_value o) = heap_read h (lisp_object_get_raw_value o) := by
    intro o ho
    apply x.same
    unfold plist_objects at ho
    rcases List.mem_append.1 ho with ho | ho
    · have := (plist_wf_lt g h cells fi.wf o ho).2.1
      exact Nat.lt_of_le_of_lt (raw_value_le o) this
    · obtain ⟨c, hc, rfl⟩ := List.mem_map.1 ho
      exact fi.keys c hc
  have hcar : ∀ c ∈ cells, lisp_cell_car g h' c = lisp_cell_car g h c
      ∧ lisp_cell_car g h' (lisp_cell_car g h c) = lisp_cell_car g h (lisp_cell_car g h c)
      ∧ heap_read h' (lisp_object_get_raw_value (lisp_cell_car g h (lisp_cell_car g h c)))
          = heap_read h (lisp_object_get_raw_value (lisp_cell_car g h (lisp_cell_car g h c))) := by
    intro c hc
    obtain ⟨a1, a2, a3⟩ := plist_objects_agree g h h' cells hobj c hc
    exact ⟨(lisp_cell_car_congr g h h' c a1).1, (lisp_cell_car_congr g h h' _ a2).1, a3⟩
  refine ⟨?_, plist_wf_agree g h h' x.cur cells fi.wf hobj, ?_, ?_, x.aligned fi.aligned,
    x.free fi.free⟩
  · rw [plist_spine_agree g h h' cells environment
      (fun c hc => (plist_objects_agree g h h' cells hobj c hc).1)]
    exact fi.spine
  · intro c hc
    rw [(hcar c hc).1, (hcar c hc).2.1]
    exact Nat.lt_of_lt_of_le (fi.keys c hc) x.cur
  · intro c hc
    rw [(hcar c hc).1, (hcar c hc).2.1]
    have : lisp_atom_get_value h' (lisp_cell_car g h (lisp_cell_car g h c))
        = lisp_atom_get_value h (lisp_cell_car g h (lisp_cell_car g h c)) := by
      unfold lisp_atom_get_value
      rw [(hcar c hc).2.2]
    rw [this]
    exact fi.names c hc

theorem heap_kept_extend (g : lisp_globals) (h0 h h' : lisp_heap) (A last : Nat)
    (cells : List Nat) (n : Nat) (k : heap_kept g h0 h A last cells n) (hl : last < A)
    (x : heap_extends h h') : heap_kept g h0 h' A last cells n := by
  refine ⟨Nat.le_trans k.cur x.cur, ?_, ?_, k.tail, k.last_cell, k.length⟩
  · intro a ha hne
    rw [x.same a (Nat.lt_of_lt_of_le ha k.cur), k.same a ha hne]
  · rw [← k.car]
    exact (lisp_cell_car_congr g h h' last
      (x.same _ (Nat.lt_of_le_of_lt (raw_value_le last) (Nat.lt_of_lt_of_le hl k.cur)))).1


/-! ### A new entry -/

/-- A symbol whose name is none of those of the keys has no entry. -/
theorem plist_assoc_fresh (g : lisp_globals) (h : lisp_heap) (symbol : Nat)
    (used : List (List Nat)) (hn : c_string (lisp_atom_get_value h symbol) ∉ used) :
    ∀ (cells : List Nat),
      (∀ c ∈ cells,
        c_string (lisp_atom_get_value h (lisp_cell_car g h (lisp_cell_car g h c))) ∈ used) →
      plist_assoc g h symbol cells = none := by
  intro cells
  induction cells with
  | nil => intro _; rfl
  | cons c cs ih =>
    intro hc
    have hk := hc c (List.mem_cons_self _ _)
    have hne : atom_key_equal h symbol (lisp_cell_car g h (lisp_cell_car g h c)) = false := by
      unfold atom_key_equal
      simp only [Bool.or_eq_false_iff, decide_eq_false_iff_not, Bool.and_eq_false_iff]
      constructor
      · intro e
        rw [← e] at hk
        exact hn hk
      · right
        intro e
        rw [← e] at hk
        exact hn hk
    unfold plist_assoc
    rw [hne]
    simp only [Bool.false_eq_true, ↓reduceIte]
    exact ih (fun x hx => hc x (List.mem_cons_of_mem _ hx))

theorem heap_free_of_free (h : lisp_heap) (n : Nat)
    (hf : ∀ a, h.lisp_heap_cur ≤ a → heap_read h a = none) : heap_free h n = true := by
  unfold heap_free
  rw [List.all_eq_true]
  intro i _
  simp only [decide_eq_true_eq]
  exact hf _ (Nat.le_add_right _ _)

/-- The heap `lisp_environment_set_symbol_value` leaves when the frame has no
entry for the symbol. -/
theorem reg_new_eq (g : lisp_globals) (hg : globals_wf g) (h : lisp_heap)
    (environment symbol type value : Nat) (cells : List Nat) (fuel : Nat)
    (hs : lisp_object_get_tag symbol = lisp_tag_atom)
    (hsp : plist_spine g h environment cells = true) (hwf : plist_wf g h cells = true)
    (hnone : plist_assoc g h symbol cells = none)
    (halign : h.lisp_heap_cur % 16 = 0) (hfree : heap_free h 4 = true)
    (hfuel : cells.length + 2 < fuel) :
    lisp_environment_set_symbol_value g fuel h environment symbol type value g.lisp_NIL
      = .ok (value, reg_heap g h symbol type value (cells.getLastD 0)) := by
  obtain ⟨u12, hcarB, hcdrB, hcarB16, hcdrB16, hread12, hgv12, hcur2⟩ :=
    attribute_list_create g hg h type value halign hfree
  have hf2 := heap_free_at h 4 2 hfree (by omega)
  have hf3 := heap_free_at h 4 3 hfree (by omega)
  have hold : ∀ c ∈ cells ++ cells.map (lisp_cell_car g h),
      c % 16 = 0 ∧ c < h.lisp_heap_cur ∧ (lisp_cell_get_value h c).isSome = true :=
    fun c hc => plist_wf_lt g h cells hwf c hc
  have holdF : ∀ c ∈ cells ++ cells.map (lisp_cell_car g h),
      c ∉ [h.lisp_heap_cur, h.lisp_heap_cur + 16] := by
    intro c hc
    have := (hold c hc).2.1
    simp only [List.mem_cons, List.mem_singleton, List.not_mem_nil, or_false, not_or]
    exact ⟨Nat.ne_of_lt this, Nat.ne_of_lt (Nat.lt_of_lt_of_le this (Nat.le_add_right _ _))⟩
  have hsp2 : plist_spine g (cons_heap (cons_heap h type value) h.lisp_heap_cur g.lisp_NIL)
      environment cells = true := by
    rw [plist_spine_update g h _ _ _ u12 cells environment
      (fun c hc => ⟨holdF c (List.mem_append_left _ hc), by simp⟩)]
    exact hsp
  have hwf2 : plist_wf g (cons_heap (cons_heap h type value) h.lisp_heap_cur g.lisp_NIL)
      cells = true :=
    plist_wf_update g h _ _ _ u12 cells hwf holdF (by rw [hcur2]; omega)
      (fun c hc => by rw [hgv12 c (hold c hc).2.1])
  have hassoc2 : plist_assoc g (cons_heap (cons_heap h type value) h.lisp_heap_cur g.lisp_NIL)
      symbol cells = plist_assoc g h symbol cells :=
    plist_assoc_update g h _ _ _ u12 symbol cells
      (fun c hc => ⟨holdF c (List.mem_append_left _ hc),
        holdF _ (List.mem_append_right _ (List.mem_map_of_mem _ hc))⟩)
  have r1 := (plist_set_append g hg
      (cons_heap (cons_heap h type value) h.lisp_heap_cur g.lisp_NIL)
      environment symbol (h.lisp_heap_cur + 16) cells fuel hs hsp2 hwf2
      (by rw [hcur2]; omega)
      (by
        rw [hcur2]
        constructor
        · rw [hread12 _ (by omega) (by omega)]; exact hf2
        · rw [hread12 _ (by omega) (by omega)]; exact hf3)
      (by omega) (by rw [hassoc2]; exact hnone)).1
  have hfind : lisp_environment_find_symbol g fuel h environment symbol g.lisp_NIL
      = .ok g.lisp_NIL := by
    rw [find_symbol_own g hg h environment symbol hs cells hsp fuel (by omega), hnone]
  have hplist : lisp_cell_cdr g h g.lisp_NIL = g.lisp_NIL := (lisp_cell_car_NIL_eq g hg h).2
  unfold lisp_environment_set_symbol_value
  rw [hfind]
  simp only [bind, Except.bind, hplist, ↓reduceIte, lisp_cell_cons_heap,
    lisp_plist_create_one]
  rw [show (cons_heap h type value).lisp_heap_cur = h.lisp_heap_cur + 16 from rfl, r1]
  unfold plist_set_heap
  rw [hassoc2, hnone]
  rfl

theorem reg_heap_cur (g : lisp_globals) (h : lisp_heap) (symbol type value last : Nat) :
    (reg_heap g h symbol type value last).lisp_heap_cur = h.lisp_heap_cur + 64 := rfl

theorem reg_heap_read (g : lisp_globals) (h : lisp_heap) (symbol type value last a : Nat) :
    heap_read (reg_heap g h symbol type value last) a
      = if a = last then
          some (lisp_record.cell
            (lisp_cell_car g
              (cons_heap
                (cons_heap
                  (cons_heap (cons_heap h type value) h.lisp_heap_cur g.lisp_NIL)
                  symbol (h.lisp_heap_cur + 16))
                (h.lisp_heap_cur + 32) g.lisp_NIL) last)
            (h.lisp_heap_cur + 48))
        else if a = h.lisp_heap_cur + 48 then
          some (lisp_record.cell (h.lisp_heap_cur + 32) g.lisp_NIL)
        else if a = h.lisp_heap_cur + 32 then
          some (lisp_record.cell symbol (h.lisp_heap_cur + 16))
        else if a = h.lisp_heap_cur + 16 then
          some (lisp_record.cell h.lisp_heap_cur g.lisp_NIL)
        else if a = h.lisp_heap_cur then some (lisp_record.cell type value)
        else heap_read h a := rfl

theorem reg_heap_old (g : lisp_globals) (h : lisp_heap) (symbol type value last a : Nat)
    (ha : a < h.lisp_heap_cur) (hne : a ≠ last) :
    heap_read (reg_heap g h symbol type value last) a = heap_read h a := by
  rw [reg_heap_read, if_neg hne, if_neg (by omega), if_neg (by omega), if_neg (by omega),
    if_neg (by omega)]

theorem reg_heap_last (g : lisp_globals) (hg : globals_wf g) (h : lisp_heap)
    (symbol type value last : Nat) (hl : last % 16 = 0) (hlt : last < h.lisp_heap_cur) :
    lisp_cell_car g (reg_heap g h symbol type value last) last = lisp_cell_car g h last
      ∧ lisp_cell_cdr g (reg_heap g h symbol type value last) last = h.lisp_heap_cur + 48
      ∧ (lisp_cell_get_value (reg_heap g h symbol type value last) last).isSome = true := by
  have hraw := raw_value_aligned last hl
  have hold : heap_read
      (cons_heap
        (cons_heap
          (cons_heap (cons_heap h type value) h.lisp_heap_cur g.lisp_NIL)
          symbol (h.lisp_heap_cur + 16))
        (h.lisp_heap_cur + 32) g.lisp_NIL) (lisp_object_get_raw_value last)
      = heap_read h (lisp_object_get_raw_value last) := by
    rw [hraw]
    simp only [cons_heap_read, cons_heap_cur]
    rw [if_neg (by omega), if_neg (by omega), if_neg (by omega), if_neg (by omega)]
  have hcar := (lisp_cell_car_congr g h _ last hold).1
  have hread := reg_heap_read g h symbol type value last last
  rw [if_pos rfl, hcar] at hread
  have := lisp_cell_car_cell g hg _ last _ _ hl hread
  refine ⟨this.1, this.2, ?_⟩
  unfold lisp_cell_get_value
  rw [hraw, hread]
  rfl

theorem reg_heap_new (g : lisp_globals) (hg : globals_wf g) (h : lisp_heap)
    (symbol type value last : Nat) (hal : h.lisp_heap_cur % 16 = 0)
    (hlt : last < h.lisp_heap_cur) :
    (lisp_cell_car g (reg_heap g h symbol type value last) (h.lisp_heap_cur + 48)
        = h.lisp_heap_cur + 32
      ∧ lisp_cell_cdr g (reg_heap g h symbol type value last) (h.lisp_heap_cur + 48)
        = g.lisp_NIL
      ∧ (lisp_cell_get_value (reg_heap g h symbol type value last)
          (h.lisp_heap_cur + 48)).isSome = true)
      ∧ (lisp_cell_car g (reg_heap g h symbol type value last) (h.lisp_heap_cur + 32) = symbol
        ∧ lisp_cell_cdr g (reg_heap g h symbol type value last) (h.lisp_heap_cur + 32)
          = h.lisp_heap_cur + 16
        ∧ (lisp_cell_get_value (reg_heap g h symbol type value last)
            (h.lisp_heap_cur + 32)).isSome = true)
      ∧ (lisp_cell_car g (reg_heap g h symbol type value last) (h.lisp_heap_cur + 16)
          = h.lisp_heap_cur
        ∧ lisp_cell_cdr g (reg_heap g h symbol type value last) (h.lisp_heap_cur + 16)
          = g.lisp_NIL
        ∧ (lisp_cell_get_value (reg_heap g h symbol type value last)
            (h.lisp_heap_cur + 16)).isSome = true)
      ∧ (lisp_cell_car g (reg_heap g h symbol type value last) h.lisp_heap_cur = type
        ∧ lisp_cell_cdr g (reg_heap g h symbol type value last) h.lisp_heap_cur = value
        ∧ (lisp_cell_get_value (reg_heap g h symbol type value last)
            h.lisp_heap_cur).isSome = true) := by
  have key : ∀ (a x y : Nat), a % 16 = 0 →
      heap_read (reg_heap g h symbol type value last) a = some (lisp_record.cell x y) →
      lisp_cell_car g (reg_heap g h symbol type value last) a = x
        ∧ lisp_cell_cdr g (reg_heap g h symbol type value last) a = y
        ∧ (lisp_cell_get_value (reg_heap g h symbol type value last) a).isSome = true := by
    intro a x y ha hr
    have := lisp_cell_car_cell g hg _ a x y ha hr
    refine ⟨this.1, this.2, ?_⟩
    unfold lisp_cell_get_value
    rw [raw_value_aligned a ha, hr]
    rfl
  refine ⟨key _ _ _ (by omega) ?_, key _ _ _ (by omega) ?_, key _ _ _ (by omega) ?_,
    key _ _ _ hal ?_⟩
  · rw [reg_heap_read, if_neg (by omega), if_pos rfl]
  · rw [reg_heap_read, if_neg (by omega), if_neg (by omega), if_pos rfl]
  · rw [reg_heap_read, if_neg (by omega), if_neg (by omega), if_neg (by omega), if_pos rfl]
  · rw [reg_heap_read, if_neg (by omega), if_neg (by omega), if_neg (by omega),
      if_neg (by omega), if_pos rfl]

theorem cells_allocated_of (h : lisp_heap) (cells : List Nat)
    (hc : ∀ c ∈ cells, c % 16 = 0 ∧ c < h.lisp_heap_cur
      ∧ (lisp_cell_get_value h c).isSome = true) :
    cells_allocated h cells = true := by
  unfold cells_allocated
  rw [List.all_eq_true]
  intro c hcm
  obtain ⟨a1, a2, a3⟩ := hc c hcm
  simp only [Bool.and_eq_true, decide_eq_true_eq]
  refine ⟨⟨?_, a2⟩, a3⟩
  rw [lisp_object_get_tag_eq, a1]
  rfl

/-- A new entry: `lisp_environment_set_symbol_value` of a symbol whose name
is none of those of the keys appends one cell to the frame, and the frame
stays well formed. -/
theorem reg_new (g : lisp_globals) (hg : globals_wf g) (h : lisp_heap)
    (environment symbol type value : Nat) (cells : List Nat) (used : List (List Nat))
    (fuel : Nat) (fi : frame_inv g h environment cells used)
    (hs : lisp_object_get_tag symbol = lisp_tag_atom)
    (hsr : lisp_object_get_raw_value symbol < h.lisp_heap_cur)
    (hn : c_string (lisp_atom_get_value h symbol) ∉ used)
    (hfuel : cells.length + 2 < fuel) :
    lisp_environment_set_symbol_value g fuel h environment symbol type value g.lisp_NIL
        = .ok (value, reg_heap g h symbol type value (cells.getLastD 0))
      ∧ frame_inv g (reg_heap g h symbol type value (cells.getLastD 0)) environment
          (cells ++ [h.lisp_heap_cur + 48])
          (c_string (lisp_atom_get_value h symbol) :: used) := by
  have hnone := plist_assoc_fresh g h symbol used hn cells fi.names
  have hne := plist_spine_ne_nil g h environment cells fi.spine
  have hlm := getLastD_mem cells hne 0
  obtain ⟨hal, hale, hnd⟩ := plist_wf_parts g h cells fi.wf
  obtain ⟨hl16, hllt, _⟩ := cells_allocated_mem h _ hal _ hlm
  have hold : ∀ c ∈ cells ++ cells.map (lisp_cell_car g h),
      c % 16 = 0 ∧ c < h.lisp_heap_cur ∧ (lisp_cell_get_value h c).isSome = true :=
    fun c hc => plist_wf_lt g h cells fi.wf c hc
  obtain ⟨l1, l2, l3⟩ := reg_heap_last g hg h symbol type value (cells.getLastD 0) hl16 hllt
  obtain ⟨⟨n1, n2, n3⟩, ⟨n4, _, n6⟩, _, _⟩ :=
    reg_heap_new g hg h symbol type value (cells.getLastD 0) fi.aligned hllt
  -- objects stored before, other than the last cell
  have hsame : ∀ x, lisp_object_get_raw_value x < h.lisp_heap_cur →
      lisp_object_get_raw_value x ≠ cells.getLastD 0 →
      heap_read (reg_heap g h symbol type value (cells.getLastD 0))
          (lisp_object_get_raw_value x) = heap_read h (lisp_object_get_raw_value x) :=
    fun x hx hxl => reg_heap_old g h symbol type value _ _ hx hxl
  have hcar : ∀ c ∈ cells ++ cells.map (lisp_cell_car g h),
      lisp_cell_car g (reg_heap g h symbol type value (cells.getLastD 0)) c
          = lisp_cell_car g h c
        ∧ (lisp_cell_get_value (reg_heap g h symbol type value (cells.getLastD 0)) c).isSome
          = true
        ∧ (c ≠ cells.getLastD 0 →
            lisp_cell_cdr g (reg_heap g h symbol type value (cells.getLastD 0)) c
              = lisp_cell_cdr g h c) := by
    intro c hc
    obtain ⟨c16, clt, csome⟩ := hold c hc
    have craw := raw_value_aligned c c16
    by_cases e : c = cells.getLastD 0
    · rw [e]
      exact ⟨l1, l3, fun x => absurd rfl x⟩
    · have hr := hsame c (by rw [craw]; exact clt) (by rw [craw]; exact e)
      refine ⟨(lisp_cell_car_congr g h _ c hr).1, ?_, fun _ => (lisp_cell_car_congr g h _ c hr).2⟩
      unfold lisp_cell_get_value at csome ⊢
      rw [hr]
      exact csome
  have hname : ∀ x, lisp_object_get_raw_value x < h.lisp_heap_cur →
      lisp_atom_get_value (reg_heap g h symbol type value (cells.getLastD 0)) x
        = lisp_atom_get_value h x := by
    intro x hx
    by_cases e : lisp_object_get_raw_value x = cells.getLastD 0
    · have hsome := (hold _ (List.mem_append_left _ hlm)).2.2
      obtain ⟨⟨a, b⟩, hab⟩ := Option.isSome_iff_exists.1 hsome
      have hr : heap_read h (cells.getLastD 0) = some (lisp_record.cell a b) := by
        unfold lisp_cell_get_value at hab
        rw [raw_value_aligned _ hl16] at hab
        split at hab
        · rename_i x y hxy
          simp only [Option.some.injEq, Prod.mk.injEq] at hab
          rw [hxy, hab.1, hab.2]
        · cases hab
      unfold lisp_atom_get_value
      rw [e, reg_heap_read, if_pos rfl, hr]
    · unfold lisp_atom_get_value
      rw [hsame x hx e]
  have hkey : ∀ c ∈ cells,
      lisp_cell_car g (reg_heap g h symbol type value (cells.getLastD 0))
        (lisp_cell_car g (reg_heap g h symbol type value (cells.getLastD 0)) c)
        = lisp_cell_car g h (lisp_cell_car g h c) := by
    intro c hc
    rw [(hcar c (List.mem_append_left _ hc)).1,
      (hcar _ (List.mem_append_right _ (List.mem_map_of_mem _ hc))).1]
  have hmap : (cells ++ [h.lisp_heap_cur + 48]).map
      (lisp_cell_car g (reg_heap g h symbol type value (cells.getLastD 0)))
      = cells.map (lisp_cell_car g h) ++ [h.lisp_heap_cur + 32] := by
    rw [List.map_append, List.map_cons, List.map_nil, n1]
    congr 1
    exact List.map_congr_left (fun c hc => (hcar c (List.mem_append_left _ hc)).1)
  refine ⟨reg_new_eq g hg h environment symbol type value cells fuel hs fi.spine fi.wf hnone
    fi.aligned (heap_free_of_free h 4 fi.free) hfuel, ?_, ?_, ?_, ?_, ?_, ?_⟩
  · -- spine
    apply plist_spine_snoc g h _ (h.lisp_heap_cur + 48) cells environment fi.spine
      (List.nodup_append.1 hnd).1
    · intro c hc hcl
      exact (hcar c (List.mem_append_left _ hc)).2.2 hcl
    · exact l2
    · exact aligned_ne_NIL g hg _ (by have := fi.aligned; omega)
    · exact n2
  · -- well-formedness
    unfold plist_wf
    rw [hmap]
    simp only [Bool.and_eq_true, decide_eq_true_eq]
    refine ⟨⟨?_, ?_⟩, ?_⟩
    · apply cells_allocated_of
      intro c hc
      rcases List.mem_append.1 hc with e | e
      · obtain ⟨a1, a2, _⟩ := hold c (List.mem_append_left _ e)
        exact ⟨a1, by rw [reg_heap_cur]; omega, (hcar c (List.mem_append_left _ e)).2.1⟩
      · simp only [List.mem_singleton] at e
        subst e
        exact ⟨by have := fi.aligned; omega, by rw [reg_heap_cur]; omega, n3⟩
    · apply cells_allocated_of
      intro c hc
      rcases List.mem_append.1 hc with e | e
      · obtain ⟨a1, a2, _⟩ := hold c (List.mem_append_right _ e)
        exact ⟨a1, by rw [reg_heap_cur]; omega, (hcar c (List.mem_append_right _ e)).2.1⟩
      · simp only [List.mem_singleton] at e
        subst e
        exact ⟨by have := fi.aligned; omega, by rw [reg_heap_cur]; omega, n6⟩
    · have hlt : ∀ c ∈ cells ++ cells.map (lisp_cell_car g h), c < h.lisp_heap_cur :=
        fun c hc => (hold c hc).2.1
      rw [List.nodup_append] at hnd ⊢
      obtain ⟨d1, d2, d3⟩ := hnd
      refine ⟨?_, ?_, ?_⟩
      · rw [List.nodup_append]
        refine ⟨d1, List.nodup_singleton _, ?_⟩
        intro (a : Nat) ha hb
        simp only [List.mem_singleton] at hb
        have hb' : a = h.lisp_heap_cur + 48 := hb
        have := hlt a (List.mem_append_left _ ha)
        omega
      · rw [List.nodup_append]
        refine ⟨d2, List.nodup_singleton _, ?_⟩
        intro (a : Nat) ha hb
        simp only [List.mem_singleton] at hb
        have hb' : a = h.lisp_heap_cur + 32 := hb
        have := hlt a (List.mem_append_right _ ha)
        omega
      · intro (a : Nat) ha hb
        rcases List.mem_append.1 ha with e | e
        · rcases List.mem_append.1 hb with e' | e'
          · exact d3 e e'
          · simp only [List.mem_singleton] at e'
            have hb' : a = h.lisp_heap_cur + 32 := e'
            have := hlt a (List.mem_append_left _ e)
            omega
        · simp only [List.mem_singleton] at e
          have ha' : a = h.lisp_heap_cur + 48 := e
          rcases List.mem_append.1 hb with e' | e'
          · have := hlt a (List.mem_append_right _ e')
            omega
          · simp only [List.mem_singleton] at e'
            have hb' : a = h.lisp_heap_cur + 32 := e'
            omega
  · -- keys
    intro c hc
    rw [reg_heap_cur]
    rcases List.mem_append.1 hc with e | e
    · rw [hkey c e]
      have := fi.keys c e
      omega
    · simp only [List.mem_singleton] at e
      subst e
      rw [n1, n4]
      omega
  · -- names
    intro c hc
    rcases List.mem_append.1 hc with e | e
    · rw [hkey c e, hname _ (fi.keys c e)]
      exact List.mem_cons_of_mem _ (fi.names c e)
    · simp only [List.mem_singleton] at e
      subst e
      rw [n1, n4, hname _ hsr]
      exact List.mem_cons_self _ _
  · rw [reg_heap_cur]
    have := fi.aligned
    omega
  · intro a ha
    rw [reg_heap_cur] at ha
    rw [reg_heap_read, if_neg (by omega), if_neg (by omega), if_neg (by omega),
      if_neg (by omega), if_neg (by omega)]
    exact fi.free a (by omega)


/-! ### Stores outside the frame -/

theorem heap_changes_of_extends (h h' : lisp_heap) (x : heap_extends h h') :
    heap_changes h h' [] :=
  ⟨x.cur, x.aligned, fun a ha _ => x.same a ha, x.free⟩

/-- A frame stays what it is when the heap changes outside its cells, its
entries and its keys. -/
theorem frame_inv_change (g : lisp_globals) (h h' : lisp_heap) (environment : Nat)
    (cells : List Nat) (used : List (List Nat)) (W : List Nat)
    (fi : frame_inv g h environment cells used) (x : heap_changes h h' W)
    (hW : ∀ o ∈ plist_objects g h cells, lisp_object_get_raw_value o ∉ W) :
    frame_inv g h' environment cells used := by
  have hobj : ∀ o ∈ plist_objects g h cells,
      heap_read h' (lisp_object_get_raw_value o) = heap_read h (lisp_object_get_raw_value o) := by
    intro o ho
    apply x.same _ _ (hW o ho)
    unfold plist_objects at ho
    rcases List.mem_append.1 ho with ho | ho
    · have := (plist_wf_lt g h cells fi.wf o ho).2.1
      exact Nat.lt_of_le_of_lt (raw_value_le o) this
    · obtain ⟨c, hc, rfl⟩ := List.mem_map.1 ho
      exact fi.keys c hc
  have hcar : ∀ c ∈ cells, lisp_cell_car g h' c = lisp_cell_car g h c
      ∧ lisp_cell_car g h' (lisp_cell_car g h c) = lisp_cell_car g h (lisp_cell_car g h c)
      ∧ heap_read h' (lisp_object_get_raw_value (lisp_cell_car g h (lisp_cell_car g h c)))
          = heap_read h (lisp_object_get_raw_value (lisp_cell_car g h (lisp_cell_car g h c))) := by
    intro c hc
    obtain ⟨a1, a2, a3⟩ := plist_objects_agree g h h' cells hobj c hc
    exact ⟨(lisp_cell_car_congr g h h' c a1).1, (lisp_cell_car_congr g h h' _ a2).1, a3⟩
  refine ⟨?_, plist_wf_agree g h h' x.cur cells fi.wf hobj, ?_, ?_, x.aligned fi.aligned,
    x.free fi.free⟩
  · rw [plist_spine_agree g h h' cells environment
      (fun c hc => (plist_objects_agree g h h' cells hobj c hc).1)]
    exact fi.spine
  · intro c hc
    rw [(hcar c hc).1, (hcar c hc).2.1]
    exact Nat.lt_of_lt_of_le (fi.keys c hc) x.cur
  · intro c hc
    rw [(hcar c hc).1, (hcar c hc).2.1]
    have : lisp_atom_get_value h' (lisp_cell_car g h (lisp_cell_car g h c))
        = lisp_atom_get_value h (lisp_cell_car g h (lisp_cell_car g h c)) := by
      unfold lisp_atom_get_value
      rw [(hcar c hc).2.2]
    rw [this]
    exact fi.names c hc

theorem heap_kept_change (g : lisp_globals) (h0 h h' : lisp_heap) (A last : Nat)
    (cells : List Nat) (n : Nat) (W : List Nat) (k : heap_kept g h0 h A last cells n)
    (hl : last < A) (x : heap_changes h h' W) (hW : ∀ w ∈ W, A ≤ w) :
    heap_kept g h0 h' A last cells n := by
  have hnW : ∀ a, a < A → a ∉ W := fun a ha hw => by have := hW a hw; omega
  refine ⟨Nat.le_trans k.cur x.cur, ?_, ?_, k.tail, k.last_cell, k.length⟩
  · intro a ha hne
    rw [x.same a (Nat.lt_of_lt_of_le ha k.cur) (hnW a ha), k.same a ha hne]
  · rw [← k.car]
    have hr := Nat.lt_of_le_of_lt (raw_value_le last) hl
    exact (lisp_cell_car_congr g h h' last
      (x.same _ (Nat.lt_of_lt_of_le hr k.cur) (hnW _ hr))).1

theorem getLastD_snoc (cells : List Nat) (a d : Nat) : (cells ++ [a]).getLastD d = a := by
  rw [List.getLastD_eq_getLast?, List.getLast?_append]
  simp

/-- The last cell of the frame is the kept one, or a newer one. -/
theorem heap_kept_last (g : lisp_globals) (h0 h : lisp_heap) (A last : Nat)
    (cells : List Nat) (n : Nat) (k : heap_kept g h0 h A last cells n) :
    cells.getLastD 0 = last ∨ A ≤ cells.getLastD 0 := by
  have e : cells = cells.take n ++ cells.drop n := (List.take_append_drop n cells).symm
  rcases List.eq_nil_or_concat (cells.drop n) with hd | ⟨init, x, hd⟩
  · left
    rw [hd, List.append_nil] at e
    rw [e, k.last_cell]
  · right
    rw [List.concat_eq_append] at hd
    have hx : x ∈ cells.drop n := by rw [hd]; simp
    have hlast : cells.getLastD 0 = x := by
      rw [e, hd, ← List.append_assoc, getLastD_snoc]
    rw [hlast]
    exact k.tail x hx

/-- What is kept of the first heap when a new entry is appended. -/
theorem reg_new_kept (g : lisp_globals) (hg : globals_wf g) (h0 h : lisp_heap) (A last : Nat)
    (cells : List Nat) (n : Nat) (symbol type value : Nat)
    (k : heap_kept g h0 h A last cells n) (hl : last < A) (hl16 : last % 16 = 0) :
    heap_kept g h0 (reg_heap g h symbol type value (cells.getLastD 0)) A last
      (cells ++ [h.lisp_heap_cur + 48]) n := by
  have hcur := k.cur
  refine ⟨by rw [reg_heap_cur]; omega, ?_, ?_, ?_, ?_, ?_⟩
  · intro a ha hne
    rw [reg_heap_old g h symbol type value _ a (by omega), k.same a ha hne]
    rcases heap_kept_last g h0 h A last cells n k with e | e
    · rw [e]; exact hne
    · omega
  · rw [← k.car]
    rcases heap_kept_last g h0 h A last cells n k with e | e
    · rw [e]
      exact (reg_heap_last g hg h symbol type value last hl16 (by omega)).1
    · have hr : heap_read (reg_heap g h symbol type value (cells.getLastD 0))
          (lisp_object_get_raw_value last) = heap_read h (lisp_object_get_raw_value last) := by
        rw [raw_value_aligned last hl16]
        exact reg_heap_old g h symbol type value _ last (by omega) (by omega)
      exact (lisp_cell_car_congr g h _ last hr).1
  · intro (c : Nat) hc
    rw [List.drop_append_of_le_length k.length] at hc
    rcases List.mem_append.1 hc with e | e
    · exact k.tail c e
    · simp only [List.mem_singleton] at e
      have e' : c = h.lisp_heap_cur + 48 := e
      omega
  · rw [List.take_append_of_le_length k.length]
    exact k.last_cell
  · rw [List.length_append]
    have := k.length
    omega


/-! ### The entry of a registered symbol -/

theorem plist_assoc_congr (g : lisp_globals) (h h' : lisp_heap) (s : Nat) :
    ∀ (cells : List Nat),
      (∀ c ∈ cells, lisp_cell_car g h' c = lisp_cell_car g h c
        ∧ lisp_cell_car g h' (lisp_cell_car g h c) = lisp_cell_car g h (lisp_cell_car g h c)
        ∧ atom_key_equal h' s (lisp_cell_car g h (lisp_cell_car g h c))
            = atom_key_equal h s (lisp_cell_car g h (lisp_cell_car g h c))) →
      plist_assoc g h' s cells = plist_assoc g h s cells := by
  intro cells
  induction cells with
  | nil => intro _; rfl
  | cons c cs ih =>
    intro hc
    obtain ⟨a1, a2, a3⟩ := hc c (List.mem_cons_self _ _)
    unfold plist_assoc
    rw [a1, a2, a3, ih (fun x hx => hc x (List.mem_cons_of_mem _ hx))]

theorem atom_key_equal_names (h h' : lisp_heap) (s k : Nat)
    (hs : lisp_atom_get_value h' s = lisp_atom_get_value h s)
    (hk : lisp_atom_get_value h' k = lisp_atom_get_value h k) :
    atom_key_equal h' s k = atom_key_equal h s k := by
  unfold atom_key_equal
  rw [hs, hk]

/-- What a new entry leaves of the frame it is appended to. -/
theorem reg_heap_frame (g : lisp_globals) (hg : globals_wf g) (h : lisp_heap)
    (environment symbol type value : Nat) (cells : List Nat) (used : List (List Nat))
    (fi : frame_inv g h environment cells used) :
    (∀ c ∈ cells ++ cells.map (lisp_cell_car g h),
        lisp_cell_car g (reg_heap g h symbol type value (cells.getLastD 0)) c
          = lisp_cell_car g h c)
      ∧ (∀ x, lisp_object_get_raw_value x < h.lisp_heap_cur →
          lisp_atom_get_value (reg_heap g h symbol type value (cells.getLastD 0)) x
            = lisp_atom_get_value h x)
      ∧ cells.getLastD 0 ∈ cells := by
  have hne := plist_spine_ne_nil g h environment cells fi.spine
  have hlm := getLastD_mem cells hne 0
  obtain ⟨hal, hale, hnd⟩ := plist_wf_parts g h cells fi.wf
  obtain ⟨hl16, hllt, _⟩ := cells_allocated_mem h _ hal _ hlm
  have hold : ∀ c ∈ cells ++ cells.map (lisp_cell_car g h),
      c % 16 = 0 ∧ c < h.lisp_heap_cur ∧ (lisp_cell_get_value h c).isSome = true :=
    fun c hc => plist_wf_lt g h cells fi.wf c hc
  obtain ⟨l1, _, _⟩ := reg_heap_last g hg h symbol type value (cells.getLastD 0) hl16 hllt
  refine ⟨?_, ?_, hlm⟩
  · intro c hc
    obtain ⟨c16, clt, _⟩ := hold c hc
    have craw := raw_value_aligned c c16
    by_cases e : c = cells.getLastD 0
    · rw [e]
      exact l1
    · have hr : heap_read (reg_heap g h symbol type value (cells.getLastD 0))
          (lisp_object_get_raw_value c) = heap_read h (lisp_object_get_raw_value c) := by
        rw [craw]
        exact reg_heap_old g h symbol type value _ c clt e
      exact (lisp_cell_car_congr g h _ c hr).1
  · intro x hx
    by_cases e : lisp_object_get_raw_value x = cells.getLastD 0
    · have hsome := (hold _ (List.mem_append_left _ hlm)).2.2
      obtain ⟨⟨a, b⟩, hab⟩ := Option.isSome_iff_exists.1 hsome
      have hr : heap_read h (cells.getLastD 0) = some (lisp_record.cell a b) := by
        unfold lisp_cell_get_value at hab
        rw [raw_value_aligned _ hl16] at hab
        split at hab
        · rename_i x y hxy
          simp only [Option.some.injEq, Prod.mk.injEq] at hab
          rw [hxy, hab.1, hab.2]
        · cases hab
      unfold lisp_atom_get_value
      rw [e, reg_heap_read, if_pos rfl, hr]
    · unfold lisp_atom_get_value
      rw [reg_heap_old g h symbol type value _ _ hx e]

/-- The lookups in the cells the frame had give what they gave. -/
theorem reg_heap_assoc (g : lisp_globals) (hg : globals_wf g) (h : lisp_heap)
    (environment symbol type value : Nat) (cells : List Nat) (used : List (List Nat))
    (fi : frame_inv g h environment cells used) (s : Nat)
    (hs : lisp_object_get_raw_value s < h.lisp_heap_cur) :
    plist_assoc g (reg_heap g h symbol type value (cells.getLastD 0)) s cells
      = plist_assoc g h s cells := by
  obtain ⟨f1, f2, _⟩ := reg_heap_frame g hg h environment symbol type value cells used fi
  apply plist_assoc_congr
  intro c hc
  exact ⟨f1 c (List.mem_append_left _ hc),
    f1 _ (List.mem_append_right _ (List.mem_map_of_mem _ hc)),
    atom_key_equal_names h _ s _ (f2 s hs) (f2 _ (fi.keys c hc))⟩

/-- The entry of the symbol just registered. -/
theorem reg_new_entry (g : lisp_globals) (hg : globals_wf g) (h : lisp_heap)
    (environment symbol type value : Nat) (cells : List Nat) (used : List (List Nat))
    (fi : frame_inv g h environment cells used)
    (hsr : lisp_object_get_raw_value symbol < h.lisp_heap_cur)
    (hn : c_string (lisp_atom_get_value h symbol) ∉ used) :
    entry_at g (reg_heap g h symbol type value (cells.getLastD 0))
      (cells ++ [h.lisp_heap_cur + 48]) symbol h.lisp_heap_cur type value := by
  obtain ⟨f1, f2, hlm⟩ := reg_heap_frame g hg h environment symbol type value cells used fi
  have hnone := plist_assoc_fresh g h symbol used hn cells fi.names
  have hold : ∀ c ∈ cells ++ cells.map (lisp_cell_car g h),
      c % 16 = 0 ∧ c < h.lisp_heap_cur ∧ (lisp_cell_get_value h c).isSome = true :=
    fun c hc => plist_wf_lt g h cells fi.wf c hc
  have hllt := (hold _ (List.mem_append_left _ hlm)).2.1
  obtain ⟨⟨n1, _, _⟩, ⟨n4, _, _⟩, _, _⟩ :=
    reg_heap_new g hg h symbol type value (cells.getLastD 0) fi.aligned hllt
  refine ⟨?_, ?_, ?_, ?_, fi.aligned, by rw [reg_heap_cur], ?_⟩
  · rw [plist_assoc_append, reg_heap_assoc g hg h environment symbol type value cells used fi
      symbol hsr, hnone]
    simp only [n1, n4, atom_key_equal_self, ↓reduceIte]
  · rw [reg_heap_read, if_neg (by omega), if_neg (by omega), if_neg (by omega),
      if_neg (by omega), if_pos rfl]
  · rw [reg_heap_read, if_neg (by omega), if_neg (by omega), if_neg (by omega), if_pos rfl]
  · rw [reg_heap_read, if_neg (by omega), if_neg (by omega), if_pos rfl]
  · intro o ho
    unfold plist_objects at ho
    have hlt : lisp_object_get_raw_value o < h.lisp_heap_cur
        ∨ lisp_object_get_raw_value o = h.lisp_heap_cur + 48
        ∨ lisp_object_get_raw_value o = h.lisp_heap_cur + 32 := by
      have h48 : (h.lisp_heap_cur + 48) % 16 = 0 := by have := fi.aligned; omega
      have h32 : (h.lisp_heap_cur + 32) % 16 = 0 := by have := fi.aligned; omega
      rcases List.mem_append.1 ho with ho | ho
      · rcases List.mem_append.1 ho with ho | ho
        · rcases List.mem_append.1 ho with e | e
          · left
            exact Nat.lt_of_le_of_lt (raw_value_le o) (hold o (List.mem_append_left _ e)).2.1
          · simp only [List.mem_singleton] at e
            right; left
            rw [e]
            exact raw_value_aligned _ h48
        · rw [List.map_append, List.map_cons, List.map_nil, n1] at ho
          rcases List.mem_append.1 ho with e | e
          · obtain ⟨c, hc, rfl⟩ := List.mem_map.1 e
            left
            rw [f1 c (List.mem_append_left _ hc)]
            exact Nat.lt_of_le_of_lt (raw_value_le _)
              (hold _ (List.mem_append_right _ (List.mem_map_of_mem _ hc))).2.1
          · simp only [List.mem_singleton] at e
            right; right
            rw [e]
            exact raw_value_aligned _ h32
      · rw [List.map_append, List.map_cons, List.map_nil, n1, n4] at ho
        rcases List.mem_append.1 ho with e | e
        · obtain ⟨c, hc, rfl⟩ := List.mem_map.1 e
          left
          rw [f1 c (List.mem_append_left _ hc),
            f1 _ (List.mem_append_right _ (List.mem_map_of_mem _ hc))]
          exact fi.keys c hc
        · simp only [List.mem_singleton] at e
          left
          rw [e]
          exact hsr
    omega


/-! ### Stores into the entry of a registered symbol -/

/-- The attribute list of a tracked entry: one cell, one pair. -/
theorem entry_at_list (g : lisp_globals) (hg : globals_wf g) (h : lisp_heap) (cells : List Nat)
    (symbol b type value : Nat) (ea : entry_at g h cells symbol b type value) :
    lisp_cell_cdr g h (b + 32) = b + 16
      ∧ plist_spine g h (b + 16) [b + 16] = true
      ∧ plist_wf g h [b + 16] = true
      ∧ lisp_cell_car g h (b + 16) = b
      ∧ lisp_cell_car g h b = type
      ∧ lisp_cell_cdr g h b = value := by
  have hb := ea.aligned
  have hlt := ea.below
  have b16 : (b + 16) % 16 = 0 := by omega
  have b32 : (b + 32) % 16 = 0 := by omega
  obtain ⟨c1, c2⟩ := lisp_cell_car_cell g hg h b type value hb ea.pair
  obtain ⟨c3, c4⟩ := lisp_cell_car_cell g hg h (b + 16) b g.lisp_NIL b16 ea.attr
  obtain ⟨_, c6⟩ := lisp_cell_car_cell g hg h (b + 32) symbol (b + 16) b32 ea.entry
  refine ⟨c6, ?_, ?_, c3, c1, c2⟩
  · unfold plist_spine
    simp [c4]
  · unfold plist_wf
    simp only [List.map_cons, List.map_nil, c3, Bool.and_eq_true, decide_eq_true_eq]
    refine ⟨⟨?_, ?_⟩, ?_⟩
    · apply cells_allocated_of
      intro c hc
      simp only [List.mem_singleton] at hc
      subst hc
      refine ⟨b16, by omega, ?_⟩
      rw [get_value_of_read h (b + 16) b g.lisp_NIL
        (by rw [raw_value_aligned _ b16]; exact ea.attr)]
      rfl
    · apply cells_allocated_of
      intro c hc
      simp only [List.mem_singleton] at hc
      subst hc
      refine ⟨hb, by omega, ?_⟩
      rw [get_value_of_read h c type value (by rw [raw_value_aligned _ hb]; exact ea.pair)]
      rfl
    · simp

/-- Setting the attribute a tracked entry has replaces the value in its pair. -/
theorem reg_replace (g : lisp_globals) (hg : globals_wf g) (h : lisp_heap)
    (environment symbol type value v0 : Nat) (cells : List Nat) (used : List (List Nat))
    (b : Nat) (fuel : Nat)
    (fi : frame_inv g h environment cells used)
    (ea : entry_at g h cells symbol b type v0)
    (hs : lisp_object_get_tag symbol = lisp_tag_atom)
    (ht : lisp_object_get_tag type = lisp_tag_atom)
    (hfuel : cells.length + 2 < fuel) :
    lisp_environment_set_symbol_value g fuel h environment symbol type value g.lisp_NIL
        = .ok (value, rplacd_heap g h b value)
      ∧ heap_changes h (rplacd_heap g h b value) [b] := by
  obtain ⟨l1, l2, l3, l4, l5, _⟩ := entry_at_list g hg h cells symbol b type v0 ea
  have hb := ea.aligned
  have hassoc : plist_assoc g h type [b + 16] = some b := by
    unfold plist_assoc
    rw [l4, l5, atom_key_equal_self]
    rfl
  obtain ⟨r1, _, _, _, _, _, r7, r8, _, _⟩ :=
    plist_set_found g hg h (b + 16) type value [b + 16] fuel ht l2 l3
      (by simp only [List.length_singleton]; omega) b hassoc
  have hfind := find_symbol_found g hg h environment symbol g.lisp_NIL hs cells fi.spine
    (b + 32) ea.assoc fuel (by omega)
  refine ⟨?_, ?_⟩
  · unfold lisp_environment_set_symbol_value
    rw [hfind]
    simp only [bind, Except.bind, l1]
    rw [if_neg (aligned_ne_NIL g hg (b + 16) (by omega)), r1]
    rfl
  · refine ⟨by rw [r7], by rw [r7]; exact fun e => e, ?_, ?_⟩
    · intro a _ ha
      exact r8 a (by simpa using ha)
    · intro hfree a ha
      rw [r7] at ha
      rw [r8 a (by have := ea.below; omega)]
      exact hfree a ha

/-- Setting an attribute a tracked entry does not have appends a pair to its
attribute list. -/
theorem reg_add (g : lisp_globals) (hg : globals_wf g) (h : lisp_heap)
    (environment symbol type value t0 v0 : Nat) (cells : List Nat) (used : List (List Nat))
    (b : Nat) (fuel : Nat)
    (fi : frame_inv g h environment cells used)
    (ea : entry_at g h cells symbol b t0 v0)
    (hs : lisp_object_get_tag symbol = lisp_tag_atom)
    (ht : lisp_object_get_tag type = lisp_tag_atom)
    (hne : atom_key_equal h type t0 = false)
    (hfuel : cells.length + 2 < fuel) :
    ∃ h', lisp_environment_set_symbol_value g fuel h environment symbol type value g.lisp_NIL
        = .ok (value, h')
      ∧ heap_changes h h' [b + 16] := by
  obtain ⟨l1, l2, l3, l4, l5, _⟩ := entry_at_list g hg h cells symbol b t0 v0 ea
  have hb := ea.aligned
  have hlt := ea.below
  have hassoc : plist_assoc g h type [b + 16] = none := by
    unfold plist_assoc
    rw [l4, l5, hne]
    rfl
  obtain ⟨r1, _, _, _, _, _, _, r8, r9, _⟩ :=
    plist_set_append g hg h (b + 16) type value [b + 16] fuel ht l2 l3 fi.aligned
      ⟨fi.free _ (Nat.le_refl _), fi.free _ (Nat.le_add_right _ _)⟩
      (by simp only [List.length_singleton]; omega) hassoc
  have hfind := find_symbol_found g hg h environment symbol g.lisp_NIL hs cells fi.spine
    (b + 32) ea.assoc fuel (by omega)
  refine ⟨plist_set_heap g h type value [b + 16], ?_, ?_⟩
  · unfold lisp_environment_set_symbol_value
    rw [hfind]
    simp only [bind, Except.bind, l1]
    rw [if_neg (aligned_ne_NIL g hg (b + 16) (by omega)), r1]
    rfl
  · have hlast : [b + 16].getLastD 0 = b + 16 := rfl
    rw [hlast] at r9
    refine ⟨by rw [r8]; omega, by rw [r8]; intro e; omega, ?_, ?_⟩
    · intro a hlt2 ha
      exact r9 a (by simpa using ha) (by omega) (by omega)
    · intro hfree a ha
      rw [r8] at ha
      rw [r9 a (by omega) (by omega) (by omega)]
      exact hfree a (by omega)


/-! ### A tracked entry while the frame grows -/

/-- The objects of the frame after a new entry: those it had, the new cell,
the new entry and its key. -/
theorem reg_heap_objects (g : lisp_globals) (hg : globals_wf g) (h : lisp_heap)
    (environment symbol type value : Nat) (cells : List Nat) (used : List (List Nat))
    (fi : frame_inv g h environment cells used) :
    ∀ o ∈ plist_objects g (reg_heap g h symbol type value (cells.getLastD 0))
        (cells ++ [h.lisp_heap_cur + 48]),
      o ∈ plist_objects g h cells ∨ o = h.lisp_heap_cur + 48 ∨ o = h.lisp_heap_cur + 32
        ∨ o = symbol := by
  obtain ⟨f1, _, hlm⟩ := reg_heap_frame g hg h environment symbol type value cells used fi
  have hllt := (plist_wf_lt g h cells fi.wf _ (List.mem_append_left _ hlm)).2.1
  obtain ⟨⟨n1, _, _⟩, ⟨n4, _, _⟩, _, _⟩ :=
    reg_heap_new g hg h symbol type value (cells.getLastD 0) fi.aligned hllt
  intro o ho
  unfold plist_objects at ho ⊢
  rcases List.mem_append.1 ho with ho | ho
  · rcases List.mem_append.1 ho with ho | ho
    · rcases List.mem_append.1 ho with e | e
      · left
        exact List.mem_append_left _ (List.mem_append_left _ e)
      · simp only [List.mem_singleton] at e
        right; left
        exact e
    · rw [List.map_append, List.map_cons, List.map_nil, n1] at ho
      rcases List.mem_append.1 ho with e | e
      · obtain ⟨c, hc, rfl⟩ := List.mem_map.1 e
        left
        rw [f1 c (List.mem_append_left _ hc)]
        exact List.mem_append_left _ (List.mem_append_right _ (List.mem_map_of_mem _ hc))
      · simp only [List.mem_singleton] at e
        right; right; left
        exact e
  · rw [List.map_append, List.map_cons, List.map_nil, n1, n4] at ho
    rcases List.mem_append.1 ho with e | e
    · obtain ⟨c, hc, rfl⟩ := List.mem_map.1 e
      left
      rw [f1 c (List.mem_append_left _ hc),
        f1 _ (List.mem_append_right _ (List.mem_map_of_mem _ hc))]
      exact List.mem_append_right _
        (List.mem_map_of_mem (fun c => lisp_cell_car g h (lisp_cell_car g h c)) hc)
    · simp only [List.mem_singleton] at e
      right; right; right
      exact e

/-- The key of a tracked entry is a key of the frame. -/
theorem entry_at_key (g : lisp_globals) (hg : globals_wf g) (h : lisp_heap) (cells : List Nat)
    (symbol b type value : Nat) (ea : entry_at g h cells symbol b type value) :
    b + 32 ∈ cells.map (lisp_cell_car g h)
      ∧ symbol ∈ plist_objects g h cells := by
  have hm := (plist_assoc_mem g h symbol cells (b + 32) ea.assoc).1
  refine ⟨hm, ?_⟩
  obtain ⟨c, hc, e⟩ := List.mem_map.1 hm
  have hb := ea.aligned
  have hcar := (lisp_cell_car_cell g hg h (b + 32) symbol (b + 16) (by omega) ea.entry).1
  unfold plist_objects
  apply List.mem_append_right
  rw [← hcar, ← e]
  exact List.mem_map_of_mem (fun c => lisp_cell_car g h (lisp_cell_car g h c)) hc

/-- A tracked entry stays what it is when another symbol is registered. -/
theorem entry_at_reg_new (g : lisp_globals) (hg : globals_wf g) (h : lisp_heap)
    (environment symbol type value : Nat) (cells : List Nat) (used : List (List Nat))
    (fi : frame_inv g h environment cells used)
    (s b t v : Nat) (ea : entry_at g h cells s b t v)
    (hsr : lisp_object_get_raw_value symbol ≠ b)
    (hsr2 : lisp_object_get_raw_value symbol ≠ b + 16) :
    entry_at g (reg_heap g h symbol type value (cells.getLastD 0))
      (cells ++ [h.lisp_heap_cur + 48]) s b t v := by
  obtain ⟨f1, f2, hlm⟩ := reg_heap_frame g hg h environment symbol type value cells used fi
  obtain ⟨hent, hkey⟩ := entry_at_key g hg h cells s b t v ea
  have hb := ea.aligned
  have hlt := ea.below
  obtain ⟨hal, hale, hnd⟩ := plist_wf_parts g h cells fi.wf
  have hl16 := (plist_wf_lt g h cells fi.wf _ (List.mem_append_left _ hlm)).1
  have hlobj : cells.getLastD 0 ∈ plist_objects g h cells := by
    unfold plist_objects
    exact List.mem_append_left _ (List.mem_append_left _ hlm)
  have hla := ea.apart _ hlobj
  rw [raw_value_aligned _ hl16] at hla
  have hl32 : b + 32 ≠ cells.getLastD 0 := by
    intro e
    rw [e] at hent
    exact (List.nodup_append.1 hnd).2.2 hlm hent
  have hsraw : lisp_object_get_raw_value s < h.lisp_heap_cur := by
    unfold plist_objects at hkey
    rcases List.mem_append.1 hkey with e | e
    · exact Nat.lt_of_le_of_lt (raw_value_le s) (plist_wf_lt g h cells fi.wf s e).2.1
    · obtain ⟨c, hc, rfl⟩ := List.mem_map.1 e
      exact fi.keys c hc
  refine ⟨?_, ?_, ?_, ?_, hb, by rw [reg_heap_cur]; omega, ?_⟩
  · rw [plist_assoc_append, reg_heap_assoc g hg h environment symbol type value cells used fi
      s hsraw, ea.assoc]
  · rw [reg_heap_old g h symbol type value _ b (by omega) (fun e => hla.1 e.symm)]
    exact ea.pair
  · rw [reg_heap_old g h symbol type value _ (b + 16) (by omega) (fun e => hla.2 e.symm)]
    exact ea.attr
  · rw [reg_heap_old g h symbol type value _ (b + 32) (by omega) hl32]
    exact ea.entry
  · intro o ho
    rcases reg_heap_objects g hg h environment symbol type value cells used fi o ho with
      e | e | e | e
    · exact ea.apart o e
    · rw [e, raw_value_aligned _ (by have := fi.aligned; omega)]
      omega
    · rw [e, raw_value_aligned _ (by have := fi.aligned; omega)]
      omega
    · rw [e]
      exact ⟨hsr, hsr2⟩

theorem plist_objects_eq (g : lisp_globals) (h h' : lisp_heap) (cells : List Nat)
    (ha : ∀ x ∈ plist_objects g h cells,
      heap_read h' (lisp_object_get_raw_value x) = heap_read h (lisp_object_get_raw_value x)) :
    plist_objects g h' cells = plist_objects g h cells := by
  have hall := plist_objects_agree g h h' cells ha
  have hmap : cells.map (lisp_cell_car g h') = cells.map (lisp_cell_car g h) :=
    List.map_congr_left (fun c hc => (lisp_cell_car_congr g h h' c (hall c hc).1).1)
  have hmap2 : cells.map (fun c => lisp_cell_car g h' (lisp_cell_car g h' c))
      = cells.map (fun c => lisp_cell_car g h (lisp_cell_car g h c)) :=
    List.map_congr_left (fun c hc => by
      show lisp_cell_car g h' (lisp_cell_car g h' c) = lisp_cell_car g h (lisp_cell_car g h c)
      rw [(lisp_cell_car_congr g h h' c (hall c hc).1).1,
        (lisp_cell_car_congr g h h' _ (hall c hc).2.1).1])
  unfold plist_objects
  rw [hmap, hmap2]

/-- A tracked entry stays what it is when the heap changes outside it and
outside the cells, entries and keys of the frame. -/
theorem entry_at_change (g : lisp_globals) (hg : globals_wf g) (h h' : lisp_heap)
    (environment : Nat) (cells : List Nat) (used : List (List Nat)) (W : List Nat)
    (fi : frame_inv g h environment cells used) (x : heap_changes h h' W)
    (hW : ∀ o ∈ plist_objects g h cells, lisp_object_get_raw_value o ∉ W)
    (s b t v : Nat) (ea : entry_at g h cells s b t v) (hb1 : b ∉ W) (hb2 : b + 16 ∉ W) :
    entry_at g h' cells s b t v := by
  have hobj : ∀ o ∈ plist_objects g h cells,
      heap_read h' (lisp_object_get_raw_value o) = heap_read h (lisp_object_get_raw_value o) := by
    intro o ho
    apply x.same _ _ (hW o ho)
    unfold plist_objects at ho
    rcases List.mem_append.1 ho with ho | ho
    · have := (plist_wf_lt g h cells fi.wf o ho).2.1
      exact Nat.lt_of_le_of_lt (raw_value_le o) this
    · obtain ⟨c, hc, rfl⟩ := List.mem_map.1 ho
      exact fi.keys c hc
  obtain ⟨hent, hkey⟩ := entry_at_key g hg h cells s b t v ea
  have hb := ea.aligned
  have hlt := ea.below
  have h32 : heap_read h' (b + 32) = heap_read h (b + 32) := by
    have := hobj (b + 32) (by
      unfold plist_objects
      exact List.mem_append_left _ (List.mem_append_right _ hent))
    rwa [raw_value_aligned _ (by omega)] at this
  refine ⟨?_, ?_, ?_, ?_, hb, Nat.le_trans hlt x.cur, ?_⟩
  · rw [← ea.assoc]
    apply plist_assoc_congr
    intro c hc
    obtain ⟨a1, a2, a3⟩ := plist_objects_agree g h h' cells hobj c hc
    exact ⟨(lisp_cell_car_congr g h h' c a1).1, (lisp_cell_car_congr g h h' _ a2).1,
      atom_key_equal_names h h' s _ (atom_get_value_agree h h' s (hobj s hkey))
        (atom_get_value_agree h h' _ a3)⟩
  · rw [x.same b (by omega) hb1]
    exact ea.pair
  · rw [x.same (b + 16) (by omega) hb2]
    exact ea.attr
  · rw [h32]
    exact ea.entry
  · rw [plist_objects_eq g h h' cells hobj]
    exact ea.apart


/-! ### The root frame, step by step -/

theorem root_inv_extend (g0 : lisp_globals) (h0 : lisp_heap) (environment : Nat)
    (cells0 : List Nat) (g : lisp_globals) (h h' : lisp_heap) (extra : List Nat)
    (used : List (List Nat)) (ri : root_inv g0 h0 environment cells0 g h extra used)
    (x : heap_extends h h') : root_inv g0 h0 environment cells0 g h' extra used :=
  ⟨ri.core, ri.wf, frame_inv_extend g h h' environment _ used ri.frame x,
    heap_kept_extend g h0 h h' _ _ _ _ ri.kept ri.last_below x, ri.last_below, ri.last_aligned⟩

theorem root_inv_core (g0 : lisp_globals) (h0 : lisp_heap) (environment : Nat)
    (cells0 : List Nat) (g g' : lisp_globals) (h : lisp_heap) (extra : List Nat)
    (used : List (List Nat)) (ri : root_inv g0 h0 environment cells0 g h extra used)
    (hc : core_eq g g') : root_inv g0 h0 environment cells0 g' h extra used :=
  ⟨core_eq_trans g0 g g' ri.core hc, core_globals_wf g g' hc ri.wf,
    core_frame_inv g g' hc h environment _ used ri.frame,
    core_kept g g' hc h0 h _ _ _ _ ri.kept, ri.last_below, ri.last_aligned⟩

theorem root_inv_change (g0 : lisp_globals) (h0 : lisp_heap) (environment : Nat)
    (cells0 : List Nat) (g : lisp_globals) (h h' : lisp_heap) (extra : List Nat)
    (used : List (List Nat)) (W : List Nat)
    (ri : root_inv g0 h0 environment cells0 g h extra used) (x : heap_changes h h' W)
    (hW : ∀ o ∈ plist_objects g h (cells0 ++ extra), lisp_object_get_raw_value o ∉ W)
    (hA : ∀ w ∈ W, h0.lisp_heap_cur ≤ w) :
    root_inv g0 h0 environment cells0 g h' extra used :=
  ⟨ri.core, ri.wf, frame_inv_change g h h' environment _ used W ri.frame x hW,
    heap_kept_change g h0 h h' _ _ _ _ W ri.kept ri.last_below x hA, ri.last_below,
    ri.last_aligned⟩

theorem frame_inv_mono (g : lisp_globals) (h : lisp_heap) (environment : Nat)
    (cells : List Nat) (used used' : List (List Nat)) (hu : ∀ x ∈ used, x ∈ used')
    (fi : frame_inv g h environment cells used) : frame_inv g h environment cells used' :=
  ⟨fi.spine, fi.wf, fi.keys, fun c hc => hu _ (fi.names c hc), fi.aligned, fi.free⟩

theorem root_inv_mono (g0 : lisp_globals) (h0 : lisp_heap) (environment : Nat)
    (cells0 : List Nat) (g : lisp_globals) (h : lisp_heap) (extra : List Nat)
    (used used' : List (List Nat)) (hu : ∀ x ∈ used, x ∈ used')
    (ri : root_inv g0 h0 environment cells0 g h extra used) :
    root_inv g0 h0 environment cells0 g h extra used' :=
  ⟨ri.core, ri.wf, frame_inv_mono g h environment _ used used' hu ri.frame, ri.kept,
    ri.last_below, ri.last_aligned⟩

/-- Registering a symbol the root frame does not have. -/
theorem root_inv_new (g0 : lisp_globals) (h0 : lisp_heap) (environment : Nat)
    (cells0 : List Nat) (g : lisp_globals) (h : lisp_heap) (extra : List Nat)
    (used : List (List Nat)) (ri : root_inv g0 h0 environment cells0 g h extra used)
    (symbol type value : Nat) (fuel : Nat)
    (hs : lisp_object_get_tag symbol = lisp_tag_atom)
    (hsr : lisp_object_get_raw_value symbol < h.lisp_heap_cur)
    (hn : c_string (lisp_atom_get_value h symbol) ∉ used)
    (hfuel : cells0.length + extra.length + 2 < fuel) :
    ∃ h', lisp_environment_set_symbol_value g fuel h environment symbol type value g.lisp_NIL
          = .ok (value, h')
      ∧ root_inv g0 h0 environment cells0 g h' (extra ++ [h.lisp_heap_cur + 48])
          (c_string (lisp_atom_get_value h symbol) :: used)
      ∧ entry_at g h' (cells0 ++ (extra ++ [h.lisp_heap_cur + 48])) symbol h.lisp_heap_cur
          type value
      ∧ h'.lisp_heap_cur = h.lisp_heap_cur + 64
      ∧ (∀ s b t v, entry_at g h (cells0 ++ extra) s b t v →
          lisp_object_get_raw_value symbol ≠ b → lisp_object_get_raw_value symbol ≠ b + 16 →
          entry_at g h' (cells0 ++ (extra ++ [h.lisp_heap_cur + 48])) s b t v)
      ∧ (∀ x, lisp_object_get_raw_value x < h.lisp_heap_cur →
          lisp_atom_get_value h' x = lisp_atom_get_value h x) := by
  obtain ⟨r1, r2⟩ := reg_new g ri.wf h environment symbol type value (cells0 ++ extra) used fuel
    ri.frame hs hsr hn (by rw [List.length_append]; exact hfuel)
  refine ⟨_, r1, ⟨ri.core, ri.wf, ?_, ?_, ri.last_below, ri.last_aligned⟩, ?_, rfl, ?_,
    (reg_heap_frame g ri.wf h environment symbol type value _ used ri.frame).2.1⟩
  · rw [← List.append_assoc]
    exact r2
  · rw [← List.append_assoc]
    exact reg_new_kept g ri.wf h0 h _ _ _ _ symbol type value ri.kept ri.last_below
      ri.last_aligned
  · rw [← List.append_assoc]
    exact reg_new_entry g ri.wf h environment symbol type value _ used ri.frame hsr hn
  · intro s b t v ea hb hb2
    rw [← List.append_assoc]
    exact entry_at_reg_new g ri.wf h environment symbol type value _ used ri.frame s b t v ea hb
      hb2

/-- Replacing the value of the one attribute of a tracked entry of the root
frame. -/
theorem root_inv_replace (g0 : lisp_globals) (h0 : lisp_heap) (environment : Nat)
    (cells0 : List Nat) (g : lisp_globals) (h : lisp_heap) (extra : List Nat)
    (used : List (List Nat)) (ri : root_inv g0 h0 environment cells0 g h extra used)
    (symbol type value v0 b : Nat) (fuel : Nat)
    (ea : entry_at g h (cells0 ++ extra) symbol b type v0)
    (hA : h0.lisp_heap_cur ≤ b)
    (hs : lisp_object_get_tag symbol = lisp_tag_atom)
    (ht : lisp_object_get_tag type = lisp_tag_atom)
    (hfuel : cells0.length + extra.length + 2 < fuel) :
    ∃ h', lisp_environment_set_symbol_value g fuel h environment symbol type value g.lisp_NIL
          = .ok (value, h')
      ∧ root_inv g0 h0 environment cells0 g h' extra used
      ∧ h'.lisp_heap_cur = h.lisp_heap_cur
      ∧ (∀ s b' t v, entry_at g h (cells0 ++ extra) s b' t v → b' ≠ b → b' + 16 ≠ b →
          entry_at g h' (cells0 ++ extra) s b' t v) := by
  obtain ⟨r1, r2⟩ := reg_replace g ri.wf h environment symbol type value v0 (cells0 ++ extra)
    used b fuel ri.frame ea hs ht (by rw [List.length_append]; exact hfuel)
  have hW : ∀ o ∈ plist_objects g h (cells0 ++ extra), lisp_object_get_raw_value o ∉ [b] := by
    intro o ho
    simp only [List.mem_singleton]
    exact (ea.apart o ho).1
  refine ⟨_, r1, root_inv_change g0 h0 environment cells0 g h _ extra used [b] ri r2 hW ?_,
    ?_, ?_⟩
  · intro w hw
    simp only [List.mem_singleton] at hw
    rw [hw]
    exact hA
  · rfl
  · intro s b' t v ea' h1 h2
    exact entry_at_change g ri.wf h _ environment _ used [b] ri.frame r2 hW s b' t v ea'
      (by simpa using h1) (by simpa using h2)

/-- Adding an attribute to a tracked entry of the root frame. -/
theorem root_inv_add (g0 : lisp_globals) (h0 : lisp_heap) (environment : Nat)
    (cells0 : List Nat) (g : lisp_globals) (h : lisp_heap) (extra : List Nat)
    (used : List (List Nat)) (ri : root_inv g0 h0 environment cells0 g h extra used)
    (symbol type value t0 v0 b : Nat) (fuel : Nat)
    (ea : entry_at g h (cells0 ++ extra) symbol b t0 v0)
    (hA : h0.lisp_heap_cur ≤ b)
    (hs : lisp_object_get_tag symbol = lisp_tag_atom)
    (ht : lisp_object_get_tag type = lisp_tag_atom)
    (hne : atom_key_equal h type t0 = false)
    (hfuel : cells0.length + extra.length + 2 < fuel) :
    ∃ h', lisp_environment_set_symbol_value g fuel h environment symbol type value g.lisp_NIL
          = .ok (value, h')
      ∧ root_inv g0 h0 environment cells0 g h' extra used := by
  obtain ⟨h', r1, r2⟩ := reg_add g ri.wf h environment symbol type value t0 v0 (cells0 ++ extra)
    used b fuel ri.frame ea hs ht hne (by rw [List.length_append]; exact hfuel)
  have hW : ∀ o ∈ plist_objects g h (cells0 ++ extra),
      lisp_object_get_raw_value o ∉ [b + 16] := by
    intro o ho
    simp only [List.mem_singleton]
    exact (ea.apart o ho).2
  refine ⟨h', r1, root_inv_change g0 h0 environment cells0 g h h' extra used [b + 16] ri r2 hW ?_⟩
  intro w hw
  simp only [List.mem_singleton] at hw
  rw [hw]
  omega

/-- What `lisp_atom_create_c` gives. -/
theorem atom_create_c_spec (h : lisp_heap) (hal : h.lisp_heap_cur % 16 = 0) (name : List Nat) :
    lisp_object_get_tag (lisp_atom_create_c h name).1 = lisp_tag_atom
      ∧ lisp_object_get_raw_value (lisp_atom_create_c h name).1 = h.lisp_heap_cur
      ∧ h.lisp_heap_cur < (lisp_atom_create_c h name).2.lisp_heap_cur
      ∧ lisp_atom_get_value (lisp_atom_create_c h name).2 (lisp_atom_create_c h name).1
          = (c_string name).map c_upcase
      ∧ heap_extends h (lisp_atom_create_c h name).2 := by
  obtain ⟨a1, a2, a3, _, a5, _⟩ := allocate_object h hal lisp_tag_atom (by decide)
    ((c_string name).length + 1) (lisp_record.atom ((c_string name).map c_upcase))
  refine ⟨a1, a2, a5, ?_, heap_extends_atom_create_c h name⟩
  unfold lisp_atom_get_value
  unfold lisp_atom_create_c
  simp only
  rw [a2, a3]

/-- Interning a new name in the root frame. -/
theorem root_inv_intern (g0 : lisp_globals) (h0 : lisp_heap) (environment : Nat)
    (cells0 : List Nat) (g : lisp_globals) (h : lisp_heap) (extra : List Nat)
    (used : List (List Nat)) (ri : root_inv g0 h0 environment cells0 g h extra used)
    (atom : Nat) (fuel : Nat)
    (hs : lisp_object_get_tag atom = lisp_tag_atom)
    (hsr : lisp_object_get_raw_value atom < h.lisp_heap_cur)
    (hn : c_string (lisp_atom_get_value h atom) ∉ used)
    (hfuel : cells0.length + extra.length + 2 < fuel) :
    ∃ h', lisp_environment_intern_symbol g fuel h environment atom = .ok (atom, h')
      ∧ root_inv g0 h0 environment cells0 g h' (extra ++ [h.lisp_heap_cur + 48])
          (c_string (lisp_atom_get_value h atom) :: used)
      ∧ entry_at g h' (cells0 ++ (extra ++ [h.lisp_heap_cur + 48])) atom h.lisp_heap_cur
          g.lisp_APVAL g.lisp_NIL
      ∧ h'.lisp_heap_cur = h.lisp_heap_cur + 64
      ∧ (∀ s b t v, entry_at g h (cells0 ++ extra) s b t v →
          lisp_object_get_raw_value atom ≠ b → lisp_object_get_raw_value atom ≠ b + 16 →
          entry_at g h' (cells0 ++ (extra ++ [h.lisp_heap_cur + 48])) s b t v)
      ∧ (∀ x, lisp_object_get_raw_value x < h.lisp_heap_cur →
          lisp_atom_get_value h' x = lisp_atom_get_value h x) := by
  obtain ⟨h', r1, r2, r3, r4, r5, r6⟩ := root_inv_new g0 h0 environment cells0 g h extra used ri
    atom g.lisp_APVAL g.lisp_NIL fuel hs hsr hn hfuel
  refine ⟨h', ?_, r2, r3, r4, r5, r6⟩
  unfold lisp_environment_intern_symbol
  rw [r1]
  rfl

/-- Creating an atom and interning it in the root frame. -/
theorem root_inv_intern_c (g0 : lisp_globals) (h0 : lisp_heap) (environment : Nat)
    (cells0 : List Nat) (g : lisp_globals) (h : lisp_heap) (extra : List Nat)
    (used : List (List Nat)) (ri : root_inv g0 h0 environment cells0 g h extra used)
    (name : String) (fuel : Nat)
    (hn : c_string ((c_string (c_str name)).map c_upcase) ∉ used)
    (hfuel : cells0.length + extra.length + 2 < fuel) :
    ∃ a h' c, lisp_intern_c g fuel h environment name = .ok (a, h')
      ∧ root_inv g0 h0 environment cells0 g h' (extra ++ [c])
          (c_string ((c_string (c_str name)).map c_upcase) :: used) := by
  obtain ⟨a1, a2, a3, a4, a5⟩ := atom_create_c_spec h ri.frame.aligned (c_str name)
  have ri1 := root_inv_extend g0 h0 environment cells0 g h _ extra used ri a5
  obtain ⟨h', r1, r2, _⟩ := root_inv_intern g0 h0 environment cells0 g _ extra used ri1
    (lisp_atom_create_c h (c_str name)).1 fuel a1 (by rw [a2]; exact a3)
    (by rw [a4]; exact hn) hfuel
  rw [a4] at r2
  refine ⟨(lisp_atom_create_c h (c_str name)).1, h',
    (lisp_atom_create_c h (c_str name)).2.lisp_heap_cur + 48, ?_, r2⟩
  unfold lisp_intern_c
  exact r1


/-! ### The bootstrap heap holds nothing above `lisp_heap_cur` -/

theorem heap_initialize_bounded (raw_heap : Nat) : heap_bounded ( lisp_heap_initialize raw_heap) :=
  fun _ _ => rfl

theorem heap_bounded_extends (h h' : lisp_heap) (x : heap_extends h h') (p : heap_bounded h) :
    heap_bounded h' :=
  x.free p

theorem heap_extends_cons (h : lisp_heap) (a b : Nat) :
    heap_extends h (lisp_cell_cons h a b).2 := by
  unfold lisp_cell_cons
  exact heap_extends_allocate _ _ _ _

theorem heap_bounded_rplacd (h : lisp_heap) (c v : Nat) (r : lisp_object_t × lisp_heap)
    (p : heap_bounded h) (e : lisp_cell_rplacd h c v = .ok r) :
    heap_bounded r.2 ∧ r.2.lisp_heap_cur = h.lisp_heap_cur := by
  unfold lisp_cell_rplacd at e
  cases hv : lisp_cell_get_value h c with
  | none => rw [hv] at e; cases e
  | some cv =>
    rw [hv] at e
    simp only [Except.ok.injEq] at e
    subst e
    refine ⟨?_, rfl⟩
    intro a ha
    have hr := read_of_get_value h c cv.1 cv.2 hv
    by_cases e : a = lisp_object_get_raw_value c
    · rw [e] at ha
      have := p _ ha
      rw [hr] at this
      cases this
    · have : heap_read (heap_write h (lisp_object_get_raw_value c)
          (lisp_record.cell cv.1 v)) a = heap_read h a := by
        simp [heap_read, heap_write, e]
      rw [this]
      exact p a ha

theorem heap_bounded_cell_list_loop (g : lisp_globals) :
    ∀ (rest : List Nat) (h : lisp_heap) (cur : Nat) (r : lisp_heap), heap_bounded h →
      lisp_cell_list_loop g rest h cur = .ok r → heap_bounded r := by
  intro rest
  induction rest with
  | nil => intro h cur r _ e; cases e
  | cons x rest ih =>
    intro h cur r p e
    unfold lisp_cell_list_loop at e
    by_cases hx : x = g.lisp_NIL
    · rw [if_pos hx] at e
      cases hq : lisp_cell_rplacd h cur g.lisp_NIL with
      | error err => rw [hq] at e; cases e
      | ok q =>
        rw [hq] at e
        simp only [bind, Except.bind, pure, Except.pure, Except.ok.injEq] at e
        subst e
        exact (heap_bounded_rplacd h cur _ q p hq).1
    · rw [if_neg hx] at e
      have p1 := heap_bounded_extends _ _ (heap_extends_cons h x g.lisp_NIL) p
      cases hq : lisp_cell_rplacd (lisp_cell_cons h x g.lisp_NIL).2 cur
          (lisp_cell_cons h x g.lisp_NIL).1 with
      | error err =>
        simp only [bind, Except.bind, hq] at e
        cases e
      | ok q =>
        simp only [bind, Except.bind, hq] at e
        exact ih _ _ r (heap_bounded_rplacd _ cur _ q p1 hq).1 e

theorem heap_bounded_cell_list (g : lisp_globals) (h : lisp_heap) (car : Nat) (rest : List Nat)
    (r : lisp_object_t × lisp_heap) (p : heap_bounded h)
    (e : lisp_cell_list g h car rest = .ok r) : heap_bounded r.2 := by
  unfold lisp_cell_list at e
  have p1 := heap_bounded_extends _ _ (heap_extends_cons h car g.lisp_NIL) p
  cases hq : lisp_cell_list_loop g rest (lisp_cell_cons h car g.lisp_NIL).2
      (lisp_cell_cons h car g.lisp_NIL).1 with
  | error err =>
    simp only [bind, Except.bind, hq] at e
    cases e
  | ok q =>
    simp only [bind, Except.bind, hq, pure, Except.pure, Except.ok.injEq] at e
    subst e
    exact heap_bounded_cell_list_loop g rest _ _ q p1 hq

theorem heap_bounded_plist_create_loop (g : lisp_globals) :
    ∀ (rest : List Nat) (h : lisp_heap) (cur : Nat) (r : lisp_heap), heap_bounded h →
      lisp_plist_create_loop g rest h cur = .ok r → heap_bounded r := by
  intro rest
  induction rest with
  | nil => intro h cur r _ e; cases e
  | cons x rest ih =>
    intro h cur r p e
    unfold lisp_plist_create_loop at e
    by_cases hx : x ≠ 0
    · rw [if_pos hx] at e
      have p1 := heap_bounded_extends _ _ (heap_extends_cons h x g.lisp_NIL) p
      cases hq : lisp_cell_rplacd (lisp_cell_cons h x g.lisp_NIL).2 cur
          (lisp_cell_cons h x g.lisp_NIL).1 with
      | error err =>
        simp only [bind, Except.bind, hq] at e
        cases e
      | ok q =>
        simp only [bind, Except.bind, hq] at e
        exact ih _ _ r (heap_bounded_rplacd _ cur _ q p1 hq).1 e
    · rw [if_neg hx] at e
      simp only [pure, Except.pure, Except.ok.injEq] at e
      subst e
      exact p

theorem heap_bounded_plist_create (g : lisp_globals) (h : lisp_heap) (entry : Nat)
    (rest : List Nat) (r : lisp_object_t × lisp_heap) (p : heap_bounded h)
    (e : lisp_plist_create g h entry rest = .ok r) : heap_bounded r.2 := by
  unfold lisp_plist_create at e
  have p1 := heap_bounded_extends _ _ (heap_extends_cons h entry g.lisp_NIL) p
  cases hq : lisp_plist_create_loop g rest (lisp_cell_cons h entry g.lisp_NIL).2
      (lisp_cell_cons h entry g.lisp_NIL).1 with
  | error err =>
    simp only [bind, Except.bind, hq] at e
    cases e
  | ok q =>
    simp only [bind, Except.bind, hq, pure, Except.pure, Except.ok.injEq] at e
    subst e
    exact heap_bounded_plist_create_loop g rest _ _ q p1 hq


theorem run_bounded_bind {α β : Type} (x : Run (α × lisp_heap))
    (f : α × lisp_heap → Run (β × lisp_heap)) (hx : run_bounded x)
    (hf : ∀ v, heap_bounded v.2 → run_bounded (f v)) : run_bounded (x >>= f) := by
  intro v e
  cases x with
  | error err => cases e
  | ok w => exact hf w (hx w rfl) v e

theorem heap_bounded_of_eq (h h' : lisp_heap) (f : lisp_object_t × lisp_heap) (a : Nat)
    (x : heap_extends h f.2) (p : heap_bounded h) (e : f = (a, h')) : heap_bounded h' := by
  subst e
  exact heap_bounded_extends _ _ x p

theorem heap_bounded_cons (h : lisp_heap) (a b : Nat) (p : heap_bounded h) :
    heap_bounded (lisp_cell_cons h a b).2 :=
  heap_bounded_extends _ _ (heap_extends_cons h a b) p

/-- The bootstrap of `lisp_environment_create_root` leaves nothing above
`lisp_heap_cur`. -/
theorem create_root_raw_bounded (h : lisp_heap) (p : heap_bounded h) :
    run_bounded (lisp_environment_create_root_raw h) := by
  unfold lisp_environment_create_root_raw
  split
  rename_i x1 h1 e1
  have p1 : heap_bounded h1 :=
    heap_bounded_of_eq _ _ _ _ (heap_extends_string_create_c _ _) p e1
  split
  rename_i x2 h2 e2
  have p2 : heap_bounded h2 :=
    heap_bounded_of_eq _ _ _ _ (heap_extends_string_create_c _ _) p1 e2
  split
  rename_i x3 h3 e3
  have p3 : heap_bounded h3 :=
    heap_bounded_of_eq _ _ _ _ (heap_extends_string_create_c _ _) p2 e3
  split
  rename_i x4 h4 e4
  have p4 : heap_bounded h4 :=
    heap_bounded_of_eq _ _ _ _ (heap_extends_string_create_c _ _) p3 e4
  split
  rename_i x5 h5 e5
  have p5 : heap_bounded h5 :=
    heap_bounded_of_eq _ _ _ _ (heap_extends_string_create_c _ _) p4 e5
  split
  rename_i x6 h6 e6
  have p6 : heap_bounded h6 :=
    heap_bounded_of_eq _ _ _ _ (heap_extends_string_create_c _ _) p5 e6
  split
  rename_i x7 h7 e7
  have p7 : heap_bounded h7 :=
    heap_bounded_of_eq _ _ _ _ (heap_extends_string_create_c _ _) p6 e7
  split
  rename_i x8 h8 e8
  have p8 : heap_bounded h8 :=
    heap_bounded_of_eq _ _ _ _ (heap_extends_atom_create _ _) p7 e8
  split
  rename_i x9 h9 e9
  have p9 : heap_bounded h9 :=
    heap_bounded_of_eq _ _ _ _ (heap_extends_atom_create _ _) p8 e9
  split
  rename_i x10 h10 e10
  have p10 : heap_bounded h10 :=
    heap_bounded_of_eq _ _ _ _ (heap_extends_atom_create _ _) p9 e10
  split
  rename_i x11 h11 e11
  have p11 : heap_bounded h11 :=
    heap_bounded_of_eq _ _ _ _ (heap_extends_atom_create _ _) p10 e11
  split
  rename_i x12 h12 e12
  have p12 : heap_bounded h12 :=
    heap_bounded_of_eq _ _ _ _ (heap_extends_atom_create _ _) p11 e12
  split
  rename_i x13 h13 e13
  have p13 : heap_bounded h13 :=
    heap_bounded_of_eq _ _ _ _ (heap_extends_atom_create _ _) p12 e13
  split
  rename_i x14 h14 e14
  have p14 : heap_bounded h14 :=
    heap_bounded_of_eq _ _ _ _ (heap_extends_atom_create _ _) p13 e14
  simp only []
  refine run_bounded_bind _ _ ?_ ?_
  · exact fun v e => heap_bounded_plist_create _ _ _ _ v
      (heap_bounded_cons _ _ _ (heap_bounded_cons _ _ _ p14)) e
  intro v0 q0
  refine run_bounded_bind _ _ ?_ ?_
  · exact fun v e => heap_bounded_plist_create _ _ _ _ v
      (heap_bounded_cons _ _ _ (heap_bounded_cons _ _ _ q0)) e
  intro v1 q1
  refine run_bounded_bind _ _ ?_ ?_
  · exact fun v e => heap_bounded_plist_create _ _ _ _ v
      (heap_bounded_cons _ _ _ (heap_bounded_cons _ _ _ q1)) e
  intro v2 q2
  refine run_bounded_bind _ _ ?_ ?_
  · exact fun v e => heap_bounded_plist_create _ _ _ _ v
      (heap_bounded_cons _ _ _ (heap_bounded_cons _ _ _ q2)) e
  intro v3 q3
  refine run_bounded_bind _ _ ?_ ?_
  · exact fun v e => heap_bounded_plist_create _ _ _ _ v
      (heap_bounded_cons _ _ _ (heap_bounded_cons _ _ _ q3)) e
  intro v4 q4
  refine run_bounded_bind _ _ ?_ ?_
  · exact fun v e => heap_bounded_plist_create _ _ _ _ v
      (heap_bounded_cons _ _ _ (heap_bounded_cons _ _ _ q4)) e
  intro v5 q5
  refine run_bounded_bind _ _ ?_ ?_
  · exact fun v e => heap_bounded_plist_create _ _ _ _ v
      (heap_bounded_cons _ _ _ (heap_bounded_cons _ _ _ q5)) e
  intro v6 q6
  refine run_bounded_bind _ _ ?_ ?_
  · exact fun v e => heap_bounded_cell_list _ _ _ _ v
      (heap_bounded_cons _ _ _ (heap_bounded_cons _ _ _ (heap_bounded_cons _ _ _
          (heap_bounded_cons _ _ _ (heap_bounded_cons _ _ _ (heap_bounded_cons _ _ _
          (heap_bounded_cons _ _ _ q6))))))) e
  intro w qw v e
  simp only [pure, Except.pure, Except.ok.injEq] at e
  subst e
  exact qw


/-! ### The bootstrap frame -/

set_option maxRecDepth 100000 in
theorem example_root_run :
    lisp_environment_create_root_raw ( lisp_heap_initialize 0x100000)
      = .ok ((example_root.g, example_root.environment), example_root.h) := by
  have H : run_ok (lisp_environment_create_root_raw ( lisp_heap_initialize 0x100000)) = true := by
    decide!
  unfold example_root
  cases hr : lisp_environment_create_root_raw ( lisp_heap_initialize 0x100000) with
  | error e => rw [hr] at H; cases H
  | ok v => rfl

theorem example_root_bounded : heap_bounded example_root.h :=
  create_root_raw_bounded _ (heap_initialize_bounded _) _ example_root_run

set_option maxRecDepth 100000 in
theorem example_root_frame :
    frame_inv example_root.g example_root.h example_root.environment example_root_cells
      bootstrap_names := by
  have H : plist_spine example_root.g example_root.h example_root.environment
        example_root_cells = true
      ∧ plist_wf example_root.g example_root.h example_root_cells = true
      ∧ (∀ c ∈ example_root_cells,
          lisp_object_get_raw_value (lisp_cell_car example_root.g example_root.h
            (lisp_cell_car example_root.g example_root.h c)) < example_root.h.lisp_heap_cur)
      ∧ (∀ c ∈ example_root_cells,
          c_string (lisp_atom_get_value example_root.h (lisp_cell_car example_root.g
            example_root.h (lisp_cell_car example_root.g example_root.h c))) ∈ bootstrap_names)
      ∧ example_root.h.lisp_heap_cur % 16 = 0 := by
    decide!
  exact ⟨H.1, H.2.1, H.2.2.1, H.2.2.2.1, H.2.2.2.2, example_root_bounded⟩

set_option maxRecDepth 100000 in
theorem example_root_inv :
    root_inv example_root.g example_root.h example_root.environment example_root_cells
      example_root.g example_root.h [] bootstrap_names := by
  have H : example_root_cells.getLastD 0 < example_root.h.lisp_heap_cur
      ∧ example_root_cells.getLastD 0 % 16 = 0 := by
    decide!
  refine ⟨core_eq_refl _, example_root_globals_wf, ?_, ?_, H.1, H.2⟩
  · rw [List.append_nil]
    exact example_root_frame
  · rw [List.append_nil]
    refine ⟨Nat.le_refl _, fun _ _ _ => rfl, rfl, ?_, ?_, Nat.le_refl _⟩
    · intro c hc
      rw [List.drop_length] at hc
      cases hc
    · rw [List.take_length]


/-! ### Runs that end -/

theorem run_post_of_eq {α β : Type} (x : Run α) (f : α → Run β) (v : α) (Q : β → Prop)
    (e : x = .ok v) (hf : run_post (f v) Q) : run_post (x >>= f) Q := by
  subst e
  exact hf

theorem run_post_bind {α β : Type} (x : Run α) (f : α → Run β) (Q1 : α → Prop) (Q : β → Prop)
    (hx : run_post x Q1) (hf : ∀ v, Q1 v → run_post (f v) Q) : run_post (x >>= f) Q := by
  obtain ⟨v, e, q⟩ := hx
  exact run_post_of_eq x f v Q e (hf v q)

theorem run_post_pure {α : Type} (v : α) (Q : α → Prop) (q : Q v) :
    run_post (pure v : Run α) Q :=
  ⟨v, rfl, q⟩

/-! ### Atoms that stay what they are -/

theorem atom_named_extend (h h' : lisp_heap) (a : Nat) (n : List Nat) (x : heap_extends h h')
    (m : atom_named h a n) : atom_named h' a n :=
  ⟨m.tag, Nat.lt_of_lt_of_le m.below x.cur, by
    rw [atom_get_value_agree h h' a (x.same _ m.below)]; exact m.name⟩

theorem atom_named_keep (h h' : lisp_heap) (a : Nat) (n : List Nat)
    (hcur : h.lisp_heap_cur ≤ h'.lisp_heap_cur)
    (hk : ∀ x, lisp_object_get_raw_value x < h.lisp_heap_cur →
      lisp_atom_get_value h' x = lisp_atom_get_value h x)
    (m : atom_named h a n) : atom_named h' a n :=
  ⟨m.tag, Nat.lt_of_lt_of_le m.below hcur, by rw [hk a m.below]; exact m.name⟩

theorem atom_create_c_eq (h h' : lisp_heap) (hal : h.lisp_heap_cur % 16 = 0) (name : List Nat)
    (a : Nat) (e : lisp_atom_create_c h name = (a, h')) :
    lisp_object_get_raw_value a = h.lisp_heap_cur
      ∧ h.lisp_heap_cur < h'.lisp_heap_cur
      ∧ atom_named h' a ((c_string name).map c_upcase)
      ∧ heap_extends h h' := by
  obtain ⟨a1, a2, a3, a4, a5⟩ := atom_create_c_spec h hal name
  rw [e] at a1 a2 a3 a4 a5
  exact ⟨a2, a3, ⟨a1, by rw [a2]; exact a3, a4⟩, a5⟩

theorem fresh_step (pre used : List (List Nat)) (x : List Nat) (hx : x ∉ pre) (hu : x ∉ used) :
    x ∉ pre ++ used := by
  intro hm
  rcases List.mem_append.1 hm with e | e
  · exact hx e
  · exact hu e

/-! ### `lisp_tagbody_initialize` -/

set_option maxRecDepth 100000 in
theorem tagbody_spec (g0 : lisp_globals) (h0 : lisp_heap) (environment : Nat)
    (cells0 : List Nat) (g : lisp_globals) (h : lisp_heap) (extra : List Nat)
    (used : List (List Nat)) (ri : root_inv g0 h0 environment cells0 g h extra used)
    (fuel : Nat) (hfr : ∀ n ∈ tagbody_names, n ∉ used)
    (hfuel : cells0.length + extra.length + 9 < fuel) :
    run_post ( lisp_tagbody_initialize g fuel h environment)
      (fun r => core_eq g r.1 ∧ ∃ extra', extra'.length = extra.length + 7
        ∧ root_inv g0 h0 environment cells0 r.1 r.2 extra' (tagbody_names ++ used)) := by
  have hA := ri.kept.cur
  unfold lisp_tagbody_initialize
  split
  rename_i a1 h1 e1
  obtain ⟨w1, l1, n1, x1⟩ := atom_create_c_eq h h1 ri.frame.aligned _ a1 e1
  have ri1 := root_inv_extend g0 h0 environment cells0 g h h1 extra used ri x1
  split
  rename_i a2 h2 e2
  obtain ⟨w2, l2, n2, x2⟩ := atom_create_c_eq h1 h2 ri1.frame.aligned _ a2 e2
  have ri2 := root_inv_extend g0 h0 environment cells0 g h1 h2 extra used ri1 x2
  replace n1 := atom_named_extend _ _ _ _ x2 n1
  split
  rename_i a3 h3 e3
  obtain ⟨w3, l3, n3, x3⟩ := atom_create_c_eq h2 h3 ri2.frame.aligned _ a3 e3
  have ri3 := root_inv_extend g0 h0 environment cells0 g h2 h3 extra used ri2 x3
  replace n1 := atom_named_extend _ _ _ _ x3 n1
  replace n2 := atom_named_extend _ _ _ _ x3 n2
  split
  rename_i a4 h4 e4
  obtain ⟨w4, l4, n4, x4⟩ := atom_create_c_eq h3 h4 ri3.frame.aligned _ a4 e4
  have ri4 := root_inv_extend g0 h0 environment cells0 g h3 h4 extra used ri3 x4
  replace n1 := atom_named_extend _ _ _ _ x4 n1
  replace n2 := atom_named_extend _ _ _ _ x4 n2
  replace n3 := atom_named_extend _ _ _ _ x4 n3
  split
  rename_i a5 h5 e5
  obtain ⟨w5, l5, n5, x5⟩ := atom_create_c_eq h4 h5 ri4.frame.aligned _ a5 e5
  have ri5 := root_inv_extend g0 h0 environment cells0 g h4 h5 extra used ri4 x5
  replace n1 := atom_named_extend _ _ _ _ x5 n1
  replace n2 := atom_named_extend _ _ _ _ x5 n2
  replace n3 := atom_named_extend _ _ _ _ x5 n3
  replace n4 := atom_named_extend _ _ _ _ x5 n4
  split
  rename_i a6 h6 e6
  obtain ⟨w6, l6, n6, x6⟩ := atom_create_c_eq h5 h6 ri5.frame.aligned _ a6 e6
  have ri6 := root_inv_extend g0 h0 environment cells0 g h5 h6 extra used ri5 x6
  replace n1 := atom_named_extend _ _ _ _ x6 n1
  replace n2 := atom_named_extend _ _ _ _ x6 n2
  replace n3 := atom_named_extend _ _ _ _ x6 n3
  replace n4 := atom_named_extend _ _ _ _ x6 n4
  replace n5 := atom_named_extend _ _ _ _ x6 n5
  split
  rename_i a7 h7 e7
  obtain ⟨w7, l7, n7, x7⟩ := atom_create_c_eq h6 h7 ri6.frame.aligned _ a7 e7
  have ri7 := root_inv_extend g0 h0 environment cells0 g h6 h7 extra used ri6 x7
  replace n1 := atom_named_extend _ _ _ _ x7 n1
  replace n2 := atom_named_extend _ _ _ _ x7 n2
  replace n3 := atom_named_extend _ _ _ _ x7 n3
  replace n4 := atom_named_extend _ _ _ _ x7 n4
  replace n5 := atom_named_extend _ _ _ _ x7 n5
  replace n6 := atom_named_extend _ _ _ _ x7 n6
  set G1 : lisp_globals :=
    { g with lisp_SI_TAGBODY_STACK := a1, lisp_SI_TAGBODY_CURRENT := a2,
             lisp_SI_TAGBODY_SEQEUENCE := a3, lisp_SI_TAGBODY_MAPPING := a4,
             lisp_SI_TAGBODY_NEXT := a5, lisp_SI_TAGBODY_START := a6,
             lisp_SI_TAGBODY_END := a7 } with hG1
  have hcore : core_eq g G1 := ⟨rfl, rfl, rfl, rfl, rfl, rfl, rfl⟩
  have rj0 := root_inv_core g0 h0 environment cells0 g G1 h7 extra used ri7 hcore
  obtain ⟨k1, r1, rj1, ea1, c1, pe1, pn1⟩ := root_inv_intern g0 h0 environment cells0
    G1 h7 _ _ rj0 a1 fuel n1.tag n1.below
    (by rw [n1.name]
        exact fresh_step [] used (atom_name_c "%SI:*TAGBODY-STACK*") (by decide)
          (hfr _ (by decide)))
    (by omega)
  rw [n1.name] at rj1
  replace n2 := atom_named_keep _ _ _ _ (by omega) pn1 n2
  replace n3 := atom_named_keep _ _ _ _ (by omega) pn1 n3
  replace n4 := atom_named_keep _ _ _ _ (by omega) pn1 n4
  replace n5 := atom_named_keep _ _ _ _ (by omega) pn1 n5
  replace n6 := atom_named_keep _ _ _ _ (by omega) pn1 n6
  replace n7 := atom_named_keep _ _ _ _ (by omega) pn1 n7
  refine run_post_of_eq _ _ _ _ r1 ?_
  simp only []
  obtain ⟨k2, r2, rj2, ea2, c2, pe2, pn2⟩ := root_inv_intern g0 h0 environment cells0
    G1 k1 _ _ rj1 a2 fuel n2.tag n2.below
    (by rw [n2.name]
        exact fresh_step [atom_name_c "%SI:*TAGBODY-STACK*"] used
            (atom_name_c "%SI:*TAGBODY-CURRENT*") (by decide)
          (hfr _ (by decide)))
    (by simp only [List.length_append, List.length_singleton]; omega)
  rw [n2.name] at rj2
  replace n3 := atom_named_keep _ _ _ _ (by omega) pn2 n3
  replace n4 := atom_named_keep _ _ _ _ (by omega) pn2 n4
  replace n5 := atom_named_keep _ _ _ _ (by omega) pn2 n5
  replace n6 := atom_named_keep _ _ _ _ (by omega) pn2 n6
  replace n7 := atom_named_keep _ _ _ _ (by omega) pn2 n7
  replace ea1 := pe2 _ _ _ _ ea1 (by omega) (by omega)
  refine run_post_of_eq _ _ _ _ r2 ?_
  simp only []
  obtain ⟨k3, r3, rj3, ea3, c3, pe3, pn3⟩ := root_inv_intern g0 h0 environment cells0
    G1 k2 _ _ rj2 a3 fuel n3.tag n3.below
    (by rw [n3.name]
        exact fresh_step [atom_name_c "%SI:*TAGBODY-CURRENT*",
            atom_name_c "%SI:*TAGBODY-STACK*"] used (atom_name_c "%SI:TAGBODY-SEQUENCE") (by decide)
          (hfr _ (by decide)))
    (by simp only [List.length_append, List.length_singleton]; omega)
  rw [n3.name] at rj3
  replace n4 := atom_named_keep _ _ _ _ (by omega) pn3 n4
  replace n5 := atom_named_keep _ _ _ _ (by omega) pn3 n5
  replace n6 := atom_named_keep _ _ _ _ (by omega) pn3 n6
  replace n7 := atom_named_keep _ _ _ _ (by omega) pn3 n7
  replace ea1 := pe3 _ _ _ _ ea1 (by omega) (by omega)
  replace ea2 := pe3 _ _ _ _ ea2 (by omega) (by omega)
  refine run_post_of_eq _ _ _ _ r3 ?_
  simp only []
  obtain ⟨k4, r4, rj4, ea4, c4, pe4, pn4⟩ := root_inv_intern g0 h0 environment cells0
    G1 k3 _ _ rj3 a4 fuel n4.tag n4.below
    (by rw [n4.name]
        exact fresh_step [atom_name_c "%SI:TAGBODY-SEQUENCE", atom_name_c "%SI:*TAGBODY-CURRENT*",
            atom_name_c "%SI:*TAGBODY-STACK*"] used (atom_name_c "%SI:TAGBODY-MAPPING") (by decide)
          (hfr _ (by decide)))
    (by simp only [List.length_append, List.length_singleton]; omega)
  rw [n4.name] at rj4
  replace n5 := atom_named_keep _ _ _ _ (by omega) pn4 n5
  replace n6 := atom_named_keep _ _ _ _ (by omega) pn4 n6
  replace n7 := atom_named_keep _ _ _ _ (by omega) pn4 n7
  replace ea1 := pe4 _ _ _ _ ea1 (by omega) (by omega)
  replace ea2 := pe4 _ _ _ _ ea2 (by omega) (by omega)
  refine run_post_of_eq _ _ _ _ r4 ?_
  simp only []
  obtain ⟨k5, r5, rj5, ea5, c5, pe5, pn5⟩ := root_inv_intern g0 h0 environment cells0
    G1 k4 _ _ rj4 a5 fuel n5.tag n5.below
    (by rw [n5.name]
        exact fresh_step [atom_name_c "%SI:TAGBODY-MAPPING", atom_name_c "%SI:TAGBODY-SEQUENCE",
            atom_name_c "%SI:*TAGBODY-CURRENT*", atom_name_c "%SI:*TAGBODY-STACK*"] used
            (atom_name_c "%SI:TAGBODY-NEXT") (by decide)
          (hfr _ (by decide)))
    (by simp only [List.length_append, List.length_singleton]; omega)
  rw [n5.name] at rj5
  replace n6 := atom_named_keep _ _ _ _ (by omega) pn5 n6
  replace n7 := atom_named_keep _ _ _ _ (by omega) pn5 n7
  replace ea1 := pe5 _ _ _ _ ea1 (by omega) (by omega)
  replace ea2 := pe5 _ _ _ _ ea2 (by omega) (by omega)
  refine run_post_of_eq _ _ _ _ r5 ?_
  simp only []
  obtain ⟨k6, r6, rj6, ea6, c6, pe6, pn6⟩ := root_inv_intern g0 h0 environment cells0
    G1 k5 _ _ rj5 a6 fuel n6.tag n6.below
    (by rw [n6.name]
        exact fresh_step [atom_name_c "%SI:TAGBODY-NEXT", atom_name_c "%SI:TAGBODY-MAPPING",
            atom_name_c "%SI:TAGBODY-SEQUENCE", atom_name_c "%SI:*TAGBODY-CURRENT*",
            atom_name_c "%SI:*TAGBODY-STACK*"] used (atom_name_c "%SI:TAGBODY-START") (by decide)
          (hfr _ (by decide)))
    (by simp only [List.length_append, List.length_singleton]; omega)
  rw [n6.name] at rj6
  replace n7 := atom_named_keep _ _ _ _ (by omega) pn6 n7
  replace ea1 := pe6 _ _ _ _ ea1 (by omega) (by omega)
  replace ea2 := pe6 _ _ _ _ ea2 (by omega) (by omega)
  refine run_post_of_eq _ _ _ _ r6 ?_
  simp only []
  obtain ⟨k7, r7, rj7, ea7, c7, pe7, pn7⟩ := root_inv_intern g0 h0 environment cells0
    G1 k6 _ _ rj6 a7 fuel n7.tag n7.below
    (by rw [n7.name]
        exact fresh_step [atom_name_c "%SI:TAGBODY-START", atom_name_c "%SI:TAGBODY-NEXT",
            atom_name_c "%SI:TAGBODY-MAPPING", atom_name_c "%SI:TAGBODY-SEQUENCE",
            atom_name_c "%SI:*TAGBODY-CURRENT*", atom_name_c "%SI:*TAGBODY-STACK*"] used
            (atom_name_c "%SI:TAGBODY-END") (by decide)
          (hfr _ (by decide)))
    (by simp only [List.length_append, List.length_singleton]; omega)
  rw [n7.name] at rj7
  replace ea1 := pe7 _ _ _ _ ea1 (by omega) (by omega)
  replace ea2 := pe7 _ _ _ _ ea2 (by omega) (by omega)
  refine run_post_of_eq _ _ _ _ r7 ?_
  simp only []
  obtain ⟨m1, q1, rm1, cm1, pm1⟩ := root_inv_replace g0 h0 environment cells0 G1 k7 _ _ rj7 a1
    G1.lisp_APVAL G1.lisp_NIL G1.lisp_NIL h7.lisp_heap_cur fuel ea1 (by omega) n1.tag
    rj7.wf.APVAL_atom (by simp only [List.length_append, List.length_singleton]; omega)
  replace ea2 := pm1 _ _ _ _ ea2 (by omega) (by omega)
  refine run_post_of_eq _ _ _ _ q1 ?_
  simp only []
  obtain ⟨m2, q2, rm2, cm2, pm2⟩ := root_inv_replace g0 h0 environment cells0 G1 m1 _ _ rm1 a2
    G1.lisp_APVAL G1.lisp_NIL G1.lisp_NIL k1.lisp_heap_cur fuel ea2 (by omega) n2.tag
    rm1.wf.APVAL_atom (by simp only [List.length_append, List.length_singleton]; omega)
  refine run_post_of_eq _ _ _ _ q2 ?_
  simp only []
  refine run_post_pure _ _ ⟨hcore, _, ?_, root_inv_mono g0 h0 environment cells0 G1 m2 _ _ _ ?_ rm2⟩
  · simp only [List.length_append, List.length_singleton]
  · intro x hx
    simp only [List.mem_cons] at hx
    rw [List.mem_append]
    rcases hx with e | e | e | e | e | e | e | e
    all_goals first
      | exact Or.inr e
      | (left; rw [e]; decide)


theorem run_post_mono {α : Type} (x : Run α) (Q Q' : α → Prop) (hx : run_post x Q)
    (hq : ∀ v, Q v → Q' v) : run_post x Q' := by
  obtain ⟨v, e, q⟩ := hx
  exact ⟨v, e, hq v q⟩

/-! ### `lisp_environment_add_built_in_special_forms` -/

set_option maxRecDepth 100000 in
theorem special_forms_spec (g0 : lisp_globals) (h0 : lisp_heap) (environment : Nat)
    (cells0 : List Nat) (g : lisp_globals) (h : lisp_heap) (extra : List Nat)
    (used : List (List Nat)) (ri : root_inv g0 h0 environment cells0 g h extra used)
    (fuel : Nat) (hfr : ∀ n ∈ special_form_names ++ tagbody_names, n ∉ used)
    (hfuel : cells0.length + extra.length + 24 < fuel) :
    run_post (lisp_environment_add_built_in_special_forms g fuel h environment)
      (fun r => core_eq g r.1 ∧ ∃ extra', extra'.length = extra.length + 22
        ∧ root_inv g0 h0 environment cells0 r.1 r.2 extra'
            (tagbody_names ++ (special_form_names ++ used))) := by
  unfold lisp_environment_add_built_in_special_forms
  obtain ⟨a1, k1, c1, r1, rj1⟩ := root_inv_intern_c g0 h0 environment cells0 g h _ _
    ri "AND" fuel
    (fresh_step [] used
      (atom_name_c "AND") (by decide) (hfr _ (by decide)))
    (by omega)
  refine run_post_of_eq _ _ _ _ r1 ?_
  simp only []
  obtain ⟨a2, k2, c2, r2, rj2⟩ := root_inv_intern_c g0 h0 environment cells0 g k1 _ _
    rj1 "COND" fuel
    (fresh_step [atom_name_c "AND"] used
      (atom_name_c "COND") (by decide) (hfr _ (by decide)))
    (by first | omega | (simp only [List.length_append, List.length_singleton]; omega))
  refine run_post_of_eq _ _ _ _ r2 ?_
  simp only []
  obtain ⟨a3, k3, c3, r3, rj3⟩ := root_inv_intern_c g0 h0 environment cells0 g k2 _ _
    rj2 "DEFINE" fuel
    (fresh_step [atom_name_c "COND", atom_name_c "AND"] used
      (atom_name_c "DEFINE") (by decide) (hfr _ (by decide)))
    (by first | omega | (simp only [List.length_append, List.length_singleton]; omega))
  refine run_post_of_eq _ _ _ _ r3 ?_
  simp only []
  obtain ⟨a4, k4, c4, r4, rj4⟩ := root_inv_intern_c g0 h0 environment cells0 g k3 _ _
    rj3 "DEFUN" fuel
    (fresh_step [atom_name_c "DEFINE", atom_name_c "COND", atom_name_c "AND"] used
      (atom_name_c "DEFUN") (by decide) (hfr _ (by decide)))
    (by first | omega | (simp only [List.length_append, List.length_singleton]; omega))
  refine run_post_of_eq _ _ _ _ r4 ?_
  simp only []
  obtain ⟨a5, k5, c5, r5, rj5⟩ := root_inv_intern_c g0 h0 environment cells0 g k4 _ _
    rj4 "IF" fuel
    (fresh_step [atom_name_c "DEFUN", atom_name_c "DEFINE", atom_name_c "COND",
        atom_name_c "AND"] used
      (atom_name_c "IF") (by decide) (hfr _ (by decide)))
    (by first | omega | (simp only [List.length_append, List.length_singleton]; omega))
  refine run_post_of_eq _ _ _ _ r5 ?_
  simp only []
  obtain ⟨a6, k6, c6, r6, rj6⟩ := root_inv_intern_c g0 h0 environment cells0 g k5 _ _
    rj5 "LAMBDA" fuel
    (fresh_step [atom_name_c "IF", atom_name_c "DEFUN", atom_name_c "DEFINE", atom_name_c "COND",
        atom_name_c "AND"] used
      (atom_name_c "LAMBDA") (by decide) (hfr _ (by decide)))
    (by first | omega | (simp only [List.length_append, List.length_singleton]; omega))
  refine run_post_of_eq _ _ _ _ r6 ?_
  simp only []
  obtain ⟨a7, k7, c7, r7, rj7⟩ := root_inv_intern_c g0 h0 environment cells0 g k6 _ _
    rj6 "OR" fuel
    (fresh_step [atom_name_c "LAMBDA", atom_name_c "IF", atom_name_c "DEFUN", atom_name_c "DEFINE",
        atom_name_c "COND", atom_name_c "AND"] used
      (atom_name_c "OR") (by decide) (hfr _ (by decide)))
    (by first | omega | (simp only [List.length_append, List.length_singleton]; omega))
  refine run_post_of_eq _ _ _ _ r7 ?_
  simp only []
  obtain ⟨a8, k8, c8, r8, rj8⟩ := root_inv_intern_c g0 h0 environment cells0 g k7 _ _
    rj7 "QUOTE" fuel
    (fresh_step [atom_name_c "OR", atom_name_c "LAMBDA", atom_name_c "IF", atom_name_c "DEFUN",
        atom_name_c "DEFINE", atom_name_c "COND", atom_name_c "AND"] used
      (atom_name_c "QUOTE") (by decide) (hfr _ (by decide)))
    (by first | omega | (simp only [List.length_append, List.length_singleton]; omega))
  refine run_post_of_eq _ _ _ _ r8 ?_
  simp only []
  obtain ⟨a9, k9, c9, r9, rj9⟩ := root_inv_intern_c g0 h0 environment cells0 g k8 _ _
    rj8 "SET" fuel
    (fresh_step [atom_name_c "QUOTE", atom_name_c "OR", atom_name_c "LAMBDA", atom_name_c "IF",
        atom_name_c "DEFUN", atom_name_c "DEFINE", atom_name_c "COND", atom_name_c "AND"] used
      (atom_name_c "SET") (by decide) (hfr _ (by decide)))
    (by first | omega | (simp only [List.length_append, List.length_singleton]; omega))
  refine run_post_of_eq _ _ _ _ r9 ?_
  simp only []
  obtain ⟨a10, k10, c10, r10, rj10⟩ := root_inv_intern_c g0 h0 environment cells0 g k9 _ _
    rj9 "SETQ" fuel
    (fresh_step [atom_name_c "SET", atom_name_c "QUOTE", atom_name_c "OR", atom_name_c "LAMBDA",
        atom_name_c "IF", atom_name_c "DEFUN", atom_name_c "DEFINE", atom_name_c "COND",
        atom_name_c "AND"] used
      (atom_name_c "SETQ") (by decide) (hfr _ (by decide)))
    (by first | omega | (simp only [List.length_append, List.length_singleton]; omega))
  refine run_post_of_eq _ _ _ _ r10 ?_
  simp only []
  obtain ⟨a11, k11, c11, r11, rj11⟩ := root_inv_intern_c g0 h0 environment cells0 g k10 _ _
    rj10 "BLOCK" fuel
    (fresh_step [atom_name_c "SETQ", atom_name_c "SET", atom_name_c "QUOTE", atom_name_c "OR",
        atom_name_c "LAMBDA", atom_name_c "IF", atom_name_c "DEFUN", atom_name_c "DEFINE",
        atom_name_c "COND", atom_name_c "AND"] used
      (atom_name_c "BLOCK") (by decide) (hfr _ (by decide)))
    (by first | omega | (simp only [List.length_append, List.length_singleton]; omega))
  refine run_post_of_eq _ _ _ _ r11 ?_
  simp only []
  obtain ⟨a12, k12, c12, r12, rj12⟩ := root_inv_intern_c g0 h0 environment cells0 g k11 _ _
    rj11 "RETURN-FROM" fuel
    (fresh_step [atom_name_c "BLOCK", atom_name_c "SETQ", atom_name_c "SET", atom_name_c "QUOTE",
        atom_name_c "OR", atom_name_c "LAMBDA", atom_name_c "IF", atom_name_c "DEFUN",
        atom_name_c "DEFINE", atom_name_c "COND", atom_name_c "AND"] used
      (atom_name_c "RETURN-FROM") (by decide) (hfr _ (by decide)))
    (by first | omega | (simp only [List.length_append, List.length_singleton]; omega))
  refine run_post_of_eq _ _ _ _ r12 ?_
  simp only []
  obtain ⟨a13, k13, c13, r13, rj13⟩ := root_inv_intern_c g0 h0 environment cells0 g k12 _ _
    rj12 "RETURN" fuel
    (fresh_step [atom_name_c "RETURN-FROM", atom_name_c "BLOCK", atom_name_c "SETQ",
        atom_name_c "SET", atom_name_c "QUOTE", atom_name_c "OR", atom_name_c "LAMBDA",
        atom_name_c "IF", atom_name_c "DEFUN", atom_name_c "DEFINE", atom_name_c "COND",
        atom_name_c "AND"] used
      (atom_name_c "RETURN") (by decide) (hfr _ (by decide)))
    (by first | omega | (simp only [List.length_append, List.length_singleton]; omega))
  refine run_post_of_eq _ _ _ _ r13 ?_
  simp only []
  obtain ⟨a14, k14, c14, r14, rj14⟩ := root_inv_intern_c g0 h0 environment cells0 g k13 _ _
    rj13 "TAGBODY" fuel
    (fresh_step [atom_name_c "RETURN", atom_name_c "RETURN-FROM", atom_name_c "BLOCK",
        atom_name_c "SETQ", atom_name_c "SET", atom_name_c "QUOTE", atom_name_c "OR",
        atom_name_c "LAMBDA", atom_name_c "IF", atom_name_c "DEFUN", atom_name_c "DEFINE",
        atom_name_c "COND", atom_name_c "AND"] used
      (atom_name_c "TAGBODY") (by decide) (hfr _ (by decide)))
    (by first | omega | (simp only [List.length_append, List.length_singleton]; omega))
  refine run_post_of_eq _ _ _ _ r14 ?_
  simp only []
  obtain ⟨a15, k15, c15, r15, rj15⟩ := root_inv_intern_c g0 h0 environment cells0 g k14 _ _
    rj14 "GO" fuel
    (fresh_step [atom_name_c "TAGBODY", atom_name_c "RETURN", atom_name_c "RETURN-FROM",
        atom_name_c "BLOCK", atom_name_c "SETQ", atom_name_c "SET", atom_name_c "QUOTE",
        atom_name_c "OR", atom_name_c "LAMBDA", atom_name_c "IF", atom_name_c "DEFUN",
        atom_name_c "DEFINE", atom_name_c "COND", atom_name_c "AND"] used
      (atom_name_c "GO") (by decide) (hfr _ (by decide)))
    (by first | omega | (simp only [List.length_append, List.length_singleton]; omega))
  refine run_post_of_eq _ _ _ _ r15 ?_
  simp only []
  set G1 : lisp_globals :=
    { g with lisp_symbol_AND := a1, lisp_symbol_COND := a2, lisp_symbol_DEFINE := a3,
             lisp_symbol_DEFUN := a4, lisp_symbol_IF := a5, lisp_symbol_LAMBDA := a6,
             lisp_symbol_OR := a7, lisp_symbol_QUOTE := a8, lisp_symbol_SET := a9,
             lisp_symbol_SETQ := a10, lisp_symbol_BLOCK := a11, lisp_symbol_RETURN_FROM := a12,
             lisp_symbol_RETURN := a13, lisp_symbol_TAGBODY := a14,
             lisp_symbol_GO := a15 } with hG1
  have hcore : core_eq g
      { G1 with lisp_special_form_mappings := lisp_special_form_mappings_table G1 } :=
    ⟨rfl, rfl, rfl, rfl, rfl, rfl, rfl⟩
  have hu : ∀ n ∈ tagbody_names,
      n ∉ [atom_name_c "GO", atom_name_c "TAGBODY", atom_name_c "RETURN",
          atom_name_c "RETURN-FROM", atom_name_c "BLOCK", atom_name_c "SETQ", atom_name_c "SET",
          atom_name_c "QUOTE", atom_name_c "OR", atom_name_c "LAMBDA", atom_name_c "IF",
          atom_name_c "DEFUN", atom_name_c "DEFINE", atom_name_c "COND", atom_name_c "AND"] ++
          used := by
    intro n hn
    refine fresh_step _ used n ?_ (hfr n (List.mem_append_right _ hn))
    revert n
    decide
  have hd : ∀ x ∈ [atom_name_c "GO",
      atom_name_c "TAGBODY",
      atom_name_c "RETURN",
      atom_name_c "RETURN-FROM",
      atom_name_c "BLOCK",
      atom_name_c "SETQ",
      atom_name_c "SET",
      atom_name_c "QUOTE",
      atom_name_c "OR",
      atom_name_c "LAMBDA",
      atom_name_c "IF",
      atom_name_c "DEFUN",
      atom_name_c "DEFINE",
      atom_name_c "COND",
      atom_name_c "AND"], x ∈ special_form_names := by
    decide
  refine run_post_mono _ _ _
    (tagbody_spec g0 h0 environment cells0 _ k15 _ _
      (root_inv_core g0 h0 environment cells0 g _ k15 _ _ rj15 hcore) fuel hu
      (by simp only [List.length_append, List.length_singleton]; omega)) ?_
  rintro ⟨g', h'⟩ ⟨q1, extra', q2, q3⟩
  refine ⟨core_eq_trans _ _ _ hcore q1, extra', ?_, root_inv_mono _ _ _ _ _ _ _ _ _ ?_ q3⟩
  · rw [q2]
    simp only [List.length_append, List.length_singleton]
  · intro x hx
    rcases List.mem_append.1 hx with e | e
    · exact List.mem_append_left _ e
    · refine List.mem_append_right _ ?_
      have e2 : x ∈ [atom_name_c "GO",
          atom_name_c "TAGBODY",
          atom_name_c "RETURN",
          atom_name_c "RETURN-FROM",
          atom_name_c "BLOCK",
          atom_name_c "SETQ",
          atom_name_c "SET",
          atom_name_c "QUOTE",
          atom_name_c "OR",
          atom_name_c "LAMBDA",
          atom_name_c "IF",
          atom_name_c "DEFUN",
          atom_name_c "DEFINE",
          atom_name_c "COND",
          atom_name_c "AND"] ++ used := e
      rcases List.mem_append.1 e2 with e | e
      · exact List.mem_append_left _ (hd x e)
      · exact List.mem_append_right _ e


/-! ### `lisp_environment_add_built_in_SUBRs` -/

theorem heap_extends_of_eq (h h' : lisp_heap) (f : lisp_object_t × lisp_heap) (a : Nat)
    (x : heap_extends h f.2) (e : f = (a, h')) : heap_extends h h' := by
  subst e
  exact x

/-- Two atoms of the bootstrap heap compare as they did there. -/
theorem root_inv_key_equal (g0 : lisp_globals) (h0 : lisp_heap) (environment : Nat)
    (cells0 : List Nat) (g : lisp_globals) (h : lisp_heap) (extra : List Nat)
    (used : List (List Nat)) (ri : root_inv g0 h0 environment cells0 g h extra used)
    (a b : Nat)
    (ha : lisp_object_get_raw_value a < h0.lisp_heap_cur)
    (ha2 : lisp_object_get_raw_value a ≠ cells0.getLastD 0)
    (hb : lisp_object_get_raw_value b < h0.lisp_heap_cur)
    (hb2 : lisp_object_get_raw_value b ≠ cells0.getLastD 0) :
    atom_key_equal h a b = atom_key_equal h0 a b :=
  atom_key_equal_names h0 h a b (atom_get_value_agree h0 h a (ri.kept.same _ ha ha2))
    (atom_get_value_agree h0 h b (ri.kept.same _ hb hb2))

theorem subrs_loop_spec (g0 : lisp_globals) (h0 : lisp_heap) (environment : Nat)
    (cells0 : List Nat) (g : lisp_globals) (fuel : Nat)
    (hkey : atom_key_equal h0 g0.lisp_PNAME g0.lisp_SUBR = false)
    (hPt : lisp_object_get_tag g0.lisp_PNAME = lisp_tag_atom)
    (hP : lisp_object_get_raw_value g0.lisp_PNAME < h0.lisp_heap_cur)
    (hP2 : lisp_object_get_raw_value g0.lisp_PNAME ≠ cells0.getLastD 0)
    (hS : lisp_object_get_raw_value g0.lisp_SUBR < h0.lisp_heap_cur)
    (hS2 : lisp_object_get_raw_value g0.lisp_SUBR ≠ cells0.getLastD 0) :
    ∀ (items : List (Nat × String)) (h : lisp_heap) (extra : List Nat) (used : List (List Nat)),
      root_inv g0 h0 environment cells0 g h extra used →
      (items.map (fun item => atom_name_c item.2)).Nodup →
      (∀ n ∈ items.map (fun item => atom_name_c item.2), n ∉ used) →
      cells0.length + extra.length + items.length + 2 < fuel →
      run_post (lisp_environment_add_built_in_SUBRs_loop g fuel items h environment)
        (fun h' => ∃ extra', extra'.length = extra.length + items.length
          ∧ root_inv g0 h0 environment cells0 g h' extra'
              ((items.map (fun item => atom_name_c item.2)).reverse ++ used)) := by
  intro items
  induction items with
  | nil =>
    intro h extra used ri _ _ _
    exact ⟨h, rfl, extra, rfl, ri⟩
  | cons item rest ih =>
    intro h extra used ri hnd hfr hfuel
    have hA := ri.kept.cur
    rw [List.map_cons, List.nodup_cons] at hnd
    unfold lisp_environment_add_built_in_SUBRs_loop
    split
    rename_i a h1 e1
    obtain ⟨w1, l1, n1, x1⟩ := atom_create_c_eq h h1 ri.frame.aligned _ a e1
    split
    rename_i sn h2 e2
    have x2 := heap_extends_of_eq h1 h2 _ sn (heap_extends_string_create_c h1 _) e2
    lift_lets
    intro symbol_callable
    split
    rename_i sb h3 e3
    have x3 := heap_extends_of_eq h2 h3 _ sb (heap_extends_subr_create h2 _ _) e3
    have ri3 := root_inv_extend g0 h0 environment cells0 g _ h3 extra used
      (root_inv_extend g0 h0 environment cells0 g _ h2 extra used
        (root_inv_extend g0 h0 environment cells0 g h h1 extra used ri x1) x2) x3
    replace n1 := atom_named_extend _ _ _ _ x3 (atom_named_extend _ _ _ _ x2 n1)
    have l2 := x2.cur
    have l3 := x3.cur
    obtain ⟨k1, r1, rj1, ea, c1, _, _⟩ := root_inv_new g0 h0 environment cells0 g h3 extra used
      ri3 a g.lisp_SUBR sb fuel n1.tag n1.below
      (by rw [n1.name]
          exact hfr _ (List.mem_cons_self _ _))
      (by simp only [List.length_cons] at hfuel; omega)
    rw [n1.name] at rj1
    refine run_post_of_eq _ _ _ _ r1 ?_
    simp only []
    obtain ⟨c_1, c_2, c_3, _, _, c_6, _⟩ := rj1.core
    obtain ⟨k2, r2, rj2⟩ := root_inv_add g0 h0 environment cells0 g k1 _ _ rj1 a g.lisp_PNAME
      sn g.lisp_SUBR sb h3.lisp_heap_cur fuel ea (by omega) n1.tag (by rw [c_3]; exact hPt)
      (by rw [c_3, c_6, root_inv_key_equal g0 h0 environment cells0 g k1 _ _ rj1 _ _ hP hP2 hS
            hS2]
          exact hkey)
      (by simp only [List.length_cons] at hfuel
          simp only [List.length_append, List.length_singleton]
          omega)
    refine run_post_of_eq _ _ _ _ r2 ?_
    simp only []
    refine run_post_mono _ _ _ (ih k2 _ _ rj2 hnd.2 ?_ ?_) ?_
    · intro n hn hm
      rcases List.mem_cons.1 hm with e | e
      · rw [e] at hn
        exact hnd.1 hn
      · exact hfr n (List.mem_cons_of_mem _ hn) e
    · simp only [List.length_cons] at hfuel
      simp only [List.length_append, List.length_singleton]
      omega
    · rintro h' ⟨extra', q1, q2⟩
      refine ⟨extra', ?_, ?_⟩
      · rw [q1]
        simp only [List.length_append, List.length_cons, List.length_nil]
        omega
      · rw [List.map_cons, List.reverse_cons, List.append_assoc]
        exact q2

set_option maxRecDepth 100000 in
theorem subr_names_nodup : subr_names.Nodup := by
  decide

theorem subrs_spec (g0 : lisp_globals) (h0 : lisp_heap) (environment : Nat)
    (cells0 : List Nat) (g : lisp_globals) (fuel : Nat)
    (hkey : atom_key_equal h0 g0.lisp_PNAME g0.lisp_SUBR = false)
    (hPt : lisp_object_get_tag g0.lisp_PNAME = lisp_tag_atom)
    (hP : lisp_object_get_raw_value g0.lisp_PNAME < h0.lisp_heap_cur)
    (hP2 : lisp_object_get_raw_value g0.lisp_PNAME ≠ cells0.getLastD 0)
    (hS : lisp_object_get_raw_value g0.lisp_SUBR < h0.lisp_heap_cur)
    (hS2 : lisp_object_get_raw_value g0.lisp_SUBR ≠ cells0.getLastD 0)
    (h : lisp_heap) (extra : List Nat) (used : List (List Nat))
    (ri : root_inv g0 h0 environment cells0 g h extra used)
    (hfr : ∀ n ∈ subr_names, n ∉ used)
    (hfuel : cells0.length + extra.length + 37 < fuel) :
    run_post (lisp_environment_add_built_in_SUBRs g fuel h environment)
      (fun h' => ∃ extra', extra'.length = extra.length + 35
        ∧ root_inv g0 h0 environment cells0 g h' extra' (subr_names.reverse ++ used)) :=
  subrs_loop_spec g0 h0 environment cells0 g fuel hkey hPt hP hP2 hS hS2 lisp_built_in_SUBRs h
    extra used ri subr_names_nodup hfr hfuel


/-! ### The child frame -/

/-- The objects of a frame read the same after a change of the heap outside
them. -/
theorem frame_objects_read (g : lisp_globals) (h h' : lisp_heap) (environment : Nat)
    (cells : List Nat) (used : List (List Nat)) (W : List Nat)
    (fi : frame_inv g h environment cells used) (x : heap_changes h h' W)
    (hW : ∀ o ∈ plist_objects g h cells, lisp_object_get_raw_value o ∉ W) :
    ∀ o ∈ plist_objects g h cells,
      heap_read h' (lisp_object_get_raw_value o) = heap_read h (lisp_object_get_raw_value o) := by
  intro o ho
  apply x.same _ _ (hW o ho)
  unfold plist_objects at ho
  rcases List.mem_append.1 ho with ho | ho
  · have := (plist_wf_lt g h cells fi.wf o ho).2.1
    exact Nat.lt_of_le_of_lt (raw_value_le o) this
  · obtain ⟨c, hc, rfl⟩ := List.mem_map.1 ho
    exact fi.keys c hc

theorem heap_extends_block (g : lisp_globals) (h : lisp_heap) (k v : Nat) :
    heap_extends h (block_heap g h k v) := by
  refine ⟨by rw [block_heap_cur]; omega, by rw [block_heap_cur]; intro e; omega,
    fun a ha => block_heap_old g h k v a ha, ?_⟩
  intro hfree a ha
  rw [block_heap_cur] at ha
  rw [block_heap_read, if_neg (by omega), if_neg (by omega), if_neg (by omega),
    if_neg (by omega)]
  exact hfree a (by omega)

theorem reg_heap_changes (g : lisp_globals) (h : lisp_heap) (symbol type value last : Nat)
    (hl : last < h.lisp_heap_cur) :
    heap_changes h (reg_heap g h symbol type value last) [last] := by
  refine ⟨by rw [reg_heap_cur]; omega, by rw [reg_heap_cur]; intro e; omega, ?_, ?_⟩
  · intro a ha hn
    exact reg_heap_old g h symbol type value last a ha (by simpa using hn)
  · intro hfree a ha
    rw [reg_heap_cur] at ha
    rw [reg_heap_read, if_neg (by omega), if_neg (by omega), if_neg (by omega),
      if_neg (by omega), if_neg (by omega)]
    exact hfree a (by omega)

/-- The two frames stay what they are when the heap changes at addresses from
`B` on that are none of the child's cells, entries, keys, and not in its first
binding. -/
theorem env_inv_change (g0 : lisp_globals) (h0 : lisp_heap) (environment : Nat)
    (cells0 : List Nat) (g : lisp_globals) (h h' : lisp_heap) (extra : List Nat)
    (used : List (List Nat)) (B menv : Nat) (ccells : List Nat) (cused : List (List Nat))
    (W : List Nat)
    (ei : env_inv g0 h0 environment cells0 g h extra used B menv ccells cused)
    (x : heap_changes h h' W) (hB : ∀ w ∈ W, B + 32 ≤ w)
    (hW : ∀ o ∈ plist_objects g h ccells, lisp_object_get_raw_value o ∉ W) :
    env_inv g0 h0 environment cells0 g h' extra used B menv ccells cused := by
  have hWr : ∀ o ∈ plist_objects g h (cells0 ++ extra), lisp_object_get_raw_value o ∉ W := by
    intro o ho hw
    have := ei.below o ho
    have := hB _ hw
    omega
  refine ⟨root_inv_change g0 h0 environment cells0 g h h' extra used W ei.root x hWr ?_,
    ei.base, ?_, frame_inv_change g h h' menv ccells cused W ei.child x hW, ei.above,
    entry_at_change g ei.root.wf h h' menv ccells cused W ei.child x hW _ _ _ _ ei.parent ?_ ?_⟩
  · intro w hw
    have := hB w hw
    have := ei.base
    omega
  · rw [plist_objects_eq g h h' _
      (frame_objects_read g h h' environment _ used W ei.root.frame x hWr)]
    exact ei.below
  · intro hw
    have := hB _ hw
    omega
  · intro hw
    have := hB _ hw
    omega

theorem env_inv_extend (g0 : lisp_globals) (h0 : lisp_heap) (environment : Nat)
    (cells0 : List Nat) (g : lisp_globals) (h h' : lisp_heap) (extra : List Nat)
    (used : List (List Nat)) (B menv : Nat) (ccells : List Nat) (cused : List (List Nat))
    (ei : env_inv g0 h0 environment cells0 g h extra used B menv ccells cused)
    (x : heap_extends h h') :
    env_inv g0 h0 environment cells0 g h' extra used B menv ccells cused :=
  env_inv_change g0 h0 environment cells0 g h h' extra used B menv ccells cused []
    ei (heap_changes_of_extends h h' x) (fun _ hw => absurd hw (List.not_mem_nil _))
    (fun _ _ hw => absurd hw (List.not_mem_nil _))

theorem core_objects (g g' : lisp_globals) (hc : core_eq g g') (h : lisp_heap)
    (cells : List Nat) : plist_objects g' h cells = plist_objects g h cells := by
  unfold plist_objects
  rw [core_map_car g g' hc]
  congr 1
  exact List.map_congr_left (fun c _ => by
    show lisp_cell_car g' h (lisp_cell_car g' h c) = lisp_cell_car g h (lisp_cell_car g h c)
    rw [(core_car g g' hc h c).1, (core_car g g' hc h _).1])

theorem core_entry_at (g g' : lisp_globals) (hc : core_eq g g') (h : lisp_heap)
    (cells : List Nat) (s b t v : Nat) (ea : entry_at g h cells s b t v) :
    entry_at g' h cells s b t v :=
  ⟨by rw [core_assoc g g' hc]; exact ea.assoc, ea.pair, by rw [hc.2.1]; exact ea.attr, ea.entry,
    ea.aligned, ea.below, by rw [core_objects g g' hc]; exact ea.apart⟩

theorem env_inv_core (g0 : lisp_globals) (h0 : lisp_heap) (environment : Nat)
    (cells0 : List Nat) (g g' : lisp_globals) (h : lisp_heap) (extra : List Nat)
    (used : List (List Nat)) (B menv : Nat) (ccells : List Nat) (cused : List (List Nat))
    (ei : env_inv g0 h0 environment cells0 g h extra used B menv ccells cused)
    (hc : core_eq g g') :
    env_inv g0 h0 environment cells0 g' h extra used B menv ccells cused := by
  refine ⟨root_inv_core g0 h0 environment cells0 g g' h extra used ei.root hc, ei.base, ?_,
    core_frame_inv g g' hc h menv ccells cused ei.child, ei.above, ?_⟩
  · rw [core_objects g g' hc]
    exact ei.below
  · have := core_entry_at g g' hc h ccells _ _ _ _ ei.parent
    rw [hc.2.2.2.2.2.2, hc.2.2.2.1]
    exact this

/-- Registering in the child a symbol it does not have. -/
theorem env_inv_new (g0 : lisp_globals) (h0 : lisp_heap) (environment : Nat)
    (cells0 : List Nat) (g : lisp_globals) (h : lisp_heap) (extra : List Nat)
    (used : List (List Nat)) (B menv : Nat) (ccells : List Nat) (cused : List (List Nat))
    (ei : env_inv g0 h0 environment cells0 g h extra used B menv ccells cused)
    (symbol type value : Nat) (fuel : Nat)
    (hs : lisp_object_get_tag symbol = lisp_tag_atom)
    (hsr : lisp_object_get_raw_value symbol < h.lisp_heap_cur)
    (hsB : B + 32 ≤ lisp_object_get_raw_value symbol)
    (hn : c_string (lisp_atom_get_value h symbol) ∉ cused)
    (hfuel : ccells.length + 2 < fuel) :
    ∃ h', lisp_environment_set_symbol_value g fuel h menv symbol type value g.lisp_NIL
          = .ok (value, h')
      ∧ env_inv g0 h0 environment cells0 g h' extra used B menv
          (ccells ++ [h.lisp_heap_cur + 48]) (c_string (lisp_atom_get_value h symbol) :: cused)
      ∧ entry_at g h' (ccells ++ [h.lisp_heap_cur + 48]) symbol h.lisp_heap_cur type value
      ∧ h'.lisp_heap_cur = h.lisp_heap_cur + 64 := by
  have hg := ei.root.wf
  obtain ⟨r1, r2⟩ := reg_new g hg h menv symbol type value ccells cused fuel ei.child hs hsr hn
    hfuel
  have hne := plist_spine_ne_nil g h menv ccells ei.child.spine
  have hlm := getLastD_mem ccells hne 0
  have hllt := (plist_wf_lt g h ccells ei.child.wf _ (List.mem_append_left _ hlm)).2.1
  have hlB := ei.above _ hlm
  have x := reg_heap_changes g h symbol type value (ccells.getLastD 0) hllt
  have hWr : ∀ o ∈ plist_objects g h (cells0 ++ extra),
      lisp_object_get_raw_value o ∉ [ccells.getLastD 0] := by
    intro o ho hw
    simp only [List.mem_singleton] at hw
    have := ei.below o ho
    omega
  have hpb := ei.parent.below
  refine ⟨_, r1, ⟨root_inv_change g0 h0 environment cells0 g h _ extra used _ ei.root x hWr ?_,
    ei.base, ?_, r2, ?_, ?_⟩,
    reg_new_entry g hg h menv symbol type value ccells cused ei.child hsr hn, rfl⟩
  · intro w hw
    simp only [List.mem_singleton] at hw
    have := ei.base
    omega
  · rw [plist_objects_eq g h _ _
      (frame_objects_read g h _ environment _ used _ ei.root.frame x hWr)]
    exact ei.below
  · intro (c : Nat) hc
    rcases List.mem_append.1 hc with e | e
    · exact ei.above c e
    · simp only [List.mem_singleton] at e
      have e' : c = h.lisp_heap_cur + 48 := e
      omega
  · exact entry_at_reg_new g hg h menv symbol type value ccells cused ei.child _ _ _ _ ei.parent
      (by omega) (by omega)

/-- Adding an attribute to a tracked entry of the child. -/
theorem env_inv_add (g0 : lisp_globals) (h0 : lisp_heap) (environment : Nat)
    (cells0 : List Nat) (g : lisp_globals) (h : lisp_heap) (extra : List Nat)
    (used : List (List Nat)) (B menv : Nat) (ccells : List Nat) (cused : List (List Nat))
    (ei : env_inv g0 h0 environment cells0 g h extra used B menv ccells cused)
    (symbol type value t0 v0 b : Nat) (fuel : Nat)
    (ea : entry_at g h ccells symbol b t0 v0) (hb : B + 16 ≤ b)
    (hs : lisp_object_get_tag symbol = lisp_tag_atom)
    (ht : lisp_object_get_tag type = lisp_tag_atom)
    (hne : atom_key_equal h type t0 = false)
    (hfuel : ccells.length + 2 < fuel) :
    ∃ h', lisp_environment_set_symbol_value g fuel h menv symbol type value g.lisp_NIL
          = .ok (value, h')
      ∧ env_inv g0 h0 environment cells0 g h' extra used B menv ccells cused := by
  obtain ⟨h', r1, r2⟩ := reg_add g ei.root.wf h menv symbol type value t0 v0 ccells cused b fuel
    ei.child ea hs ht hne hfuel
  refine ⟨h', r1, env_inv_change g0 h0 environment cells0 g h h' extra used B menv ccells cused
    [b + 16] ei r2 ?_ ?_⟩
  · intro w hw
    simp only [List.mem_singleton] at hw
    omega
  · intro o ho
    simp only [List.mem_singleton]
    exact (ea.apart o ho).2


/-! ### `lisp_environment_create` on the root frame -/

/-- The child `lisp_environment_create` makes of the root frame. -/
theorem child_create (g0 : lisp_globals) (h0 : lisp_heap) (environment : Nat)
    (cells0 : List Nat) (g : lisp_globals) (h : lisp_heap) (extra : List Nat)
    (used : List (List Nat)) (ri : root_inv g0 h0 environment cells0 g h extra used)
    (cused : List (List Nat))
    (hPr : lisp_object_get_raw_value g0.lisp_SI_PARENT_ENVIRONMENT < h0.lisp_heap_cur)
    (hP2 : lisp_object_get_raw_value g0.lisp_SI_PARENT_ENVIRONMENT ≠ cells0.getLastD 0)
    (hPn : c_string (lisp_atom_get_value h0 g0.lisp_SI_PARENT_ENVIRONMENT) ∈ cused) :
    lisp_environment_create g h environment
        = .ok (h.lisp_heap_cur + 48, block_heap g h g.lisp_SI_PARENT_ENVIRONMENT environment)
      ∧ env_inv g0 h0 environment cells0 g
          (block_heap g h g.lisp_SI_PARENT_ENVIRONMENT environment) extra used
          h.lisp_heap_cur (h.lisp_heap_cur + 48) [h.lisp_heap_cur + 48] cused := by
  have hg := ri.wf
  have hal := ri.frame.aligned
  have hA := ri.kept.cur
  have hcP : g.lisp_SI_PARENT_ENVIRONMENT = g0.lisp_SI_PARENT_ENVIRONMENT := ri.core.2.2.2.2.2.2
  have x := heap_extends_block g h g.lisp_SI_PARENT_ENVIRONMENT environment
  have ri1 := root_inv_extend g0 h0 environment cells0 g h _ extra used ri x
  have hPlt : lisp_object_get_raw_value g.lisp_SI_PARENT_ENVIRONMENT < h.lisp_heap_cur := by
    rw [hcP]; omega
  have b0 : heap_read (block_heap g h g.lisp_SI_PARENT_ENVIRONMENT environment) h.lisp_heap_cur
      = some (lisp_record.cell g.lisp_APVAL environment) := by
    rw [block_heap_read, if_neg (by omega), if_neg (by omega), if_neg (by omega), if_pos rfl]
  have b16 : heap_read (block_heap g h g.lisp_SI_PARENT_ENVIRONMENT environment)
      (h.lisp_heap_cur + 16) = some (lisp_record.cell h.lisp_heap_cur g.lisp_NIL) := by
    rw [block_heap_read, if_neg (by omega), if_neg (by omega), if_pos rfl]
  have b32 : heap_read (block_heap g h g.lisp_SI_PARENT_ENVIRONMENT environment)
      (h.lisp_heap_cur + 32)
      = some (lisp_record.cell g.lisp_SI_PARENT_ENVIRONMENT (h.lisp_heap_cur + 16)) := by
    rw [block_heap_read, if_neg (by omega), if_pos rfl]
  have b48 : heap_read (block_heap g h g.lisp_SI_PARENT_ENVIRONMENT environment)
      (h.lisp_heap_cur + 48) = some (lisp_record.cell (h.lisp_heap_cur + 32) g.lisp_NIL) := by
    rw [block_heap_read, if_pos rfl]
  have a32 : (h.lisp_heap_cur + 32) % 16 = 0 := by omega
  have a48 : (h.lisp_heap_cur + 48) % 16 = 0 := by omega
  obtain ⟨c48, d48⟩ := lisp_cell_car_cell g hg _ _ _ _ a48 b48
  obtain ⟨c32, d32⟩ := lisp_cell_car_cell g hg _ _ _ _ a32 b32
  have hassoc : plist_assoc g (block_heap g h g.lisp_SI_PARENT_ENVIRONMENT environment)
      g.lisp_SI_PARENT_ENVIRONMENT [h.lisp_heap_cur + 48] = some (h.lisp_heap_cur + 32) := by
    unfold plist_assoc
    rw [c48, c32, atom_key_equal_self]
    rfl
  have hname : lisp_atom_get_value (block_heap g h g.lisp_SI_PARENT_ENVIRONMENT environment)
      g.lisp_SI_PARENT_ENVIRONMENT = lisp_atom_get_value h0 g0.lisp_SI_PARENT_ENVIRONMENT := by
    have := atom_get_value_agree h0 _ g0.lisp_SI_PARENT_ENVIRONMENT (ri1.kept.same _ hPr hP2)
    rw [← hcP] at this ⊢
    exact this
  have hobjs : ∀ o ∈ plist_objects g (block_heap g h g.lisp_SI_PARENT_ENVIRONMENT environment)
      [h.lisp_heap_cur + 48],
      o = h.lisp_heap_cur + 48 ∨ o = h.lisp_heap_cur + 32 ∨ o = g.lisp_SI_PARENT_ENVIRONMENT := by
    intro o ho
    unfold plist_objects at ho
    simp only [List.map_cons, List.map_nil, c48, c32, List.cons_append, List.nil_append,
      List.mem_cons, List.mem_singleton, List.not_mem_nil, or_false] at ho
    exact ho
  refine ⟨environment_create_spec g h environment, ri1, hA, ?_, ⟨?_, ?_, ?_, ?_, ri1.frame.aligned,
    ri1.frame.free⟩, ?_, ⟨hassoc, b0, b16, b32, hal, by rw [block_heap_cur], ?_⟩⟩
  · rw [plist_objects_eq g h _ _ (fun o ho => by
      apply x.same
      unfold plist_objects at ho
      rcases List.mem_append.1 ho with ho | ho
      · have := (plist_wf_lt g h _ ri.frame.wf o ho).2.1
        exact Nat.lt_of_le_of_lt (raw_value_le o) this
      · obtain ⟨c, hc, rfl⟩ := List.mem_map.1 ho
        exact ri.frame.keys c hc)]
    intro o ho
    unfold plist_objects at ho
    rcases List.mem_append.1 ho with ho | ho
    · have := (plist_wf_lt g h _ ri.frame.wf o ho).2.1
      exact Nat.lt_of_le_of_lt (raw_value_le o) this
    · obtain ⟨c, hc, rfl⟩ := List.mem_map.1 ho
      exact ri.frame.keys c hc
  · unfold plist_spine
    simp [d48]
  · unfold plist_wf
    simp only [List.map_cons, List.map_nil, c48, Bool.and_eq_true, decide_eq_true_eq]
    refine ⟨⟨?_, ?_⟩, ?_⟩
    · apply cells_allocated_of
      intro c hc
      simp only [List.mem_singleton] at hc
      subst hc
      refine ⟨a48, by rw [block_heap_cur]; omega, ?_⟩
      rw [get_value_of_read _ _ _ _ (by rw [raw_value_aligned _ a48]; exact b48)]
      rfl
    · apply cells_allocated_of
      intro c hc
      simp only [List.mem_singleton] at hc
      subst hc
      refine ⟨a32, by rw [block_heap_cur]; omega, ?_⟩
      rw [get_value_of_read _ _ _ _ (by rw [raw_value_aligned _ a32]; exact b32)]
      rfl
    · simp
  · intro c hc
    simp only [List.mem_singleton] at hc
    rw [hc, c48, c32, block_heap_cur]
    omega
  · intro c hc
    simp only [List.mem_singleton] at hc
    rw [hc, c48, c32, hname]
    exact hPn
  · intro (c : Nat) hc
    simp only [List.mem_singleton] at hc
    have hc' : c = h.lisp_heap_cur + 48 := hc
    omega
  · intro o ho
    rcases hobjs o ho with e | e | e
    · rw [e, raw_value_aligned _ a48]; omega
    · rw [e, raw_value_aligned _ a32]; omega
    · rw [e]; omega


/-! ### `lisp_environment_add_built_in_streams` -/

theorem heap_extends_write (h h' : lisp_heap) (x : heap_extends h h') (a : Nat)
    (r : lisp_record) (ha : h.lisp_heap_cur ≤ a) (ha2 : a < h'.lisp_heap_cur) :
    heap_extends h (heap_write h' a r) := by
  refine ⟨x.cur, x.aligned, ?_, ?_⟩
  · intro b hb
    rw [heap_read_write, if_neg (by omega)]
    exact x.same b hb
  · intro hfree b hb
    rw [heap_write_cur] at hb
    rw [heap_read_write, if_neg (by omega)]
    exact x.free hfree b hb

/-- What `lisp_stream_functions_create` gives. -/
theorem stream_functions_create_eq (h h' : lisp_heap) (hal : h.lisp_heap_cur % 16 = 0)
    (backend size : Nat) (contents : lisp_record) (functions : Nat)
    (e : lisp_stream_functions_create h backend size contents = (functions, h')) :
    (∃ metadata, heap_read h' (lisp_object_get_raw_value functions)
        = some (lisp_record.stream_functions metadata backend))
      ∧ heap_extends h h' := by
  obtain ⟨_, a2, _, _, a5, a6⟩ := allocate_object h hal lisp_tag_interior (by decide) 56
    (lisp_record.stream_functions 0 backend)
  have x1 := heap_extends_allocate h lisp_tag_interior 56 (lisp_record.stream_functions 0 backend)
  generalize hr1 : lisp_object_allocate h lisp_tag_interior 56
    (lisp_record.stream_functions 0 backend) = r1 at a2 a5 a6 x1
  have x2 := heap_extends_allocate r1.2 lisp_tag_interior size contents
  generalize hr2 : lisp_object_allocate r1.2 lisp_tag_interior size contents = r2 at x2
  have e' : lisp_stream_functions_create h backend size contents
      = (r1.1, heap_write r2.2 (lisp_object_get_raw_value r1.1)
          (lisp_record.stream_functions r2.1 backend)) := by
    unfold lisp_stream_functions_create lisp_interior_create
    simp only [hr1, hr2]
  rw [e'] at e
  simp only [Prod.mk.injEq] at e
  obtain ⟨e1, e2⟩ := e
  subst e1 e2
  refine ⟨⟨r2.1, by rw [heap_read_write, if_pos rfl]⟩, ?_⟩
  have := x2.cur
  exact heap_extends_write h r2.2 (heap_extends_trans _ _ _ x1 x2) _ _ (by omega) (by omega)

/-- Creating a stdio stream and opening it. -/
theorem stream_create_open (g : lisp_globals) (hg : globals_wf g) (h h1 : lisp_heap)
    (hal : h.lisp_heap_cur % 16 = 0) (hfree : heap_bounded h)
    (functions metadata backend stream readable writable : Nat)
    (hf : heap_read h (lisp_object_get_raw_value functions)
      = some (lisp_record.stream_functions metadata backend))
    (hb : backend = backend_stdio ∨ backend = backend_stdio_pair)
    (e : lisp_stream_create h functions = (stream, h1)) :
    ∃ h2, lisp_stream_open g h1 stream readable writable = .ok (stream, h2)
      ∧ heap_extends h h2 := by
  obtain ⟨a1, a2, a3, a4, a5, a6⟩ := allocate_object h hal lisp_tag_stream (by decide) 16
    (lisp_record.stream functions 0)
  have x1 := heap_extends_allocate h lisp_tag_stream 16 (lisp_record.stream functions 0)
  unfold lisp_stream_create at e
  rw [e] at a1 a2 a3 a4 a5 a6 x1
  simp only at a1 a2 a3 a4 a5 a6 x1
  have hne : lisp_object_get_raw_value functions ≠ h.lisp_heap_cur := by
    intro c
    rw [c, hfree _ (Nat.le_refl _)] at hf
    cases hf
  have gv : lisp_stream_get_value h1 stream = some (functions, 0) := by
    unfold lisp_stream_get_value
    rw [a2, a3]
  have gf : lisp_stream_get_functions h1 stream = some (metadata, backend) := by
    unfold lisp_stream_get_functions
    rw [gv]
    simp only
    rw [a4 _ hne, hf]
  have hbc : backend ≠ backend_charbuf := by
    rcases hb with c | c <;> rw [c] <;> decide
  have hbo : lisp_stream_backend_open g h1 stream readable writable = .ok (stream, h1) := by
    unfold lisp_stream_backend_open
    rw [gf]
    simp only
    rw [if_neg hbc, if_pos hb]
  have hsn : stream ≠ g.lisp_NIL := by
    intro c
    have := hg.NIL_atom
    rw [← c, a1] at this
    revert this
    decide
  refine ⟨heap_write h1 (lisp_object_get_raw_value stream)
    (lisp_record.stream functions
      (if writable = g.lisp_T then
        (if readable = g.lisp_T then 0 ||| lisp_stream_flags_readable else 0)
          ||| lisp_stream_flags_writable
       else if readable = g.lisp_T then 0 ||| lisp_stream_flags_readable else 0)), ?_,
    heap_extends_write h h1 x1 (lisp_object_get_raw_value stream) _ (by omega) (by omega)⟩
  unfold lisp_stream_open
  rw [hbo]
  simp only [bind, Except.bind, ne_eq, hsn, not_false_eq_true, ↓reduceIte, gv, pure, Except.pure]

/-- The atom `lisp_atom_create` makes of the string `lisp_string_create_c`
made of a text without `NUL`. -/
theorem atom_create_string_eq (h h3 h4 : lisp_heap) (hal : h.lisp_heap_cur % 16 = 0)
    (text : List Nat) (hnn : ∀ x ∈ text, x ≠ 0) (sn atom : Nat)
    (e3 : lisp_string_create_c h text = (sn, h3)) (e4 : lisp_atom_create h3 sn = (atom, h4)) :
    lisp_object_get_raw_value atom = h3.lisp_heap_cur
      ∧ h3.lisp_heap_cur < h4.lisp_heap_cur
      ∧ atom_named h4 atom
          ((text.map (fun c => lisp_char_create (word_of_c_char c))).map
            (fun char_object => c_upcase (c_char_of_word (lisp_char_get_value char_object))))
      ∧ heap_extends h h3 ∧ heap_extends h3 h4 := by
  obtain ⟨s1, _, s3, _⟩ := string_create_c_chars h hal text hnn
  have x3 := heap_extends_string_create_c h text
  rw [e3] at s1 s3 x3
  simp only at s1 s3 x3
  obtain ⟨a1, a2, a3, _, a5, _⟩ := allocate_object h3 s3 lisp_tag_atom (by decide)
    ((lisp_string_get_value h3 sn).2.2 + 1)
    (lisp_record.atom ((lisp_string_chars h3 sn).map
      (fun char_object => c_upcase (c_char_of_word (lisp_char_get_value char_object)))))
  have x4 := heap_extends_atom_create h3 sn
  unfold lisp_atom_create at e4
  simp only at e4
  rw [e4] at a1 a2 a3 a5
  rw [show lisp_atom_create h3 sn = (atom, h4) from by unfold lisp_atom_create; exact e4] at x4
  simp only at a1 a2 a3 a5 x4
  refine ⟨a2, a5, ⟨a1, by omega, ?_⟩, x3, x4⟩
  unfold lisp_atom_get_value
  rw [a2, a3, s1]


/-- One block of `lisp_environment_add_built_in_streams`: the stream is
registered in the child, the root frame stays what it is. -/
theorem stream_spec (g0 : lisp_globals) (h0 : lisp_heap) (environment : Nat)
    (cells0 : List Nat) (g : lisp_globals) (h : lisp_heap) (extra : List Nat)
    (used : List (List Nat)) (B menv : Nat) (ccells : List Nat) (cused : List (List Nat))
    (ei : env_inv g0 h0 environment cells0 g h extra used B menv ccells cused)
    (functions metadata backend readable writable : Nat) (name : String) (fuel : Nat)
    (hf : heap_read h (lisp_object_get_raw_value functions)
      = some (lisp_record.stream_functions metadata backend))
    (hb : backend = backend_stdio ∨ backend = backend_stdio_pair)
    (hnn : ∀ x ∈ c_str name, x ≠ 0)
    (hn : atom_name_s name ∉ cused)
    (hkey : atom_key_equal h0 g0.lisp_APVAL g0.lisp_PNAME = false)
    (hP : lisp_object_get_raw_value g0.lisp_PNAME < h0.lisp_heap_cur)
    (hP2 : lisp_object_get_raw_value g0.lisp_PNAME ≠ cells0.getLastD 0)
    (hA : lisp_object_get_raw_value g0.lisp_APVAL < h0.lisp_heap_cur)
    (hA2 : lisp_object_get_raw_value g0.lisp_APVAL ≠ cells0.getLastD 0)
    (hfuel : ccells.length + 3 < fuel) :
    run_post (lisp_environment_add_built_in_stream g fuel h menv functions readable writable
        name)
      (fun r => ∃ c, env_inv g0 h0 environment cells0 g r.2 extra used B menv (ccells ++ [c])
        (atom_name_s name :: cused)) := by
  have hg := ei.root.wf
  have hpb := ei.parent.below
  unfold lisp_environment_add_built_in_stream
  split
  rename_i stream h1 e1
  obtain ⟨h2, r2, x2⟩ := stream_create_open g hg h h1 ei.child.aligned ei.child.free functions
    metadata backend stream readable writable hf hb e1
  have ei2 := env_inv_extend g0 h0 environment cells0 g h h2 extra used B menv ccells cused ei x2
  refine run_post_of_eq _ _ _ _ r2 ?_
  simp only []
  rcases e3 : lisp_string_create_c h2 (c_str name) with ⟨sn, h3⟩
  simp only []
  rcases e4 : lisp_atom_create h3 sn with ⟨atom, h4⟩
  simp only []
  obtain ⟨w4, l4, n4, x3, x4⟩ := atom_create_string_eq h2 h3 h4 ei2.child.aligned (c_str name) hnn
    sn atom e3 e4
  have ei4 := env_inv_extend g0 h0 environment cells0 g h3 h4 extra used B menv ccells cused
    (env_inv_extend g0 h0 environment cells0 g h2 h3 extra used B menv ccells cused ei2 x3) x4
  have l2 := x2.cur
  have l3 := x3.cur
  obtain ⟨h5, r5, ei5, ea5, c5⟩ := env_inv_new g0 h0 environment cells0 g h4 extra used B menv
    ccells cused ei4 atom g.lisp_PNAME sn fuel n4.tag n4.below (by omega)
    (by rw [n4.name]; exact hn) (by omega)
  rw [n4.name] at ei5
  refine run_post_of_eq _ _ _ _ r5 ?_
  simp only []
  obtain ⟨_, _, c_3, c_4, _, _, _⟩ := ei5.root.core
  obtain ⟨h6, r6, ei6⟩ := env_inv_add g0 h0 environment cells0 g h5 extra used B menv _ _ ei5
    atom g.lisp_APVAL stream g.lisp_PNAME sn h4.lisp_heap_cur fuel ea5 (by omega) n4.tag
    hg.APVAL_atom
    (by rw [c_3, c_4, root_inv_key_equal g0 h0 environment cells0 g h5 _ _ ei5.root _ _ hA hA2 hP
          hP2]
        exact hkey)
    (by simp only [List.length_append, List.length_singleton]; omega)
  refine run_post_of_eq _ _ _ _ r6 ?_
  simp only []
  exact run_post_pure _ _ ⟨_, ei6⟩

set_option maxRecDepth 100000 in
/-- The three streams are registered in the child; the root frame stays what
it is. -/
theorem streams_spec (g0 : lisp_globals) (h0 : lisp_heap) (environment : Nat)
    (cells0 : List Nat) (g : lisp_globals) (h : lisp_heap) (extra : List Nat)
    (used : List (List Nat)) (B menv : Nat) (ccells : List Nat)
    (ei : env_inv g0 h0 environment cells0 g h extra used B menv ccells bootstrap_names)
    (fuel : Nat)
    (hkey : atom_key_equal h0 g0.lisp_APVAL g0.lisp_PNAME = false)
    (hP : lisp_object_get_raw_value g0.lisp_PNAME < h0.lisp_heap_cur)
    (hP2 : lisp_object_get_raw_value g0.lisp_PNAME ≠ cells0.getLastD 0)
    (hA : lisp_object_get_raw_value g0.lisp_APVAL < h0.lisp_heap_cur)
    (hA2 : lisp_object_get_raw_value g0.lisp_APVAL ≠ cells0.getLastD 0)
    (hfuel : ccells.length + 5 < fuel) :
    run_post (lisp_environment_add_built_in_streams g fuel h menv)
      (fun r => core_eq g r.1 ∧ ∃ cc cu,
        env_inv g0 h0 environment cells0 r.1 r.2 extra used B menv cc cu
          ∧ cc.length = ccells.length + 3) := by
  unfold lisp_environment_add_built_in_streams
  split
  rename_i f1 h1 e1
  obtain ⟨⟨m1, hf1⟩, x1⟩ := stream_functions_create_eq h h1 ei.child.aligned _ _ _ f1 e1
  have ei1 := env_inv_extend g0 h0 environment cells0 g h h1 extra used B menv ccells _ ei x1
  refine run_post_bind _ _ _ _
    (stream_spec g0 h0 environment cells0 g h1 extra used B menv ccells _ ei1 f1 m1 _ g.lisp_T
      g.lisp_T "*TERMINAL-IO*" fuel hf1 (Or.inr rfl) (by decide) (by decide) hkey hP hP2 hA
      hA2 (by omega)) ?_
  rintro ⟨a1, k1⟩ ⟨c1, ej1⟩
  simp only [] at ej1 ⊢
  have hc1 : core_eq g { g with lisp_TERMINAL_IO_atom := a1 } := ⟨rfl, rfl, rfl, rfl, rfl, rfl, rfl⟩
  have ek1 := env_inv_core g0 h0 environment cells0 g _ k1 extra used B menv _ _ ej1 hc1
  rcases e2 : lisp_stream_functions_stdio k1 0 with ⟨f2, h2⟩
  simp only []
  obtain ⟨⟨m2, hf2⟩, x2⟩ := stream_functions_create_eq k1 h2 ek1.child.aligned _ _ _ f2 e2
  have ei2 := env_inv_extend g0 h0 environment cells0 _ k1 h2 extra used B menv _ _ ek1 x2
  refine run_post_bind _ _ _ _
    (stream_spec g0 h0 environment cells0 _ h2 extra used B menv _ _ ei2 f2 m2 _ g.lisp_T
      g.lisp_NIL "*STANDARD-INPUT*" fuel hf2 (Or.inl rfl) (by decide) (by decide) hkey hP hP2
      hA hA2 (by simp only [List.length_append, List.length_singleton]; omega)) ?_
  rintro ⟨a2, k2⟩ ⟨c2, ej2⟩
  simp only [] at ej2 ⊢
  have hc2 : core_eq { g with lisp_TERMINAL_IO_atom := a1 }
      { g with lisp_TERMINAL_IO_atom := a1, lisp_STANDARD_INPUT := a2 } :=
    ⟨rfl, rfl, rfl, rfl, rfl, rfl, rfl⟩
  have ek2 := env_inv_core g0 h0 environment cells0 _ _ k2 extra used B menv _ _ ej2 hc2
  rcases e3 : lisp_stream_functions_stdio k2 1 with ⟨f3, h3⟩
  simp only []
  obtain ⟨⟨m3, hf3⟩, x3⟩ := stream_functions_create_eq k2 h3 ek2.child.aligned _ _ _ f3 e3
  have ei3 := env_inv_extend g0 h0 environment cells0 _ k2 h3 extra used B menv _ _ ek2 x3
  refine run_post_bind _ _ _ _
    (stream_spec g0 h0 environment cells0 _ h3 extra used B menv _ _ ei3 f3 m3 _ g.lisp_NIL
      g.lisp_T "*STANDARD-OUTPUT*" fuel hf3 (Or.inl rfl) (by decide) (by decide) hkey hP hP2
      hA hA2 (by simp only [List.length_append, List.length_singleton]; omega)) ?_
  rintro ⟨a3, k3⟩ ⟨c3, ej3⟩
  simp only [] at ej3 ⊢
  have hc3 : core_eq g
      { g with lisp_TERMINAL_IO_atom := a1, lisp_STANDARD_INPUT := a2,
               lisp_STANDARD_OUTPUT := a3 } :=
    ⟨rfl, rfl, rfl, rfl, rfl, rfl, rfl⟩
  have hc3' : core_eq { g with lisp_TERMINAL_IO_atom := a1, lisp_STANDARD_INPUT := a2 }
      { g with lisp_TERMINAL_IO_atom := a1, lisp_STANDARD_INPUT := a2,
               lisp_STANDARD_OUTPUT := a3 } :=
    ⟨rfl, rfl, rfl, rfl, rfl, rfl, rfl⟩
  exact run_post_pure _ _ ⟨hc3, _, _,
    env_inv_core g0 h0 environment cells0 _ _ k3 extra used B menv _ _ ej3 hc3',
    by simp only [List.length_append, List.length_singleton]⟩


/-! ### Lookups in the finished root frame -/

theorem plist_assoc_append_left (g : lisp_globals) (h : lisp_heap) (s e : Nat) (l2 : List Nat) :
    ∀ (l1 : List Nat), plist_assoc g h s l1 = some e → plist_assoc g h s (l1 ++ l2) = some e := by
  intro l1
  induction l1 with
  | nil => intro he; cases he
  | cons c cs ih =>
    intro he
    rw [List.cons_append]
    unfold plist_assoc at he ⊢
    split
    · rename_i hk
      rw [if_pos hk] at he
      exact he
    · rename_i hk
      rw [if_neg hk] at he
      exact ih he

/-- What the root frame keeps of the bootstrap heap: the records below its
`lisp_heap_cur`, but for the last cell of the frame. -/
theorem root_inv_read (g0 : lisp_globals) (h0 : lisp_heap) (environment : Nat)
    (cells0 : List Nat) (g : lisp_globals) (h : lisp_heap) (extra : List Nat)
    (used : List (List Nat)) (ri : root_inv g0 h0 environment cells0 g h extra used)
    (o : Nat) (ho : lisp_object_get_raw_value o < h0.lisp_heap_cur
      ∧ lisp_object_get_raw_value o ≠ cells0.getLastD 0) :
    heap_read h (lisp_object_get_raw_value o) = heap_read h0 (lisp_object_get_raw_value o) :=
  ri.kept.same _ ho.1 ho.2

/-- A lookup in the cells of the bootstrap frame finds what it found in the
bootstrap heap. -/
theorem root_inv_assoc (g0 : lisp_globals) (h0 : lisp_heap) (environment : Nat)
    (cells0 : List Nat) (g : lisp_globals) (h : lisp_heap) (extra : List Nat)
    (used : List (List Nat)) (ri : root_inv g0 h0 environment cells0 g h extra used)
    (hcells : ∀ c ∈ cells0, c ≠ cells0.getLastD 0 →
      lisp_object_get_raw_value c < h0.lisp_heap_cur
        ∧ lisp_object_get_raw_value c ≠ cells0.getLastD 0)
    (hobj : ∀ o ∈ cells0.map (lisp_cell_car g0 h0)
        ++ cells0.map (fun c => lisp_cell_car g0 h0 (lisp_cell_car g0 h0 c)),
      lisp_object_get_raw_value o < h0.lisp_heap_cur
        ∧ lisp_object_get_raw_value o ≠ cells0.getLastD 0)
    (s : Nat) (hs : lisp_object_get_raw_value s < h0.lisp_heap_cur
      ∧ lisp_object_get_raw_value s ≠ cells0.getLastD 0) :
    plist_assoc g h s cells0 = plist_assoc g0 h0 s cells0 := by
  rw [← core_assoc g0 g ri.core h0 s cells0]
  apply plist_assoc_congr
  intro c hc
  have hcar : lisp_cell_car g h c = lisp_cell_car g h0 c := by
    by_cases e : c = cells0.getLastD 0
    · rw [e]
      exact ri.kept.car
    · exact (lisp_cell_car_congr g h0 h c
        (root_inv_read g0 h0 environment cells0 g h extra used ri c (hcells c hc e))).1
  have he := hobj (lisp_cell_car g0 h0 c)
    (List.mem_append_left _ (List.mem_map_of_mem _ hc))
  have hk := hobj (lisp_cell_car g0 h0 (lisp_cell_car g0 h0 c))
    (List.mem_append_right _
      (List.mem_map_of_mem (fun c => lisp_cell_car g0 h0 (lisp_cell_car g0 h0 c)) hc))
  rw [← (core_car g0 g ri.core h0 c).1] at he hk
  rw [← (core_car g0 g ri.core h0 _).1] at hk
  refine ⟨hcar, (lisp_cell_car_congr g h0 h _
    (root_inv_read g0 h0 environment cells0 g h extra used ri _ he)).1, ?_⟩
  exact atom_key_equal_names h0 h s _
    (atom_get_value_agree h0 h s (root_inv_read g0 h0 environment cells0 g h extra used ri s hs))
    (atom_get_value_agree h0 h _
      (root_inv_read g0 h0 environment cells0 g h extra used ri _ hk))

/-- The entry of a bootstrap symbol and its attribute list are in the finished
root frame what they were in the bootstrap heap. -/
theorem root_inv_entry (g0 : lisp_globals) (h0 : lisp_heap) (environment : Nat)
    (cells0 : List Nat) (g : lisp_globals) (h : lisp_heap) (extra : List Nat)
    (used : List (List Nat)) (ri : root_inv g0 h0 environment cells0 g h extra used)
    (hcells : ∀ c ∈ cells0, c ≠ cells0.getLastD 0 →
      lisp_object_get_raw_value c < h0.lisp_heap_cur
        ∧ lisp_object_get_raw_value c ≠ cells0.getLastD 0)
    (hobj : ∀ o ∈ cells0.map (lisp_cell_car g0 h0)
        ++ cells0.map (fun c => lisp_cell_car g0 h0 (lisp_cell_car g0 h0 c)),
      lisp_object_get_raw_value o < h0.lisp_heap_cur
        ∧ lisp_object_get_raw_value o ≠ cells0.getLastD 0)
    (s e : Nat) (attrs : List Nat)
    (hs : lisp_object_get_raw_value s < h0.lisp_heap_cur
      ∧ lisp_object_get_raw_value s ≠ cells0.getLastD 0)
    (he : plist_assoc g0 h0 s cells0 = some e)
    (hsp : plist_spine g0 h0 (lisp_cell_cdr g0 h0 e) attrs = true)
    (hat : ∀ o ∈ plist_objects g0 h0 attrs,
      lisp_object_get_raw_value o < h0.lisp_heap_cur
        ∧ lisp_object_get_raw_value o ≠ cells0.getLastD 0) :
    plist_assoc g h s (cells0 ++ extra) = some e
      ∧ e ≠ g.lisp_NIL
      ∧ lisp_cell_car g h e = lisp_cell_car g0 h0 e
      ∧ lisp_cell_cdr g h e = lisp_cell_cdr g0 h0 e
      ∧ plist_spine g h (lisp_cell_cdr g0 h0 e) attrs = true
      ∧ ∀ type, lisp_object_get_tag type = lisp_tag_atom →
          lisp_object_get_raw_value type < h0.lisp_heap_cur
            ∧ lisp_object_get_raw_value type ≠ cells0.getLastD 0 →
          plist_value g h type attrs = plist_value g0 h0 type attrs := by
  have hassoc := root_inv_assoc g0 h0 environment cells0 g h extra used ri hcells hobj s hs
  rw [he] at hassoc
  have hmem := (plist_assoc_mem g0 h0 s cells0 e he).1
  have her := hobj e (List.mem_append_left _ hmem)
  have hread := root_inv_read g0 h0 environment cells0 g h extra used ri e her
  have hcc := lisp_cell_car_congr g h0 h e hread
  have hmem2 : e ∈ (cells0 ++ extra).map (lisp_cell_car g h) :=
    (plist_assoc_mem g h s _ e (plist_assoc_append_left g h s e extra cells0 hassoc)).1
  have he16 := (plist_wf_lt g h _ ri.frame.wf e (List.mem_append_right _ hmem2)).1
  have hobjA : ∀ o ∈ plist_objects g h0 attrs,
      heap_read h (lisp_object_get_raw_value o) = heap_read h0 (lisp_object_get_raw_value o) := by
    intro o ho
    rw [core_objects g0 g ri.core] at ho
    exact root_inv_read g0 h0 environment cells0 g h extra used ri o (hat o ho)
  refine ⟨plist_assoc_append_left g h s e extra cells0 hassoc, aligned_ne_NIL g ri.wf e he16, ?_,
      ?_,
    ?_, ?_⟩
  · rw [hcc.1, (core_car g0 g ri.core h0 e).1]
  · rw [hcc.2, (core_car g0 g ri.core h0 e).2]
  · rw [plist_spine_agree g h0 h attrs _
      (fun c hc => (plist_objects_agree g h0 h attrs hobjA c hc).1), core_spine g0 g ri.core]
    exact hsp
  · intro type ht htr
    rw [plist_value_agree g h0 h type ht
      (root_inv_read g0 h0 environment cells0 g h extra used ri type htr) attrs hobjA,
      core_value g0 g ri.core]

theorem string_chars_agree (h h' : lisp_heap) (s : Nat)
    (e1 : heap_read h' (lisp_object_get_raw_value s) = heap_read h (lisp_object_get_raw_value s))
    (e2 : heap_read h' (lisp_object_get_raw_value (lisp_string_get_value h s).1)
      = heap_read h (lisp_object_get_raw_value (lisp_string_get_value h s).1)) :
    lisp_string_chars h' s = lisp_string_chars h s := by
  have hv : lisp_string_get_value h' s = lisp_string_get_value h s := by
    unfold lisp_string_get_value
    rw [e1]
  unfold lisp_string_chars lisp_interior_get_value
  simp only [hv, e2]

/-- The parent of the child frame is the root frame. -/
theorem env_inv_parent (g0 : lisp_globals) (h0 : lisp_heap) (environment : Nat)
    (cells0 : List Nat) (g : lisp_globals) (h : lisp_heap) (extra : List Nat)
    (used : List (List Nat)) (B menv : Nat) (ccells : List Nat) (cused : List (List Nat))
    (ei : env_inv g0 h0 environment cells0 g h extra used B menv ccells cused)
    (fuel : Nat) (hfuel : ccells.length + 1 < fuel) :
    lisp_environment_parent g fuel h menv = .ok environment := by
  have hg := ei.root.wf
  obtain ⟨l1, l2, _, l4, l5, l6⟩ := entry_at_list g hg h ccells _ _ _ _ ei.parent
  have hb := ei.parent.aligned
  have h1 := plist_get_spec g hg h g.lisp_SI_PARENT_ENVIRONMENT hg.PARENT_atom ccells menv
    ei.child.spine fuel (by omega)
  have hv1 : plist_value g h g.lisp_SI_PARENT_ENVIRONMENT ccells = B + 16 := by
    unfold plist_value
    rw [ei.parent.assoc]
    exact l1
  have h2 := plist_get_spec g hg h g.lisp_APVAL hg.APVAL_atom [B + 16] (B + 16) l2 fuel
    (by simp only [List.length_singleton]; omega)
  have hv2 : plist_value g h g.lisp_APVAL [B + 16] = environment := by
    unfold plist_value plist_assoc
    rw [l4, l5, atom_key_equal_self]
    exact l6
  unfold lisp_environment_parent
  rw [h1, hv1]
  simp only [bind, Except.bind]
  rw [if_neg (aligned_ne_NIL g hg (B + 16) (by omega)), h2, hv2]


/-! ### `lisp_environment_create_root` -/

set_option maxRecDepth 100000 in
theorem bootstrap_facts_hold : bootstrap_facts := by
  unfold bootstrap_facts bootstrap_kept
  decide!

set_option maxRecDepth 100000 in
theorem bootstrap_symbol_T : bootstrap_symbol_facts 0 example_root.g.lisp_T "T" := by
  unfold bootstrap_symbol_facts bootstrap_kept
  decide!

set_option maxRecDepth 100000 in
theorem bootstrap_symbol_NIL : bootstrap_symbol_facts 1 example_root.g.lisp_NIL "NIL" := by
  unfold bootstrap_symbol_facts bootstrap_kept
  decide!

set_option maxRecDepth 100000 in
theorem bootstrap_symbol_PNAME : bootstrap_symbol_facts 2 example_root.g.lisp_PNAME "PNAME" := by
  unfold bootstrap_symbol_facts bootstrap_kept
  decide!

set_option maxRecDepth 100000 in
theorem bootstrap_symbol_APVAL : bootstrap_symbol_facts 3 example_root.g.lisp_APVAL "APVAL" := by
  unfold bootstrap_symbol_facts bootstrap_kept
  decide!

set_option maxRecDepth 100000 in
theorem bootstrap_symbol_EXPR : bootstrap_symbol_facts 4 example_root.g.lisp_EXPR "EXPR" := by
  unfold bootstrap_symbol_facts bootstrap_kept
  decide!

set_option maxRecDepth 100000 in
theorem bootstrap_symbol_SUBR : bootstrap_symbol_facts 5 example_root.g.lisp_SUBR "SUBR" := by
  unfold bootstrap_symbol_facts bootstrap_kept
  decide!

theorem plist_spine_head (g : lisp_globals) (h : lisp_heap) (p : Nat) (cells : List Nat)
    (hsp : plist_spine g h p cells = true) : p ∈ cells := by
  cases cells with
  | nil => simp [plist_spine] at hsp
  | cons c cs =>
    cases cs with
    | nil =>
      simp only [plist_spine, Bool.and_eq_true, decide_eq_true_eq] at hsp
      rw [hsp.1]
      exact List.mem_cons_self _ _
    | cons c2 cs =>
      simp only [plist_spine, Bool.and_eq_true, decide_eq_true_eq] at hsp
      rw [hsp.1.1]
      exact List.mem_cons_self _ _

/-- The run of `lisp_environment_create_root` on a heap at `0x100000` ends,
with the child frame over the root frame of the bootstrap. -/
theorem create_root_inv (fuel : Nat) (hfuel : 80 ≤ fuel) :
    run_post (lisp_environment_create_root fuel ( lisp_heap_initialize 0x100000))
      (fun r => core_eq example_root.g r.1.1 ∧ ∃ extra used B cc cu,
        env_inv example_root.g example_root.h example_root.environment example_root_cells
          r.1.1 r.2 extra used B r.1.2 cc cu
        ∧ extra.length = 57 ∧ cc.length ≤ 4) := by
  obtain ⟨f1, f2, f3, f4, f5, f6, f7, f8, f9, f10, _, _, f13, _⟩ := bootstrap_facts_hold
  unfold bootstrap_kept at f6 f7 f8 f9
  unfold lisp_environment_create_root
  refine run_post_of_eq _ _ _ _ example_root_run ?_
  simp only []
  refine run_post_bind _ _ _ _
    (special_forms_spec example_root.g example_root.h example_root.environment
      example_root_cells example_root.g example_root.h [] bootstrap_names example_root_inv fuel
      f1 (by rw [f13]; simp only [List.length_nil]; omega)) ?_
  rintro ⟨g1, h30⟩ ⟨hc1, extra1, hl1, ri1⟩
  try simp only [] at hc1 ri1 ⊢
  simp only [List.length_nil, Nat.zero_add] at hl1
  refine run_post_bind _ _ _ _
    (subrs_spec example_root.g example_root.h example_root.environment example_root_cells g1
      fuel f3 f5 f6.1 f6.2 f7.1 f7.2 h30 extra1 _ ri1 f2 (by rw [f13, hl1]; omega)) ?_
  rintro h31 ⟨extra2, hl2, ri2⟩
  try simp only [] at ri2 ⊢
  obtain ⟨ec, ei⟩ := child_create example_root.g example_root.h example_root.environment
    example_root_cells g1 h31 extra2 _ ri2 bootstrap_names f9.1 f9.2 f10
  refine run_post_of_eq _ _ _ _ ec ?_
  simp only []
  refine run_post_bind _ _ _ _
    (streams_spec example_root.g example_root.h example_root.environment example_root_cells g1
      _ extra2 _ _ _ _ ei fuel f4 f6.1 f6.2 f8.1 f8.2
      (by simp only [List.length_singleton]; omega)) ?_
  rintro ⟨g2, h33⟩ ⟨hc2, cc, cu, ei2, hcc⟩
  try simp only [] at hc2 ei2 hcc ⊢
  exact run_post_pure _ _ ⟨core_eq_trans _ _ _ hc1 hc2, extra2, _, _, cc, cu, ei2,
    by rw [hl2, hl1], by rw [hcc]; simp only [List.length_singleton]; omega⟩



/-- What the finished root frame holds for a bootstrap symbol. -/
theorem root_symbol_lookup (g : lisp_globals) (h : lisp_heap) (extra : List Nat)
    (used : List (List Nat))
    (ri : root_inv example_root.g example_root.h example_root.environment example_root_cells
      g h extra used)
    (i s : Nat) (name : String) (hf : bootstrap_symbol_facts i s name) (fuel : Nat)
    (hfuel : extra.length + 11 < fuel) :
    (∃ entry, lisp_environment_find_symbol g fuel h example_root.environment s g.lisp_NIL
          = .ok entry
        ∧ entry ≠ g.lisp_NIL ∧ lisp_cell_car g h entry = s)
      ∧ (∃ pname, lisp_environment_get_symbol_value g fuel h example_root.environment s
            g.lisp_PNAME g.lisp_NIL = .ok pname
          ∧ lisp_object_get_tag pname = lisp_tag_string
          ∧ (lisp_string_chars h pname).map lisp_char_get_value = c_str name)
      ∧ lisp_environment_get_symbol_value g fuel h example_root.environment s g.lisp_APVAL
          g.lisp_NIL = .ok s := by
  obtain ⟨_, _, _, _, f5, f6, _, f8, _, _, f11, f12, f13, _⟩ := bootstrap_facts_hold
  obtain ⟨s1, s2, s3, s4, s5, s6, s7, s8, s9, s10, s11, s12⟩ := hf
  unfold bootstrap_kept at f6 f8 f11 f12 s2 s6 s8 s9
  have hg := ri.wf
  obtain ⟨_, _, c_3, c_4, _, _, _⟩ := ri.core
  obtain ⟨a1, a2, a3, a4, a5, a6⟩ := root_inv_entry example_root.g example_root.h
    example_root.environment example_root_cells g h extra used ri f11 f12 s (bootstrap_entry i)
    (bootstrap_attrs i) s2 s3 s5 s6
  have hfind := find_symbol_found g hg h example_root.environment s g.lisp_NIL s1 _
    ri.frame.spine _ a1 fuel (by rw [List.length_append, f13]; omega)
  have hget : ∀ type, lisp_object_get_tag type = lisp_tag_atom →
      lisp_object_get_raw_value type < example_root.h.lisp_heap_cur
        ∧ lisp_object_get_raw_value type ≠ example_root_cells.getLastD 0 →
      lisp_environment_get_symbol_value g fuel h example_root.environment s type g.lisp_NIL
        = .ok (plist_value example_root.g example_root.h type (bootstrap_attrs i)) := by
    intro type ht htr
    unfold lisp_environment_get_symbol_value
    rw [hfind]
    simp only [bind, Except.bind]
    rw [if_neg a2, a4, plist_get_spec g hg h type ht _ _ a5 fuel (by rw [s12]; omega),
      a6 type ht htr]
  refine ⟨⟨_, hfind, a2, by rw [a3, s4]⟩, ⟨_, ?_, s7, ?_⟩, ?_⟩
  · rw [c_3]
    exact hget _ f5 f6
  · rw [string_chars_agree example_root.h h _
      (root_inv_read _ _ _ _ g h extra used ri _ s8)
      (root_inv_read _ _ _ _ g h extra used ri _ s9)]
    exact s10
  · rw [c_4, hget _ (by rw [← c_4]; exact hg.APVAL_atom) f8, s11]

/-- The parent of the finished root frame is `NIL`. -/
theorem root_parent_NIL (g : lisp_globals) (h : lisp_heap) (extra : List Nat)
    (used : List (List Nat))
    (ri : root_inv example_root.g example_root.h example_root.environment example_root_cells
      g h extra used)
    (fuel : Nat) (hfuel : extra.length + 11 < fuel) :
    lisp_environment_parent g fuel h example_root.environment = .ok g.lisp_NIL := by
  obtain ⟨_, _, _, _, _, _, _, f8, f9, _, f11, f12, f13, f14, f15, f16, f17, f18, f19⟩ :=
    bootstrap_facts_hold
  unfold bootstrap_kept at f8 f9 f11 f12 f16
  have hg := ri.wf
  obtain ⟨_, c_2, _, c_4, _, _, c_7⟩ := ri.core
  obtain ⟨a1, a2, a3, a4, a5, a6⟩ := root_inv_entry example_root.g example_root.h
    example_root.environment example_root_cells g h extra used ri f11 f12
    example_root.g.lisp_SI_PARENT_ENVIRONMENT (bootstrap_entry 6) (bootstrap_attrs 6) f9 f14 f15
    f16
  have h1 := plist_get_spec g hg h g.lisp_SI_PARENT_ENVIRONMENT hg.PARENT_atom _
    example_root.environment ri.frame.spine fuel (by rw [List.length_append, f13]; omega)
  have hv1 : plist_value g h g.lisp_SI_PARENT_ENVIRONMENT (example_root_cells ++ extra)
      = lisp_cell_cdr example_root.g example_root.h (bootstrap_entry 6) := by
    unfold plist_value
    rw [c_7, a1]
    exact a4
  have h2 := plist_get_spec g hg h g.lisp_APVAL hg.APVAL_atom _ _ a5 fuel (by rw [f19]; omega)
  unfold lisp_environment_parent
  rw [h1, hv1]
  simp only [bind, Except.bind]
  rw [if_neg (by rw [c_2]; exact f17), h2, c_4, a6 _ (by rw [← c_4]; exact hg.APVAL_atom) f8,
    f18, c_2]

/-- Claim C23, for the heap that starts at `0x100000`: the run of
`lisp_environment_create_root` ends; the environment it returns is a child
whose parent is the root frame, a different object, and the parent of the root
frame is `NIL`; in the root frame each of `T`, `NIL`, `PNAME`, `APVAL`, `EXPR`
and `SUBR` has an entry whose key is the atom itself, whose `PNAME` is a string
that spells the name and whose `APVAL` is the atom itself. -/
theorem C23_create_root_structure (fuel : Nat) (hfuel : 80 ≤ fuel) :
    ∃ (g : lisp_globals) (mutable_environment root : lisp_object_t) (h : lisp_heap),
      lisp_environment_create_root fuel ( lisp_heap_initialize 0x100000)
          = .ok ((g, mutable_environment), h)
        ∧ lisp_environment_parent g fuel h mutable_environment = .ok root
        ∧ root ≠ g.lisp_NIL ∧ mutable_environment ≠ root
        ∧ lisp_environment_parent g fuel h root = .ok g.lisp_NIL
        ∧ ∀ p ∈ [(g.lisp_T, "T"), (g.lisp_NIL, "NIL"), (g.lisp_PNAME, "PNAME"),
                  (g.lisp_APVAL, "APVAL"), (g.lisp_EXPR, "EXPR"), (g.lisp_SUBR, "SUBR")],
            (∃ entry, lisp_environment_find_symbol g fuel h root p.1 g.lisp_NIL = .ok entry
                ∧ entry ≠ g.lisp_NIL ∧ lisp_cell_car g h entry = p.1)
              ∧ (∃ pname, lisp_environment_get_symbol_value g fuel h root p.1 g.lisp_PNAME
                    g.lisp_NIL = .ok pname
                  ∧ lisp_object_get_tag pname = lisp_tag_string
                  ∧ (lisp_string_chars h pname).map lisp_char_get_value = c_str p.2)
              ∧ lisp_environment_get_symbol_value g fuel h root p.1 g.lisp_APVAL g.lisp_NIL
                  = .ok p.1 := by
  obtain ⟨⟨⟨g, menv⟩, h⟩, er, hc, extra, used, B, cc, cu, ei, hl, hcc⟩ :=
    create_root_inv fuel hfuel
  simp only [] at hc ei
  have ri := ei.root
  have hg := ri.wf
  obtain ⟨c_1, c_2, c_3, c_4, c_5, c_6, _⟩ := hc
  have hroot := plist_spine_head g h _ _ ri.frame.spine
  have hr16 := (plist_wf_lt g h _ ri.frame.wf _ (List.mem_append_left _ hroot)).1
  have hrB := ei.below example_root.environment (by
    unfold plist_objects
    exact List.mem_append_left _ (List.mem_append_left _ hroot))
  rw [raw_value_aligned _ hr16] at hrB
  have hmB := ei.above menv (plist_spine_head g h _ _ ei.child.spine)
  refine ⟨g, menv, example_root.environment, h, er,
    env_inv_parent _ _ _ _ g h extra used B menv cc cu ei fuel (by omega),
    aligned_ne_NIL g hg _ hr16,
    Nat.ne_of_gt (Nat.lt_of_lt_of_le hrB hmB),
    root_parent_NIL g h extra used ri fuel (by omega), ?_⟩
  intro p hp
  simp only [List.mem_cons, List.mem_singleton, List.not_mem_nil, or_false] at hp
  rcases hp with e | e | e | e | e | e
  · have l := root_symbol_lookup g h extra used ri 0 _ "T" bootstrap_symbol_T fuel
      (by omega)
    rw [← c_1] at l
    rw [e]
    exact l
  · have l := root_symbol_lookup g h extra used ri 1 _ "NIL" bootstrap_symbol_NIL fuel
      (by omega)
    rw [← c_2] at l
    rw [e]
    exact l
  · have l := root_symbol_lookup g h extra used ri 2 _ "PNAME" bootstrap_symbol_PNAME fuel
      (by omega)
    rw [← c_3] at l
    rw [e]
    exact l
  · have l := root_symbol_lookup g h extra used ri 3 _ "APVAL" bootstrap_symbol_APVAL fuel
      (by omega)
    rw [← c_4] at l
    rw [e]
    exact l
  · have l := root_symbol_lookup g h extra used ri 4 _ "EXPR" bootstrap_symbol_EXPR fuel
      (by omega)
    rw [← c_5] at l
    rw [e]
    exact l
  · have l := root_symbol_lookup g h extra used ri 5 _ "SUBR" bootstrap_symbol_SUBR fuel
      (by omega)
    rw [← c_6] at l
    rw [e]
    exact l

/-- C23 with the fuel `80`. -/
theorem C23_create_root_structure_witness :
    ∃ (g : lisp_globals) (mutable_environment root : lisp_object_t) (h : lisp_heap),
      lisp_environment_create_root 80 ( lisp_heap_initialize 0x100000)
          = .ok ((g, mutable_environment), h)
        ∧ lisp_environment_parent g 80 h mutable_environment = .ok root
        ∧ root ≠ g.lisp_NIL ∧ mutable_environment ≠ root
        ∧ lisp_environment_parent g 80 h root = .ok g.lisp_NIL
        ∧ ∀ p ∈ [(g.lisp_T, "T"), (g.lisp_NIL, "NIL"), (g.lisp_PNAME, "PNAME"),
                  (g.lisp_APVAL, "APVAL"), (g.lisp_EXPR, "EXPR"), (g.lisp_SUBR, "SUBR")],
            (∃ entry, lisp_environment_find_symbol g 80 h root p.1 g.lisp_NIL = .ok entry
                ∧ entry ≠ g.lisp_NIL ∧ lisp_cell_car g h entry = p.1)
              ∧ (∃ pname, lisp_environment_get_symbol_value g 80 h root p.1 g.lisp_PNAME
                    g.lisp_NIL = .ok pname
                  ∧ lisp_object_get_tag pname = lisp_tag_string
                  ∧ (lisp_string_chars h pname).map lisp_char_get_value = c_str p.2)
              ∧ lisp_environment_get_symbol_value g 80 h root p.1 g.lisp_APVAL g.lisp_NIL
                  = .ok p.1 :=
  C23_create_root_structure 80 (by decide)


/-! ## Standalone printing of characters, truncated strings, calls of values
that are no functions, the parent link and repeated tags -/

set_option maxRecDepth 100000 in
/-- Claim C31 at the failing input `#\a`: `lisp_read` returns the character
with codepoint 97; `lisp_print` of that character as a standalone value writes
the single byte `a`, without the `#\` in front; and `lisp_read` of the printed
text returns an atom, not the character.  The character `5` read from `#\5` is
printed as `5` and read back as the fixnum 5. -/
theorem C31_standalone_character_prints_raw :
    (run_value (example_print_then_read "#\\a")).map
        (fun r => (r.1, r.2.1, lisp_object_get_tag r.2.2))
      = some (lisp_char_create 97, c_str "a", lisp_tag_atom)
    ∧ (run_value (example_print_then_read "#\\5")).map (fun r => (r.1, r.2.1, r.2.2))
      = some (lisp_char_create 53, c_str "5", lisp_fixnum_create true 5)
    ∧ lisp_object_get_tag (lisp_char_create 97) = lisp_tag_char
    ∧ lisp_char_get_value (lisp_char_create 97) = 97
    ∧ lisp_tag_atom ≠ lisp_tag_char := by
  decide!

set_option maxRecDepth 100000 in
/-- Claim C34 as stated fails: for the text `"abc`, which ends before the
closing double quote, `lisp_read` returns a string with the characters `abc`
and not `NIL`; for the text `"ab\`, which ends right after a backslash, it
returns a string with the characters `ab`.  The complete text `"abc"` gives
the same string as the first. -/
theorem C34_truncated_string_counterexample :
    (run_value (example_read_text "\"abc")).map
        (fun r => (decide (r.1 = example_root.g.lisp_NIL), r.2))
      = some (false, lisp_tag_string, c_str "abc")
    ∧ (run_value (example_read_text "\"ab\\")).map
        (fun r => (decide (r.1 = example_root.g.lisp_NIL), r.2))
      = some (false, lisp_tag_string, c_str "ab")
    ∧ (run_value (example_read_text "\"abc\"")).map
        (fun r => (decide (r.1 = example_root.g.lisp_NIL), r.2))
      = some (false, lisp_tag_string, c_str "abc") := by
  decide!

set_option maxRecDepth 100000 in
/-- Claim C38 at the failing inputs: after `(SETQ X 5)` the form `(X 1)`, whose
head evaluates to the fixnum 5, does not return `NIL`: `lisp_apply` hands the
fixnum to `lisp_subr_call`, which calls through it as if it pointed to a
`SUBR`.  The same happens for `((QUOTE 5) 1)`, whose head is a list that
evaluates to the fixnum 5.  The form `(Y 1)` with an unbound head returns
`NIL`. -/
theorem C38_fixnum_head_is_called :
    run_faulted (example_eval_two "(SETQ X 5)" "(X 1)") = true
    ∧ run_faulted (example_eval_two "(SETQ X 5)" "((QUOTE 5) 1)") = true
    ∧ run_value (example_eval_two "(SETQ X 5)" "X") = some (lisp_fixnum_create true 5)
    ∧ run_value (example_eval_two "(SETQ X 5)" "(Y 1)") = some example_sforms.g.lisp_NIL
    ∧ lisp_object_get_tag (lisp_fixnum_create true 5) = lisp_tag_fixnum
    ∧ lisp_fixnum_create true 5 ≠ example_sforms.g.lisp_NIL := by
  decide!

set_option maxRecDepth 100000 in
/-- Claim C39 at the failing input: in a child `E` of the environment `P`
made by `lisp_environment_create`, the form `(SETQ %SI:PARENT-ENVIRONMENT 5)`
read by `lisp_read` returns 5, and `lisp_environment_parent` of `E`, which was
`P` before, is the fixnum 5 afterwards.  The form `(SETQ X 5)` leaves the
parent `P`. -/
theorem C39_SETQ_overwrites_parent_link :
    run_value (example_parent_after "(SETQ %SI:PARENT-ENVIRONMENT 5)")
        = some (example_sforms.environment, lisp_fixnum_create true 5,
                lisp_fixnum_create true 5)
    ∧ run_value (example_parent_after "(SETQ X 5)")
        = some (example_sforms.environment, lisp_fixnum_create true 5,
                example_sforms.environment)
    ∧ example_sforms.environment ≠ lisp_fixnum_create true 5 := by
  decide!

set_option maxRecDepth 100000 in
/-- The form `(TAGBODY A (SETQ L (CONS 1 L)) A (SETQ L (CONS 2 L)))`, read by
`lisp_read` and evaluated, ends in the fault. -/
theorem TAGBODY_repeated_tag_faults :
    run_faulted (example_TAGBODY_trace "(TAGBODY A (SETQ L (CONS 1 L)) A (SETQ L (CONS 2 L)))")
      = true := by
  decide!

set_option maxRecDepth 100000 in
/-- The form `(TAGBODY (SETQ L (CONS 1 L)) (SETQ L (CONS 2 L)))`, read by
`lisp_read` and evaluated, ends in the fault. -/
theorem TAGBODY_no_tag_faults :
    run_faulted (example_TAGBODY_trace "(TAGBODY (SETQ L (CONS 1 L)) (SETQ L (CONS 2 L)))")
      = true := by
  decide!

set_option maxRecDepth 100000 in
/-- The statement `(SETQ L (CONS 1 L))` on its own, read by `lisp_read` and
evaluated, returns: `L` holds the list `(1)` and `%SI:*TAGBODY-STACK*` is
`NIL` before and after. -/
theorem SETQ_statement_alone :
    (run_value (example_TAGBODY_trace "(SETQ L (CONS 1 L))")).map
        (fun r => (r.1, r.2.2.1, r.2.2.2))
      = some (example_tagbody_SETQ.g.lisp_NIL, example_tagbody_SETQ.g.lisp_NIL, [1]) := by
  decide!

/-- Claim C37 at the failing inputs, every `TAGBODY` form: no statement of the
body is evaluated.  `lisp_tagbody_create_plist`, which sorts the body into
tags and statements, calls `lisp_plist_create` with one argument and no
terminating `NULL` and reads an argument that was not passed; it ends there
for every heap and every body, before `lisp_tagbody_push` and
`lisp_tagbody_execute` run.  The forms
`(TAGBODY A (SETQ L (CONS 1 L)) A (SETQ L (CONS 2 L)))` and
`(TAGBODY (SETQ L (CONS 1 L)) (SETQ L (CONS 2 L)))` end in that fault, while
the statement `(SETQ L (CONS 1 L))` evaluated on its own returns and leaves
the list `(1)` in `L`. -/
theorem C37_TAGBODY_evaluates_no_statement :
    (∀ (g : lisp_globals) (fuel : Nat) (h : lisp_heap) (environment cell : lisp_object_t),
        lisp_tagbody_create_plist g fuel h environment cell = .error lisp_error.fault)
      ∧ run_faulted
          (example_TAGBODY_trace "(TAGBODY A (SETQ L (CONS 1 L)) A (SETQ L (CONS 2 L)))") = true
      ∧ run_faulted
          (example_TAGBODY_trace "(TAGBODY (SETQ L (CONS 1 L)) (SETQ L (CONS 2 L)))") = true
      ∧ (run_value (example_TAGBODY_trace "(SETQ L (CONS 1 L))")).map
            (fun r => (r.1, r.2.2.1, r.2.2.2))
          = some (example_tagbody_SETQ.g.lisp_NIL, example_tagbody_SETQ.g.lisp_NIL, [1]) :=
  ⟨tagbody_create_plist_faults, TAGBODY_repeated_tag_faults, TAGBODY_no_tag_faults,
    SETQ_statement_alone⟩


/-! ## Stream designators and division -/

theorem example_root_T_NIL_not_NULL :
    example_root.g.lisp_T ≠ 0 ∧ example_root.g.lisp_NIL ≠ 0 := by
  decide!

theorem lisp_streamp_not_NULL (d : lisp_object_t) : lisp_streamp example_root.g d ≠ 0 := by
  unfold lisp_streamp lisp_object_has_tag
  split
  · exact example_root_T_NIL_not_NULL.1
  · exact example_root_T_NIL_not_NULL.2

set_option maxRecDepth 100000 in
/-- Claim C35 at the failing inputs: with the globals of the bootstrap frame,
for every heap, environment and designator `d`,
`lisp_stream_best_input_stream` and `lisp_stream_best_output_stream` look up
`*TERMINAL-IO*` when `d` is `T`, look up `*STANDARD-INPUT*` (respectively
`*STANDARD-OUTPUT*`) when `d` is `NIL`, and otherwise return `d` itself
whatever its tag: the third test uses the result of `lisp_streamp`, which
is `T` or `NIL` and never the null pointer, as a truth value.  So the fixnum
5 and the atom `APVAL` are returned as they are, not `NIL`. -/
theorem C35_every_other_designator_is_returned (fuel : Nat) (h : lisp_heap)
    (environment d : lisp_object_t) :
    lisp_stream_best_input_stream example_root.g fuel h environment d
        = (if d = example_root.g.lisp_T then
            lisp_environment_get_symbol_value example_root.g fuel h environment
              example_root.g.lisp_TERMINAL_IO_atom example_root.g.lisp_APVAL example_root.g.lisp_T
          else if d = example_root.g.lisp_NIL then
            lisp_environment_get_symbol_value example_root.g fuel h environment
              example_root.g.lisp_STANDARD_INPUT example_root.g.lisp_APVAL example_root.g.lisp_T
          else .ok d)
      ∧ lisp_stream_best_output_stream example_root.g fuel h environment d
        = (if d = example_root.g.lisp_T then
            lisp_environment_get_symbol_value example_root.g fuel h environment
              example_root.g.lisp_TERMINAL_IO_atom example_root.g.lisp_APVAL example_root.g.lisp_T
          else if d = example_root.g.lisp_NIL then
            lisp_environment_get_symbol_value example_root.g fuel h environment
              example_root.g.lisp_STANDARD_OUTPUT example_root.g.lisp_APVAL example_root.g.lisp_T
          else .ok d)
      ∧ lisp_stream_best_input_stream example_root.g fuel h environment (lisp_fixnum_create true 5)
          = .ok (lisp_fixnum_create true 5)
      ∧ lisp_stream_best_output_stream example_root.g fuel h environment
          example_root.g.lisp_APVAL = .ok example_root.g.lisp_APVAL
      ∧ lisp_streamp example_root.g (lisp_fixnum_create true 5) = example_root.g.lisp_NIL
      ∧ lisp_streamp example_root.g example_root.g.lisp_APVAL = example_root.g.lisp_NIL
      ∧ lisp_fixnum_create true 5 ≠ example_root.g.lisp_NIL
      ∧ example_root.g.lisp_APVAL ≠ example_root.g.lisp_NIL := by
  have H : lisp_fixnum_create true 5 ≠ example_root.g.lisp_T
      ∧ lisp_fixnum_create true 5 ≠ example_root.g.lisp_NIL
      ∧ example_root.g.lisp_APVAL ≠ example_root.g.lisp_T
      ∧ example_root.g.lisp_APVAL ≠ example_root.g.lisp_NIL
      ∧ lisp_streamp example_root.g (lisp_fixnum_create true 5) = example_root.g.lisp_NIL
      ∧ lisp_streamp example_root.g example_root.g.lisp_APVAL = example_root.g.lisp_NIL := by
    decide!
  obtain ⟨H1, H2, H3, H4, H5, H6⟩ := H
  have e1 : ∀ x, lisp_stream_best_input_stream example_root.g fuel h environment x
        = (if x = example_root.g.lisp_T then
            lisp_environment_get_symbol_value example_root.g fuel h environment
              example_root.g.lisp_TERMINAL_IO_atom example_root.g.lisp_APVAL example_root.g.lisp_T
          else if x = example_root.g.lisp_NIL then
            lisp_environment_get_symbol_value example_root.g fuel h environment
              example_root.g.lisp_STANDARD_INPUT example_root.g.lisp_APVAL example_root.g.lisp_T
          else .ok x) := by
    intro x
    unfold lisp_stream_best_input_stream
    rw [if_pos (lisp_streamp_not_NULL x)]
    rfl
  have e2 : ∀ x, lisp_stream_best_output_stream example_root.g fuel h environment x
        = (if x = example_root.g.lisp_T then
            lisp_environment_get_symbol_value example_root.g fuel h environment
              example_root.g.lisp_TERMINAL_IO_atom example_root.g.lisp_APVAL example_root.g.lisp_T
          else if x = example_root.g.lisp_NIL then
            lisp_environment_get_symbol_value example_root.g fuel h environment
              example_root.g.lisp_STANDARD_OUTPUT example_root.g.lisp_APVAL example_root.g.lisp_T
          else .ok x) := by
    intro x
    unfold lisp_stream_best_output_stream
    rw [if_pos (lisp_streamp_not_NULL x)]
    rfl
  refine ⟨e1 d, e2 d, ?_, ?_, H5, H6, H2, H4⟩
  · rw [e1, if_neg H1, if_neg H2]
  · rw [e2, if_neg H3, if_neg H4]

theorem example_argument_pair_spec (first second : lisp_object_t) :
    lisp_cell_car example_root.g (example_argument_pair first second).2
        (example_argument_pair first second).1 = first
      ∧ lisp_cell_car example_root.g (example_argument_pair first second).2
          (lisp_cell_cdr example_root.g (example_argument_pair first second).2
            (example_argument_pair first second).1) = second := by
  have hal : example_root.h.lisp_heap_cur % 16 = 0 := by decide!
  have e : example_argument_pair first second
      = (example_root.h.lisp_heap_cur + 16,
          cons_heap (cons_heap example_root.h second example_root.g.lisp_NIL) first
            example_root.h.lisp_heap_cur) := by
    unfold example_argument_pair
    rw [lisp_cell_cons_heap]
    simp only
    rw [lisp_cell_cons_heap, cons_heap_cur]
  rw [e]
  simp only
  have r1 : heap_read (cons_heap (cons_heap example_root.h second example_root.g.lisp_NIL) first
      example_root.h.lisp_heap_cur) (example_root.h.lisp_heap_cur + 16)
      = some (lisp_record.cell first example_root.h.lisp_heap_cur) := by
    rw [cons_heap_read, cons_heap_cur, if_pos rfl]
  have r2 : heap_read (cons_heap (cons_heap example_root.h second example_root.g.lisp_NIL) first
      example_root.h.lisp_heap_cur) example_root.h.lisp_heap_cur
      = some (lisp_record.cell second example_root.g.lisp_NIL) := by
    rw [cons_heap_read, cons_heap_cur, if_neg (by omega), cons_heap_read, if_pos rfl]
  obtain ⟨c1, c2⟩ := lisp_cell_car_cell example_root.g example_root_globals_wf _ _ _ _
    (by omega) r1
  obtain ⟨c3, _⟩ := lisp_cell_car_cell example_root.g example_root_globals_wf _ _ _ _ hal r2
  exact ⟨c1, by rw [c2]; exact c3⟩

set_option maxRecDepth 100000 in
/-- Claim C40 at the failing inputs: for every first argument and the second
argument 0, `lisp_subr_sign_DIVIDE` and `lisp_subr_sign_MODULO` return `NIL`
when the first argument is no fixnum and otherwise perform the division by
zero, which C leaves undefined: they return no value.  For the divisor 2 the
quotients of 7 and -7 are 3 and -3 and the remainders 1 and -1. -/
theorem C40_division_by_zero_is_performed (environment first : lisp_object_t) :
    lisp_subr_sign_DIVIDE example_root.g
        (example_argument_pair first (lisp_fixnum_create true 0)).2 environment
        (example_argument_pair first (lisp_fixnum_create true 0)).1
      = (if lisp_fixnump example_root.g first = example_root.g.lisp_NIL
          then .ok (example_root.g.lisp_NIL,
                    (example_argument_pair first (lisp_fixnum_create true 0)).2)
          else .error lisp_error.fault)
    ∧ lisp_subr_sign_MODULO example_root.g
        (example_argument_pair first (lisp_fixnum_create true 0)).2 environment
        (example_argument_pair first (lisp_fixnum_create true 0)).1
      = (if lisp_fixnump example_root.g first = example_root.g.lisp_NIL
          then .ok (example_root.g.lisp_NIL,
                    (example_argument_pair first (lisp_fixnum_create true 0)).2)
          else .error lisp_error.fault)
    ∧ lisp_fixnump example_root.g (lisp_fixnum_create true 1) ≠ example_root.g.lisp_NIL
    ∧ run_value (lisp_subr_sign_DIVIDE example_root.g
        (example_argument_pair (lisp_fixnum_create true 7) (lisp_fixnum_create true 2)).2
        example_root.environment
        (example_argument_pair (lisp_fixnum_create true 7) (lisp_fixnum_create true 2)).1)
      = some (lisp_fixnum_create true 3)
    ∧ run_value (lisp_subr_sign_MODULO example_root.g
        (example_argument_pair (lisp_fixnum_create true 7) (lisp_fixnum_create true 2)).2
        example_root.environment
        (example_argument_pair (lisp_fixnum_create true 7) (lisp_fixnum_create true 2)).1)
      = some (lisp_fixnum_create true 1)
    ∧ run_value (lisp_subr_sign_DIVIDE example_root.g
        (example_argument_pair (lisp_fixnum_create true (-7)) (lisp_fixnum_create true 2)).2
        example_root.environment
        (example_argument_pair (lisp_fixnum_create true (-7)) (lisp_fixnum_create true 2)).1)
      = some (lisp_fixnum_create true (-3))
    ∧ run_value (lisp_subr_sign_MODULO example_root.g
        (example_argument_pair (lisp_fixnum_create true (-7)) (lisp_fixnum_create true 2)).2
        example_root.environment
        (example_argument_pair (lisp_fixnum_create true (-7)) (lisp_fixnum_create true 2)).1)
      = some (lisp_fixnum_create true (-1)) := by
  have H : lisp_fixnump example_root.g (lisp_fixnum_create true 0) ≠ example_root.g.lisp_NIL
      ∧ lisp_fixnum_get_value true (lisp_fixnum_create true 0) = 0
      ∧ lisp_fixnump example_root.g (lisp_fixnum_create true 1) ≠ example_root.g.lisp_NIL
      ∧ run_value (lisp_subr_sign_DIVIDE example_root.g
          (example_argument_pair (lisp_fixnum_create true 7) (lisp_fixnum_create true 2)).2
          example_root.environment
          (example_argument_pair (lisp_fixnum_create true 7) (lisp_fixnum_create true 2)).1)
        = some (lisp_fixnum_create true 3)
      ∧ run_value (lisp_subr_sign_MODULO example_root.g
          (example_argument_pair (lisp_fixnum_create true 7) (lisp_fixnum_create true 2)).2
          example_root.environment
          (example_argument_pair (lisp_fixnum_create true 7) (lisp_fixnum_create true 2)).1)
        = some (lisp_fixnum_create true 1)
      ∧ run_value (lisp_subr_sign_DIVIDE example_root.g
          (example_argument_pair (lisp_fixnum_create true (-7)) (lisp_fixnum_create true 2)).2
          example_root.environment
          (example_argument_pair (lisp_fixnum_create true (-7)) (lisp_fixnum_create true 2)).1)
        = some (lisp_fixnum_create true (-3))
      ∧ run_value (lisp_subr_sign_MODULO example_root.g
          (example_argument_pair (lisp_fixnum_create true (-7)) (lisp_fixnum_create true 2)).2
          example_root.environment
          (example_argument_pair (lisp_fixnum_create true (-7)) (lisp_fixnum_create true 2)).1)
        = some (lisp_fixnum_create true (-1)) := by
    decide!
  obtain ⟨H1, H2, H3, H4, H5, H6, H7⟩ := H
  obtain ⟨a1, a2⟩ := example_argument_pair_spec first (lisp_fixnum_create true 0)
  refine ⟨?_, ?_, H3, H4, H5, H6, H7⟩
  · unfold lisp_subr_sign_DIVIDE
    simp only [a1, a2, H2, if_neg H1, if_true]
    split <;> rfl
  · unfold lisp_subr_sign_MODULO
    simp only [a1, a2, H2, if_neg H1, if_true]
    split <;> rfl


/-! ## Appending a character to a string -/

theorem slots_set_getD (slots : List lisp_object_t) (n : Nat) (c : lisp_object_t) (i : Nat)
    (hi : i ≤ n) :
    (slots_set slots n c).getD i 0 = if i = n then c else slots.getD i 0 := by
  unfold slots_set
  simp only [List.getD_eq_getElem?_getD]
  by_cases h1 : n < slots.length
  · rw [if_pos h1]
    by_cases h2 : i = n
    · subst h2
      rw [if_pos rfl, List.getElem?_set_self h1]
      rfl
    · rw [if_neg h2, List.getElem?_set_ne (fun e => h2 e.symm)]
  · rw [if_neg h1]
    have hl : (slots ++ List.replicate (n - slots.length) (0 : lisp_object_t)).length = n := by
      rw [List.length_append, List.length_replicate]; omega
    by_cases h2 : i = n
    · subst h2
      rw [if_pos rfl, List.getElem?_append_right (by rw [hl]), hl, Nat.sub_self]
      rfl
    · rw [if_neg h2, List.getElem?_append_left (by rw [hl]; omega)]
      by_cases h3 : i < slots.length
      · rw [List.getElem?_append_left h3]
      · rw [List.getElem?_append_right (by omega), List.getElem?_eq_none (Nat.le_of_not_lt h3),
          List.getElem?_replicate, if_pos (by omega)]
        rfl

theorem take_getD (slots : List lisp_object_t) (n i : Nat) (hi : i < n) :
    (slots.take n).getD i 0 = slots.getD i 0 := by
  simp only [List.getD_eq_getElem?_getD, List.getElem?_take, if_pos hi]

theorem range_succ_map (n : Nat) (f : Nat → lisp_object_t) :
    (List.range (n + 1)).map f = (List.range n).map f ++ [f n] := by
  rw [List.range_succ, List.map_append]
  rfl

/-- What `lisp_string_append_char` does to a string whose record and buffer
are allocated on an aligned heap. -/
theorem string_append_char_spec (h : lisp_heap) (s chars c : lisp_object_t) (cap len : Nat)
    (slots : List lisp_object_t)
    (hs : heap_read h (lisp_object_get_raw_value s) = some (lisp_record.string chars cap len))
    (hc : heap_read h (lisp_object_get_raw_value chars) = some (lisp_record.interior slots))
    (hle : len ≤ cap) (hal : h.lisp_heap_cur % 16 = 0)
    (hsl : lisp_object_get_raw_value s < h.lisp_heap_cur)
    (hcl : lisp_object_get_raw_value chars < h.lisp_heap_cur) :
    ∃ h' chars',
      lisp_string_append_char h s c = .ok (s, h')
        ∧ lisp_string_get_value h' s = (chars', if len = cap then cap + 16 else cap, len + 1)
        ∧ lisp_string_chars h' s = lisp_string_chars h s ++ [c]
        ∧ len + 1 ≤ (if len = cap then cap + 16 else cap)
        ∧ (len = cap → chars' ≠ chars ∧ lisp_object_get_tag chars' = lisp_tag_interior
            ∧ lisp_object_get_raw_value chars' = h.lisp_heap_cur)
        ∧ (len ≠ cap → chars' = chars ∧ h'.lisp_heap_cur = h.lisp_heap_cur) := by
  have hne : lisp_object_get_raw_value chars ≠ lisp_object_get_raw_value s := by
    intro e
    rw [e, hs] at hc
    cases hc
  have e0 : lisp_string_chars h s = (List.range len).map (fun i => slots.getD i 0) := by
    unfold lisp_string_chars lisp_string_get_value lisp_interior_get_value
    simp only [hs, hc]
  by_cases hfull : len = cap
  · subst hfull
    obtain ⟨a1, a2, a3, a4, a5, a6⟩ := allocate_object h hal lisp_tag_interior (by decide)
      (8 * (len + 16)) (lisp_record.interior (slots.take len))
    generalize hr : lisp_object_allocate h lisp_tag_interior (8 * (len + 16))
      (lisp_record.interior (slots.take len)) = r at a1 a2 a3 a4 a5 a6
    have e1 : lisp_string_reallocate h (chars, len, len) = ((r.1, len + 16), r.2) := by
      unfold lisp_string_reallocate lisp_interior_create lisp_interior_get_value
      simp only [hc, hr]
    have hn : lisp_object_get_raw_value r.1 ≠ lisp_object_get_raw_value s := by
      rw [a2]; omega
    refine ⟨heap_write (heap_write r.2 (lisp_object_get_raw_value r.1)
        (lisp_record.interior (slots_set (slots.take len) len c)))
        (lisp_object_get_raw_value s) (lisp_record.string r.1 (len + 16) (len + 1)), r.1,
      ?_, ?_, ?_, ?_, ?_, ?_⟩
    · unfold lisp_string_append_char
      simp only [hs, lisp_string_needs_reallocation, beq_self_eq_true, if_true, e1]
      rw [a2, a3]
    · unfold lisp_string_get_value
      rw [heap_read_write, if_pos rfl, if_pos rfl]
    · rw [e0]
      unfold lisp_string_chars lisp_string_get_value lisp_interior_get_value
      simp only [heap_read_write, if_pos, if_neg hn]
      rw [range_succ_map]
      congr 1
      · apply List.map_congr_left
        intro i hi
        have hi' : i < len := List.mem_range.1 hi
        rw [slots_set_getD _ _ _ _ (by omega), if_neg (by omega), take_getD _ _ _ hi']
      · rw [slots_set_getD _ _ _ _ (Nat.le_refl _), if_pos rfl]
    · rw [if_pos rfl]; omega
    · intro _
      refine ⟨?_, a1, a2⟩
      intro e
      rw [e] at a2
      omega
    · intro e
      exact absurd rfl e
  · refine ⟨heap_write (heap_write h (lisp_object_get_raw_value chars)
        (lisp_record.interior (slots_set slots len c)))
        (lisp_object_get_raw_value s) (lisp_record.string chars cap (len + 1)), chars,
      ?_, ?_, ?_, ?_, ?_, ?_⟩
    · unfold lisp_string_append_char
      have : (len == cap) = false := by simpa using hfull
      simp only [hs, lisp_string_needs_reallocation, this, Bool.false_eq_true, if_false, hc]
    · unfold lisp_string_get_value
      rw [heap_read_write, if_pos rfl, if_neg hfull]
    · rw [e0]
      unfold lisp_string_chars lisp_string_get_value lisp_interior_get_value
      simp only [heap_read_write, if_pos, if_neg hne]
      rw [range_succ_map]
      congr 1
      · apply List.map_congr_left
        intro i hi
        have hi' : i < len := List.mem_range.1 hi
        rw [slots_set_getD _ _ _ _ (by omega), if_neg (by omega)]
      · rw [slots_set_getD _ _ _ _ (Nat.le_refl _), if_pos rfl]
    · rw [if_neg hfull]; omega
    · intro e
      exact absurd e hfull
    · intro _
      exact ⟨rfl, rfl⟩

/-- C36: for every string `s` whose record, with the buffer `chars`, the
capacity `cap` and the length `len`, and whose buffer are allocated on the
heap, with `len ≤ cap`, and every object `c`, `lisp_string_append_char`
returns `s`; afterwards the characters of `s` are those it had followed by
`c` (the first `len` are unchanged and `c` is at index `len`), the length is
`len + 1` and is at most the capacity.  When `len = cap` beforehand the
buffer is a new interior, different from `chars`, and the capacity is
`cap + 16`; otherwise the buffer is still `chars`, the capacity is still
`cap` and nothing is allocated. -/
theorem C36_string_append_char (h : lisp_heap) (s chars c : lisp_object_t) (cap len : Nat)
    (slots : List lisp_object_t)
    (hs : heap_read h (lisp_object_get_raw_value s) = some (lisp_record.string chars cap len))
    (hc : heap_read h (lisp_object_get_raw_value chars) = some (lisp_record.interior slots))
    (hle : len ≤ cap) (hal : h.lisp_heap_cur % 16 = 0)
    (hsl : lisp_object_get_raw_value s < h.lisp_heap_cur)
    (hcl : lisp_object_get_raw_value chars < h.lisp_heap_cur) :
    ∃ h' chars',
      lisp_string_append_char h s c = .ok (s, h')
        ∧ lisp_string_get_value h' s = (chars', if len = cap then cap + 16 else cap, len + 1)
        ∧ lisp_string_chars h' s = lisp_string_chars h s ++ [c]
        ∧ len + 1 ≤ (if len = cap then cap + 16 else cap)
        ∧ (len = cap → chars' ≠ chars ∧ lisp_object_get_tag chars' = lisp_tag_interior
            ∧ lisp_object_get_raw_value chars' = h.lisp_heap_cur)
        ∧ (len ≠ cap → chars' = chars ∧ h'.lisp_heap_cur = h.lisp_heap_cur) :=
  string_append_char_spec h s chars c cap len slots hs hc hle hal hsl hcl

set_option maxRecDepth 100000 in
/-- C36 at the string of `test_reallocation`: a string of capacity 1 and
length 1 that holds `A` becomes, when `B` is appended, a string of capacity
17 and length 2 that holds `AB`, with a new buffer. -/
theorem C36_string_append_char_witness :
    lisp_string_get_value example_full_string.2 example_full_string.1.2
        = (example_full_string.1.1, 1, 1)
      ∧ ∃ h' chars',
        lisp_string_append_char example_full_string.2 example_full_string.1.2
            (lisp_char_create 0x42) = .ok (example_full_string.1.2, h')
          ∧ lisp_string_get_value h' example_full_string.1.2 = (chars', 17, 2)
          ∧ lisp_string_chars h' example_full_string.1.2
              = [lisp_char_create 0x41, lisp_char_create 0x42]
          ∧ chars' ≠ example_full_string.1.1 := by
  have H : heap_read example_full_string.2
        (lisp_object_get_raw_value example_full_string.1.2)
        = some (lisp_record.string example_full_string.1.1 1 1)
      ∧ heap_read example_full_string.2 (lisp_object_get_raw_value example_full_string.1.1)
        = some (lisp_record.interior [lisp_char_create 0x41])
      ∧ example_full_string.2.lisp_heap_cur % 16 = 0
      ∧ lisp_object_get_raw_value example_full_string.1.2
          < example_full_string.2.lisp_heap_cur
      ∧ lisp_object_get_raw_value example_full_string.1.1
          < example_full_string.2.lisp_heap_cur
      ∧ lisp_string_get_value example_full_string.2 example_full_string.1.2
          = (example_full_string.1.1, 1, 1)
      ∧ lisp_string_chars example_full_string.2 example_full_string.1.2
          = [lisp_char_create 0x41] := by
    decide!
  obtain ⟨H1, H2, H3, H4, H5, H6, H7⟩ := H
  obtain ⟨h', chars', c1, c2, c3, _, c5, _⟩ :=
    C36_string_append_char example_full_string.2 example_full_string.1.2
      example_full_string.1.1 (lisp_char_create 0x42) 1 1 [lisp_char_create 0x41]
      H1 H2 (Nat.le_refl 1) H3 H4 H5
  refine ⟨H6, h', chars', c1, ?_, ?_, (c5 rfl).1⟩
  · rw [c2]; rfl
  · rw [c3, H7]; rfl


/-! ## A list that is not closed before the end of the stream -/

/-- A designator that is neither `T` nor `NIL` is returned as it is. -/
theorem best_stream_other (g : lisp_globals) (hT : g.lisp_T ≠ 0) (hN : g.lisp_NIL ≠ 0)
    (fuel : Nat) (h : lisp_heap) (environment d : lisp_object_t)
    (h1 : d ≠ g.lisp_T) (h2 : d ≠ g.lisp_NIL) :
    lisp_stream_best_input_stream g fuel h environment d = .ok d
      ∧ lisp_stream_best_output_stream g fuel h environment d = .ok d := by
  have e : lisp_streamp g d ≠ 0 := by
    unfold lisp_streamp lisp_object_has_tag
    split
    · exact hT
    · exact hN
  unfold lisp_stream_best_input_stream lisp_stream_best_output_stream
  simp only [if_neg h1, if_neg h2, if_pos e]
  exact ⟨rfl, rfl⟩

/-- A store into a cell leaves the view of a character-buffer stream. -/
theorem charbuf_view_write_cell (h : lisp_heap) (stream : Nat) (st : charbuf_state)
    (hv : charbuf_view h stream = some st) (a x y x' y' : Nat)
    (ha : heap_read h a = some (lisp_record.cell x y)) :
    charbuf_view (heap_write h a (lisp_record.cell x' y')) stream = some st := by
  obtain ⟨functions, flags, metadata, p1, p2, p3, p4, p5, p6, p7, p8, p9⟩ :=
    charbuf_view_parts h stream st hv
  have n1 : lisp_object_get_raw_value stream ≠ a := by
    intro e
    rw [e, ha] at p1
    cases p1
  have n2 : lisp_object_get_raw_value functions ≠ a := by
    intro e
    rw [e, ha] at p2
    cases p2
  have n3 : lisp_object_get_raw_value metadata ≠ a := by
    intro e
    rw [e, ha] at p3
    unfold charbuf_record at p3
    cases p3
  unfold charbuf_view
  rw [heap_read_write, if_neg n1, p1]
  simp only
  rw [heap_read_write, if_neg n2, p2]
  simp only
  rw [heap_read_write, if_neg n3, p3]
  unfold charbuf_record
  simp only
  rw [← p4]
  have hc : True ∧ st.metadata ≠ lisp_object_get_raw_value stream
      ∧ st.metadata ≠ lisp_object_get_raw_value functions
      ∧ st.metadata < (heap_write h a (lisp_record.cell x' y')).lisp_heap_cur
      ∧ lisp_object_get_raw_value stream < (heap_write h a (lisp_record.cell x' y')).lisp_heap_cur
      ∧ lisp_object_get_raw_value functions
          < (heap_write h a (lisp_record.cell x' y')).lisp_heap_cur :=
    ⟨trivial, p5, p6, p7, p8, p9⟩
  rw [if_pos hc]

/-- At the end of the text `lisp_read_object` returns `NIL` and leaves the
heap, when it has the fuel to return. -/
theorem read_object_eof (g : lisp_globals) (h : lisp_heap) (environment stream recursivep : Nat)
    (st : charbuf_state) (hv : charbuf_view h stream = some st) (ha : charbuf_ahead st = []) :
    ∀ fuel, lisp_read_object g fuel h environment stream recursivep = .ok (g.lisp_NIL, h)
      ∨ lisp_read_object g fuel h environment stream recursivep
          = .error lisp_error.out_of_fuel := by
  have r := view_read_eof g h stream st hv ha
  intro fuel
  cases fuel with
  | zero => right; rw [lisp_read_object]
  | succ k =>
    cases k with
    | zero =>
      right
      rw [lisp_read_object]
      unfold lisp_skip_whitespace_and_comments
      rfl
    | succ j =>
      left
      rw [lisp_read_object]
      unfold lisp_skip_whitespace_and_comments
      simp only [bind, Except.bind, r, if_true, pure, Except.pure]

/-- The loop of `lisp_read_list` at the end of the text: every turn appends
`NIL` to the list, and the loop goes on until the fuel is spent. -/
theorem read_list_loop_eof (g : lisp_globals) (environment stream eol_signifier : Nat)
    (st : charbuf_state) (ha : charbuf_ahead st = []) (hne : g.lisp_NIL ≠ eol_signifier) :
    ∀ (fuel : Nat) (h : lisp_heap) (list_head list_cur : Nat),
      charbuf_view h stream = some st → h.lisp_heap_cur % 16 = 0 →
      (list_cur = g.lisp_NIL
        ∨ (list_cur % 16 = 0 ∧ list_cur < h.lisp_heap_cur
            ∧ ∃ a b, heap_read h list_cur = some (lisp_record.cell a b))) →
      lisp_read_list_loop g fuel h environment stream eol_signifier list_head list_cur
        = .error lisp_error.out_of_fuel := by
  intro fuel
  induction fuel with
  | zero =>
    intro h list_head list_cur _ _ _
    rw [lisp_read_list_loop]
  | succ k ih =>
    intro h list_head list_cur hv hal hcur
    rw [lisp_read_list_loop]
    rcases read_object_eof g h environment stream eol_signifier st hv ha k with r | r
    · have v2 : charbuf_view (cons_heap h g.lisp_NIL g.lisp_NIL) stream = some st :=
        charbuf_view_keep h _ stream st hv (by rw [cons_heap_cur]; omega)
          (fun a ha' => by rw [cons_heap_read, if_neg (by omega)])
      have al2 : (cons_heap h g.lisp_NIL g.lisp_NIL).lisp_heap_cur % 16 = 0 := by
        rw [cons_heap_cur]; omega
      have rd2 : heap_read (cons_heap h g.lisp_NIL g.lisp_NIL) h.lisp_heap_cur
          = some (lisp_record.cell g.lisp_NIL g.lisp_NIL) := by
        rw [cons_heap_read, if_pos rfl]
      simp only [bind, Except.bind, r, ne_eq, hne, not_false_eq_true, if_true,
        lisp_cell_cons_heap]
      by_cases e : list_cur = g.lisp_NIL
      · rw [if_pos e]
        exact ih _ _ _ v2 al2
          (Or.inr ⟨hal, by rw [cons_heap_cur]; omega, _, _, rd2⟩)
      · rw [if_neg e]
        rcases hcur with hc | ⟨c1, c2, a, b, c3⟩
        · exact absurd hc e
        · have raw : lisp_object_get_raw_value list_cur = list_cur := raw_value_aligned _ c1
          have rd : heap_read (cons_heap h g.lisp_NIL g.lisp_NIL) list_cur
              = some (lisp_record.cell a b) := by
            rw [cons_heap_read, if_neg (by omega), c3]
          have gv : lisp_cell_get_value (cons_heap h g.lisp_NIL g.lisp_NIL) list_cur
              = some (a, b) := get_value_of_read _ _ _ _ (by rw [raw]; exact rd)
          unfold lisp_cell_rplacd
          simp only [gv, raw]
          refine ih _ _ _ (charbuf_view_write_cell _ stream st v2 _ _ _ _ _ rd) al2
            (Or.inr ⟨hal, by rw [heap_write_cur, cons_heap_cur]; omega, g.lisp_NIL, g.lisp_NIL,
              ?_⟩)
          rw [heap_read_write, if_neg (by omega), rd2]
    · simp only [bind, Except.bind, r]

/-- Reading a text that is the single character `(`: `lisp_read` does not
return, whatever the fuel. -/
theorem read_open_list_eof (g : lisp_globals) (hg : globals_wf g)
    (hT0 : g.lisp_T ≠ 0) (hN0 : g.lisp_NIL ≠ 0)
    (h : lisp_heap) (environment stream : Nat) (st : charbuf_state)
    (hv : charbuf_view h stream = some st) (hrd : st.is_readable = true)
    (ha : charbuf_ahead st = [char_paren_open]) (hal : h.lisp_heap_cur % 16 = 0)
    (hN : lisp_object_get_raw_value g.lisp_NIL < h.lisp_heap_cur)
    (hsT : stream ≠ g.lisp_T) (hsN : stream ≠ g.lisp_NIL) :
    ∀ fuel, lisp_read g fuel h environment stream g.lisp_NIL
      = .error lisp_error.out_of_fuel := by
  intro fuel
  have hb := (best_stream_other g hT0 hN0 (fuel - 1) h environment stream hsT hsN).1
  obtain ⟨b1, _, b3, b4⟩ := ascii_char g hg char_paren_open (by decide)
  obtain ⟨_, _, a3⟩ := charbuf_ahead_cons st _ _ ha
  cases fuel with
  | zero => rw [lisp_read]
  | succ k =>
    rw [lisp_read]
    simp only [Nat.add_sub_cancel] at hb
    simp only [bind, Except.bind, hb]
    cases k with
    | zero => rw [lisp_read_object]
    | succ j =>
      rw [lisp_read_object]
      cases j with
      | zero =>
        unfold lisp_skip_whitespace_and_comments
        rfl
      | succ i =>
        obtain ⟨h1, s1, v1, k1⟩ := skip_whitespace_none g hg stream i h st char_paren_open []
          hv hrd ha (by decide) (by decide) (by decide) (by decide) (by decide)
        obtain ⟨h2, h3, r2, _, r3, v3, k3⟩ :=
          view_read_unread g h1 stream st char_paren_open [] v1 hrd ha
        obtain ⟨h4, r4, v4, k4⟩ := view_read_char g h3 stream st char_paren_open [] v3 hrd ha
        have hx := heap_extends_atom_create_c h4 text_SI_END_OF_LIST
        have al4 : h4.lisp_heap_cur % 16 = 0 := by rw [k4, k3, k1]; exact hal
        obtain ⟨t1, t2, _, _, _⟩ := atom_create_c_spec h4 al4 text_SI_END_OF_LIST
        have hne : g.lisp_NIL ≠ (lisp_atom_create_c h4 text_SI_END_OF_LIST).1 := by
          intro e
          rw [← e] at t2
          rw [t2, k4, k3, k1] at hN
          exact Nat.lt_irrefl _ hN
        have loop := read_list_loop_eof g environment stream
          (lisp_atom_create_c h4 text_SI_END_OF_LIST).1 _ a3 hne i
          (lisp_atom_create_c h4 text_SI_END_OF_LIST).2 g.lisp_NIL g.lisp_NIL
          (charbuf_view_keep h4 _ stream _ v4 hx.cur hx.same) (hx.aligned al4) (Or.inl rfl)
        have d1 : ¬ (char_0 ≤ char_paren_open ∧ char_paren_open ≤ char_9) := by decide
        have d2 : ¬ (char_paren_open = char_plus ∨ char_paren_open = char_minus) := by decide
        have d3 : ¬ (char_paren_open = char_single_quote) := by decide
        rw [b4] at b1 b3 r2 r4
        simp only [bind, Except.bind, s1, r2, if_neg b3, b1, d1, d2, d3, if_false, if_true, r3]
        rw [lisp_read_list]
        simp only [bind, Except.bind, r4, b3, ne_eq, not_true_eq_false, or_self, if_false,
          loop]

set_option maxRecDepth 100000 in
/-- Claim C33 at the failing input: the text is the single character `(`, in
the read stream of `example_open_list`.  Whatever the fuel, `lisp_read` does
not return `NIL`, nor any value: at the end of the stream `lisp_read_object`
returns `NIL`, which is not the end-of-list signifier, so the loop of
`lisp_read_list` appends `NIL` to the list and reads again, without end. -/
theorem C33_open_list_read_never_returns (fuel : Nat) :
    lisp_read example_root.g fuel example_open_list.h example_open_list.environment
        example_open_list.stream example_root.g.lisp_NIL
      = .error lisp_error.out_of_fuel
    ∧ tests_buffer example_open_list.h example_open_list.stream = c_str "(" := by
  have H : charbuf_view example_open_list.h example_open_list.stream
        = some ⟨1050864, c_str "(", 0, 0, 1, 4095, true, false⟩
      ∧ charbuf_ahead ⟨1050864, c_str "(", 0, 0, 1, 4095, true, false⟩ = [char_paren_open]
      ∧ example_open_list.h.lisp_heap_cur % 16 = 0
      ∧ lisp_object_get_raw_value example_root.g.lisp_NIL < example_open_list.h.lisp_heap_cur
      ∧ example_open_list.stream ≠ example_root.g.lisp_T
      ∧ example_open_list.stream ≠ example_root.g.lisp_NIL
      ∧ example_root.g.lisp_T ≠ 0 ∧ example_root.g.lisp_NIL ≠ 0
      ∧ tests_buffer example_open_list.h example_open_list.stream = c_str "(" := by
    decide!
  obtain ⟨H1, H2, H3, H4, H5, H6, H7, H8, H9⟩ := H
  exact ⟨read_open_list_eof example_root.g example_root_globals_wf H7 H8 example_open_list.h
    example_open_list.environment example_open_list.stream _ H1 rfl H2 H3 H4 H5 H6 fuel, H9⟩


/-! ## Writing text to a character buffer -/

theorem heap_kept_except_refl (h : lisp_heap) (m : Nat) : heap_kept_except h h m :=
  ⟨Nat.le_refl _, fun e => e, fun _ _ _ => rfl⟩

theorem heap_kept_except_trans (h1 h2 h3 : lisp_heap) (m : Nat)
    (a : heap_kept_except h1 h2 m) (b : heap_kept_except h2 h3 m) :
    heap_kept_except h1 h3 m :=
  ⟨Nat.le_trans a.1 b.1, fun e => b.2.1 (a.2.1 e),
    fun x hx hm => by rw [b.2.2 x (Nat.lt_of_lt_of_le hx a.1) hm, a.2.2 x hx hm]⟩

theorem heap_kept_except_write (h : lisp_heap) (m : Nat) (r : lisp_record) :
    heap_kept_except h (heap_write h m r) m :=
  ⟨Nat.le_refl _, fun e => e, fun a _ ha => by rw [heap_read_write, if_neg ha]⟩

theorem heap_kept_except_extends (h h' : lisp_heap) (m : Nat) (e : heap_extends h h') :
    heap_kept_except h h' m :=
  ⟨e.cur, e.aligned, fun a ha _ => e.same a ha⟩

theorem charbuf_appended_nil (st : charbuf_state) : charbuf_appended st [] = st := by
  unfold charbuf_appended
  simp

theorem charbuf_appended_append (st : charbuf_state) (a b : List Nat) :
    charbuf_appended (charbuf_appended st a) b = charbuf_appended st (a ++ b) := by
  unfold charbuf_appended
  simp [Nat.add_assoc]

/-- Writing one ASCII character. -/
theorem write_char_kept (g : lisp_globals) (hg : globals_wf g) (h : lisp_heap) (stream : Nat)
    (st : charbuf_state) (c : Nat) (hc : c < 128) (rd : print_ready h stream st)
    (hroom : st.w_pos + 1 ≤ st.max) :
    ∃ h', lisp_char_print_quoted g h stream c g.lisp_NIL = .ok (stream, h')
      ∧ print_ready h' stream (charbuf_appended st [c])
      ∧ heap_kept_except h h' st.metadata := by
  obtain ⟨b1, b2, _, b4⟩ := ascii_char g hg c hc
  rw [b4] at b1
  have e : buf_set st.buf st.w_pos c = st.buf ++ [c] := by
    unfold buf_set
    rw [rd.at_end, if_neg (Nat.lt_irrefl _), Nat.sub_self]
    simp
  refine ⟨heap_write h st.metadata (charbuf_record (charbuf_appended st [c])), ?_,
    ⟨charbuf_view_write h stream st _ rd.view rfl, rd.writable, ?_, rd.aligned⟩,
    heap_kept_except_write h _ _⟩
  · unfold lisp_char_print_quoted
    simp only [ne_eq, not_true_eq_false, ↓reduceIte, bind, Except.bind, pure, Except.pure]
    rw [charbuf_write_char g h stream _ st rd.view rd.writable (by omega), b1, b2, e]
    rfl
  · unfold charbuf_appended
    simp only [List.length_append, List.length_singleton]
    rw [rd.at_end]

/-- The loop of `lisp_string_print_quoted` over ASCII characters. -/
theorem print_loop_kept (g : lisp_globals) (hg : globals_wf g) (stream : Nat) :
    ∀ (cs : List Nat), (∀ c ∈ cs, c < 128) →
    ∀ (h : lisp_heap) (st : charbuf_state), print_ready h stream st →
      st.w_pos + cs.length ≤ st.max →
      ∃ h', lisp_string_print_loop g (cs.map (fun c => lisp_char_create (word_of_c_char c)))
            h stream = .ok h'
        ∧ print_ready h' stream (charbuf_appended st cs)
        ∧ heap_kept_except h h' st.metadata := by
  intro cs
  induction cs with
  | nil =>
    intro _ h st rd _
    refine ⟨h, rfl, ?_, heap_kept_except_refl _ _⟩
    rw [charbuf_appended_nil]
    exact rd
  | cons c cs ih =>
    intro hcs h st rd hroom
    have hc := hcs c (List.mem_cons_self _ _)
    obtain ⟨b1, _, _, _⟩ := ascii_char g hg c hc
    simp only [List.length_cons] at hroom
    obtain ⟨h1, r1, rd1, k1⟩ := write_char_kept g hg h stream st c hc rd (by omega)
    obtain ⟨h2, r2, rd2, k2⟩ := ih (fun x hx => hcs x (List.mem_cons_of_mem _ hx)) h1
      (charbuf_appended st [c]) rd1
      (by unfold charbuf_appended; simp only [List.length_singleton]; omega)
    refine ⟨h2, ?_, ?_, heap_kept_except_trans _ _ _ _ k1 k2⟩
    · simp only [List.map_cons]
      unfold lisp_string_print_loop
      simp only [b1, bind, Except.bind, r1, r2]
    · rw [charbuf_appended_append] at rd2
      exact rd2

/-- Printing, without quotes, a new string made of an ASCII text: what
`lisp_atom_print` and `lisp_fixnum_print` do. -/
theorem print_c_string_kept (g : lisp_globals) (hg : globals_wf g) (h : lisp_heap)
    (stream : Nat) (st : charbuf_state) (text : List Nat)
    (htext : ∀ c ∈ text, c ≠ 0 ∧ c < 128) (rd : print_ready h stream st)
    (hroom : st.w_pos + text.length ≤ st.max) :
    ∃ h', lisp_string_print_quoted g (lisp_string_create_c h text).2 stream
          (lisp_string_create_c h text).1 g.lisp_NIL = .ok (g.lisp_T, h')
      ∧ print_ready h' stream (charbuf_appended st text)
      ∧ heap_kept_except h h' st.metadata := by
  obtain ⟨s1, s2, s3, s4⟩ := string_create_c_chars h rd.aligned text
    (fun x hx => (htext x hx).1)
  have rd1 : print_ready (lisp_string_create_c h text).2 stream st :=
    ⟨charbuf_view_keep h _ stream st rd.view s2 s4, rd.writable, rd.at_end, s3⟩
  obtain ⟨h2, r2, rd2, k2⟩ := print_loop_kept g hg stream text
    (fun x hx => (htext x hx).2) _ st rd1 hroom
  refine ⟨h2, ?_, rd2, heap_kept_except_trans _ _ _ _ ⟨s2, fun _ => s3, fun a ha _ => s4 a ha⟩ k2⟩
  unfold lisp_string_print_quoted
  simp only [ne_eq, not_true_eq_false, ↓reduceIte, bind, Except.bind, pure, Except.pure, s1, r2]

/-- Printing a character inside a cell: `#\` and the character. -/
theorem print_char_quoted_kept (g : lisp_globals) (hg : globals_wf g) (h : lisp_heap)
    (stream : Nat) (st : charbuf_state) (c : Nat) (hc : c < 128) (rd : print_ready h stream st)
    (hroom : st.w_pos + 3 ≤ st.max) :
    ∃ h', lisp_char_print_quoted g h stream c g.lisp_T = .ok (stream, h')
      ∧ print_ready h' stream (charbuf_appended st [char_octothorpe, char_backslash, c])
      ∧ heap_kept_except h h' st.metadata := by
  obtain ⟨h1, r1, rd1, k1⟩ := write_char_kept g hg h stream st char_octothorpe (by decide) rd
    (by omega)
  obtain ⟨h2, r2, rd2, k2⟩ := write_char_kept g hg h1 stream _ char_backslash (by decide) rd1
    (by unfold charbuf_appended; simp only [List.length_singleton]; omega)
  obtain ⟨h3, r3, rd3, k3⟩ := write_char_kept g hg h2 stream _ c hc rd2
    (by unfold charbuf_appended; simp only [List.length_singleton]; omega)
  rw [charbuf_appended_append] at rd2
  rw [charbuf_appended_append, charbuf_appended_append] at rd3
  refine ⟨h3, ?_, rd3, heap_kept_except_trans _ _ _ _ k1 (heap_kept_except_trans _ _ _ _ k2 k3)⟩
  unfold lisp_char_print_quoted at r1 r2 r3 ⊢
  simp only [ne_eq, not_true_eq_false, ↓reduceIte, bind, Except.bind, pure, Except.pure,
    hg.T_ne_NIL, not_false_eq_true] at r1 r2 r3 ⊢
  rw [r1]
  simp only
  rw [r2]
  simp only
  exact r3


/-! ## Values in the heap -/

theorem allocated_apart_iff (h : lisp_heap) (m a : Nat) :
    allocated_apart h m a = true ↔ a < h.lisp_heap_cur ∧ a ≠ m := by
  unfold allocated_apart
  simp only [Bool.and_eq_true, decide_eq_true_eq]

theorem allocated_apart_kept (h h' : lisp_heap) (m a : Nat) (k : heap_kept_except h h' m)
    (e : allocated_apart h m a = true) :
    allocated_apart h' m a = true ∧ heap_read h' a = heap_read h a := by
  rw [allocated_apart_iff] at e ⊢
  exact ⟨⟨Nat.lt_of_lt_of_le e.1 k.1, e.2⟩, k.2.2 a e.1 e.2⟩

/-- What `represents` says of a cell. -/
theorem represents_cell (g : lisp_globals) (h : lisp_heap) (m o : Nat) (a d : printed_value)
    (e : represents g h m o (.cell a d) = true) :
    o % 16 = 0 ∧ o < h.lisp_heap_cur ∧ o ≠ m
      ∧ ∃ x y, heap_read h o = some (lisp_record.cell x y)
        ∧ represents g h m x a = true ∧ represents g h m y d = true := by
  unfold represents at e
  simp only [Bool.and_eq_true, decide_eq_true_eq, allocated_apart_iff] at e
  obtain ⟨⟨e1, e2, e3⟩, e4⟩ := e
  have t : o % 16 = 0 := by
    rw [lisp_object_get_tag_eq] at e1
    exact e1
  have raw : lisp_object_get_raw_value o = o := raw_value_aligned o t
  rw [raw] at e2 e3 e4
  refine ⟨t, e2, e3, ?_⟩
  split at e4
  · rename_i x y hxy
    simp only [Bool.and_eq_true] at e4
    exact ⟨x, y, hxy, e4.1, e4.2⟩
  · cases e4

/-- What `represents` says of an atom and of `NIL`. -/
theorem represents_atom (g : lisp_globals) (h : lisp_heap) (m o : Nat) (name : List Nat)
    (e : represents g h m o (.atom name) = true) :
    o ≠ g.lisp_NIL ∧ lisp_object_get_tag o = lisp_tag_atom
      ∧ lisp_atom_get_value h o = name ∧ ∀ c ∈ name, c ≠ 0 ∧ c < 128 := by
  unfold represents at e
  simp only [Bool.and_eq_true, decide_eq_true_eq, allocated_apart_iff, List.all_eq_true] at e
  obtain ⟨⟨⟨⟨e1, e2⟩, _⟩, e4⟩, e5⟩ := e
  refine ⟨e1, e2, ?_, e5⟩
  unfold lisp_atom_get_value
  rw [e4]

theorem represents_nil (g : lisp_globals) (h : lisp_heap) (m o : Nat)
    (e : represents g h m o .nil = true) :
    o = g.lisp_NIL ∧ lisp_atom_get_value h o = c_str "NIL" := by
  unfold represents at e
  simp only [Bool.and_eq_true, decide_eq_true_eq, allocated_apart_iff] at e
  obtain ⟨⟨e1, _⟩, e4⟩ := e
  refine ⟨e1, ?_⟩
  unfold lisp_atom_get_value
  rw [e4]

theorem represents_string (g : lisp_globals) (h : lisp_heap) (m o : Nat) (chars : List Nat)
    (e : represents g h m o (.string chars) = true) :
    lisp_object_get_tag o = lisp_tag_string
      ∧ allocated_apart h m (lisp_object_get_raw_value o) = true
      ∧ allocated_apart h m (lisp_object_get_raw_value (lisp_string_get_value h o).1) = true
      ∧ lisp_string_chars h o = chars.map (fun c => lisp_char_create (word_of_c_char c))
      ∧ ∀ c ∈ chars, c < 128 := by
  unfold represents at e
  simp only [Bool.and_eq_true, decide_eq_true_eq, List.all_eq_true] at e
  obtain ⟨⟨⟨⟨e1, e2⟩, e3⟩, e4⟩, e5⟩ := e
  refine ⟨e1, e2, ?_, e4, e5⟩
  split at e3
  · rename_i buffer _ _ hb
    have hv : (lisp_string_get_value h o).1 = buffer := by
      unfold lisp_string_get_value
      rw [hb]
    rw [hv]
    simp only [Bool.and_eq_true] at e3
    exact e3.1
  · cases e3

/-- A value stays what it is in a heap that keeps what was allocated. -/
theorem represents_kept (g : lisp_globals) (h h' : lisp_heap) (m : Nat)
    (k : heap_kept_except h h' m) :
    ∀ (v : printed_value) (o : Nat), represents g h m o v = true →
      represents g h' m o v = true := by
  intro v
  induction v with
  | nil =>
    intro o e
    unfold represents at e ⊢
    simp only [Bool.and_eq_true, decide_eq_true_eq] at e ⊢
    obtain ⟨⟨e1, e2⟩, e3⟩ := e
    obtain ⟨a1, a2⟩ := allocated_apart_kept h h' m _ k e2
    exact ⟨⟨e1, a1⟩, by rw [a2]; exact e3⟩
  | atom name =>
    intro o e
    unfold represents at e ⊢
    simp only [Bool.and_eq_true, decide_eq_true_eq] at e ⊢
    obtain ⟨⟨⟨⟨e1, e2⟩, e3⟩, e4⟩, e5⟩ := e
    obtain ⟨a1, a2⟩ := allocated_apart_kept h h' m _ k e3
    exact ⟨⟨⟨⟨e1, e2⟩, a1⟩, by rw [a2]; exact e4⟩, e5⟩
  | fixnum f =>
    intro o e
    unfold represents at e ⊢
    exact e
  | char c =>
    intro o e
    unfold represents at e ⊢
    exact e
  | string chars =>
    intro o e
    obtain ⟨s1, s2, s3, s4, s5⟩ := represents_string g h m o chars e
    obtain ⟨a1, a2⟩ := allocated_apart_kept h h' m _ k s2
    obtain ⟨b1, b2⟩ := allocated_apart_kept h h' m _ k s3
    have c1 := string_chars_agree h h' o a2 b2
    unfold represents at e ⊢
    simp only [Bool.and_eq_true, decide_eq_true_eq] at e ⊢
    obtain ⟨⟨⟨⟨e1, e2⟩, e3⟩, e4⟩, e5⟩ := e
    refine ⟨⟨⟨⟨e1, a1⟩, ?_⟩, by rw [c1]; exact e4⟩, e5⟩
    rw [a2]
    split at e3
    · rename_i buffer _ _ hb
      have hbuf : (lisp_string_get_value h o).1 = buffer := by
        unfold lisp_string_get_value
        rw [hb]
      rw [hbuf] at b1 b2
      simp only [Bool.and_eq_true] at e3 ⊢
      refine ⟨b1, ?_⟩
      rw [b2]
      exact e3.2
    · cases e3
  | cell a d iha ihd =>
    intro o e
    obtain ⟨c1, c2, c3, x, y, c4, c5, c6⟩ := represents_cell g h m o a d e
    have raw : lisp_object_get_raw_value o = o := raw_value_aligned o c1
    unfold represents
    simp only [Bool.and_eq_true, decide_eq_true_eq, allocated_apart_iff]
    rw [raw, k.2.2 o c2 c3, c4]
    refine ⟨⟨?_, Nat.lt_of_lt_of_le c2 k.1, c3⟩, ?_⟩
    · rw [lisp_object_get_tag_eq]; exact c1
    · simp only [Bool.and_eq_true]
      exact ⟨iha x c5, ihd y c6⟩


/-! ## Printing the elements of a cell -/

theorem NIL_not_NULL (g : lisp_globals) (hg : globals_wf g) : g.lisp_NIL ≠ 0 := by
  intro e
  have := hg.NIL_atom
  rw [e] at this
  revert this
  decide

/-- Printing an atom (also `NIL`) inside a cell: its name. -/
theorem print_atom_in_cell (g : lisp_globals) (hg : globals_wf g) (hT0 : g.lisp_T ≠ 0)
    (environment stream : Nat) (hsT : stream ≠ g.lisp_T) (hsN : stream ≠ g.lisp_NIL)
    (fuel : Nat) (hf : 2 ≤ fuel) (h : lisp_heap) (st : charbuf_state) (o : Nat)
    (name : List Nat) (rd : print_ready h stream st)
    (htag : lisp_object_get_tag o = lisp_tag_atom) (hname : lisp_atom_get_value h o = name)
    (hascii : ∀ c ∈ name, c ≠ 0 ∧ c < 128) (hroom : st.w_pos + name.length ≤ st.max) :
    ∃ r h', lisp_print_for_cell g fuel h environment stream o g.lisp_T = .ok (r, h')
      ∧ print_ready h' stream (charbuf_appended st name)
      ∧ heap_kept_except h h' st.metadata := by
  obtain ⟨k, rfl⟩ : ∃ k, fuel = k + 2 := ⟨fuel - 2, by omega⟩
  have hb := (best_stream_other g hT0 (NIL_not_NULL g hg) k h environment stream hsT hsN).2
  obtain ⟨h', r1, rd1, k1⟩ := print_c_string_kept g hg h stream st name hascii rd hroom
  refine ⟨g.lisp_T, h', ?_, rd1, k1⟩
  have n1 : lisp_tag_atom ≠ lisp_tag_cell := by decide
  have n2 : lisp_tag_atom ≠ lisp_tag_char := by decide
  have n3 : lisp_tag_atom ≠ lisp_tag_string := by decide
  have n4 : lisp_tag_atom ≠ lisp_tag_fixnum := by decide
  rw [lisp_print_for_cell]
  simp only [htag, if_neg n1, if_neg n2, if_neg n3]
  rw [lisp_print]
  simp only [bind, Except.bind, hb, htag, if_neg n4, if_true]
  unfold lisp_atom_print
  rw [hname]
  exact r1

/-- Printing a fixnum inside a cell: its decimal text. -/
theorem print_fixnum_in_cell (g : lisp_globals) (hg : globals_wf g) (hT0 : g.lisp_T ≠ 0)
    (environment stream : Nat) (hsT : stream ≠ g.lisp_T) (hsN : stream ≠ g.lisp_NIL)
    (fuel : Nat) (hf : 2 ≤ fuel) (h : lisp_heap) (st : charbuf_state) (f : Int)
    (hmin : lisp_fixnum_min true ≤ f) (hmax : f ≤ lisp_fixnum_max true)
    (rd : print_ready h stream st) (hroom : st.w_pos + (fixnum_text f).length ≤ st.max) :
    ∃ r h', lisp_print_for_cell g fuel h environment stream (lisp_fixnum_create true f)
          g.lisp_T = .ok (r, h')
      ∧ print_ready h' stream (charbuf_appended st (fixnum_text f))
      ∧ heap_kept_except h h' st.metadata := by
  obtain ⟨k, rfl⟩ : ∃ k, fuel = k + 2 := ⟨fuel - 2, by omega⟩
  have hb := (best_stream_other g hT0 (NIL_not_NULL g hg) k h environment stream hsT hsN).2
  have hbound : f.natAbs < 10 ^ 20 := by
    have := fixnum_natAbs_bound f hmin hmax
    omega
  have etext : c_snprintf_lld f = fixnum_text f := c_snprintf_lld_eq f hbound
  obtain ⟨v1, htag⟩ := fixnum_round_trip true f hmin hmax
  have hch := snprintf_lld_chars f hbound
  rw [etext] at hch
  obtain ⟨h', r1, rd1, k1⟩ := print_c_string_kept g hg h stream st (fixnum_text f)
    (fun c hc => ⟨(hch c hc).2.1, (hch c hc).1⟩) rd hroom
  refine ⟨g.lisp_T, h', ?_, rd1, k1⟩
  have n1 : lisp_tag_fixnum ≠ lisp_tag_cell := by decide
  have n2 : lisp_tag_fixnum ≠ lisp_tag_char := by decide
  have n3 : lisp_tag_fixnum ≠ lisp_tag_string := by decide
  rw [lisp_print_for_cell]
  simp only [htag, if_neg n1, if_neg n2, if_neg n3]
  rw [lisp_print]
  simp only [bind, Except.bind, hb, htag, if_true, v1]
  unfold lisp_fixnum_print
  rw [etext]
  exact r1

/-- Printing a character inside a cell: `#\` and the character. -/
theorem print_char_in_cell (g : lisp_globals) (hg : globals_wf g)
    (environment stream : Nat) (fuel : Nat) (hf : 1 ≤ fuel) (h : lisp_heap)
    (st : charbuf_state) (c : Nat) (hc : c < 128)
    (rd : print_ready h stream st) (hroom : st.w_pos + 3 ≤ st.max) :
    ∃ r h', lisp_print_for_cell g fuel h environment stream (lisp_char_create c)
          g.lisp_T = .ok (r, h')
      ∧ print_ready h' stream (charbuf_appended st [char_octothorpe, char_backslash, c])
      ∧ heap_kept_except h h' st.metadata := by
  obtain ⟨k, rfl⟩ : ∃ k, fuel = k + 1 := ⟨fuel - 1, by omega⟩
  obtain ⟨v1, htag⟩ := char_create_value c (by omega)
  obtain ⟨h', r1, rd1, k1⟩ := print_char_quoted_kept g hg h stream st c hc rd hroom
  refine ⟨stream, h', ?_, rd1, k1⟩
  have n1 : lisp_tag_char ≠ lisp_tag_cell := by decide
  rw [lisp_print_for_cell]
  simp only [htag, if_neg n1, if_true, v1]
  exact r1

/-- Printing a string inside a cell: its characters between double quotes. -/
theorem print_string_in_cell (g : lisp_globals) (hg : globals_wf g)
    (environment stream : Nat) (fuel : Nat) (hf : 1 ≤ fuel) (h : lisp_heap)
    (st : charbuf_state) (o : Nat) (chars : List Nat)
    (hrep : represents g h st.metadata o (.string chars) = true)
    (rd : print_ready h stream st) (hroom : st.w_pos + (chars.length + 2) ≤ st.max) :
    ∃ r h', lisp_print_for_cell g fuel h environment stream o g.lisp_T = .ok (r, h')
      ∧ print_ready h' stream
          (charbuf_appended st ([char_double_quote] ++ chars ++ [char_double_quote]))
      ∧ heap_kept_except h h' st.metadata := by
  obtain ⟨k, rfl⟩ : ∃ k, fuel = k + 1 := ⟨fuel - 1, by omega⟩
  obtain ⟨htag, s2, s3, s4, s5⟩ := represents_string g h st.metadata o chars hrep
  obtain ⟨h1, r1, rd1, k1⟩ := write_char_kept g hg h stream st char_double_quote (by decide) rd
    (by omega)
  obtain ⟨_, a2⟩ := allocated_apart_kept h h1 st.metadata _ k1 s2
  obtain ⟨_, b2⟩ := allocated_apart_kept h h1 st.metadata _ k1 s3
  have c1 : lisp_string_chars h1 o = chars.map (fun c => lisp_char_create (word_of_c_char c)) := by
    rw [string_chars_agree h h1 o a2 b2, s4]
  obtain ⟨h2, r2, rd2, k2⟩ := print_loop_kept g hg stream chars s5 h1 _ rd1
    (by unfold charbuf_appended; simp only [List.length_singleton]; omega)
  obtain ⟨h3, r3, rd3, k3⟩ := write_char_kept g hg h2 stream _ char_double_quote (by decide) rd2
    (by unfold charbuf_appended; simp only [List.length_singleton]; omega)
  rw [charbuf_appended_append, charbuf_appended_append] at rd3
  refine ⟨g.lisp_T, h3, ?_, rd3,
    heap_kept_except_trans _ _ _ _ k1 (heap_kept_except_trans _ _ _ _ k2 k3)⟩
  have n1 : lisp_tag_string ≠ lisp_tag_cell := by decide
  have n2 : lisp_tag_string ≠ lisp_tag_char := by decide
  rw [lisp_print_for_cell]
  simp only [htag, if_neg n1, if_neg n2, if_true]
  unfold lisp_string_print_quoted
  simp only [ne_eq, hg.T_ne_NIL, not_false_eq_true, if_true, bind, Except.bind, r1, c1, r2, r3,
    pure, Except.pure]


/-! ## Printing a cell readably -/

theorem charbuf_appended_fields (st : charbuf_state) (text : List Nat) :
    (charbuf_appended st text).w_pos = st.w_pos + text.length
      ∧ (charbuf_appended st text).max = st.max
      ∧ (charbuf_appended st text).metadata = st.metadata :=
  ⟨rfl, rfl, rfl⟩

theorem text_in_cell_cell (a d : printed_value) :
    text_in_cell (.cell a d) false
        = [char_paren_open] ++ text_in_cell a false ++ text_in_cell d true ++ [char_paren_close]
      ∧ text_in_cell (.cell a d) true
        = [char_space] ++ text_in_cell a false ++ text_in_cell d true := by
  constructor
  · rw [text_in_cell]
    rfl
  · rw [text_in_cell]
    simp

/-- The readable printing of a cell whose parts are printed as the format
says: `(`, the `CAR`, the `CDR` chain and `)`. -/
theorem dotted_of_cell (g : lisp_globals) (hg : globals_wf g) (environment stream : Nat)
    (a d : printed_value) (pa : prints_element g environment stream a)
    (qd : prints_chain g environment stream d)
    (fuel : Nat) (h : lisp_heap) (st : charbuf_state) (o : Nat)
    (hf : 1 + max (print_fuel a) (print_fuel d) ≤ fuel) (rd : print_ready h stream st)
    (hrep : represents g h st.metadata o (.cell a d) = true)
    (hroom : st.w_pos + (text_in_cell (.cell a d) false).length ≤ st.max) :
    ∃ h', lisp_cell_print_dotted g fuel h environment stream o g.lisp_T = .ok (g.lisp_T, h')
      ∧ print_ready h' stream (charbuf_appended st (text_in_cell (.cell a d) false))
      ∧ heap_kept_except h h' st.metadata := by
  obtain ⟨k, rfl⟩ : ∃ k, fuel = k + 1 := ⟨fuel - 1, by omega⟩
  have hk1 : print_fuel a ≤ k := by
    have := Nat.le_max_left (print_fuel a) (print_fuel d)
    omega
  have hk2 : print_fuel d ≤ k := by
    have := Nat.le_max_right (print_fuel a) (print_fuel d)
    omega
  obtain ⟨c1, c2, c3, x, y, c4, c5, c6⟩ := represents_cell g h st.metadata o a d hrep
  have raw : lisp_object_get_raw_value o = o := raw_value_aligned o c1
  rw [(text_in_cell_cell a d).1] at hroom ⊢
  simp only [List.length_append, List.length_singleton] at hroom
  obtain ⟨h1, r1, rd1, k1⟩ := write_char_kept g hg h stream st char_paren_open (by decide) rd
    (by omega)
  have rx := represents_kept g h h1 st.metadata k1 a x c5
  obtain ⟨r, h2, r2, rd2, k2⟩ := pa k h1 (charbuf_appended st [char_paren_open]) x hk1 rd1 rx
    (by simp only [charbuf_appended_fields, List.length_singleton]; omega)
  have k12 := heap_kept_except_trans _ _ _ _ k1 k2
  have ry := represents_kept g h h2 st.metadata k12 d y c6
  rw [charbuf_appended_append] at rd2
  obtain ⟨h3, r3, rd3, k3⟩ := qd k h2 _ y hk2 rd2 ry
    (by simp only [charbuf_appended_fields, List.length_append, List.length_singleton]; omega)
  rw [charbuf_appended_append] at rd3
  obtain ⟨h4, r4, rd4, k4⟩ := write_char_kept g hg h3 stream _ char_paren_close (by decide) rd3
    (by simp only [charbuf_appended_fields, List.length_append, List.length_singleton]; omega)
  rw [charbuf_appended_append] at rd4
  refine ⟨h4, ?_, rd4, heap_kept_except_trans _ _ _ _ k12 (heap_kept_except_trans _ _ _ _ k3 k4)⟩
  have gv : lisp_cell_get_value h o = some (x, y) :=
    get_value_of_read h o x y (by rw [raw]; exact c4)
  rw [lisp_cell_print_dotted]
  simp only [gv, Option.getD_some, hg.T_ne_NIL, if_false, bind, Except.bind, r1, r2, r3, r4,
    pure, Except.pure]

theorem element_of_cell (g : lisp_globals) (hg : globals_wf g) (environment stream : Nat)
    (a d : printed_value) (pa : prints_element g environment stream a)
    (qd : prints_chain g environment stream d) :
    prints_element g environment stream (.cell a d) := by
  intro fuel h st o hf rd hrep hroom
  obtain ⟨k, rfl⟩ : ∃ k, fuel = k + 1 := ⟨fuel - 1, by rw [print_fuel] at hf; omega⟩
  obtain ⟨c1, _⟩ := represents_cell g h st.metadata o a d hrep
  obtain ⟨h', r1, rd1, k1⟩ := dotted_of_cell g hg environment stream a d pa qd k h st o
    (by rw [print_fuel] at hf; omega) rd hrep hroom
  refine ⟨g.lisp_T, h', ?_, rd1, k1⟩
  have htag : lisp_object_get_tag o = lisp_tag_cell := by
    rw [lisp_object_get_tag_eq]; exact c1
  rw [lisp_print_for_cell]
  simp only [htag, if_true]
  exact r1

/-- The loop of `lisp_cell_print_readably` at a cell: a space, the `CAR` and
the rest of the chain. -/
theorem chain_of_cell (g : lisp_globals) (hg : globals_wf g) (environment stream : Nat)
    (a d : printed_value) (pa : prints_element g environment stream a)
    (qd : prints_chain g environment stream d) :
    prints_chain g environment stream (.cell a d) := by
  intro fuel h st o hf rd hrep hroom
  rw [print_fuel] at hf
  obtain ⟨k, rfl⟩ : ∃ k, fuel = k + 1 := ⟨fuel - 1, by omega⟩
  have hk1 : print_fuel a ≤ k := by
    have := Nat.le_max_left (print_fuel a) (print_fuel d)
    omega
  have hk2 : print_fuel d ≤ k := by
    have := Nat.le_max_right (print_fuel a) (print_fuel d)
    omega
  obtain ⟨c1, c2, c3, x, y, c4, c5, c6⟩ := represents_cell g h st.metadata o a d hrep
  rw [(text_in_cell_cell a d).2] at hroom ⊢
  simp only [List.length_append, List.length_singleton] at hroom
  have hne : o ≠ g.lisp_NIL := by
    intro e
    have := hg.NIL_atom
    rw [← e, lisp_object_get_tag_eq, c1] at this
    revert this
    decide
  have hcp : lisp_cellp g o ≠ g.lisp_NIL := by
    intro e
    exact (lisp_cellp_eq_NIL g hg o).1 e c1
  obtain ⟨h1, r1, rd1, k1⟩ := write_char_kept g hg h stream st char_space (by decide) rd
    (by omega)
  have rx := represents_kept g h h1 st.metadata k1 a x c5
  have car1 : lisp_cell_car g h1 o = x :=
    (lisp_cell_car_cell g hg h1 o x y c1 (by rw [k1.2.2 o c2 c3]; exact c4)).1
  obtain ⟨r, h2, r2, rd2, k2⟩ := pa k h1 (charbuf_appended st [char_space]) x hk1 rd1 rx
    (by simp only [charbuf_appended_fields, List.length_singleton]; omega)
  have k12 := heap_kept_except_trans _ _ _ _ k1 k2
  have ry := represents_kept g h h2 st.metadata k12 d y c6
  have cdr2 : lisp_cell_cdr g h2 o = y :=
    (lisp_cell_car_cell g hg h2 o x y c1 (by rw [k12.2.2 o c2 c3]; exact c4)).2
  rw [charbuf_appended_append] at rd2
  obtain ⟨h3, r3, rd3, k3⟩ := qd k h2 _ y hk2 rd2 ry
    (by simp only [charbuf_appended_fields, List.length_append, List.length_singleton]; omega)
  rw [charbuf_appended_append] at rd3
  refine ⟨h3, ?_, rd3, heap_kept_except_trans _ _ _ _ k12 k3⟩
  rw [lisp_cell_print_readably_loop]
  simp only [ne_eq, hne, not_false_eq_true, if_true, hcp, bind, Except.bind, r1, car1, r2,
    pure, Except.pure, cdr2, r3]

/-- The loop of `lisp_cell_print_readably` at a last `CDR` that is neither
`NIL` nor a cell: ` . ` and the value. -/
theorem chain_of_leaf (g : lisp_globals) (hg : globals_wf g) (environment stream : Nat)
    (v : printed_value) (hfuel : print_fuel v = 3)
    (htext : text_in_cell v true
      = [char_space, char_period, char_space] ++ text_in_cell v false)
    (hleaf : ∀ h m o, represents g h m o v = true → o ≠ g.lisp_NIL ∧ o % 16 ≠ 0)
    (pv : ∀ (fuel : Nat) (h : lisp_heap) (st : charbuf_state) (o : lisp_object_t),
      2 ≤ fuel → print_ready h stream st → represents g h st.metadata o v = true →
      st.w_pos + (text_in_cell v false).length ≤ st.max →
      ∃ r h', lisp_print_for_cell g fuel h environment stream o g.lisp_T = .ok (r, h')
        ∧ print_ready h' stream (charbuf_appended st (text_in_cell v false))
        ∧ heap_kept_except h h' st.metadata) :
    prints_chain g environment stream v := by
  intro fuel h st o hf rd hrep hroom
  rw [hfuel] at hf
  obtain ⟨k, rfl⟩ : ∃ k, fuel = k + 3 := ⟨fuel - 3, by omega⟩
  obtain ⟨hne, hnc⟩ := hleaf h st.metadata o hrep
  rw [htext] at hroom ⊢
  simp only [List.length_append, List.length_cons, List.length_nil] at hroom
  have hcp : lisp_cellp g o = g.lisp_NIL := (lisp_cellp_eq_NIL g hg o).2 hnc
  obtain ⟨h1, r1, rd1, k1⟩ := write_char_kept g hg h stream st char_space (by decide) rd
    (by omega)
  obtain ⟨h2, r2, rd2, k2⟩ := write_char_kept g hg h1 stream _ char_period (by decide) rd1
    (by simp only [charbuf_appended_fields, List.length_singleton]; omega)
  rw [charbuf_appended_append] at rd2
  obtain ⟨h3, r3, rd3, k3⟩ := write_char_kept g hg h2 stream _ char_space (by decide) rd2
    (by simp only [charbuf_appended_fields, List.length_append, List.length_singleton]; omega)
  rw [charbuf_appended_append] at rd3
  have k13 := heap_kept_except_trans _ _ _ _ k1 (heap_kept_except_trans _ _ _ _ k2 k3)
  have rv := represents_kept g h h3 st.metadata k13 v o hrep
  obtain ⟨r, h4, r4, rd4, k4⟩ := pv (k + 2) h3 _ o (by omega) rd3 rv
    (by simp only [charbuf_appended_fields, List.length_append, List.length_singleton]; omega)
  rw [charbuf_appended_append] at rd4
  refine ⟨h4, ?_, rd4, heap_kept_except_trans _ _ _ _ k13 k4⟩
  have cdr4 : lisp_cell_cdr g h4 o = g.lisp_NIL := (lisp_cell_car_not_cell g hg h4 o hnc).2
  rw [lisp_cell_print_readably_loop]
  simp only [ne_eq, hne, not_false_eq_true, if_true, hcp, not_true_eq_false, if_false, bind,
    Except.bind, r1, r2, r3, r4, pure, Except.pure, cdr4]
  rw [lisp_cell_print_readably_loop]
  simp only [ne_eq, not_true_eq_false, if_false, pure, Except.pure]


/-! ## The readable text of every value -/

/-- Every value is printed inside a cell as the format says, as an element
and as the rest of a `CDR` chain. -/
theorem prints_value (g : lisp_globals) (hg : globals_wf g) (hT0 : g.lisp_T ≠ 0)
    (environment stream : Nat) (hsT : stream ≠ g.lisp_T) (hsN : stream ≠ g.lisp_NIL) :
    ∀ v : printed_value,
      prints_element g environment stream v ∧ prints_chain g environment stream v := by
  have tagne : ∀ o t, lisp_object_get_tag o = t → t ≠ lisp_tag_cell → t ≠ lisp_tag_atom →
      o ≠ g.lisp_NIL ∧ o % 16 ≠ 0 := by
    intro o t e n1 n2
    constructor
    · intro e2
      rw [e2, hg.NIL_atom] at e
      exact n2 e.symm
    · intro e2
      rw [lisp_object_get_tag_eq, e2] at e
      exact n1 e.symm
  intro v
  induction v with
  | nil =>
    constructor
    · intro fuel h st o hf rd hrep hroom
      obtain ⟨e1, e2⟩ := represents_nil g h st.metadata o hrep
      rw [e1] at e2 ⊢
      exact print_atom_in_cell g hg hT0 environment stream hsT hsN fuel
        (by change 3 ≤ fuel at hf; omega) h st g.lisp_NIL (c_str "NIL") rd hg.NIL_atom e2
        (by decide) hroom
    · intro fuel h st o hf rd hrep _
      obtain ⟨e1, _⟩ := represents_nil g h st.metadata o hrep
      obtain ⟨k, rfl⟩ : ∃ k, fuel = k + 1 := ⟨fuel - 1, by change 3 ≤ fuel at hf; omega⟩
      refine ⟨h, ?_, ?_, heap_kept_except_refl _ _⟩
      · rw [lisp_cell_print_readably_loop, e1]
        simp only [ne_eq, not_true_eq_false, if_false, pure, Except.pure]
      · have : text_in_cell .nil true = [] := rfl
        rw [this, charbuf_appended_nil]
        exact rd
  | atom name =>
    have pv : ∀ (fuel : Nat) (h : lisp_heap) (st : charbuf_state) (o : lisp_object_t),
        2 ≤ fuel → print_ready h stream st →
        represents g h st.metadata o (.atom name) = true →
        st.w_pos + (text_in_cell (.atom name) false).length ≤ st.max →
        ∃ r h', lisp_print_for_cell g fuel h environment stream o g.lisp_T = .ok (r, h')
          ∧ print_ready h' stream (charbuf_appended st (text_in_cell (.atom name) false))
          ∧ heap_kept_except h h' st.metadata := by
      intro fuel h st o hf rd hrep hroom
      obtain ⟨_, e2, e3, e4⟩ := represents_atom g h st.metadata o name hrep
      exact print_atom_in_cell g hg hT0 environment stream hsT hsN fuel hf h st o name rd e2
        e3 e4 hroom
    refine ⟨fun fuel h st o hf => pv fuel h st o (by change 3 ≤ fuel at hf; omega), ?_⟩
    refine chain_of_leaf g hg environment stream _ rfl rfl ?_ pv
    intro h m o hrep
    obtain ⟨e1, e2, _, _⟩ := represents_atom g h m o name hrep
    refine ⟨e1, ?_⟩
    rw [lisp_object_get_tag_eq] at e2
    rw [e2]
    decide
  | fixnum f =>
    have hfx : ∀ h m o, represents g h m o (.fixnum f) = true →
        o = lisp_fixnum_create true f ∧ lisp_fixnum_min true ≤ f ∧ f ≤ lisp_fixnum_max true := by
      intro h m o hrep
      unfold represents at hrep
      simp only [Bool.and_eq_true, decide_eq_true_eq] at hrep
      exact ⟨hrep.1, hrep.2.1, hrep.2.2⟩
    have pv : ∀ (fuel : Nat) (h : lisp_heap) (st : charbuf_state) (o : lisp_object_t),
        2 ≤ fuel → print_ready h stream st →
        represents g h st.metadata o (.fixnum f) = true →
        st.w_pos + (text_in_cell (.fixnum f) false).length ≤ st.max →
        ∃ r h', lisp_print_for_cell g fuel h environment stream o g.lisp_T = .ok (r, h')
          ∧ print_ready h' stream (charbuf_appended st (text_in_cell (.fixnum f) false))
          ∧ heap_kept_except h h' st.metadata := by
      intro fuel h st o hf rd hrep hroom
      obtain ⟨e1, e2, e3⟩ := hfx h st.metadata o hrep
      rw [e1]
      exact print_fixnum_in_cell g hg hT0 environment stream hsT hsN fuel hf h st f e2 e3 rd
        hroom
    refine ⟨fun fuel h st o hf => pv fuel h st o (by change 3 ≤ fuel at hf; omega), ?_⟩
    refine chain_of_leaf g hg environment stream _ rfl rfl ?_ pv
    intro h m o hrep
    obtain ⟨e1, e2, e3⟩ := hfx h m o hrep
    rw [e1]
    exact tagne _ _ (fixnum_round_trip true f e2 e3).2 (by decide) (by decide)
  | char c =>
    have hcx : ∀ h m o, represents g h m o (.char c) = true →
        o = lisp_char_create c ∧ c < 128 := by
      intro h m o hrep
      unfold represents at hrep
      simp only [Bool.and_eq_true, decide_eq_true_eq] at hrep
      exact hrep
    have pv : ∀ (fuel : Nat) (h : lisp_heap) (st : charbuf_state) (o : lisp_object_t),
        2 ≤ fuel → print_ready h stream st →
        represents g h st.metadata o (.char c) = true →
        st.w_pos + (text_in_cell (.char c) false).length ≤ st.max →
        ∃ r h', lisp_print_for_cell g fuel h environment stream o g.lisp_T = .ok (r, h')
          ∧ print_ready h' stream (charbuf_appended st (text_in_cell (.char c) false))
          ∧ heap_kept_except h h' st.metadata := by
      intro fuel h st o hf rd hrep hroom
      obtain ⟨e1, e2⟩ := hcx h st.metadata o hrep
      rw [e1]
      exact print_char_in_cell g hg environment stream fuel (by omega) h st c e2 rd hroom
    refine ⟨fun fuel h st o hf => pv fuel h st o (by change 3 ≤ fuel at hf; omega), ?_⟩
    refine chain_of_leaf g hg environment stream _ rfl rfl ?_ pv
    intro h m o hrep
    obtain ⟨e1, e2⟩ := hcx h m o hrep
    rw [e1]
    exact tagne _ _ (char_create_value c (by omega)).2 (by decide) (by decide)
  | string chars =>
    have pv : ∀ (fuel : Nat) (h : lisp_heap) (st : charbuf_state) (o : lisp_object_t),
        2 ≤ fuel → print_ready h stream st →
        represents g h st.metadata o (.string chars) = true →
        st.w_pos + (text_in_cell (.string chars) false).length ≤ st.max →
        ∃ r h', lisp_print_for_cell g fuel h environment stream o g.lisp_T = .ok (r, h')
          ∧ print_ready h' stream (charbuf_appended st (text_in_cell (.string chars) false))
          ∧ heap_kept_except h h' st.metadata := by
      intro fuel h st o hf rd hrep hroom
      have e : text_in_cell (.string chars) false
          = [char_double_quote] ++ chars ++ [char_double_quote] := rfl
      rw [e] at hroom ⊢
      exact print_string_in_cell g hg environment stream fuel (by omega) h st o chars hrep rd
        (by simp only [List.length_append, List.length_singleton] at hroom; omega)
    refine ⟨fun fuel h st o hf => pv fuel h st o (by change 3 ≤ fuel at hf; omega), ?_⟩
    refine chain_of_leaf g hg environment stream _ rfl rfl ?_ pv
    intro h m o hrep
    obtain ⟨e1, _⟩ := represents_string g h m o chars hrep
    exact tagne _ _ e1 (by decide) (by decide)
  | cell a d iha ihd =>
    exact ⟨element_of_cell g hg environment stream a d iha.1 ihd.2,
      chain_of_cell g hg environment stream a d iha.1 ihd.2⟩

/-- What `lisp_print` writes for a cell. -/
theorem print_cell_readably (g : lisp_globals) (hg : globals_wf g) (hT0 : g.lisp_T ≠ 0)
    (environment stream : Nat) (hsT : stream ≠ g.lisp_T) (hsN : stream ≠ g.lisp_NIL)
    (fuel : Nat) (h : lisp_heap) (st : charbuf_state) (o : Nat) (car cdr : printed_value)
    (hfuel : print_fuel (.cell car cdr) ≤ fuel) (rd : print_ready h stream st)
    (hrep : represents g h st.metadata o (.cell car cdr) = true)
    (hroom : st.w_pos + (readable_text (.cell car cdr)).length ≤ st.max) :
    ∃ h', lisp_print g fuel h environment stream o = .ok (g.lisp_T, h')
      ∧ print_ready h' stream (charbuf_appended st (readable_text (.cell car cdr)))
      ∧ heap_kept_except h h' st.metadata := by
  rw [print_fuel] at hfuel
  obtain ⟨k, rfl⟩ : ∃ k, fuel = k + 1 := ⟨fuel - 1, by omega⟩
  have hb := (best_stream_other g hT0 (NIL_not_NULL g hg) k h environment stream hsT hsN).2
  obtain ⟨c1, _⟩ := represents_cell g h st.metadata o car cdr hrep
  have pa := (prints_value g hg hT0 environment stream hsT hsN car).1
  have qd := (prints_value g hg hT0 environment stream hsT hsN cdr).2
  obtain ⟨h', r1, rd1, k1⟩ := dotted_of_cell g hg environment stream car cdr pa qd k h st o
    (by omega) rd hrep hroom
  refine ⟨h', ?_, rd1, k1⟩
  have htag : lisp_object_get_tag o = lisp_tag_cell := by
    rw [lisp_object_get_tag_eq]; exact c1
  have n1 : lisp_tag_cell ≠ lisp_tag_fixnum := by decide
  have n2 : lisp_tag_cell ≠ lisp_tag_atom := by decide
  rw [lisp_print]
  simp only [bind, Except.bind, hb, htag, if_neg n1, if_neg n2, if_true]
  exact r1


/-- C32: for every cell `o` whose parts are `NIL`, atoms, fixnums,
characters, strings and such cells (`represents`), printed by `lisp_print`
with enough fuel to an open character-buffer stream with room for the text,
`lisp_print` returns `T` and appends to the buffer the readable text of the
cell and nothing else.  That text is `(`, the text of the `CAR`, the text of
the `CDR` chain and `)`; in the chain a cell gives a single space, the text
of its `CAR` and the rest of the chain, `NIL` ends the chain, and a last
`CDR` that is neither `NIL` nor a cell gives ` . ` followed by its text.
Inside a cell a string is between double quotes and a character follows
`#\`. -/
theorem C32_cell_printed_readably (g : lisp_globals) (hg : globals_wf g) (hT0 : g.lisp_T ≠ 0)
    (environment stream : lisp_object_t) (hsT : stream ≠ g.lisp_T) (hsN : stream ≠ g.lisp_NIL)
    (fuel : Nat) (h : lisp_heap) (st : charbuf_state) (o : lisp_object_t)
    (car cdr : printed_value)
    (hfuel : print_fuel (.cell car cdr) ≤ fuel) (rd : print_ready h stream st)
    (hrep : represents g h st.metadata o (.cell car cdr) = true)
    (hroom : st.w_pos + (readable_text (.cell car cdr)).length ≤ st.max) :
    (∃ h', lisp_print g fuel h environment stream o = .ok (g.lisp_T, h')
        ∧ charbuf_view h' stream
            = some (charbuf_appended st (readable_text (.cell car cdr)))
        ∧ tests_buffer h' stream = c_string (st.buf ++ readable_text (.cell car cdr)))
      ∧ readable_text (.cell car cdr)
          = [char_paren_open] ++ readable_text car ++ text_in_cell cdr true
              ++ [char_paren_close]
      ∧ (∀ a d, text_in_cell (.cell a d) true
          = [char_space] ++ readable_text a ++ text_in_cell d true)
      ∧ text_in_cell .nil true = []
      ∧ (∀ name, text_in_cell (.atom name) true
          = [char_space, char_period, char_space] ++ readable_text (.atom name))
      ∧ (∀ f, text_in_cell (.fixnum f) true
          = [char_space, char_period, char_space] ++ readable_text (.fixnum f))
      ∧ (∀ c, text_in_cell (.char c) true
          = [char_space, char_period, char_space] ++ readable_text (.char c))
      ∧ (∀ chars, text_in_cell (.string chars) true
          = [char_space, char_period, char_space] ++ readable_text (.string chars))
      ∧ (∀ chars, readable_text (.string chars)
          = [char_double_quote] ++ chars ++ [char_double_quote])
      ∧ (∀ c, readable_text (.char c) = [char_octothorpe, char_backslash, c])
      ∧ (∀ name, readable_text (.atom name) = name) := by
  obtain ⟨h', r1, rd1, _⟩ := print_cell_readably g hg hT0 environment stream hsT hsN fuel h st o
    car cdr hfuel rd hrep hroom
  refine ⟨⟨h', r1, rd1.view, ?_⟩, (text_in_cell_cell car cdr).1,
    fun a d => (text_in_cell_cell a d).2, rfl, fun _ => rfl, fun _ => rfl, fun _ => rfl,
    fun _ => rfl, fun _ => rfl, fun _ => rfl, fun _ => rfl⟩
  rw [tests_buffer_view h' stream _ rd1.view]
  rfl

set_option maxRecDepth 100000 in
/-- C32 at the cells of `example_printed_cells`: the list of the atoms `X`,
`Y`, `Z` is printed as `(X Y Z)`, the property list of the pairs `(A . B)`
and `(C . D)` as `((A . B) (C . D))`, and the dotted list of the string
`abc`, the character `a`, the fixnum -42 and the atom `X` as
`("abc" #\a -42 . X)`. -/
theorem C32_cell_printed_readably_witness :
    (∃ h', lisp_print example_root.g 16 example_printed_cells.2 example_root.environment
          (example_streams_of "").tests_write_stream example_printed_cells.1.1
          = .ok (example_root.g.lisp_T, h')
        ∧ tests_buffer h' (example_streams_of "").tests_write_stream = c_str "(X Y Z)")
      ∧ (∃ h', lisp_print example_root.g 16 example_printed_cells.2 example_root.environment
          (example_streams_of "").tests_write_stream example_printed_cells.1.2.1
          = .ok (example_root.g.lisp_T, h')
        ∧ tests_buffer h' (example_streams_of "").tests_write_stream
            = c_str "((A . B) (C . D))")
      ∧ (∃ h', lisp_print example_root.g 16 example_printed_cells.2 example_root.environment
          (example_streams_of "").tests_write_stream example_printed_cells.1.2.2
          = .ok (example_root.g.lisp_T, h')
        ∧ tests_buffer h' (example_streams_of "").tests_write_stream
            = c_str "(\"abc\" #\\a -42 . X)") := by
  have H : example_root.g.lisp_T ≠ 0
      ∧ (example_streams_of "").tests_write_stream ≠ example_root.g.lisp_T
      ∧ (example_streams_of "").tests_write_stream ≠ example_root.g.lisp_NIL
      ∧ charbuf_view example_printed_cells.2 (example_streams_of "").tests_write_stream
          = some ⟨1050944, [], 0, 0, 0, 4095, false, true⟩
      ∧ example_printed_cells.2.lisp_heap_cur % 16 = 0
      ∧ represents example_root.g example_printed_cells.2 1050944 example_printed_cells.1.1
          value_X_Y_Z = true
      ∧ represents example_root.g example_printed_cells.2 1050944 example_printed_cells.1.2.1
          value_plist = true
      ∧ represents example_root.g example_printed_cells.2 1050944 example_printed_cells.1.2.2
          value_dotted = true
      ∧ c_string ([] ++ readable_text value_X_Y_Z) = c_str "(X Y Z)"
      ∧ c_string ([] ++ readable_text value_plist) = c_str "((A . B) (C . D))"
      ∧ c_string ([] ++ readable_text value_dotted) = c_str "(\"abc\" #\\a -42 . X)" := by
    decide!
  obtain ⟨H1, H2, H3, H4, H5, H6, H7, H8, H9, H10, H11⟩ := H
  have rd : print_ready example_printed_cells.2 (example_streams_of "").tests_write_stream
      ⟨1050944, [], 0, 0, 0, 4095, false, true⟩ := ⟨H4, rfl, rfl, H5⟩
  obtain ⟨⟨h1, a1, _, a3⟩, _⟩ := C32_cell_printed_readably example_root.g
    example_root_globals_wf H1 example_root.environment
    (example_streams_of "").tests_write_stream H2 H3 16 example_printed_cells.2 _
    example_printed_cells.1.1 _ _ (by decide) rd H6 (by decide)
  obtain ⟨⟨h2, b1, _, b3⟩, _⟩ := C32_cell_printed_readably example_root.g
    example_root_globals_wf H1 example_root.environment
    (example_streams_of "").tests_write_stream H2 H3 16 example_printed_cells.2 _
    example_printed_cells.1.2.1 _ _ (by decide) rd H7 (by decide)
  obtain ⟨⟨h3, c1, _, c3⟩, _⟩ := C32_cell_printed_readably example_root.g
    example_root_globals_wf H1 example_root.environment
    (example_streams_of "").tests_write_stream H2 H3 16 example_printed_cells.2 _
    example_printed_cells.1.2.2 _ _ (by decide) rd H8 (by decide!)
  exact ⟨⟨h1, a1, a3.trans H9⟩, ⟨h2, b1, b3.trans H10⟩, ⟨h3, c1, c3.trans H11⟩⟩


/-! ## A string that is not closed before the end of the stream -/

set_option maxRecDepth 100000 in
/-- The character made of a byte: it has the tag of a character, and its value
is a double quote or a backslash only when the byte is. -/
theorem byte_char :
    ∀ c, c < 256 →
      lisp_object_get_tag (lisp_char_create (word_of_c_char c)) = lisp_tag_char
        ∧ (lisp_char_get_value (lisp_char_create (word_of_c_char c)) = char_double_quote
            ↔ c = char_double_quote)
        ∧ (lisp_char_get_value (lisp_char_create (word_of_c_char c)) = char_backslash
            ↔ c = char_backslash) := by
  decide!

theorem byte_char_not_NIL (g : lisp_globals) (hg : globals_wf g) (c : Nat) (hc : c < 256) :
    lisp_char_create (word_of_c_char c) ≠ g.lisp_NIL := by
  intro x
  have h1 := (byte_char c hc).1
  have := hg.NIL_atom
  rw [← x, h1] at this
  revert this
  decide

/-- A store into a record that is none of the three records of a
character-buffer stream leaves the view of the stream. -/
theorem charbuf_view_write_other (h : lisp_heap) (stream : Nat) (st : charbuf_state)
    (hv : charbuf_view h stream = some st) (a : Nat) (r r' : lisp_record)
    (ha : heap_read h a = some r)
    (hr1 : ∀ functions flags, r ≠ lisp_record.stream functions flags)
    (hr2 : ∀ metadata backend, r ≠ lisp_record.stream_functions metadata backend)
    (hr3 : ∀ st', r ≠ charbuf_record st') :
    charbuf_view (heap_write h a r') stream = some st := by
  obtain ⟨functions, flags, metadata, p1, p2, p3, p4, p5, p6, p7, p8, p9⟩ :=
    charbuf_view_parts h stream st hv
  have n1 : lisp_object_get_raw_value stream ≠ a := by
    intro e
    rw [e, ha] at p1
    exact hr1 _ _ (Option.some.inj p1)
  have n2 : lisp_object_get_raw_value functions ≠ a := by
    intro e
    rw [e, ha] at p2
    exact hr2 _ _ (Option.some.inj p2)
  have n3 : lisp_object_get_raw_value metadata ≠ a := by
    intro e
    rw [e, ha] at p3
    exact hr3 _ (Option.some.inj p3)
  unfold charbuf_view
  rw [heap_read_write, if_neg n1, p1]
  simp only
  rw [heap_read_write, if_neg n2, p2]
  simp only
  rw [heap_read_write, if_neg n3, p3]
  unfold charbuf_record
  simp only
  rw [← p4]
  have hc : True ∧ st.metadata ≠ lisp_object_get_raw_value stream
      ∧ st.metadata ≠ lisp_object_get_raw_value functions
      ∧ st.metadata < (heap_write h a r').lisp_heap_cur
      ∧ lisp_object_get_raw_value stream < (heap_write h a r').lisp_heap_cur
      ∧ lisp_object_get_raw_value functions < (heap_write h a r').lisp_heap_cur :=
    ⟨trivial, p5, p6, p7, p8, p9⟩
  rw [if_pos hc]

theorem charbuf_view_write_string (h : lisp_heap) (stream : Nat) (st : charbuf_state)
    (hv : charbuf_view h stream = some st) (a : Nat) (chars : lisp_object_t) (cap len : Nat)
    (r' : lisp_record) (ha : heap_read h a = some (lisp_record.string chars cap len)) :
    charbuf_view (heap_write h a r') stream = some st :=
  charbuf_view_write_other h stream st hv a _ r' ha (fun _ _ e => by cases e)
    (fun _ _ e => by cases e) (fun _ e => by unfold charbuf_record at e; cases e)

theorem charbuf_view_write_interior (h : lisp_heap) (stream : Nat) (st : charbuf_state)
    (hv : charbuf_view h stream = some st) (a : Nat) (slots : List lisp_object_t)
    (r' : lisp_record) (ha : heap_read h a = some (lisp_record.interior slots)) :
    charbuf_view (heap_write h a r') stream = some st :=
  charbuf_view_write_other h stream st hv a _ r' ha (fun _ _ e => by cases e)
    (fun _ _ e => by cases e) (fun _ e => by unfold charbuf_record at e; cases e)

/-- A store into the metadata of a character-buffer stream leaves a string. -/
theorem string_ready_write_charbuf (h : lisp_heap) (s chars : lisp_object_t) (cap len : Nat)
    (slots : List lisp_object_t) (m : Nat) (st st' : charbuf_state)
    (hr : string_ready h s chars cap len slots)
    (hm : heap_read h m = some (charbuf_record st)) :
    string_ready (heap_write h m (charbuf_record st')) s chars cap len slots
      ∧ lisp_string_chars (heap_write h m (charbuf_record st')) s = lisp_string_chars h s := by
  have n1 : lisp_object_get_raw_value s ≠ m := by
    intro e
    have := hr.record
    rw [e, hm] at this
    unfold charbuf_record at this
    cases this
  have n2 : lisp_object_get_raw_value chars ≠ m := by
    intro e
    have := hr.buffer
    rw [e, hm] at this
    unfold charbuf_record at this
    cases this
  have e1 : heap_read (heap_write h m (charbuf_record st')) (lisp_object_get_raw_value s)
      = some (lisp_record.string chars cap len) := by
    rw [heap_read_write, if_neg n1, hr.record]
  have e2 : heap_read (heap_write h m (charbuf_record st')) (lisp_object_get_raw_value chars)
      = some (lisp_record.interior slots) := by
    rw [heap_read_write, if_neg n2, hr.buffer]
  refine ⟨⟨e1, e2, hr.fits, hr.aligned, hr.allocated, hr.buffer_allocated⟩, ?_⟩
  unfold lisp_string_chars lisp_string_get_value lisp_interior_get_value
  simp only [e1, e2, hr.record, hr.buffer]

/-- Reading a character from a character-buffer stream leaves a string. -/
theorem read_char_string (g : lisp_globals) (h : lisp_heap) (stream : Nat) (st : charbuf_state)
    (c : Nat) (cs : List Nat) (s chars : lisp_object_t) (cap len : Nat)
    (slots : List lisp_object_t)
    (hv : charbuf_view h stream = some st) (hrd : st.is_readable = true)
    (e : charbuf_ahead st = c :: cs) (hr : string_ready h s chars cap len slots) :
    ∃ h', lisp_stream_read_char g h stream = .ok (lisp_char_create (word_of_c_char c), h')
      ∧ charbuf_view h' stream = some { st with r_pos := st.r_pos + 1 }
      ∧ charbuf_ahead { st with r_pos := st.r_pos + 1 } = cs
      ∧ string_ready h' s chars cap len slots
      ∧ lisp_string_chars h' s = lisp_string_chars h s := by
  obtain ⟨e1, e2, e3⟩ := charbuf_ahead_cons st c cs e
  obtain ⟨functions, flags, metadata, _, _, p3, p4, _⟩ := charbuf_view_parts h stream st hv
  rw [← p4] at p3
  obtain ⟨q1, q2⟩ := string_ready_write_charbuf h s chars cap len slots st.metadata st
    { st with r_pos := st.r_pos + 1 } hr p3
  refine ⟨_, ?_, charbuf_view_write h stream st { st with r_pos := st.r_pos + 1 } hv rfl, e3,
    q1, q2⟩
  rw [charbuf_read_char g h stream st hv hrd e1, e2]

/-- What `lisp_string_append_char` does to a string and to the heap around
it. -/
theorem string_append_char_step (h : lisp_heap) (s chars c : lisp_object_t) (cap len : Nat)
    (slots : List lisp_object_t) (hr : string_ready h s chars cap len slots) :
    ∃ h' chars' cap' slots',
      lisp_string_append_char h s c = .ok (s, h')
        ∧ string_ready h' s chars' cap' (len + 1) slots'
        ∧ lisp_string_chars h' s = lisp_string_chars h s ++ [c]
        ∧ (∀ stream st, charbuf_view h stream = some st → charbuf_view h' stream = some st) := by
  obtain ⟨hs, hc, hle, hal, hsl, hcl⟩ := hr
  obtain ⟨h0, chars0, c1, c2, c3, c4, c5, c6⟩ :=
    string_append_char_spec h s chars c cap len slots hs hc hle hal hsl hcl
  have hne : lisp_object_get_raw_value chars ≠ lisp_object_get_raw_value s := by
    intro e
    rw [e, hs] at hc
    cases hc
  by_cases hfull : len = cap
  · subst hfull
    obtain ⟨a1, a2, a3, a4, a5, a6⟩ := allocate_object h hal lisp_tag_interior (by decide)
      (8 * (len + 16)) (lisp_record.interior (slots.take len))
    generalize hr : lisp_object_allocate h lisp_tag_interior (8 * (len + 16))
      (lisp_record.interior (slots.take len)) = r at a1 a2 a3 a4 a5 a6
    have e1 : lisp_string_reallocate h (chars, len, len) = ((r.1, len + 16), r.2) := by
      unfold lisp_string_reallocate lisp_interior_create lisp_interior_get_value
      simp only [hc, hr]
    have hn : lisp_object_get_raw_value r.1 ≠ lisp_object_get_raw_value s := by
      rw [a2]; omega
    have ex : lisp_string_append_char h s c
        = .ok (s, heap_write (heap_write r.2 (lisp_object_get_raw_value r.1)
            (lisp_record.interior (slots_set (slots.take len) len c)))
            (lisp_object_get_raw_value s) (lisp_record.string r.1 (len + 16) (len + 1))) := by
      unfold lisp_string_append_char
      simp only [hs, lisp_string_needs_reallocation, beq_self_eq_true, if_true, e1]
      rw [a2, a3]
    have eh : h0 = heap_write (heap_write r.2 (lisp_object_get_raw_value r.1)
            (lisp_record.interior (slots_set (slots.take len) len c)))
            (lisp_object_get_raw_value s) (lisp_record.string r.1 (len + 16) (len + 1)) := by
      rw [c1] at ex
      injection ex with ex
      injection ex
    subst eh
    have s1 : heap_read r.2 (lisp_object_get_raw_value s)
        = some (lisp_record.string chars len len) := by
      rw [a4 _ (by omega), hs]
    refine ⟨_, r.1, len + 16, slots_set (slots.take len) len c, c1, ⟨?_, ?_, by omega, a6, ?_, ?_⟩,
      c3, ?_⟩
    · rw [heap_read_write, if_pos rfl]
    · rw [heap_read_write, if_neg hn, heap_read_write, if_pos rfl]
    · show lisp_object_get_raw_value s < r.2.lisp_heap_cur
      omega
    · show lisp_object_get_raw_value r.1 < r.2.lisp_heap_cur
      rw [a2]; exact a5
    · intro stream st hv
      have v1 : charbuf_view r.2 stream = some st :=
        charbuf_view_keep h r.2 stream st hv (Nat.le_of_lt a5)
          (fun a ha => a4 a (by omega))
      have v2 := charbuf_view_write_interior r.2 stream st v1 (lisp_object_get_raw_value r.1)
        (slots.take len) (lisp_record.interior (slots_set (slots.take len) len c))
        (by rw [a2, a3])
      exact charbuf_view_write_string _ stream st v2 (lisp_object_get_raw_value s) chars len len
        _ (by rw [heap_read_write, if_neg hn.symm, s1])
  · have ex : lisp_string_append_char h s c
        = .ok (s, heap_write (heap_write h (lisp_object_get_raw_value chars)
            (lisp_record.interior (slots_set slots len c)))
            (lisp_object_get_raw_value s) (lisp_record.string chars cap (len + 1))) := by
      unfold lisp_string_append_char
      have : (len == cap) = false := by simpa using hfull
      simp only [hs, lisp_string_needs_reallocation, this, Bool.false_eq_true, if_false, hc]
    have eh : h0 = heap_write (heap_write h (lisp_object_get_raw_value chars)
            (lisp_record.interior (slots_set slots len c)))
            (lisp_object_get_raw_value s) (lisp_record.string chars cap (len + 1)) := by
      rw [c1] at ex
      injection ex with ex
      injection ex
    subst eh
    refine ⟨_, chars, cap, slots_set slots len c, c1, ⟨?_, ?_, by omega, hal, hsl, hcl⟩, c3, ?_⟩
    · rw [heap_read_write, if_pos rfl]
    · rw [heap_read_write, if_neg hne, heap_read_write, if_pos rfl]
    · intro stream st hv
      have v2 := charbuf_view_write_interior h stream st hv (lisp_object_get_raw_value chars)
        slots (lisp_record.interior (slots_set slots len c)) hc
      exact charbuf_view_write_string _ stream st v2 (lisp_object_get_raw_value s) chars cap len
        _ (by rw [heap_read_write, if_neg hne.symm, hs])

theorem string_body_open_quote (cs : List Nat) :
    string_body_open (char_double_quote :: cs) = false := by
  cases cs <;> simp [string_body_open]

theorem string_body_open_escape (d : Nat) (ds : List Nat) :
    string_body_open (char_backslash :: d :: ds) = string_body_open ds := by
  rw [string_body_open]
  simp [char_backslash, char_double_quote]

theorem string_body_open_cons (c : Nat) (cs : List Nat) (h1 : c ≠ char_double_quote)
    (h2 : c ≠ char_backslash) : string_body_open (c :: cs) = string_body_open cs := by
  cases cs <;> simp [string_body_open, h1, h2]

theorem string_body_chars_end : string_body_chars [char_backslash] = [] := by
  simp [string_body_chars]

theorem string_body_chars_escape (d : Nat) (ds : List Nat) :
    string_body_chars (char_backslash :: d :: ds) = d :: string_body_chars ds := by
  rw [string_body_chars]
  simp

theorem string_body_chars_cons (c : Nat) (cs : List Nat) (h2 : c ≠ char_backslash) :
    string_body_chars (c :: cs) = c :: string_body_chars cs := by
  cases cs <;> simp [string_body_chars, h2]

/-- The loop of `lisp_read_string` over a text that the stream ends before a
closing double quote: it returns, and the string has the characters of
`string_body_chars` appended. -/
theorem read_string_loop_open (g : lisp_globals) (hg : globals_wf g) (stream s : Nat) :
    ∀ (n : Nat) (body : List Nat), body.length ≤ n → (∀ c ∈ body, c < 256) →
      string_body_open body = true →
    ∀ (fuel : Nat) (h : lisp_heap) (st : charbuf_state) (chars : lisp_object_t) (cap len : Nat)
      (slots : List lisp_object_t),
      charbuf_view h stream = some st → st.is_readable = true → charbuf_ahead st = body →
      string_ready h s chars cap len slots → body.length < fuel →
      ∃ h', lisp_read_string_loop g fuel h stream s = .ok h'
        ∧ lisp_string_chars h' s = lisp_string_chars h s
            ++ (string_body_chars body).map (fun c => lisp_char_create (word_of_c_char c)) := by
  intro n
  induction n with
  | zero =>
    intro body hn _ _ fuel h st chars cap len slots hv _ ha _ hf
    have hb : body = [] := List.length_eq_zero.1 (Nat.le_zero.1 hn)
    subst hb
    obtain ⟨k, rfl⟩ : ∃ k, fuel = k + 1 := ⟨fuel - 1, by simp at hf; omega⟩
    refine ⟨h, ?_, ?_⟩
    · unfold lisp_read_string_loop
      rw [view_read_eof g h stream st hv ha]
      simp only [bind, Except.bind, ↓reduceIte, pure, Except.pure]
    · simp only [string_body_chars, List.map_nil, List.append_nil]
  | succ n ih =>
    intro body hn hbytes hopen fuel h st chars cap len slots hv hrd ha hr hf
    obtain ⟨k, rfl⟩ : ∃ k, fuel = k + 1 := ⟨fuel - 1, by omega⟩
    cases body with
    | nil =>
      refine ⟨h, ?_, ?_⟩
      · unfold lisp_read_string_loop
        rw [view_read_eof g h stream st hv ha]
        simp only [bind, Except.bind, ↓reduceIte, pure, Except.pure]
      · simp only [string_body_chars, List.map_nil, List.append_nil]
    | cons c cs =>
      have hc := hbytes c (List.mem_cons_self _ _)
      obtain ⟨_, b2, b3⟩ := byte_char c hc
      have b1 := byte_char_not_NIL g hg c hc
      obtain ⟨h1, r1, v1, a1, s1, t1⟩ :=
        read_char_string g h stream st c cs s chars cap len slots hv hrd ha hr
      have ndq : c ≠ char_double_quote := by
        intro e
        rw [e, string_body_open_quote] at hopen
        cases hopen
      have ndq' : ¬ lisp_char_get_value (lisp_char_create (word_of_c_char c)) = char_double_quote :=
        fun e => ndq (b2.1 e)
      simp only [List.length_cons] at hn hf
      by_cases hbs : c = char_backslash
      · have hbs' : lisp_char_get_value (lisp_char_create (word_of_c_char c)) = char_backslash :=
          b3.2 hbs
        cases cs with
        | nil =>
          refine ⟨h1, ?_, ?_⟩
          · unfold lisp_read_string_loop
            rw [r1]
            simp only [bind, Except.bind, if_neg b1, if_neg ndq', if_pos hbs',
              view_read_eof g h1 stream _ v1 a1, ↓reduceIte, pure, Except.pure]
          · rw [t1, hbs, string_body_chars_end, List.map_nil, List.append_nil]
        | cons d ds =>
          have hd := hbytes d (List.mem_cons_of_mem _ (List.mem_cons_self _ _))
          have d1 := byte_char_not_NIL g hg d hd
          obtain ⟨h2, r2, v2, a2, s2, t2⟩ :=
            read_char_string g h1 stream _ d ds s chars cap len slots v1 hrd a1 s1
          obtain ⟨h3, chars3, cap3, slots3, r3, s3, t3, v3⟩ :=
            string_append_char_step h2 s chars (lisp_char_create (word_of_c_char d)) cap len
              slots s2
          have hopen' : string_body_open ds = true := by
            rw [hbs, string_body_open_escape] at hopen
            exact hopen
          simp only [List.length_cons] at hn hf
          obtain ⟨h4, r4, t4⟩ := ih ds (by omega)
            (fun x hx => hbytes x (List.mem_cons_of_mem _ (List.mem_cons_of_mem _ hx))) hopen'
            k h3 _ chars3 cap3 (len + 1) slots3 (v3 stream _ v2) hrd a2 s3 (by omega)
          refine ⟨h4, ?_, ?_⟩
          · unfold lisp_read_string_loop
            rw [r1]
            simp only [bind, Except.bind, if_neg b1, if_neg ndq', if_pos hbs', r2, if_neg d1,
              r3, r4]
          · rw [t4, t3, t2, t1, hbs, string_body_chars_escape]
            simp only [List.map_cons, List.append_assoc, List.singleton_append]
      · have hbs' : ¬ lisp_char_get_value (lisp_char_create (word_of_c_char c)) = char_backslash :=
          fun e => hbs (b3.1 e)
        obtain ⟨h3, chars3, cap3, slots3, r3, s3, t3, v3⟩ :=
          string_append_char_step h1 s chars (lisp_char_create (word_of_c_char c)) cap len
            slots s1
        have hopen' : string_body_open cs = true := by
          rw [string_body_open_cons c cs ndq hbs] at hopen
          exact hopen
        obtain ⟨h4, r4, t4⟩ := ih cs (by omega)
          (fun x hx => hbytes x (List.mem_cons_of_mem _ hx)) hopen'
          k h3 _ chars3 cap3 (len + 1) slots3 (v3 stream _ v1) hrd a1 s3 (by omega)
        refine ⟨h4, ?_, ?_⟩
        · unfold lisp_read_string_loop
          rw [r1]
          simp only [bind, Except.bind, if_neg b1, if_neg ndq', if_neg hbs', r3, r4]
        · rw [t4, t3, t1, string_body_chars_cons c cs hbs]
          simp only [List.map_cons, List.append_assoc, List.singleton_append]

/-- The empty string of `lisp_string_create_empty` on an aligned heap. -/
theorem string_create_empty_ready (h : lisp_heap) (hal : h.lisp_heap_cur % 16 = 0) :
    ∃ chars,
      string_ready (lisp_string_create_empty h).2 (lisp_string_create_empty h).1 chars 16 0 []
        ∧ lisp_object_get_tag (lisp_string_create_empty h).1 = lisp_tag_string
        ∧ lisp_string_chars (lisp_string_create_empty h).2 (lisp_string_create_empty h).1 = []
        ∧ (∀ stream st, charbuf_view h stream = some st →
            charbuf_view (lisp_string_create_empty h).2 stream = some st) := by
  obtain ⟨a1, a2, a3, a4, a5, a6⟩ := allocate_object h hal lisp_tag_interior (by decide)
    (8 * 16) (lisp_record.interior [])
  generalize hr : lisp_object_allocate h lisp_tag_interior (8 * 16) (lisp_record.interior [])
    = r at a1 a2 a3 a4 a5 a6
  obtain ⟨b1, b2, b3, b4, b5, b6⟩ := allocate_object r.2 a6 lisp_tag_string (by decide)
    24 (lisp_record.string r.1 16 0)
  have e : lisp_string_create_empty h
      = lisp_object_allocate r.2 lisp_tag_string 24 (lisp_record.string r.1 16 0) := by
    unfold lisp_string_create_empty lisp_interior_create lisp_string_create
    simp only [hr]
    rfl
  rw [e]
  generalize lisp_object_allocate r.2 lisp_tag_string 24 (lisp_record.string r.1 16 0)
    = q at b1 b2 b3 b4 b5 b6
  have s1 : heap_read q.2 (lisp_object_get_raw_value q.1) = some (lisp_record.string r.1 16 0) := by
    rw [b2, b3]
  have s2 : heap_read q.2 (lisp_object_get_raw_value r.1) = some (lisp_record.interior []) := by
    rw [a2, b4 _ (by omega), a3]
  refine ⟨r.1, ⟨s1, s2, by omega, b6, by rw [b2]; exact b5, by rw [a2]; omega⟩, b1, ?_, ?_⟩
  · unfold lisp_string_chars lisp_string_get_value
    simp only [s1, List.range_zero, List.map_nil]
  · intro stream st hv
    exact charbuf_view_keep h q.2 stream st hv (by omega)
      (fun a ha => by rw [b4 a (by omega), a4 a (by omega)])

/-- Claim C34, amended: for every text that opens a string with a double quote
and reaches the end of the stream before a closing one, `lisp_read` returns,
and what it returns is not `NIL` but a string: the characters of the text
after the opening double quote, where a backslash makes the character after
it literal and a backslash that ends the text is dropped.  The text is any
sequence of bytes in which every double quote comes right after a backslash
that makes it literal; the stream is a readable character-buffer stream on an
aligned heap. -/
theorem C34_unterminated_string_is_returned (g : lisp_globals) (hg : globals_wf g)
    (environment stream recursivep : lisp_object_t)
    (hs1 : stream ≠ g.lisp_T) (hs2 : stream ≠ g.lisp_NIL) (hs3 : lisp_streamp g stream ≠ 0)
    (body : List Nat) (hbytes : ∀ c ∈ body, c < 256) (hopen : string_body_open body = true)
    (fuel : Nat) (h : lisp_heap) (st : charbuf_state)
    (hv : charbuf_view h stream = some st) (hrd : st.is_readable = true)
    (hal : h.lisp_heap_cur % 16 = 0)
    (ha : charbuf_ahead st = char_double_quote :: body) (hf : body.length + 3 < fuel) :
    ∃ s h', lisp_read g fuel h environment stream recursivep = .ok (s, h')
      ∧ s ≠ g.lisp_NIL
      ∧ lisp_object_get_tag s = lisp_tag_string
      ∧ lisp_string_chars h' s
          = (string_body_chars body).map (fun c => lisp_char_create (word_of_c_char c)) := by
  obtain ⟨k, rfl⟩ : ∃ k, fuel = k + 3 := ⟨fuel - 3, by omega⟩
  have best : lisp_stream_best_input_stream g (k + 2) h environment stream = .ok stream := by
    unfold lisp_stream_best_input_stream
    simp only [if_neg hs1, if_neg hs2, ne_eq, hs3, not_false_eq_true, ↓reduceIte, pure,
      Except.pure]
  have q1 : char_double_quote < 128 := by decide
  obtain ⟨e1, e2, e3, e4⟩ := ascii_char g hg char_double_quote q1
  obtain ⟨h1, r1, v1, k1⟩ := skip_whitespace_none g hg stream k h st char_double_quote body
    hv hrd ha q1 (by decide) (by decide) (by decide) (by decide)
  obtain ⟨h2, h3, r2, _, r3, v3, k3⟩ :=
    view_read_unread g h1 stream st char_double_quote body v1 hrd ha
  have hal3 : h3.lisp_heap_cur % 16 = 0 := by rw [k3, k1]; exact hal
  obtain ⟨chars, s4, t4, c4, v4⟩ := string_create_empty_ready h3 hal3
  obtain ⟨h5, r5, v5, a5, s5, c5⟩ :=
    read_char_string g (lisp_string_create_empty h3).2 stream st char_double_quote body
      (lisp_string_create_empty h3).1 chars 16 0 [] (v4 stream st v3) hrd ha s4
  obtain ⟨h6, r6, c6⟩ := read_string_loop_open g hg stream (lisp_string_create_empty h3).1
    body.length body (Nat.le_refl _) hbytes hopen (k + 1) h5 _ chars 16 0 [] v5 hrd a5 s5
    (by omega)
  have n1 : ¬ (char_0 ≤ char_double_quote ∧ char_double_quote ≤ char_9) := by decide
  have n2 : ¬ (char_double_quote = char_plus ∨ char_double_quote = char_minus) := by decide
  have n3 : ¬ char_double_quote = char_single_quote := by decide
  have n4 : ¬ char_double_quote = char_paren_open := by decide
  have n5 : ¬ char_double_quote = char_paren_close := by decide
  have n6 : ¬ (lisp_char_create char_double_quote = g.lisp_NIL
      ∨ lisp_char_create char_double_quote ≠ lisp_char_create char_double_quote) := by
    rw [e4] at e3
    intro x
    rcases x with x | x
    · exact e3 x
    · exact x rfl
  rw [e4] at r5
  refine ⟨(lisp_string_create_empty h3).1, h6, ?_, ?_, t4, ?_⟩
  · rw [lisp_read]
    simp only [bind, Except.bind, best]
    rw [lisp_read_object]
    simp only [bind, Except.bind, r1, r2, if_neg e3, e1, if_neg n1, if_neg n2, if_neg n3,
      if_neg n4, if_neg n5, if_true, r3]
    unfold lisp_read_string
    simp only [bind, Except.bind, r5, if_neg n6, r6, pure, Except.pure]
  · intro x
    have := hg.NIL_atom
    rw [← x, t4] at this
    revert this
    decide
  · rw [c6, c5, c4, List.nil_append]

set_option maxRecDepth 100000 in
/-- C34, amended, at the text of `example_open_string`, the five characters
`"a\"b`: `lisp_read` returns a string, not `NIL`, whose characters are `a`,
the double quote and `b`. -/
theorem C34_unterminated_string_is_returned_witness :
    ∃ s h', lisp_read example_root.g 64 example_open_string.h example_open_string.environment
          example_open_string.tests_read_stream example_root.g.lisp_NIL = .ok (s, h')
      ∧ s ≠ example_root.g.lisp_NIL
      ∧ lisp_object_get_tag s = lisp_tag_string
      ∧ lisp_string_chars h' s
          = [lisp_char_create 0x61, lisp_char_create 0x22, lisp_char_create 0x62] := by
  have H : example_open_string.tests_read_stream ≠ example_root.g.lisp_T
      ∧ example_open_string.tests_read_stream ≠ example_root.g.lisp_NIL
      ∧ lisp_streamp example_root.g example_open_string.tests_read_stream ≠ 0
      ∧ charbuf_view example_open_string.h example_open_string.tests_read_stream
          = some example_open_string_state
      ∧ example_open_string.h.lisp_heap_cur % 16 = 0
      ∧ charbuf_ahead example_open_string_state = char_double_quote :: c_str "a\\\"b"
      ∧ (∀ c ∈ c_str "a\\\"b", c < 256)
      ∧ string_body_open (c_str "a\\\"b") = true
      ∧ (string_body_chars (c_str "a\\\"b")).map (fun c => lisp_char_create (word_of_c_char c))
          = [lisp_char_create 0x61, lisp_char_create 0x22, lisp_char_create 0x62] := by
    decide!
  obtain ⟨H1, H2, H3, H4, H5, H6, H7, H8, H9⟩ := H
  obtain ⟨s, h', r, a, b, c⟩ := C34_unterminated_string_is_returned example_root.g
    example_root_globals_wf example_open_string.environment
    example_open_string.tests_read_stream example_root.g.lisp_NIL H1 H2 H3 (c_str "a\\\"b")
    H7 H8 64 example_open_string.h example_open_string_state H4 rfl H5 H6 (by decide)
  exact ⟨s, h', r, a, b, by rw [c, H9]⟩


/-! ## Reading back the text of a list: the stream -/

theorem heap_keeps_to_but (h h' : lisp_heap) (x : Nat) (k : heap_keeps h h') :
    heap_keeps_but h h' x :=
  ⟨k.1, k.2.1, fun a r ha _ hr hs => k.2.2 a r ha hr hs⟩

theorem heap_keeps_but_trans (h1 h2 h3 : lisp_heap) (x : Nat) (a : heap_keeps_but h1 h2 x)
    (b : heap_keeps_but h2 h3 x) : heap_keeps_but h1 h3 x :=
  ⟨Nat.le_trans a.1 b.1, fun e => b.2.1 (a.2.1 e),
    fun y r hy hx hr hs => b.2.2 y r (Nat.lt_of_lt_of_le hy a.1) hx (a.2.2 y r hy hx hr hs) hs⟩

/-- A store above the allocation pointer of `h0` keeps what `h0` holds. -/
theorem heap_keeps_of_but (h0 h h' : lisp_heap) (x : Nat) (k0 : heap_keeps h0 h)
    (k : heap_keeps_but h h' x) (hx : h0.lisp_heap_cur ≤ x) : heap_keeps h0 h' :=
  ⟨Nat.le_trans k0.1 k.1, fun e => k.2.1 (k0.2.1 e),
    fun a r ha hr hs => k.2.2 a r (Nat.lt_of_lt_of_le ha k0.1) (by omega)
      (k0.2.2 a r ha hr hs) hs⟩

theorem heap_keeps_but_write (h : lisp_heap) (x : Nat) (r : lisp_record) :
    heap_keeps_but h (heap_write h x r) x :=
  ⟨Nat.le_refl _, fun e => e, fun a _ _ ha hr _ => by rw [heap_read_write, if_neg ha]; exact hr⟩

theorem read_ready_step (h0 h h' : lisp_heap) (stream : Nat) (text text' : List Nat)
    (r : read_ready h0 h stream text) (k : heap_keeps h h')
    (v : ∃ st, charbuf_view h' stream = some st ∧ st.is_readable = true
      ∧ charbuf_ahead st = text') :
    read_ready h0 h' stream text' :=
  ⟨v, k.2.1 r.aligned, heap_keeps_trans _ _ _ r.keeps k⟩

/-- Reading a character. -/
theorem ready_read_char (g : lisp_globals) (h0 h : lisp_heap) (stream c : Nat) (cs : List Nat)
    (r : read_ready h0 h stream (c :: cs)) :
    ∃ h', lisp_stream_read_char g h stream = .ok (lisp_char_create (word_of_c_char c), h')
      ∧ read_ready h0 h' stream cs ∧ heap_keeps h h' := by
  obtain ⟨st, hv, hrd, ha⟩ := r.state
  obtain ⟨h', r1, v1, _⟩ := view_read_char g h stream st c cs hv hrd ha
  have k := stream_read_char_keeps g h stream _ h' r1
  exact ⟨h', r1, read_ready_step h0 h h' stream _ _ r k
    ⟨_, v1, hrd, (charbuf_ahead_cons st c cs ha).2.2⟩, k⟩

/-- Reading a character and putting it back. -/
theorem ready_peek (g : lisp_globals) (h0 h : lisp_heap) (stream c : Nat) (cs : List Nat)
    (r : read_ready h0 h stream (c :: cs)) :
    ∃ h1 h2, lisp_stream_read_char g h stream = .ok (lisp_char_create (word_of_c_char c), h1)
      ∧ (∀ ch, lisp_stream_unread_char g h1 stream ch = .ok (ch, h2))
      ∧ read_ready h0 h1 stream cs
      ∧ read_ready h0 h2 stream (c :: cs)
      ∧ heap_keeps h h1 ∧ heap_keeps h1 h2 ∧ heap_keeps h h2 := by
  obtain ⟨st, hv, hrd, ha⟩ := r.state
  obtain ⟨h1, h2, r1, v1, r2, v2, _⟩ := view_read_unread g h stream st c cs hv hrd ha
  have k1 := stream_read_char_keeps g h stream _ h1 r1
  have k2 := stream_unread_char_keeps g h1 stream 0 0 h2 (r2 0)
  have r1' := read_ready_step h0 h h1 stream _ _ r k1
    ⟨_, v1, hrd, (charbuf_ahead_cons st c cs ha).2.2⟩
  exact ⟨h1, h2, r1, r2, r1', read_ready_step h0 h1 h2 stream _ _ r1' k2 ⟨st, v2, hrd, ha⟩,
    k1, k2, heap_keeps_trans _ _ _ k1 k2⟩

/-- Reading at the end of the text. -/
theorem ready_read_eof (g : lisp_globals) (h0 h : lisp_heap) (stream : Nat)
    (r : read_ready h0 h stream []) :
    lisp_stream_read_char g h stream = .ok (g.lisp_NIL, h) := by
  obtain ⟨st, hv, _, ha⟩ := r.state
  exact view_read_eof g h stream st hv ha

/-- An allocation, or a store into a record the stream does not have, leaves
the stream ready. -/
theorem read_ready_keep (h0 h h' : lisp_heap) (stream : Nat) (text : List Nat)
    (r : read_ready h0 h stream text) (k : heap_keeps h h')
    (v : ∀ st, charbuf_view h stream = some st → charbuf_view h' stream = some st) :
    read_ready h0 h' stream text := by
  obtain ⟨st, hv, hrd, ha⟩ := r.state
  exact read_ready_step h0 h h' stream _ _ r k ⟨st, v st hv, hrd, ha⟩

/-- Skipping at most one space in front of a character that is neither white
space nor the start of a comment. -/
theorem ready_skip (g : lisp_globals) (hg : globals_wf g) (h0 h : lisp_heap) (stream : Nat)
    (k : Nat) (ws : List Nat) (c : Nat) (cs : List Nat)
    (hws : ws = [] ∨ ws = [char_space])
    (r : read_ready h0 h stream (ws ++ c :: cs)) (hc : c < 128)
    (n1 : c ≠ char_space) (n2 : c ≠ char_newline) (n3 : c ≠ char_tab)
    (n4 : c ≠ char_semicolon) :
    ∃ h', lisp_skip_whitespace_and_comments g (k + 2) h stream = .ok h'
      ∧ read_ready h0 h' stream (c :: cs) ∧ heap_keeps h h' := by
  have base : ∀ (j : Nat) (h : lisp_heap), read_ready h0 h stream (c :: cs) →
      ∃ h', lisp_skip_whitespace_and_comments g (j + 1) h stream = .ok h'
        ∧ read_ready h0 h' stream (c :: cs) ∧ heap_keeps h h' := by
    intro j h r
    obtain ⟨b1, b2, b3, _⟩ := ascii_char g hg c hc
    obtain ⟨h1, h2, r1, r2, _, q2, _, _, k2⟩ := ready_peek g h0 h stream c cs r
    refine ⟨h2, ?_, q2, k2⟩
    unfold lisp_skip_whitespace_and_comments
    rw [r1]
    simp only [bind, Except.bind, if_neg b3, b1, n1, n2, n3, n4, or_self, ↓reduceIte, r2,
      pure, Except.pure]
  rcases hws with e | e
  · subst e
    exact base (k + 1) h r
  · subst e
    have q : char_space < 128 := by decide
    obtain ⟨b1, b2, b3, _⟩ := ascii_char g hg char_space q
    obtain ⟨h1, r1, q1, k1⟩ := ready_read_char g h0 h stream char_space (c :: cs) r
    obtain ⟨h2, r2, q2, k2⟩ := base k h1 q1
    refine ⟨h2, ?_, q2, heap_keeps_trans _ _ _ k1 k2⟩
    rw [lisp_skip_whitespace_and_comments]
    rw [r1]
    simp only [bind, Except.bind, if_neg b3, b1, true_or, ↓reduceIte]
    exact r2

/-! ## Reading back the text of a list: atoms -/

/-- Putting a character back into a character-buffer stream leaves a
string. -/
theorem unread_char_string (g : lisp_globals) (h : lisp_heap) (stream ch : Nat)
    (st : charbuf_state) (s chars : lisp_object_t) (cap len : Nat)
    (slots : List lisp_object_t)
    (hv : charbuf_view h stream = some st) (hrd : st.is_readable = true)
    (hpos : 0 < st.r_pos) (hr : string_ready h s chars cap len slots) :
    ∃ h', lisp_stream_unread_char g h stream ch = .ok (ch, h')
      ∧ charbuf_view h' stream = some { st with r_pos := st.r_pos - 1 }
      ∧ string_ready h' s chars cap len slots
      ∧ lisp_string_chars h' s = lisp_string_chars h s := by
  obtain ⟨functions, flags, metadata, _, _, p3, p4, _⟩ := charbuf_view_parts h stream st hv
  rw [← p4] at p3
  obtain ⟨q1, q2⟩ := string_ready_write_charbuf h s chars cap len slots st.metadata st
    { st with r_pos := st.r_pos - 1 } hr p3
  exact ⟨_, charbuf_unread_char g h stream ch st hv hrd hpos,
    charbuf_view_write h stream st { st with r_pos := st.r_pos - 1 } hv rfl, q1, q2⟩

theorem atom_terminator_false (c : Nat) (e : atom_terminator c = false) :
    ¬ (c = char_space ∨ c = char_newline ∨ c = char_tab ∨ c = char_semicolon
      ∨ c = char_paren_open ∨ c = char_paren_close ∨ c = char_octothorpe) := by
  unfold atom_terminator at e
  simpa using e

theorem atom_terminator_true (c : Nat) (e : atom_terminator c = true) :
    c = char_space ∨ c = char_newline ∨ c = char_tab ∨ c = char_semicolon
      ∨ c = char_paren_open ∨ c = char_paren_close ∨ c = char_octothorpe := by
  unfold atom_terminator at e
  simpa using e

/-- The loop of `lisp_read_atom` over the rest of a name, up to the end of
the text or to a character that ends the token, which is put back. -/
theorem read_atom_loop_name (g : lisp_globals) (hg : globals_wf g) (h0 : lisp_heap)
    (stream s : Nat) (tail : List Nat)
    (htail : tail = [] ∨ ∃ r rest, tail = r :: rest ∧ r < 128 ∧ atom_terminator r = true) :
    ∀ (cs : List Nat), (∀ c ∈ cs, c < 128 ∧ atom_terminator c = false) →
    ∀ (fuel : Nat) (h : lisp_heap) (chars : lisp_object_t) (cap len : Nat)
      (slots : List lisp_object_t),
      read_ready h0 h stream (cs ++ tail) → string_ready h s chars cap len slots →
      cs.length < fuel →
      ∃ h' chars' cap' slots', lisp_read_atom_loop g fuel h stream s = .ok h'
        ∧ read_ready h0 h' stream tail ∧ heap_keeps h h'
        ∧ string_ready h' s chars' cap' (len + cs.length) slots'
        ∧ lisp_string_chars h' s = lisp_string_chars h s
            ++ cs.map (fun c => lisp_char_create (word_of_c_char c)) := by
  intro cs
  induction cs with
  | nil =>
    intro _ fuel h chars cap len slots r hr hf
    obtain ⟨k, rfl⟩ : ∃ k, fuel = k + 1 := ⟨fuel - 1, by simp at hf; omega⟩
    simp only [List.nil_append] at r
    rcases htail with e | ⟨t, rest, e, ht, htt⟩
    · subst e
      refine ⟨h, chars, cap, slots, ?_, r, heap_keeps_refl _, hr, ?_⟩
      · unfold lisp_read_atom_loop
        rw [ready_read_eof g h0 h stream r]
        simp only [bind, Except.bind, ↓reduceIte, pure, Except.pure]
      · simp only [List.map_nil, List.append_nil]
    · subst e
      obtain ⟨b1, b2, b3, _⟩ := ascii_char g hg t ht
      obtain ⟨st, hv, hrd, ha⟩ := r.state
      obtain ⟨h1, r1, v1, a1, s1, t1⟩ :=
        read_char_string g h stream st t rest s chars cap len slots hv hrd ha hr
      obtain ⟨h2, r2, v2, s2, t2⟩ := unread_char_string g h1 stream
        (lisp_char_create (word_of_c_char t)) _ s chars cap len slots v1 hrd
        (Nat.succ_pos _) s1
      have k1 := stream_read_char_keeps g h stream _ h1 r1
      have k2 := stream_unread_char_keeps g h1 stream _ _ h2 r2
      have k := heap_keeps_trans _ _ _ k1 k2
      refine ⟨h2, chars, cap, slots, ?_, read_ready_step h0 h h2 stream _ _ r k
        ⟨st, v2, hrd, ha⟩, k, s2, ?_⟩
      · unfold lisp_read_atom_loop
        rw [r1]
        have tt := atom_terminator_true t htt
        simp only [bind, Except.bind, if_neg b3, b1, if_pos tt, r2, pure, Except.pure]
      · rw [t2, t1]
        simp only [List.map_nil, List.append_nil]
  | cons c cs ih =>
    intro hcs fuel h chars cap len slots r hr hf
    obtain ⟨k, rfl⟩ : ∃ k, fuel = k + 1 := ⟨fuel - 1, by simp at hf; omega⟩
    obtain ⟨hc, hct⟩ := hcs c (List.mem_cons_self _ _)
    obtain ⟨b1, b2, b3, _⟩ := ascii_char g hg c hc
    obtain ⟨st, hv, hrd, ha⟩ := r.state
    simp only [List.cons_append] at ha
    obtain ⟨h1, r1, v1, a1, s1, t1⟩ :=
      read_char_string g h stream st c (cs ++ tail) s chars cap len slots hv hrd ha hr
    have k1 := stream_read_char_keeps g h stream _ h1 r1
    obtain ⟨h3, chars3, cap3, slots3, r3, s3, t3, v3⟩ :=
      string_append_char_step h1 s chars (lisp_char_create (word_of_c_char c)) cap len
        slots s1
    have k3 := string_append_char_keeps h1 s _ _ h3 r3
    have q3 : read_ready h0 h3 stream (cs ++ tail) :=
      read_ready_step h0 h h3 stream _ _ r (heap_keeps_trans _ _ _ k1 k3)
        ⟨_, v3 stream _ v1, hrd, a1⟩
    simp only [List.length_cons] at hf
    obtain ⟨h4, chars4, cap4, slots4, r4, q4, k4, s4, t4⟩ :=
      ih (fun x hx => hcs x (List.mem_cons_of_mem _ hx)) k h3 chars3 cap3 (len + 1) slots3
        q3 s3 (by omega)
    refine ⟨h4, chars4, cap4, slots4, ?_, q4,
      heap_keeps_trans _ _ _ k1 (heap_keeps_trans _ _ _ k3 k4), ?_, ?_⟩
    · unfold lisp_read_atom_loop
      rw [r1]
      have tf := atom_terminator_false c hct
      simp only [bind, Except.bind, if_neg b3, b1, if_neg tf, r3, r4]
    · have e : len + (c :: cs).length = len + 1 + cs.length := by
        simp only [List.length_cons]; omega
      rw [e]
      exact s4
    · rw [t4, t3, t1]
      simp only [List.map_cons, List.append_assoc, List.singleton_append]

/-- The character made of an ASCII byte gives the byte back in upper case when
`lisp_atom_create` stores it. -/
theorem atom_char_upcase (g : lisp_globals) (hg : globals_wf g) (name : List Nat)
    (hname : ∀ x ∈ name, x < 128) :
    (name.map (fun c => lisp_char_create (word_of_c_char c))).map
        (fun char_object => c_upcase (c_char_of_word (lisp_char_get_value char_object)))
      = name.map c_upcase := by
  rw [List.map_map]
  apply List.map_congr_left
  intro x hx
  obtain ⟨b1, b2, _, _⟩ := ascii_char g hg x (hname x hx)
  simp only [Function.comp, b1, b2]

/-- Reading the token of a name and creating its atom. -/
theorem read_atom_token_name (g : lisp_globals) (hg : globals_wf g) (h0 : lisp_heap)
    (stream : Nat) (c : Nat) (cs tail : List Nat) (hc : c < 128)
    (hcs : ∀ x ∈ cs, x < 128 ∧ atom_terminator x = false)
    (htail : tail = [] ∨ ∃ r rest, tail = r :: rest ∧ r < 128 ∧ atom_terminator r = true)
    (fuel : Nat) (h : lisp_heap) (r : read_ready h0 h stream (c :: cs ++ tail))
    (hf : cs.length < fuel) :
    ∃ a h', lisp_read_atom_token g fuel h stream = .ok (some a, h')
      ∧ read_ready h0 h' stream tail ∧ heap_keeps h h'
      ∧ lisp_object_get_tag a = lisp_tag_atom
      ∧ lisp_atom_get_value h' a = (c :: cs).map c_upcase := by
  obtain ⟨b1, b2, b3, _⟩ := ascii_char g hg c hc
  obtain ⟨chars, s1, t1, c1, v1⟩ := string_create_empty_ready h r.aligned
  have k1 := string_create_empty_keeps h
  have q1 : read_ready h0 (lisp_string_create_empty h).2 stream (c :: cs ++ tail) :=
    read_ready_keep h0 h _ stream _ r k1 (fun st hv => v1 stream st hv)
  obtain ⟨st, hv, hrd, ha⟩ := q1.state
  simp only [List.cons_append] at ha
  obtain ⟨h2, r2, v2, a2, s2, c2⟩ :=
    read_char_string g _ stream st c (cs ++ tail) (lisp_string_create_empty h).1 chars 16 0 []
      hv hrd ha s1
  have k2 := stream_read_char_keeps g _ stream _ h2 r2
  obtain ⟨h3, chars3, cap3, slots3, r3, s3, c3, v3⟩ :=
    string_append_char_step h2 (lisp_string_create_empty h).1 chars
      (lisp_char_create (word_of_c_char c)) 16 0 [] s2
  have k3 := string_append_char_keeps h2 _ _ _ h3 r3
  have k13 := heap_keeps_trans _ _ _ k1 (heap_keeps_trans _ _ _ k2 k3)
  have q3 : read_ready h0 h3 stream (cs ++ tail) :=
    read_ready_step h0 h h3 stream _ _ r k13 ⟨_, v3 stream _ v2, hrd, a2⟩
  obtain ⟨h4, chars4, cap4, slots4, r4, q4, k4, s4, c4⟩ :=
    read_atom_loop_name g hg h0 stream (lisp_string_create_empty h).1 tail htail cs hcs fuel h3
      chars3 cap3 (0 + 1) slots3 q3 s3 hf
  have k14 := heap_keeps_trans _ _ _ k13 k4
  have hchars : lisp_string_chars h4 (lisp_string_create_empty h).1
      = (c :: cs).map (fun c => lisp_char_create (word_of_c_char c)) := by
    rw [c4, c3, c2, c1]
    simp only [List.nil_append, List.singleton_append, List.map_cons]
  have hname : ∀ x ∈ c :: cs, x < 128 := by
    intro x hx
    rcases List.mem_cons.1 hx with e | e
    · rw [e]; exact hc
    · exact (hcs x e).1
  obtain ⟨a1, a2', a3, a4, a5, a6⟩ := allocate_object h4 q4.aligned lisp_tag_atom (by decide)
    ((lisp_string_get_value h4 (lisp_string_create_empty h).1).2.2 + 1)
    (lisp_record.atom ((c :: cs).map c_upcase))
  have e5 : lisp_atom_create h4 (lisp_string_create_empty h).1
      = lisp_object_allocate h4 lisp_tag_atom
          ((lisp_string_get_value h4 (lisp_string_create_empty h).1).2.2 + 1)
          (lisp_record.atom ((c :: cs).map c_upcase)) := by
    unfold lisp_atom_create
    simp only [hchars, atom_char_upcase g hg (c :: cs) hname]
  have k5 : heap_keeps h4 (lisp_atom_create h4 (lisp_string_create_empty h).1).2 := by
    rw [e5]; exact heap_keeps_allocate h4 _ _ _
  have nn : (lisp_string_create_empty h).1 ≠ g.lisp_NIL := by
    intro x
    have := hg.NIL_atom
    rw [← x, t1] at this
    revert this
    decide
  refine ⟨(lisp_atom_create h4 (lisp_string_create_empty h).1).1,
    (lisp_atom_create h4 (lisp_string_create_empty h).1).2, ?_, ?_,
    heap_keeps_trans _ _ _ k14 k5, ?_, ?_⟩
  · unfold lisp_read_atom_token
    simp only [bind, Except.bind, r2, if_neg b3, r3, r4, ne_eq, nn, not_false_eq_true,
      if_true, pure, Except.pure]
  · refine read_ready_keep h0 h4 _ stream _ q4 k5 ?_
    intro st4 hv4
    rw [e5]
    exact charbuf_view_keep h4 _ stream st4 hv4 (Nat.le_of_lt a5)
      (fun a ha => a4 a (by omega))
  · rw [e5]; exact a1
  · unfold lisp_atom_get_value
    rw [e5, a2', a3]

/-- The lookup half of `lisp_read_atom` when the chain has an entry for the
name: the atom of that entry is returned and the heap is left as it is. -/
theorem read_atom_intern_found (g : lisp_globals) (hg : globals_wf g) (fuel : Nat)
    (h : lisp_heap) (environment r : Nat) (frames : List frame_view)
    (hs : lisp_object_get_tag r = lisp_tag_atom)
    (hchain : env_chain g h environment frames = true)
    (hwf : chain_wf g h frames = true)
    (e : Nat) (hea : env_assoc g h r frames = some e)
    (hfuel : env_fuel frames < fuel) :
    lisp_read_atom_intern g fuel h environment r = .ok (lisp_cell_car g h e, h)
      ∧ lisp_object_get_tag (lisp_cell_car g h e) = lisp_tag_atom
      ∧ c_string (lisp_atom_get_value h (lisp_cell_car g h e))
          = c_string (lisp_atom_get_value h r) := by
  have hfind := environment_find_symbol_spec g hg h r hs frames environment hchain fuel hfuel
  rw [hea] at hfind
  simp only at hfind
  obtain ⟨e16, _, ktag, kname⟩ := env_assoc_entry g h r hs frames hwf e hea
  have ene : e ≠ g.lisp_NIL := aligned_ne_NIL g hg e e16
  refine ⟨?_, ktag, kname⟩
  unfold lisp_read_atom_intern
  rw [hfind]
  simp [bind, Except.bind, pure, Except.pure, ene]

theorem plist_objects_key (g : lisp_globals) (h : lisp_heap) (cells : List Nat) (e : Nat)
    (he : e ∈ cells.map (lisp_cell_car g h)) :
    lisp_cell_car g h e ∈ plist_objects g h cells := by
  obtain ⟨c, hc, rfl⟩ := List.mem_map.1 he
  unfold plist_objects
  exact List.mem_append_right _ (List.mem_map.2 ⟨c, hc, rfl⟩)

/-- The chain of frames in a heap that keeps the cells and atom names of
`h0`. -/
theorem read_base_keeps (g : lisp_globals) (hg : globals_wf g) (h0 h : lisp_heap)
    (environment : Nat) (frames : List frame_view) (b : read_base g h0 environment frames)
    (k : heap_keeps h0 h) :
    (∀ x ∈ chain_objects g h0 frames,
        heap_read h (lisp_object_get_raw_value x) = heap_read h0 (lisp_object_get_raw_value x))
      ∧ env_chain g h environment frames = true
      ∧ chain_wf g h frames = true := by
  have hag : ∀ x ∈ chain_objects g h0 frames,
      heap_read h (lisp_object_get_raw_value x) = heap_read h0 (lisp_object_get_raw_value x) :=
    heap_keeps_agrees h0 h k _ b.stable
  refine ⟨hag, ?_, chain_wf_agree g h0 h k.1 frames b.wf hag⟩
  rw [env_chain_agree g hg h0 h frames environment hag]
  exact b.chain

/-- Reading the name of an atom that has an entry in the chain: `lisp_read_atom`
returns the atom of that entry. -/
theorem read_atom_interned (g : lisp_globals) (hg : globals_wf g) (h0 : lisp_heap)
    (environment stream recursivep : Nat) (frames : List frame_view)
    (b : read_base g h0 environment frames)
    (c : Nat) (cs tail : List Nat) (hc : c < 128)
    (hcs : ∀ x ∈ cs, x < 128 ∧ atom_terminator x = false)
    (hup : (c :: cs).map c_upcase = c :: cs) (hnn : ∀ x ∈ c :: cs, x ≠ 0)
    (htail : tail = [] ∨ ∃ r rest, tail = r :: rest ∧ r < 128 ∧ atom_terminator r = true)
    (a0 : Nat) (ha0 : lisp_object_get_tag a0 = lisp_tag_atom)
    (hn0 : c_string (lisp_atom_get_value h0 a0) = c :: cs)
    (hi0 : (env_assoc g h0 a0 frames).isSome = true)
    (fuel : Nat) (h : lisp_heap) (r : read_ready h0 h stream (c :: cs ++ tail))
    (hf : cs.length < fuel) (hfe : env_fuel frames < fuel) :
    ∃ o h', lisp_read_atom g fuel h environment stream recursivep = .ok (o, h')
      ∧ read_ready h0 h' stream tail ∧ heap_keeps h h'
      ∧ atom_read_back h' h0.lisp_heap_cur o (c :: cs) = true := by
  obtain ⟨a, h5, r5, q5, k5, t5, n5⟩ :=
    read_atom_token_name g hg h0 stream c cs tail hc hcs htail fuel h r hf
  obtain ⟨hag, hchain, hwf⟩ := read_base_keeps g hg h0 h5 environment frames b q5.keeps
  obtain ⟨e, he⟩ := Option.isSome_iff_exists.1 hi0
  have hname5 : c_string (lisp_atom_get_value h5 a) = c :: cs := by
    rw [n5, hup]
    exact c_string_of_no_NUL _ hnn
  have hea : env_assoc g h5 a frames = some e := by
    rw [env_assoc_rename g h0 h5 a0 a ha0 t5 (by rw [hname5, hn0]) frames hag]
    exact he
  obtain ⟨i1, i2, i3⟩ := read_atom_intern_found g hg fuel h5 environment a frames t5 hchain hwf
    e hea hfe
  refine ⟨lisp_cell_car g h5 e, h5, ?_, q5, k5, ?_⟩
  · rw [lisp_read_atom_eq, r5]
    exact i1
  · obtain ⟨f, hf', hpa⟩ := env_assoc_mem g h0 a0 frames e he
    have hm : e ∈ f.cells.map (lisp_cell_car g h0) := (plist_assoc_mem g h0 a0 f.cells e hpa).1
    have hme : e ∈ chain_objects g h0 frames :=
      chain_objects_frame g h0 frames f hf' e (plist_objects_entry g h0 f.cells e hm)
    have hcar : lisp_cell_car g h5 e = lisp_cell_car g h0 e :=
      (lisp_cell_car_congr g h0 h5 e (hag e hme)).1
    have hmk : lisp_cell_car g h0 e ∈ chain_objects g h0 frames :=
      chain_objects_frame g h0 frames f hf' _ (plist_objects_key g h0 f.cells e hm)
    have hst := b.stable
    unfold records_stable at hst
    rw [List.all_eq_true] at hst
    have hk := hst _ hmk
    simp only [Bool.and_eq_true, decide_eq_true_eq] at hk
    have i3' : c_string (lisp_atom_get_value h5 (lisp_cell_car g h0 e)) = c :: cs := by
      rw [← hcar, i3, hname5]
    rw [hcar] at i2
    rw [hcar]
    unfold atom_read_back
    simp only [Bool.and_eq_true, decide_eq_true_eq]
    refine ⟨⟨i2, hk.1⟩, ?_⟩
    unfold lisp_atom_get_value at i3'
    split
    · rename_i n hrec
      rw [hrec] at i3'
      simpa using i3'
    · rename_i hno
      exfalso
      split at i3'
      · rename_i n hrec
        exact hno n hrec
      · simp [c_string] at i3'


/-- Reading two characters and putting both back. -/
theorem ready_peek2 (g : lisp_globals) (h0 h : lisp_heap) (stream c d : Nat) (rest : List Nat)
    (r : read_ready h0 h stream (c :: d :: rest)) :
    ∃ h2 h3 h4 h5,
      lisp_stream_read_char g h stream = .ok (lisp_char_create (word_of_c_char c), h2)
      ∧ lisp_stream_read_char g h2 stream = .ok (lisp_char_create (word_of_c_char d), h3)
      ∧ (∀ ch, lisp_stream_unread_char g h3 stream ch = .ok (ch, h4))
      ∧ (∀ ch, lisp_stream_unread_char g h4 stream ch = .ok (ch, h5))
      ∧ read_ready h0 h5 stream (c :: d :: rest) ∧ heap_keeps h h5 := by
  obtain ⟨st, hv, hrd, ha⟩ := r.state
  obtain ⟨h2, r2, v2, _⟩ := view_read_char g h stream st c (d :: rest) hv hrd ha
  have ha2 := (charbuf_ahead_cons st c (d :: rest) ha).2.2
  obtain ⟨h3, h4, r3, _, r4, v4, _⟩ := view_read_unread g h2 stream
    { st with r_pos := st.r_pos + 1 } d rest v2 hrd ha2
  have r5 : ∀ ch, lisp_stream_unread_char g h4 stream ch
      = .ok (ch, heap_write h4 st.metadata (charbuf_record st)) := by
    intro ch
    rw [charbuf_unread_char g h4 stream ch _ v4 hrd (Nat.succ_pos _)]
    rfl
  have v5 : charbuf_view (heap_write h4 st.metadata (charbuf_record st)) stream = some st :=
    charbuf_view_write h4 stream { st with r_pos := st.r_pos + 1 } st v4 rfl
  have k2 := stream_read_char_keeps g h stream _ h2 r2
  have k3 := stream_read_char_keeps g h2 stream _ h3 r3
  have k4 := stream_unread_char_keeps g h3 stream 0 0 h4 (r4 0)
  have k5 := stream_unread_char_keeps g h4 stream 0 0 _ (r5 0)
  have k := heap_keeps_trans _ _ _ k2 (heap_keeps_trans _ _ _ k3 (heap_keeps_trans _ _ _ k4 k5))
  exact ⟨h2, h3, h4, _, r2, r3, r4, r5, read_ready_step h0 h _ stream _ _ r k ⟨st, v5, hrd, ha⟩, k⟩

/-- What `reader_name` says of a name. -/
theorem reader_name_facts (c : Nat) (cs : List Nat) (e : reader_name (c :: cs) = true) :
    (∀ x ∈ c :: cs, x ≠ 0 ∧ x < 128 ∧ atom_terminator x = false ∧ c_upcase x = x)
      ∧ ¬ (char_0 ≤ c ∧ c ≤ char_9) ∧ c ≠ char_single_quote ∧ c ≠ char_double_quote
      ∧ ((c = char_plus ∨ c = char_minus) →
          ∀ d ds, cs = d :: ds → ¬ (char_0 ≤ d ∧ d ≤ char_9)) := by
  unfold reader_name at e
  simp only [Bool.and_eq_true, List.all_eq_true, decide_eq_true_eq, Bool.not_eq_true',
    decide_eq_false_iff_not, Bool.or_eq_true] at e
  obtain ⟨⟨⟨⟨e1, e2⟩, e3⟩, e4⟩, e5⟩ := e
  refine ⟨fun x hx => ?_, e2, e3, e4, ?_⟩
  · obtain ⟨⟨x1, x2⟩, x3⟩ := e1 x hx
    exact ⟨x1.1, x1.2, x2, x3⟩
  · intro hs d ds hcs
    rcases e5 with e5 | e5
    · exact absurd hs e5
    · subst hcs
      intro x
      simp [x] at e5

theorem name_upcase (name : List Nat) (h : ∀ x ∈ name, c_upcase x = x) :
    name.map c_upcase = name := by
  induction name with
  | nil => rfl
  | cons c cs ih =>
    rw [List.map_cons, h c (List.mem_cons_self _ _),
      ih (fun x hx => h x (List.mem_cons_of_mem _ hx))]

/-- What ends a token is an ASCII character. -/
theorem delimiter_facts (r : Nat) (hr : r = char_space ∨ r = char_paren_close) :
    r < 128 ∧ atom_terminator r = true ∧ ¬ (char_0 ≤ r ∧ r ≤ char_9)
      ∧ r ≠ char_plus ∧ r ≠ char_minus := by
  rcases hr with e | e <;> subst e <;> decide

/-- Reading an atom as an element: `lisp_read_object` on the name of an atom
that has an entry in the chain returns the atom of that entry. -/
theorem read_object_atom (g : lisp_globals) (hg : globals_wf g) (h0 : lisp_heap)
    (environment stream recursivep : Nat) (frames : List frame_view)
    (b : read_base g h0 environment frames)
    (c : Nat) (cs ws tail : List Nat) (hws : ws = [] ∨ ws = [char_space])
    (hname : reader_name (c :: cs) = true)
    (htail : tail = [] ∨ ∃ r rest, tail = r :: rest ∧ (r = char_space ∨ r = char_paren_close))
    (hsign : (c = char_plus ∨ c = char_minus) → cs ++ tail ≠ [])
    (a0 : Nat) (ha0 : lisp_object_get_tag a0 = lisp_tag_atom)
    (hn0 : c_string (lisp_atom_get_value h0 a0) = c :: cs)
    (hi0 : (env_assoc g h0 a0 frames).isSome = true)
    (fuel : Nat) (h : lisp_heap) (r : read_ready h0 h stream (ws ++ (c :: cs) ++ tail))
    (hf : read_fuel frames (c :: cs).length ≤ fuel) :
    ∃ o h', lisp_read_object g fuel h environment stream recursivep = .ok (o, h')
      ∧ read_ready h0 h' stream tail ∧ heap_keeps h h'
      ∧ atom_read_back h' h0.lisp_heap_cur o (c :: cs) = true := by
  obtain ⟨f1, f2, f3, f4, f5⟩ := reader_name_facts c cs hname
  obtain ⟨c0, c128, ct, cup⟩ := f1 c (List.mem_cons_self _ _)
  have tf := atom_terminator_false c ct
  have hcs : ∀ x ∈ cs, x < 128 ∧ atom_terminator x = false :=
    fun x hx => ⟨(f1 x (List.mem_cons_of_mem _ hx)).2.1, (f1 x (List.mem_cons_of_mem _ hx)).2.2.1⟩
  have hup : (c :: cs).map c_upcase = c :: cs := name_upcase _ (fun x hx => (f1 x hx).2.2.2)
  have hnn : ∀ x ∈ c :: cs, x ≠ 0 := fun x hx => (f1 x hx).1
  have htail' : tail = [] ∨ ∃ r rest, tail = r :: rest ∧ r < 128 ∧ atom_terminator r = true := by
    rcases htail with e | ⟨t, rest, e, ht⟩
    · exact Or.inl e
    · exact Or.inr ⟨t, rest, e, (delimiter_facts t ht).1, (delimiter_facts t ht).2.1⟩
  unfold read_fuel at hf
  simp only [List.length_cons] at hf
  obtain ⟨k, rfl⟩ : ∃ k, fuel = k + 3 := ⟨fuel - 3, by omega⟩
  obtain ⟨b1, b2, b3, _⟩ := ascii_char g hg c c128
  simp only [List.append_assoc, List.cons_append] at r
  obtain ⟨h1, s1, q1, k1⟩ := ready_skip g hg h0 h stream k ws c (cs ++ tail) hws r c128
    (fun e => tf (Or.inl e)) (fun e => tf (Or.inr (Or.inl e)))
    (fun e => tf (Or.inr (Or.inr (Or.inl e))))
    (fun e => tf (Or.inr (Or.inr (Or.inr (Or.inl e)))))
  have n4 : ¬ c = char_paren_open := fun e => tf (Or.inr (Or.inr (Or.inr (Or.inr (Or.inl e)))))
  have n5 : ¬ c = char_paren_close :=
    fun e => tf (Or.inr (Or.inr (Or.inr (Or.inr (Or.inr (Or.inl e))))))
  have n6 : ¬ c = char_octothorpe :=
    fun e => tf (Or.inr (Or.inr (Or.inr (Or.inr (Or.inr (Or.inr e))))))
  by_cases hs : c = char_plus ∨ c = char_minus
  · obtain ⟨d, more, hd⟩ : ∃ d more, cs ++ tail = d :: more := by
      cases hm : cs ++ tail with
      | nil => exact absurd hm (hsign hs)
      | cons d more => exact ⟨d, more, rfl⟩
    have hd128 : d < 128 ∧ ¬ (char_0 ≤ d ∧ d ≤ char_9) := by
      cases cs with
      | nil =>
        simp only [List.nil_append] at hd
        rcases htail with e | ⟨t, rest, e, ht⟩
        · rw [e] at hd; cases hd
        · rw [e] at hd
          injection hd with hd1 _
          subst hd1
          exact ⟨(delimiter_facts t ht).1, (delimiter_facts t ht).2.2.1⟩
      | cons d' ds =>
        simp only [List.cons_append] at hd
        injection hd with hd1 _
        subst hd1
        exact ⟨(f1 d' (List.mem_cons_of_mem _ (List.mem_cons_self _ _))).2.1,
          f5 hs d' ds rfl⟩
    obtain ⟨d1, d2, d3, _⟩ := ascii_char g hg d hd128.1
    have hd' : ¬ (0x30 ≤ d ∧ d ≤ 0x39) := hd128.2
    rw [hd] at q1
    obtain ⟨h2, h3, h4, h5, r2, r3, r4, r5, q5, k5⟩ := ready_peek2 g h0 h1 stream c d more q1
    rw [← hd] at q5
    obtain ⟨o, h6, r6, q6, k6, a6⟩ := read_atom_interned g hg h0 environment stream recursivep
      frames b c cs tail c128 hcs hup hnn htail' a0 ha0 hn0 hi0 (k + 2) h5 q5 (by omega)
      (by omega)
    refine ⟨o, h6, ?_, q6, heap_keeps_trans _ _ _ k1 (heap_keeps_trans _ _ _ k5 k6), a6⟩
    rw [lisp_read_object]
    simp only [bind, Except.bind, s1, r2, if_neg b3, b1, if_neg f2, if_pos hs, r3, d1, r4, r5,
      if_neg hd', r6]
  · obtain ⟨h2, h3, r2, r3, _, q3, _, _, k3⟩ := ready_peek g h0 h1 stream c (cs ++ tail) q1
    obtain ⟨o, h6, r6, q6, k6, a6⟩ := read_atom_interned g hg h0 environment stream recursivep
      frames b c cs tail c128 hcs hup hnn htail' a0 ha0 hn0 hi0 (k + 2) h3 q3 (by omega)
      (by omega)
    refine ⟨o, h6, ?_, q6, heap_keeps_trans _ _ _ k1 (heap_keeps_trans _ _ _ k3 k6), a6⟩
    rw [lisp_read_object]
    simp only [bind, Except.bind, s1, r2, if_neg b3, b1, if_neg f2, if_neg hs, if_neg f3,
      if_neg n4, if_neg n5, if_neg f4, if_neg n6, r3, r6]


/-! ## Reading back the text of a list: fixnums and characters -/

/-- The loop of `lisp_read_fixnum` over digits, up to a character that is no
digit and no sign, which is put back. -/
theorem read_fixnum_loop_delim (g : lisp_globals) (hg : globals_wf g) (h0 : lisp_heap)
    (stream : Nat) (t : Nat) (rest : List Nat) (ht : t < 128)
    (htd : ¬ (char_0 ≤ t ∧ t ≤ char_9)) (htp : t ≠ char_plus) (htm : t ≠ char_minus) :
    ∀ (ds : List Nat), (∀ c ∈ ds, char_0 ≤ c ∧ c ≤ char_9) →
    ∀ (fuel : Nat) (h : lisp_heap) (acc : List Nat),
      read_ready h0 h stream (ds ++ t :: rest) → acc.length + ds.length ≤ 19 →
      ds.length < fuel →
      ∃ h', lisp_read_fixnum_loop g 19 fuel h stream acc = .ok (some (acc ++ ds), h')
        ∧ read_ready h0 h' stream (t :: rest) ∧ heap_keeps h h' := by
  intro ds
  induction ds with
  | nil =>
    intro _ fuel h acc r _ hf
    obtain ⟨k, rfl⟩ : ∃ k, fuel = k + 1 := ⟨fuel - 1, by simp at hf; omega⟩
    simp only [List.nil_append] at r
    obtain ⟨b1, b2, b3, _⟩ := ascii_char g hg t ht
    obtain ⟨h1, h2, r1, r2, _, q2, _, _, k2⟩ := ready_peek g h0 h stream t rest r
    refine ⟨h2, ?_, q2, k2⟩
    unfold lisp_read_fixnum_loop
    rw [r1]
    simp only [bind, Except.bind, if_neg b3, b1, htp, htm, or_self, ↓reduceIte, htd, r2, pure,
      Except.pure, List.append_nil]
  | cons c cs ih =>
    intro hds fuel h acc r hl hf
    obtain ⟨k, rfl⟩ : ∃ k, fuel = k + 1 := ⟨fuel - 1, by simp at hf; omega⟩
    have hc := hds c (List.mem_cons_self _ _)
    obtain ⟨a1, a2, a3⟩ := digit_ascii c hc
    obtain ⟨b1, b2, b3, _⟩ := ascii_char g hg c a1
    simp only [List.cons_append] at r
    obtain ⟨h1, r1, q1, k1⟩ := ready_read_char g h0 h stream c (cs ++ t :: rest) r
    simp only [List.length_cons] at hl hf
    obtain ⟨h2, r2, q2, k2⟩ := ih (fun x hx => hds x (List.mem_cons_of_mem _ hx)) k h1
      (acc ++ [c]) q1
      (by simp only [List.length_append, List.length_singleton]; omega) (by omega)
    refine ⟨h2, ?_, q2, heap_keeps_trans _ _ _ k1 k2⟩
    unfold lisp_read_fixnum_loop
    rw [r1]
    have n0 : ¬ acc.length = 19 := by omega
    simp only [bind, Except.bind, if_neg b3, b1, a2, a3, or_self, ↓reduceIte, hc, and_self,
      n0, b2]
    rw [r2]
    simp only [List.append_assoc, List.singleton_append]

theorem fixnum_text_eq (f : Int) (hmin : lisp_fixnum_min true ≤ f)
    (hmax : f ≤ lisp_fixnum_max true) :
    fixnum_text f = c_snprintf_lld f ∧ c_atol (fixnum_text f) = f := by
  have hb := fixnum_natAbs_bound f hmin hmax
  have hf : f.natAbs < 10 ^ 20 := Nat.lt_of_lt_of_le hb (by norm_num)
  have e : fixnum_text f = c_snprintf_lld f := by
    rw [c_snprintf_lld_eq f hf]
    rfl
  exact ⟨e, by rw [e]; exact c_atol_snprintf f hf⟩

/-- Reading a fixnum as an element: `lisp_read_object` on the decimal text of
a fixnum that a space or a closing parenthesis follows returns the fixnum. -/
theorem read_object_fixnum (g : lisp_globals) (hg : globals_wf g) (h0 : lisp_heap)
    (environment stream recursivep : Nat) (f : Int)
    (hmin : lisp_fixnum_min true ≤ f) (hmax : f ≤ lisp_fixnum_max true)
    (ws tail : List Nat) (hws : ws = [] ∨ ws = [char_space])
    (htail : ∃ r rest, tail = r :: rest ∧ (r = char_space ∨ r = char_paren_close))
    (fuel : Nat) (h : lisp_heap) (r : read_ready h0 h stream (ws ++ fixnum_text f ++ tail))
    (hf : (fixnum_text f).length + 3 ≤ fuel) :
    ∃ h', lisp_read_object g fuel h environment stream recursivep
        = .ok (lisp_fixnum_create true f, h')
      ∧ read_ready h0 h' stream tail ∧ heap_keeps h h' := by
  obtain ⟨t, rest, rfl, ht⟩ := htail
  obtain ⟨t1, _, t3, t4, t5⟩ := delimiter_facts t ht
  have hb := fixnum_natAbs_bound f hmin hmax
  have hds := base_10_digits_digit f.natAbs
  have hlen := base_10_digits_length f.natAbs 18 (by norm_num) hb
  have hne := base_10_digits_ne_nil f.natAbs
  have hval := (fixnum_text_eq f hmin hmax).2
  obtain ⟨k, rfl⟩ : ∃ k, fuel = k + 3 := ⟨fuel - 3, by omega⟩
  unfold fixnum_text at r hf hval
  generalize base_10_digits f.natAbs = digits at hds hlen hne hval r hf
  obtain ⟨d, ds, rfl⟩ : ∃ d ds, digits = d :: ds := by
    cases digits with
    | nil => exact absurd rfl hne
    | cons d ds => exact ⟨d, ds, rfl⟩
  have hd := hds d (List.mem_cons_self _ _)
  obtain ⟨d1, d2, d3⟩ := digit_ascii d hd
  obtain ⟨e1, e2, e3, _⟩ := ascii_char g hg d d1
  have dws : d ≠ char_space ∧ d ≠ char_newline ∧ d ≠ char_tab ∧ d ≠ char_semicolon := by
    unfold char_0 char_9 at hd
    unfold char_space char_newline char_tab char_semicolon
    omega
  by_cases neg : f < 0
  · rw [if_pos neg] at r hf hval
    simp only [List.singleton_append, List.append_assoc, List.cons_append, List.length_cons,
      List.nil_append] at r hf
    have m1 : char_minus < 128 := by decide
    obtain ⟨b1, b2, b3, _⟩ := ascii_char g hg char_minus m1
    obtain ⟨h1, s1, q1, k1⟩ := ready_skip g hg h0 h stream k ws char_minus
      (d :: (ds ++ t :: rest)) hws r m1 (by decide) (by decide) (by decide) (by decide)
    obtain ⟨h2, h3, h4, h5, r2, r3, r4, r5, q5, k5⟩ :=
      ready_peek2 g h0 h1 stream char_minus d (ds ++ t :: rest) q1
    obtain ⟨h6, r6, q6, k6⟩ := ready_read_char g h0 h5 stream char_minus _ q5
    obtain ⟨h7, r7, q7, k7⟩ := read_fixnum_loop_delim g hg h0 stream t rest t1 t3 t4 t5
      (d :: ds) hds (k + 1) h6 [char_minus] q6
      (by simp only [List.length_singleton, List.length_cons, List.length_nil] at hlen ⊢; omega)
      (by simp only [List.length_cons]; omega)
    refine ⟨h7, ?_, q7, heap_keeps_trans _ _ _ k1
      (heap_keeps_trans _ _ _ k5 (heap_keeps_trans _ _ _ k6 k7))⟩
    have n1 : ¬ (char_0 ≤ char_minus ∧ char_minus ≤ char_9) := by decide
    have hd' : 0x30 ≤ d ∧ d ≤ 0x39 := hd
    have e6 : lisp_read_fixnum_loop g 19 (k + 2) h5 stream []
        = .ok (some (char_minus :: d :: ds), h7) := by
      rw [lisp_read_fixnum_loop, r6]
      simp only [bind, Except.bind, if_neg b3, b1, or_true, ↓reduceIte, List.length_nil, ne_eq,
        not_true_eq_false, List.nil_append, b2]
      rw [r7]
      simp only [List.singleton_append]
    rw [lisp_read_object]
    simp only [bind, Except.bind, s1, r2, if_neg b3, b1, if_neg n1, or_true, ↓reduceIte, r3, e1,
      r4, r5, hd', and_self]
    unfold lisp_read_fixnum
    simp only [bind, Except.bind, Nat.reduceAdd, e6, pure, Except.pure]
    simp only [List.singleton_append] at hval
    rw [hval]
  · rw [if_neg neg] at r hf hval
    simp only [List.nil_append, List.append_assoc, List.cons_append, List.length_cons] at r hf
    obtain ⟨h1, s1, q1, k1⟩ := ready_skip g hg h0 h stream k ws d (ds ++ t :: rest) hws r d1
      dws.1 dws.2.1 dws.2.2.1 dws.2.2.2
    obtain ⟨h2, h3, r2, r3, _, q3, _, _, k3⟩ := ready_peek g h0 h1 stream d _ q1
    obtain ⟨h7, r7, q7, k7⟩ := read_fixnum_loop_delim g hg h0 stream t rest t1 t3 t4 t5
      (d :: ds) hds (k + 2) h3 [] q3
      (by simp only [List.length_nil, List.length_cons] at hlen ⊢; omega)
      (by simp only [List.length_cons]; omega)
    refine ⟨h7, ?_, q7, heap_keeps_trans _ _ _ k1 (heap_keeps_trans _ _ _ k3 k7)⟩
    rw [lisp_read_object]
    simp only [bind, Except.bind, s1, r2, if_neg e3, e1, hd, and_self, ↓reduceIte, r3]
    unfold lisp_read_fixnum
    simp only [bind, Except.bind, Nat.reduceAdd, r7, List.nil_append, pure, Except.pure]
    simp only [List.nil_append] at hval
    rw [hval]

/-- Reading a character as an element: `lisp_read_object` on `#\` and an ASCII
character returns that character. -/
theorem read_object_char (g : lisp_globals) (hg : globals_wf g) (h0 : lisp_heap)
    (environment stream recursivep : Nat) (c : Nat) (hc : c < 128)
    (ws tail : List Nat) (hws : ws = [] ∨ ws = [char_space])
    (fuel : Nat) (h : lisp_heap)
    (r : read_ready h0 h stream (ws ++ [char_octothorpe, char_backslash, c] ++ tail))
    (hf : 3 ≤ fuel) :
    ∃ h', lisp_read_object g fuel h environment stream recursivep
        = .ok (lisp_char_create c, h')
      ∧ read_ready h0 h' stream tail ∧ heap_keeps h h' := by
  obtain ⟨k, rfl⟩ : ∃ k, fuel = k + 3 := ⟨fuel - 3, by omega⟩
  have m1 : char_octothorpe < 128 := by decide
  have m2 : char_backslash < 128 := by decide
  obtain ⟨a1, a2, a3, _⟩ := ascii_char g hg char_octothorpe m1
  obtain ⟨b1, b2, b3, _⟩ := ascii_char g hg char_backslash m2
  obtain ⟨c1, c2, c3, c4⟩ := ascii_char g hg c hc
  simp only [List.append_assoc, List.cons_append, List.nil_append] at r
  obtain ⟨h1, s1, q1, k1⟩ := ready_skip g hg h0 h stream k ws char_octothorpe
    (char_backslash :: c :: tail) hws r m1 (by decide) (by decide) (by decide) (by decide)
  obtain ⟨h2, h3, h4, h5, r2, r3, r4, r5, q5, k5⟩ :=
    ready_peek2 g h0 h1 stream char_octothorpe char_backslash (c :: tail) q1
  obtain ⟨h6, r6, q6, k6⟩ := ready_read_char g h0 h5 stream char_octothorpe _ q5
  obtain ⟨h7, r7, q7, k7⟩ := ready_read_char g h0 h6 stream char_backslash _ q6
  obtain ⟨h8, r8, q8, k8⟩ := ready_read_char g h0 h7 stream c _ q7
  rw [c4] at r8
  refine ⟨h8, ?_, q8, heap_keeps_trans _ _ _ k1 (heap_keeps_trans _ _ _ k5
    (heap_keeps_trans _ _ _ k6 (heap_keeps_trans _ _ _ k7 k8)))⟩
  have n1 : ¬ (char_0 ≤ char_octothorpe ∧ char_octothorpe ≤ char_9) := by decide
  have n2 : ¬ (char_octothorpe = char_plus ∨ char_octothorpe = char_minus) := by decide
  have n3 : ¬ char_octothorpe = char_single_quote := by decide
  have n4 : ¬ char_octothorpe = char_paren_open := by decide
  have n5 : ¬ char_octothorpe = char_paren_close := by decide
  have n6 : ¬ char_octothorpe = char_double_quote := by decide
  have n7 : ¬ char_backslash = char_paren_open := by decide
  rw [lisp_read_object]
  simp only [bind, Except.bind, s1, r2, if_neg a3, a1, if_neg n1, if_neg n2, if_neg n3,
    if_neg n4, if_neg n5, if_neg n6, if_true, r3, if_neg b3, b1, if_neg n7, r4, r5]
  unfold lisp_read_character
  simp only [bind, Except.bind, r6, if_neg a3, a1, ne_eq, not_true_eq_false, if_false, r7,
    if_neg b3, b1, r8]


/-! ## Reading back the text of a list: what the reader gives back -/

theorem atom_read_back_keeps (h h' : lisp_heap) (base o : Nat) (name : List Nat)
    (k : ∀ a r, a < base → heap_read h a = some r → stable_record r = true →
      heap_read h' a = some r)
    (e : atom_read_back h base o name = true) : atom_read_back h' base o name = true := by
  unfold atom_read_back at e ⊢
  simp only [Bool.and_eq_true, decide_eq_true_eq] at e ⊢
  obtain ⟨⟨e1, e2⟩, e3⟩ := e
  refine ⟨⟨e1, e2⟩, ?_⟩
  split at e3
  · rename_i n hrec
    rw [k _ _ e2 hrec rfl]
    exact e3
  · cases e3

/-- What the reader gave back stays what it is in a heap that keeps the
records below `base` and those from `lo` up to `hi`. -/
theorem read_back_keeps (g : lisp_globals) (h h' : lisp_heap) (base lo hi : Nat)
    (k : ∀ a r, (a < base ∨ (lo ≤ a ∧ a < hi)) → heap_read h a = some r →
      stable_record r = true → heap_read h' a = some r) :
    ∀ (v : printed_value) (o : Nat) (c : Bool),
      read_back g h base lo hi o v c = true → read_back g h' base lo hi o v c = true := by
  have ka : ∀ a r, a < base → heap_read h a = some r → stable_record r = true →
      heap_read h' a = some r := fun a r ha => k a r (Or.inl ha)
  intro v
  induction v with
  | nil =>
    intro o c e
    unfold read_back at e ⊢
    cases c
    · simp only [Bool.false_eq_true, if_false] at e ⊢
      exact atom_read_back_keeps h h' base o _ ka e
    · exact e
  | atom name =>
    intro o c e
    unfold read_back at e ⊢
    simp only [Bool.and_eq_true] at e ⊢
    exact ⟨e.1, atom_read_back_keeps h h' base o _ ka e.2⟩
  | fixnum f => intro o c e; unfold read_back at e ⊢; exact e
  | char x => intro o c e; unfold read_back at e ⊢; exact e
  | string chars => intro o c e; unfold read_back at e; cases e
  | cell a d iha ihd =>
    intro o c e
    unfold read_back at e ⊢
    simp only [Bool.and_eq_true, decide_eq_true_eq] at e ⊢
    obtain ⟨⟨⟨e1, e2⟩, e3⟩, e4⟩ := e
    refine ⟨⟨⟨e1, e2⟩, e3⟩, ?_⟩
    split at e4
    · rename_i x y hrec
      rw [k _ _ (Or.inr ⟨e2, e3⟩) hrec rfl]
      simp only [Bool.and_eq_true] at e4 ⊢
      exact ⟨iha x false e4.1, ihd y true e4.2⟩
    · cases e4

/-- What the reader gave back in a wider range of addresses. -/
theorem read_back_mono (g : lisp_globals) (h : lisp_heap) (base lo hi lo' hi' : Nat)
    (h1 : lo' ≤ lo) (h2 : hi ≤ hi') :
    ∀ (v : printed_value) (o : Nat) (c : Bool),
      read_back g h base lo hi o v c = true → read_back g h base lo' hi' o v c = true := by
  intro v
  induction v with
  | nil => intro o c e; unfold read_back at e ⊢; exact e
  | atom name => intro o c e; unfold read_back at e ⊢; exact e
  | fixnum f => intro o c e; unfold read_back at e ⊢; exact e
  | char x => intro o c e; unfold read_back at e ⊢; exact e
  | string chars => intro o c e; unfold read_back at e; cases e
  | cell a d iha ihd =>
    intro o c e
    unfold read_back at e ⊢
    simp only [Bool.and_eq_true, decide_eq_true_eq] at e ⊢
    obtain ⟨⟨⟨e1, e2⟩, e3⟩, e4⟩ := e
    refine ⟨⟨⟨e1, by omega⟩, by omega⟩, ?_⟩
    split at e4
    · rename_i x y hrec
      simp only [Bool.and_eq_true] at e4 ⊢
      exact ⟨iha x false e4.1, ihd y true e4.2⟩
    · cases e4

/-- The cell the reader made of what it gave back for the parts. -/
theorem read_back_cell (g : lisp_globals) (h : lisp_heap) (base lo hi : Nat)
    (o x y : Nat) (a d : printed_value) (c : Bool)
    (ho : o % 16 = 0) (hlo : lo ≤ o) (hhi : o < hi)
    (hrec : heap_read h o = some (lisp_record.cell x y))
    (ea : read_back g h base lo hi x a false = true)
    (ed : read_back g h base lo hi y d true = true) :
    read_back g h base lo hi o (.cell a d) c = true := by
  have raw : lisp_object_get_raw_value o = o := raw_value_aligned o ho
  unfold read_back
  rw [raw, hrec]
  simp only [Bool.and_eq_true, decide_eq_true_eq]
  refine ⟨⟨⟨?_, hlo⟩, hhi⟩, ea, ed⟩
  rw [lisp_object_get_tag_eq]
  exact ho

/-- The parts of a cell of the source. -/
theorem source_value_cell (g : lisp_globals) (h0 : lisp_heap) (m : Nat)
    (frames : List frame_view) (src : Nat) (a d : printed_value) (c : Bool)
    (s : source_value g h0 m frames src (.cell a d) c) :
    ∃ x y, source_value g h0 m frames x a false ∧ source_value g h0 m frames y d true := by
  obtain ⟨s1, s2, s3⟩ := s
  obtain ⟨o16, _, _, x, y, hrec, rx, ry⟩ := represents_cell g h0 m src a d s1
  have raw : lisp_object_get_raw_value src = src := raw_value_aligned src o16
  unfold leaves_interned at s2
  rw [raw, hrec] at s2
  simp only [Bool.and_eq_true] at s2
  unfold round_trip_value at s3
  simp only [Bool.and_eq_true] at s3
  exact ⟨x, y, ⟨rx, s2.1, s3.1⟩, ⟨ry, s2.2, s3.2⟩⟩

/-- The rest of a list is `NIL` or a cell. -/
theorem chain_shape (d : printed_value) (e : round_trip_value d true = true) :
    d = .nil ∨ ∃ a d', d = .cell a d' := by
  cases d with
  | nil => exact Or.inl rfl
  | atom name => simp [round_trip_value] at e
  | fixnum f => simp [round_trip_value] at e
  | char x => simp [round_trip_value] at e
  | string chars => simp [round_trip_value] at e
  | cell a d' => exact Or.inr ⟨a, d', rfl⟩

/-- After an element of a list comes a space or the closing parenthesis. -/
theorem chain_delimited (d : printed_value) (e : round_trip_value d true = true)
    (tail : List Nat) :
    ∃ r rest, text_in_cell d true ++ [char_paren_close] ++ tail = r :: rest
      ∧ (r = char_space ∨ r = char_paren_close) := by
  rcases chain_shape d e with rfl | ⟨a, d', rfl⟩
  · exact ⟨char_paren_close, tail, rfl, Or.inr rfl⟩
  · rw [(text_in_cell_cell a d').2]
    exact ⟨char_space, _, rfl, Or.inl rfl⟩

/-- An element the reader gave back is not the atom that ends the list, which
was made after the heap `h0`. -/
theorem read_back_ne_eol (g : lisp_globals) (h0 h : lisp_heap) (m : Nat) (lo hi : Nat)
    (src o eol : Nat) (v : printed_value)
    (hs : represents g h0 m src v = true)
    (e : read_back g h h0.lisp_heap_cur lo hi o v false = true)
    (ht : lisp_object_get_tag eol = lisp_tag_atom)
    (hr : h0.lisp_heap_cur ≤ lisp_object_get_raw_value eol) : o ≠ eol := by
  have atom_case : ∀ name, atom_read_back h h0.lisp_heap_cur o name = true → o ≠ eol := by
    intro name x y
    unfold atom_read_back at x
    simp only [Bool.and_eq_true, decide_eq_true_eq] at x
    rw [y] at x
    omega
  cases v with
  | nil =>
    unfold read_back at e
    simp only [Bool.false_eq_true, if_false] at e
    exact atom_case _ e
  | atom name =>
    unfold read_back at e
    simp only [Bool.and_eq_true] at e
    exact atom_case _ e.2
  | fixnum f =>
    unfold read_back at e
    unfold represents at hs
    simp only [Bool.and_eq_true, decide_eq_true_eq, Bool.not_false, true_and] at e hs
    intro y
    have := (fixnum_round_trip true f hs.2.1 hs.2.2).2
    rw [← e, y, ht] at this
    revert this
    decide
  | char x =>
    unfold read_back at e
    unfold represents at hs
    simp only [Bool.and_eq_true, decide_eq_true_eq, Bool.not_false, true_and] at e hs
    intro y
    have := (char_create_value x (by omega)).2
    rw [← e, y, ht] at this
    revert this
    decide
  | string chars => unfold read_back at e; cases e
  | cell a d =>
    unfold read_back at e
    simp only [Bool.and_eq_true, decide_eq_true_eq] at e
    intro y
    have := e.1.1.1
    rw [y, ht] at this
    revert this
    decide


/-! ## Reading back the text of a list: elements -/

theorem tail_ok_leaf (v : printed_value) (tail : List Nat) (ht : tail_ok v tail)
    (hv : ∀ a d, v ≠ .cell a d) :
    ∃ r rest, tail = r :: rest ∧ (r = char_space ∨ r = char_paren_close) := by
  rcases ht with ⟨a, d, x⟩ | x
  · exact absurd x (hv a d)
  · exact x

theorem reads_element_nil (g : lisp_globals) (hg : globals_wf g) (h0 : lisp_heap)
    (environment stream : Nat) (frames : List frame_view) (m : Nat)
    (b : read_base g h0 environment frames) :
    reads_element g environment stream frames h0 m .nil := by
  intro fuel h ws tail src recursivep hf hws r ht s
  obtain ⟨s1, s2, _⟩ := s
  obtain ⟨e1, e2⟩ := represents_nil g h0 m src s1
  unfold leaves_interned at s2
  simp only [Bool.false_or] at s2
  have htail := tail_ok_leaf _ tail ht (fun a d x => by cases x)
  have text : readable_text .nil = 78 :: [73, 76] := by decide
  rw [text] at r hf
  have hn0 : c_string (lisp_atom_get_value h0 g.lisp_NIL) = 78 :: [73, 76] := by
    rw [← e1, e2]; decide
  obtain ⟨o, h', r1, q1, k1, a1⟩ := read_object_atom g hg h0 environment stream recursivep
    frames b 78 [73, 76] ws tail hws (by decide) (Or.inr htail)
    (fun _ x => by simp at x) g.lisp_NIL hg.NIL_atom hn0 s2
    fuel h r hf
  refine ⟨o, h', r1, q1, k1, ?_⟩
  unfold read_back
  simp only [Bool.false_eq_true, if_false]
  exact a1

theorem reads_element_atom (g : lisp_globals) (hg : globals_wf g) (h0 : lisp_heap)
    (environment stream : Nat) (frames : List frame_view) (m : Nat)
    (b : read_base g h0 environment frames) (name : List Nat) :
    reads_element g environment stream frames h0 m (.atom name) := by
  intro fuel h ws tail src recursivep hf hws r ht s
  obtain ⟨s1, s2, s3⟩ := s
  obtain ⟨_, e2, e3, e4⟩ := represents_atom g h0 m src name s1
  unfold leaves_interned at s2
  unfold round_trip_value at s3
  simp only [Bool.not_false, Bool.true_and] at s3
  obtain ⟨t, rest, rfl, ht'⟩ := tail_ok_leaf _ tail ht (fun a d x => by cases x)
  have text : readable_text (.atom name) = name := by
    simp [readable_text, text_in_cell, leaf_text]
  rw [text] at r hf
  obtain ⟨c, cs, rfl⟩ : ∃ c cs, name = c :: cs := by
    cases name with
    | nil => simp [reader_name] at s3
    | cons c cs => exact ⟨c, cs, rfl⟩
  have hn0 : c_string (lisp_atom_get_value h0 src) = c :: cs := by
    rw [e3]
    exact c_string_of_no_NUL _ (fun x hx => (e4 x hx).1)
  obtain ⟨o, h', r1, q1, k1, a1⟩ := read_object_atom g hg h0 environment stream recursivep
    frames b c cs ws (t :: rest) hws s3 (Or.inr ⟨t, rest, rfl, ht'⟩)
    (fun _ x => by simp at x) src e2 hn0 s2 fuel h r hf
  refine ⟨o, h', r1, q1, k1, ?_⟩
  unfold read_back
  simp only [Bool.not_false, Bool.true_and]
  exact a1

theorem reads_element_fixnum (g : lisp_globals) (hg : globals_wf g) (h0 : lisp_heap)
    (environment stream : Nat) (frames : List frame_view) (m : Nat) (f : Int) :
    reads_element g environment stream frames h0 m (.fixnum f) := by
  intro fuel h ws tail src recursivep hf hws r ht s
  obtain ⟨s1, _, _⟩ := s
  unfold represents at s1
  simp only [Bool.and_eq_true, decide_eq_true_eq] at s1
  have htail := tail_ok_leaf _ tail ht (fun a d x => by cases x)
  have text : readable_text (.fixnum f) = fixnum_text f := by
    simp [readable_text, text_in_cell, leaf_text]
  rw [text] at r hf
  unfold read_fuel at hf
  obtain ⟨h', r1, q1, k1⟩ := read_object_fixnum g hg h0 environment stream recursivep f
    s1.2.1 s1.2.2 ws tail hws htail fuel h r (by omega)
  refine ⟨_, h', r1, q1, k1, ?_⟩
  unfold read_back
  simp only [Bool.not_false, Bool.true_and, decide_eq_true_eq]

theorem reads_element_char (g : lisp_globals) (hg : globals_wf g) (h0 : lisp_heap)
    (environment stream : Nat) (frames : List frame_view) (m : Nat) (c : Nat) :
    reads_element g environment stream frames h0 m (.char c) := by
  intro fuel h ws tail src recursivep hf hws r ht s
  obtain ⟨s1, _, _⟩ := s
  unfold represents at s1
  simp only [Bool.and_eq_true, decide_eq_true_eq] at s1
  have text : readable_text (.char c) = [char_octothorpe, char_backslash, c] := by
    simp [readable_text, text_in_cell, leaf_text]
  rw [text] at r hf
  unfold read_fuel at hf
  obtain ⟨h', r1, q1, k1⟩ := read_object_char g hg h0 environment stream recursivep c
    s1.2 ws tail hws fuel h r (by omega)
  refine ⟨_, h', r1, q1, k1, ?_⟩
  unfold read_back
  simp only [Bool.not_false, Bool.true_and, decide_eq_true_eq]

/-! ## Reading back the text of a list: the loop of `lisp_read_list` -/

/-- A new cell on a heap where the stream is ready. -/
theorem ready_cons (h0 h : lisp_heap) (stream : Nat) (text : List Nat) (x y : Nat)
    (r : read_ready h0 h stream text) :
    lisp_cell_cons h x y = (h.lisp_heap_cur, cons_heap h x y)
      ∧ read_ready h0 (cons_heap h x y) stream text
      ∧ heap_keeps h (cons_heap h x y)
      ∧ heap_read (cons_heap h x y) h.lisp_heap_cur = some (lisp_record.cell x y)
      ∧ (cons_heap h x y).lisp_heap_cur = h.lisp_heap_cur + 16 := by
  have e := lisp_cell_cons_heap h x y
  have k : heap_keeps h (cons_heap h x y) := by
    have := heap_keeps_allocate h lisp_tag_cell 16 (lisp_record.cell x y)
    have e2 : (lisp_object_allocate h lisp_tag_cell 16 (lisp_record.cell x y)).2
        = cons_heap h x y := by
      have := e
      unfold lisp_cell_cons at this
      rw [this]
    rw [e2] at this
    exact this
  refine ⟨e, ?_, k, ?_, rfl⟩
  · refine read_ready_keep h0 h _ stream _ r k ?_
    intro st hv
    refine charbuf_view_keep h _ stream st hv (by rw [cons_heap_cur]; omega) ?_
    intro a ha
    rw [cons_heap_read, if_neg (Nat.ne_of_lt ha)]
  · rw [cons_heap_read, if_pos rfl]

/-- The loop of `lisp_read_list` at the closing parenthesis. -/
theorem reads_chain_nil (g : lisp_globals) (hg : globals_wf g) (h0 : lisp_heap)
    (environment stream : Nat) (frames : List frame_view) (m : Nat) :
    reads_chain g environment stream frames h0 m .nil := by
  intro fuel h tail src eol list_head list_cur car_cur hf r _ _ _ _ _ hcurhi hrec
  unfold read_fuel at hf
  obtain ⟨k, rfl⟩ : ∃ k, fuel = k + 4 := ⟨fuel - 4, by omega⟩
  have text : text_in_cell .nil true = [] := rfl
  rw [text] at r
  simp only [List.nil_append, List.singleton_append] at r
  have m1 : char_paren_close < 128 := by decide
  obtain ⟨a1, a2, a3, _⟩ := ascii_char g hg char_paren_close m1
  obtain ⟨h1, s1, q1, k1⟩ := ready_skip g hg h0 h stream k [] char_paren_close tail
    (Or.inl rfl) r m1 (by decide) (by decide) (by decide) (by decide)
  obtain ⟨h2, r2, q2, k2⟩ := ready_read_char g h0 h1 stream char_paren_close tail q1
  have kk := heap_keeps_trans _ _ _ k1 k2
  refine ⟨h2, g.lisp_NIL, ?_, q2, heap_keeps_to_but _ _ _ kk, kk.2.2 _ _ hcurhi hrec rfl, ?_⟩
  · have n1 : ¬ (char_0 ≤ char_paren_close ∧ char_paren_close ≤ char_9) := by decide
    have n2 : ¬ (char_paren_close = char_plus ∨ char_paren_close = char_minus) := by decide
    have n3 : ¬ char_paren_close = char_single_quote := by decide
    have n4 : ¬ char_paren_close = char_paren_open := by decide
    have e : lisp_read_object g (k + 3) h environment stream eol = .ok (eol, h2) := by
      rw [lisp_read_object]
      simp only [bind, Except.bind, s1, r2, if_neg a3, a1, if_neg n1, if_neg n2, if_neg n3,
        if_neg n4, if_true, pure, Except.pure]
    rw [lisp_read_list_loop]
    simp only [bind, Except.bind, e, ne_eq, not_true_eq_false, if_false, pure, Except.pure]
  · unfold read_back
    simp only [if_true, decide_eq_true_eq]


theorem heap_keeps_of_extends (h h' : lisp_heap) (x : heap_extends h h') : heap_keeps h h' :=
  ⟨x.cur, x.aligned, fun a r ha hr _ => by rw [x.same a ha]; exact hr⟩

/-- A store into the `CDR` of a cell made after `h0`, on a heap where the
stream is ready. -/
theorem ready_rplacd (h0 h : lisp_heap) (stream : Nat) (text : List Nat)
    (cell car cdr newcdr : Nat) (r : read_ready h0 h stream text)
    (hc : cell % 16 = 0) (hlo : h0.lisp_heap_cur ≤ cell)
    (hrec : heap_read h cell = some (lisp_record.cell car cdr)) :
    lisp_cell_rplacd h cell newcdr
        = .ok (cell, heap_write h cell (lisp_record.cell car newcdr))
      ∧ read_ready h0 (heap_write h cell (lisp_record.cell car newcdr)) stream text := by
  have raw : lisp_object_get_raw_value cell = cell := raw_value_aligned _ hc
  refine ⟨?_, ?_, r.aligned, heap_keeps_of_but h0 h _ cell r.keeps (heap_keeps_but_write _ _ _) hlo⟩
  · unfold lisp_cell_rplacd lisp_cell_get_value
    rw [raw, hrec]
  · obtain ⟨st, hv, hrd, ha⟩ := r.state
    exact ⟨st, charbuf_view_write_cell h stream st hv cell car cdr car newcdr hrec, hrd, ha⟩

/-- The loop of `lisp_read_list` at an element of the list. -/
theorem reads_chain_cell (g : lisp_globals) (hg : globals_wf g) (h0 : lisp_heap)
    (environment stream : Nat) (frames : List frame_view) (m : Nat) (a d : printed_value)
    (iha : reads_element g environment stream frames h0 m a)
    (ihd : reads_chain g environment stream frames h0 m d) :
    reads_chain g environment stream frames h0 m (.cell a d) := by
  intro fuel h tail src eol list_head list_cur car_cur hf r s heol hraw hc16 hclo hchi hrec
  obtain ⟨x, y, sx, sy⟩ := source_value_cell g h0 m frames src a d true s
  have text := (text_in_cell_cell a d).2
  rw [text] at r hf
  unfold read_fuel at hf
  simp only [List.length_append, List.length_singleton] at hf
  obtain ⟨k, rfl⟩ : ∃ k, fuel = k + 1 := ⟨fuel - 1, by omega⟩
  have r' : read_ready h0 h stream ([char_space] ++ text_in_cell a false
      ++ (text_in_cell d true ++ [char_paren_close] ++ tail)) := by
    simpa only [List.append_assoc] using r
  obtain ⟨o, h1, r1, q1, k1, b1⟩ := iha k h [char_space]
    (text_in_cell d true ++ [char_paren_close] ++ tail) x eol
    (by unfold read_fuel readable_text; omega) (Or.inr rfl) r' (Or.inr (chain_delimited d sy.domain tail)) sx
  have ne : o ≠ eol := read_back_ne_eol g h0 h1 m _ _ x o eol a sx.value b1 heol hraw
  obtain ⟨c1, q2, k2, rec2, cur2⟩ := ready_cons h0 h1 stream _ o g.lisp_NIL q1
  have ncur : list_cur ≠ g.lisp_NIL := aligned_ne_NIL g hg list_cur hc16
  have l1 : list_cur < h1.lisp_heap_cur := Nat.lt_of_lt_of_le hchi k1.1
  have rec1 : heap_read h1 list_cur = some (lisp_record.cell car_cur g.lisp_NIL) :=
    k1.2.2 _ _ hchi hrec rfl
  have rec2' : heap_read (cons_heap h1 o g.lisp_NIL) list_cur
      = some (lisp_record.cell car_cur g.lisp_NIL) := k2.2.2 _ _ l1 rec1 rfl
  obtain ⟨e3, q3⟩ := ready_rplacd h0 _ stream _ list_cur car_cur g.lisp_NIL h1.lisp_heap_cur q2
    hc16 hclo rec2'
  have n13 : h1.lisp_heap_cur ≠ list_cur := by omega
  obtain ⟨h', y', rl, q', kb', rec', rb'⟩ := ihd k _ tail y eol list_head h1.lisp_heap_cur o
    (by unfold read_fuel; omega) q3 sy heol hraw q1.aligned q1.keeps.1
    (by show h1.lisp_heap_cur < (cons_heap h1 o g.lisp_NIL).lisp_heap_cur; rw [cur2]; omega)
    (by rw [heap_read_write, if_neg n13, rec2])
  have c3 : (heap_write (cons_heap h1 o g.lisp_NIL) list_cur
      (lisp_record.cell car_cur h1.lisp_heap_cur)).lisp_heap_cur = h1.lisp_heap_cur + 16 := cur2
  have le' : h1.lisp_heap_cur + 16 ≤ h'.lisp_heap_cur := by
    have := kb'.1
    rw [c3] at this
    exact this
  have step : ∀ a r, a < h1.lisp_heap_cur → a ≠ list_cur → heap_read h1 a = some r →
      stable_record r = true → heap_read h' a = some r := by
    intro a r ha hne hr hs
    refine kb'.2.2 a r (by rw [c3]; omega) (by omega) ?_ hs
    rw [heap_read_write, if_neg hne]
    exact k2.2.2 a r ha hr hs
  refine ⟨h', h1.lisp_heap_cur, ?_, q', ?_, ?_, ?_⟩
  · rw [lisp_read_list_loop]
    simp only [bind, Except.bind, r1, ne_eq, ne, not_false_eq_true, if_true, c1, ncur, if_false,
      e3]
    exact rl
  · refine ⟨by have := k1.1; omega, fun e => q'.aligned, ?_⟩
    intro a r ha hne hr hs
    exact step a r (Nat.lt_of_lt_of_le ha k1.1) hne (k1.2.2 a r ha hr hs) hs
  · refine kb'.2.2 list_cur _ (by rw [c3]; omega) (by omega) ?_ rfl
    rw [heap_read_write, if_pos rfl]
  · refine read_back_cell g h' _ _ _ h1.lisp_heap_cur o y' a d true q1.aligned k1.1 (by omega)
      rec' ?_ ?_
    · refine read_back_mono g h' _ h.lisp_heap_cur h1.lisp_heap_cur _ _ (Nat.le_refl _)
        (by omega) a o false ?_
      refine read_back_keeps g h1 h' _ _ _ ?_ a o false b1
      intro z rz hz hr hs
      have hb := r.keeps.1
      refine step z rz ?_ ?_ hr hs
      · rcases hz with hz | hz
        · have := k1.1; omega
        · exact hz.2
      · rcases hz with hz | hz
        · omega
        · omega
    · exact read_back_mono g h' _ _ _ _ _ (by rw [c3]; have := k1.1; omega) (Nat.le_refl _)
        d y' true rb'

/-- Reading a list as an element. -/
theorem reads_element_cell (g : lisp_globals) (hg : globals_wf g) (h0 : lisp_heap)
    (environment stream : Nat) (frames : List frame_view) (m : Nat) (a d : printed_value)
    (iha : reads_element g environment stream frames h0 m a)
    (ihd : reads_chain g environment stream frames h0 m d) :
    reads_element g environment stream frames h0 m (.cell a d) := by
  intro fuel h ws tail src recursivep hf hws r _ s
  obtain ⟨x, y, sx, sy⟩ := source_value_cell g h0 m frames src a d false s
  have text := (text_in_cell_cell a d).1
  unfold readable_text at r hf
  rw [text] at r hf
  unfold read_fuel at hf
  simp only [List.length_append, List.length_singleton] at hf
  obtain ⟨k, rfl⟩ : ∃ k, fuel = k + 3 := ⟨fuel - 3, by omega⟩
  have r' : read_ready h0 h stream (ws ++ char_paren_open :: (text_in_cell a false
      ++ (text_in_cell d true ++ [char_paren_close] ++ tail))) := by
    simpa only [List.append_assoc, List.singleton_append, List.cons_append] using r
  have m1 : char_paren_open < 128 := by decide
  obtain ⟨a1, a2, a3, a4⟩ := ascii_char g hg char_paren_open m1
  obtain ⟨h1, s1, q1, k1⟩ := ready_skip g hg h0 h stream k ws char_paren_open _ hws r' m1
    (by decide) (by decide) (by decide) (by decide)
  obtain ⟨h2, h3, r2, r3, _, q3, _, _, k3⟩ := ready_peek g h0 h1 stream char_paren_open _ q1
  obtain ⟨h4, r4, q4, k4⟩ := ready_read_char g h0 h3 stream char_paren_open _ q3
  obtain ⟨t1, t2, t3, _, t5⟩ := atom_create_c_spec h4 q4.aligned text_SI_END_OF_LIST
  have k5 := heap_keeps_of_extends _ _ t5
  generalize hq : lisp_atom_create_c h4 text_SI_END_OF_LIST = q at t1 t2 t3 t5 k5
  have q5 : read_ready h0 q.2 stream (text_in_cell a false
      ++ (text_in_cell d true ++ [char_paren_close] ++ tail)) :=
    read_ready_keep h0 h4 _ stream _ q4 k5
      (fun st hv => charbuf_view_keep h4 _ stream st hv t5.cur t5.same)
  have hraw : h0.lisp_heap_cur ≤ lisp_object_get_raw_value q.1 := by
    rw [t2]; exact q4.keeps.1
  have q5' : read_ready h0 q.2 stream ([] ++ text_in_cell a false
      ++ (text_in_cell d true ++ [char_paren_close] ++ tail)) := by
    simpa only [List.nil_append] using q5
  obtain ⟨o, h6, r6, q6, k6, b6⟩ := iha k q.2 []
    (text_in_cell d true ++ [char_paren_close] ++ tail) x q.1
    (by unfold read_fuel readable_text; omega) (Or.inl rfl) q5'
    (Or.inr (chain_delimited d sy.domain tail)) sx
  have ne : o ≠ q.1 := read_back_ne_eol g h0 h6 m _ _ x o q.1 a sx.value b6 t1 hraw
  obtain ⟨c7, q7, k7, rec7, cur7⟩ := ready_cons h0 h6 stream _ o g.lisp_NIL q6
  obtain ⟨h', y', rl, q', kb', rec', rb'⟩ := ihd k _ tail y q.1 h6.lisp_heap_cur
    h6.lisp_heap_cur o (by unfold read_fuel; omega) q7 sy t1 hraw q6.aligned q6.keeps.1
    (by rw [cur7]; omega) rec7
  have k16 : heap_keeps h h6 :=
    heap_keeps_trans _ _ _ k1 (heap_keeps_trans _ _ _ k3 (heap_keeps_trans _ _ _ k4
      (heap_keeps_trans _ _ _ k5 k6)))
  have le' : h6.lisp_heap_cur + 16 ≤ h'.lisp_heap_cur := by
    have := kb'.1
    rw [cur7] at this
    exact this
  have l46 : q.2.lisp_heap_cur ≤ h6.lisp_heap_cur := k6.1
  have lq : h.lisp_heap_cur ≤ q.2.lisp_heap_cur :=
    (heap_keeps_trans _ _ _ k1 (heap_keeps_trans _ _ _ k3 (heap_keeps_trans _ _ _ k4 k5))).1
  have step : ∀ z r, z < h6.lisp_heap_cur → heap_read h6 z = some r →
      stable_record r = true → heap_read h' z = some r := by
    intro z r hz hr hs
    exact kb'.2.2 z r (by rw [cur7]; omega) (by omega) (k7.2.2 z r hz hr hs) hs
  refine ⟨h6.lisp_heap_cur, h', ?_, q', ?_, ?_⟩
  · have n1 : ¬ (char_0 ≤ char_paren_open ∧ char_paren_open ≤ char_9) := by decide
    have n2 : ¬ (char_paren_open = char_plus ∨ char_paren_open = char_minus) := by decide
    have n3 : ¬ char_paren_open = char_single_quote := by decide
    have n6 : ¬ (lisp_char_create char_paren_open = g.lisp_NIL
        ∨ lisp_char_create char_paren_open ≠ lisp_char_create char_paren_open) := by
      rw [a4] at a3
      intro z
      rcases z with z | z
      · exact a3 z
      · exact z rfl
    rw [a4] at r4
    have e6 : lisp_read_list_loop g (k + 1) q.2 environment stream q.1 g.lisp_NIL g.lisp_NIL
        = .ok (h6.lisp_heap_cur, h') := by
      rw [lisp_read_list_loop]
      simp only [bind, Except.bind, r6, ne_eq, ne, not_false_eq_true, if_true, c7]
      exact rl
    rw [lisp_read_object]
    simp only [bind, Except.bind, s1, r2, if_neg a3, a1, if_neg n1, if_neg n2, if_neg n3,
      if_true, r3]
    rw [lisp_read_list]
    simp only [bind, Except.bind, r4, if_neg n6, hq]
    exact e6
  · refine ⟨by have := k16.1; omega, fun e => q'.aligned, ?_⟩
    intro z r hz hr hs
    exact step z r (Nat.lt_of_lt_of_le hz k16.1) (k16.2.2 z r hz hr hs) hs
  · refine read_back_cell g h' _ _ _ h6.lisp_heap_cur o y' a d false q6.aligned k16.1
      (by omega) rec' ?_ ?_
    · refine read_back_mono g h' _ q.2.lisp_heap_cur h6.lisp_heap_cur _ _ lq (by omega)
        a o false ?_
      refine read_back_keeps g h6 h' _ _ _ ?_ a o false b6
      intro z rz hz hr hs
      refine step z rz ?_ hr hs
      rcases hz with hz | hz
      · have := q6.keeps.1; omega
      · exact hz.2
    · exact read_back_mono g h' _ _ _ _ _ (by rw [cur7]; have := k16.1; omega) (Nat.le_refl _)
        d y' true rb'

/-- Every value is read back, as an element and as the rest of a list. -/
theorem reads_value (g : lisp_globals) (hg : globals_wf g) (h0 : lisp_heap)
    (environment stream : Nat) (frames : List frame_view) (m : Nat)
    (b : read_base g h0 environment frames) :
    ∀ (v : printed_value), reads_element g environment stream frames h0 m v
      ∧ reads_chain g environment stream frames h0 m v := by
  have leaf : ∀ v, round_trip_value v true = false →
      reads_chain g environment stream frames h0 m v := by
    intro v hv fuel h tail src eol list_head list_cur car_cur _ _ s
    have := s.domain
    rw [hv] at this
    cases this
  intro v
  induction v with
  | nil =>
    exact ⟨reads_element_nil g hg h0 environment stream frames m b,
      reads_chain_nil g hg h0 environment stream frames m⟩
  | atom name =>
    exact ⟨reads_element_atom g hg h0 environment stream frames m b name, leaf _ rfl⟩
  | fixnum f =>
    exact ⟨reads_element_fixnum g hg h0 environment stream frames m f, leaf _ rfl⟩
  | char c =>
    exact ⟨reads_element_char g hg h0 environment stream frames m c, leaf _ rfl⟩
  | string chars =>
    refine ⟨?_, leaf _ rfl⟩
    intro fuel h ws tail src recursivep _ _ _ _ s
    have := s.domain
    simp [round_trip_value] at this
  | cell a d iha ihd =>
    exact ⟨reads_element_cell g hg h0 environment stream frames m a d iha.1 ihd.2,
      reads_chain_cell g hg h0 environment stream frames m a d iha.1 ihd.2⟩


/-! ## Reading back the text of a list: the value read is equal to the source -/

theorem atom_read_back_name (h : lisp_heap) (base b : Nat) (name : List Nat)
    (e : atom_read_back h base b name = true) :
    lisp_object_get_tag b = lisp_tag_atom ∧ c_string (lisp_atom_get_value h b) = name := by
  unfold atom_read_back at e
  simp only [Bool.and_eq_true, decide_eq_true_eq] at e
  obtain ⟨⟨e1, _⟩, e3⟩ := e
  refine ⟨e1, ?_⟩
  split at e3
  · rename_i n hrec
    have e4 : lisp_atom_get_value h b = n := by
      unfold lisp_atom_get_value
      rw [hrec]
    rw [e4]
    simpa using e3
  · cases e3

/-- Two atoms with the same name are `lisp_equal`. -/
theorem equal_atoms (g : lisp_globals) (hg : globals_wf g) (k : Nat) (h : lisp_heap)
    (a b : Nat) (ha : lisp_object_get_tag a = lisp_tag_atom)
    (hb : lisp_object_get_tag b = lisp_tag_atom)
    (hn : c_string (lisp_atom_get_value h a) = c_string (lisp_atom_get_value h b)) :
    lisp_equal g (k + 1) h a b = .ok g.lisp_T := by
  rw [lisp_equal_atom g hg k h a b ha]
  have : atom_key_equal h a b = true := by
    unfold atom_key_equal
    simp only [Bool.or_eq_true, Bool.and_eq_true, decide_eq_true_eq]
    exact Or.inr ⟨hb, hn⟩
  rw [this]
  rfl

theorem equal_same (g : lisp_globals) (hg : globals_wf g) (k : Nat) (h : lisp_heap) (a : Nat) :
    lisp_equal g (k + 1) h a a = .ok g.lisp_T := by
  unfold lisp_equal lisp_eq
  simp only [if_true, ne_eq, hg.T_ne_NIL, not_false_eq_true]

/-- The value the reader gave back is `lisp_equal` to the source. -/
theorem equal_read_back (g : lisp_globals) (hg : globals_wf g) (h0 h : lisp_heap)
    (m base lo hi : Nat) (k : heap_keeps h0 h) :
    ∀ (v : printed_value) (a b : Nat) (c : Bool) (fuel : Nat),
      represents g h0 m a v = true → read_back g h base lo hi b v c = true →
      value_size v ≤ fuel → lisp_equal g fuel h a b = .ok g.lisp_T := by
  intro v
  induction v with
  | nil =>
    intro a b c fuel ha hb hf
    obtain ⟨n, rfl⟩ : ∃ n, fuel = n + 1 := ⟨fuel - 1, by simp [value_size] at hf; omega⟩
    have ha' := ha
    unfold represents at ha'
    simp only [Bool.and_eq_true, decide_eq_true_eq, allocated_apart_iff] at ha'
    obtain ⟨⟨e1, e2, _⟩, e3⟩ := ha'
    unfold read_back at hb
    cases c
    · simp only [Bool.false_eq_true, if_false] at hb
      obtain ⟨b1, b2⟩ := atom_read_back_name h base b _ hb
      have ta : lisp_object_get_tag a = lisp_tag_atom := by rw [e1]; exact hg.NIL_atom
      refine equal_atoms g hg n h a b ta b1 ?_
      rw [b2]
      unfold lisp_atom_get_value
      rw [k.2.2 _ _ e2 e3 rfl]
      decide
    · simp only [if_true, decide_eq_true_eq] at hb
      rw [hb, e1]
      exact equal_same g hg n h _
  | atom name =>
    intro a b c fuel ha hb hf
    obtain ⟨n, rfl⟩ : ∃ n, fuel = n + 1 := ⟨fuel - 1, by simp [value_size] at hf; omega⟩
    obtain ⟨_, ta, _, hascii⟩ := represents_atom g h0 m a name ha
    have ha' := ha
    unfold represents at ha'
    simp only [Bool.and_eq_true, decide_eq_true_eq, allocated_apart_iff] at ha'
    obtain ⟨⟨⟨_, e2, _⟩, e3⟩, _⟩ := ha'
    unfold read_back at hb
    simp only [Bool.and_eq_true] at hb
    obtain ⟨b1, b2⟩ := atom_read_back_name h base b _ hb.2
    refine equal_atoms g hg n h a b ta b1 ?_
    rw [b2]
    unfold lisp_atom_get_value
    rw [k.2.2 _ _ e2 e3 rfl]
    exact c_string_of_no_NUL _ (fun x hx => (hascii x hx).1)
  | fixnum f =>
    intro a b c fuel ha hb hf
    obtain ⟨n, rfl⟩ : ∃ n, fuel = n + 1 := ⟨fuel - 1, by simp [value_size] at hf; omega⟩
    unfold represents at ha
    unfold read_back at hb
    simp only [Bool.and_eq_true, decide_eq_true_eq] at ha hb
    rw [ha.1, hb.2]
    exact equal_same g hg n h _
  | char x =>
    intro a b c fuel ha hb hf
    obtain ⟨n, rfl⟩ : ∃ n, fuel = n + 1 := ⟨fuel - 1, by simp [value_size] at hf; omega⟩
    unfold represents at ha
    unfold read_back at hb
    simp only [Bool.and_eq_true, decide_eq_true_eq] at ha hb
    rw [ha.1, hb.2]
    exact equal_same g hg n h _
  | string chars =>
    intro a b c fuel ha hb hf
    unfold read_back at hb
    cases hb
  | cell va vd iha ihd =>
    intro a b c fuel ha hb hf
    simp only [value_size] at hf
    obtain ⟨n, rfl⟩ : ∃ n, fuel = n + 1 := ⟨fuel - 1, by omega⟩
    obtain ⟨a16, alt, _, x, y, arec, rx, ry⟩ := represents_cell g h0 m a va vd ha
    have arec' : heap_read h a = some (lisp_record.cell x y) := k.2.2 _ _ alt arec rfl
    unfold read_back at hb
    simp only [Bool.and_eq_true, decide_eq_true_eq] at hb
    obtain ⟨⟨⟨b1, _⟩, _⟩, b4⟩ := hb
    have b16 : b % 16 = 0 := by
      rw [lisp_object_get_tag_eq] at b1
      exact b1
    have rawb : lisp_object_get_raw_value b = b := raw_value_aligned b b16
    rw [rawb] at b4
    split at b4
    · rename_i x' y' brec
      simp only [Bool.and_eq_true] at b4
      obtain ⟨ca, cd⟩ := lisp_cell_car_cell g hg h a x y a16 arec'
      obtain ⟨cb, cdb⟩ := lisp_cell_car_cell g hg h b x' y' b16 brec
      have e1 := iha x x' false n rx b4.1 (by omega)
      have e2 := ihd y y' true n ry b4.2 (by omega)
      have ta : lisp_object_get_tag a = lisp_tag_cell := by
        rw [lisp_object_get_tag_eq]; exact a16
      by_cases hab : a = b
      · rw [hab]
        exact equal_same g hg n h _
      · unfold lisp_equal lisp_eq
        simp only [if_neg hab, ne_eq, not_true_eq_false, if_false, ta, b1, if_true, bind,
          Except.bind, ca, cb, e1, hg.T_ne_NIL, not_false_eq_true, cd, cdb, e2, pure,
          Except.pure]
    · cases b4


/-! ## Printing a list and reading it back -/

/-- The text of a value of the round trip has no `NUL`. -/
theorem text_no_NUL (g : lisp_globals) (h : lisp_heap) (m : Nat) :
    ∀ (v : printed_value) (o : Nat) (c : Bool), represents g h m o v = true →
      round_trip_value v c = true → ∀ x ∈ text_in_cell v c, x ≠ 0 := by
  intro v
  induction v with
  | nil =>
    intro o c _ _ x hx
    cases c
    · have e : text_in_cell .nil false = [78, 73, 76] := by decide
      rw [e] at hx
      simp only [List.mem_cons, List.mem_singleton, List.not_mem_nil, or_false] at hx
      omega
    · cases hx
  | atom name =>
    intro o c ho hv x hx
    unfold round_trip_value at hv
    simp only [Bool.and_eq_true, Bool.not_eq_true'] at hv
    rw [hv.1] at hx
    have e : text_in_cell (.atom name) false = name := by simp [text_in_cell, leaf_text]
    rw [e] at hx
    exact ((represents_atom g h m o name ho).2.2.2 x hx).1
  | fixnum f =>
    intro o c ho hv x hx
    unfold round_trip_value at hv
    simp only [Bool.not_eq_true'] at hv
    rw [hv] at hx
    have e : text_in_cell (.fixnum f) false = fixnum_text f := by simp [text_in_cell, leaf_text]
    unfold represents at ho
    simp only [Bool.and_eq_true, decide_eq_true_eq] at ho
    have hb := fixnum_natAbs_bound f ho.2.1 ho.2.2
    have hf : f.natAbs < 10 ^ 20 := Nat.lt_of_lt_of_le hb (by norm_num)
    rw [e, (fixnum_text_eq f ho.2.1 ho.2.2).1] at hx
    exact (snprintf_lld_chars f hf x hx).2.1
  | char y =>
    intro o c _ hv x hx
    unfold round_trip_value at hv
    simp only [Bool.and_eq_true, Bool.not_eq_true', decide_eq_true_eq] at hv
    rw [hv.1] at hx
    have e : text_in_cell (.char y) false = [char_octothorpe, char_backslash, y] := by
      simp [text_in_cell, leaf_text]
    rw [e] at hx
    simp only [List.mem_cons, List.mem_singleton, List.not_mem_nil, or_false] at hx
    rcases hx with rfl | rfl | rfl
    · decide
    · decide
    · exact hv.2
  | string chars =>
    intro o c _ hv
    simp [round_trip_value] at hv
  | cell a d iha ihd =>
    intro o c ho hv x hx
    obtain ⟨_, _, _, p, q, _, rp, rq⟩ := represents_cell g h m o a d ho
    unfold round_trip_value at hv
    simp only [Bool.and_eq_true] at hv
    unfold text_in_cell at hx
    simp only [List.mem_append] at hx
    rcases hx with ((hx | hx) | hx) | hx
    · cases c
      · simp only [Bool.false_eq_true, if_false, List.mem_singleton] at hx
        rw [hx]; decide
      · simp only [if_true, List.mem_singleton] at hx
        rw [hx]; decide
    · exact iha p false rp hv.1 x hx
    · exact ihd q true rq hv.2 x hx
    · cases c
      · simp only [Bool.false_eq_true, if_false, List.mem_singleton] at hx
        rw [hx]; decide
      · simp only [if_true, List.not_mem_nil] at hx

/-- Printing `NIL` as a standalone value: its name. -/
theorem print_NIL (g : lisp_globals) (hg : globals_wf g) (hT0 : g.lisp_T ≠ 0)
    (environment stream : Nat) (hsT : stream ≠ g.lisp_T) (hsN : stream ≠ g.lisp_NIL)
    (fuel : Nat) (hf : 1 ≤ fuel) (h : lisp_heap) (st : charbuf_state) (o : Nat)
    (rd : print_ready h stream st) (hrep : represents g h st.metadata o .nil = true)
    (hroom : st.w_pos + (readable_text .nil).length ≤ st.max) :
    ∃ h', lisp_print g fuel h environment stream o = .ok (g.lisp_T, h')
      ∧ print_ready h' stream (charbuf_appended st (readable_text .nil)) := by
  obtain ⟨k, rfl⟩ : ∃ k, fuel = k + 1 := ⟨fuel - 1, by omega⟩
  obtain ⟨e1, e2⟩ := represents_nil g h st.metadata o hrep
  have hb := (best_stream_other g hT0 (NIL_not_NULL g hg) k h environment stream hsT hsN).2
  have text : readable_text .nil = c_str "NIL" := rfl
  rw [text] at hroom ⊢
  obtain ⟨h', r1, rd1, _⟩ := print_c_string_kept g hg h stream st (c_str "NIL")
    (by decide) rd hroom
  refine ⟨h', ?_, rd1⟩
  have htag : lisp_object_get_tag o = lisp_tag_atom := by rw [e1]; exact hg.NIL_atom
  have n4 : lisp_tag_atom ≠ lisp_tag_fixnum := by decide
  rw [lisp_print]
  simp only [bind, Except.bind, hb, htag, if_neg n4, if_true]
  unfold lisp_atom_print
  rw [e2]
  exact r1

/-- Printing a list of the round trip leaves its text in the buffer. -/
theorem print_list_text (g : lisp_globals) (hg : globals_wf g) (hT0 : g.lisp_T ≠ 0)
    (v : printed_value) (hlist : v = .nil ∨ ∃ a d, v = .cell a d)
    (hv : round_trip_value v false = true)
    (h : lisp_heap) (environment out L : Nat) (st : charbuf_state) (fuel : Nat)
    (hsT : out ≠ g.lisp_T) (hsN : out ≠ g.lisp_NIL) (hfuel : print_fuel v ≤ fuel)
    (rd : print_ready h out st) (hrep : represents g h st.metadata L v = true)
    (hbuf : ∀ b ∈ st.buf, b ≠ 0)
    (hroom : st.w_pos + (readable_text v).length ≤ st.max) :
    ∃ h', lisp_print g fuel h environment out L = .ok (g.lisp_T, h')
      ∧ tests_buffer h' out = st.buf ++ readable_text v := by
  have key : ∃ h', lisp_print g fuel h environment out L = .ok (g.lisp_T, h')
      ∧ print_ready h' out (charbuf_appended st (readable_text v)) := by
    rcases hlist with rfl | ⟨a, d, rfl⟩
    · exact print_NIL g hg hT0 environment out hsT hsN fuel (by unfold print_fuel at hfuel; omega)
        h st L rd hrep hroom
    · obtain ⟨h', r1, rd1, _⟩ := print_cell_readably g hg hT0 environment out hsT hsN fuel h st
        L a d hfuel rd hrep hroom
      exact ⟨h', r1, rd1⟩
  obtain ⟨h', r1, rd1⟩ := key
  refine ⟨h', r1, ?_⟩
  rw [tests_buffer_view h' out _ rd1.view]
  apply c_string_of_no_NUL
  intro x hx
  rcases List.mem_append.1 hx with y | y
  · exact hbuf x y
  · exact text_no_NUL g h st.metadata v L false hrep hv x y

/-- Reading the text of a list of the round trip: `lisp_read_object` returns
what the reader gives back for the list and keeps the cells and atom names of
the heap. -/
theorem read_list_object (g : lisp_globals) (hg : globals_wf g)
    (v : printed_value) (hlist : v = .nil ∨ ∃ a d, v = .cell a d)
    (hv : round_trip_value v false = true)
    (h : lisp_heap) (environment inp L : Nat) (frames : List frame_view)
    (st : charbuf_state) (m k : Nat)
    (hview : charbuf_view h inp = some st) (hrd : st.is_readable = true)
    (ha : charbuf_ahead st = readable_text v) (hal : h.lisp_heap_cur % 16 = 0)
    (b : read_base g h environment frames)
    (hrep : represents g h m L v = true)
    (hint : leaves_interned g h frames L v false = true)
    (hfuel : read_fuel frames (readable_text v).length ≤ k) :
    ∃ o h', lisp_read_object g k h environment inp g.lisp_NIL = .ok (o, h')
      ∧ heap_keeps h h'
      ∧ read_back g h' h.lisp_heap_cur h.lisp_heap_cur h'.lisp_heap_cur o v false = true := by
  have s : source_value g h m frames L v false := ⟨hrep, hint, hv⟩
  rcases hlist with rfl | ⟨a, d, rfl⟩
  · obtain ⟨e1, e2⟩ := represents_nil g h m L hrep
    unfold leaves_interned at hint
    simp only [Bool.false_or] at hint
    have text : readable_text .nil = 78 :: [73, 76] := by decide
    rw [text] at ha hfuel
    have hn0 : c_string (lisp_atom_get_value h g.lisp_NIL) = 78 :: [73, 76] := by
      rw [← e1, e2]; decide
    have r : read_ready h h inp ([] ++ (78 :: [73, 76]) ++ []) :=
      ⟨⟨st, hview, hrd, by rw [ha]; rfl⟩, hal, heap_keeps_refl h⟩
    obtain ⟨o, h', r1, _, k1, a1⟩ := read_object_atom g hg h environment inp g.lisp_NIL
      frames b 78 [73, 76] [] [] (Or.inl rfl) (by decide) (Or.inl rfl)
      (fun x => by rcases x with x | x <;> revert x <;> decide) g.lisp_NIL hg.NIL_atom hn0
      hint k h r (by omega)
    refine ⟨o, h', r1, k1, ?_⟩
    unfold read_back
    simp only [Bool.false_eq_true, if_false]
    exact a1
  · have r : read_ready h h inp ([] ++ readable_text (.cell a d) ++ []) :=
      ⟨⟨st, hview, hrd, by rw [ha]; simp⟩, hal, heap_keeps_refl h⟩
    obtain ⟨o, h', r1, _, k1, b1⟩ :=
      (reads_value g hg h environment inp frames m b (.cell a d)).1 k h [] [] L g.lisp_NIL
        (by omega) (Or.inl rfl) r (Or.inl ⟨a, d, rfl⟩) s
    exact ⟨o, h', r1, k1, b1⟩


/-- Claim C7, amended: a list of the round trip that is printed and read back
is `lisp_equal` to itself.  Let `L` be `NIL` or a proper, possibly nested
list whose leaves are atoms with a name the reader makes (`reader_name`),
fixnums in range, characters with a code from 1 to 127, and `NIL`
(`round_trip_value`).  Printed with `lisp_print` to an empty character-buffer
stream with room for the text, `L` leaves its readable text in the buffer.
When that text is ahead in a readable character-buffer stream, in a heap in
which `L` is still that list and in which the chain of frames of the same
environment is well formed and has an entry for every atom of `L`,
`lisp_read` with enough fuel returns a value, and `lisp_equal` finds `L` and
that value equal. -/
theorem C7_list_print_then_read (g : lisp_globals) (hg : globals_wf g) (hT0 : g.lisp_T ≠ 0)
    (v : printed_value) (hlist : v = .nil ∨ ∃ a d, v = .cell a d)
    (hv : round_trip_value v false = true)
    (environment out L : lisp_object_t) (h : lisp_heap) (st : charbuf_state) (fuel : Nat)
    (hsT : out ≠ g.lisp_T) (hsN : out ≠ g.lisp_NIL) (hfuel : print_fuel v ≤ fuel)
    (rd : print_ready h out st) (hempty : st.buf = [])
    (hrep : represents g h st.metadata L v = true)
    (hroom : st.w_pos + (readable_text v).length ≤ st.max) :
    ∃ h1, lisp_print g fuel h environment out L = .ok (g.lisp_T, h1)
      ∧ tests_buffer h1 out = readable_text v
      ∧ ∀ (h2 : lisp_heap) (inp : lisp_object_t) (frames : List frame_view)
          (st2 : charbuf_state) (m fuel2 fuel3 : Nat),
          inp ≠ g.lisp_T → inp ≠ g.lisp_NIL → lisp_streamp g inp ≠ 0 →
          charbuf_view h2 inp = some st2 → st2.is_readable = true →
          charbuf_ahead st2 = tests_buffer h1 out →
          h2.lisp_heap_cur % 16 = 0 →
          env_chain g h2 environment frames = true → chain_wf g h2 frames = true →
          records_stable h2 (chain_objects g h2 frames) = true →
          represents g h2 m L v = true → leaves_interned g h2 frames L v false = true →
          read_fuel frames (tests_buffer h1 out).length < fuel2 → value_size v ≤ fuel3 →
          ∃ L' h3, lisp_read g fuel2 h2 environment inp g.lisp_NIL = .ok (L', h3)
            ∧ lisp_equal g fuel3 h3 L L' = .ok g.lisp_T := by
  obtain ⟨h1, p1, p2⟩ := print_list_text g hg hT0 v hlist hv h environment out L st fuel hsT hsN
    hfuel rd hrep (by rw [hempty]; intro b hb; cases hb) hroom
  rw [hempty, List.nil_append] at p2
  refine ⟨h1, p1, p2, ?_⟩
  intro h2 inp frames st2 m fuel2 fuel3 hs1 hs2 hs3 hview hrd ha hal c1 c2 c3 hrep2 hint hf2 hf3
  rw [p2] at ha hf2
  have s : source_value g h2 m frames L v false := ⟨hrep2, hint, hv⟩
  obtain ⟨k, rfl⟩ : ∃ k, fuel2 = k + 1 := ⟨fuel2 - 1, by omega⟩
  have best : lisp_stream_best_input_stream g k h2 environment inp = .ok inp := by
    unfold lisp_stream_best_input_stream
    simp only [if_neg hs1, if_neg hs2, ne_eq, hs3, not_false_eq_true, ↓reduceIte, pure,
      Except.pure]
  have start : lisp_read g (k + 1) h2 environment inp g.lisp_NIL
      = lisp_read_object g k h2 environment inp g.lisp_NIL := by
    rw [lisp_read]
    simp only [bind, Except.bind, best]
  rw [start]
  obtain ⟨o, h3, r1, k1, b1⟩ := read_list_object g hg v hlist hv h2 environment inp L frames st2 m
    k hview hrd ha hal ⟨c1, c2, c3⟩ hrep2 hint (by omega)
  exact ⟨o, h3, r1, equal_read_back g hg h2 h3 m _ _ _ k1 v L o false fuel3 hrep2 b1 hf3⟩


set_option maxRecDepth 100000 in
/-- C7 at the list of `example_list_of`: the list `(A (B -7) #\c NIL)`, read
by `lisp_read`, is printed as that text; and when the text is given to the
read stream, `lisp_read` returns a list that is `lisp_equal` to it. -/
theorem C7_list_print_then_read_witness :
    ∃ h1, lisp_print example_root.g 16 example_list_of.h_print example_root.environment
          (example_streams_of "").tests_write_stream example_list_of.L
          = .ok (example_root.g.lisp_T, h1)
      ∧ tests_buffer h1 (example_streams_of "").tests_write_stream
          = c_str "(A (B -7) #\\c NIL)"
      ∧ ∃ L' h3, lisp_read example_root.g 128 example_list_of.h_read
            example_root.environment (example_streams_of "").tests_read_stream
            example_root.g.lisp_NIL = .ok (L', h3)
        ∧ lisp_equal example_root.g 16 h3 example_list_of.L L'
            = .ok example_root.g.lisp_T := by
  have H : example_root.g.lisp_T ≠ 0
      ∧ round_trip_value value_example_list false = true
      ∧ (example_streams_of "").tests_write_stream ≠ example_root.g.lisp_T
      ∧ (example_streams_of "").tests_write_stream ≠ example_root.g.lisp_NIL
      ∧ charbuf_view example_list_of.h_print (example_streams_of "").tests_write_stream
          = some ⟨1050944, [], 0, 0, 0, 4095, false, true⟩
      ∧ example_list_of.h_print.lisp_heap_cur % 16 = 0
      ∧ represents example_root.g example_list_of.h_print 1050944 example_list_of.L
          value_example_list = true
      ∧ readable_text value_example_list = c_str "(A (B -7) #\\c NIL)"
      ∧ (example_streams_of "").tests_read_stream ≠ example_root.g.lisp_T
      ∧ (example_streams_of "").tests_read_stream ≠ example_root.g.lisp_NIL
      ∧ lisp_streamp example_root.g (example_streams_of "").tests_read_stream ≠ 0
      ∧ charbuf_view example_list_of.h_read (example_streams_of "").tests_read_stream
          = some ⟨1050800, c_str "(A (B -7) #\\c NIL)", 0, 0, 18, 4095, true, false⟩
      ∧ example_list_of.h_read.lisp_heap_cur % 16 = 0
      ∧ env_chain example_root.g example_list_of.h_read example_root.environment
          (example_list_frames example_list_of.h_read) = true
      ∧ chain_wf example_root.g example_list_of.h_read
          (example_list_frames example_list_of.h_read) = true
      ∧ records_stable example_list_of.h_read
          (chain_objects example_root.g example_list_of.h_read
            (example_list_frames example_list_of.h_read)) = true
      ∧ represents example_root.g example_list_of.h_read 1050944 example_list_of.L
          value_example_list = true
      ∧ leaves_interned example_root.g example_list_of.h_read
          (example_list_frames example_list_of.h_read) example_list_of.L
          value_example_list false = true
      ∧ read_fuel (example_list_frames example_list_of.h_read)
          (c_str "(A (B -7) #\\c NIL)").length < 128 := by
    decide!
  obtain ⟨H1, H2, H3, H4, H5, H6, H7, H8, H9, H10, H11, H12, H13, H14, H15, H16, H17, H18,
    H19⟩ := H
  obtain ⟨h1, p1, p2, p3⟩ := C7_list_print_then_read example_root.g example_root_globals_wf H1
    value_example_list (Or.inr ⟨_, _, rfl⟩) H2 example_root.environment
    (example_streams_of "").tests_write_stream example_list_of.L example_list_of.h_print
    ⟨1050944, [], 0, 0, 0, 4095, false, true⟩ 16 H3 H4 (by decide) ⟨H5, rfl, rfl, H6⟩ rfl H7
    (by decide!)
  rw [H8] at p2
  refine ⟨h1, p1, p2, ?_⟩
  exact p3 example_list_of.h_read (example_streams_of "").tests_read_stream
    (example_list_frames example_list_of.h_read)
    ⟨1050800, c_str "(A (B -7) #\\c NIL)", 0, 0, 18, 4095, true, false⟩ 1050944 128 16
    H9 H10 H11 H12 rfl (by rw [p2]; rfl) H13 H14 H15 H16 H17 H18 (by rw [p2]; exact H19)
    (by decide)
